import Mathlib

/-!
# Linker: symbol table, link loop, COMDAT collector, layout, patchers and image header

A shallow embedding of `src/linker/lnk_symbol_table.c`, of the parts of `src/linker/lnk.c`
that resolve symbols, run the states of the link loop, look weak symbols and the entry point
up, queue archive members, collect unreferenced COMDAT sections, gather section definitions
and contributions, lay out the common block, patch symbol tables and relocations, build the
base relocation blocks and the image header, serialize the resource tree and search the nearest
section, and of the export directive of `src/linker/lnk_directive.c`.

* Pointers to objects and libraries are indices into the lists of ingested objects and
  libraries held by `LNK_State`.
* Machine integers are natural numbers; the only arithmetic that can wrap in the embedded code
  is written with an explicit modulus.
* The process-wide error table is the list `LNK_State.errors`, in recording order.
* The embedding is of a sequential execution: every atomic compare-and-swap succeeds at its
  first attempt, so the retry paths of the lock-free loops are not taken, and the workers of a
  thread pool run one after the other. Where the result depends on which worker runs which
  task, the assignment of the tasks to the workers is an argument.
* A loop without a bound in the source (the walk of the collector, the lookup of a weak
  symbol, the link loop, the serializer of the resource tree, the binary search) takes the
  number of iterations it may make as an argument; the theorems on the collector, the weak
  lookup and the binary search show that this number is not used up when it is large enough.
-/

set_option autoImplicit false

/-! ## Data model -/

/-- Scope of the symbol table a call addresses (`LNK_SymbolScope`). -/
inductive LNK_SymbolScope
  | Defined
  | Lib
  deriving DecidableEq

/-- Interpretation of a COFF symbol (`COFF_SymbolValueInterpType`). -/
inductive COFF_SymbolValueInterpType
  | Regular
  | Weak
  | Undefined
  | Common
  | Abs
  | Debug
  deriving DecidableEq

/-- COMDAT selection of a section definition (`COFF_ComdatSelectType`); `Unknown` stands for a
raw selection byte that is none of the enumerators. -/
inductive COFF_ComdatSelectType
  | Null
  | NoDuplicates
  | Any
  | SameSize
  | ExactMatch
  | Associative
  | Largest
  | Unknown (raw : Nat)
  deriving DecidableEq

/-- Characteristics of a weak external (`COFF_WeakExtType`); `Unknown` is any value the
switch of `lnk_weak_symbol_finder` has no case for. -/
inductive COFF_WeakExtType
  | NoLibrary
  | SearchLibrary
  | SearchAlias
  | AntiDependency
  | Unknown (raw : Nat)
  deriving DecidableEq

/-- Auxiliary record of a weak external (`COFF_SymbolWeakExt`): the index of the tag symbol in
the same object and the characteristics. -/
structure COFF_SymbolWeakExt where
  tag_index : Nat
  characteristics : COFF_WeakExtType
  deriving DecidableEq

/-- Parsed COFF symbol-table entry (`COFF_ParsedSymbol`), as the COFF parser hands it to the
linker. The field `interp` carries the classification that `coff_interp_from_parsed_symbol`
computes for the entry; the field `weak_ext` is the auxiliary record behind `raw_symbol` that
`coff_parse_weak_tag` reads. -/
structure COFF_ParsedSymbol where
  name : String
  section_number : Nat
  value : Nat
  interp : COFF_SymbolValueInterpType
  storage_class : Nat := 0
  weak_ext : COFF_SymbolWeakExt := { tag_index := 0, characteristics := .Unknown 0 }
  deriving DecidableEq

/-- The fields of a COFF section header (`COFF_SectionHeader`) the linker reads or writes;
`name` is the name `coff_name_from_section_header` reads from the header and the string
table. -/
structure COFF_SectionHeader where
  flags : Nat
  foff : Nat
  fsize : Nat
  voff : Nat := 0
  vsize : Nat := 0
  name : String := ""
  deriving DecidableEq

/-- What `lnk_try_comdat_props_from_section_number` writes through its out-pointers for a
COMDAT section. -/
structure COFF_ComdatProps where
  select : COFF_ComdatSelectType
  section_length : Nat
  check_sum : Nat
  deriving DecidableEq

/-- Machine type of an object header (`COFF_MachineType`); `Other` stands for every machine
that is neither unknown nor x64. -/
inductive COFF_MachineType
  | Unknown
  | X64
  | Other
  deriving DecidableEq

/-- One COFF relocation record (`COFF_Reloc`). -/
structure COFF_Reloc where
  apply_off : Nat
  isymbol : Nat
  type : Nat
  deriving DecidableEq

/-- View `u.defined` of a symbol: object pointer and symbol index. -/
structure LNK_SymbolDefined where
  obj : Nat
  symbol_idx : Nat
  deriving DecidableEq

/-- Parsed object file (`LNK_Obj`): raw bytes, input index, symbol table (by symbol index),
section table (section number `n` is entry `n - 1`), COMDAT properties and associated-section
adjacency lists (both indexed by section number). Further, as the object layer reports them:
the machine of the header, the relocations of every section (by section number), whether a
section is a debug section (by section index, that is section number minus one), the COMDAT
symlink of every section (by section number; the leader in another object, if any), the
section number that marks a symbol of a removed section, and `header.is_big_obj`. -/
structure LNK_Obj where
  data : List Nat
  input_idx : Nat
  symbols : List COFF_ParsedSymbol
  section_table : List COFF_SectionHeader
  comdats : List (Option COFF_ComdatProps)
  associated_sections : List (List Nat)
  machine : COFF_MachineType := .Unknown
  relocs : List (List COFF_Reloc) := []
  debug_sections : List Bool := []
  symlinks : List (Option LNK_SymbolDefined) := []
  removed_section_number : Nat := 0
  is_big_obj : Bool := false
  deriving DecidableEq

/-- Parsed archive (`LNK_Lib`); only the input index matters to the symbol table. -/
structure LNK_Lib where
  input_idx : Nat
  deriving DecidableEq

/-- View `u.lib` of a symbol: library pointer and member offset. -/
structure LNK_SymbolLib where
  lib : Nat
  member_offset : Nat
  deriving DecidableEq

/-- View `u.undef` of a symbol: pointer to the object that referenced it. -/
structure LNK_SymbolUndef where
  obj : Nat
  deriving DecidableEq

/-- The union `u` of `LNK_Symbol`, kept as a record of its three views; each scope reads only
its own view. -/
structure LNK_SymbolU where
  defined : LNK_SymbolDefined
  lib : LNK_SymbolLib
  undef : LNK_SymbolUndef
  deriving DecidableEq

/-- Symbol of the symbol table (`LNK_Symbol`). -/
structure LNK_Symbol where
  name : String
  u : LNK_SymbolU
  deriving DecidableEq

/-- Kinds of diagnostics the embedded code records. `InvalidPath_Assert` stands for reaching
the `InvalidPath` assertion of a `default:` branch, `NotImplemented_Assert` for reaching a
`NotImplemented` assertion. -/
inductive LNK_ErrorCode
  | Error_InvalidPath
  | Error_MultiplyDefinedSymbol
  | Warning_UnresolvedComdat
  | InvalidPath_Assert
  | Error_IllegalRelocation
  | Error_RelocationAgainstRemovedSection
  | Error_LargeAddrAwareRequired
  | NotImplemented_Assert
  | Error_WeakCycle
  | Error_EntryPoint
  | Error_IllData
  deriving DecidableEq

/-- One entry of the error table: the code and, for `lnk_error_obj`, the object it is
reported against. Of the formatted message text only the symbol name it shows, if the
embedding needs it, and the chain of symbols the weak-cycle error lists are modelled. -/
structure LNK_Error where
  code : LNK_ErrorCode
  obj : Option Nat
  symbol : Option String := none
  ref_list : List LNK_SymbolDefined := []
  deriving DecidableEq

/-- Mutable program state the symbol table touches: the ingested objects (whose section header
flags are written), the ingested libraries, the error table, and whether the debug-build
assertion of `lnk_on_symbol_replace` has failed. -/
structure LNK_State where
  objs : List LNK_Obj
  libs : List LNK_Lib
  errors : List LNK_Error
  assert_failed : Bool
  deriving DecidableEq

/-- Node of the symbol hash trie (`LNK_SymbolHashTrie`); `null` is the null pointer. A node
holds a name pointer, a symbol pointer (either may be null) and four children. -/
inductive LNK_SymbolHashTrie
  | null
  | node (name : Option String) (symbol : Option LNK_Symbol)
      (child0 child1 child2 child3 : LNK_SymbolHashTrie)
  deriving DecidableEq

/-! ## Helpers whose source is not available -/

/-- Modelled from the spec: the `LnkRemove` section-header flag bit. Its declaration is not
available; the value is the one of the published PE/COFF format the spec refers
to (`IMAGE_SCN_LNK_REMOVE`). -/
def COFF_SectionFlag_LnkRemove : Nat := 0x800

/-- The all-zero object read through a pointer that designates no ingested object. -/
def LNK_Obj.zero : LNK_Obj :=
  { data := [], input_idx := 0, symbols := [], section_table := [], comdats := [],
    associated_sections := [] }

/-- Dereference of an object pointer. -/
def lnk_obj_from_ptr (objs : List LNK_Obj) (p : Nat) : LNK_Obj :=
  objs.getD p LNK_Obj.zero

/-- Dereference of a library pointer. -/
def lnk_lib_from_ptr (libs : List LNK_Lib) (p : Nat) : LNK_Lib :=
  libs.getD p { input_idx := 0 }

/-- Modelled from the spec: `lnk_parsed_symbol_from_coff_symbol_idx`, whose source is not
available. A defined symbol is "`{obj, symbol_idx}` into an object's symbol table"; the parsed entry
is the one the parser produced at that index. -/
def lnk_parsed_symbol_from_coff_symbol_idx (obj : LNK_Obj) (symbol_idx : Nat) : COFF_ParsedSymbol :=
  obj.symbols.getD symbol_idx { name := "", section_number := 0, value := 0, interp := .Undefined }

/-- Modelled from the spec: `coff_interp_from_parsed_symbol`, whose source is not available.
Symbols are "discriminated by inspecting the referenced COFF symbol's interpretation"; the
interpretation is carried by the parsed entry. -/
def coff_interp_from_parsed_symbol (parsed : COFF_ParsedSymbol) : COFF_SymbolValueInterpType :=
  parsed.interp

/-- Modelled from the spec: `lnk_try_comdat_props_from_section_number`, whose source is
not available. It reports whether the section is a COMDAT section and, if so, its selection, section
length and checksum; `none` is the return value 0. -/
def lnk_try_comdat_props_from_section_number (obj : LNK_Obj) (section_number : Nat) :
    Option COFF_ComdatProps :=
  obj.comdats.getD section_number none

/-- Modelled from the spec: `lnk_coff_section_header_from_section_number`, whose source is not
available. Section numbers are one-based (`lnk.c` passes `sect_idx+1`); a number that
designates no section yields the all-zero header. -/
def lnk_coff_section_header_from_section_number (obj : LNK_Obj) (section_number : Nat) :
    COFF_SectionHeader :=
  if section_number = 0 then { flags := 0, foff := 0, fsize := 0 }
  else obj.section_table.getD (section_number - 1) { flags := 0, foff := 0, fsize := 0 }

/-- Modelled from the spec: `lnk_obj_is_before`, whose source is not available. "`input_idx` ...
defines deterministic ordering for ties": an object is before another when its input index is
smaller. -/
def lnk_obj_is_before (a b : LNK_Obj) : Bool :=
  decide (a.input_idx < b.input_idx)

/-- Modelled from the spec: `str8_substr(data, rng_1u64(min, max))`, whose source is not
available: the bytes of `data` in the range, with the bounds ordered and clamped to the size. -/
def str8_substr (data : List Nat) (lo hi : Nat) : List Nat :=
  (data.take (max lo hi)).drop (min lo hi)

/-- Modelled from the spec: `str8_match` with flags 0, whose source is not available: exact
equality of the two byte strings. -/
def str8_match_bytes (a b : List Nat) : Bool :=
  decide (a = b)

/-- Exact, case-sensitive name comparison (`str8_match(a, b, 0)` on names). -/
def str8_match (a b : String) : Bool :=
  decide (a = b)

/-! ## `lnk_symbol_table.c` -/

/-- Source `lnk_symbol_defined_is_before`. -/
def lnk_symbol_defined_is_before (objs : List LNK_Obj) (a b : LNK_Symbol) : Bool :=
  decide ((lnk_obj_from_ptr objs a.u.defined.obj).input_idx
    < (lnk_obj_from_ptr objs b.u.defined.obj).input_idx)

/-- Source `lnk_symbol_lib_is_before`. -/
def lnk_symbol_lib_is_before (libs : List LNK_Lib) (a b : LNK_Symbol) : Bool :=
  decide ((lnk_lib_from_ptr libs a.u.lib.lib).input_idx
    < (lnk_lib_from_ptr libs b.u.lib.lib).input_idx)

/-- Source `lnk_error_multiply_defined_symbol`: the error is reported against the object of
`dst`. -/
def lnk_error_multiply_defined_symbol (dst _src : LNK_Symbol) : LNK_Error :=
  { code := .Error_MultiplyDefinedSymbol, obj := some dst.u.defined.obj }

/-- The COMDAT properties the replacement policy derives for one side ("parse dst/src symbol
properties"): those of the section for a Regular symbol, a Largest COMDAT of the symbol value
for a Common symbol. `none` is `is_comdat = 0`. -/
def lnk_comdat_props_of_symbol (obj : LNK_Obj) (parsed : COFF_ParsedSymbol)
    (interp : COFF_SymbolValueInterpType) : Option COFF_ComdatProps :=
  if interp = .Regular then
    lnk_try_comdat_props_from_section_number obj parsed.section_number
  else if interp = .Common then
    some { select := .Largest, section_length := parsed.value, check_sum := 0 }
  else
    none

/-- The "handle COMDATs" branch of `lnk_can_replace_symbol`, entered when both sides are
COMDAT. -/
def lnk_can_replace_comdat (dst src : LNK_Symbol) (dst_obj src_obj : LNK_Obj)
    (dst_parsed src_parsed : COFF_ParsedSymbol) (d s : COFF_ComdatProps) :
    Bool × List LNK_Error :=
  let src_select : COFF_ComdatSelectType :=
    if s.select = .Any ∧ d.select = .Largest then .Largest else s.select
  let dst_select : COFF_ComdatSelectType :=
    if src_select = .Largest ∧ d.select = .Any then .Largest else d.select
  if src_select = dst_select then
    match src_select with
    | .Null | .Any =>
      if s.section_length = d.section_length then
        (lnk_obj_is_before src_obj dst_obj, [])
      else
        (decide (s.section_length < d.section_length), [])
    | .NoDuplicates =>
      (false, [lnk_error_multiply_defined_symbol dst src])
    | .SameSize =>
      if d.section_length = s.section_length then
        (lnk_obj_is_before src_obj dst_obj, [])
      else
        (false, [lnk_error_multiply_defined_symbol dst src])
    | .ExactMatch =>
      let dst_sect_header :=
        lnk_coff_section_header_from_section_number dst_obj dst_parsed.section_number
      let src_sect_header :=
        lnk_coff_section_header_from_section_number src_obj src_parsed.section_number
      let dst_data := str8_substr dst_obj.data dst_sect_header.foff
        ((dst_sect_header.foff + dst_sect_header.fsize) % 2 ^ 32)
      let src_data := str8_substr src_obj.data src_sect_header.foff
        ((src_sect_header.foff + src_sect_header.fsize) % 2 ^ 32)
      let is_exact_match : Bool :=
        if d.check_sum ≠ 0 ∧ s.check_sum ≠ 0 then
          decide (d.check_sum = s.check_sum) && str8_match_bytes dst_data src_data
        else
          str8_match_bytes dst_data src_data
      if is_exact_match then
        (lnk_obj_is_before src_obj dst_obj, [])
      else
        (false, [lnk_error_multiply_defined_symbol dst src])
    | .Largest =>
      if d.section_length = s.section_length then
        (lnk_obj_is_before src_obj dst_obj, [])
      else
        (decide (d.section_length < s.section_length), [])
    | .Associative => (false, [])
    | .Unknown _ => (false, [{ code := .InvalidPath_Assert, obj := none }])
  else
    (false, [{ code := .Warning_UnresolvedComdat, obj := some src.u.defined.obj }])

/-- Source `lnk_can_replace_symbol`: the value of `can_replace` together with the diagnostics
the call records, in order. -/
def lnk_can_replace_symbol (objs : List LNK_Obj) (libs : List LNK_Lib) (scope : LNK_SymbolScope)
    (dst src : LNK_Symbol) : Bool × List LNK_Error :=
  match scope with
  | .Defined =>
    let dst_obj := lnk_obj_from_ptr objs dst.u.defined.obj
    let src_obj := lnk_obj_from_ptr objs src.u.defined.obj
    let dst_parsed := lnk_parsed_symbol_from_coff_symbol_idx dst_obj dst.u.defined.symbol_idx
    let src_parsed := lnk_parsed_symbol_from_coff_symbol_idx src_obj src.u.defined.symbol_idx
    let dst_interp := coff_interp_from_parsed_symbol dst_parsed
    let src_interp := coff_interp_from_parsed_symbol src_parsed
    -- regular vs abs
    if dst_interp = .Regular ∧ src_interp = .Abs then
      (false, [lnk_error_multiply_defined_symbol dst src])
    -- abs vs regular
    else if dst_interp = .Abs ∧ src_interp = .Regular then
      (false, [lnk_error_multiply_defined_symbol dst src])
    -- abs vs common
    else if dst_interp = .Abs ∧ src_interp = .Common then
      if lnk_symbol_defined_is_before objs dst src then
        (true, [])
      else
        (false, [lnk_error_multiply_defined_symbol dst src])
    -- common vs abs
    else if dst_interp = .Common ∧ src_interp = .Abs then
      if lnk_symbol_defined_is_before objs dst src then
        (false, [lnk_error_multiply_defined_symbol dst src])
      else
        (false, [])
    -- abs vs abs
    else if dst_interp = .Abs ∧ src_interp = .Abs then
      (false, [lnk_error_multiply_defined_symbol dst src])
    -- weak vs weak
    else if dst_interp = .Weak ∧ src_interp = .Weak then
      (lnk_symbol_defined_is_before objs src dst, [])
    -- weak vs regular/abs/common
    else if dst_interp = .Weak
        ∧ (src_interp = .Regular ∨ src_interp = .Abs ∨ src_interp = .Common) then
      (true, [])
    -- regular/abs/common vs weak
    else if (dst_interp = .Regular ∨ dst_interp = .Abs ∨ dst_interp = .Common)
        ∧ src_interp = .Weak then
      (false, [])
    -- regular/common vs regular/common
    else if (dst_interp = .Regular ∨ dst_interp = .Common)
        ∧ (src_interp = .Regular ∨ src_interp = .Common) then
      let dst_props := lnk_comdat_props_of_symbol dst_obj dst_parsed dst_interp
      let src_props := lnk_comdat_props_of_symbol src_obj src_parsed src_interp
      -- regular non-comdat vs communal
      if dst_interp = .Regular ∧ dst_props = none ∧ src_interp = .Common then
        (false, [])
      -- communal vs regular non-comdat
      else if dst_interp = .Common ∧ src_interp = .Regular ∧ src_props = none then
        (true, [])
      else
        match dst_props, src_props with
        | some d, some s =>
          lnk_can_replace_comdat dst src dst_obj src_obj dst_parsed src_parsed d s
        | _, _ => (false, [lnk_error_multiply_defined_symbol dst src])
    else
      (false, [{ code := .Error_InvalidPath, obj := none }])
  | .Lib =>
    -- link.exe picks symbol from lib that is discovered first
    (lnk_symbol_lib_is_before libs src dst, [])

/-- The statement `header->flags |= COFF_SectionFlag_LnkRemove` on the header that
`lnk_coff_section_header_from_section_number(obj, section_number)` designates; a section number
that designates no header of the object writes nothing. -/
def lnk_obj_flag_section_removed (obj : LNK_Obj) (section_number : Nat) : LNK_Obj :=
  if section_number = 0 then obj
  else
    { obj with
      section_table := obj.section_table.modify
        (fun h => { h with flags := h.flags ||| COFF_SectionFlag_LnkRemove })
        (section_number - 1) }

/-- Source `lnk_on_symbol_replace`, effect on one object: the section of the discarded Regular
symbol and every section on that section's associated-sections list gain `LnkRemove`. -/
def lnk_on_symbol_replace_obj (obj : LNK_Obj) (section_number : Nat) : LNK_Obj :=
  (obj.associated_sections.getD section_number []).foldl lnk_obj_flag_section_removed
    (lnk_obj_flag_section_removed obj section_number)

/-- Source `lnk_on_symbol_replace`. `dst` is the discarded symbol, `src` the one that stays. The
debug-build assertion that the section of a Regular `src` does not carry `LnkRemove` is
recorded in `assert_failed`. -/
def lnk_on_symbol_replace (st : LNK_State) (scope : LNK_SymbolScope) (dst src : LNK_Symbol) :
    LNK_State :=
  match scope with
  | .Defined =>
    let dst_obj := lnk_obj_from_ptr st.objs dst.u.defined.obj
    let dst_parsed := lnk_parsed_symbol_from_coff_symbol_idx dst_obj dst.u.defined.symbol_idx
    let dst_interp := coff_interp_from_parsed_symbol dst_parsed
    let objs1 : List LNK_Obj :=
      if dst_interp = .Regular then
        st.objs.modify (fun o => lnk_on_symbol_replace_obj o dst_parsed.section_number)
          dst.u.defined.obj
      else
        st.objs
    -- make sure leader section is not removed from the output
    let src_obj := lnk_obj_from_ptr objs1 src.u.defined.obj
    let src_parsed := lnk_parsed_symbol_from_coff_symbol_idx src_obj src.u.defined.symbol_idx
    let src_interp := coff_interp_from_parsed_symbol src_parsed
    let src_sect := lnk_coff_section_header_from_section_number src_obj src_parsed.section_number
    let failed : Bool :=
      decide (src_interp = .Regular) && decide (src_sect.flags &&& COFF_SectionFlag_LnkRemove ≠ 0)
    { st with objs := objs1, assert_failed := st.assert_failed || failed }
  | .Lib =>
    -- nothing to replace
    st

/-- The replacement loop of `lnk_symbol_hash_trie_insert_or_replace` on a node whose name
matches: the symbol slot is emptied, the policy picks the leader, the loser is side-effected and
the leader is stored back. Returns the new state and the new content of the symbol slot. -/
def lnk_symbol_hash_trie_replace (st : LNK_State) (scope : LNK_SymbolScope)
    (slot : Option LNK_Symbol) (symbol : LNK_Symbol) : LNK_State × Option LNK_Symbol :=
  match slot with
  | some leader =>
    let r := lnk_can_replace_symbol st.objs st.libs scope leader symbol
    let st1 : LNK_State := { st with errors := st.errors ++ r.2 }
    if r.1 then
      -- discard leader
      (lnk_on_symbol_replace st1 scope leader symbol, some symbol)
    else
      -- discard source
      (lnk_on_symbol_replace st1 scope symbol leader, some leader)
  | none => (st, some symbol)

/-- The test `curr_name && str8_match(*curr_name, name, 0)` on a node's name pointer. -/
def lnk_name_matches (curr_name : Option String) (name : String) : Bool :=
  match curr_name with
  | some n => str8_match n name
  | none => false

/-- Source `lnk_symbol_hash_trie_insert_or_replace`, sequential execution. `h` is the running
hash of the loop (`h <<= 2` on 64 bits per level, child index `h >> 62`); the result is the new
state and the new content of the pointer `*trie`. Node storage (the per-worker chunk list) is
not modelled: each allocated node is the node installed in the trie. -/
def lnk_symbol_hash_trie_insert_or_replace (st : LNK_State) :
    LNK_SymbolHashTrie → Nat → LNK_SymbolScope → LNK_Symbol → LNK_State × LNK_SymbolHashTrie
  | .null, _, _, symbol =>
    (st, .node (some symbol.name) (some symbol) .null .null .null .null)
  | .node name slot c0 c1 c2 c3, h, scope, symbol =>
    if lnk_name_matches name symbol.name then
      let r := lnk_symbol_hash_trie_replace st scope slot symbol
      (r.1, .node name r.2 c0 c1 c2 c3)
    else
      -- pick child and descend
      match h >>> 62 with
      | 0 =>
        let r := lnk_symbol_hash_trie_insert_or_replace st c0 ((h <<< 2) % 2 ^ 64) scope symbol
        (r.1, .node name slot r.2 c1 c2 c3)
      | 1 =>
        let r := lnk_symbol_hash_trie_insert_or_replace st c1 ((h <<< 2) % 2 ^ 64) scope symbol
        (r.1, .node name slot c0 r.2 c2 c3)
      | 2 =>
        let r := lnk_symbol_hash_trie_insert_or_replace st c2 ((h <<< 2) % 2 ^ 64) scope symbol
        (r.1, .node name slot c0 c1 r.2 c3)
      | _ =>
        let r := lnk_symbol_hash_trie_insert_or_replace st c3 ((h <<< 2) % 2 ^ 64) scope symbol
        (r.1, .node name slot c0 c1 c2 r.2)

/-- Source `lnk_symbol_hash_trie_search`: the node found, or `null`. -/
def lnk_symbol_hash_trie_search : LNK_SymbolHashTrie → Nat → String → LNK_SymbolHashTrie
  | .null, _, _ => .null
  | .node name slot c0 c1 c2 c3, h, n =>
    if lnk_name_matches name n then
      .node name slot c0 c1 c2 c3
    else
      match h >>> 62 with
      | 0 => lnk_symbol_hash_trie_search c0 ((h <<< 2) % 2 ^ 64) n
      | 1 => lnk_symbol_hash_trie_search c1 ((h <<< 2) % 2 ^ 64) n
      | 2 => lnk_symbol_hash_trie_search c2 ((h <<< 2) % 2 ^ 64) n
      | _ => lnk_symbol_hash_trie_search c3 ((h <<< 2) % 2 ^ 64) n

/-- Field `name` of the node a trie pointer designates (null pointer: no name). -/
def LNK_SymbolHashTrie.name : LNK_SymbolHashTrie → Option String
  | .null => none
  | .node name _ _ _ _ _ => name

/-- Field `symbol` read through a trie pointer as `lnk_symbol_table_search` does:
`trie ? trie->symbol : 0`. -/
def LNK_SymbolHashTrie.symbol : LNK_SymbolHashTrie → Option LNK_Symbol
  | .null => none
  | .node _ slot _ _ _ _ => slot

/-- Names held by the nodes of a trie, one entry per node with a non-null name pointer. -/
def LNK_SymbolHashTrie.names : LNK_SymbolHashTrie → List String
  | .null => []
  | .node name _ c0 c1 c2 c3 =>
    name.toList ++ (c0.names ++ (c1.names ++ (c2.names ++ c3.names)))

/-- Number of nodes of a trie. -/
def LNK_SymbolHashTrie.node_count : LNK_SymbolHashTrie → Nat
  | .null => 0
  | .node _ _ c0 c1 c2 c3 => 1 + c0.node_count + c1.node_count + c2.node_count + c3.node_count

/-- A sequence of sequential `lnk_symbol_table_push` calls on one scope: each symbol is inserted
with the hash `hash_of` gives its name (the source uses `lnk_symbol_hash`). -/
def lnk_symbol_table_push_all (hash_of : String → Nat) (scope : LNK_SymbolScope) :
    LNK_State × LNK_SymbolHashTrie → List LNK_Symbol → LNK_State × LNK_SymbolHashTrie
  | acc, [] => acc
  | acc, symbol :: rest =>
    lnk_symbol_table_push_all hash_of scope
      (lnk_symbol_hash_trie_insert_or_replace acc.1 acc.2 (hash_of symbol.name) scope symbol) rest

/-! ## Vocabulary for the statements -/

/-- Source `lnk_parsed_symbol_from_defined`. -/
def lnk_parsed_symbol_from_defined (objs : List LNK_Obj) (symbol : LNK_Symbol) :
    COFF_ParsedSymbol :=
  lnk_parsed_symbol_from_coff_symbol_idx (lnk_obj_from_ptr objs symbol.u.defined.obj)
    symbol.u.defined.symbol_idx

/-- Interpretation of a defined symbol, as `lnk_can_replace_symbol` computes `dst_interp` and
`src_interp`. -/
def lnk_symbol_interp (objs : List LNK_Obj) (symbol : LNK_Symbol) : COFF_SymbolValueInterpType :=
  coff_interp_from_parsed_symbol (lnk_parsed_symbol_from_defined objs symbol)

/-- Input index of the object of a defined symbol. -/
def lnk_symbol_obj_input_idx (objs : List LNK_Obj) (symbol : LNK_Symbol) : Nat :=
  (lnk_obj_from_ptr objs symbol.u.defined.obj).input_idx

/-- Input index of the library of a lib symbol. -/
def lnk_symbol_lib_input_idx (libs : List LNK_Lib) (symbol : LNK_Symbol) : Nat :=
  (lnk_lib_from_ptr libs symbol.u.lib.lib).input_idx

/-- COMDAT properties of a defined symbol as the replacement policy derives them; `none` when
the policy takes the symbol for a non-COMDAT one. -/
def lnk_symbol_comdat_props (objs : List LNK_Obj) (symbol : LNK_Symbol) :
    Option COFF_ComdatProps :=
  lnk_comdat_props_of_symbol (lnk_obj_from_ptr objs symbol.u.defined.obj)
    (lnk_parsed_symbol_from_defined objs symbol) (lnk_symbol_interp objs symbol)

/-- Section header of the section a defined symbol lives in, read from the state. -/
def lnk_symbol_section_header (objs : List LNK_Obj) (symbol : LNK_Symbol) : COFF_SectionHeader :=
  lnk_coff_section_header_from_section_number (lnk_obj_from_ptr objs symbol.u.defined.obj)
    (lnk_parsed_symbol_from_defined objs symbol).section_number

/-- The multiply-defined-symbol error is among the given diagnostics. -/
def lnk_records_multiply_defined (errors : List LNK_Error) : Bool :=
  errors.any (fun e => decide (e.code = .Error_MultiplyDefinedSymbol))

/-! ## Test fixtures -/

/-- Object with one external symbol `name` of the given interpretation, section number and
value, one section header of `fsize` bytes, and the given COMDAT properties for section 1. -/
def fixture_obj (input_idx : Nat) (name : String) (interp : COFF_SymbolValueInterpType)
    (section_number value : Nat) (comdat : Option COFF_ComdatProps) : LNK_Obj :=
  { data := [], input_idx := input_idx,
    symbols := [{ name := name, section_number := section_number, value := value,
                  interp := interp }],
    section_table := [{ flags := 0, foff := 0, fsize := 0 }],
    comdats := [none, comdat],
    associated_sections := [[], []] }

/-- Defined symbol number 0 of the object at pointer `obj`. -/
def fixture_defined (name : String) (obj : Nat) : LNK_Symbol :=
  { name := name,
    u := { defined := { obj := obj, symbol_idx := 0 },
           lib := { lib := 0, member_offset := 0 },
           undef := { obj := 0 } } }

/-- Lib symbol provided by the library at pointer `lib`. -/
def fixture_lib_symbol (name : String) (lib : Nat) : LNK_Symbol :=
  { name := name,
    u := { defined := { obj := 0, symbol_idx := 0 },
           lib := { lib := lib, member_offset := 0 },
           undef := { obj := 0 } } }

/-- State with the given objects and libraries, no diagnostics recorded. -/
def fixture_state (objs : List LNK_Obj) (libs : List LNK_Lib) : LNK_State :=
  { objs := objs, libs := libs, errors := [], assert_failed := false }

/-- Child index the loops of insert and search pick for the running hash `h` (`h >> 62`). -/
def lnk_child_slot (h : Nat) : Nat :=
  if h >>> 62 = 0 then 0 else if h >>> 62 = 1 then 1 else if h >>> 62 = 2 then 2 else 3

/-- Invariant of a trie whose names are always inserted with the hash `hf` gives them (`hf` is
the running hash at the root of the trie): every named node below a node sits in the child its
name selects, carries a name other than that node, and the children satisfy the invariant for
the hashes shifted by one level. -/
def lnk_trie_keyed (hf : String → Nat) : LNK_SymbolHashTrie → Prop
  | .null => True
  | .node name _ c0 c1 c2 c3 =>
    (∀ n ∈ c0.names, lnk_child_slot (hf n) = 0 ∧ name ≠ some n)
    ∧ (∀ n ∈ c1.names, lnk_child_slot (hf n) = 1 ∧ name ≠ some n)
    ∧ (∀ n ∈ c2.names, lnk_child_slot (hf n) = 2 ∧ name ≠ some n)
    ∧ (∀ n ∈ c3.names, lnk_child_slot (hf n) = 3 ∧ name ≠ some n)
    ∧ lnk_trie_keyed (fun n => (hf n <<< 2) % 2 ^ 64) c0
    ∧ lnk_trie_keyed (fun n => (hf n <<< 2) % 2 ^ 64) c1
    ∧ lnk_trie_keyed (fun n => (hf n <<< 2) % 2 ^ 64) c2
    ∧ lnk_trie_keyed (fun n => (hf n <<< 2) % 2 ^ 64) c3

/-- Invariant of a trie built by sequential insertions that hash every name with `hash_of`:
the keying invariant, every node is named, and every name held by a node is found by the search
with its hash, at a node that has a leader symbol. -/
def lnk_trie_inv (hash_of : String → Nat) (t : LNK_SymbolHashTrie) : Prop :=
  lnk_trie_keyed hash_of t
  ∧ t.names.length = t.node_count
  ∧ ∀ n ∈ t.names,
      (lnk_symbol_hash_trie_search t (hash_of n) n).name = some n
      ∧ (lnk_symbol_hash_trie_search t (hash_of n) n).symbol.isSome = true

/-- The test `header->flags & COFF_SectionFlag_LnkRemove` on a section header. -/
def coff_section_is_removed (header : COFF_SectionHeader) : Bool :=
  decide (header.flags &&& COFF_SectionFlag_LnkRemove ≠ 0)

/-- Object with one Regular external symbol in section 1 and three sections whose
associated-sections lists form a chain: section 2 is associated to section 1 and section 3 is
associated to section 2. -/
def fixture_obj_chain : LNK_Obj :=
  { data := [], input_idx := 0,
    symbols := [{ name := "f", section_number := 1, value := 0, interp := .Regular }],
    section_table := [{ flags := 0, foff := 0, fsize := 0 }, { flags := 0, foff := 0, fsize := 0 },
                      { flags := 0, foff := 0, fsize := 0 }],
    comdats := [none, none, none, none],
    associated_sections := [[], [2], [3], []] }

/-- Modelled from the spec: the macro `AlignPow2(x, b)` on 64-bit values, whose definition is
not available: "the next aligned offset (`align_up(cursor, sc.align)`)", for `b` a power of
two. -/
def AlignPow2 (x b : Nat) : Nat :=
  ((x + (b - 1)) % 2 ^ 64) / b * b

/-- Doubling search for `u64_up_to_pow2`: the first of `p`, `2p`, `4p`, ... that is not below
`x`, within `fuel` doublings. -/
def u64_up_to_pow2_from (x : Nat) : Nat → Nat → Nat
  | 0, p => p
  | fuel + 1, p => if x ≤ p then p else u64_up_to_pow2_from x fuel (2 * p)

/-- Modelled from the spec: `u64_up_to_pow2`, whose source is not available: `next_pow2`, the
smallest power of two that is not below `x`. -/
def u64_up_to_pow2 (x : Nat) : Nat :=
  u64_up_to_pow2_from x 64 1

/-- One entry of the common block (`LNK_CommonBlockContrib`). The union `u` holds the size of
the symbol before the offsets are assigned and the assigned offset afterwards; its declaration
is not available, and its members are taken to hold the values stored in them. -/
structure LNK_CommonBlockContrib where
  symbol : LNK_Symbol
  u : Nat
  deriving DecidableEq

/-- Source `lnk_common_block_contrib_is_before`: larger size first, ties by input index of the
object and then by symbol index. -/
def lnk_common_block_contrib_is_before (objs : List LNK_Obj) (a b : LNK_CommonBlockContrib) :
    Bool :=
  if a.u = b.u then
    if (lnk_obj_from_ptr objs a.symbol.u.defined.obj).input_idx
        = (lnk_obj_from_ptr objs b.symbol.u.defined.obj).input_idx then
      decide (a.symbol.u.defined.symbol_idx < b.symbol.u.defined.symbol_idx)
    else
      decide ((lnk_obj_from_ptr objs a.symbol.u.defined.obj).input_idx
        < (lnk_obj_from_ptr objs b.symbol.u.defined.obj).input_idx)
  else
    decide (a.u > b.u)

/-- Alignment `lnk_build_image` gives a common symbol of the given size:
`Min(32, u64_up_to_pow2(size))`. -/
def lnk_common_block_align (size : Nat) : Nat :=
  min 32 (u64_up_to_pow2 size)

/-- Source `lnk_build_image`, loop "compute and assign offsets into the common block": starting
at `common_block_cursor`, every contribution is given the cursor aligned up to its alignment
and the cursor advances by its size (64-bit arithmetic; the local `size` has 32 bits). Returns
the contributions with `u.offset` assigned and the final cursor. -/
def lnk_common_block_assign_offsets (common_block_cursor : Nat) :
    List LNK_CommonBlockContrib → List LNK_CommonBlockContrib × Nat
  | [] => ([], common_block_cursor)
  | contrib :: rest =>
    let size := contrib.u % 2 ^ 32
    let align := lnk_common_block_align size
    let cursor1 := AlignPow2 common_block_cursor align
    let r := lnk_common_block_assign_offsets ((cursor1 + size) % 2 ^ 64) rest
    ({ contrib with u := cursor1 } :: r.1, r.2)

/-- Source `lnk_build_image`, block "Make Common Block" on the sorted contributions: the
contributions with their offsets, and the size of the aggregate contribution appended to the
section, `common_block_cursor - common_block_sect->vsize` (64-bit arithmetic). Sorting the
array (`radsort`) precedes this step and is not part of it. -/
def lnk_make_common_block (vsize : Nat) (common_block_contribs : List LNK_CommonBlockContrib) :
    List LNK_CommonBlockContrib × Nat :=
  let r := lnk_common_block_assign_offsets vsize common_block_contribs
  (r.1, (r.2 + 2 ^ 64 - vsize) % 2 ^ 64)

/-- Common symbol number `symbol_idx` of the object at pointer `obj`, with the given size. -/
def fixture_common_contrib (obj symbol_idx size : Nat) : LNK_CommonBlockContrib :=
  { symbol := { name := "c",
                u := { defined := { obj := obj, symbol_idx := symbol_idx },
                       lib := { lib := 0, member_offset := 0 },
                       undef := { obj := 0 } } },
    u := size }

/-! ## `lnk.c`: relocation patcher -/

/-- Modelled from the spec: the `CntUninitializedData` section-header flag bit, whose
declaration is not available; the value is the one of the published PE/COFF format
(`IMAGE_SCN_CNT_UNINITIALIZED_DATA`). -/
def COFF_SectionFlag_CntUninitializedData : Nat := 0x80

/-- Modelled from the spec: the `LnkCOMDAT` section-header flag bit, whose declaration is not
available; the value is the one of the published PE/COFF format (`IMAGE_SCN_LNK_COMDAT`). -/
def COFF_SectionFlag_LnkCOMDAT : Nat := 0x1000

/-- Modelled from the spec: the highest x64 relocation type, `COFF_Reloc_X64_Last`, whose
declaration is not available; the value is the one of the published PE/COFF format
(`IMAGE_REL_AMD64_SSPAN32`). -/
def COFF_Reloc_X64_Last : Nat := 0x10

/-- Modelled from the spec: relocation type `COFF_Reloc_X64_Addr64`, whose declaration is not
available; the value is the one of the published PE/COFF format (`IMAGE_REL_AMD64_ADDR64`). -/
def COFF_Reloc_X64_Addr64 : Nat := 1

/-- Modelled from the spec: relocation type `COFF_Reloc_X64_Addr32`, whose declaration is not
available; the value is the one of the published PE/COFF format (`IMAGE_REL_AMD64_ADDR32`). -/
def COFF_Reloc_X64_Addr32 : Nat := 2

/-- Modelled from the spec: `lnk_is_coff_section_debug(obj, sect_idx)`, whose source is not
available; whether the section of that index is a debug section, as the object layer reports
it. An index that designates no section is no debug section. -/
def lnk_is_coff_section_debug (obj : LNK_Obj) (sect_idx : Nat) : Bool :=
  obj.debug_sections.getD sect_idx false

/-- Modelled from the spec: `lnk_coff_reloc_info_from_section_number(obj, section_number)` and
`coff_reloc_info_from_section_header` on the header of that number, whose sources are not
available: the relocation records of the section. -/
def lnk_coff_reloc_info_from_section_number (obj : LNK_Obj) (section_number : Nat) :
    List COFF_Reloc :=
  obj.relocs.getD section_number []

/-- Modelled from the spec: `lnk_obj_get_removed_section_number`, whose source is not
available: the section number the symbol patcher stores for a symbol of a removed section
("the `REMOVED` sentinel"). -/
def lnk_obj_get_removed_section_number (obj : LNK_Obj) : Nat :=
  obj.removed_section_number

/-- Value and width of a relocation as `coff_pick_reloc_value_x64` returns them
(`COFF_RelocValue`). -/
structure COFF_RelocValue where
  size : Nat
  value : Nat
  deriving DecidableEq

/-- Little-endian value of a byte string. -/
def bytes_read_le : List Nat → Nat
  | [] => 0
  | b :: rest => b + 256 * bytes_read_le rest

/-- The `w` low bytes of `n`, little-endian. -/
def bytes_of_le (n : Nat) : Nat → List Nat
  | 0 => []
  | w + 1 => n % 256 :: bytes_of_le (n / 256) w

/-- The buffer `data` with the bytes `bs` copied to offset `off` (`MemoryCopy` into the
buffer). Bytes that would land behind the end of the buffer are not modelled. -/
def bytes_write (data : List Nat) (off : Nat) (bs : List Nat) : List Nat :=
  data.take off ++ bs.take (data.length - off) ++ data.drop (off + bs.length)

/-- Modelled from the spec: `extend_sign64(x, size)`, whose source is not available: the low
`size` bytes of `x` "sign-extended by relocation width". -/
def extend_sign64 (x : Nat) (size : Nat) : Int :=
  if 2 ^ (8 * size - 1) ≤ x % 2 ^ (8 * size) then
    (x % 2 ^ (8 * size) : Nat) - (2 ^ (8 * size) : Nat)
  else
    (x % 2 ^ (8 * size) : Nat)

/-- Modelled from the spec: `str8_substr(data, rng_1u64(lo, hi))` as a window of the buffer,
whose sources are not available: the bounds are ordered and clamped to the size of the buffer;
the result is the start and the size of the window. -/
def str8_substr_window (data_size lo hi : Nat) : Nat × Nat :=
  (min (min lo hi) data_size, min (max lo hi) data_size - min (min lo hi) data_size)

/-- Modelled from the spec: `str8_deserial_read(string, off, dst, read_size, 1)` on a window of
a buffer, whose source is not available: the bytes of the window from `off` on, at most
`read_size` of them. -/
def str8_deserial_read (data : List Nat) (window : Nat × Nat) (off read_size : Nat) : List Nat :=
  (data.drop (window.1 + min off window.2)).take (min (window.2 - min off window.2) read_size)

/-- The part of the task of `lnk_obj_reloc_patcher` (`LNK_ObjRelocPatcher`) that is read only:
the image base and the virtual offsets of the image sections, by section number. -/
structure LNK_ObjRelocPatcher where
  image_base : Nat
  image_section_voffs : List Nat
  deriving DecidableEq

/-- What `lnk_obj_reloc_patcher` writes: the image bytes, the bytes of the object (debug
sections are patched in place) and the error table. -/
structure LNK_RelocPatchState where
  image_data : List Nat
  obj_data : List Nat
  errors : List LNK_Error
  deriving DecidableEq

/-- Source `lnk_obj_reloc_patcher`, steps "read addend", "compute new reloc value" and "commit
new reloc value" on the buffer that holds the section: `window` is `section_data`. -/
def lnk_apply_reloc_value (data : List Nat) (window : Nat × Nat) (apply_off : Nat)
    (reloc_value : COFF_RelocValue) : List Nat :=
  let raw_addend := bytes_read_le (str8_deserial_read data window apply_off reloc_value.size)
  let addend := extend_sign64 raw_addend reloc_value.size
  let reloc_result := (((reloc_value.value : Int) + addend) % (2 ^ 64 : Nat)).toNat
  bytes_write data (window.1 + apply_off) (bytes_of_le reloc_result reloc_value.size)

/-- Symbol location values of a relocation, as `lnk_obj_reloc_patcher` computes them:
`symbol_secnum`, `symbol_secoff`, `symbol_voff`, and the diagnostics of the `else` branch.
`none` is the `continue` of a Regular symbol that carries the removed-section number. -/
def lnk_reloc_symbol_location (task : LNK_ObjRelocPatcher) (obj : LNK_Obj) (reloc : COFF_Reloc) :
    Option ((Nat × Nat × Int) × List LNK_Error) :=
  let symbol := lnk_parsed_symbol_from_coff_symbol_idx obj reloc.isymbol
  let interp := coff_interp_from_parsed_symbol symbol
  if interp = .Regular then
    if symbol.section_number = lnk_obj_get_removed_section_number obj then
      none
    else
      let symbol_secoff := symbol.value
      some ((symbol.section_number, symbol_secoff,
        (((task.image_section_voffs.getD symbol.section_number 0 + symbol_secoff) % 2 ^ 32 : Nat)
          : Int)), [])
  else if interp = .Abs then
    let value := if str8_match symbol.name "__ImageBase" then task.image_base % 2 ^ 32
      else symbol.value
    some ((0, 0, (value : Int) - (task.image_base : Int)), [])
  else if interp = .Weak then
    some ((0, 0, 0), [])
  else if interp = .Undefined then
    some ((0, 0, 0), [])
  else
    some ((0, 0, 0), [{ code := .InvalidPath_Assert, obj := none }])

/-- The window `section_data` of `lnk_obj_reloc_patcher`:
`str8_substr(data, rng_1u64(foff, foff + fsize))`, the sum taken on 32 bits as the header fields
are. -/
def lnk_reloc_section_window (section_header : COFF_SectionHeader) (data : List Nat) :
    Nat × Nat :=
  str8_substr_window data.length section_header.foff
    ((section_header.foff + section_header.fsize) % 2 ^ 32)

/-- The buffer `lnk_obj_reloc_patcher` patches for a section: the bytes of the object for a
debug section, the image otherwise. -/
def lnk_reloc_patch_buffer (obj : LNK_Obj) (sect_idx : Nat) (st : LNK_RelocPatchState) :
    List Nat :=
  if lnk_is_coff_section_debug obj sect_idx then st.obj_data else st.image_data

/-- Source `lnk_obj_reloc_patcher`, body of the loop "apply relocs" for one relocation of the
section of index `sect_idx` of the object `obj`, which is `task->objs[task_id]`.
`coff_pick_reloc_value_x64`, whose source is not available, is a parameter. -/
def lnk_obj_reloc_patch_reloc
    (coff_pick_reloc_value_x64 : Nat → Nat → Nat → Nat → Nat → Int → COFF_RelocValue)
    (task : LNK_ObjRelocPatcher) (task_id : Nat) (obj : LNK_Obj) (sect_idx : Nat)
    (section_header : COFF_SectionHeader) (st : LNK_RelocPatchState) (reloc : COFF_Reloc) :
    LNK_RelocPatchState :=
  let is_debug := lnk_is_coff_section_debug obj sect_idx
  -- error check relocation
  let errors1 : List LNK_Error :=
    if obj.machine = .X64 then
      if reloc.type > COFF_Reloc_X64_Last then
        st.errors ++ [{ code := .Error_IllegalRelocation, obj := some task_id }]
      else st.errors
    else if obj.machine ≠ .Unknown then
      st.errors ++ [{ code := .NotImplemented_Assert, obj := none }]
    else st.errors
  -- compute virtual offsets
  let reloc_voff := (section_header.voff + reloc.apply_off) % 2 ^ 32
  -- compute symbol location values
  match lnk_reloc_symbol_location task obj reloc with
  | none =>
    if !is_debug then
      { st with errors := errors1 ++
          [{ code := .Error_RelocationAgainstRemovedSection, obj := some task_id,
             symbol := some (lnk_parsed_symbol_from_coff_symbol_idx obj reloc.isymbol).name }] }
    else
      { st with errors := errors1 }
  | some (loc, errors2) =>
    -- pick reloc value
    let picked : COFF_RelocValue × List LNK_Error :=
      match obj.machine with
      | .Unknown => ({ size := 0, value := 0 }, [])
      | .X64 =>
        (coff_pick_reloc_value_x64 reloc.type task.image_base reloc_voff loc.1 loc.2.1 loc.2.2,
          [])
      | .Other => ({ size := 0, value := 0 }, [{ code := .NotImplemented_Assert, obj := none }])
    if is_debug then
      { st with
        obj_data := lnk_apply_reloc_value st.obj_data
          (lnk_reloc_section_window section_header st.obj_data) reloc.apply_off picked.1,
        errors := errors1 ++ errors2 ++ picked.2 }
    else
      { st with
        image_data := lnk_apply_reloc_value st.image_data
          (lnk_reloc_section_window section_header st.image_data) reloc.apply_off picked.1,
        errors := errors1 ++ errors2 ++ picked.2 }

/-- Source `lnk_obj_reloc_patcher`, body of the loop over the sections for the section of index
`sect_idx`: sections flagged `LnkRemove` or `CntUninitializedData` are skipped, the relocations
of the others are applied in order. -/
def lnk_obj_reloc_patch_section
    (coff_pick_reloc_value_x64 : Nat → Nat → Nat → Nat → Nat → Int → COFF_RelocValue)
    (task : LNK_ObjRelocPatcher) (task_id : Nat) (obj : LNK_Obj) (st : LNK_RelocPatchState)
    (sect_idx : Nat) : LNK_RelocPatchState :=
  let section_header := obj.section_table.getD sect_idx { flags := 0, foff := 0, fsize := 0 }
  if section_header.flags &&& COFF_SectionFlag_LnkRemove ≠ 0 then st
  else if section_header.flags &&& COFF_SectionFlag_CntUninitializedData ≠ 0 then st
  else
    (lnk_coff_reloc_info_from_section_number obj (sect_idx + 1)).foldl
      (lnk_obj_reloc_patch_reloc coff_pick_reloc_value_x64 task task_id obj sect_idx
        section_header) st

/-- Source `lnk_obj_reloc_patcher` for the object `task->objs[task_id]`: the state after all
sections. The object bytes of the result are the patched `obj->data`. -/
def lnk_obj_reloc_patcher
    (coff_pick_reloc_value_x64 : Nat → Nat → Nat → Nat → Nat → Int → COFF_RelocValue)
    (task : LNK_ObjRelocPatcher) (objs : List LNK_Obj) (task_id : Nat) (image_data : List Nat)
    (errors : List LNK_Error) : LNK_RelocPatchState :=
  let obj := lnk_obj_from_ptr objs task_id
  (List.range obj.section_table.length).foldl
    (lnk_obj_reloc_patch_section coff_pick_reloc_value_x64 task task_id obj)
    { image_data := image_data, obj_data := obj.data, errors := errors }

/-- Number of diagnostics of a given kind in an error table. -/
def lnk_error_count (code : LNK_ErrorCode) (errors : List LNK_Error) : Nat :=
  errors.countP (fun e => decide (e.code = code))

/-- Relocation value function for the scenarios: the value is the image base plus the virtual
offset of the symbol, four bytes wide for `ADDR32` and eight bytes wide otherwise. -/
def fixture_pick_reloc_value (type image_base _reloc_voff _secnum _secoff : Nat)
    (symbol_voff : Int) : COFF_RelocValue :=
  { size := if type = COFF_Reloc_X64_Addr32 then 4 else 8,
    value := (((image_base : Int) + symbol_voff) % (2 ^ 64 : Nat)).toNat }

/-- X64 object for the relocation scenarios: section 1 (16 bytes at file offset 0, virtual
offset `voff`) carries the relocations `relocs`; symbol 0 is Regular in section 1 at value 4,
symbol 1 is Regular with the removed-section number 7, symbol 2 is Absolute. -/
def fixture_reloc_obj (voff : Nat) (is_debug : Bool) (relocs : List COFF_Reloc) : LNK_Obj :=
  { data := List.replicate 16 0, input_idx := 0,
    symbols := [{ name := "f", section_number := 1, value := 4, interp := .Regular },
                { name := "gone", section_number := 7, value := 0, interp := .Regular },
                { name := "abs", section_number := 0, value := 9, interp := .Abs }],
    section_table := [{ flags := 0, foff := 0, fsize := 16, voff := voff }],
    comdats := [none, none],
    associated_sections := [[], []],
    machine := .X64,
    relocs := [[], relocs],
    debug_sections := [is_debug],
    removed_section_number := 7 }

/-- X64 object for the scenario of a removed section behind a debug section. The object has 32
bytes. Section 1 (16 bytes at file offset 0) is a debug section and carries one `ADDR64`
relocation with `apply_off` 12 against symbol 0; section 2 (16 bytes at file offset 16) is
flagged `LnkRemove`. Symbol 0 is Regular in section 1 at value 4, symbol 1 is Regular with the
removed-section number 7. -/
def fixture_reloc_removed_obj : LNK_Obj :=
  { data := List.replicate 32 0, input_idx := 0,
    symbols := [{ name := "f", section_number := 1, value := 4, interp := .Regular },
                { name := "gone", section_number := 7, value := 0, interp := .Regular }],
    section_table := [{ flags := 0, foff := 0, fsize := 16, voff := 0x1000 },
                      { flags := COFF_SectionFlag_LnkRemove, foff := 16, fsize := 16,
                        voff := 0 }],
    comdats := [none, none, none],
    associated_sections := [[], [], []],
    machine := .X64,
    relocs := [[], [⟨12, 0, COFF_Reloc_X64_Addr64⟩], []],
    debug_sections := [true, false],
    removed_section_number := 7 }

/-- Image of 32 bytes for the scenario of a site that crosses the end of its section: zero
bytes, except for the byte 5 at the offset 16, the first byte behind the section of 16 bytes at
the offset 0. -/
def fixture_reloc_crossing_image : List Nat :=
  List.replicate 16 0 ++ [5] ++ List.replicate 15 0

/-- Vocabulary for `lnk_obj_reloc_patcher`: the target symbol of the relocation is Regular and
carries the removed-section number of the object. -/
def lnk_reloc_is_against_removed (obj : LNK_Obj) (reloc : COFF_Reloc) : Bool :=
  decide (coff_interp_from_parsed_symbol
      (lnk_parsed_symbol_from_coff_symbol_idx obj reloc.isymbol) = .Regular)
    && decide ((lnk_parsed_symbol_from_coff_symbol_idx obj reloc.isymbol).section_number
      = lnk_obj_get_removed_section_number obj)

/-- Vocabulary for `lnk_obj_reloc_patcher`: the section of index `sect_idx` is flagged neither
`LnkRemove` nor `CntUninitializedData`, so its relocations are processed. -/
def lnk_reloc_section_is_patched (obj : LNK_Obj) (sect_idx : Nat) : Bool :=
  decide ((obj.section_table.getD sect_idx { flags := 0, foff := 0, fsize := 0 }).flags
      &&& COFF_SectionFlag_LnkRemove = 0)
    && decide ((obj.section_table.getD sect_idx { flags := 0, foff := 0, fsize := 0 }).flags
      &&& COFF_SectionFlag_CntUninitializedData = 0)

/-- Vocabulary for `lnk_obj_reloc_patcher`: the number of relocations of the object against a
symbol of a removed section in sections that are processed and are not debug sections. -/
def lnk_relocs_against_removed_count (obj : LNK_Obj) : Nat :=
  ((List.range obj.section_table.length).map (fun sect_idx =>
    if lnk_reloc_section_is_patched obj sect_idx && !lnk_is_coff_section_debug obj sect_idx then
      (lnk_coff_reloc_info_from_section_number obj (sect_idx + 1)).countP
        (lnk_reloc_is_against_removed obj)
    else 0)).sum

/-- Vocabulary for `lnk_obj_reloc_patcher`: the site of the relocation, with the width of the
value picked for it, lies inside the window of its section in the buffer `data`. A relocation
against a symbol of a removed section, which is not applied, has no site. -/
def lnk_reloc_site_is_inside
    (coff_pick_reloc_value_x64 : Nat → Nat → Nat → Nat → Nat → Int → COFF_RelocValue)
    (task : LNK_ObjRelocPatcher) (obj : LNK_Obj) (section_header : COFF_SectionHeader)
    (data : List Nat) (reloc : COFF_Reloc) : Prop :=
  ∀ loc errs, lnk_reloc_symbol_location task obj reloc = some (loc, errs) →
    reloc.apply_off + (coff_pick_reloc_value_x64 reloc.type task.image_base
        ((section_header.voff + reloc.apply_off) % 2 ^ 32) loc.1 loc.2.1 loc.2.2).size
      ≤ (lnk_reloc_section_window section_header data).2

/-- Vocabulary for `lnk_obj_reloc_patcher`: the byte of offset `i` of the buffer `data` (the
bytes of the object when `in_obj_data`, the image otherwise) lies in the window of a section of
the object that is processed and is patched in that buffer. -/
def lnk_reloc_in_patched_window (obj : LNK_Obj) (in_obj_data : Bool) (data : List Nat)
    (i : Nat) : Prop :=
  ∃ sect_idx, sect_idx < obj.section_table.length
    ∧ lnk_reloc_section_is_patched obj sect_idx = true
    ∧ lnk_is_coff_section_debug obj sect_idx = in_obj_data
    ∧ (lnk_reloc_section_window
          (obj.section_table.getD sect_idx { flags := 0, foff := 0, fsize := 0 }) data).1 ≤ i
    ∧ i < (lnk_reloc_section_window
          (obj.section_table.getD sect_idx { flags := 0, foff := 0, fsize := 0 }) data).1
        + (lnk_reloc_section_window
          (obj.section_table.getD sect_idx { flags := 0, foff := 0, fsize := 0 }) data).2

/-! ## `lnk.c`: base relocations -/

/-- Modelled from the spec: the macro `AlignDownPow2(x, b)`, whose definition is not available:
"`page_voff = floor_page(reloc_voff)`", the largest multiple of `b` that is not above `x`. -/
def AlignDownPow2 (x b : Nat) : Nat :=
  x / b * b

/-- Modelled from the spec: the macro `AlignPadPow2(x, b)`, whose definition is not available:
the distance from `x` up to the next multiple of `b` (the entry array "is padded"). -/
def AlignPadPow2 (x b : Nat) : Nat :=
  (b - x % b) % b

/-- Modelled from the spec: base relocation kinds `ABSOLUTE`, `HIGHLOW` and `DIR64`, whose
declarations are not available; the values are those of the published PE format. -/
def PE_BaseRelocKind_ABSOLUTE : Nat := 0

/-- Modelled from the spec: see `PE_BaseRelocKind_ABSOLUTE`. -/
def PE_BaseRelocKind_HIGHLOW : Nat := 3

/-- Modelled from the spec: see `PE_BaseRelocKind_ABSOLUTE`. -/
def PE_BaseRelocKind_DIR64 : Nat := 10

/-- Modelled from the spec: the macro `PE_BaseRelocMake(kind, off)`, whose definition is not
available: the 16-bit entry that "encodes `(kind, relative-offset-within-page)`", the kind in
the four high bits and the offset in the twelve low bits. -/
def PE_BaseRelocMake (kind off : Nat) : Nat :=
  (kind % 16) * 4096 + off % 4096

/-- Kind of a 16-bit base relocation entry. -/
def PE_BaseRelocKindFromEntry (entry : Nat) : Nat :=
  entry / 4096 % 16

/-- Offset of a 16-bit base relocation entry. -/
def PE_BaseRelocOffsetFromEntry (entry : Nat) : Nat :=
  entry % 4096

/-- Modelled from the spec: the file characteristic `LARGE_ADDRESS_AWARE`, whose declaration is
not available; the value is the one of the published PE format. -/
def PE_ImageFileCharacteristic_LARGE_ADDRESS_AWARE : Nat := 0x20

/-- Page of base relocations (`LNK_BaseRelocPage`): page offset and the sites of the 32-bit and
of the 64-bit relocations of the page. -/
structure LNK_BaseRelocPage where
  voff : Nat
  entries_addr32 : List Nat
  entries_addr64 : List Nat
  deriving DecidableEq

/-- What a worker of `lnk_emit_base_relocs_from_objs_task` builds: its page list (the hash table
`page_ht` finds the page of a given offset in this list) and the error table. -/
structure LNK_BaseRelocEmitState where
  page_list : List LNK_BaseRelocPage
  errors : List LNK_Error
  deriving DecidableEq

/-- The lookup `hash_table_search_u64(page_ht, page_voff)`: whether a page of that offset is
registered. -/
def lnk_base_reloc_page_present (page_list : List LNK_BaseRelocPage) (page_voff : Nat) : Bool :=
  page_list.any (fun p => decide (p.voff = page_voff))

/-- Update of the page that `hash_table_search_u64` finds for `page_voff`: the first page of
that offset. -/
def lnk_base_reloc_page_update (f : LNK_BaseRelocPage → LNK_BaseRelocPage) (page_voff : Nat) :
    List LNK_BaseRelocPage → List LNK_BaseRelocPage
  | [] => []
  | p :: rest =>
    if p.voff = page_voff then f p :: rest
    else p :: lnk_base_reloc_page_update f page_voff rest

/-- Source `lnk_emit_base_relocs_from_objs_task`, body of the loop over the relocations of one
section of the object at pointer `obj_ptr`. -/
def lnk_emit_base_reloc (page_size : Nat) (is_large_addr_aware : Bool) (obj_ptr : Nat)
    (obj : LNK_Obj) (sect_header : COFF_SectionHeader) (st : LNK_BaseRelocEmitState)
    (r : COFF_Reloc) : LNK_BaseRelocEmitState :=
  let symbol := lnk_parsed_symbol_from_coff_symbol_idx obj r.isymbol
  let symbol_interp := coff_interp_from_parsed_symbol symbol
  let is_symbol_address := decide (symbol_interp ≠ .Abs)
  if is_symbol_address then
    let kinds : (Bool × Bool) × List LNK_Error :=
      match obj.machine with
      | .Unknown => ((false, false), [])
      | .X64 =>
        ((decide (r.type = COFF_Reloc_X64_Addr32), decide (r.type = COFF_Reloc_X64_Addr64)), [])
      | .Other => ((false, false), [{ code := .NotImplemented_Assert, obj := none }])
    let is_addr32 := kinds.1.1
    let is_addr64 := kinds.1.2
    let st1 : LNK_BaseRelocEmitState := { st with errors := st.errors ++ kinds.2 }
    if is_addr32 || is_addr64 then
      let reloc_voff := (sect_header.voff + r.apply_off) % 2 ^ 32
      let page_voff := AlignDownPow2 reloc_voff page_size
      let page_list1 :=
        if lnk_base_reloc_page_present st1.page_list page_voff then st1.page_list
        else st1.page_list ++ [{ voff := page_voff, entries_addr32 := [], entries_addr64 := [] }]
      if is_addr32 then
        if is_large_addr_aware then
          { page_list := page_list1,
            errors := st1.errors ++
              [{ code := .Error_LargeAddrAwareRequired, obj := some obj_ptr,
                 symbol := some (lnk_parsed_symbol_from_coff_symbol_idx obj r.isymbol).name }] }
        else
          { st1 with
            page_list := lnk_base_reloc_page_update
              (fun p => { p with entries_addr32 := p.entries_addr32 ++ [reloc_voff] })
              page_voff page_list1 }
      else
        { st1 with
          page_list := lnk_base_reloc_page_update
            (fun p => { p with entries_addr64 := p.entries_addr64 ++ [reloc_voff] })
            page_voff page_list1 }
    else st1
  else st

/-- Source `lnk_emit_base_relocs_from_objs_task`, body of the loop over the sections: a section
flagged `LnkRemove` is skipped. -/
def lnk_emit_base_relocs_from_section (page_size : Nat) (is_large_addr_aware : Bool)
    (obj_ptr : Nat) (obj : LNK_Obj) (st : LNK_BaseRelocEmitState) (sect_idx : Nat) :
    LNK_BaseRelocEmitState :=
  let sect_header := obj.section_table.getD sect_idx { flags := 0, foff := 0, fsize := 0 }
  if sect_header.flags &&& COFF_SectionFlag_LnkRemove ≠ 0 then st
  else
    (lnk_coff_reloc_info_from_section_number obj (sect_idx + 1)).foldl
      (lnk_emit_base_reloc page_size is_large_addr_aware obj_ptr obj sect_header) st

/-- Source `lnk_emit_base_relocs_from_objs_task`, body of the loop over the objects. -/
def lnk_emit_base_relocs_from_obj (page_size : Nat) (is_large_addr_aware : Bool)
    (objs : List LNK_Obj) (st : LNK_BaseRelocEmitState) (obj_idx : Nat) :
    LNK_BaseRelocEmitState :=
  let obj := lnk_obj_from_ptr objs obj_idx
  (List.range obj.section_table.length).foldl
    (lnk_emit_base_relocs_from_section page_size is_large_addr_aware obj_idx obj) st

/-- Source `lnk_emit_base_relocs_from_objs_task` for the worker whose range of objects is
`[range.1, range.2)`: the page list of the worker and the error table afterwards. -/
def lnk_emit_base_relocs_from_objs_task (page_size : Nat) (is_large_addr_aware : Bool)
    (objs : List LNK_Obj) (range : Nat × Nat) (errors : List LNK_Error) :
    LNK_BaseRelocEmitState :=
  ((List.range (range.2 - range.1)).map (fun i => range.1 + i)).foldl
    (lnk_emit_base_relocs_from_obj page_size is_large_addr_aware objs)
    { page_list := [], errors := errors }

/-- Source `lnk_build_base_relocs`, block "Merge Worker Page Lists", for one page of another
worker: its entries are appended to the page of the same offset in the main list, or the page
is pushed to the main list. -/
def lnk_base_reloc_merge_page (main_page_list : List LNK_BaseRelocPage)
    (src_page : LNK_BaseRelocPage) : List LNK_BaseRelocPage :=
  if lnk_base_reloc_page_present main_page_list src_page.voff then
    lnk_base_reloc_page_update
      (fun page => { page with
        entries_addr32 := page.entries_addr32 ++ src_page.entries_addr32,
        entries_addr64 := page.entries_addr64 ++ src_page.entries_addr64 })
      src_page.voff main_page_list
  else
    main_page_list ++ [src_page]

/-- Insertion of a page into a list sorted on the page offset. -/
def lnk_base_reloc_page_insert (page : LNK_BaseRelocPage) :
    List LNK_BaseRelocPage → List LNK_BaseRelocPage
  | [] => [page]
  | p :: rest =>
    if page.voff ≤ p.voff then page :: p :: rest
    else p :: lnk_base_reloc_page_insert page rest

/-- Modelled from the spec: the call `qsort(page_arr.v, ..., lnk_base_reloc_page_compar)`; the
library routine and `u64_compar` are not available: "pages are sorted by ascending
`page_voff`". -/
def lnk_base_reloc_page_sort (pages : List LNK_BaseRelocPage) : List LNK_BaseRelocPage :=
  pages.foldr lnk_base_reloc_page_insert []

/-- Source `lnk_build_base_relocs`, loops "write 32-bit relocations" and "write 64-bit
relocations" for one list of sites: a site the table `voff_ht` holds is skipped, any other site
is registered and its entry written. Returns the entries written and the table. -/
def lnk_base_reloc_write_entries (kind page_voff : Nat) :
    List Nat → List Nat → List Nat × List Nat
  | voff_ht, [] => ([], voff_ht)
  | voff_ht, site :: rest =>
    if site ∈ voff_ht then lnk_base_reloc_write_entries kind page_voff voff_ht rest
    else
      let r := lnk_base_reloc_write_entries kind page_voff (site :: voff_ht) rest
      (PE_BaseRelocMake kind ((site + 2 ^ 64 - page_voff) % 2 ^ 64) :: r.1, r.2)

/-- One serialized page of `lnk_build_base_relocs`: the header fields `page_voff` and
`block_size`, the 16-bit entries written behind the header (pad entries included), and the size
of the pushed buffer. Bytes of the buffer behind the entries written are uninitialised. -/
structure LNK_BaseRelocBlock where
  page_voff : Nat
  block_size : Nat
  entries : List Nat
  buf_size : Nat
  deriving DecidableEq

/-- Source `lnk_build_base_relocs`, body of the loop "Serialize Pages". -/
def lnk_base_reloc_serialize_page (page : LNK_BaseRelocPage) : LNK_BaseRelocBlock :=
  let total_entry_count := page.entries_addr32.length + page.entries_addr64.length
  let buf_size := AlignPow2 (4 + 4 + 2 * total_entry_count) 4
  let w32 := lnk_base_reloc_write_entries PE_BaseRelocKind_HIGHLOW page.voff []
    page.entries_addr32
  let w64 := lnk_base_reloc_write_entries PE_BaseRelocKind_DIR64 page.voff w32.2
    page.entries_addr64
  let pad_reloc_count := AlignPadPow2 total_entry_count 2
  let entries := w32.1 ++ w64.1 ++ List.replicate pad_reloc_count PE_BaseRelocKind_ABSOLUTE
  let reloc_arr_size := 2 * entries.length
  let block_size := 4 + 4 + reloc_arr_size
  { page_voff := page.voff % 2 ^ 32,
    block_size := block_size % 2 ^ 32,
    entries := entries,
    buf_size := buf_size }

/-- Source `lnk_build_base_relocs`. `ranges` is the result of `tp_divide_work`, one range of
object indices per worker; the error table is threaded through the workers in order. Returns
the serialized pages in order and the error table. -/
def lnk_build_base_relocs (machine_page_size file_characteristics : Nat) (objs : List LNK_Obj)
    (ranges : List (Nat × Nat)) (errors : List LNK_Error) :
    List LNK_BaseRelocBlock × List LNK_Error :=
  let is_large_addr_aware :=
    decide (file_characteristics &&& PE_ImageFileCharacteristic_LARGE_ADDRESS_AWARE ≠ 0)
  let workers : List (List LNK_BaseRelocPage) × List LNK_Error :=
    ranges.foldl
      (fun acc range =>
        let r := lnk_emit_base_relocs_from_objs_task machine_page_size is_large_addr_aware objs
          range acc.2
        (acc.1 ++ [r.page_list], r.errors))
      ([], errors)
  let main_page_list : List LNK_BaseRelocPage :=
    (workers.1.drop 1).foldl (fun main src => src.foldl lnk_base_reloc_merge_page main)
      (workers.1.headD [])
  let page_arr := lnk_base_reloc_page_sort main_page_list
  (page_arr.map lnk_base_reloc_serialize_page, workers.2)

/-- Vocabulary for base relocations: `site` is the virtual offset of the site of a relocation of
the X64 object `obj`, of type ADDR32 when `is_addr32` holds and of type ADDR64 otherwise, that is
located in a section without `LnkRemove` and whose target symbol is not absolute. -/
def lnk_obj_base_reloc_site (obj : LNK_Obj) (is_addr32 : Bool) (site : Nat) : Prop :=
  obj.machine = .X64 ∧
  ∃ sect_idx, sect_idx < obj.section_table.length ∧
    (obj.section_table.getD sect_idx { flags := 0, foff := 0, fsize := 0 }).flags
      &&& COFF_SectionFlag_LnkRemove = 0 ∧
    ∃ r ∈ lnk_coff_reloc_info_from_section_number obj (sect_idx + 1),
      coff_interp_from_parsed_symbol (lnk_parsed_symbol_from_coff_symbol_idx obj r.isymbol)
        ≠ .Abs ∧
      r.type = (if is_addr32 then COFF_Reloc_X64_Addr32 else COFF_Reloc_X64_Addr64) ∧
      site = ((obj.section_table.getD sect_idx { flags := 0, foff := 0, fsize := 0 }).voff
        + r.apply_off) % 2 ^ 32

/-- Vocabulary for base relocations: `site` is a relocation site, in the sense of
`lnk_obj_base_reloc_site`, of one of the objects. -/
def lnk_base_reloc_site (objs : List LNK_Obj) (is_addr32 : Bool) (site : Nat) : Prop :=
  ∃ obj ∈ objs, lnk_obj_base_reloc_site obj is_addr32 site

/-- Sites a page list has received: the 32-bit sites `a32` and the 64-bit sites `a64`. -/
def lnk_base_reloc_contrib (a32 a64 : List Nat) (is_addr32 : Bool) (site : Nat) : Prop :=
  (is_addr32 = true ∧ site ∈ a32) ∨ (is_addr32 = false ∧ site ∈ a64)

/-- Invariant of a page list with respect to the sites `S` it has received: page offsets are
pairwise distinct and fit 32 bits, a page holds exactly the received sites of its page, and
every received site has its page. -/
def lnk_base_reloc_pages_inv (page_size : Nat) (pages : List LNK_BaseRelocPage)
    (S : Bool → Nat → Prop) : Prop :=
  (pages.map (fun p => p.voff)).Nodup ∧
  (∀ p ∈ pages, p.voff < 2 ^ 32) ∧
  (∀ p ∈ pages, ∀ s, s ∈ p.entries_addr32 ↔ (S true s ∧ AlignDownPow2 s page_size = p.voff)) ∧
  (∀ p ∈ pages, ∀ s, s ∈ p.entries_addr64 ↔ (S false s ∧ AlignDownPow2 s page_size = p.voff)) ∧
  (∀ b s, S b s → ∃ p ∈ pages, p.voff = AlignDownPow2 s page_size)

/-- Vocabulary for base relocations: the site the relocation `r` of a section with header
`sect_header` of `obj` hands to the page lists. An ADDR32 relocation hands its site over only
when the image is not large-address-aware. -/
def lnk_reloc_base_reloc_site (is_large_addr_aware : Bool) (obj : LNK_Obj)
    (sect_header : COFF_SectionHeader) (r : COFF_Reloc) (is_addr32 : Bool) (site : Nat) : Prop :=
  obj.machine = .X64 ∧
  coff_interp_from_parsed_symbol (lnk_parsed_symbol_from_coff_symbol_idx obj r.isymbol) ≠ .Abs ∧
  r.type = (if is_addr32 then COFF_Reloc_X64_Addr32 else COFF_Reloc_X64_Addr64) ∧
  site = (sect_header.voff + r.apply_off) % 2 ^ 32 ∧
  (is_addr32 = true → is_large_addr_aware = false)

/-! ## `lnk.c`: symbol resolution and the COMDAT garbage collector -/

/-- Modelled from the spec: the macro `CeilIntegerDiv(a, b)`, whose definition is not available:
the quotient of `a` by `b`, rounded up. -/
def CeilIntegerDiv (a b : Nat) : Nat :=
  (a + (b - 1)) / b

/-- Modelled from the spec: the name `MSCRT_TLS_SYMBOL_NAME` of the TLS symbol, whose
declaration is not available ("TLS (from `_tls_used`")). -/
def MSCRT_TLS_SYMBOL_NAME : String := "_tls_used"

/-- Modelled from the spec: the storage class `COFF_SymStorageClass_External`, whose
declaration is not available; the value is the one of the published PE/COFF format. -/
def COFF_SymStorageClass_External : Nat := 2

/-- Source `lnk_symbol_table_search` on the trie of one scope: the symbol of the node found, or
null. `hash_of` stands for `lnk_symbol_hash`. -/
def lnk_symbol_table_search (hash_of : String → Nat) (scope : LNK_SymbolHashTrie)
    (name : String) : Option LNK_Symbol :=
  (lnk_symbol_hash_trie_search scope (hash_of name) name).symbol

/-- Modelled from the spec: `lnk_obj_get_comdat_symlink(obj, section_number)`, whose source is
not available: the defined view of the leader a COMDAT section of the object is linked to, or
null. -/
def lnk_obj_get_comdat_symlink (obj : LNK_Obj) (section_number : Nat) :
    Option LNK_SymbolDefined :=
  obj.symlinks.getD section_number none

/-- Source `lnk_resolve_symbol` with the trie of the Defined scope. The result `none` is the
dereference of a null `defn`; `some none` is the return value 0; `some (some s)` is the return
value 1 with `*symbol_out = s`. -/
def lnk_resolve_symbol (hash_of : String → Nat) (symtab : LNK_SymbolHashTrie)
    (objs : List LNK_Obj) (symbol : LNK_SymbolDefined) : Option (Option LNK_SymbolDefined) :=
  let symbol_parsed :=
    lnk_parsed_symbol_from_coff_symbol_idx (lnk_obj_from_ptr objs symbol.obj) symbol.symbol_idx
  match coff_interp_from_parsed_symbol symbol_parsed with
  | .Regular =>
    match lnk_obj_get_comdat_symlink (lnk_obj_from_ptr objs symbol.obj)
        symbol_parsed.section_number with
    | some symlink => some (some symlink)
    | none => some (some symbol)
  | .Weak =>
    match lnk_symbol_table_search hash_of symtab symbol_parsed.name with
    | none => none
    | some defn =>
      let defn_parsed := lnk_parsed_symbol_from_coff_symbol_idx
        (lnk_obj_from_ptr objs defn.u.defined.obj) defn.u.defined.symbol_idx
      if coff_interp_from_parsed_symbol defn_parsed ≠ .Undefined then
        some (some defn.u.defined)
      else
        some none
  | .Undefined =>
    match lnk_symbol_table_search hash_of symtab symbol_parsed.name with
    | some defn => some (some defn.u.defined)
    | none => some none
  | .Common =>
    match lnk_symbol_table_search hash_of symtab symbol_parsed.name with
    | some defn => some (some defn.u.defined)
    | none => none
  | .Abs =>
    if symbol_parsed.storage_class = COFF_SymStorageClass_External then
      match lnk_symbol_table_search hash_of symtab symbol_parsed.name with
      | some defn => some (some defn.u.defined)
      | none => none
    else
      some (some symbol)
  | .Debug => some (some symbol)

/-- Task of `lnk_gc_comdats` (`struct Task`): an object pointer and relocations to walk. -/
structure LNK_GCTask where
  obj : Nat
  relocs : List COFF_Reloc
  deriving DecidableEq

/-- Mutable state of the walk of `lnk_gc_comdats`: the objects (whose section header flags are
written), the array `was_section_visited` as the list of the pairs of input index and section
number that are set, and the task stack, top first. -/
structure LNK_GCState where
  objs : List LNK_Obj
  was_section_visited : List (Nat × Nat)
  task_stack : List LNK_GCTask
  deriving DecidableEq

/-- Source `lnk_gc_comdats`, blocks "alloc new tasks" and "divide relocs and push tasks": the
new tasks in the order they are pushed, `RELOCS_PER_TASK` = 1024 relocations each. -/
def lnk_gc_new_tasks (obj : Nat) (relocs : List COFF_Reloc) : List LNK_GCTask :=
  (List.range (CeilIntegerDiv relocs.length 1024)).map
    (fun new_task_idx =>
      { obj := obj,
        relocs := (relocs.drop (new_task_idx * 1024)).take
          (min 1024 (relocs.length - new_task_idx * 1024)) })

/-- Stack push (`SLLStackPush`) of a sequence of tasks, one after the other. -/
def lnk_gc_push_tasks (task_stack : List LNK_GCTask) (tasks : List LNK_GCTask) :
    List LNK_GCTask :=
  tasks.foldl (fun stack t => t :: stack) task_stack

/-- The statement `section_header->flags &= ~COFF_SectionFlag_LnkRemove` on the header that
`lnk_coff_section_header_from_section_number(obj, section_number)` designates; a section number
that designates no header of the object writes nothing. -/
def lnk_obj_unflag_section_removed (obj : LNK_Obj) (section_number : Nat) : LNK_Obj :=
  if section_number = 0 then obj
  else
    { obj with
      section_table := obj.section_table.modify
        (fun h => { h with flags := h.flags &&& (0xFFFFFFFF ^^^ COFF_SectionFlag_LnkRemove) })
        (section_number - 1) }

/-- The index `section_number - 1` in 32-bit arithmetic. -/
def lnk_sect_idx_from_section_number (section_number : Nat) : Nat :=
  (section_number + 2 ^ 32 - 1) % 2 ^ 32

/-- Source `lnk_gc_comdats`, the roots that are symbols: the include symbols, then the TLS
symbol when the table defines it. -/
def lnk_gc_root_names (hash_of : String → Nat) (symtab : LNK_SymbolHashTrie)
    (include_symbol_list : List String) : List String :=
  match lnk_symbol_table_search hash_of symtab MSCRT_TLS_SYMBOL_NAME with
  | some _ => include_symbol_list ++ [MSCRT_TLS_SYMBOL_NAME]
  | none => include_symbol_list

/-- Source `lnk_gc_comdats`, loop "push tasks for each root symbol". The result `none` is the
dereference of a null `root`. -/
def lnk_gc_push_root_symbols (hash_of : String → Nat) (symtab : LNK_SymbolHashTrie) :
    List LNK_GCTask → List String → Option (List LNK_GCTask)
  | task_stack, [] => some task_stack
  | task_stack, root_name :: rest =>
    match lnk_symbol_table_search hash_of symtab root_name with
    | none => none
    | some root =>
      lnk_gc_push_root_symbols hash_of symtab
        ({ obj := root.u.defined.obj,
           relocs := [{ apply_off := 0, isymbol := root.u.defined.symbol_idx, type := 0 }] }
          :: task_stack) rest

/-- Source `lnk_gc_comdats`, loop "push task for every non-COMDAT section", body for one
section of the object at pointer `obj_idx`. -/
def lnk_gc_push_root_section (objs : List LNK_Obj) (obj_idx : Nat)
    (task_stack : List LNK_GCTask) (sect_idx : Nat) : List LNK_GCTask :=
  let obj := lnk_obj_from_ptr objs obj_idx
  if lnk_is_coff_section_debug obj sect_idx then task_stack
  else
    let section_header := lnk_coff_section_header_from_section_number obj (sect_idx + 1)
    if section_header.flags &&& COFF_SectionFlag_LnkCOMDAT = 0
        ∧ section_header.flags &&& COFF_SectionFlag_LnkRemove = 0 then
      lnk_gc_push_tasks task_stack
        (lnk_gc_new_tasks obj_idx (lnk_coff_reloc_info_from_section_number obj (sect_idx + 1)))
    else task_stack

/-- Source `lnk_gc_comdats`, loop "push task for every non-COMDAT section". -/
def lnk_gc_push_root_sections (objs : List LNK_Obj) (task_stack : List LNK_GCTask) :
    List LNK_GCTask :=
  (List.range objs.length).foldl
    (fun stack obj_idx =>
      (List.range (lnk_obj_from_ptr objs obj_idx).section_table.length).foldl
        (lnk_gc_push_root_section objs obj_idx) stack)
    task_stack

/-- Source `lnk_gc_comdats`, block "begin with COMDAT sections flagged as removed", for one
object. -/
def lnk_gc_flag_comdats (obj : LNK_Obj) : LNK_Obj :=
  { obj with
    section_table := obj.section_table.map
      (fun section_header =>
        if section_header.flags &&& COFF_SectionFlag_LnkCOMDAT ≠ 0 then
          { section_header with
            flags := section_header.flags ||| COFF_SectionFlag_LnkRemove }
        else section_header) }

/-- Source `lnk_gc_comdats`, body of the loop over the section number list of a relocation
symbol of the object at pointer `reloc_obj`. -/
def lnk_gc_visit_section (reloc_obj : Nat) (st : LNK_GCState) (section_number : Nat) :
    LNK_GCState :=
  let obj := lnk_obj_from_ptr st.objs reloc_obj
  if (obj.input_idx, section_number) ∈ st.was_section_visited then st
  else
    let visited := (obj.input_idx, section_number) :: st.was_section_visited
    let section_header := lnk_coff_section_header_from_section_number obj section_number
    if lnk_is_coff_section_debug obj (lnk_sect_idx_from_section_number section_number) then
      { st with was_section_visited := visited }
    else if section_header.flags &&& COFF_SectionFlag_LnkCOMDAT = 0
        ∧ section_header.flags &&& COFF_SectionFlag_LnkRemove ≠ 0 then
      -- skip regular sections that were removed
      { st with was_section_visited := visited }
    else
      -- on reachable COMDAT sections, unset remove flag
      { objs :=
          if section_header.flags &&& COFF_SectionFlag_LnkCOMDAT ≠ 0 then
            st.objs.modify (fun o => lnk_obj_unflag_section_removed o section_number) reloc_obj
          else st.objs,
        was_section_visited := visited,
        task_stack := lnk_gc_push_tasks st.task_stack
          (lnk_gc_new_tasks reloc_obj
            (lnk_coff_reloc_info_from_section_number obj section_number)) }

/-- Source `lnk_gc_comdats`, body of the loop over the relocations of the task popped, whose
object pointer is `task_obj`. The result `none` is a null dereference in
`lnk_resolve_symbol`. -/
def lnk_gc_walk_reloc (hash_of : String → Nat) (symtab : LNK_SymbolHashTrie) (task_obj : Nat)
    (st : LNK_GCState) (reloc : COFF_Reloc) : Option LNK_GCState :=
  match lnk_resolve_symbol hash_of symtab st.objs
      { obj := task_obj, symbol_idx := reloc.isymbol } with
  | none => none
  | some none => some st
  | some (some reloc_symbol) =>
    let reloc_obj := lnk_obj_from_ptr st.objs reloc_symbol.obj
    let reloc_parsed := lnk_parsed_symbol_from_coff_symbol_idx reloc_obj reloc_symbol.symbol_idx
    if coff_interp_from_parsed_symbol reloc_parsed = .Regular then
      some ((reloc_parsed.section_number
          :: reloc_obj.associated_sections.getD reloc_parsed.section_number []).foldl
        (lnk_gc_visit_section reloc_symbol.obj) st)
    else some st

/-- Source `lnk_gc_comdats`, the loop over the relocations of one task. -/
def lnk_gc_walk_relocs (hash_of : String → Nat) (symtab : LNK_SymbolHashTrie)
    (task_obj : Nat) : LNK_GCState → List COFF_Reloc → Option LNK_GCState
  | st, [] => some st
  | st, reloc :: rest =>
    match lnk_gc_walk_reloc hash_of symtab task_obj st reloc with
    | none => none
    | some st1 => lnk_gc_walk_relocs hash_of symtab task_obj st1 rest

/-- Source `lnk_gc_comdats`, the loop `for (; task_stack; )`, at most `fuel` iterations. The
result `none` is a null dereference, or a task stack that is not empty after `fuel`
iterations. -/
def lnk_gc_walk (hash_of : String → Nat) (symtab : LNK_SymbolHashTrie) :
    Nat → LNK_GCState → Option LNK_GCState
  | 0, st =>
    match st.task_stack with
    | [] => some st
    | _ :: _ => none
  | fuel + 1, st =>
    match st.task_stack with
    | [] => some st
    | t :: rest =>
      match lnk_gc_walk_relocs hash_of symtab t.obj { st with task_stack := rest } t.relocs with
      | none => none
      | some st1 => lnk_gc_walk hash_of symtab fuel st1

/-- Source `lnk_gc_comdats`, block "unset flag on debug sections that associate with live
sections", body for one section of one object. -/
def lnk_gc_unflag_debug_associates (obj : LNK_Obj) (sect_idx : Nat) : LNK_Obj :=
  let section_number := sect_idx + 1
  let section_header := lnk_coff_section_header_from_section_number obj section_number
  if section_header.flags &&& COFF_SectionFlag_LnkRemove ≠ 0 then obj
  else
    (obj.associated_sections.getD section_number []).foldl
      (fun o n =>
        if lnk_is_coff_section_debug o (lnk_sect_idx_from_section_number n) then
          lnk_obj_unflag_section_removed o n
        else o)
      obj

/-- Source `lnk_gc_comdats`, block "unset flag on debug sections that associate with live
sections", for one object. -/
def lnk_gc_unflag_debug (obj : LNK_Obj) : LNK_Obj :=
  (List.range obj.section_table.length).foldl lnk_gc_unflag_debug_associates obj

/-- Source `lnk_gc_comdats`. `symtab` is the trie of the Defined scope, `include_symbol_list`
the include symbols of the configuration; the walk makes at most `fuel` iterations. Returns the
objects afterwards; `none` is a null dereference or a walk cut short. -/
def lnk_gc_comdats (hash_of : String → Nat) (symtab : LNK_SymbolHashTrie)
    (include_symbol_list : List String) (fuel : Nat) (objs : List LNK_Obj) :
    Option (List LNK_Obj) :=
  match lnk_gc_push_root_symbols hash_of symtab []
      (lnk_gc_root_names hash_of symtab include_symbol_list) with
  | none => none
  | some root_stack =>
    let task_stack := lnk_gc_push_root_sections objs root_stack
    match lnk_gc_walk hash_of symtab fuel
        { objs := objs.map lnk_gc_flag_comdats, was_section_visited := [],
          task_stack := task_stack } with
    | none => none
    | some st => some (st.objs.map lnk_gc_unflag_debug)

/-- Object for the collector scenarios: input index `input_idx`, symbol `i` is the Regular
symbol "s" of section `i + 1`, the sections have the given flags, associated-section lists
(by section number) and relocations (by section number), and there are no debug sections. -/
def fixture_gc_obj (input_idx : Nat) (flags : List Nat) (associated_sections : List (List Nat))
    (relocs : List (List COFF_Reloc)) : LNK_Obj :=
  { data := [], input_idx := input_idx,
    symbols := (List.range flags.length).map
      (fun i => { name := "s", section_number := i + 1, value := 0, interp := .Regular }),
    section_table := flags.map (fun f => { flags := f, foff := 0, fsize := 0 }),
    comdats := [],
    associated_sections := associated_sections,
    machine := .X64,
    relocs := relocs }

/-- Flags of the sections of the objects, object by object. -/
def lnk_objs_section_flags (objs : List LNK_Obj) : List (List Nat) :=
  objs.map (fun o => o.section_table.map (fun h => h.flags))

/-! ### Vocabulary for the collector -/

/-- Flags of the header of section `section_number` of the object at pointer `obj`. -/
def lnk_gc_section_flags (objs : List LNK_Obj) (obj section_number : Nat) : Nat :=
  (lnk_coff_section_header_from_section_number (lnk_obj_from_ptr objs obj) section_number).flags

/-- The section is a debug section, as the walk of the collector tests it. -/
def lnk_gc_is_debug (objs : List LNK_Obj) (obj section_number : Nat) : Prop :=
  lnk_is_coff_section_debug (lnk_obj_from_ptr objs obj)
    (lnk_sect_idx_from_section_number section_number) = true

/-- The object with `LnkRemove` cleared in every section header: what the collector never
changes. -/
def lnk_obj_skeleton (obj : LNK_Obj) : LNK_Obj :=
  { obj with
    section_table := obj.section_table.map
      (fun h => { h with flags := h.flags &&& (0xFFFFFFFF ^^^ COFF_SectionFlag_LnkRemove) }) }

/-- The relocation symbol `isymbol` of the object at pointer `p` leads the walk to section
`section_number` of the object at pointer `obj`: the symbol resolves to a Regular symbol of
that object, and the section is the section of this symbol or is on the associated-sections
list of the section of this symbol. -/
def lnk_gc_target (hash_of : String → Nat) (symtab : LNK_SymbolHashTrie) (objs : List LNK_Obj)
    (p isymbol obj section_number : Nat) : Prop :=
  ∃ reloc_symbol : LNK_SymbolDefined,
    lnk_resolve_symbol hash_of symtab objs { obj := p, symbol_idx := isymbol }
      = some (some reloc_symbol)
    ∧ coff_interp_from_parsed_symbol (lnk_parsed_symbol_from_coff_symbol_idx
        (lnk_obj_from_ptr objs reloc_symbol.obj) reloc_symbol.symbol_idx) = .Regular
    ∧ obj = reloc_symbol.obj
    ∧ section_number ∈
        (lnk_parsed_symbol_from_coff_symbol_idx
          (lnk_obj_from_ptr objs reloc_symbol.obj) reloc_symbol.symbol_idx).section_number
        :: (lnk_obj_from_ptr objs reloc_symbol.obj).associated_sections.getD
            (lnk_parsed_symbol_from_coff_symbol_idx
              (lnk_obj_from_ptr objs reloc_symbol.obj) reloc_symbol.symbol_idx).section_number []

/-- A section whose relocations the walk follows once it reaches the section: no debug section
and no section without `LnkCOMDAT` that carries `LnkRemove`. -/
def lnk_gc_walked (objs : List LNK_Obj) (obj section_number : Nat) : Prop :=
  ¬ lnk_gc_is_debug objs obj section_number
  ∧ (lnk_gc_section_flags objs obj section_number &&& COFF_SectionFlag_LnkCOMDAT ≠ 0
    ∨ lnk_gc_section_flags objs obj section_number &&& COFF_SectionFlag_LnkRemove = 0)

/-- A root section of the collector: a section of an object that is no debug section and
carries neither `LnkCOMDAT` nor `LnkRemove`. -/
def lnk_gc_root_section (objs : List LNK_Obj) (obj section_number : Nat) : Prop :=
  obj < objs.length
  ∧ 1 ≤ section_number ∧ section_number ≤ (lnk_obj_from_ptr objs obj).section_table.length
  ∧ lnk_is_coff_section_debug (lnk_obj_from_ptr objs obj) (section_number - 1) = false
  ∧ lnk_gc_section_flags objs obj section_number &&& COFF_SectionFlag_LnkCOMDAT = 0
  ∧ lnk_gc_section_flags objs obj section_number &&& COFF_SectionFlag_LnkRemove = 0

/-- The sections the walk of the collector reaches. A section is reached when a followed
relocation leads to it (`lnk_gc_target`); the followed relocations are the symbol of every root
symbol, the relocations of every root section, and the relocations of every reached section
whose relocations the walk follows (`lnk_gc_walked`). -/
inductive lnk_gc_reached (hash_of : String → Nat) (symtab : LNK_SymbolHashTrie)
    (include_symbol_list : List String) (objs : List LNK_Obj) : Nat → Nat → Prop
  | root_symbol (name : String) (root : LNK_Symbol) (obj section_number : Nat) :
      name ∈ lnk_gc_root_names hash_of symtab include_symbol_list →
      lnk_symbol_table_search hash_of symtab name = some root →
      lnk_gc_target hash_of symtab objs root.u.defined.obj root.u.defined.symbol_idx
        obj section_number →
      lnk_gc_reached hash_of symtab include_symbol_list objs obj section_number
  | root_section (p m : Nat) (r : COFF_Reloc) (obj section_number : Nat) :
      lnk_gc_root_section objs p m →
      r ∈ lnk_coff_reloc_info_from_section_number (lnk_obj_from_ptr objs p) m →
      lnk_gc_target hash_of symtab objs p r.isymbol obj section_number →
      lnk_gc_reached hash_of symtab include_symbol_list objs obj section_number
  | step (p m : Nat) (r : COFF_Reloc) (obj section_number : Nat) :
      lnk_gc_reached hash_of symtab include_symbol_list objs p m →
      lnk_gc_walked objs p m →
      r ∈ lnk_coff_reloc_info_from_section_number (lnk_obj_from_ptr objs p) m →
      lnk_gc_target hash_of symtab objs p r.isymbol obj section_number →
      lnk_gc_reached hash_of symtab include_symbol_list objs obj section_number

/-- The relocation symbol `isymbol` of the object at pointer `p` is settled: the sections it
leads to are visited, or a pending task holds a relocation with this symbol. -/
def lnk_gc_settled (hash_of : String → Nat) (symtab : LNK_SymbolHashTrie) (objs : List LNK_Obj)
    (visited : List (Nat × Nat)) (pending : List LNK_GCTask) (p isymbol : Nat) : Prop :=
  (∀ q n, lnk_gc_target hash_of symtab objs p isymbol q n → (q, n) ∈ visited)
  ∨ (∃ t ∈ pending, t.obj = p ∧ ∃ r ∈ t.relocs, r.isymbol = isymbol)

/-- Invariant of the walk of the collector over the objects `objs` it started from: `cur` are
the objects, `visited` the sections visited and `pending` the tasks still to walk. -/
structure lnk_gc_inv (hash_of : String → Nat) (symtab : LNK_SymbolHashTrie)
    (include_symbol_list : List String) (objs : List LNK_Obj)
    (cur : List LNK_Obj) (visited : List (Nat × Nat)) (pending : List LNK_GCTask) : Prop where
  length_eq : cur.length = objs.length
  skeleton : ∀ q, lnk_obj_skeleton (lnk_obj_from_ptr cur q)
    = lnk_obj_skeleton (lnk_obj_from_ptr objs q)
  noncomdat : ∀ q n, lnk_gc_section_flags objs q n &&& COFF_SectionFlag_LnkCOMDAT = 0 →
    lnk_gc_section_flags cur q n = lnk_gc_section_flags objs q n
  comdat_cleared : ∀ q n, lnk_gc_section_flags objs q n &&& COFF_SectionFlag_LnkCOMDAT ≠ 0 →
    lnk_gc_section_flags cur q n &&& COFF_SectionFlag_LnkRemove = 0 →
    (q, n) ∈ visited ∧ ¬ lnk_gc_is_debug objs q n
  visited_cleared : ∀ q n, (q, n) ∈ visited → q < objs.length →
    lnk_gc_section_flags objs q n &&& COFF_SectionFlag_LnkCOMDAT ≠ 0 →
    ¬ lnk_gc_is_debug objs q n →
    lnk_gc_section_flags cur q n &&& COFF_SectionFlag_LnkRemove = 0
  visited_reached : ∀ q n, (q, n) ∈ visited →
    lnk_gc_reached hash_of symtab include_symbol_list objs q n
  pending_followed : ∀ t ∈ pending, ∀ r ∈ t.relocs, ∀ q n,
    lnk_gc_target hash_of symtab objs t.obj r.isymbol q n →
    lnk_gc_reached hash_of symtab include_symbol_list objs q n
  root_symbols_settled : ∀ name ∈ lnk_gc_root_names hash_of symtab include_symbol_list,
    ∀ root, lnk_symbol_table_search hash_of symtab name = some root →
    lnk_gc_settled hash_of symtab objs visited pending root.u.defined.obj
      root.u.defined.symbol_idx
  root_sections_settled : ∀ p m, lnk_gc_root_section objs p m →
    ∀ r ∈ lnk_coff_reloc_info_from_section_number (lnk_obj_from_ptr objs p) m,
    lnk_gc_settled hash_of symtab objs visited pending p r.isymbol
  visited_settled : ∀ q n, (q, n) ∈ visited → lnk_gc_walked objs q n →
    ∀ r ∈ lnk_coff_reloc_info_from_section_number (lnk_obj_from_ptr objs q) n,
    lnk_gc_settled hash_of symtab objs visited pending q r.isymbol

/-- Number of tasks the walk pushes for the section `s.2` of the object at pointer `s.1`. -/
def lnk_gc_section_task_count (objs : List LNK_Obj) (s : Nat × Nat) : Nat :=
  CeilIntegerDiv (lnk_coff_reloc_info_from_section_number (lnk_obj_from_ptr objs s.1) s.2).length
    1024

/-- The sections of the objects that carry a relocation list. -/
def lnk_gc_all_sections (objs : List LNK_Obj) : List (Nat × Nat) :=
  (List.range objs.length).flatMap
    (fun q => (List.range (lnk_obj_from_ptr objs q).relocs.length).map (fun n => (q, n)))

/-- Number of tasks the sections not visited yet can still bring onto the task stack. -/
def lnk_gc_pending_work (objs : List LNK_Obj) (visited : List (Nat × Nat)) : Nat :=
  (((lnk_gc_all_sections objs).filter (fun s => decide (s ∉ visited))).map
    (lnk_gc_section_task_count objs)).sum

/-- Defined symbol `name`, symbol number `symbol_idx` of the object at pointer `obj`. -/
def fixture_gc_symbol (name : String) (obj symbol_idx : Nat) : LNK_Symbol :=
  { name := name,
    u := { defined := { obj := obj, symbol_idx := symbol_idx },
           lib := { lib := 0, member_offset := 0 },
           undef := { obj := 0 } } }

/-- One object for the collector: section 1 is a regular section with a relocation against the
symbol of section 2; sections 2, 3 and 4 are COMDAT sections; section 3 is associated to
section 2 and section 4 is associated to section 3. -/
def fixture_gc_chain : List LNK_Obj :=
  [fixture_gc_obj 0 [0, 0x1000, 0x1000, 0x1000] [[], [], [3], [4], []]
    [[], [⟨0, 1, 0⟩], [], [], []]]

/-- Modelled from the spec: the macro `Compose64Bit(a, b)`, whose definition is not available
("the object's `input_idx` is composed from `(lib.input_idx, member_offset)`"): the 64-bit
value `(a << 32) | b` of two 64-bit operands. -/
def Compose64Bit (a b : Nat) : Nat :=
  ((a % 2 ^ 64) <<< 32) % 2 ^ 64 ||| b % 2 ^ 64

/-- Kind of the data of an archive member (`COFF_DataType`), as far as
`lnk_queue_lib_member_input` tells the kinds apart. -/
inductive COFF_DataType
  | Null
  | Import
  | BigObj
  | Obj
  deriving DecidableEq

/-- What `lnk_queue_lib_member_input` derives from the bytes of the library for a member
offset, through helpers whose source is not available (`coff_archive_member_from_offset`,
`coff_data_type_from_data`, `coff_parse_long_name` and the path helpers): the kind of the
member, its data, and the final `obj_path`. -/
structure COFF_ArchiveMember where
  member_type : COFF_DataType
  data : List Nat
  obj_path : String
  deriving DecidableEq

/-- Queued import input (`LNK_InputImport`). -/
structure LNK_InputImport where
  coff_import : List Nat
  input_idx : Nat
  deriving DecidableEq

/-- Queued object input (`LNK_InputObj`), without the fields that only the path helpers set
(`is_thin`, `dedup_id`). -/
structure LNK_InputObj where
  path : String
  data : List Nat
  lib : Option Nat
  input_idx : Nat
  deriving DecidableEq

/-- Source `lnk_queue_lib_member_input`. `member_from_offset lib offset` stands for the parse
of the member; the result is the two input lists after the call. -/
def lnk_queue_lib_member_input (member_from_offset : Nat → Nat → COFF_ArchiveMember)
    (libs : List LNK_Lib) (symbol : LNK_SymbolLib)
    (input_import_list : List LNK_InputImport) (input_obj_list : List LNK_InputObj) :
    List LNK_InputImport × List LNK_InputObj :=
  let lib := lnk_lib_from_ptr libs symbol.lib
  let input_idx := Compose64Bit lib.input_idx symbol.member_offset
  -- parse member
  let member_info := member_from_offset symbol.lib symbol.member_offset
  match member_info.member_type with
  | .Null => (input_import_list, input_obj_list)
  | .Import =>
    (input_import_list ++ [{ coff_import := member_info.data, input_idx := input_idx }],
      input_obj_list)
  | .BigObj | .Obj =>
    (input_import_list,
      input_obj_list ++ [{ path := member_info.obj_path, data := member_info.data,
                           lib := some symbol.lib, input_idx := input_idx }])

/-- Input indices of the inputs two input lists hold, imports first. -/
def lnk_input_idx_list (lists : List LNK_InputImport × List LNK_InputObj) : List Nat :=
  lists.1.map (fun input => input.input_idx) ++ lists.2.map (fun input => input.input_idx)

/-- An archive whose every member is an object. -/
def fixture_member_obj (_lib _offset : Nat) : COFF_ArchiveMember :=
  { member_type := .Obj, data := [], obj_path := "member.obj" }

/-- Two libraries, of input index 0 and 1. -/
def fixture_two_libs : List LNK_Lib :=
  [{ input_idx := 0 }, { input_idx := 1 }]

/-! ## `lnk.c`: the state `LookupEntryPoint` -/

/-- The fields of `LNK_Config` the state `LookupEntryPoint` reads or writes up to the
entry-point error: the entry point name, the subsystem and the list of include symbols; and the
fields the sizes of the image header depend on: the machine, the number of data directories and
the file alignment. -/
structure LNK_Config where
  entry_point_name : String
  subsystem : Nat
  include_symbol_list : List String
  machine : COFF_MachineType := .Unknown
  data_dir_count : Nat := 0
  file_align : Nat := 0
  deriving DecidableEq

/-- Modelled from the spec: the subsystem value `PE_WindowsSubsystem_UNKNOWN`, whose
declaration is not available; the value is the one of the published PE format. -/
def PE_WindowsSubsystem_UNKNOWN : Nat := 0

/-- The inner loop of the searches of `LookupEntryPoint`: the first name of `name_arr` the
table of one scope has a symbol for. -/
def lnk_search_entry_point_names (search : String → Option LNK_Symbol) :
    List String → Option LNK_Symbol
  | [] => none
  | name :: rest =>
    match search name with
    | some symbol => some symbol
    | none => lnk_search_entry_point_names search rest

/-- The double loop of `LookupEntryPoint` for an unknown subsystem, from `subsys_idx` on with
`count` subsystems left: the first subsystem one of whose entry point names has a symbol, with
that symbol (`goto dbl_break`). -/
def lnk_search_entry_point_subsystems (search : String → Option LNK_Symbol)
    (pe_get_entry_point_names : Nat → List String) : Nat → Nat → Option (LNK_Symbol × Nat)
  | _, 0 => none
  | subsys_idx, count + 1 =>
    match lnk_search_entry_point_names search (pe_get_entry_point_names subsys_idx) with
    | some symbol => some (symbol, subsys_idx)
    | none =>
      lnk_search_entry_point_subsystems search pe_get_entry_point_names (subsys_idx + 1) count

/-- The loop of `LookupEntryPoint` over the Defined scope for a known subsystem: the first
symbol found stays the entry point symbol, and every further one is reported as a multiple
entry point. -/
def lnk_search_entry_point_defined (search : String → Option LNK_Symbol) :
    List String → Option LNK_Symbol → List LNK_Error → Option LNK_Symbol × List LNK_Error
  | [], entry_point_symbol, errors => (entry_point_symbol, errors)
  | name :: rest, entry_point_symbol, errors =>
    match search name with
    | some symbol =>
      match entry_point_symbol with
      | some _ =>
        lnk_search_entry_point_defined search rest entry_point_symbol
          (errors ++ [{ code := .Error_EntryPoint, obj := none }])
      | none => lnk_search_entry_point_defined search rest (some symbol) errors
    | none => lnk_search_entry_point_defined search rest entry_point_symbol errors

/-- The part of `LookupEntryPoint` that locates the entry point symbol when no entry point name
is configured: the symbol (or null), the subsystem of the configuration afterwards, and the
error table. `search_defined` and `search_lib` are `lnk_symbol_table_search` on the two
scopes, `pe_get_entry_point_names` the names of a subsystem for the machine and the file
characteristics of the configuration, `subsystem_count` is `PE_WindowsSubsystem_COUNT`. -/
def lnk_locate_entry_point_symbol (search_defined search_lib : String → Option LNK_Symbol)
    (pe_get_entry_point_names : Nat → List String) (subsystem_count : Nat)
    (config : LNK_Config) (errors : List LNK_Error) :
    Option LNK_Symbol × Nat × List LNK_Error :=
  if config.subsystem = PE_WindowsSubsystem_UNKNOWN then
    -- we don't have a subsystem and entry point name
    match lnk_search_entry_point_subsystems search_defined pe_get_entry_point_names 0
        subsystem_count with
    | some (symbol, subsys_idx) => (some symbol, subsys_idx, errors)
    | none =>
      -- search for potential entry points in libs
      match lnk_search_entry_point_subsystems search_lib pe_get_entry_point_names 0
          subsystem_count with
      | some (symbol, subsys_idx) => (some symbol, subsys_idx, errors)
      | none => (none, config.subsystem, errors)
  else
    -- we have subsystem but no entry point name
    let name_arr := pe_get_entry_point_names config.subsystem
    let r := lnk_search_entry_point_defined search_defined name_arr none errors
    match r.1 with
    | some symbol => (some symbol, config.subsystem, r.2)
    | none =>
      -- search for entry point in libs
      (lnk_search_entry_point_names search_lib name_arr, config.subsystem, r.2)

/-- The statement "redirect user entry to appropriate CRT entry" of `LookupEntryPoint`. -/
def lnk_redirect_entry_point_name (name : String) : String :=
  if str8_match "wmain" name then "wmainCRTStartup"
  else if str8_match "main" name then "mainCRTStartup"
  else if str8_match "WinMain" name then "WinMainCRTStartup"
  else if str8_match "wWinMain" name then "wWinMainCRTStartup"
  else name

/-- Source `lnk_build_link_context`, case `State_LookupEntryPoint` up to the entry-point error:
the configuration and the error table afterwards. A non-empty entry point name is passed to the
`include` option, which queues it as an include symbol. -/
def lnk_lookup_entry_point (search_defined search_lib : String → Option LNK_Symbol)
    (pe_get_entry_point_names : Nat → List String) (subsystem_count : Nat)
    (config : LNK_Config) (errors : List LNK_Error) : LNK_Config × List LNK_Error :=
  let is_entry_point_unspecified := decide (config.entry_point_name.length = 0)
  let located : LNK_Config × List LNK_Error :=
    if is_entry_point_unspecified then
      let r := lnk_locate_entry_point_symbol search_defined search_lib pe_get_entry_point_names
        subsystem_count config errors
      match r.1 with
      | some entry_point_symbol =>
        -- redirect user entry to appropriate CRT entry
        ({ config with subsystem := r.2.1,
                       entry_point_name := lnk_redirect_entry_point_name entry_point_symbol.name },
          r.2.2)
      | none => ({ config with subsystem := r.2.1 }, r.2.2)
    else
      (config, errors)
  -- generate undefined symbol so in case obj is in lib it will be linked
  if located.1.entry_point_name.length ≠ 0 then
    ({ located.1 with
        include_symbol_list := located.1.include_symbol_list ++ [located.1.entry_point_name] },
      located.2)
  else
    -- no entry point, error and exit
    (located.1, located.2 ++ [{ code := .Error_EntryPoint, obj := none }])

/-- A Defined scope that holds the one symbol `name`. -/
def fixture_search_one (name : String) (query : String) : Option LNK_Symbol :=
  if query = name then some (fixture_defined name 0) else none

/-- A scope that holds no symbol. -/
def fixture_search_none (_query : String) : Option LNK_Symbol :=
  none

/-- Entry point names of the fixtures: subsystem 2 has `WinMain` and `wWinMain`, subsystem 3
has `main` and `wmain`, subsystem 1 the driver entry, the others none. -/
def fixture_entry_point_names (subsystem : Nat) : List String :=
  match subsystem with
  | 1 => ["DriverEntry"]
  | 2 => ["WinMain", "wWinMain"]
  | 3 => ["main", "wmain"]
  | _ => []

/-! ## `lnk.c`: lookup of weak symbols in the libraries -/

/-- Modelled from the spec: `coff_parse_weak_tag(parsed_symbol, is_big_obj)`, whose source is
not available: the auxiliary record of the weak external, which holds the tag index and the
characteristics ("interpret the weak-ext tag"). -/
def coff_parse_weak_tag (parsed_symbol : COFF_ParsedSymbol) (_is_big_obj : Bool) :
    COFF_SymbolWeakExt :=
  parsed_symbol.weak_ext

/-- Modelled from the spec: `str8_match_lit(a, b, StringMatchFlag_RightSideSloppy)`, whose
source is not available: the two strings agree on the length of the shorter one, as the
string layer of the repository defines the flag. -/
def str8_match_right_side_sloppy (a b : String) : Bool :=
  decide (a.toList.take (min a.length b.length) = b.toList.take (min a.length b.length))

/-- Result of a symbol finder task (`LNK_SymbolFinderResult`). -/
structure LNK_SymbolFinderResult where
  input_import_list : List LNK_InputImport
  input_obj_list : List LNK_InputObj
  unresolved_symbol_list : List LNK_Symbol
  deriving DecidableEq

/-- Source `lnk_weak_symbol_finder`, the search for `member_symbol`: the switch over the
characteristics of the weak external. `search_lib` is `lnk_symbol_table_search` on the Lib
scope. The assertion of the MinGW case holds a string literal and does nothing. -/
def lnk_weak_symbol_member (search_lib : String → Option LNK_Symbol) (objs : List LNK_Obj)
    (symbol : LNK_Symbol) : Option LNK_Symbol :=
  let obj := lnk_obj_from_ptr objs symbol.u.defined.obj
  let parsed_symbol := lnk_parsed_symbol_from_coff_symbol_idx obj symbol.u.defined.symbol_idx
  let weak_ext := coff_parse_weak_tag parsed_symbol obj.is_big_obj
  match weak_ext.characteristics with
  | .NoLibrary =>
    -- NOLIBRARY means weak symbol should be resolved in case where strong definition pulls in
    -- lib member.
    none
  | .AntiDependency | .SearchLibrary => search_lib symbol.name
  | .SearchAlias =>
    match search_lib symbol.name with
    | some member_symbol => some member_symbol
    | none =>
      if str8_match_right_side_sloppy ".weak." symbol.name then
        -- TODO: Clang and MingGW encode extra info in alias
        none
      else
        let tag := lnk_parsed_symbol_from_coff_symbol_idx obj weak_ext.tag_index
        search_lib tag.name
  | .Unknown _ => none

/-- Source `lnk_weak_symbol_finder`, body of the loop for one queued symbol. `search_defined`
and `search_lib` are `lnk_symbol_table_search` on the two scopes. -/
def lnk_weak_symbol_finder_symbol (search_defined search_lib : String → Option LNK_Symbol)
    (member_from_offset : Nat → Nat → COFF_ArchiveMember) (objs : List LNK_Obj)
    (libs : List LNK_Lib) (result : LNK_SymbolFinderResult) (symbol : LNK_Symbol) :
    LNK_SymbolFinderResult :=
  let has_strong_defn : Bool :=
    match search_defined symbol.name with
    | some defn =>
      decide (coff_interp_from_parsed_symbol (lnk_parsed_symbol_from_defined objs defn) ≠ .Weak)
    | none => false
  if has_strong_defn then
    result
  else
    match lnk_weak_symbol_member search_lib objs symbol with
    | some member_symbol =>
      let queued := lnk_queue_lib_member_input member_from_offset libs member_symbol.u.lib
        result.input_import_list result.input_obj_list
      { result with input_import_list := queued.1, input_obj_list := queued.2 }
    | none =>
      { result with unresolved_symbol_list := result.unresolved_symbol_list ++ [symbol] }

/-- Source `lnk_weak_symbol_finder`: the loop over the symbols `range.1 ≤ symbol_idx < range.2`
of the lookup array. -/
def lnk_weak_symbol_finder (search_defined search_lib : String → Option LNK_Symbol)
    (member_from_offset : Nat → Nat → COFF_ArchiveMember) (objs : List LNK_Obj)
    (libs : List LNK_Lib) (lookup_node_arr : List LNK_Symbol) (range : Nat × Nat)
    (result : LNK_SymbolFinderResult) : LNK_SymbolFinderResult :=
  ((lookup_node_arr.drop range.1).take (range.2 - range.1)).foldl
    (lnk_weak_symbol_finder_symbol search_defined search_lib member_from_offset objs libs)
    result

/-- The empty result of a finder task. -/
def LNK_SymbolFinderResult.zero : LNK_SymbolFinderResult :=
  { input_import_list := [], input_obj_list := [], unresolved_symbol_list := [] }

/-- An object whose symbol 0 is the weak external `name` with the given characteristics and
the tag index 1, and whose symbol 1 is the undefined symbol `tag`. -/
def fixture_weak_obj (name tag : String) (characteristics : COFF_WeakExtType) : LNK_Obj :=
  { data := [], input_idx := 0,
    symbols := [{ name := name, section_number := 0, value := 0, interp := .Weak,
                  storage_class := 105,
                  weak_ext := { tag_index := 1, characteristics := characteristics } },
                { name := tag, section_number := 0, value := 0, interp := .Undefined,
                  storage_class := COFF_SymStorageClass_External }],
    section_table := [],
    comdats := [none],
    associated_sections := [[]] }

/-- A Lib scope that holds the one symbol `name`, of the member at offset `0x40` of the
library 0. -/
def fixture_search_lib (name : String) (query : String) : Option LNK_Symbol :=
  if query = name then
    some { name := name,
           u := { defined := { obj := 0, symbol_idx := 0 },
                  lib := { lib := 0, member_offset := 0x40 },
                  undef := { obj := 0 } } }
  else none

/-- The result of a finder task after `lnk_queue_lib_member_input` on the member of a Lib
symbol. -/
def lnk_finder_result_queued (member_from_offset : Nat → Nat → COFF_ArchiveMember)
    (libs : List LNK_Lib) (result : LNK_SymbolFinderResult) (member_symbol : LNK_Symbol) :
    LNK_SymbolFinderResult :=
  { result with
    input_import_list := (lnk_queue_lib_member_input member_from_offset libs
      member_symbol.u.lib result.input_import_list result.input_obj_list).1,
    input_obj_list := (lnk_queue_lib_member_input member_from_offset libs
      member_symbol.u.lib result.input_import_list result.input_obj_list).2 }

/-- The result of a finder task after the symbol is appended to the unresolved list. -/
def lnk_finder_result_unresolved (result : LNK_SymbolFinderResult) (symbol : LNK_Symbol) :
    LNK_SymbolFinderResult :=
  { result with unresolved_symbol_list := result.unresolved_symbol_list ++ [symbol] }

/-- Whether the Defined scope has a definition of the name that is not weak. -/
def lnk_has_strong_definition (search_defined : String → Option LNK_Symbol)
    (objs : List LNK_Obj) (name : String) : Prop :=
  ∃ defn, search_defined name = some defn ∧
    coff_interp_from_parsed_symbol (lnk_parsed_symbol_from_defined objs defn) ≠ .Weak

/-- Characteristics of the weak external a queued symbol designates. -/
def lnk_weak_characteristics (objs : List LNK_Obj) (symbol : LNK_Symbol) : COFF_WeakExtType :=
  (coff_parse_weak_tag
    (lnk_parsed_symbol_from_coff_symbol_idx (lnk_obj_from_ptr objs symbol.u.defined.obj)
      symbol.u.defined.symbol_idx)
    (lnk_obj_from_ptr objs symbol.u.defined.obj).is_big_obj).characteristics

/-- Name of the tag symbol of the weak external a queued symbol designates. -/
def lnk_weak_tag_name (objs : List LNK_Obj) (symbol : LNK_Symbol) : String :=
  (lnk_parsed_symbol_from_coff_symbol_idx (lnk_obj_from_ptr objs symbol.u.defined.obj)
    (coff_parse_weak_tag
      (lnk_parsed_symbol_from_coff_symbol_idx (lnk_obj_from_ptr objs symbol.u.defined.obj)
        symbol.u.defined.symbol_idx)
      (lnk_obj_from_ptr objs symbol.u.defined.obj).is_big_obj).tag_index).name

/-! ## `lnk_symbol_table.c`: finalization of weak symbols -/

/-- How the lookup loop of `lnk_finalize_weak_symbols_task` ends for one symbol: `done` with the
value assigned to `symbol->u.defined` afterwards (`none` is the zeroed struct, whose `obj` is the
null pointer) and the errors recorded; `null_deref` when the loop reads through a null pointer:
`defn_symbol` is null in the branch of a weak symbol, or the object of the current symbol or of
`defn_symbol->u.defined` is null, where the source parses the symbol unchecked; `out_of_fuel`
when the bound on the rounds is used up. -/
inductive LNK_WeakLookup
  | done (current_symbol : Option LNK_SymbolDefined) (errors : List LNK_Error)
  | null_deref
  | out_of_fuel
  deriving DecidableEq

/-- What `lnk_finalize_weak_symbols_task` has done so far: the values it has assigned to
`symbol->u.defined`, by the name of the symbol (the Defined scope holds one symbol per name),
the latest first, where `none` is the zeroed struct; the errors it has recorded; whether it has
stopped at a read through a null pointer; whether the bound on the rounds was used up. -/
structure LNK_FinalizeWeakSymbols where
  defined : List (String × Option LNK_SymbolDefined)
  errors : List LNK_Error
  null_deref : Bool
  out_of_fuel : Bool
  deriving DecidableEq

/-- The state before the first symbol of the chunk. -/
def LNK_FinalizeWeakSymbols.zero : LNK_FinalizeWeakSymbols :=
  { defined := [], errors := [], null_deref := false, out_of_fuel := false }

/-- The read `symbol->u.defined` while the task runs: the value the task assigned last to the
symbol of that name, and the value the table was built with when there is none. `none` is the
zeroed struct. -/
def lnk_symbol_defined_read (defined : List (String × Option LNK_SymbolDefined))
    (symbol : LNK_Symbol) : Option LNK_SymbolDefined :=
  match List.lookup symbol.name defined with
  | some current_symbol => current_symbol
  | none => some symbol.u.defined

/-- The weak-cycle error of `lnk_finalize_weak_symbols_task`: reported against the object of
the symbol that is finalized (`symbol_defined` is its `u.defined`, which the loop does not
write), with the reference chain of the message, the visited locations in order followed by the
first one again. -/
def lnk_error_weak_cycle (objs : List LNK_Obj) (symbol_defined : LNK_SymbolDefined)
    (lookup : List LNK_SymbolDefined) : LNK_Error :=
  { code := .Error_WeakCycle, obj := some symbol_defined.obj,
    symbol := some (lnk_parsed_symbol_from_coff_symbol_idx
      (lnk_obj_from_ptr objs symbol_defined.obj) symbol_defined.symbol_idx).name,
    ref_list := lookup ++ lookup.head?.toList }

/-- Source `lnk_finalize_weak_symbols_task`, the loop `for (;;)` for the symbol whose
`u.defined` is `symbol_defined`, with the current symbol and the queue of visited locations
(`lookup_first` to `lookup_last`). `defined` holds the values the task has assigned so far: the
reads `defn_symbol->u.defined` go through it. A current symbol that is the zeroed struct equals
no visited location (only parsed locations are recorded) and is parsed next, which reads the
null object. `coff_interp_symbol` on the fields of a parsed entry is the classification the
entry carries. -/
def lnk_finalize_weak_lookup (hash_of : String → Nat) (symtab : LNK_SymbolHashTrie)
    (objs : List LNK_Obj) (defined : List (String × Option LNK_SymbolDefined))
    (symbol_defined : LNK_SymbolDefined) :
    Nat → Option LNK_SymbolDefined → List LNK_SymbolDefined → LNK_WeakLookup
  | 0, _, _ => .out_of_fuel
  | _ + 1, none, _ => .null_deref
  | fuel + 1, some current_symbol, lookup =>
    -- guard against self-referencing weak symbols
    if current_symbol ∈ lookup then
      .done none [lnk_error_weak_cycle objs symbol_defined lookup]
    else
      let current_parsed := lnk_parsed_symbol_from_coff_symbol_idx
        (lnk_obj_from_ptr objs current_symbol.obj) current_symbol.symbol_idx
      let current_interp := coff_interp_from_parsed_symbol current_parsed
      if current_interp = .Weak then
        -- record visited symbol
        let lookup1 := lookup ++ [current_symbol]
        -- does weak symbol have a definition?
        match lnk_symbol_table_search hash_of symtab current_parsed.name with
        | none => .null_deref
        | some defn_symbol =>
          match lnk_symbol_defined_read defined defn_symbol with
          | none => .null_deref
          | some defn_defined =>
            let defn_parsed := lnk_parsed_symbol_from_coff_symbol_idx
              (lnk_obj_from_ptr objs defn_defined.obj) defn_defined.symbol_idx
            let defn_interp := coff_interp_from_parsed_symbol defn_parsed
            if defn_interp ≠ .Weak then
              .done (some defn_defined) []
            else
              -- no definition fallback to the tag
              let weak_ext := coff_parse_weak_tag current_parsed
                (lnk_obj_from_ptr objs current_symbol.obj).is_big_obj
              lnk_finalize_weak_lookup hash_of symtab objs defined symbol_defined fuel
                (some { obj := current_symbol.obj, symbol_idx := weak_ext.tag_index }) lookup1
      else if current_interp = .Undefined then
        match lnk_symbol_table_search hash_of symtab current_parsed.name with
        | none => .done none []
        | some defn_symbol =>
          lnk_finalize_weak_lookup hash_of symtab objs defined symbol_defined fuel
            (lnk_symbol_defined_read defined defn_symbol) lookup
      else
        .done (some current_symbol) []

/-- Source `lnk_finalize_weak_symbols_task`, body of the loop over the chunk for one symbol of
the Defined scope. `lnk_parsed_symbol_from_defined(symbol)` parses the entry `symbol->u.defined`
designates, which reads the null object when the struct is zeroed. For a weak symbol the lookup
runs and its result is assigned to `symbol->u.defined`; a symbol that is not weak keeps its
value. A task that has stopped processes no further symbol. -/
def lnk_finalize_weak_symbol (hash_of : String → Nat) (symtab : LNK_SymbolHashTrie)
    (objs : List LNK_Obj) (fuel : Nat) (st : LNK_FinalizeWeakSymbols) (symbol : LNK_Symbol) :
    LNK_FinalizeWeakSymbols :=
  if st.null_deref = true ∨ st.out_of_fuel = true then st
  else
    match lnk_symbol_defined_read st.defined symbol with
    | none => { st with null_deref := true }
    | some symbol_defined =>
      let symbol_parsed := lnk_parsed_symbol_from_coff_symbol_idx
        (lnk_obj_from_ptr objs symbol_defined.obj) symbol_defined.symbol_idx
      let symbol_interp := coff_interp_from_parsed_symbol symbol_parsed
      if symbol_interp = .Weak then
        match lnk_finalize_weak_lookup hash_of symtab objs st.defined symbol_defined fuel
            (some symbol_defined) [] with
        | .done current_symbol errors =>
          -- replace weak symbol with its tag
          { st with defined := (symbol.name, current_symbol) :: st.defined,
                    errors := st.errors ++ errors }
        | .null_deref => { st with null_deref := true }
        | .out_of_fuel => { st with out_of_fuel := true }
      else st

/-- Source `lnk_finalize_weak_symbols_task`: the loop over the symbols of the chunk
(`chunk->v[i].symbol`), in order; `fuel` bounds the rounds of the lookup of each symbol. -/
def lnk_finalize_weak_symbols_task (hash_of : String → Nat) (symtab : LNK_SymbolHashTrie)
    (objs : List LNK_Obj) (fuel : Nat) (chunk : List LNK_Symbol)
    (st : LNK_FinalizeWeakSymbols) : LNK_FinalizeWeakSymbols :=
  chunk.foldl (lnk_finalize_weak_symbol hash_of symtab objs fuel) st

/-- The symbol-table entries of the ingested objects, as locations `(obj, symbol_idx)`. -/
def lnk_symbol_locations (objs : List LNK_Obj) : List LNK_SymbolDefined :=
  (List.range objs.length).flatMap (fun obj =>
    (List.range (lnk_obj_from_ptr objs obj).symbols.length).map
      (fun symbol_idx => { obj := obj, symbol_idx := symbol_idx }))

/-- Classification of the entry a location designates. -/
def lnk_location_interp (objs : List LNK_Obj) (location : LNK_SymbolDefined) :
    COFF_SymbolValueInterpType :=
  coff_interp_from_parsed_symbol (lnk_parsed_symbol_from_coff_symbol_idx
    (lnk_obj_from_ptr objs location.obj) location.symbol_idx)

/-- Name of the entry a location designates. -/
def lnk_location_name (objs : List LNK_Obj) (location : LNK_SymbolDefined) : String :=
  (lnk_parsed_symbol_from_coff_symbol_idx
    (lnk_obj_from_ptr objs location.obj) location.symbol_idx).name

/-- The Defined scope holds definitions: no symbol of it designates an entry classified
Undefined, in the table with the values the task has assigned so far. -/
def lnk_defined_scope_defines (hash_of : String → Nat) (symtab : LNK_SymbolHashTrie)
    (objs : List LNK_Obj) (defined : List (String × Option LNK_SymbolDefined)) : Prop :=
  ∀ name defn d, lnk_symbol_table_search hash_of symtab name = some defn →
    lnk_symbol_defined_read defined defn = some d →
    lnk_location_interp objs d ≠ .Undefined

/-- No symbol of the Defined scope has been zeroed: every read of `u.defined` yields a
location. -/
def lnk_defined_scope_no_zeroed (hash_of : String → Nat) (symtab : LNK_SymbolHashTrie)
    (defined : List (String × Option LNK_SymbolDefined)) : Prop :=
  ∀ name defn, lnk_symbol_table_search hash_of symtab name = some defn →
    lnk_symbol_defined_read defined defn ≠ none

/-- The Defined scope has a symbol for the name of every weak entry of the objects. -/
def lnk_defined_scope_has_weak (hash_of : String → Nat) (symtab : LNK_SymbolHashTrie)
    (objs : List LNK_Obj) : Prop :=
  ∀ location : LNK_SymbolDefined, lnk_location_interp objs location = .Weak →
    lnk_symbol_table_search hash_of symtab (lnk_location_name objs location) ≠ none

/-- Object A defines the weak symbol `a` with the tag `b`, object B defines the weak symbol `b`
with the tag `a`; there is no strong definition. -/
def fixture_weak_cycle_objs : List LNK_Obj :=
  [fixture_weak_obj "a" "b" .SearchLibrary, fixture_weak_obj "b" "a" .SearchLibrary]

/-- The Defined scope after the weak symbols of `fixture_weak_cycle_objs` were pushed. -/
def fixture_weak_cycle_pushed : LNK_State × LNK_SymbolHashTrie :=
  lnk_symbol_table_push_all (fun _ => 0) .Defined
    (fixture_state fixture_weak_cycle_objs [], .null)
    [fixture_gc_symbol "a" 0 0, fixture_gc_symbol "b" 1 0]

/-- The chunk of the Defined scope of `fixture_weak_cycle_pushed`: the symbol `a`, then the
symbol `b`. -/
def fixture_weak_cycle_chunk : List LNK_Symbol :=
  [fixture_gc_symbol "a" 0 0, fixture_gc_symbol "b" 1 0]

/-- Object A defines the weak symbol `a` with the tag `b`, object B defines `b` as a Regular
symbol. -/
def fixture_weak_resolved_objs : List LNK_Obj :=
  [fixture_weak_obj "a" "b" .SearchLibrary, fixture_obj 1 "b" .Regular 1 0 none]

/-- The Defined scope after the symbols of `fixture_weak_resolved_objs` were pushed. -/
def fixture_weak_resolved_pushed : LNK_State × LNK_SymbolHashTrie :=
  lnk_symbol_table_push_all (fun _ => 0) .Defined
    (fixture_state fixture_weak_resolved_objs [], .null)
    [fixture_gc_symbol "a" 0 0, fixture_gc_symbol "b" 1 0]

/-! ## `lnk.c`: the state machine of `lnk_build_link_context` -/

/-- States of `lnk_build_link_context` (`enum State`). -/
inductive LNK_LinkState
  | Null
  | InputDisallowLibs
  | InputImports
  | InputSymbols
  | InputObjs
  | InputLibs
  | InputAlternateNames
  | PushDllHelperUndefSymbol
  | InputLinkerObjs
  | PushLoadConfigUndefSymbol
  | LookupUndef
  | LookupWeak
  | LookupEntryPoint
  | ReportUnresolvedSymbols
  deriving DecidableEq

/-- What the state machine tests of the inputs and lists the states work on: whether
`*last_disallow_lib`, `*last_include_symbol` and `*last_alt_name` are non-null, whether each
`*input_libs[i]` is non-null, and the field `count` of the input and symbol lists. -/
structure LNK_LinkInputs where
  last_disallow_lib : Bool
  input_import_list : Nat
  last_include_symbol : Bool
  last_alt_name : Bool
  input_obj_list : Nat
  input_libs : List Bool
  lookup_undef_list : Nat
  lookup_weak_list : Nat
  unresolved_weak_list : Nat
  unresolved_undef_list : Nat
  deriving DecidableEq

/-- Variables of the loop "Run states": the inputs, the three variables only the scheduling
code writes, and the queue of states. -/
structure LNK_LinkLoop where
  inputs : LNK_LinkInputs
  entry_point_lookup_attempts : Nat
  report_unresolved_symbols : Bool
  input_linker_objs : Bool
  state_list : List LNK_LinkState
  deriving DecidableEq

/-- The macro `state_list_push`. -/
def state_list_push (v : LNK_LinkLoop) (s : LNK_LinkState) : LNK_LinkLoop :=
  { v with state_list := v.state_list ++ [s] }

/-- Source `lnk_build_link_context`, the code of the loop "Run states" that follows the inner
loop over the queued states. The second component tells whether the loop goes on (`continue`)
or ends (`break`). -/
def lnk_schedule_next_state (v : LNK_LinkLoop) : LNK_LinkLoop × Bool :=
  if v.inputs.last_disallow_lib then
    (state_list_push v .InputDisallowLibs, true)
  else if v.inputs.input_import_list ≠ 0 then
    (state_list_push v .InputImports, true)
  else if v.inputs.last_include_symbol then
    (state_list_push v .InputSymbols, true)
  else if v.inputs.last_alt_name then
    (state_list_push v .InputAlternateNames, true)
  else if v.inputs.input_obj_list ≠ 0 then
    (state_list_push v .InputObjs, true)
  else if v.inputs.input_libs.any (fun pending => pending) then
    (state_list_push v .InputLibs, true)
  else if v.inputs.lookup_undef_list ≠ 0 then
    (state_list_push v .LookupUndef, true)
  else if v.inputs.lookup_weak_list ≠ 0 then
    (state_list_push v .LookupWeak, true)
  else if v.inputs.unresolved_weak_list ≠ 0 then
    -- we can't find strong definitions for unresolved weak symbols
    -- so now we have to use fallback symbols
    ({ v with inputs := { v.inputs with unresolved_weak_list := 0 } }, true)
  else if v.entry_point_lookup_attempts = 0 then
    ({ state_list_push v .LookupEntryPoint with
        entry_point_lookup_attempts := (v.entry_point_lookup_attempts + 1) % 2 ^ 64 }, true)
  else if v.input_linker_objs then
    ({ state_list_push v .InputLinkerObjs with input_linker_objs := false }, true)
  else if v.inputs.unresolved_undef_list ≠ 0 ∧ v.report_unresolved_symbols then
    ({ state_list_push v .ReportUnresolvedSymbols with report_unresolved_symbols := false },
      true)
  else
    (v, false)

/-- The inner loop over the queued states: each state is popped and run. `run_state` stands for
the code of the states, which reads and writes the inputs and lists and neither queues a state
nor writes one of the three scheduling variables. -/
def lnk_run_queued_states (run_state : LNK_LinkState → LNK_LinkInputs → LNK_LinkInputs)
    (v : LNK_LinkLoop) : LNK_LinkLoop :=
  { v with inputs := v.state_list.foldl (fun inputs s => run_state s inputs) v.inputs,
           state_list := [] }

/-- The loop "Run states" for at most `fuel` rounds: the variables afterwards and the states
scheduled, in order. -/
def lnk_run_states (run_state : LNK_LinkState → LNK_LinkInputs → LNK_LinkInputs) :
    Nat → LNK_LinkLoop → LNK_LinkLoop × List LNK_LinkState
  | 0, v => (v, [])
  | fuel + 1, v =>
    let drained := lnk_run_queued_states run_state v
    let next := lnk_schedule_next_state drained
    if next.2 then
      let rest := lnk_run_states run_state fuel next.1
      (rest.1, next.1.state_list ++ rest.2)
    else
      (next.1, [])

/-- A run of the states that consumes what each state works on and finds nothing new. -/
def fixture_run_state (s : LNK_LinkState) (inputs : LNK_LinkInputs) : LNK_LinkInputs :=
  match s with
  | .InputDisallowLibs => { inputs with last_disallow_lib := false }
  | .InputImports => { inputs with input_import_list := 0 }
  | .InputSymbols => { inputs with last_include_symbol := false }
  | .InputAlternateNames => { inputs with last_alt_name := false }
  | .InputObjs => { inputs with input_obj_list := 0, lookup_undef_list := 2 }
  | .InputLibs => { inputs with input_libs := inputs.input_libs.map (fun _ => false) }
  | .LookupUndef => { inputs with lookup_undef_list := 0, unresolved_undef_list := 1 }
  | .LookupWeak => { inputs with lookup_weak_list := 0 }
  | _ => inputs

/-- The variables at the start of the loop for one object input and one library input. -/
def fixture_link_loop : LNK_LinkLoop :=
  { inputs := { last_disallow_lib := false, input_import_list := 0,
                last_include_symbol := false, last_alt_name := false, input_obj_list := 2,
                input_libs := [true, false, false], lookup_undef_list := 0,
                lookup_weak_list := 0, unresolved_weak_list := 0, unresolved_undef_list := 0 },
    entry_point_lookup_attempts := 0,
    report_unresolved_symbols := true,
    input_linker_objs := true,
    state_list := [.InputDisallowLibs, .InputObjs, .InputLibs] }

/-- What one round of scheduling does: it queues one state, or drops the unresolved weak
symbols, or ends the loop. -/
inductive LNK_ScheduleAction
  | schedule (s : LNK_LinkState)
  | drop_unresolved_weak
  | finish
  deriving DecidableEq

/-- The scheduling order as the specification lists it: each condition with what is done when
it is the first that holds. -/
def lnk_schedule_order (v : LNK_LinkLoop) : List (Bool × LNK_ScheduleAction) :=
  [(v.inputs.last_disallow_lib, .schedule .InputDisallowLibs),
   (decide (v.inputs.input_import_list ≠ 0), .schedule .InputImports),
   (v.inputs.last_include_symbol, .schedule .InputSymbols),
   (v.inputs.last_alt_name, .schedule .InputAlternateNames),
   (decide (v.inputs.input_obj_list ≠ 0), .schedule .InputObjs),
   (decide (true ∈ v.inputs.input_libs), .schedule .InputLibs),
   (decide (v.inputs.lookup_undef_list ≠ 0), .schedule .LookupUndef),
   (decide (v.inputs.lookup_weak_list ≠ 0), .schedule .LookupWeak),
   (decide (v.inputs.unresolved_weak_list ≠ 0), .drop_unresolved_weak),
   (decide (v.entry_point_lookup_attempts = 0), .schedule .LookupEntryPoint),
   (v.input_linker_objs, .schedule .InputLinkerObjs),
   (decide (v.inputs.unresolved_undef_list ≠ 0) && v.report_unresolved_symbols,
     .schedule .ReportUnresolvedSymbols)]

/-- The action the specification prescribes: that of the first condition that holds, and the
end of the loop when none holds. -/
def lnk_schedule_spec (v : LNK_LinkLoop) : LNK_ScheduleAction :=
  match (lnk_schedule_order v).find? (fun entry => entry.1) with
  | some entry => entry.2
  | none => .finish

/-- The variables after an action, as the specification describes the rounds: a scheduled
state is queued, and `LookupEntryPoint`, `InputLinkerObjs` and `ReportUnresolvedSymbols` are
marked as done. -/
def lnk_schedule_apply (v : LNK_LinkLoop) : LNK_ScheduleAction → LNK_LinkLoop × Bool
  | .schedule .LookupEntryPoint =>
    ({ state_list_push v .LookupEntryPoint with entry_point_lookup_attempts := 1 }, true)
  | .schedule .InputLinkerObjs =>
    ({ state_list_push v .InputLinkerObjs with input_linker_objs := false }, true)
  | .schedule .ReportUnresolvedSymbols =>
    ({ state_list_push v .ReportUnresolvedSymbols with report_unresolved_symbols := false },
      true)
  | .schedule s => (state_list_push v s, true)
  | .drop_unresolved_weak =>
    ({ v with inputs := { v.inputs with unresolved_weak_list := 0 } }, true)
  | .finish => (v, false)

/-! ## `lnk_directive.c`: the export directive -/

/-- The loop of the string splitter over the bytes that are left, with the part `cur` scanned
so far: a split character ends the part, and a part is kept when it is not empty. -/
def str8_split_chars (split_chars : List Char) : List Char → List Char → List (List Char)
  | [], cur => if cur = [] then [] else [cur]
  | c :: rest, cur =>
    if c ∈ split_chars then
      (if cur = [] then [] else [cur]) ++ str8_split_chars split_chars rest []
    else
      str8_split_chars split_chars rest (cur ++ [c])

/-- Modelled from the spec: `str8_split_by_string_chars(arena, string, split_chars, 0)`, whose
source is not available: the parts of the string between split characters, in order; with the
flags 0 empty parts are dropped. -/
def str8_split_by_string_chars (string split_chars : String) : List String :=
  (str8_split_chars split_chars.toList string.toList []).map String.mk

/-- Parsed export directive (`LNK_ExportParse`), without the link to the next one; the field
`alias_` is the field `alias` of the source. -/
structure LNK_ExportParse where
  name : String
  alias_ : String
  type : String
  deriving DecidableEq

/-- List of parsed export directives (`LNK_ExportParseList`): the chain from `first` to `last`
and the field `count`. -/
structure LNK_ExportParseList where
  entries : List LNK_ExportParse
  count : Nat
  deriving DecidableEq

/-- Source `lnk_parse_export_direcive`, the block "parse directive": the name, the alias and
the type the function arrives at. `code_type` stands for
`coff_string_from_import_header_type(COFF_ImportHeaderType_CODE)`. -/
def lnk_parse_export_fields (code_type : String) (value_list : List String) :
    String × String × String :=
  if value_list.length > 0 then
    let dir_split := str8_split_by_string_chars (value_list.headD "") "="
    let is_export_valid := decide (value_list.length ≤ 2) && decide (value_list.length > 0)
    if is_export_valid then
      (if dir_split.length > 0 then dir_split.getLastD "" else "",
       if dir_split.length = 2 then dir_split.headD "" else "",
       if value_list.length = 2 then value_list.getLastD "" else code_type)
    else
      ("", "", code_type)
  else
    ("", "", code_type)

/-- Source `lnk_parse_export_direcive`: the pointer returned (null or the new entry), the list
and the error table afterwards; `obj` is the object the error is reported against. -/
def lnk_parse_export_direcive (code_type : String) (list : LNK_ExportParseList)
    (value_list : List String) (obj : Nat) (errors : List LNK_Error) :
    Option LNK_ExportParse × LNK_ExportParseList × List LNK_Error :=
  -- parse directive
  let parsed := lnk_parse_export_fields code_type value_list
  -- parse error check
  if parsed.1.length = 0 then
    (none, list, errors ++ [{ code := .Error_IllData, obj := some obj }])
  else
    let parse : LNK_ExportParse :=
      { name := parsed.1, alias_ := parsed.2.1, type := parsed.2.2 }
    (some parse,
      { entries := list.entries ++ [parse], count := (list.count + 1) % 2 ^ 64 },
      errors)

/-! ## Several external symbols in one section -/

/-- An object that defines the external symbols `f` and `g` in its COMDAT section 1
(selection `Any`, length 8). -/
def fixture_two_symbols_obj (input_idx : Nat) : LNK_Obj :=
  { data := [], input_idx := input_idx,
    symbols := [{ name := "f", section_number := 1, value := 0, interp := .Regular,
                  storage_class := COFF_SymStorageClass_External },
                { name := "g", section_number := 1, value := 4, interp := .Regular,
                  storage_class := COFF_SymStorageClass_External }],
    section_table := [{ flags := COFF_SectionFlag_LnkCOMDAT, foff := 0, fsize := 0 }],
    comdats := [none, some { select := .Any, section_length := 8, check_sum := 0 }],
    associated_sections := [[], []] }

/-- An object that defines the one external symbol `name` in its COMDAT section 1 (selection
`Any`, length 8). -/
def fixture_one_symbol_obj (input_idx : Nat) (name : String) : LNK_Obj :=
  { data := [], input_idx := input_idx,
    symbols := [{ name := name, section_number := 1, value := 0, interp := .Regular,
                  storage_class := COFF_SymStorageClass_External }],
    section_table := [{ flags := COFF_SectionFlag_LnkCOMDAT, foff := 0, fsize := 0 }],
    comdats := [none, some { select := .Any, section_length := 8, check_sum := 0 }],
    associated_sections := [[], []] }

/-- Three objects: the second input defines `f` and `g` in one section, the first input defines
`f`, the third input defines `g`. No section header carries `LnkRemove`. -/
def fixture_shared_section_objs : List LNK_Obj :=
  [fixture_two_symbols_obj 1, fixture_one_symbol_obj 0 "f", fixture_one_symbol_obj 2 "g"]

/-- The first three pushes of the symbols of `fixture_shared_section_objs` to the Defined
scope: `f` and `g` of the object that shares the section, then `f` of the first input. -/
def fixture_shared_section_three : LNK_State × LNK_SymbolHashTrie :=
  lnk_symbol_table_push_all (fun _ => 0) .Defined
    (fixture_state fixture_shared_section_objs [], .null)
    [fixture_gc_symbol "f" 0 0, fixture_gc_symbol "g" 0 1, fixture_gc_symbol "f" 1 0]

/-- The four pushes of the symbols of `fixture_shared_section_objs` to the Defined scope, in the
order the objects list them. -/
def fixture_shared_section_pushed : LNK_State × LNK_SymbolHashTrie :=
  lnk_symbol_table_push_all (fun _ => 0) .Defined
    (fixture_state fixture_shared_section_objs [], .null)
    [fixture_gc_symbol "f" 0 0, fixture_gc_symbol "g" 0 1,
     fixture_gc_symbol "f" 1 0, fixture_gc_symbol "g" 2 0]

/-! ## `lnk.c`: symbol patcher -/

/-- Modelled from the spec: the storage class `COFF_SymStorageClass_Static`, whose declaration
is not available ("`storage=Static`"); the value is the one of the published PE/COFF format. -/
def COFF_SymStorageClass_Static : Nat := 3

/-- The constant `max_U32`. -/
def max_U32 : Nat := 0xFFFFFFFF

/-- Section contribution (`LNK_SectionContrib`): the fields `u.sect_idx` and `u.off` the symbol
patcher reads. -/
structure LNK_SectionContrib where
  sect_idx : Nat
  off : Nat
  deriving DecidableEq

/-- Helpers and constants of the COFF layer the symbol patch tasks use and whose declarations
are not available: the classification `coff_interp_symbol(section_number, value,
storage_class)` and the two section numbers that mark a symbol of a removed section. -/
structure LNK_SymbolPatchHelpers where
  coff_interp_symbol : Nat → Nat → Nat → COFF_SymbolValueInterpType
  LNK_REMOVED_SECTION_NUMBER_16 : Nat
  LNK_REMOVED_SECTION_NUMBER_32 : Nat

/-- What the symbol patch tasks read of `LNK_BuildImageTask`: the map from the sections of the
objects to their contributions (`sect_map[obj_idx][sect_idx]`, where `none` is the null
contribution `null_sc`), the section index of the common block section, the common block
contributions with the ranges of the workers, and the trie of the Defined scope. -/
structure LNK_BuildImageTask where
  sect_map : List (List (Option LNK_SectionContrib))
  common_block_sect : Nat
  common_block_contribs : List LNK_CommonBlockContrib
  common_block_ranges : List (Nat × Nat)
  symtab : LNK_SymbolHashTrie
  deriving DecidableEq

/-- What the symbol patch tasks write: the symbol tables of the objects, the bitmap
`was_symbol_patched[obj_idx][symbol_idx]`, and whether the assertion of `lnk_patch_obj_symtab`
has failed. -/
structure LNK_PatchSymtabs where
  objs : List LNK_Obj
  was_symbol_patched : List (List Bool)
  assert_failed : Bool
  deriving DecidableEq

/-- Symbol-table entry `symbol_idx` of the object `obj_idx`, if there is one. -/
def lnk_patch_symbol (st : LNK_PatchSymtabs) (obj_idx symbol_idx : Nat) :
    Option COFF_ParsedSymbol :=
  match st.objs[obj_idx]? with
  | some obj => obj.symbols[symbol_idx]?
  | none => none

/-- The read `was_symbol_patched[obj_idx][symbol_idx]`. -/
def lnk_was_symbol_patched (st : LNK_PatchSymtabs) (obj_idx symbol_idx : Nat) : Bool :=
  (st.was_symbol_patched.getD obj_idx []).getD symbol_idx false

/-- The store `was_symbol_patched[obj_idx][symbol_idx] = 1`. -/
def lnk_set_symbol_patched (st : LNK_PatchSymtabs) (obj_idx symbol_idx : Nat) :
    LNK_PatchSymtabs :=
  { st with
    was_symbol_patched := st.was_symbol_patched.modify (fun row => row.set symbol_idx true)
      obj_idx }

/-- The stores to the fields of a `COFF_Symbol32` behind `raw_symbol`, as the parser shows the
entry afterwards: section number and value are 32-bit fields, and the classification is the
one `coff_interp_symbol` gives the new fields. -/
def coff_symbol32_store (helpers : LNK_SymbolPatchHelpers) (symbol : COFF_ParsedSymbol)
    (section_number value storage_class : Nat) : COFF_ParsedSymbol :=
  { symbol with
    section_number := section_number % 2 ^ 32,
    value := value % 2 ^ 32,
    storage_class := storage_class,
    interp := helpers.coff_interp_symbol (section_number % 2 ^ 32) (value % 2 ^ 32)
      storage_class }

/-- The stores to the fields of a `COFF_Symbol16` behind `raw_symbol`: the section number is a
16-bit field, the value a 32-bit field. -/
def coff_symbol16_store (helpers : LNK_SymbolPatchHelpers) (symbol : COFF_ParsedSymbol)
    (section_number value storage_class : Nat) : COFF_ParsedSymbol :=
  { symbol with
    section_number := section_number % 2 ^ 16,
    value := value % 2 ^ 32,
    storage_class := storage_class,
    interp := helpers.coff_interp_symbol (section_number % 2 ^ 16) (value % 2 ^ 32)
      storage_class }

/-- The two branches `if (obj->header.is_big_obj) ... else ...` that end each patch: the entry
`symbol_idx` of the object `obj_idx` receives the section number, the value and the storage
class. The assertions of the checked casts are not modelled. -/
def lnk_patch_store_symbol (helpers : LNK_SymbolPatchHelpers) (st : LNK_PatchSymtabs)
    (obj_idx symbol_idx : Nat) (section_number value storage_class : Nat) : LNK_PatchSymtabs :=
  let obj := lnk_obj_from_ptr st.objs obj_idx
  let symbol := lnk_parsed_symbol_from_coff_symbol_idx obj symbol_idx
  let stored :=
    if obj.is_big_obj then
      coff_symbol32_store helpers symbol section_number value storage_class
    else
      coff_symbol16_store helpers symbol section_number value storage_class
  { st with
    objs := st.objs.modify (fun o => { o with symbols := o.symbols.set symbol_idx stored })
      obj_idx }

/-- Source `lnk_flag_debug_symbols_task`, body of the loop for one symbol. -/
def lnk_flag_debug_symbol (helpers : LNK_SymbolPatchHelpers) (st : LNK_PatchSymtabs)
    (obj_idx symbol_idx : Nat) : LNK_PatchSymtabs :=
  let obj := lnk_obj_from_ptr st.objs obj_idx
  let symbol := lnk_parsed_symbol_from_coff_symbol_idx obj symbol_idx
  let interp := helpers.coff_interp_symbol symbol.section_number symbol.value
    symbol.storage_class
  if interp = .Regular then
    if lnk_is_coff_section_debug obj ((symbol.section_number + 2 ^ 32 - 1) % 2 ^ 32) then
      lnk_set_symbol_patched st obj_idx symbol_idx
    else st
  else st

/-- Source `lnk_patch_comdat_leaders_task`, body of the loop for one symbol. -/
def lnk_patch_comdat_leader_symbol (helpers : LNK_SymbolPatchHelpers) (st : LNK_PatchSymtabs)
    (obj_idx symbol_idx : Nat) : LNK_PatchSymtabs :=
  let obj := lnk_obj_from_ptr st.objs obj_idx
  let symbol := lnk_parsed_symbol_from_coff_symbol_idx obj symbol_idx
  let interp := helpers.coff_interp_symbol symbol.section_number symbol.value
    symbol.storage_class
  if interp = .Regular then
    match lnk_obj_get_comdat_symlink obj symbol.section_number with
    | some symlink =>
      if symlink.obj ≠ obj_idx then
        if symbol.storage_class = COFF_SymStorageClass_External then
          -- COMDAT leader may be at a different offset, so update this symbol with leader's
          -- offset
          let parsed_symlink := lnk_parsed_symbol_from_coff_symbol_idx
            (lnk_obj_from_ptr st.objs symlink.obj) symlink.symbol_idx
          lnk_patch_store_symbol helpers st obj_idx symbol_idx symbol.section_number
            parsed_symlink.value symbol.storage_class
        else
          -- COMDAT section may have static symbols which are now invalid to relocate against
          lnk_patch_store_symbol helpers (lnk_set_symbol_patched st obj_idx symbol_idx)
            obj_idx symbol_idx helpers.LNK_REMOVED_SECTION_NUMBER_32 max_U32
            symbol.storage_class
      else st
    | none => st
  else st

/-- Source `lnk_patch_common_block_leaders_task`, body of the loop for one contribution. -/
def lnk_patch_common_block_leader (helpers : LNK_SymbolPatchHelpers)
    (task : LNK_BuildImageTask) (st : LNK_PatchSymtabs) (contrib : LNK_CommonBlockContrib) :
    LNK_PatchSymtabs :=
  let symbol := contrib.symbol
  let obj := lnk_obj_from_ptr st.objs symbol.u.defined.obj
  let parsed_symbol := lnk_parsed_symbol_from_coff_symbol_idx obj symbol.u.defined.symbol_idx
  let section_number := (task.common_block_sect + 1) % 2 ^ 64
  let st1 := lnk_patch_store_symbol helpers st symbol.u.defined.obj symbol.u.defined.symbol_idx
    (section_number % 2 ^ 32) contrib.u parsed_symbol.storage_class
  lnk_set_symbol_patched st1 obj.input_idx symbol.u.defined.symbol_idx

/-- Source `lnk_patch_regular_symbols_task`, body of the loop for one symbol. The local
`section_number` is a 16-bit variable. -/
def lnk_patch_regular_symbol (helpers : LNK_SymbolPatchHelpers) (task : LNK_BuildImageTask)
    (st : LNK_PatchSymtabs) (obj_idx symbol_idx : Nat) : LNK_PatchSymtabs :=
  let obj := lnk_obj_from_ptr st.objs obj_idx
  let symbol := lnk_parsed_symbol_from_coff_symbol_idx obj symbol_idx
  if lnk_was_symbol_patched st obj_idx symbol_idx then st
  else
    let interp := helpers.coff_interp_symbol symbol.section_number symbol.value
      symbol.storage_class
    if interp = .Regular then
      let sc := (task.sect_map.getD obj_idx []).getD
        ((symbol.section_number + 2 ^ 32 - 1) % 2 ^ 32) none
      let section_number : Nat :=
        match sc with
        | none => helpers.LNK_REMOVED_SECTION_NUMBER_16 % 2 ^ 16
        | some sc => ((sc.sect_idx + 1) % 2 ^ 32) % 2 ^ 16
      let value : Nat :=
        match sc with
        | none => max_U32
        | some sc => (sc.off + symbol.value) % 2 ^ 32
      lnk_patch_store_symbol helpers st obj_idx symbol_idx section_number value
        symbol.storage_class
    else st

/-- Source `lnk_patch_obj_symtab`, body of the loop for one symbol. The result `none` is the
dereference of a null pointer in `lnk_resolve_symbol`. The copy of the field `type` is not
modelled. -/
def lnk_patch_obj_symtab_symbol (helpers : LNK_SymbolPatchHelpers) (hash_of : String → Nat)
    (symtab : LNK_SymbolHashTrie) (fixup_type : COFF_SymbolValueInterpType)
    (st : LNK_PatchSymtabs) (obj_idx symbol_idx : Nat) : Option LNK_PatchSymtabs :=
  let obj := lnk_obj_from_ptr st.objs obj_idx
  let fixup_dst := lnk_parsed_symbol_from_coff_symbol_idx obj symbol_idx
  if lnk_was_symbol_patched st obj_idx symbol_idx then some st
  else
    let fixup_dst_type := helpers.coff_interp_symbol fixup_dst.section_number fixup_dst.value
      fixup_dst.storage_class
    if fixup_type ≠ fixup_dst_type then some st
    else
      match lnk_resolve_symbol hash_of symtab st.objs
          { obj := obj_idx, symbol_idx := symbol_idx } with
      | none => none
      | some none => some st
      | some (some fixup_symbol) =>
        let fixup_src := lnk_parsed_symbol_from_coff_symbol_idx
          (lnk_obj_from_ptr st.objs fixup_symbol.obj) fixup_symbol.symbol_idx
        let src_type := helpers.coff_interp_symbol fixup_src.section_number fixup_src.value
          fixup_src.storage_class
        let failed : Bool :=
          !(decide (src_type = .Regular) || decide (src_type = .Abs)
            || decide (src_type = .Common))
        let st1 := lnk_patch_store_symbol helpers st obj_idx symbol_idx
          fixup_src.section_number fixup_src.value COFF_SymStorageClass_Static
        some (lnk_set_symbol_patched { st1 with assert_failed := st1.assert_failed || failed }
          obj_idx symbol_idx)

/-- The loop `for (symbol_idx = 0; symbol_idx < obj->header.symbol_count; ...)` of a patch task
over the entries of the symbol table of the object `obj_idx`. -/
def lnk_for_each_symbol (body : LNK_PatchSymtabs → Nat → Nat → LNK_PatchSymtabs)
    (st : LNK_PatchSymtabs) (obj_idx : Nat) : LNK_PatchSymtabs :=
  (List.range (lnk_obj_from_ptr st.objs obj_idx).symbols.length).foldl
    (fun acc symbol_idx => body acc obj_idx symbol_idx) st

/-- A loop whose body can fail: the first failure ends it. -/
def lnk_patch_fold (body : LNK_PatchSymtabs → Nat → Option LNK_PatchSymtabs) :
    List Nat → LNK_PatchSymtabs → Option LNK_PatchSymtabs
  | [], st => some st
  | i :: rest, st =>
    match body st i with
    | some st1 => lnk_patch_fold body rest st1
    | none => none

/-- Source `lnk_flag_debug_symbols_task` for the object `task_id`. -/
def lnk_flag_debug_symbols_task (helpers : LNK_SymbolPatchHelpers) (st : LNK_PatchSymtabs)
    (task_id : Nat) : LNK_PatchSymtabs :=
  lnk_for_each_symbol (lnk_flag_debug_symbol helpers) st task_id

/-- Source `lnk_patch_comdat_leaders_task` for the object `task_id`. -/
def lnk_patch_comdat_leaders_task (helpers : LNK_SymbolPatchHelpers) (st : LNK_PatchSymtabs)
    (task_id : Nat) : LNK_PatchSymtabs :=
  lnk_for_each_symbol (lnk_patch_comdat_leader_symbol helpers) st task_id

/-- Source `lnk_patch_common_block_leaders_task` for the worker `task_id`: the contributions
of its range. -/
def lnk_patch_common_block_leaders_task (helpers : LNK_SymbolPatchHelpers)
    (task : LNK_BuildImageTask) (st : LNK_PatchSymtabs) (task_id : Nat) : LNK_PatchSymtabs :=
  let contrib_range := task.common_block_ranges.getD task_id (0, 0)
  ((task.common_block_contribs.drop contrib_range.1).take
      (contrib_range.2 - contrib_range.1)).foldl
    (lnk_patch_common_block_leader helpers task) st

/-- Source `lnk_patch_regular_symbols_task` for the object `task_id`. -/
def lnk_patch_regular_symbols_task (helpers : LNK_SymbolPatchHelpers)
    (task : LNK_BuildImageTask) (st : LNK_PatchSymtabs) (task_id : Nat) : LNK_PatchSymtabs :=
  lnk_for_each_symbol (lnk_patch_regular_symbol helpers task) st task_id

/-- Source `lnk_patch_obj_symtab` for the object `obj_idx` and one kind of symbols. -/
def lnk_patch_obj_symtab (helpers : LNK_SymbolPatchHelpers) (hash_of : String → Nat)
    (symtab : LNK_SymbolHashTrie) (st : LNK_PatchSymtabs) (obj_idx : Nat)
    (fixup_type : COFF_SymbolValueInterpType) : Option LNK_PatchSymtabs :=
  lnk_patch_fold
    (fun acc symbol_idx =>
      lnk_patch_obj_symtab_symbol helpers hash_of symtab fixup_type acc obj_idx symbol_idx)
    (List.range (lnk_obj_from_ptr st.objs obj_idx).symbols.length) st

/-- Source `lnk_patch_common_symbols_task`. -/
def lnk_patch_common_symbols_task (helpers : LNK_SymbolPatchHelpers) (hash_of : String → Nat)
    (task : LNK_BuildImageTask) (st : LNK_PatchSymtabs) (task_id : Nat) :
    Option LNK_PatchSymtabs :=
  lnk_patch_obj_symtab helpers hash_of task.symtab st task_id .Common

/-- Source `lnk_patch_abs_symbols_task`. -/
def lnk_patch_abs_symbols_task (helpers : LNK_SymbolPatchHelpers) (hash_of : String → Nat)
    (task : LNK_BuildImageTask) (st : LNK_PatchSymtabs) (task_id : Nat) :
    Option LNK_PatchSymtabs :=
  lnk_patch_obj_symtab helpers hash_of task.symtab st task_id .Abs

/-- Source `lnk_patch_undefined_symbols_task`. -/
def lnk_patch_undefined_symbols_task (helpers : LNK_SymbolPatchHelpers)
    (hash_of : String → Nat) (task : LNK_BuildImageTask) (st : LNK_PatchSymtabs)
    (task_id : Nat) : Option LNK_PatchSymtabs :=
  lnk_patch_obj_symtab helpers hash_of task.symtab st task_id .Undefined

/-- Source `lnk_patch_weak_symbols_task`. -/
def lnk_patch_weak_symbols_task (helpers : LNK_SymbolPatchHelpers) (hash_of : String → Nat)
    (task : LNK_BuildImageTask) (st : LNK_PatchSymtabs) (task_id : Nat) :
    Option LNK_PatchSymtabs :=
  lnk_patch_obj_symtab helpers hash_of task.symtab st task_id .Weak

/-- The stages of the block "Patch Symbol Tables" of `lnk_build_image`, one per
`tp_for_parallel_prof` call. -/
inductive LNK_PatchStage
  | FlagDebugSymbols
  | ComdatLeaders
  | CommonBlockLeaders
  | RegularSymbols
  | CommonSymbols
  | AbsoluteSymbols
  | UndefinedSymbols
  | WeakSymbols
  deriving DecidableEq

/-- One `tp_for_parallel_prof` call of the block "Patch Symbol Tables", its tasks run one after
the other in the order of their task ids: one task per object, and for the common block
leaders one task per worker range. -/
def lnk_patch_stage_run (helpers : LNK_SymbolPatchHelpers) (hash_of : String → Nat)
    (task : LNK_BuildImageTask) (st : LNK_PatchSymtabs) :
    LNK_PatchStage → Option LNK_PatchSymtabs
  | .FlagDebugSymbols =>
    some ((List.range st.objs.length).foldl (lnk_flag_debug_symbols_task helpers) st)
  | .ComdatLeaders =>
    some ((List.range st.objs.length).foldl (lnk_patch_comdat_leaders_task helpers) st)
  | .CommonBlockLeaders =>
    some ((List.range task.common_block_ranges.length).foldl
      (lnk_patch_common_block_leaders_task helpers task) st)
  | .RegularSymbols =>
    some ((List.range st.objs.length).foldl (lnk_patch_regular_symbols_task helpers task) st)
  | .CommonSymbols =>
    lnk_patch_fold (lnk_patch_common_symbols_task helpers hash_of task)
      (List.range st.objs.length) st
  | .AbsoluteSymbols =>
    lnk_patch_fold (lnk_patch_abs_symbols_task helpers hash_of task)
      (List.range st.objs.length) st
  | .UndefinedSymbols =>
    lnk_patch_fold (lnk_patch_undefined_symbols_task helpers hash_of task)
      (List.range st.objs.length) st
  | .WeakSymbols =>
    lnk_patch_fold (lnk_patch_weak_symbols_task helpers hash_of task)
      (List.range st.objs.length) st

/-- A sequence of stages, one after the other. -/
def lnk_patch_stages_run (helpers : LNK_SymbolPatchHelpers) (hash_of : String → Nat)
    (task : LNK_BuildImageTask) : List LNK_PatchStage → LNK_PatchSymtabs →
    Option LNK_PatchSymtabs
  | [], st => some st
  | stage :: rest, st =>
    match lnk_patch_stage_run helpers hash_of task st stage with
    | some st1 => lnk_patch_stages_run helpers hash_of task rest st1
    | none => none

/-- The stages of the block "Patch Symbol Tables" of `lnk_build_image`, in order. -/
def lnk_patch_symbol_tables_stages : List LNK_PatchStage :=
  [.FlagDebugSymbols, .ComdatLeaders, .CommonBlockLeaders, .RegularSymbols, .CommonSymbols,
   .AbsoluteSymbols, .UndefinedSymbols, .WeakSymbols, .UndefinedSymbols]

/-- The bitmap as the block "Patch Symbol Tables" allocates it: one zeroed row per object, as
long as its symbol table. -/
def lnk_patch_symtabs_init (objs : List LNK_Obj) : LNK_PatchSymtabs :=
  { objs := objs,
    was_symbol_patched := objs.map (fun obj => List.replicate obj.symbols.length false),
    assert_failed := false }

/-- Source `lnk_build_image`, block "Patch Symbol Tables". -/
def lnk_patch_symbol_tables (helpers : LNK_SymbolPatchHelpers) (hash_of : String → Nat)
    (task : LNK_BuildImageTask) (objs : List LNK_Obj) : Option LNK_PatchSymtabs :=
  lnk_patch_stages_run helpers hash_of task lnk_patch_symbol_tables_stages
    (lnk_patch_symtabs_init objs)

/-- Whether a stage is one of those that test `was_symbol_patched` before they rewrite an
entry. -/
def LNK_PatchStage.checks_bitmap : LNK_PatchStage → Bool
  | .RegularSymbols | .CommonSymbols | .AbsoluteSymbols | .UndefinedSymbols | .WeakSymbols =>
    true
  | _ => false

/-- Whether a stage is one of those that set `was_symbol_patched` for every entry they
rewrite. -/
def LNK_PatchStage.records_rewrites : LNK_PatchStage → Bool
  | .CommonBlockLeaders | .CommonSymbols | .AbsoluteSymbols | .UndefinedSymbols
  | .WeakSymbols => true
  | _ => false

/-- The classification of the published PE/COFF format, for the fixtures: section number 0 is
undefined (common when the value is not 0 and the class is external), `0xFFFF` and
`0xFFFFFFFF` are absolute, `0xFFFE` and `0xFFFFFFFE` debug, the storage class 105 is a weak
external, everything else is regular. -/
def fixture_coff_interp_symbol (section_number value storage_class : Nat) :
    COFF_SymbolValueInterpType :=
  if storage_class = 105 then .Weak
  else if section_number = 0 then
    if storage_class = COFF_SymStorageClass_External ∧ value ≠ 0 then .Common else .Undefined
  else if section_number = 0xFFFF ∨ section_number = 0xFFFFFFFF then .Abs
  else if section_number = 0xFFFE ∨ section_number = 0xFFFFFFFE then .Debug
  else .Regular

/-- Helpers of the fixtures: the removed-section numbers are `0xFFFD` and `0xFFFFFFFD`. -/
def fixture_patch_helpers : LNK_SymbolPatchHelpers :=
  { coff_interp_symbol := fixture_coff_interp_symbol,
    LNK_REMOVED_SECTION_NUMBER_16 := 0xFFFD,
    LNK_REMOVED_SECTION_NUMBER_32 := 0xFFFFFFFD }

/-- Two objects with a COMDAT section 1 each that holds the external symbol `f`: in the first
object, the leader, at offset 8; in the second at offset 0, with the section linked to the
leader. Both sections map to one contribution, at offset `0x100` of the image section of index
2. -/
def fixture_comdat_follower_objs : List LNK_Obj :=
  [{ data := [], input_idx := 0,
     symbols := [{ name := "f", section_number := 1, value := 8, interp := .Regular,
                   storage_class := COFF_SymStorageClass_External }],
     section_table := [{ flags := COFF_SectionFlag_LnkCOMDAT, foff := 0, fsize := 16 }],
     comdats := [none, some { select := .Any, section_length := 16, check_sum := 0 }],
     associated_sections := [[], []],
     symlinks := [none, some { obj := 0, symbol_idx := 0 }],
     removed_section_number := 0xFFFD },
   { data := [], input_idx := 1,
     symbols := [{ name := "f", section_number := 1, value := 0, interp := .Regular,
                   storage_class := COFF_SymStorageClass_External }],
     section_table := [{ flags := COFF_SectionFlag_LnkCOMDAT ||| COFF_SectionFlag_LnkRemove,
                         foff := 0, fsize := 16 }],
     comdats := [none, some { select := .Any, section_length := 16, check_sum := 0 }],
     associated_sections := [[], []],
     symlinks := [none, some { obj := 0, symbol_idx := 0 }],
     removed_section_number := 0xFFFD }]

/-- The patch context of `fixture_comdat_follower_objs`. -/
def fixture_comdat_follower_task : LNK_BuildImageTask :=
  { sect_map := [[some { sect_idx := 2, off := 0x100 }], [some { sect_idx := 2, off := 0x100 }]],
    common_block_sect := 0,
    common_block_contribs := [],
    common_block_ranges := [(0, 0)],
    symtab := .node (some "f") (some (fixture_gc_symbol "f" 0 0)) .null .null .null .null }

/-- The states of `fixture_comdat_follower_objs` after the first `n` stages of the block "Patch
Symbol Tables". -/
def fixture_comdat_follower_after (n : Nat) : Option LNK_PatchSymtabs :=
  lnk_patch_stages_run fixture_patch_helpers (fun _ => 0) fixture_comdat_follower_task
    (lnk_patch_symbol_tables_stages.take n) (lnk_patch_symtabs_init fixture_comdat_follower_objs)

/-- The bitmap has a row for every object, as long as its symbol table, and the objects are
indexed by their input index. -/
def lnk_patch_wf (st : LNK_PatchSymtabs) : Prop :=
  st.was_symbol_patched.map List.length = st.objs.map (fun obj => obj.symbols.length) ∧
  ∀ (o : Nat) (obj : LNK_Obj), st.objs[o]? = some obj → obj.input_idx = o

/-- No entry loses its mark in `was_symbol_patched`. -/
def lnk_patch_flags_monotone (st st' : LNK_PatchSymtabs) : Prop :=
  ∀ o i, lnk_was_symbol_patched st o i = true → lnk_was_symbol_patched st' o i = true

/-- Every entry that was recorded in `was_symbol_patched` is the same afterwards, and still
recorded. -/
def lnk_patch_keeps_recorded (st st' : LNK_PatchSymtabs) : Prop :=
  ∀ o i, lnk_was_symbol_patched st o i = true →
    lnk_patch_symbol st' o i = lnk_patch_symbol st o i ∧ lnk_was_symbol_patched st' o i = true

/-- Every entry that differs afterwards is recorded in `was_symbol_patched`. -/
def lnk_patch_records_rewrites (st st' : LNK_PatchSymtabs) : Prop :=
  ∀ o i, lnk_patch_symbol st' o i ≠ lnk_patch_symbol st o i →
    lnk_was_symbol_patched st' o i = true

/-- Every entry that differs afterwards and was not of the external storage class is recorded
in `was_symbol_patched`. -/
def lnk_patch_records_static_rewrites (st st' : LNK_PatchSymtabs) : Prop :=
  ∀ o i, lnk_patch_symbol st' o i ≠ lnk_patch_symbol st o i →
    (∀ symbol, lnk_patch_symbol st o i = some symbol →
      symbol.storage_class ≠ COFF_SymStorageClass_External) →
    lnk_was_symbol_patched st' o i = true

/-- No entry of a symbol table differs afterwards. -/
def lnk_patch_keeps_symbols (st st' : LNK_PatchSymtabs) : Prop :=
  ∀ o i, lnk_patch_symbol st' o i = lnk_patch_symbol st o i

/-- The state of `fixture_comdat_follower_objs` after the stage "Regular Symbols" alone. -/
def fixture_patch_regular_state : LNK_PatchSymtabs :=
  (lnk_patch_stage_run fixture_patch_helpers (fun _ => 0) fixture_comdat_follower_task
    (lnk_patch_symtabs_init fixture_comdat_follower_objs) .RegularSymbols).getD
    (lnk_patch_symtabs_init fixture_comdat_follower_objs)

/-- The state of `fixture_comdat_follower_objs` after the stage "Regular Symbols" and the five
stages that follow it in the block "Patch Symbol Tables". -/
def fixture_patch_final_state : LNK_PatchSymtabs :=
  (lnk_patch_stages_run fixture_patch_helpers (fun _ => 0) fixture_comdat_follower_task
    (lnk_patch_symbol_tables_stages.drop 4) fixture_patch_regular_state).getD
    fixture_patch_regular_state

/-- An object whose symbol 0 is the static Regular symbol `g` at offset 4 of section 1 and
whose section 2 holds a relocation against it; `is_big_obj` tells the format, and the
removed-section number is the one of the format. -/
def fixture_removed_symbol_obj (is_big_obj : Bool) : LNK_Obj :=
  { data := [], input_idx := 0,
    symbols := [{ name := "g", section_number := 1, value := 4, interp := .Regular,
                  storage_class := COFF_SymStorageClass_Static }],
    section_table := [{ flags := COFF_SectionFlag_LnkRemove, foff := 0, fsize := 8 },
                      { flags := 0, foff := 8, fsize := 8 }],
    comdats := [none, none, none],
    associated_sections := [[], [], []],
    machine := .X64,
    relocs := [[], [], [{ apply_off := 0, isymbol := 0, type := COFF_Reloc_X64_Addr64 }]],
    removed_section_number := if is_big_obj then 0xFFFFFFFD else 0xFFFD,
    is_big_obj := is_big_obj }

/-- The patch context of `fixture_removed_symbol_obj`: section 1 maps to the null contribution,
section 2 to offset `0x40` of the image section of index 1. -/
def fixture_removed_symbol_task : LNK_BuildImageTask :=
  { sect_map := [[none, some { sect_idx := 1, off := 0x40 }]],
    common_block_sect := 0,
    common_block_contribs := [],
    common_block_ranges := [],
    symtab := .null }

/-- The object `fixture_removed_symbol_obj` after `lnk_patch_regular_symbols_task`. -/
def fixture_removed_symbol_patched (is_big_obj : Bool) : LNK_Obj :=
  lnk_obj_from_ptr
    (lnk_patch_regular_symbols_task fixture_patch_helpers fixture_removed_symbol_task
      (lnk_patch_symtabs_init [fixture_removed_symbol_obj is_big_obj]) 0).objs 0

/-- The object `fixture_removed_symbol_obj` after `lnk_patch_regular_symbols_task` when its
section 1 maps to offset `0x40` of the image section of index 1. -/
def fixture_live_symbol_patched (is_big_obj : Bool) : LNK_Obj :=
  lnk_obj_from_ptr
    (lnk_patch_regular_symbols_task fixture_patch_helpers
      { fixture_removed_symbol_task with
        sect_map := [[some { sect_idx := 1, off := 0x40 }, none]] }
      (lnk_patch_symtabs_init [fixture_removed_symbol_obj is_big_obj]) 0).objs 0

/-! ## The symbol `__ImageBase` -/

/-- An object whose symbol 0 is the absolute symbol `__ImageBase` and whose symbol 1 is the
absolute symbol `limit` of value `0x50000000`. -/
def fixture_image_base_obj : LNK_Obj :=
  { data := [], input_idx := 0,
    symbols := [{ name := "__ImageBase", section_number := 0xFFFFFFFF, value := 0,
                  interp := .Abs, storage_class := COFF_SymStorageClass_External },
                { name := "limit", section_number := 0xFFFFFFFF, value := 0x50000000,
                  interp := .Abs, storage_class := COFF_SymStorageClass_External }],
    section_table := [{ flags := 0, foff := 0, fsize := 16 }],
    comdats := [none, none],
    associated_sections := [[], []],
    machine := .X64,
    relocs := [[], [{ apply_off := 0, isymbol := 0, type := COFF_Reloc_X64_Addr64 }]] }

/-- Source `lnk_gc_comdats`, block "divide relocs and push tasks", for a relocation array of
`count` entries: for each new task, in order, the index of the first relocation of its slice
(`t->relocs.v` is `relocs.v + new_task_idx * RELOCS_PER_TASK`) and the length `t->relocs.count`
of the slice. -/
def lnk_gc_new_task_slices (count : Nat) : List (Nat × Nat) :=
  (List.range (CeilIntegerDiv count 1024)).map
    (fun new_task_idx => (new_task_idx * 1024, min 1024 (count - new_task_idx * 1024)))

/-- The inner loop over the queued states, as the list of the states run, each with the inputs
and lists it meets when it starts. -/
def lnk_run_queued_trace (run_state : LNK_LinkState → LNK_LinkInputs → LNK_LinkInputs)
    (inputs : LNK_LinkInputs) : List LNK_LinkState → List (LNK_LinkState × LNK_LinkInputs)
  | [] => []
  | s :: rest => (s, inputs) :: lnk_run_queued_trace run_state (run_state s inputs) rest

/-- The loop "Run states" for at most `fuel` rounds, as the list of the states run, each with
the inputs and lists it meets when it starts. -/
def lnk_run_states_trace (run_state : LNK_LinkState → LNK_LinkInputs → LNK_LinkInputs) :
    Nat → LNK_LinkLoop → List (LNK_LinkState × LNK_LinkInputs)
  | 0, _ => []
  | fuel + 1, v =>
    let ran := lnk_run_queued_trace run_state v.inputs v.state_list
    let next := lnk_schedule_next_state (lnk_run_queued_states run_state v)
    if next.2 then ran ++ lnk_run_states_trace run_state fuel next.1 else ran

/-- Source `lnk_build_link_context`, block "Init state machine": the variables when the loop
"Run states" starts, for the inputs gathered before it. `delay_load_dll_count` is
`config->delay_load_dll_list.node_count` and `guard_enabled` tells whether `config->guard_flags`
differs from `LNK_Guard_None`. -/
def lnk_link_loop_init (inputs : LNK_LinkInputs) (delay_load_dll_count : Nat)
    (guard_enabled : Bool) : LNK_LinkLoop :=
  let v0 : LNK_LinkLoop :=
    { inputs := inputs, entry_point_lookup_attempts := 0, report_unresolved_symbols := true,
      input_linker_objs := true, state_list := [] }
  let v1 := state_list_push v0 .InputDisallowLibs
  let v2 := state_list_push v1 .InputObjs
  let v3 := state_list_push v2 .InputLibs
  let v4 := if delay_load_dll_count ≠ 0 then state_list_push v3 .PushDllHelperUndefSymbol else v3
  if guard_enabled then state_list_push v4 .PushLoadConfigUndefSymbol else v4

/-- The inputs and lists after the first round of the scenario of `fixture_link_loop`: the obj
and library inputs are consumed and two undefined symbols wait for their lookup. -/
def fixture_lookup_undef_inputs : LNK_LinkInputs :=
  { last_disallow_lib := false, input_import_list := 0, last_include_symbol := false,
    last_alt_name := false, input_obj_list := 0, input_libs := [false, false, false],
    lookup_undef_list := 2, lookup_weak_list := 0, unresolved_weak_list := 0,
    unresolved_undef_list := 0 }

/-! ## `lnk.c`: nearest section of the map writer -/

/-- The sizes `lnk_build_win32_header` and `lnk_compute_win32_image_header_size` take from
declarations that are not available: `sizeof` of the header structures and the size of the DOS
program `pe_dos_program`. -/
structure PE_HeaderSizes where
  sizeof_PE_DosHeader : Nat
  pe_dos_program_size : Nat
  sizeof_COFF_FileHeader : Nat
  sizeof_PE_OptionalHeader32Plus : Nat
  sizeof_PE_OptionalHeader32 : Nat
  sizeof_PE_DataDirectory : Nat
  sizeof_COFF_SectionHeader : Nat
  deriving DecidableEq

/-- Image section (`LNK_Section`): the fields `lnk_build_win32_header` copies to the section
table. -/
structure LNK_Section where
  name : String
  flags : Nat
  voff : Nat
  vsize : Nat
  fsize : Nat
  foff : Nat
  deriving DecidableEq

/-- Source `lnk_compute_win32_image_header_size`. `pe_has_plus_header`, whose source is not
available, is a parameter. -/
def lnk_compute_win32_image_header_size (sizes : PE_HeaderSizes)
    (pe_has_plus_header : COFF_MachineType → Bool) (config : LNK_Config) (sect_count : Nat) :
    Nat :=
  let image_header_size := 0
  let image_header_size :=
    (image_header_size + (sizes.sizeof_PE_DosHeader + sizes.pe_dos_program_size)) % 2 ^ 64
  let image_header_size := (image_header_size + 4) % 2 ^ 64 -- PE_MAGIC
  let image_header_size := (image_header_size + sizes.sizeof_COFF_FileHeader) % 2 ^ 64
  let image_header_size :=
    (image_header_size + (if pe_has_plus_header config.machine
      then sizes.sizeof_PE_OptionalHeader32Plus else sizes.sizeof_PE_OptionalHeader32)) % 2 ^ 64
  let image_header_size :=
    (image_header_size + sizes.sizeof_PE_DataDirectory * config.data_dir_count) % 2 ^ 64
  let image_header_size :=
    (image_header_size + sizes.sizeof_COFF_SectionHeader * sect_count) % 2 ^ 64
  image_header_size

/-- Source `lnk_build_win32_header`, the loop that fills the COFF section table: the number
`coff_section_table_count` of headers written. The table is zeroed memory (`push_array`), so
the header the test of `LnkRemove` reads has no flag. -/
def lnk_win32_section_table_count (sects : List LNK_Section) : Nat :=
  let coff_section_table : List COFF_SectionHeader :=
    List.replicate sects.length { flags := 0, foff := 0, fsize := 0 }
  (List.range sects.length).foldl
    (fun coff_section_table_count sect_idx =>
      let coff_section := coff_section_table.getD sect_idx { flags := 0, foff := 0, fsize := 0 }
      if coff_section.flags &&& COFF_SectionFlag_LnkRemove ≠ 0 then coff_section_table_count
      else coff_section_table_count + 1)
    0

/-- What the sizes of the image header are read from in the result of
`lnk_build_win32_header`: the sizes of the strings pushed to the result list, in order, the
field `sizeof_headers` of the optional header (`none` when no optional header is written),
whether `NotImplemented` was met, and whether the final assertion on the total size fails. -/
structure LNK_Win32Header where
  nodes : List Nat
  sizeof_headers : Option Nat
  not_implemented : Bool
  assert_failed : Bool
  deriving DecidableEq

/-- The field `total_size` of the result list. -/
def LNK_Win32Header.total_size (header : LNK_Win32Header) : Nat :=
  header.nodes.sum % 2 ^ 64

/-- Source `lnk_build_win32_header`, as far as the sizes of the strings pushed and the field
`sizeof_headers` go. `pe_has_plus_header`, whose source is not available, is a parameter; the
cast `safe_cast_u32` keeps the low 32 bits. -/
def lnk_build_win32_header (sizes : PE_HeaderSizes)
    (pe_has_plus_header : COFF_MachineType → Bool) (config : LNK_Config)
    (sects : List LNK_Section) (expected_image_header_size : Nat) : LNK_Win32Header :=
  -- DOS header
  let dos_stub_size := (sizes.sizeof_PE_DosHeader + sizes.pe_dos_program_size) % 2 ^ 32
  let result : List Nat := [sizes.sizeof_PE_DosHeader, sizes.pe_dos_program_size]
  -- PE magic
  let result := result ++ [4]
  -- determine PE optional header type
  let has_pe_plus_header := pe_has_plus_header config.machine
  -- COFF file header
  let result := result ++ [sizes.sizeof_COFF_FileHeader]
  -- compute image headers size
  let sizeof_image_headers := 0
  let sizeof_image_headers := (sizeof_image_headers + dos_stub_size) % 2 ^ 64
  let sizeof_image_headers := (sizeof_image_headers + sizes.sizeof_COFF_FileHeader) % 2 ^ 64
  let sizeof_image_headers :=
    (sizeof_image_headers + (if has_pe_plus_header
      then sizes.sizeof_PE_OptionalHeader32Plus else sizes.sizeof_PE_OptionalHeader32)) % 2 ^ 64
  let sizeof_image_headers :=
    (sizeof_image_headers + sizes.sizeof_PE_DataDirectory * config.data_dir_count) % 2 ^ 64
  let sizeof_image_headers :=
    (sizeof_image_headers + sizes.sizeof_COFF_SectionHeader * sects.length) % 2 ^ 64
  let sizeof_image_headers := AlignPow2 sizeof_image_headers config.file_align
  -- fill out PE optional header
  let result :=
    if has_pe_plus_header then result ++ [sizes.sizeof_PE_OptionalHeader32Plus] else result
  -- PE directories
  let result := result ++ [sizes.sizeof_PE_DataDirectory * config.data_dir_count]
  -- COFF section table
  let coff_section_table_count := lnk_win32_section_table_count sects
  let result := result ++ [sizes.sizeof_COFF_SectionHeader * coff_section_table_count]
  -- align image headers
  let image_headers_align_size := AlignPadPow2 (result.sum % 2 ^ 64) config.file_align
  let result := result ++ [image_headers_align_size]
  { nodes := result,
    sizeof_headers := if has_pe_plus_header then some (sizeof_image_headers % 2 ^ 32) else none,
    not_implemented := !has_pe_plus_header,
    assert_failed := decide (result.sum % 2 ^ 64 ≠ expected_image_header_size) }

/-- Source `lnk_build_image`, block "build win32 image header": the call of
`lnk_build_win32_header` with the argument computed from `expected_image_header_size`, which
is `lnk_compute_win32_image_header_size(config, task.image_sects.count)`. -/
def lnk_build_image_win32_header (sizes : PE_HeaderSizes)
    (pe_has_plus_header : COFF_MachineType → Bool) (config : LNK_Config)
    (image_sects : List LNK_Section) : LNK_Win32Header :=
  let expected_image_header_size :=
    lnk_compute_win32_image_header_size sizes pe_has_plus_header config image_sects.length
  lnk_build_win32_header sizes pe_has_plus_header config image_sects
    (AlignPow2 expected_image_header_size config.file_align)

/-- The sizes of the header structures in the published PE format, with a DOS program of 64
bytes. -/
def fixture_pe_header_sizes : PE_HeaderSizes :=
  { sizeof_PE_DosHeader := 64, pe_dos_program_size := 64, sizeof_COFF_FileHeader := 20,
    sizeof_PE_OptionalHeader32Plus := 112, sizeof_PE_OptionalHeader32 := 96,
    sizeof_PE_DataDirectory := 8, sizeof_COFF_SectionHeader := 40 }

/-- The X64 machine has the optional header of the PE32+ format. -/
def fixture_pe_has_plus_header (machine : COFF_MachineType) : Bool :=
  decide (machine = .X64)

/-- Configuration of an X64 image with 16 data directories and the file alignment
`file_align`. -/
def fixture_image_config (file_align : Nat) : LNK_Config :=
  { entry_point_name := "", subsystem := 0, include_symbol_list := [], machine := .X64,
    data_dir_count := 16, file_align := file_align }

/-- One image section `.text`. -/
def fixture_image_sects : List LNK_Section :=
  [{ name := ".text", flags := 0x60000020, voff := 0x1000, vsize := 0x10, fsize := 0x200,
     foff := 0x400 }]

/-! ## `lnk.c`: serialization of the resource tree -/

/-- Kind of a resource identifier (`COFF_ResourceIDType`). -/
inductive COFF_ResourceIDType
  | Null
  | Number
  | String
  deriving DecidableEq

/-- Resource identifier (`COFF_ResourceID`): the type and the two views `u.number` and
`u.string` of the union. Zeroed memory reads as the number 0 and as the empty string. -/
structure COFF_ResourceID where
  type : COFF_ResourceIDType
  number : Nat
  string : String
  deriving DecidableEq

/-- Kind of the data of a resource (`PE_ResDataKind`). -/
inductive PE_ResDataKind
  | NULL
  | DIR
  | COFF_LEAF
  | COFF_RESOURCE
  deriving DecidableEq

/-- Resource of the input tree (`PE_Resource`): identifier, kind, and the views of the union
`u` that the serializer reads: the named and the numbered resources of the directory `u.dir`,
and the bytes `u.coff_res.data`. -/
inductive PE_Resource
  | mk (id : COFF_ResourceID) (kind : PE_ResDataKind) (dir_named_list : List PE_Resource)
      (dir_id_list : List PE_Resource) (coff_res_data : List Nat)

/-- Field `id`. -/
def PE_Resource.id : PE_Resource → COFF_ResourceID
  | .mk id _ _ _ _ => id

/-- Field `kind`. -/
def PE_Resource.kind : PE_Resource → PE_ResDataKind
  | .mk _ kind _ _ _ => kind

/-- View `u.dir->named_list`. -/
def PE_Resource.dir_named_list : PE_Resource → List PE_Resource
  | .mk _ _ named _ _ => named

/-- View `u.dir->id_list`. -/
def PE_Resource.dir_id_list : PE_Resource → List PE_Resource
  | .mk _ _ _ ids _ => ids

/-- View `u.coff_res.data`. -/
def PE_Resource.coff_res_data : PE_Resource → List Nat
  | .mk _ _ _ _ data => data

/-- Zeroed resource. -/
def PE_Resource.zero : PE_Resource :=
  .mk { type := .Null, number := 0, string := "" } .NULL [] [] []

/-- Directory entry written to `.rsrc$01` (`COFF_ResourceDirEntry`): the union `name`
(`name.offset` or `name.id`) and the union `id` (`id.data_entry_offset`). -/
structure COFF_ResourceDirEntry where
  name : Nat
  data_entry_offset : Nat
  deriving DecidableEq

/-- What `lnk_serialize_pe_resource_tree` takes from declarations that are not available: the
sizes of the structures written, the offset of `data_voff` in the data entry, and the flag
`COFF_Resource_SubDirFlag`. -/
structure COFF_ResourceLayout where
  sizeof_COFF_ResourceDirTable : Nat
  sizeof_COFF_ResourceDirEntry : Nat
  sizeof_COFF_ResourceDataEntry : Nat
  offsetof_data_voff : Nat
  COFF_Resource_SubDirFlag : Nat
  deriving DecidableEq

/-- String pushed to the data of `.rsrc$01`: a directory header, an array of directory entries
(the array is filled in after the push, so the string designates it), a resource name, or a
data entry. -/
inductive LNK_RsrcNode
  | dir_header (name_entry_count id_entry_count : Nat)
  | entries (array : Nat) (count : Nat)
  | res_name (bytes : List Nat)
  | data_entry (data_size : Nat)
  deriving DecidableEq

/-- Size of a string of `.rsrc$01`. -/
def LNK_RsrcNode.size (layout : COFF_ResourceLayout) : LNK_RsrcNode → Nat
  | .dir_header _ _ => layout.sizeof_COFF_ResourceDirTable
  | .entries _ count => layout.sizeof_COFF_ResourceDirEntry * count
  | .res_name bytes => bytes.length
  | .data_entry _ => layout.sizeof_COFF_ResourceDataEntry

/-- The field `total_size` of the data of `.rsrc$01`. -/
def lnk_rsrc_total_size (layout : COFF_ResourceLayout) (data : List LNK_RsrcNode) : Nat :=
  (data.map (LNK_RsrcNode.size layout)).sum % 2 ^ 64

/-- Frame of the stack of `lnk_serialize_pe_resource_tree` (`struct Stack`); the entry arrays
are designated by their index in the list of the arrays allocated. -/
structure LNK_ResStack where
  arr_idx : Nat
  res_idx : List Nat
  res_arr : List (List PE_Resource)
  coff_entry_arr : List Nat

/-- State of `lnk_serialize_pe_resource_tree`: the stack, top first, the entry arrays
allocated, the data of `.rsrc$01` and of `.rsrc$02`, the relocations pushed to `.rsrc$01`
(offset of the site and offset of the symbol `resdat` in `.rsrc$02`), and whether
`InvalidPath` was met. -/
structure LNK_ResSerializer where
  stack : List LNK_ResStack
  entry_arrays : List (List COFF_ResourceDirEntry)
  rsrc1 : List LNK_RsrcNode
  rsrc2 : List (List Nat)
  relocs : List (Nat × Nat)
  invalid_path : Bool

/-- Insertion of a resource into a sorted array, before the first element it is before. -/
def lnk_res_insert (is_before : PE_Resource → PE_Resource → Bool) (r : PE_Resource) :
    List PE_Resource → List PE_Resource
  | [] => [r]
  | x :: rest => if is_before r x then r :: x :: rest else x :: lnk_res_insert is_before r rest

/-- Modelled from the spec: `radsort(v, count, is_before)`, whose source is not available: the
array sorted by the comparison. -/
def lnk_res_radsort (is_before : PE_Resource → PE_Resource → Bool)
    (v : List PE_Resource) : List PE_Resource :=
  v.foldr (lnk_res_insert is_before) []

/-- Source `lnk_res_string_id_is_before`; `str8_is_before_case_sensitive`, whose source is not
available, is a parameter. -/
def lnk_res_string_id_is_before (str8_is_before_case_sensitive : String → String → Bool)
    (a b : PE_Resource) : Bool :=
  str8_is_before_case_sensitive a.id.string b.id.string

/-- Source `lnk_res_number_id_is_before`. -/
def lnk_res_number_id_is_before (a b : PE_Resource) : Bool :=
  decide (a.id.number < b.id.number)

/-- Write to the field `name` of the entry of index `i` of an entry array. -/
def lnk_res_set_entry_name (entry_arrays : List (List COFF_ResourceDirEntry))
    (array i name : Nat) : List (List COFF_ResourceDirEntry) :=
  entry_arrays.modify (fun entries => entries.modify (fun e => { e with name := name }) i) array

/-- Write to the field `id.data_entry_offset` of the entry of index `i` of an entry array. -/
def lnk_res_set_entry_data_offset (entry_arrays : List (List COFF_ResourceDirEntry))
    (array i off : Nat) : List (List COFF_ResourceDirEntry) :=
  entry_arrays.modify
    (fun entries => entries.modify (fun e => { e with data_entry_offset := off }) i) array

/-- Source `lnk_serialize_pe_resource_tree`, loop "fill out named ids" of the directory `res`
for the entries of `named_array` from index `i` on. `coff_resource_string_from_str8`, whose
source is not available, is a parameter. -/
def lnk_res_fill_named_ids (layout : COFF_ResourceLayout)
    (coff_resource_string_from_str8 : String → List Nat) (res : PE_Resource)
    (named_entries : Nat) :
    List PE_Resource → Nat → LNK_ResSerializer → LNK_ResSerializer
  | [], _, st => st
  | _src :: rest, i, st =>
    -- append resource name
    let res_name_off := lnk_rsrc_total_size layout st.rsrc1 % 2 ^ 32
    let res_name := coff_resource_string_from_str8 res.id.string
    let st1 : LNK_ResSerializer :=
      { st with
        rsrc1 := st.rsrc1 ++ [.res_name res_name],
        entry_arrays := lnk_res_set_entry_name st.entry_arrays named_entries i
          (0x80000000 ||| res_name_off) }
    lnk_res_fill_named_ids layout coff_resource_string_from_str8 res named_entries rest (i + 1)
      st1

/-- Source `lnk_serialize_pe_resource_tree`, loop "fill out number ids" for the entries of
`id_array` from index `i` on. -/
def lnk_res_fill_number_ids (id_entries : Nat) :
    List PE_Resource → Nat → LNK_ResSerializer → LNK_ResSerializer
  | [], _, st => st
  | src :: rest, i, st =>
    lnk_res_fill_number_ids id_entries rest (i + 1)
      { st with
        entry_arrays := lnk_res_set_entry_name st.entry_arrays id_entries i src.id.number }

/-- Source `lnk_serialize_pe_resource_tree`, body of the innermost loop for the resource `res`
of index `res_idx` of the array `arr_idx` of the top frame `frame`; `rest` is the stack below
the frame. -/
def lnk_res_serialize_resource (layout : COFF_ResourceLayout)
    (coff_resource_string_from_str8 : String → List Nat)
    (str8_is_before_case_sensitive : String → String → Bool)
    (st : LNK_ResSerializer) (frame : LNK_ResStack) (rest : List LNK_ResStack) :
    LNK_ResSerializer :=
  let res_idx := frame.res_idx.getD frame.arr_idx 0
  let frame1 : LNK_ResStack :=
    { frame with res_idx := frame.res_idx.set frame.arr_idx (res_idx + 1) }
  let res := (frame.res_arr.getD frame.arr_idx []).getD res_idx PE_Resource.zero
  -- assign entry data offset, set directory flag
  let data_entry_offset := lnk_rsrc_total_size layout st.rsrc1 % 2 ^ 32
  let data_entry_offset :=
    if res.kind = .DIR then data_entry_offset ||| layout.COFF_Resource_SubDirFlag
    else data_entry_offset
  let st1 : LNK_ResSerializer :=
    { st with
      entry_arrays := lnk_res_set_entry_data_offset st.entry_arrays
        (frame.coff_entry_arr.getD frame.arr_idx 0) res_idx data_entry_offset }
  match res.kind with
  | .DIR =>
    -- sort input resources
    let named_array := lnk_res_radsort
      (lnk_res_string_id_is_before str8_is_before_case_sensitive) res.dir_named_list
    let id_array := lnk_res_radsort lnk_res_number_id_is_before res.dir_id_list
    -- allocate COFF entries
    let named_entries := st1.entry_arrays.length
    let id_entries := st1.entry_arrays.length + 1
    let st2 : LNK_ResSerializer :=
      { st1 with
        entry_arrays := st1.entry_arrays ++
          [List.replicate named_array.length { name := 0, data_entry_offset := 0 },
           List.replicate id_array.length { name := 0, data_entry_offset := 0 }],
        -- push header and entries
        rsrc1 := st1.rsrc1 ++
          [.dir_header res.dir_named_list.length res.dir_id_list.length,
           .entries named_entries named_array.length,
           .entries id_entries id_array.length] }
    let st3 := lnk_res_fill_named_ids layout coff_resource_string_from_str8 res named_entries
      named_array 0 st2
    let st4 := lnk_res_fill_number_ids id_entries id_array 0 st3
    -- fill out sub directory stack frame
    let sub : LNK_ResStack :=
      { arr_idx := 0, res_idx := [0, 0], res_arr := [named_array, id_array],
        coff_entry_arr := [named_entries, id_entries] }
    { st4 with stack := sub :: frame1 :: rest }
  | .COFF_RESOURCE =>
    let resdat_off := (st1.rsrc2.map List.length).sum % 2 ^ 32
    let apply_off :=
      (lnk_rsrc_total_size layout st1.rsrc1 + layout.offsetof_data_voff) % 2 ^ 64
    { st1 with
      stack := frame1 :: rest,
      relocs := st1.relocs ++ [(apply_off % 2 ^ 32, resdat_off)],
      rsrc1 := st1.rsrc1 ++ [.data_entry res.coff_res_data.length],
      rsrc2 := st1.rsrc2 ++ [res.coff_res_data] }
  | .NULL => { st1 with stack := frame1 :: rest }
  | .COFF_LEAF => { st1 with stack := frame1 :: rest, invalid_path := true }

/-- Source `lnk_serialize_pe_resource_tree`, one step of the loops over the stack: the next
resource of the top frame is serialized, or the frame moves on to its second array, or the
frame is popped. -/
def lnk_res_serialize_step (layout : COFF_ResourceLayout)
    (coff_resource_string_from_str8 : String → List Nat)
    (str8_is_before_case_sensitive : String → String → Bool)
    (st : LNK_ResSerializer) : LNK_ResSerializer :=
  match st.stack with
  | [] => st
  | frame :: rest =>
    if frame.arr_idx < 2 then
      if frame.res_idx.getD frame.arr_idx 0 < (frame.res_arr.getD frame.arr_idx []).length then
        lnk_res_serialize_resource layout coff_resource_string_from_str8
          str8_is_before_case_sensitive st frame rest
      else
        { st with stack := { frame with arr_idx := frame.arr_idx + 1 } :: rest }
    else
      { st with stack := rest }

/-- The loop `for (; stack; )` for at most `fuel` steps; `none` when the stack is not empty by
then. -/
def lnk_res_serialize_run (layout : COFF_ResourceLayout)
    (coff_resource_string_from_str8 : String → List Nat)
    (str8_is_before_case_sensitive : String → String → Bool) :
    Nat → LNK_ResSerializer → Option LNK_ResSerializer
  | 0, st => if st.stack.isEmpty then some st else none
  | fuel + 1, st =>
    if st.stack.isEmpty then some st
    else lnk_res_serialize_run layout coff_resource_string_from_str8
      str8_is_before_case_sensitive fuel
      (lnk_res_serialize_step layout coff_resource_string_from_str8
        str8_is_before_case_sensitive st)

/-- Source `lnk_serialize_pe_resource_tree` for the root directory with the named resources
`root_named_list` and the numbered resources `root_id_list`: the root is wrapped into a zeroed
resource with the number 0 as identifier, and its entry is the array 0, which is not part of
`.rsrc$01`. -/
def lnk_serialize_pe_resource_tree (layout : COFF_ResourceLayout)
    (coff_resource_string_from_str8 : String → List Nat)
    (str8_is_before_case_sensitive : String → String → Bool) (fuel : Nat)
    (root_named_list root_id_list : List PE_Resource) : Option LNK_ResSerializer :=
  let root_wrapper : PE_Resource :=
    .mk { type := .Number, number := 0, string := "" } .DIR root_named_list root_id_list []
  lnk_res_serialize_run layout coff_resource_string_from_str8 str8_is_before_case_sensitive fuel
    { stack := [{ arr_idx := 0, res_idx := [0, 0], res_arr := [[root_wrapper], []],
                  coff_entry_arr := [0, 0] }],
      entry_arrays := [[{ name := 0, data_entry_offset := 0 }]],
      rsrc1 := [], rsrc2 := [], relocs := [], invalid_path := false }

/-- The string of `.rsrc$01` that starts at the offset `off`. -/
def lnk_rsrc_node_at (layout : COFF_ResourceLayout) : List LNK_RsrcNode → Nat →
    Option LNK_RsrcNode
  | [], _ => none
  | node :: rest, off =>
    if off = 0 ∧ node.size layout ≠ 0 then some node
    else if off < node.size layout then none
    else lnk_rsrc_node_at layout rest (off - node.size layout)

/-- The sizes and the flag of the published PE format. -/
def fixture_resource_layout : COFF_ResourceLayout :=
  { sizeof_COFF_ResourceDirTable := 16, sizeof_COFF_ResourceDirEntry := 8,
    sizeof_COFF_ResourceDataEntry := 16, offsetof_data_voff := 0,
    COFF_Resource_SubDirFlag := 0x80000000 }

/-- Resource string for the scenarios: the number of characters on two bytes, then the
characters on two bytes each. -/
def fixture_resource_string (s : String) : List Nat :=
  [s.length % 256, s.length / 256 % 256] ++ s.toList.flatMap (fun c => [c.toNat % 256, c.toNat / 256 % 256])

/-- String order for the scenarios. -/
def fixture_str8_is_before (a b : String) : Bool :=
  decide (a < b)

/-- Resource tree with one named type `MYTYPE` that holds one named resource `MYNAME` of four
bytes. -/
def fixture_resource_tree : List PE_Resource :=
  [.mk { type := .String, number := 0, string := "MYTYPE" } .DIR
    [.mk { type := .String, number := 0, string := "MYNAME" } .COFF_RESOURCE [] [] [1, 2, 3, 4]]
    [] []]

/-! ## `lnk.c`: section definitions and contribution chunks -/

/-- Hash table with string keys, as the list of its entries in the order they were pushed. -/
@[reducible]
def LNK_StringHashTable (α : Type) : Type := List (String × α)

/-- Modelled from the spec: `hash_table_search_string_raw`, whose source is not available: the
value of the first entry with the key. -/
def hash_table_search_string_raw {α : Type} : LNK_StringHashTable α → String → Option α
  | [], _ => none
  | e :: rest, key => if e.1 = key then some e.2 else hash_table_search_string_raw rest key

/-- Modelled from the spec: `hash_table_push_string_raw`, whose source is not available: a new
entry. -/
def hash_table_push_string_raw {α : Type} (ht : LNK_StringHashTable α) (key : String)
    (value : α) : LNK_StringHashTable α :=
  ht ++ [(key, value)]

/-- Modelled from the spec: `values_from_hash_table_raw`, whose source is not available: the
values of the entries. -/
def values_from_hash_table_raw {α : Type} (ht : LNK_StringHashTable α) : List α :=
  ht.map (fun e => e.2)

/-- A write through the pointer a search has returned: the value of the first entry with the
key is replaced. -/
def hash_table_update_found {α : Type} (f : α → α) :
    LNK_StringHashTable α → String → LNK_StringHashTable α
  | [], _ => []
  | e :: rest, key =>
    if e.1 = key then (e.1, f e.2) :: rest else e :: hash_table_update_found f rest key

/-- Section definition (`LNK_SectionDefinition`); `obj` is an object pointer. -/
structure LNK_SectionDefinition where
  name : String
  obj : Nat
  obj_sect_idx : Nat
  flags : Nat
  contribs_count : Nat
  deriving DecidableEq

/-- What the gathering of sections takes from sources that are not available:
`lnk_make_name_with_flags`, the mask `COFF_SectionFlags_LnkFlags`, `coff_parse_section_name`
(the section name and the sort index of a name) and `lnk_is_section_removed` for the
configuration at hand. -/
structure LNK_SectionHelpers where
  lnk_make_name_with_flags : String → Nat → String
  COFF_SectionFlags_LnkFlags : Nat
  coff_parse_section_name : String → String × String
  lnk_is_section_removed : String → Bool

/-- The test `~sect_header->flags & COFF_SectionFlag_LnkRemove && sect_header->fsize > 0` of the
two gathering tasks. -/
def lnk_section_is_gathered (sect_header : COFF_SectionHeader) : Bool :=
  decide (sect_header.flags &&& COFF_SectionFlag_LnkRemove = 0 ∧ sect_header.fsize > 0)

/-- The expression `sect_header->flags & ~COFF_SectionFlags_LnkFlags` on 32 bits. -/
def lnk_section_flags_no_lnk (helpers : LNK_SectionHelpers) (sect_header : COFF_SectionHeader) :
    Nat :=
  sect_header.flags &&& (0xFFFFFFFF ^^^ (helpers.COFF_SectionFlags_LnkFlags % 2 ^ 32))

/-- The key `sect_name_with_flags` the two gathering tasks compute for a section. -/
def lnk_section_name_with_flags (helpers : LNK_SectionHelpers)
    (sect_header : COFF_SectionHeader) : String :=
  helpers.lnk_make_name_with_flags sect_header.name (lnk_section_flags_no_lnk helpers sect_header)

/-- Source `lnk_gather_section_definitions_task`, body of the loop over the sections of the
object `objs[obj_idx]` for the section of index `sect_idx`, on the table of the worker. -/
def lnk_gather_section_definition (helpers : LNK_SectionHelpers) (objs : List LNK_Obj)
    (sect_defn_ht : LNK_StringHashTable LNK_SectionDefinition) (sect : Nat × Nat) :
    LNK_StringHashTable LNK_SectionDefinition :=
  let obj_idx := sect.1
  let sect_idx := sect.2
  let obj := lnk_obj_from_ptr objs obj_idx
  let sect_header := obj.section_table.getD sect_idx { flags := 0, foff := 0, fsize := 0 }
  if lnk_section_is_gathered sect_header then
    -- was section defined?
    let sect_name := sect_header.name
    let sect_name_with_flags := lnk_section_name_with_flags helpers sect_header
    match hash_table_search_string_raw sect_defn_ht sect_name_with_flags with
    | none =>
      -- push new section definition, acc contrib count
      hash_table_push_string_raw sect_defn_ht sect_name_with_flags
        { name := sect_name, obj := obj_idx, obj_sect_idx := sect_idx,
          flags := lnk_section_flags_no_lnk helpers sect_header, contribs_count := 0 + 1 }
    | some _ =>
      -- acc contrib count
      hash_table_update_found
        (fun sect_defn => { sect_defn with contribs_count := sect_defn.contribs_count + 1 })
        sect_defn_ht sect_name_with_flags
  else sect_defn_ht

/-- Source `lnk_gather_section_definitions_task` for the object of index `obj_idx` (the task
id), on the table of the worker that runs the task. -/
def lnk_gather_section_definitions_task (helpers : LNK_SectionHelpers) (objs : List LNK_Obj)
    (sect_defn_ht : LNK_StringHashTable LNK_SectionDefinition) (obj_idx : Nat) :
    LNK_StringHashTable LNK_SectionDefinition :=
  (List.range (lnk_obj_from_ptr objs obj_idx).section_table.length).foldl
    (fun ht sect_idx => lnk_gather_section_definition helpers objs ht (obj_idx, sect_idx))
    sect_defn_ht

/-- Source `lnk_build_image`, the parallel loop "Gather Section Definitions". `schedule` gives,
for each worker, the task ids it runs, in the order it runs them; the result is the table of
each worker. -/
def lnk_gather_section_definitions (helpers : LNK_SectionHelpers) (objs : List LNK_Obj)
    (schedule : List (List Nat)) : List (LNK_StringHashTable LNK_SectionDefinition) :=
  schedule.map (fun tasks => tasks.foldl (lnk_gather_section_definitions_task helpers objs) [])

/-- Source `lnk_section_definition_is_before`; `u64_compar_is_before`, whose source is not
available, is taken as the comparison `<`. -/
def lnk_section_definition_is_before (objs : List LNK_Obj) (a b : LNK_SectionDefinition) :
    Bool :=
  let input_idx_a := Compose64Bit (lnk_obj_from_ptr objs a.obj).input_idx a.obj_sect_idx
  let input_idx_b := Compose64Bit (lnk_obj_from_ptr objs b.obj).input_idx b.obj_sect_idx
  decide (input_idx_a < input_idx_b)

/-- Insertion of a definition into a sorted array, before the first element it is before. -/
def lnk_section_definition_insert (objs : List LNK_Obj) (d : LNK_SectionDefinition) :
    List LNK_SectionDefinition → List LNK_SectionDefinition
  | [] => [d]
  | x :: rest =>
    if lnk_section_definition_is_before objs d x then d :: x :: rest
    else x :: lnk_section_definition_insert objs d rest

/-- Modelled from the spec: `radsort(sect_defns, sect_defns_count,
lnk_section_definition_is_before)`, whose source is not available: "sorting the per-worker
values before merging". -/
def lnk_section_definition_radsort (objs : List LNK_Obj) (sect_defns : List LNK_SectionDefinition) :
    List LNK_SectionDefinition :=
  sect_defns.foldr (lnk_section_definition_insert objs) []

/-- Source `lnk_build_image`, block "Merge Section Definitions Hash Tables", body of the loop
over the definitions of a worker, on the table of worker 0. -/
def lnk_merge_section_definition (helpers : LNK_SectionHelpers) (objs : List LNK_Obj)
    (main : LNK_StringHashTable LNK_SectionDefinition) (defn : LNK_SectionDefinition) :
    LNK_StringHashTable LNK_SectionDefinition :=
  let name_with_flags := helpers.lnk_make_name_with_flags defn.name defn.flags
  match hash_table_search_string_raw main name_with_flags with
  | none => hash_table_push_string_raw main name_with_flags defn
  | some _ =>
    hash_table_update_found
      (fun main_defn =>
        let main_defn1 :=
          if lnk_section_definition_is_before objs defn main_defn then
            { main_defn with obj := defn.obj, obj_sect_idx := defn.obj_sect_idx }
          else main_defn
        { main_defn1 with contribs_count := main_defn1.contribs_count + defn.contribs_count })
      main name_with_flags

/-- Source `lnk_build_image`, block "Merge Section Definitions Hash Tables", body of the loop
over the workers: the values of the table of the worker are sorted and merged in order. -/
def lnk_merge_worker_section_definitions (helpers : LNK_SectionHelpers) (objs : List LNK_Obj)
    (main worker : LNK_StringHashTable LNK_SectionDefinition) :
    LNK_StringHashTable LNK_SectionDefinition :=
  (lnk_section_definition_radsort objs (values_from_hash_table_raw worker)).foldl
    (lnk_merge_section_definition helpers objs) main

/-- Source `lnk_build_image`, block "Merge Section Definitions Hash Tables": the table of
worker 0 after the tables of the other workers were merged into it. -/
def lnk_merge_section_definitions (helpers : LNK_SectionHelpers) (objs : List LNK_Obj)
    (defns : List (LNK_StringHashTable LNK_SectionDefinition)) :
    LNK_StringHashTable LNK_SectionDefinition :=
  (defns.drop 1).foldl (lnk_merge_worker_section_definitions helpers objs) (defns.headD [])

/-- Vocabulary for the gathering of sections: the sections of the objects `tasks`, object by
object in the order of `tasks` and by ascending section index, as pairs of the object index and
the section index. -/
def lnk_obj_sections (objs : List LNK_Obj) (tasks : List Nat) : List (Nat × Nat) :=
  tasks.flatMap (fun obj_idx =>
    (List.range (lnk_obj_from_ptr objs obj_idx).section_table.length).map
      (fun sect_idx => (obj_idx, sect_idx)))

/-- Vocabulary for the gathering of sections: the section header a pair of object index and
section index designates. -/
def lnk_obj_section_header (objs : List LNK_Obj) (sect : Nat × Nat) : COFF_SectionHeader :=
  (lnk_obj_from_ptr objs sect.1).section_table.getD sect.2
    { flags := 0, foff := 0, fsize := 0 }

/-- Vocabulary for the gathering of sections: the section is gathered (no `LnkRemove`, size
above 0) and has the key `key`. -/
def lnk_section_has_key (helpers : LNK_SectionHelpers) (objs : List LNK_Obj) (key : String)
    (sect : Nat × Nat) : Bool :=
  lnk_section_is_gathered (lnk_obj_section_header objs sect)
    && decide (lnk_section_name_with_flags helpers (lnk_obj_section_header objs sect) = key)

/-- Vocabulary for the gathering of sections: the gathered sections with the key `key` among
the sections of the objects `tasks`, in order. -/
def lnk_sections_with_key (helpers : LNK_SectionHelpers) (objs : List LNK_Obj) (key : String)
    (tasks : List Nat) : List (Nat × Nat) :=
  (lnk_obj_sections objs tasks).filter (lnk_section_has_key helpers objs key)

/-- Vocabulary for the gathering of sections: the pair `(obj.input_idx, obj_sect_idx)` of the
section `a` is lexicographically at most that of the section `b`. -/
def lnk_section_lex_le (objs : List LNK_Obj) (a b : Nat × Nat) : Prop :=
  (lnk_obj_from_ptr objs a.1).input_idx < (lnk_obj_from_ptr objs b.1).input_idx
  ∨ ((lnk_obj_from_ptr objs a.1).input_idx = (lnk_obj_from_ptr objs b.1).input_idx
      ∧ a.2 ≤ b.2)

/-- The definition `lnk_gather_section_definitions_task` records for the section `sect`,
with the count `contribs_count`. -/
def lnk_section_definition_of (helpers : LNK_SectionHelpers) (objs : List LNK_Obj)
    (sect : Nat × Nat) (contribs_count : Nat) : LNK_SectionDefinition :=
  { name := (lnk_obj_section_header objs sect).name,
    obj := sect.1,
    obj_sect_idx := sect.2,
    flags := lnk_section_flags_no_lnk helpers (lnk_obj_section_header objs sect),
    contribs_count := contribs_count }

/-- What one section does to the definition a table holds for the key `key`. -/
def lnk_gather_definition_acc (helpers : LNK_SectionHelpers) (objs : List LNK_Obj)
    (key : String) (found : Option LNK_SectionDefinition) (sect : Nat × Nat) :
    Option LNK_SectionDefinition :=
  if lnk_section_has_key helpers objs key sect then
    some (match found with
      | none => lnk_section_definition_of helpers objs sect 1
      | some d => { d with contribs_count := d.contribs_count + 1 })
  else found

/-- The definition of worker 0 after a definition of another worker with the same key was
merged into it. -/
def lnk_section_definition_combine (objs : List LNK_Obj)
    (main_defn defn : LNK_SectionDefinition) : LNK_SectionDefinition :=
  { (if lnk_section_definition_is_before objs defn main_defn then
      { main_defn with obj := defn.obj, obj_sect_idx := defn.obj_sect_idx }
    else main_defn) with
    contribs_count :=
      (if lnk_section_definition_is_before objs defn main_defn then
        { main_defn with obj := defn.obj, obj_sect_idx := defn.obj_sect_idx }
      else main_defn).contribs_count + defn.contribs_count }

/-- What merging one definition does to the definition the table of worker 0 holds for the key
`key`. -/
def lnk_merge_definition_acc (helpers : LNK_SectionHelpers) (objs : List LNK_Obj)
    (key : String) (found : Option LNK_SectionDefinition) (defn : LNK_SectionDefinition) :
    Option LNK_SectionDefinition :=
  if helpers.lnk_make_name_with_flags defn.name defn.flags = key then
    some (match found with
      | none => defn
      | some main_defn => lnk_section_definition_combine objs main_defn defn)
  else found

/-- Well-formed table of section definitions: every entry is stored under the key of its name
and flags, and no key occurs twice. -/
structure lnk_section_table_wf (helpers : LNK_SectionHelpers)
    (ht : LNK_StringHashTable LNK_SectionDefinition) : Prop where
  keyed : ∀ e ∈ ht, helpers.lnk_make_name_with_flags e.2.name e.2.flags = e.1
  nodup : (ht.map (fun e => e.1)).Nodup

/-- The 64-bit value `lnk_section_definition_is_before` compares for the section `sect` of an
object. -/
def lnk_section_order_key (objs : List LNK_Obj) (sect : Nat × Nat) : Nat :=
  Compose64Bit (lnk_obj_from_ptr objs sect.1).input_idx sect.2

/-- What merging the table of one worker does to the definition worker 0 holds for a key,
given the sections with the key among the objects of the worker. -/
def lnk_merged_definition_acc (helpers : LNK_SectionHelpers) (objs : List LNK_Obj)
    (found : Option LNK_SectionDefinition) (matching : List (Nat × Nat)) :
    Option LNK_SectionDefinition :=
  match matching.head?.map
      (fun s => lnk_section_definition_of helpers objs s matching.length) with
  | none => found
  | some defn =>
    some (match found with
      | none => defn
      | some main_defn => lnk_section_definition_combine objs main_defn defn)

/-- What the merged table holds for a key, against the list `sects` of the gathered sections
with the key: no definition when there is no such section, and otherwise a definition that
counts the sections and designates one of them whose order key is the smallest. -/
structure lnk_merged_definition_spec (objs : List LNK_Obj)
    (found : Option LNK_SectionDefinition) (sects : List (Nat × Nat)) : Prop where
  none_iff : found = none ↔ sects = []
  count : ∀ d, found = some d → d.contribs_count = sects.length
  mem : ∀ d, found = some d → (d.obj, d.obj_sect_idx) ∈ sects
  least : ∀ d, found = some d → ∀ q ∈ sects,
    lnk_section_order_key objs (d.obj, d.obj_sect_idx) ≤ lnk_section_order_key objs q

/-- Helpers for the scenarios: the key is the name, a separator and the flags in decimal; the
link flags are `LnkRemove` and `LnkCOMDAT`; the sort index of a section name is what follows
the first `$`; no section is removed from the image but `.drectve`. -/
def fixture_section_helpers : LNK_SectionHelpers :=
  { lnk_make_name_with_flags := fun name flags => name ++ "#" ++ toString flags,
    COFF_SectionFlags_LnkFlags := 0x1800,
    coff_parse_section_name := fun name =>
      (String.mk (name.toList.takeWhile (fun c => c ≠ '$')),
       String.mk ((name.toList.dropWhile (fun c => c ≠ '$')).drop 1)),
    lnk_is_section_removed := fun name => decide (name = ".drectve") }

/-- Three objects for the gathering scenarios, with the input indices 0, 1 and 2: object 0 has
a `.text` and a `.data` section, object 1 a `.text` section and a `.text` section with
`LnkRemove`, object 2 an empty `.data` section and a `.text` section. -/
def fixture_gather_objs : List LNK_Obj :=
  [{ data := [], input_idx := 0, symbols := [],
     section_table := [{ flags := 0x20, foff := 0, fsize := 8, name := ".text" },
                       { flags := 0x40, foff := 8, fsize := 4, name := ".data" }],
     comdats := [], associated_sections := [] },
   { data := [], input_idx := 1, symbols := [],
     section_table := [{ flags := 0x20, foff := 0, fsize := 8, name := ".text" },
                       { flags := 0x820, foff := 8, fsize := 8, name := ".text" }],
     comdats := [], associated_sections := [] },
   { data := [], input_idx := 2, symbols := [],
     section_table := [{ flags := 0x40, foff := 0, fsize := 0, name := ".data" },
                       { flags := 0x20, foff := 0, fsize := 16, name := ".text" }],
     comdats := [], associated_sections := [] }]

/-- Schedule of two workers: worker 0 gathers object 1, worker 1 gathers the objects 0
and 2. -/
def fixture_gather_schedule : List (List Nat) :=
  [[1], [0, 2]]

/-- Chunk of section contributions (`LNK_SectionContribChunk`): the capacity reserved, the sort
index, the contributions pushed (each with `u.obj_idx` and `u.obj_sect_idx`), in the order of
their slots, and whether a push met a chunk without a free slot. -/
structure LNK_SectionContribChunk where
  cap : Nat
  sort_idx : String
  v : List (Nat × Nat)
  overflow : Bool
  deriving DecidableEq

/-- Source `lnk_build_image`, block "Push Sections And Reserve Section Contrib Memory", body
of the loop for one section definition, as far as the table `task.contribs_ht` goes: a
definition of a section that is removed from the image is skipped, and a chunk of
`contribs_count` slots is reserved for a key that has none. -/
def lnk_reserve_section_contrib_chunk (helpers : LNK_SectionHelpers)
    (contribs_ht : LNK_StringHashTable LNK_SectionContribChunk)
    (sect_defn : LNK_SectionDefinition) : LNK_StringHashTable LNK_SectionContribChunk :=
  -- parse section name
  let parsed := helpers.coff_parse_section_name sect_defn.name
  let sect_name := parsed.1
  let sort_idx := parsed.2
  -- do not create definitions for sections that are removed from the image
  if helpers.lnk_is_section_removed sect_name then contribs_ht
  else
    let defn_name_with_flags := helpers.lnk_make_name_with_flags sect_defn.name sect_defn.flags
    match hash_table_search_string_raw contribs_ht defn_name_with_flags with
    | none =>
      hash_table_push_string_raw contribs_ht defn_name_with_flags
        { cap := sect_defn.contribs_count, sort_idx := sort_idx, v := [], overflow := false }
    | some _ => contribs_ht

/-- Source `lnk_build_image`, blocks "Sort Sections Definitions" and "Push Sections And Reserve
Section Contrib Memory": the table `task.contribs_ht` for the merged table `main`. -/
def lnk_reserve_section_contrib_chunks (helpers : LNK_SectionHelpers) (objs : List LNK_Obj)
    (main : LNK_StringHashTable LNK_SectionDefinition) :
    LNK_StringHashTable LNK_SectionContribChunk :=
  (lnk_section_definition_radsort objs (values_from_hash_table_raw main)).foldl
    (lnk_reserve_section_contrib_chunk helpers) []

/-- Modelled from the spec: `lnk_section_contrib_chunk_push_atomic(chunk, 1)`, whose source is
not available: "parallel producers reserve a slot via an atomic counter". The contribution
takes the next slot; a chunk without a free slot is flagged. -/
def lnk_section_contrib_chunk_push_atomic (sc : Nat × Nat)
    (chunk : LNK_SectionContribChunk) : LNK_SectionContribChunk :=
  { chunk with v := chunk.v ++ [sc],
               overflow := chunk.overflow || decide (chunk.cap ≤ chunk.v.length) }

/-- What `lnk_gather_section_contribs_task` writes: the chunks of `task->contribs_ht`, and the
entries of `task->sect_map` as the list of the assignments
`task->sect_map[obj_idx][sect_idx] = sc` in the order they are made, where `sc` is `none` for
`task->null_sc` and otherwise the key of the chunk and the slot of the contribution. -/
structure LNK_GatherContribs where
  contribs_ht : LNK_StringHashTable LNK_SectionContribChunk
  sect_map : List ((Nat × Nat) × Option (String × Nat))
  deriving DecidableEq

/-- Source `lnk_gather_section_contribs_task`, body of the loop over the sections of the object
`objs[obj_idx]` for the section of index `sect_idx`. -/
def lnk_gather_section_contrib (helpers : LNK_SectionHelpers) (objs : List LNK_Obj)
    (st : LNK_GatherContribs) (sect : Nat × Nat) : LNK_GatherContribs :=
  let obj_idx := sect.1
  let sect_idx := sect.2
  let obj := lnk_obj_from_ptr objs obj_idx
  let sect_header := obj.section_table.getD sect_idx { flags := 0, foff := 0, fsize := 0 }
  if lnk_section_is_gathered sect_header then
    let sect_name_with_flags := lnk_section_name_with_flags helpers sect_header
    match hash_table_search_string_raw st.contribs_ht sect_name_with_flags with
    | some sc_chunk =>
      { contribs_ht := hash_table_update_found
          (lnk_section_contrib_chunk_push_atomic (obj_idx, sect_idx)) st.contribs_ht
          sect_name_with_flags,
        sect_map := st.sect_map ++ [(sect, some (sect_name_with_flags, sc_chunk.v.length))] }
    | none => { st with sect_map := st.sect_map ++ [(sect, none)] }
  else { st with sect_map := st.sect_map ++ [(sect, none)] }

/-- Source `lnk_gather_section_contribs_task` for the object of index `obj_idx` (the task
id). -/
def lnk_gather_section_contribs_task (helpers : LNK_SectionHelpers) (objs : List LNK_Obj)
    (st : LNK_GatherContribs) (obj_idx : Nat) : LNK_GatherContribs :=
  (List.range (lnk_obj_from_ptr objs obj_idx).section_table.length).foldl
    (fun st1 sect_idx => lnk_gather_section_contrib helpers objs st1 (obj_idx, sect_idx)) st

/-- Source `lnk_build_image`, the parallel loop "Gather Section Contribs", with the tasks run
in the order `order`. -/
def lnk_gather_section_contribs (helpers : LNK_SectionHelpers) (objs : List LNK_Obj)
    (contribs_ht : LNK_StringHashTable LNK_SectionContribChunk) (order : List Nat) :
    LNK_GatherContribs :=
  order.foldl (lnk_gather_section_contribs_task helpers objs)
    { contribs_ht := contribs_ht, sect_map := [] }

/-- Source `lnk_build_image` from "Define And Count Sections" to "Gather Section Contribs":
the section definitions are gathered by the workers as `schedule` says and merged, the chunks
are reserved, and the contributions are gathered with the tasks run in the order `order`. -/
def lnk_build_image_gather (helpers : LNK_SectionHelpers) (objs : List LNK_Obj)
    (schedule : List (List Nat)) (order : List Nat) : LNK_GatherContribs :=
  lnk_gather_section_contribs helpers objs
    (lnk_reserve_section_contrib_chunks helpers objs
      (lnk_merge_section_definitions helpers objs
        (lnk_gather_section_definitions helpers objs schedule)))
    order

/-- What one section definition does to the chunk reserved for the key `key`. -/
def lnk_reserve_chunk_acc (helpers : LNK_SectionHelpers) (key : String)
    (found : Option LNK_SectionContribChunk) (sect_defn : LNK_SectionDefinition) :
    Option LNK_SectionContribChunk :=
  if helpers.lnk_make_name_with_flags sect_defn.name sect_defn.flags = key then
    if helpers.lnk_is_section_removed (helpers.coff_parse_section_name sect_defn.name).1 then
      found
    else
      match found with
      | none =>
        some { cap := sect_defn.contribs_count,
               sort_idx := (helpers.coff_parse_section_name sect_defn.name).2,
               v := [], overflow := false }
      | some chunk => some chunk
  else found

/-- What one section does to the chunk of the key `key`. -/
def lnk_gather_contrib_acc (helpers : LNK_SectionHelpers) (objs : List LNK_Obj) (key : String)
    (found : Option LNK_SectionContribChunk) (sect : Nat × Nat) :
    Option LNK_SectionContribChunk :=
  if lnk_section_has_key helpers objs key sect then
    found.map (lnk_section_contrib_chunk_push_atomic sect)
  else found

/-! ## Replacement policy -/

/-- Between two COMDAT-eligible symbols the policy is decided by the COMDAT branch. -/
theorem lnk_can_replace_symbol_defined_eq (objs : List LNK_Obj) (libs : List LNK_Lib)
    (dst src : LNK_Symbol) (d s : COFF_ComdatProps)
    (hdi : lnk_symbol_interp objs dst = .Regular ∨ lnk_symbol_interp objs dst = .Common)
    (hsi : lnk_symbol_interp objs src = .Regular ∨ lnk_symbol_interp objs src = .Common)
    (hd : lnk_symbol_comdat_props objs dst = some d)
    (hs : lnk_symbol_comdat_props objs src = some s) :
    lnk_can_replace_symbol objs libs .Defined dst src
      = lnk_can_replace_comdat dst src (lnk_obj_from_ptr objs dst.u.defined.obj)
          (lnk_obj_from_ptr objs src.u.defined.obj) (lnk_parsed_symbol_from_defined objs dst)
          (lnk_parsed_symbol_from_defined objs src) d s := by
  simp only [lnk_symbol_interp, lnk_symbol_comdat_props, lnk_parsed_symbol_from_defined] at *
  rcases hdi with hdi | hdi <;> rcases hsi with hsi | hsi <;>
    simp [lnk_can_replace_symbol, hdi, hsi, hd, hs] <;> simp_all

/-- C4: when the effective selection of both sides is Largest (each side a Regular COMDAT symbol
or a Common symbol, selections drawn from Any and Largest and not both Any),
`lnk_can_replace_symbol` records nothing and returns 1 iff src is strictly larger than dst, or
the sizes are equal and the object of src is before the object of dst. -/
theorem C4_largest_selection (objs : List LNK_Obj) (libs : List LNK_Lib) (dst src : LNK_Symbol)
    (d s : COFF_ComdatProps)
    (hdi : lnk_symbol_interp objs dst = .Regular ∨ lnk_symbol_interp objs dst = .Common)
    (hsi : lnk_symbol_interp objs src = .Regular ∨ lnk_symbol_interp objs src = .Common)
    (hd : lnk_symbol_comdat_props objs dst = some d)
    (hs : lnk_symbol_comdat_props objs src = some s)
    (hsel : (d.select = .Largest ∧ s.select = .Largest) ∨ (d.select = .Any ∧ s.select = .Largest)
      ∨ (d.select = .Largest ∧ s.select = .Any)) :
    (lnk_can_replace_symbol objs libs .Defined dst src).2 = []
    ∧ ((lnk_can_replace_symbol objs libs .Defined dst src).1 = true ↔
        d.section_length < s.section_length
        ∨ (d.section_length = s.section_length
            ∧ lnk_symbol_obj_input_idx objs src < lnk_symbol_obj_input_idx objs dst))
    ∧ (lnk_symbol_interp objs dst = .Common →
        d.select = .Largest
        ∧ d.section_length = (lnk_parsed_symbol_from_defined objs dst).value)
    ∧ (lnk_symbol_interp objs src = .Common →
        s.select = .Largest
        ∧ s.section_length = (lnk_parsed_symbol_from_defined objs src).value) := by
  have hcommon : ∀ x : LNK_Symbol, ∀ p : COFF_ComdatProps,
      lnk_symbol_comdat_props objs x = some p → lnk_symbol_interp objs x = .Common →
      p.select = .Largest ∧ p.section_length = (lnk_parsed_symbol_from_defined objs x).value := by
    intro x p hp hx
    simp only [lnk_symbol_comdat_props, lnk_comdat_props_of_symbol, hx] at hp
    simp only [reduceCtorEq, if_false, if_true, Option.some.injEq] at hp
    subst hp
    exact ⟨rfl, rfl⟩
  refine ⟨?_, ?_, hcommon dst d hd, hcommon src s hs⟩ <;>
  rw [lnk_can_replace_symbol_defined_eq objs libs dst src d s hdi hsi hd hs] <;>
  rcases hsel with ⟨h1, h2⟩ | ⟨h1, h2⟩ | ⟨h1, h2⟩ <;>
    by_cases hlen : d.section_length = s.section_length <;>
    simp [lnk_can_replace_comdat, h1, h2, hlen, lnk_obj_is_before, lnk_symbol_obj_input_idx]

/-- Scenario of C4: dst is a Largest COMDAT of size 8 from the first object, src a Largest
COMDAT of size 16 from the second; src replaces dst and nothing is recorded. -/
theorem C4_largest_selection_witness :
    (lnk_can_replace_symbol
        [fixture_obj 0 "?bar@@YAXXZ" .Regular 1 0 (some ⟨.Largest, 8, 0⟩),
         fixture_obj 1 "?bar@@YAXXZ" .Regular 1 0 (some ⟨.Largest, 16, 0⟩)] []
        .Defined (fixture_defined "?bar@@YAXXZ" 0) (fixture_defined "?bar@@YAXXZ" 1)).2 = []
    ∧ (lnk_can_replace_symbol
        [fixture_obj 0 "?bar@@YAXXZ" .Regular 1 0 (some ⟨.Largest, 8, 0⟩),
         fixture_obj 1 "?bar@@YAXXZ" .Regular 1 0 (some ⟨.Largest, 16, 0⟩)] []
        .Defined (fixture_defined "?bar@@YAXXZ" 0) (fixture_defined "?bar@@YAXXZ" 1)).1 = true :=
  have h := C4_largest_selection
    [fixture_obj 0 "?bar@@YAXXZ" .Regular 1 0 (some ⟨.Largest, 8, 0⟩),
     fixture_obj 1 "?bar@@YAXXZ" .Regular 1 0 (some ⟨.Largest, 16, 0⟩)] []
    (fixture_defined "?bar@@YAXXZ" 0) (fixture_defined "?bar@@YAXXZ" 1)
    ⟨.Largest, 8, 0⟩ ⟨.Largest, 16, 0⟩ (Or.inl (by decide)) (Or.inl (by decide))
    (by decide) (by decide) (Or.inl ⟨rfl, rfl⟩)
  ⟨h.1, h.2.1.mpr (Or.inl (by decide))⟩

/-- C5: collisions of strong definitions that cannot be deduplicated are diagnosed. For the
interpretation pairs (Regular, Abs), (Abs, Regular), (Abs, Abs), for two Regular symbols of
which at least one is not in a COMDAT section, and for two Regular COMDAT symbols both of
selection NoDuplicates, `lnk_can_replace_symbol` returns 0 and records exactly the
multiply-defined-symbol error. -/
theorem C5_strong_collision_diagnosed (objs : List LNK_Obj) (libs : List LNK_Lib)
    (dst src : LNK_Symbol)
    (hcase :
      (lnk_symbol_interp objs dst = .Regular ∧ lnk_symbol_interp objs src = .Abs)
      ∨ (lnk_symbol_interp objs dst = .Abs ∧ lnk_symbol_interp objs src = .Regular)
      ∨ (lnk_symbol_interp objs dst = .Abs ∧ lnk_symbol_interp objs src = .Abs)
      ∨ (lnk_symbol_interp objs dst = .Regular ∧ lnk_symbol_interp objs src = .Regular
          ∧ (lnk_symbol_comdat_props objs dst = none ∨ lnk_symbol_comdat_props objs src = none))
      ∨ (lnk_symbol_interp objs dst = .Regular ∧ lnk_symbol_interp objs src = .Regular
          ∧ (∃ d, lnk_symbol_comdat_props objs dst = some d ∧ d.select = .NoDuplicates)
          ∧ (∃ s, lnk_symbol_comdat_props objs src = some s ∧ s.select = .NoDuplicates))) :
    lnk_can_replace_symbol objs libs .Defined dst src
      = (false, [lnk_error_multiply_defined_symbol dst src])
    ∧ lnk_records_multiply_defined (lnk_can_replace_symbol objs libs .Defined dst src).2 = true := by
  have key : lnk_can_replace_symbol objs libs .Defined dst src
      = (false, [lnk_error_multiply_defined_symbol dst src]) := by
    rcases hcase with ⟨h1, h2⟩ | ⟨h1, h2⟩ | ⟨h1, h2⟩ | ⟨h1, h2, h3⟩ | ⟨h1, h2, ⟨d, hd, hdn⟩, ⟨s, hs, hsn⟩⟩
    · simp only [lnk_symbol_interp, lnk_parsed_symbol_from_defined] at h1 h2
      simp [lnk_can_replace_symbol, h1, h2]
    · simp only [lnk_symbol_interp, lnk_parsed_symbol_from_defined] at h1 h2
      simp [lnk_can_replace_symbol, h1, h2]
    · simp only [lnk_symbol_interp, lnk_parsed_symbol_from_defined] at h1 h2
      simp [lnk_can_replace_symbol, h1, h2]
    · simp only [lnk_symbol_interp, lnk_symbol_comdat_props, lnk_parsed_symbol_from_defined]
        at h1 h2 h3
      rw [h1, h2] at h3
      rcases h3 with h3 | h3
      · simp [lnk_can_replace_symbol, h1, h2, h3]
      · simp only [lnk_can_replace_symbol, h1, h2, h3]
        cases hdp : lnk_comdat_props_of_symbol (lnk_obj_from_ptr objs dst.u.defined.obj)
          (lnk_parsed_symbol_from_coff_symbol_idx (lnk_obj_from_ptr objs dst.u.defined.obj)
            dst.u.defined.symbol_idx) COFF_SymbolValueInterpType.Regular <;> simp
    · rw [lnk_can_replace_symbol_defined_eq objs libs dst src d s (Or.inl h1) (Or.inl h2) hd hs]
      simp [lnk_can_replace_comdat, hdn, hsn]
  refine ⟨key, ?_⟩
  rw [key]
  simp [lnk_records_multiply_defined, lnk_error_multiply_defined_symbol]

/-- Scenario of C5: two Regular non-COMDAT definitions of one name in two objects. -/
theorem C5_strong_collision_diagnosed_witness :
    lnk_can_replace_symbol
        [fixture_obj 0 "f" .Regular 1 0 none, fixture_obj 1 "f" .Regular 1 0 none] []
        .Defined (fixture_defined "f" 0) (fixture_defined "f" 1)
      = (false, [lnk_error_multiply_defined_symbol (fixture_defined "f" 0) (fixture_defined "f" 1)])
    ∧ lnk_records_multiply_defined (lnk_can_replace_symbol
        [fixture_obj 0 "f" .Regular 1 0 none, fixture_obj 1 "f" .Regular 1 0 none] []
        .Defined (fixture_defined "f" 0) (fixture_defined "f" 1)).2 = true :=
  C5_strong_collision_diagnosed
    [fixture_obj 0 "f" .Regular 1 0 none, fixture_obj 1 "f" .Regular 1 0 none] []
    (fixture_defined "f" 0) (fixture_defined "f" 1)
    (Or.inr (Or.inr (Or.inr (Or.inl ⟨by decide, by decide, Or.inl (by decide)⟩))))

/-- C6: weak precedence in the Defined scope. With dst Weak and src Regular, Common or Abs the
policy returns 1; with dst Regular, Common or Abs and src Weak it returns 0; with both Weak it
returns 1 iff the object of src has the strictly smaller input index. No diagnostic is recorded
in any of these cases. -/
theorem C6_weak_precedence (objs : List LNK_Obj) (libs : List LNK_Lib) (dst src : LNK_Symbol)
    (strong : COFF_SymbolValueInterpType)
    (hstrong : strong = .Regular ∨ strong = .Common ∨ strong = .Abs) :
    (lnk_symbol_interp objs dst = .Weak → lnk_symbol_interp objs src = strong →
        lnk_can_replace_symbol objs libs .Defined dst src = (true, []))
    ∧ (lnk_symbol_interp objs dst = strong → lnk_symbol_interp objs src = .Weak →
        lnk_can_replace_symbol objs libs .Defined dst src = (false, []))
    ∧ (lnk_symbol_interp objs dst = .Weak → lnk_symbol_interp objs src = .Weak →
        (lnk_can_replace_symbol objs libs .Defined dst src).2 = []
        ∧ ((lnk_can_replace_symbol objs libs .Defined dst src).1 = true ↔
            lnk_symbol_obj_input_idx objs src < lnk_symbol_obj_input_idx objs dst)) := by
  simp only [lnk_symbol_interp, lnk_parsed_symbol_from_defined, lnk_symbol_obj_input_idx]
  refine ⟨?_, ?_, ?_⟩
  · intro h1 h2
    rcases hstrong with h | h | h <;> subst h <;> simp [lnk_can_replace_symbol, h1, h2]
  · intro h1 h2
    rcases hstrong with h | h | h <;> subst h <;> simp [lnk_can_replace_symbol, h1, h2]
  · intro h1 h2
    simp [lnk_can_replace_symbol, h1, h2, lnk_symbol_defined_is_before]

/-- Scenario of C6: a Weak leader from object 0 meets a Regular definition from object 1, and
the converse. -/
theorem C6_weak_precedence_witness :
    lnk_can_replace_symbol
        [fixture_obj 0 "w" .Weak 0 0 none, fixture_obj 1 "w" .Regular 1 0 none] []
        .Defined (fixture_defined "w" 0) (fixture_defined "w" 1) = (true, [])
    ∧ lnk_can_replace_symbol
        [fixture_obj 0 "w" .Weak 0 0 none, fixture_obj 1 "w" .Regular 1 0 none] []
        .Defined (fixture_defined "w" 1) (fixture_defined "w" 0) = (false, []) :=
  ⟨(C6_weak_precedence [fixture_obj 0 "w" .Weak 0 0 none, fixture_obj 1 "w" .Regular 1 0 none] []
      (fixture_defined "w" 0) (fixture_defined "w" 1) .Regular (Or.inl rfl)).1
      (by decide) (by decide),
   (C6_weak_precedence [fixture_obj 0 "w" .Weak 0 0 none, fixture_obj 1 "w" .Regular 1 0 none] []
      (fixture_defined "w" 1) (fixture_defined "w" 0) .Regular (Or.inl rfl)).2.1
      (by decide) (by decide)⟩

/-- C7: for two COMDAT-eligible symbols (each Regular in a COMDAT section, or Common) whose
selections differ and are not the pair Any and Largest that the promotion unifies,
`lnk_can_replace_symbol` returns 0 and records only the COMDAT-selection-conflict warning,
reported against the object of src; no multiply-defined-symbol error is recorded. -/
theorem C7_comdat_selection_conflict (objs : List LNK_Obj) (libs : List LNK_Lib)
    (dst src : LNK_Symbol) (d s : COFF_ComdatProps)
    (hdi : lnk_symbol_interp objs dst = .Regular ∨ lnk_symbol_interp objs dst = .Common)
    (hsi : lnk_symbol_interp objs src = .Regular ∨ lnk_symbol_interp objs src = .Common)
    (hd : lnk_symbol_comdat_props objs dst = some d)
    (hs : lnk_symbol_comdat_props objs src = some s)
    (hne : s.select ≠ d.select)
    (h1 : ¬ (s.select = .Any ∧ d.select = .Largest))
    (h2 : ¬ (s.select = .Largest ∧ d.select = .Any)) :
    lnk_can_replace_symbol objs libs .Defined dst src
      = (false, [{ code := .Warning_UnresolvedComdat, obj := some src.u.defined.obj }])
    ∧ lnk_records_multiply_defined (lnk_can_replace_symbol objs libs .Defined dst src).2
        = false := by
  have key : lnk_can_replace_symbol objs libs .Defined dst src
      = (false, [{ code := .Warning_UnresolvedComdat, obj := some src.u.defined.obj }]) := by
    rw [lnk_can_replace_symbol_defined_eq objs libs dst src d s hdi hsi hd hs]
    simp only [lnk_can_replace_comdat, if_neg h1, if_neg h2, if_neg hne]
  refine ⟨key, ?_⟩
  rw [key]
  simp [lnk_records_multiply_defined]

/-- Scenario of C7: a SameSize COMDAT leader meets an Any COMDAT of the same name. -/
theorem C7_comdat_selection_conflict_witness :
    lnk_can_replace_symbol
        [fixture_obj 0 "c" .Regular 1 0 (some ⟨.SameSize, 8, 0⟩),
         fixture_obj 1 "c" .Regular 1 0 (some ⟨.Any, 8, 0⟩)] []
        .Defined (fixture_defined "c" 0) (fixture_defined "c" 1)
      = (false, [{ code := .Warning_UnresolvedComdat, obj := some 1 }])
    ∧ lnk_records_multiply_defined (lnk_can_replace_symbol
        [fixture_obj 0 "c" .Regular 1 0 (some ⟨.SameSize, 8, 0⟩),
         fixture_obj 1 "c" .Regular 1 0 (some ⟨.Any, 8, 0⟩)] []
        .Defined (fixture_defined "c" 0) (fixture_defined "c" 1)).2 = false :=
  C7_comdat_selection_conflict
    [fixture_obj 0 "c" .Regular 1 0 (some ⟨.SameSize, 8, 0⟩),
     fixture_obj 1 "c" .Regular 1 0 (some ⟨.Any, 8, 0⟩)] []
    (fixture_defined "c" 0) (fixture_defined "c" 1) ⟨.SameSize, 8, 0⟩ ⟨.Any, 8, 0⟩
    (Or.inl (by decide)) (Or.inl (by decide)) (by decide) (by decide)
    (by decide) (by decide) (by decide)

/-- C8 as stated fails: dst is Absolute in the object of input index 0, src is Common in the
object of input index 1. The object of src does not have the smaller input index, yet
`lnk_can_replace_symbol` returns 1 and records nothing. -/
theorem C8_counterexample :
    lnk_symbol_interp [fixture_obj 0 "a" .Abs 0 7 none, fixture_obj 1 "a" .Common 0 4 none]
        (fixture_defined "a" 0) = .Abs
    ∧ lnk_symbol_interp [fixture_obj 0 "a" .Abs 0 7 none, fixture_obj 1 "a" .Common 0 4 none]
        (fixture_defined "a" 1) = .Common
    ∧ ¬ (lnk_symbol_obj_input_idx
          [fixture_obj 0 "a" .Abs 0 7 none, fixture_obj 1 "a" .Common 0 4 none]
          (fixture_defined "a" 1)
        < lnk_symbol_obj_input_idx
          [fixture_obj 0 "a" .Abs 0 7 none, fixture_obj 1 "a" .Common 0 4 none]
          (fixture_defined "a" 0))
    ∧ lnk_can_replace_symbol
        [fixture_obj 0 "a" .Abs 0 7 none, fixture_obj 1 "a" .Common 0 4 none] []
        .Defined (fixture_defined "a" 0) (fixture_defined "a" 1) = (true, []) := by
  decide

/-- C8 amended: with dst Absolute and src Common, `lnk_can_replace_symbol` returns 1 and
records nothing exactly when the object of dst (the Absolute definition) has the strictly
smaller input index; otherwise it returns 0 and records the multiply-defined-symbol error. -/
theorem C8_abs_vs_common (objs : List LNK_Obj) (libs : List LNK_Lib) (dst src : LNK_Symbol)
    (hd : lnk_symbol_interp objs dst = .Abs) (hs : lnk_symbol_interp objs src = .Common) :
    (lnk_symbol_obj_input_idx objs dst < lnk_symbol_obj_input_idx objs src →
        lnk_can_replace_symbol objs libs .Defined dst src = (true, []))
    ∧ (¬ lnk_symbol_obj_input_idx objs dst < lnk_symbol_obj_input_idx objs src →
        lnk_can_replace_symbol objs libs .Defined dst src
          = (false, [lnk_error_multiply_defined_symbol dst src])) := by
  simp only [lnk_symbol_interp, lnk_parsed_symbol_from_defined, lnk_symbol_obj_input_idx] at *
  constructor <;> intro h <;>
    simp [lnk_can_replace_symbol, hd, hs, lnk_symbol_defined_is_before, h]

/-- Scenario of the amended C8: the Common definition comes from the earlier object, so the
Absolute leader is kept and the collision is an error. -/
theorem C8_abs_vs_common_witness :
    lnk_can_replace_symbol
        [fixture_obj 0 "a" .Common 0 4 none, fixture_obj 1 "a" .Abs 0 7 none] []
        .Defined (fixture_defined "a" 1) (fixture_defined "a" 0)
      = (false, [lnk_error_multiply_defined_symbol (fixture_defined "a" 1)
          (fixture_defined "a" 0)]) :=
  (C8_abs_vs_common [fixture_obj 0 "a" .Common 0 4 none, fixture_obj 1 "a" .Abs 0 7 none] []
    (fixture_defined "a" 1) (fixture_defined "a" 0) (by decide) (by decide)).2 (by decide)

/-- C9 as stated fails, twice. With dst Common in the object of input index 1 and src Absolute
in the object of input index 0 (src earlier), `lnk_can_replace_symbol` returns 0, not 1. With
dst Common in the object of input index 0 and src Absolute in the object of input index 1 (dst
earlier, so dst can win), the multiply-defined-symbol error is recorded. -/
theorem C9_counterexample :
    lnk_symbol_interp [fixture_obj 0 "a" .Abs 0 7 none, fixture_obj 1 "a" .Common 0 4 none]
        (fixture_defined "a" 1) = .Common
    ∧ lnk_symbol_interp [fixture_obj 0 "a" .Abs 0 7 none, fixture_obj 1 "a" .Common 0 4 none]
        (fixture_defined "a" 0) = .Abs
    ∧ lnk_symbol_obj_input_idx
          [fixture_obj 0 "a" .Abs 0 7 none, fixture_obj 1 "a" .Common 0 4 none]
          (fixture_defined "a" 0)
        < lnk_symbol_obj_input_idx
          [fixture_obj 0 "a" .Abs 0 7 none, fixture_obj 1 "a" .Common 0 4 none]
          (fixture_defined "a" 1)
    ∧ lnk_can_replace_symbol
        [fixture_obj 0 "a" .Abs 0 7 none, fixture_obj 1 "a" .Common 0 4 none] []
        .Defined (fixture_defined "a" 1) (fixture_defined "a" 0) = (false, [])
    ∧ lnk_can_replace_symbol
        [fixture_obj 0 "a" .Common 0 4 none, fixture_obj 1 "a" .Abs 0 7 none] []
        .Defined (fixture_defined "a" 0) (fixture_defined "a" 1)
      = (false, [lnk_error_multiply_defined_symbol (fixture_defined "a" 0)
          (fixture_defined "a" 1)]) := by
  decide

/-- C9 amended: with dst Common and src Absolute, `lnk_can_replace_symbol` always returns 0
(the Common leader is kept); the multiply-defined-symbol error is recorded exactly when the
object of dst has the strictly smaller input index, and nothing is recorded otherwise. -/
theorem C9_common_vs_abs (objs : List LNK_Obj) (libs : List LNK_Lib) (dst src : LNK_Symbol)
    (hd : lnk_symbol_interp objs dst = .Common) (hs : lnk_symbol_interp objs src = .Abs) :
    (lnk_can_replace_symbol objs libs .Defined dst src).1 = false
    ∧ (lnk_symbol_obj_input_idx objs dst < lnk_symbol_obj_input_idx objs src →
        (lnk_can_replace_symbol objs libs .Defined dst src).2
          = [lnk_error_multiply_defined_symbol dst src])
    ∧ (¬ lnk_symbol_obj_input_idx objs dst < lnk_symbol_obj_input_idx objs src →
        (lnk_can_replace_symbol objs libs .Defined dst src).2 = []) := by
  simp only [lnk_symbol_interp, lnk_parsed_symbol_from_defined, lnk_symbol_obj_input_idx] at *
  refine ⟨?_, ?_, ?_⟩
  · by_cases h : (lnk_obj_from_ptr objs dst.u.defined.obj).input_idx
        < (lnk_obj_from_ptr objs src.u.defined.obj).input_idx <;>
      simp [lnk_can_replace_symbol, hd, hs, lnk_symbol_defined_is_before, h]
  · intro h
    simp [lnk_can_replace_symbol, hd, hs, lnk_symbol_defined_is_before, h]
  · intro h
    simp [lnk_can_replace_symbol, hd, hs, lnk_symbol_defined_is_before, h]

/-- Scenario of the amended C9: the Absolute definition comes from the earlier object; the
Common leader is kept silently. -/
theorem C9_common_vs_abs_witness :
    (lnk_can_replace_symbol
        [fixture_obj 0 "a" .Abs 0 7 none, fixture_obj 1 "a" .Common 0 4 none] []
        .Defined (fixture_defined "a" 1) (fixture_defined "a" 0)).1 = false
    ∧ (lnk_can_replace_symbol
        [fixture_obj 0 "a" .Abs 0 7 none, fixture_obj 1 "a" .Common 0 4 none] []
        .Defined (fixture_defined "a" 1) (fixture_defined "a" 0)).2 = [] :=
  have h := C9_common_vs_abs
    [fixture_obj 0 "a" .Abs 0 7 none, fixture_obj 1 "a" .Common 0 4 none] []
    (fixture_defined "a" 1) (fixture_defined "a" 0) (by decide) (by decide)
  ⟨h.1, h.2.2 (by decide)⟩

/-! ## Hash trie: search after insert -/

/-- The replacement loop always leaves a symbol in the slot. -/
theorem lnk_symbol_hash_trie_replace_isSome (st : LNK_State) (scope : LNK_SymbolScope)
    (slot : Option LNK_Symbol) (symbol : LNK_Symbol) :
    (lnk_symbol_hash_trie_replace st scope slot symbol).2.isSome = true := by
  unfold lnk_symbol_hash_trie_replace
  cases slot with
  | none => rfl
  | some leader =>
    by_cases hc : (lnk_can_replace_symbol st.objs st.libs scope leader symbol).1 = true <;>
      simp [hc]

/-- A node name passes the match test for `n` exactly when it is `n`. -/
theorem lnk_name_matches_iff (name : Option String) (n : String) :
    lnk_name_matches name n = true ↔ name = some n := by
  cases name with
  | none => simp [lnk_name_matches]
  | some m => simp [lnk_name_matches, str8_match]

/-- Insertion at a node, with the child selection written as a chain of tests. -/
theorem lnk_insert_node_eq (st : LNK_State) (name : Option String) (slot : Option LNK_Symbol)
    (c0 c1 c2 c3 : LNK_SymbolHashTrie) (h : Nat) (scope : LNK_SymbolScope) (s : LNK_Symbol) :
    lnk_symbol_hash_trie_insert_or_replace st (.node name slot c0 c1 c2 c3) h scope s
      = if lnk_name_matches name s.name = true then
          ((lnk_symbol_hash_trie_replace st scope slot s).1,
            .node name (lnk_symbol_hash_trie_replace st scope slot s).2 c0 c1 c2 c3)
        else if h >>> 62 = 0 then
          ((lnk_symbol_hash_trie_insert_or_replace st c0 ((h <<< 2) % 2 ^ 64) scope s).1,
            .node name slot
              (lnk_symbol_hash_trie_insert_or_replace st c0 ((h <<< 2) % 2 ^ 64) scope s).2
              c1 c2 c3)
        else if h >>> 62 = 1 then
          ((lnk_symbol_hash_trie_insert_or_replace st c1 ((h <<< 2) % 2 ^ 64) scope s).1,
            .node name slot c0
              (lnk_symbol_hash_trie_insert_or_replace st c1 ((h <<< 2) % 2 ^ 64) scope s).2
              c2 c3)
        else if h >>> 62 = 2 then
          ((lnk_symbol_hash_trie_insert_or_replace st c2 ((h <<< 2) % 2 ^ 64) scope s).1,
            .node name slot c0 c1
              (lnk_symbol_hash_trie_insert_or_replace st c2 ((h <<< 2) % 2 ^ 64) scope s).2
              c3)
        else
          ((lnk_symbol_hash_trie_insert_or_replace st c3 ((h <<< 2) % 2 ^ 64) scope s).1,
            .node name slot c0 c1 c2
              (lnk_symbol_hash_trie_insert_or_replace st c3 ((h <<< 2) % 2 ^ 64) scope s).2) := by
  rw [lnk_symbol_hash_trie_insert_or_replace]
  generalize h >>> 62 = k
  rcases k with _ | _ | _ | k <;> simp

/-- Search at a node, with the child selection written as a chain of tests. -/
theorem lnk_search_node_eq (name : Option String) (slot : Option LNK_Symbol)
    (c0 c1 c2 c3 : LNK_SymbolHashTrie) (h : Nat) (n : String) :
    lnk_symbol_hash_trie_search (.node name slot c0 c1 c2 c3) h n
      = if lnk_name_matches name n = true then .node name slot c0 c1 c2 c3
        else if h >>> 62 = 0 then lnk_symbol_hash_trie_search c0 ((h <<< 2) % 2 ^ 64) n
        else if h >>> 62 = 1 then lnk_symbol_hash_trie_search c1 ((h <<< 2) % 2 ^ 64) n
        else if h >>> 62 = 2 then lnk_symbol_hash_trie_search c2 ((h <<< 2) % 2 ^ 64) n
        else lnk_symbol_hash_trie_search c3 ((h <<< 2) % 2 ^ 64) n := by
  rw [lnk_symbol_hash_trie_search]
  generalize h >>> 62 = k
  rcases k with _ | _ | _ | k <;> simp

/-- Searching the inserted name with the hash of the insertion finds a node of that name whose
symbol slot, like the new state, is what the replacement loop produces from the slot the search
found before the insertion. -/
theorem lnk_search_insert_same (st : LNK_State) (t : LNK_SymbolHashTrie) (h : Nat)
    (scope : LNK_SymbolScope) (s : LNK_Symbol) :
    (lnk_symbol_hash_trie_insert_or_replace st t h scope s).1
        = (lnk_symbol_hash_trie_replace st scope
            (lnk_symbol_hash_trie_search t h s.name).symbol s).1
    ∧ (lnk_symbol_hash_trie_search (lnk_symbol_hash_trie_insert_or_replace st t h scope s).2
          h s.name).name = some s.name
    ∧ (lnk_symbol_hash_trie_search (lnk_symbol_hash_trie_insert_or_replace st t h scope s).2
          h s.name).symbol
        = (lnk_symbol_hash_trie_replace st scope
            (lnk_symbol_hash_trie_search t h s.name).symbol s).2 := by
  induction t generalizing h with
  | null =>
    simp [lnk_symbol_hash_trie_insert_or_replace, lnk_symbol_hash_trie_search,
      lnk_name_matches, str8_match, LNK_SymbolHashTrie.name, LNK_SymbolHashTrie.symbol,
      lnk_symbol_hash_trie_replace]
  | node name slot c0 c1 c2 c3 ih0 ih1 ih2 ih3 =>
    rw [lnk_insert_node_eq, lnk_search_node_eq]
    by_cases hm : lnk_name_matches name s.name = true
    · have hn : name = some s.name := (lnk_name_matches_iff name s.name).1 hm
      subst hn
      simp only [hm, if_true, lnk_search_node_eq, LNK_SymbolHashTrie.name,
        LNK_SymbolHashTrie.symbol, and_self]
    · have hm' : lnk_name_matches name s.name = false := by simpa using hm
      by_cases h0 : h >>> 62 = 0
      · simp only [hm', h0, lnk_search_node_eq, Bool.false_eq_true, if_false, if_true]
        exact ih0 _
      · by_cases h1 : h >>> 62 = 1
        · simp only [hm', h1, lnk_search_node_eq, Bool.false_eq_true, if_false, if_true,
            one_ne_zero]
          exact ih1 _
        · by_cases h2 : h >>> 62 = 2
          · simp only [hm', h2, lnk_search_node_eq, Bool.false_eq_true, if_false, if_true,
              OfNat.ofNat_ne_zero, OfNat.ofNat_ne_one]
            exact ih2 _
          · simp only [hm', h0, h1, h2, lnk_search_node_eq, Bool.false_eq_true, if_false]
            exact ih3 _

/-- Inserting a symbol leaves the name and symbol that a search for any other name reads,
whatever the two hashes are. -/
theorem lnk_search_insert_other (st : LNK_State) (t : LNK_SymbolHashTrie) (h h' : Nat)
    (scope : LNK_SymbolScope) (s : LNK_Symbol) (n : String) (hne : n ≠ s.name) :
    (lnk_symbol_hash_trie_search (lnk_symbol_hash_trie_insert_or_replace st t h' scope s).2
        h n).name = (lnk_symbol_hash_trie_search t h n).name
    ∧ (lnk_symbol_hash_trie_search (lnk_symbol_hash_trie_insert_or_replace st t h' scope s).2
        h n).symbol = (lnk_symbol_hash_trie_search t h n).symbol := by
  induction t generalizing h h' with
  | null =>
    have hmn : lnk_name_matches (some s.name) n = false := by
      simp [lnk_name_matches, str8_match, Ne.symm hne]
    rw [lnk_symbol_hash_trie_insert_or_replace]
    simp only [lnk_search_node_eq, hmn, Bool.false_eq_true, if_false]
    simp only [lnk_symbol_hash_trie_search, ite_self, and_self]
  | node name slot c0 c1 c2 c3 ih0 ih1 ih2 ih3 =>
    rw [lnk_insert_node_eq]
    by_cases hm : lnk_name_matches name s.name = true
    · have hn : name = some s.name := (lnk_name_matches_iff name s.name).1 hm
      subst hn
      have hmn : lnk_name_matches (some s.name) n = false := by
        simp [lnk_name_matches, str8_match, Ne.symm hne]
      simp only [hm, if_true, lnk_search_node_eq, hmn, Bool.false_eq_true, if_false, and_self]
    · have hm' : lnk_name_matches name s.name = false := by simpa using hm
      simp only [hm', Bool.false_eq_true, if_false]
      by_cases hq : lnk_name_matches name n = true
      · split_ifs <;>
          simp only [lnk_search_node_eq, hq, if_true, LNK_SymbolHashTrie.name,
            LNK_SymbolHashTrie.symbol, and_self]
      · have hq' : lnk_name_matches name n = false := by simpa using hq
        split_ifs <;>
          simp only [lnk_search_node_eq, hq', Bool.false_eq_true, if_false] <;>
          split_ifs <;>
          first
            | exact ⟨rfl, rfl⟩
            | exact ih0 _ _
            | exact ih1 _ _
            | exact ih2 _ _
            | exact ih3 _ _

/-- C1: after `lnk_symbol_hash_trie_insert_or_replace(trie, h, scope, s)`, the search
`lnk_symbol_hash_trie_search(trie, h, s.name)` returns a node (not null) whose name is `s.name`
and whose symbol is the replacement-policy leader: `s` when the search found no leader for the
name before the insertion or `lnk_can_replace_symbol(scope, old_leader, s)` holds, and the old
leader otherwise. -/
theorem C1_insert_then_search (st : LNK_State) (t : LNK_SymbolHashTrie) (h : Nat)
    (scope : LNK_SymbolScope) (s : LNK_Symbol) :
    lnk_symbol_hash_trie_search (lnk_symbol_hash_trie_insert_or_replace st t h scope s).2
        h s.name ≠ .null
    ∧ (lnk_symbol_hash_trie_search (lnk_symbol_hash_trie_insert_or_replace st t h scope s).2
        h s.name).name = some s.name
    ∧ (lnk_symbol_hash_trie_search (lnk_symbol_hash_trie_insert_or_replace st t h scope s).2
        h s.name).symbol
      = some (match (lnk_symbol_hash_trie_search t h s.name).symbol with
          | none => s
          | some old_leader =>
            if (lnk_can_replace_symbol st.objs st.libs scope old_leader s).1 = true then s
            else old_leader) := by
  obtain ⟨_, hname, hsym⟩ := lnk_search_insert_same st t h scope s
  refine ⟨?_, hname, ?_⟩
  · intro hnull
    rw [hnull] at hname
    simp [LNK_SymbolHashTrie.name] at hname
  · rw [hsym]
    cases hold : (lnk_symbol_hash_trie_search t h s.name).symbol with
    | none => simp [lnk_symbol_hash_trie_replace]
    | some old_leader =>
      by_cases hc : (lnk_can_replace_symbol st.objs st.libs scope old_leader s).1 = true <;>
        simp [lnk_symbol_hash_trie_replace, hc]

/-! ## Hash trie: uniqueness of names -/

/-- Membership in the names of a node. -/
theorem lnk_mem_names_node (x : String) (name : Option String) (slot : Option LNK_Symbol)
    (c0 c1 c2 c3 : LNK_SymbolHashTrie) :
    x ∈ (LNK_SymbolHashTrie.node name slot c0 c1 c2 c3).names
      ↔ name = some x ∨ x ∈ c0.names ∨ x ∈ c1.names ∨ x ∈ c2.names ∨ x ∈ c3.names := by
  simp [LNK_SymbolHashTrie.names, Option.mem_toList]

/-- The names after an insertion are the names before it together with the inserted name. -/
theorem lnk_mem_names_insert (st : LNK_State) (t : LNK_SymbolHashTrie) (h : Nat)
    (scope : LNK_SymbolScope) (s : LNK_Symbol) (x : String) :
    x ∈ (lnk_symbol_hash_trie_insert_or_replace st t h scope s).2.names
      ↔ x ∈ t.names ∨ x = s.name := by
  induction t generalizing h with
  | null =>
    rw [lnk_symbol_hash_trie_insert_or_replace]
    simp [lnk_mem_names_node, LNK_SymbolHashTrie.names, eq_comm]
  | node name slot c0 c1 c2 c3 ih0 ih1 ih2 ih3 =>
    rw [lnk_insert_node_eq]
    by_cases hm : lnk_name_matches name s.name = true
    · have hn : name = some s.name := (lnk_name_matches_iff name s.name).1 hm
      subst hn
      simp only [hm, if_true, lnk_mem_names_node]
      constructor
      · intro hx; exact Or.inl hx
      · rintro (hx | hx)
        · exact hx
        · exact Or.inl (by rw [hx])
    · have hm' : lnk_name_matches name s.name = false := by simpa using hm
      simp only [hm', Bool.false_eq_true, if_false]
      split_ifs <;> simp only [lnk_mem_names_node, ih0, ih1, ih2, ih3] <;> tauto

/-- Every node is named after an insertion if every node was named before it. -/
theorem lnk_node_count_insert (st : LNK_State) (t : LNK_SymbolHashTrie) (h : Nat)
    (scope : LNK_SymbolScope) (s : LNK_Symbol) (ht : t.names.length = t.node_count) :
    (lnk_symbol_hash_trie_insert_or_replace st t h scope s).2.names.length
      = (lnk_symbol_hash_trie_insert_or_replace st t h scope s).2.node_count := by
  induction t generalizing h with
  | null =>
    rw [lnk_symbol_hash_trie_insert_or_replace]
    simp [LNK_SymbolHashTrie.names, LNK_SymbolHashTrie.node_count]
  | node name slot c0 c1 c2 c3 ih0 ih1 ih2 ih3 =>
    have hle : ∀ c : LNK_SymbolHashTrie, c.names.length ≤ c.node_count := by
      intro c
      induction c with
      | null => simp [LNK_SymbolHashTrie.names, LNK_SymbolHashTrie.node_count]
      | node name slot c0 c1 c2 c3 ih0 ih1 ih2 ih3 =>
        cases name <;>
          simp only [LNK_SymbolHashTrie.names, LNK_SymbolHashTrie.node_count,
            List.length_append, Option.toList, List.length_nil, List.length_cons] <;> omega
    have h0 := hle c0
    have h1 := hle c1
    have h2 := hle c2
    have h3 := hle c3
    have hname : name.toList.length ≤ 1 := by cases name <;> simp [Option.toList]
    simp only [LNK_SymbolHashTrie.names, LNK_SymbolHashTrie.node_count,
      List.length_append] at ht
    rw [lnk_insert_node_eq]
    split_ifs
    · simp only [LNK_SymbolHashTrie.names, LNK_SymbolHashTrie.node_count, List.length_append]
      exact ht
    · have := ih0 ((h <<< 2) % 2 ^ 64) (by omega)
      simp only [LNK_SymbolHashTrie.names, LNK_SymbolHashTrie.node_count, List.length_append]
      omega
    · have := ih1 ((h <<< 2) % 2 ^ 64) (by omega)
      simp only [LNK_SymbolHashTrie.names, LNK_SymbolHashTrie.node_count, List.length_append]
      omega
    · have := ih2 ((h <<< 2) % 2 ^ 64) (by omega)
      simp only [LNK_SymbolHashTrie.names, LNK_SymbolHashTrie.node_count, List.length_append]
      omega
    · have := ih3 ((h <<< 2) % 2 ^ 64) (by omega)
      simp only [LNK_SymbolHashTrie.names, LNK_SymbolHashTrie.node_count, List.length_append]
      omega

/-- In a trie that satisfies the keying invariant no two nodes hold equal names. -/
theorem lnk_trie_keyed_nodup (hf : String → Nat) (t : LNK_SymbolHashTrie)
    (hk : lnk_trie_keyed hf t) : t.names.Nodup := by
  induction t generalizing hf with
  | null => simp [LNK_SymbolHashTrie.names]
  | node name slot c0 c1 c2 c3 ih0 ih1 ih2 ih3 =>
    obtain ⟨k0, k1, k2, k3, w0, w1, w2, w3⟩ := hk
    have n0 := ih0 _ w0
    have n1 := ih1 _ w1
    have n2 := ih2 _ w2
    have n3 := ih3 _ w3
    have hname : name.toList.Nodup := by cases name <;> simp [Option.toList]
    simp only [LNK_SymbolHashTrie.names]
    refine List.Nodup.append hname (List.Nodup.append n0 (List.Nodup.append n1
      (List.Nodup.append n2 n3 ?_) ?_) ?_) ?_
    · intro x hx2 hx3
      have a := (k2 x hx2).1
      have b := (k3 x hx3).1
      omega
    · intro x hx1 hx
      rcases List.mem_append.1 hx with hx2 | hx3
      · have a := (k1 x hx1).1
        have b := (k2 x hx2).1
        omega
      · have a := (k1 x hx1).1
        have b := (k3 x hx3).1
        omega
    · intro x hx0 hx
      have a := (k0 x hx0).1
      rcases List.mem_append.1 hx with hx1 | hx
      · have b := (k1 x hx1).1
        omega
      · rcases List.mem_append.1 hx with hx2 | hx3
        · have b := (k2 x hx2).1
          omega
        · have b := (k3 x hx3).1
          omega
    · intro x hxn hx
      have hxn' : name = some x := by simpa [Option.mem_toList] using hxn
      rcases List.mem_append.1 hx with hx0 | hx
      · exact (k0 x hx0).2 hxn'
      · rcases List.mem_append.1 hx with hx1 | hx
        · exact (k1 x hx1).2 hxn'
        · rcases List.mem_append.1 hx with hx2 | hx3
          · exact (k2 x hx2).2 hxn'
          · exact (k3 x hx3).2 hxn'

/-- Inserting a symbol with the hash of its name keeps the keying invariant. -/
theorem lnk_trie_keyed_insert (hf : String → Nat) (st : LNK_State) (t : LNK_SymbolHashTrie)
    (scope : LNK_SymbolScope) (s : LNK_Symbol) (hk : lnk_trie_keyed hf t) :
    lnk_trie_keyed hf (lnk_symbol_hash_trie_insert_or_replace st t (hf s.name) scope s).2 := by
  induction t generalizing hf with
  | null =>
    rw [lnk_symbol_hash_trie_insert_or_replace]
    simp [lnk_trie_keyed, LNK_SymbolHashTrie.names]
  | node name slot c0 c1 c2 c3 ih0 ih1 ih2 ih3 =>
    obtain ⟨k0, k1, k2, k3, w0, w1, w2, w3⟩ := hk
    rw [lnk_insert_node_eq]
    by_cases hm : lnk_name_matches name s.name = true
    · simp only [hm, if_true]
      exact ⟨k0, k1, k2, k3, w0, w1, w2, w3⟩
    · have hm' : lnk_name_matches name s.name = false := by simpa using hm
      have hne : name ≠ some s.name := fun hn => hm ((lnk_name_matches_iff name s.name).2 hn)
      simp only [hm', Bool.false_eq_true, if_false]
      by_cases h0 : hf s.name >>> 62 = 0
      · simp only [h0, if_true]
        refine ⟨?_, k1, k2, k3, ih0 (fun n => (hf n <<< 2) % 2 ^ 64) w0, w1, w2, w3⟩
        intro n hn
        rcases (lnk_mem_names_insert _ _ _ _ _ _).1 hn with hn | hn
        · exact k0 n hn
        · subst hn
          exact ⟨by simp [lnk_child_slot, h0], hne⟩
      · by_cases h1 : hf s.name >>> 62 = 1
        · simp only [h1, if_true, one_ne_zero, if_false]
          refine ⟨k0, ?_, k2, k3, w0, ih1 (fun n => (hf n <<< 2) % 2 ^ 64) w1, w2, w3⟩
          intro n hn
          rcases (lnk_mem_names_insert _ _ _ _ _ _).1 hn with hn | hn
          · exact k1 n hn
          · subst hn
            exact ⟨by simp [lnk_child_slot, h1], hne⟩
        · by_cases h2 : hf s.name >>> 62 = 2
          · simp only [h2, if_true, OfNat.ofNat_ne_zero, OfNat.ofNat_ne_one, if_false]
            refine ⟨k0, k1, ?_, k3, w0, w1, ih2 (fun n => (hf n <<< 2) % 2 ^ 64) w2, w3⟩
            intro n hn
            rcases (lnk_mem_names_insert _ _ _ _ _ _).1 hn with hn | hn
            · exact k2 n hn
            · subst hn
              exact ⟨by simp [lnk_child_slot, h2], hne⟩
          · simp only [h0, h1, h2, if_false]
            refine ⟨k0, k1, k2, ?_, w0, w1, w2, ih3 (fun n => (hf n <<< 2) % 2 ^ 64) w3⟩
            intro n hn
            rcases (lnk_mem_names_insert _ _ _ _ _ _).1 hn with hn | hn
            · exact k3 n hn
            · subst hn
              exact ⟨by simp [lnk_child_slot, h0, h1, h2], hne⟩

/-- One insertion with the hash of the name keeps the trie invariant. -/
theorem lnk_trie_inv_insert (hash_of : String → Nat) (st : LNK_State) (t : LNK_SymbolHashTrie)
    (scope : LNK_SymbolScope) (s : LNK_Symbol) (hi : lnk_trie_inv hash_of t) :
    lnk_trie_inv hash_of
      (lnk_symbol_hash_trie_insert_or_replace st t (hash_of s.name) scope s).2 := by
  obtain ⟨hk, hc, hs⟩ := hi
  refine ⟨lnk_trie_keyed_insert hash_of st t scope s hk,
    lnk_node_count_insert st t _ scope s hc, ?_⟩
  intro n hn
  by_cases hns : n = s.name
  · subst hns
    obtain ⟨_, hname, hsym⟩ := lnk_search_insert_same st t (hash_of s.name) scope s
    exact ⟨hname, by rw [hsym]; exact lnk_symbol_hash_trie_replace_isSome _ _ _ _⟩
  · have hold : n ∈ t.names := by
      rcases (lnk_mem_names_insert st t _ scope s n).1 hn with h | h
      · exact h
      · exact absurd h hns
    obtain ⟨e1, e2⟩ := lnk_search_insert_other st t (hash_of n) (hash_of s.name) scope s n hns
    rw [e1, e2]
    exact hs n hold

/-- A sequence of insertions keeps the trie invariant, and the names of the result are the
names before it together with the inserted names. -/
theorem lnk_trie_inv_push_all (hash_of : String → Nat) (scope : LNK_SymbolScope)
    (syms : List LNK_Symbol) (acc : LNK_State × LNK_SymbolHashTrie)
    (hi : lnk_trie_inv hash_of acc.2) :
    lnk_trie_inv hash_of (lnk_symbol_table_push_all hash_of scope acc syms).2
    ∧ ∀ x, x ∈ (lnk_symbol_table_push_all hash_of scope acc syms).2.names
        ↔ x ∈ acc.2.names ∨ ∃ s ∈ syms, s.name = x := by
  induction syms generalizing acc with
  | nil => simp [lnk_symbol_table_push_all, hi]
  | cons s rest ih =>
    rw [lnk_symbol_table_push_all]
    obtain ⟨h1, h2⟩ := ih _ (lnk_trie_inv_insert hash_of acc.1 acc.2 scope s hi)
    refine ⟨h1, ?_⟩
    intro x
    rw [h2 x, lnk_mem_names_insert]
    simp only [List.mem_cons, exists_eq_or_imp]
    constructor
    · rintro ((h | h) | h)
      · exact Or.inl h
      · exact Or.inr (Or.inl h.symm)
      · exact Or.inr (Or.inr h)
    · rintro (h | h | h)
      · exact Or.inl (Or.inl h)
      · exact Or.inl (Or.inr h.symm)
      · exact Or.inr h

/-- C2: after any sequence of sequential `lnk_symbol_hash_trie_insert_or_replace` calls on one
scope that starts from the empty trie and inserts every name with the hash `hash_of` gives it,
no two trie nodes hold equal names and every node holds a name; so every inserted name has
exactly one node, which the search finds and which holds a leader symbol. -/
theorem C2_names_unique (hash_of : String → Nat) (scope : LNK_SymbolScope) (st : LNK_State)
    (syms : List LNK_Symbol) :
    (lnk_symbol_table_push_all hash_of scope (st, .null) syms).2.names.Nodup
    ∧ (lnk_symbol_table_push_all hash_of scope (st, .null) syms).2.names.length
        = (lnk_symbol_table_push_all hash_of scope (st, .null) syms).2.node_count
    ∧ ∀ s ∈ syms,
        (lnk_symbol_table_push_all hash_of scope (st, .null) syms).2.names.count s.name = 1
        ∧ (lnk_symbol_hash_trie_search
            (lnk_symbol_table_push_all hash_of scope (st, .null) syms).2
            (hash_of s.name) s.name).name = some s.name
        ∧ ∃ leader, (lnk_symbol_hash_trie_search
            (lnk_symbol_table_push_all hash_of scope (st, .null) syms).2
            (hash_of s.name) s.name).symbol = some leader := by
  have h0 : lnk_trie_inv hash_of ((st, LNK_SymbolHashTrie.null) :
      LNK_State × LNK_SymbolHashTrie).2 := by
    simp [lnk_trie_inv, lnk_trie_keyed, LNK_SymbolHashTrie.names,
      LNK_SymbolHashTrie.node_count]
  obtain ⟨⟨hk, hc, hs⟩, hmem⟩ := lnk_trie_inv_push_all hash_of scope syms (st, .null) h0
  have hnd := lnk_trie_keyed_nodup hash_of _ hk
  refine ⟨hnd, hc, ?_⟩
  intro s hsm
  have hin : s.name ∈ (lnk_symbol_table_push_all hash_of scope (st, .null) syms).2.names :=
    (hmem s.name).2 (Or.inr ⟨s, hsm, rfl⟩)
  obtain ⟨e1, e2⟩ := hs s.name hin
  exact ⟨List.count_eq_one_of_mem hnd hin, e1, Option.isSome_iff_exists.1 e2⟩

/-- Scenario of C2: three insertions, two of them of the same name, leave two named nodes. -/
theorem C2_names_unique_witness :
    (lnk_symbol_table_push_all (fun n => n.length * 2 ^ 62) .Lib (fixture_state [] [], .null)
        [fixture_lib_symbol "a" 0, fixture_lib_symbol "bb" 0, fixture_lib_symbol "a" 1]
      ).2.names.Nodup
    ∧ (lnk_symbol_table_push_all (fun n => n.length * 2 ^ 62) .Lib (fixture_state [] [], .null)
        [fixture_lib_symbol "a" 0, fixture_lib_symbol "bb" 0, fixture_lib_symbol "a" 1]
      ).2.node_count = 2 :=
  ⟨(C2_names_unique (fun n => n.length * 2 ^ 62) .Lib (fixture_state [] [])
      [fixture_lib_symbol "a" 0, fixture_lib_symbol "bb" 0, fixture_lib_symbol "a" 1]).1,
   by decide⟩

/-! ## Lib scope: the library discovered first wins -/

/-- In the Lib scope the replacement loop leaves the state as it is and keeps the leader unless
the library of the incoming symbol has the strictly smaller input index. -/
theorem lnk_replace_lib (st : LNK_State) (c s : LNK_Symbol) :
    lnk_symbol_hash_trie_replace st .Lib (some c) s
      = (st, some (if lnk_symbol_lib_input_idx st.libs s < lnk_symbol_lib_input_idx st.libs c
          then s else c)) := by
  by_cases hlt : lnk_symbol_lib_input_idx st.libs s < lnk_symbol_lib_input_idx st.libs c
  · have hb : lnk_symbol_lib_is_before st.libs s c = true := by
      simpa [lnk_symbol_lib_is_before, lnk_symbol_lib_input_idx] using hlt
    simp [lnk_symbol_hash_trie_replace, lnk_can_replace_symbol, lnk_on_symbol_replace, hb, hlt]
  · have hb : lnk_symbol_lib_is_before st.libs s c = false := by
      simpa [lnk_symbol_lib_is_before, lnk_symbol_lib_input_idx] using hlt
    simp [lnk_symbol_hash_trie_replace, lnk_can_replace_symbol, lnk_on_symbol_replace, hb, hlt]

/-- Inserting a list of lib symbols of one name on top of a leader `c` leaves the state as it
is and ends with a leader of minimal library input index among `c` and the list. -/
theorem lnk_push_all_lib_leader (hash_of : String → Nat) (n : String) (l : List LNK_Symbol)
    (acc : LNK_State × LNK_SymbolHashTrie) (c : LNK_Symbol)
    (hname : ∀ s ∈ l, s.name = n)
    (hc : (lnk_symbol_hash_trie_search acc.2 (hash_of n) n).symbol = some c) :
    (lnk_symbol_table_push_all hash_of .Lib acc l).1 = acc.1
    ∧ ∃ m, (m = c ∨ m ∈ l)
        ∧ lnk_symbol_lib_input_idx acc.1.libs m ≤ lnk_symbol_lib_input_idx acc.1.libs c
        ∧ (∀ s ∈ l, lnk_symbol_lib_input_idx acc.1.libs m
            ≤ lnk_symbol_lib_input_idx acc.1.libs s)
        ∧ (lnk_symbol_hash_trie_search (lnk_symbol_table_push_all hash_of .Lib acc l).2
            (hash_of n) n).symbol = some m := by
  induction l generalizing acc c with
  | nil => exact ⟨rfl, c, Or.inl rfl, le_refl _, by simp, hc⟩
  | cons s rest ih =>
    have hsn : s.name = n := hname s (List.mem_cons_self _ _)
    obtain ⟨e1, _, e3⟩ := lnk_search_insert_same acc.1 acc.2 (hash_of n) .Lib s
    rw [hsn, hc, lnk_replace_lib] at e1 e3
    dsimp only at e1 e3
    rw [lnk_symbol_table_push_all, hsn]
    obtain ⟨f1, m, f2, f3, f4, f5⟩ := ih
      (lnk_symbol_hash_trie_insert_or_replace acc.1 acc.2 (hash_of n) .Lib s) _
      (fun x hx => hname x (List.mem_cons_of_mem _ hx)) e3
    rw [e1] at f1 f3 f4
    refine ⟨f1, m, ?_, ?_, ?_, f5⟩
    · rcases f2 with f2 | f2
      · by_cases hlt : lnk_symbol_lib_input_idx acc.1.libs s
            < lnk_symbol_lib_input_idx acc.1.libs c
        · rw [if_pos hlt] at f2
          exact Or.inr (f2 ▸ List.mem_cons_self _ _)
        · rw [if_neg hlt] at f2
          exact Or.inl f2
      · exact Or.inr (List.mem_cons_of_mem _ f2)
    · split_ifs at f3 <;> omega
    · intro x hx
      rcases List.mem_cons.1 hx with hx | hx
      · subst hx
        split_ifs at f3 <;> omega
      · exact f4 x hx

/-- Inserting a non-empty list of lib symbols of one name into a trie that has no node for the
name ends with a leader from the list of minimal library input index. -/
theorem lnk_push_all_lib_fresh (hash_of : String → Nat) (n : String) (l : List LNK_Symbol)
    (st : LNK_State) (t : LNK_SymbolHashTrie) (hl : l ≠ [])
    (hname : ∀ s ∈ l, s.name = n)
    (hfresh : (lnk_symbol_hash_trie_search t (hash_of n) n).symbol = none) :
    ∃ m, m ∈ l
      ∧ (∀ s ∈ l, lnk_symbol_lib_input_idx st.libs m ≤ lnk_symbol_lib_input_idx st.libs s)
      ∧ (lnk_symbol_hash_trie_search (lnk_symbol_table_push_all hash_of .Lib (st, t) l).2
          (hash_of n) n).symbol = some m := by
  cases l with
  | nil => exact absurd rfl hl
  | cons s rest =>
    have hsn : s.name = n := hname s (List.mem_cons_self _ _)
    obtain ⟨e1, _, e3⟩ := lnk_search_insert_same st t (hash_of n) .Lib s
    rw [hsn, hfresh] at e1 e3
    simp only [lnk_symbol_hash_trie_replace] at e1 e3
    obtain ⟨_, m, f2, f3, f4, f5⟩ := lnk_push_all_lib_leader hash_of n rest
      (lnk_symbol_hash_trie_insert_or_replace st t (hash_of n) .Lib s) s
      (fun x hx => hname x (List.mem_cons_of_mem _ hx)) e3
    rw [e1] at f3 f4
    refine ⟨m, ?_, ?_, ?_⟩
    · rcases f2 with f2 | f2
      · exact f2 ▸ List.mem_cons_self _ _
      · exact List.mem_cons_of_mem _ f2
    · intro x hx
      rcases List.mem_cons.1 hx with hx | hx
      · subst hx
        exact f3
      · exact f4 x hx
    · rw [lnk_symbol_table_push_all, hsn]
      exact f5

/-- C10: in the Lib scope `lnk_can_replace_symbol` records nothing and returns 1 iff the library
of src has the strictly smaller input index than the library of dst. Hence, for same-name lib
symbols whose libraries have pairwise distinct input indices, inserted sequentially into a trie
that holds no leader for the name, the leader is the symbol of the library with the smallest
input index, and it is the same for every permutation of the insertions. -/
theorem C10_lib_first_discovered (hash_of : String → Nat) (n : String) (st : LNK_State)
    (t : LNK_SymbolHashTrie) (l l' : List LNK_Symbol)
    (hperm : l.Perm l') (hl : l ≠ [])
    (hname : ∀ s ∈ l, s.name = n)
    (hdist : (l.map (lnk_symbol_lib_input_idx st.libs)).Nodup)
    (hfresh : (lnk_symbol_hash_trie_search t (hash_of n) n).symbol = none) :
    (∀ dst src : LNK_Symbol,
        (lnk_can_replace_symbol st.objs st.libs .Lib dst src).2 = []
        ∧ ((lnk_can_replace_symbol st.objs st.libs .Lib dst src).1 = true ↔
            lnk_symbol_lib_input_idx st.libs src < lnk_symbol_lib_input_idx st.libs dst))
    ∧ ∃ m, m ∈ l
        ∧ (∀ s ∈ l, lnk_symbol_lib_input_idx st.libs m ≤ lnk_symbol_lib_input_idx st.libs s)
        ∧ (lnk_symbol_hash_trie_search (lnk_symbol_table_push_all hash_of .Lib (st, t) l).2
            (hash_of n) n).symbol = some m
        ∧ (lnk_symbol_hash_trie_search (lnk_symbol_table_push_all hash_of .Lib (st, t) l').2
            (hash_of n) n).symbol = some m := by
  constructor
  · intro dst src
    simp [lnk_can_replace_symbol, lnk_symbol_lib_is_before, lnk_symbol_lib_input_idx]
  · have hl' : l' ≠ [] := by
      intro h
      rw [h] at hperm
      exact hl (List.Perm.eq_nil hperm)
    obtain ⟨m, hm, hmin, hlead⟩ := lnk_push_all_lib_fresh hash_of n l st t hl hname hfresh
    obtain ⟨m', hm', hmin', hlead'⟩ := lnk_push_all_lib_fresh hash_of n l' st t hl'
      (fun s hs => hname s (hperm.mem_iff.2 hs)) hfresh
    have hml : m' ∈ l := hperm.mem_iff.2 hm'
    have heq : lnk_symbol_lib_input_idx st.libs m = lnk_symbol_lib_input_idx st.libs m' :=
      le_antisymm (hmin m' hml) (hmin' m (hperm.mem_iff.1 hm))
    have hmm : m = m' := List.inj_on_of_nodup_map hdist hm hml heq
    exact ⟨m, hm, hmin, hlead, hmm ▸ hlead'⟩

/-- Scenario of C10: three libraries of input indices 5, 2 and 9 provide the name `x`; in the
two insertion orders shown the leader is the symbol of the library of input index 2. -/
theorem C10_lib_first_discovered_witness :
    (lnk_symbol_hash_trie_search (lnk_symbol_table_push_all (fun _ => 0) .Lib
        (fixture_state [] [⟨5⟩, ⟨2⟩, ⟨9⟩], .null)
        [fixture_lib_symbol "x" 0, fixture_lib_symbol "x" 1, fixture_lib_symbol "x" 2]).2
        0 "x").symbol = some (fixture_lib_symbol "x" 1)
    ∧ (lnk_symbol_hash_trie_search (lnk_symbol_table_push_all (fun _ => 0) .Lib
        (fixture_state [] [⟨5⟩, ⟨2⟩, ⟨9⟩], .null)
        [fixture_lib_symbol "x" 2, fixture_lib_symbol "x" 1, fixture_lib_symbol "x" 0]).2
        0 "x").symbol = some (fixture_lib_symbol "x" 1) := by
  obtain ⟨_, m, _, _, h1, h2⟩ := C10_lib_first_discovered (fun _ => 0) "x"
    (fixture_state [] [⟨5⟩, ⟨2⟩, ⟨9⟩]) .null
    [fixture_lib_symbol "x" 0, fixture_lib_symbol "x" 1, fixture_lib_symbol "x" 2]
    [fixture_lib_symbol "x" 2, fixture_lib_symbol "x" 1, fixture_lib_symbol "x" 0]
    (by decide) (by decide) (by decide) (by decide) (by decide)
  have h3 : (lnk_symbol_hash_trie_search (lnk_symbol_table_push_all (fun _ => 0) .Lib
      (fixture_state [] [⟨5⟩, ⟨2⟩, ⟨9⟩], .null)
      [fixture_lib_symbol "x" 0, fixture_lib_symbol "x" 1, fixture_lib_symbol "x" 2]).2
      0 "x").symbol = some (fixture_lib_symbol "x" 1) := by decide
  have hm : m = fixture_lib_symbol "x" 1 := Option.some.inj (h1.symm.trans h3)
  rw [hm] at h1 h2
  exact ⟨h1, h2⟩

/-! ## Effect of a replacement on section flags -/

/-- Setting the `LnkRemove` bit makes the test for it succeed. -/
theorem coff_lnk_remove_or (x : Nat) :
    (x ||| COFF_SectionFlag_LnkRemove) &&& COFF_SectionFlag_LnkRemove
      = COFF_SectionFlag_LnkRemove := by
  apply Nat.eq_of_testBit_eq
  intro i
  rw [Nat.testBit_and, Nat.testBit_or]
  cases Nat.testBit x i <;> cases Nat.testBit COFF_SectionFlag_LnkRemove i <;> rfl

/-- Flagging a section leaves the symbol table of the object as it is. -/
theorem lnk_obj_flag_section_removed_symbols (o : LNK_Obj) (k : Nat) :
    (lnk_obj_flag_section_removed o k).symbols = o.symbols := by
  unfold lnk_obj_flag_section_removed
  split <;> rfl

/-- Flagging a section leaves the number of section headers as it is. -/
theorem lnk_obj_flag_section_removed_length (o : LNK_Obj) (k : Nat) :
    (lnk_obj_flag_section_removed o k).section_table.length = o.section_table.length := by
  unfold lnk_obj_flag_section_removed
  split <;> simp

/-- Flags of section `n` after flagging section `k`. -/
theorem lnk_obj_flag_section_removed_flags (o : LNK_Obj) (k n : Nat) :
    (lnk_coff_section_header_from_section_number (lnk_obj_flag_section_removed o k) n).flags
      = if k = n ∧ 1 ≤ n ∧ n ≤ o.section_table.length then
          (lnk_coff_section_header_from_section_number o n).flags ||| COFF_SectionFlag_LnkRemove
        else (lnk_coff_section_header_from_section_number o n).flags := by
  unfold lnk_obj_flag_section_removed lnk_coff_section_header_from_section_number
  by_cases hk : k = 0
  · subst hk
    by_cases hn : n = 0
    · simp [hn]
    · have : ¬ (0 = n ∧ 1 ≤ n ∧ n ≤ o.section_table.length) := by omega
      simp [hn, this]
  · by_cases hn : n = 0
    · subst hn
      simp [hk]
    · simp only [hk, hn, if_false, List.getD_eq_getElem?_getD, List.getElem?_modify]
      by_cases hkn : k = n
      · subst hkn
        by_cases hlen : k ≤ o.section_table.length
        · have hlt : k - 1 < o.section_table.length := by omega
          have h1 : 1 ≤ k := by omega
          simp [hlt, hlen, h1]
        · have hge : o.section_table.length ≤ k - 1 := by omega
          simp [List.getElem?_eq_none hge, hlen]
      · have hne : k - 1 ≠ n - 1 := by omega
        cases o.section_table[n - 1]? <;> simp [hkn, hne]

/-- A section that carries `LnkRemove` still carries it after any section is flagged. -/
theorem lnk_obj_flag_section_removed_keeps (o : LNK_Obj) (k n : Nat)
    (h : (lnk_coff_section_header_from_section_number o n).flags &&& COFF_SectionFlag_LnkRemove
      = COFF_SectionFlag_LnkRemove) :
    (lnk_coff_section_header_from_section_number (lnk_obj_flag_section_removed o k) n).flags
      &&& COFF_SectionFlag_LnkRemove = COFF_SectionFlag_LnkRemove := by
  rw [lnk_obj_flag_section_removed_flags]
  split
  · exact coff_lnk_remove_or _
  · exact h

/-- Effect of `lnk_on_symbol_replace` on the discarded object: the symbol table is unchanged
and the section of the discarded symbol carries `LnkRemove`. -/
theorem lnk_on_symbol_replace_obj_spec (o : LNK_Obj) (n : Nat)
    (h1 : 1 ≤ n) (h2 : n ≤ o.section_table.length) :
    (lnk_on_symbol_replace_obj o n).symbols = o.symbols
    ∧ (lnk_coff_section_header_from_section_number (lnk_on_symbol_replace_obj o n) n).flags
        &&& COFF_SectionFlag_LnkRemove = COFF_SectionFlag_LnkRemove := by
  unfold lnk_on_symbol_replace_obj
  have base : (lnk_obj_flag_section_removed o n).symbols = o.symbols
      ∧ (lnk_coff_section_header_from_section_number (lnk_obj_flag_section_removed o n) n).flags
          &&& COFF_SectionFlag_LnkRemove = COFF_SectionFlag_LnkRemove := by
    refine ⟨lnk_obj_flag_section_removed_symbols o n, ?_⟩
    rw [lnk_obj_flag_section_removed_flags, if_pos ⟨rfl, h1, h2⟩]
    exact coff_lnk_remove_or _
  generalize lnk_obj_flag_section_removed o n = o1 at base
  generalize o.associated_sections.getD n [] = assoc
  induction assoc generalizing o1 with
  | nil => exact base
  | cons k rest ih =>
    rw [List.foldl_cons]
    exact ih _ ⟨(lnk_obj_flag_section_removed_symbols o1 k).trans base.1,
      lnk_obj_flag_section_removed_keeps o1 k n base.2⟩

/-- Reading an ingested object through its pointer after that object was rewritten. -/
theorem lnk_obj_from_ptr_modify (objs : List LNK_Obj) (f : LNK_Obj → LNK_Obj) (p : Nat)
    (hp : p < objs.length) :
    lnk_obj_from_ptr (objs.modify f p) p = f (lnk_obj_from_ptr objs p) := by
  simp [lnk_obj_from_ptr, List.getD_eq_getElem?_getD, List.getElem?_modify, hp]

/-- When the policy keeps the leader `dst` and discards the Regular symbol `src` of an ingested
object, the section of `src` carries `LnkRemove` afterwards. -/
theorem lnk_on_symbol_replace_flags_discarded (st : LNK_State) (dst src : LNK_Symbol)
    (hsi : lnk_symbol_interp st.objs src = .Regular)
    (hp : src.u.defined.obj < st.objs.length)
    (h1 : 1 ≤ (lnk_parsed_symbol_from_defined st.objs src).section_number)
    (h2 : (lnk_parsed_symbol_from_defined st.objs src).section_number
      ≤ (lnk_obj_from_ptr st.objs src.u.defined.obj).section_table.length) :
    coff_section_is_removed (lnk_symbol_section_header
      (lnk_on_symbol_replace st .Defined src dst).objs src) = true := by
  have hobjs : (lnk_on_symbol_replace st .Defined src dst).objs
      = st.objs.modify (fun o => lnk_on_symbol_replace_obj o
          (lnk_parsed_symbol_from_defined st.objs src).section_number) src.u.defined.obj := by
    simp only [lnk_symbol_interp, lnk_parsed_symbol_from_defined] at hsi
    simp [lnk_on_symbol_replace, lnk_parsed_symbol_from_defined, hsi]
  obtain ⟨e1, e2⟩ := lnk_on_symbol_replace_obj_spec
    (lnk_obj_from_ptr st.objs src.u.defined.obj) _ h1 h2
  have hparsed : lnk_parsed_symbol_from_defined
      (lnk_on_symbol_replace st .Defined src dst).objs src
      = lnk_parsed_symbol_from_defined st.objs src := by
    rw [hobjs]
    simp only [lnk_parsed_symbol_from_defined, lnk_obj_from_ptr_modify _ _ _ hp,
      lnk_parsed_symbol_from_coff_symbol_idx]
    rw [show (lnk_on_symbol_replace_obj (lnk_obj_from_ptr st.objs src.u.defined.obj)
        ((lnk_obj_from_ptr st.objs src.u.defined.obj).symbols.getD src.u.defined.symbol_idx
          { name := "", section_number := 0, value := 0,
            interp := COFF_SymbolValueInterpType.Undefined }).section_number).symbols
        = (lnk_obj_from_ptr st.objs src.u.defined.obj).symbols from e1]
  unfold coff_section_is_removed lnk_symbol_section_header
  rw [hparsed, hobjs, lnk_obj_from_ptr_modify _ _ _ hp, e2]
  decide

/-- C3: for two Regular COMDAT symbols whose selections are both Any,
`lnk_can_replace_symbol(Defined, dst, src)` records nothing and returns 1 iff the section of src
is strictly shorter than the section of dst, or the lengths are equal and the object of src has
the smaller input index. With equal lengths and dst from the earlier object, inserting src
under the name whose leader is dst keeps dst as leader and sets `LnkRemove` on the section of
src. -/
theorem C3_comdat_any (st : LNK_State) (t : LNK_SymbolHashTrie) (h : Nat)
    (dst src : LNK_Symbol) (d s : COFF_ComdatProps)
    (hdi : lnk_symbol_interp st.objs dst = .Regular)
    (hsi : lnk_symbol_interp st.objs src = .Regular)
    (hd : lnk_symbol_comdat_props st.objs dst = some d)
    (hs : lnk_symbol_comdat_props st.objs src = some s)
    (hda : d.select = .Any) (hsa : s.select = .Any) :
    (lnk_can_replace_symbol st.objs st.libs .Defined dst src).2 = []
    ∧ ((lnk_can_replace_symbol st.objs st.libs .Defined dst src).1 = true ↔
        s.section_length < d.section_length
        ∨ (s.section_length = d.section_length
            ∧ lnk_symbol_obj_input_idx st.objs src < lnk_symbol_obj_input_idx st.objs dst))
    ∧ (s.section_length = d.section_length →
        lnk_symbol_obj_input_idx st.objs dst < lnk_symbol_obj_input_idx st.objs src →
        (lnk_symbol_hash_trie_search t h src.name).symbol = some dst →
        src.u.defined.obj < st.objs.length →
        1 ≤ (lnk_parsed_symbol_from_defined st.objs src).section_number →
        (lnk_parsed_symbol_from_defined st.objs src).section_number
          ≤ (lnk_obj_from_ptr st.objs src.u.defined.obj).section_table.length →
        (lnk_symbol_hash_trie_search
            (lnk_symbol_hash_trie_insert_or_replace st t h .Defined src).2 h src.name).symbol
          = some dst
        ∧ coff_section_is_removed (lnk_symbol_section_header
            (lnk_symbol_hash_trie_insert_or_replace st t h .Defined src).1.objs src) = true) := by
  have hcan : lnk_can_replace_symbol st.objs st.libs .Defined dst src
      = (if s.section_length = d.section_length then
          (decide (lnk_symbol_obj_input_idx st.objs src < lnk_symbol_obj_input_idx st.objs dst),
            [])
        else (decide (s.section_length < d.section_length), [])) := by
    rw [lnk_can_replace_symbol_defined_eq st.objs st.libs dst src d s (Or.inl hdi) (Or.inl hsi)
      hd hs]
    simp [lnk_can_replace_comdat, hda, hsa, lnk_obj_is_before, lnk_symbol_obj_input_idx]
  refine ⟨?_, ?_, ?_⟩
  · rw [hcan]
    split <;> rfl
  · rw [hcan]
    by_cases hlen : s.section_length = d.section_length
    · simp [hlen]
    · simp [hlen]
  · intro hlen hbefore hleader hp h1 h2
    have hfalse : lnk_can_replace_symbol st.objs st.libs .Defined dst src = (false, []) := by
      rw [hcan, if_pos hlen]
      have : ¬ lnk_symbol_obj_input_idx st.objs src < lnk_symbol_obj_input_idx st.objs dst := by
        omega
      simp [this]
    obtain ⟨e1, _, e3⟩ := lnk_search_insert_same st t h .Defined src
    rw [hleader] at e1 e3
    have hrep : lnk_symbol_hash_trie_replace st .Defined (some dst) src
        = (lnk_on_symbol_replace st .Defined src dst, some dst) := by
      simp [lnk_symbol_hash_trie_replace, hfalse]
    rw [hrep] at e1 e3
    refine ⟨e3, ?_⟩
    rw [e1]
    exact lnk_on_symbol_replace_flags_discarded st dst src hsi hp h1 h2

/-- Scenario of C3: two objects define `?foo@@YAXXZ` in a COMDAT section of selection Any and
size 8, object A (input index 0) is inserted first. After inserting the symbol of object B the
leader is the symbol of A, nothing is recorded, and the section of B carries `LnkRemove`. -/
theorem C3_comdat_any_witness :
    (lnk_can_replace_symbol
        [fixture_obj 0 "?foo@@YAXXZ" .Regular 1 0 (some ⟨.Any, 8, 0⟩),
         fixture_obj 1 "?foo@@YAXXZ" .Regular 1 0 (some ⟨.Any, 8, 0⟩)] []
        .Defined (fixture_defined "?foo@@YAXXZ" 0) (fixture_defined "?foo@@YAXXZ" 1)).2 = []
    ∧ (lnk_symbol_hash_trie_search
        (lnk_symbol_hash_trie_insert_or_replace
          (fixture_state
            [fixture_obj 0 "?foo@@YAXXZ" .Regular 1 0 (some ⟨.Any, 8, 0⟩),
             fixture_obj 1 "?foo@@YAXXZ" .Regular 1 0 (some ⟨.Any, 8, 0⟩)] [])
          (.node (some "?foo@@YAXXZ") (some (fixture_defined "?foo@@YAXXZ" 0))
            .null .null .null .null)
          0 .Defined (fixture_defined "?foo@@YAXXZ" 1)).2 0 "?foo@@YAXXZ").symbol
        = some (fixture_defined "?foo@@YAXXZ" 0)
    ∧ coff_section_is_removed (lnk_symbol_section_header
        (lnk_symbol_hash_trie_insert_or_replace
          (fixture_state
            [fixture_obj 0 "?foo@@YAXXZ" .Regular 1 0 (some ⟨.Any, 8, 0⟩),
             fixture_obj 1 "?foo@@YAXXZ" .Regular 1 0 (some ⟨.Any, 8, 0⟩)] [])
          (.node (some "?foo@@YAXXZ") (some (fixture_defined "?foo@@YAXXZ" 0))
            .null .null .null .null)
          0 .Defined (fixture_defined "?foo@@YAXXZ" 1)).1.objs
        (fixture_defined "?foo@@YAXXZ" 1)) = true :=
  have hC := C3_comdat_any
    (fixture_state
      [fixture_obj 0 "?foo@@YAXXZ" .Regular 1 0 (some ⟨.Any, 8, 0⟩),
       fixture_obj 1 "?foo@@YAXXZ" .Regular 1 0 (some ⟨.Any, 8, 0⟩)] [])
    (.node (some "?foo@@YAXXZ") (some (fixture_defined "?foo@@YAXXZ" 0))
      .null .null .null .null)
    0 (fixture_defined "?foo@@YAXXZ" 0) (fixture_defined "?foo@@YAXXZ" 1)
    ⟨.Any, 8, 0⟩ ⟨.Any, 8, 0⟩ (by decide) (by decide) (by decide) (by decide) rfl rfl
  ⟨hC.1, hC.2.2 rfl (by decide) (by decide) (by decide) (by decide) (by decide)⟩

/-! ## Frame of `lnk_on_symbol_replace` -/

/-- Header of section `n` after flagging section `k`. -/
theorem lnk_obj_flag_section_removed_header (o : LNK_Obj) (k n : Nat) :
    lnk_coff_section_header_from_section_number (lnk_obj_flag_section_removed o k) n
      = if k = n ∧ 1 ≤ n ∧ n ≤ o.section_table.length then
          { lnk_coff_section_header_from_section_number o n with
            flags := (lnk_coff_section_header_from_section_number o n).flags
              ||| COFF_SectionFlag_LnkRemove }
        else lnk_coff_section_header_from_section_number o n := by
  unfold lnk_obj_flag_section_removed lnk_coff_section_header_from_section_number
  by_cases hk : k = 0
  · subst hk
    by_cases hn : n = 0
    · simp [hn]
    · have : ¬ (0 = n ∧ 1 ≤ n ∧ n ≤ o.section_table.length) := by omega
      simp [hn, this]
  · by_cases hn : n = 0
    · subst hn
      simp [hk]
    · simp only [hk, hn, if_false, List.getD_eq_getElem?_getD, List.getElem?_modify]
      by_cases hkn : k = n
      · subst hkn
        by_cases hlen : k ≤ o.section_table.length
        · have hlt : k - 1 < o.section_table.length := by omega
          have h1 : 1 ≤ k := by omega
          simp [hlt, hlen, h1]
        · have hge : o.section_table.length ≤ k - 1 := by omega
          simp [List.getElem?_eq_none hge, hlen]
      · have hne : k - 1 ≠ n - 1 := by omega
        cases o.section_table[n - 1]? <;> simp [hkn, hne]

/-- Setting the `LnkRemove` bit twice is setting it once. -/
theorem coff_lnk_remove_or_or (x : Nat) :
    (x ||| COFF_SectionFlag_LnkRemove) ||| COFF_SectionFlag_LnkRemove
      = x ||| COFF_SectionFlag_LnkRemove := by
  rw [Nat.or_assoc, Nat.or_self]

/-- Header of section `n` after flagging every section of a list, one after the other. -/
theorem lnk_obj_flag_sections_header (ks : List Nat) (o : LNK_Obj) (n : Nat) :
    (ks.foldl lnk_obj_flag_section_removed o).section_table.length = o.section_table.length
    ∧ lnk_coff_section_header_from_section_number (ks.foldl lnk_obj_flag_section_removed o) n
      = if n ∈ ks ∧ 1 ≤ n ∧ n ≤ o.section_table.length then
          { lnk_coff_section_header_from_section_number o n with
            flags := (lnk_coff_section_header_from_section_number o n).flags
              ||| COFF_SectionFlag_LnkRemove }
        else lnk_coff_section_header_from_section_number o n := by
  induction ks generalizing o with
  | nil => simp
  | cons k rest ih =>
    rw [List.foldl_cons]
    obtain ⟨hlen, hhead⟩ := ih (lnk_obj_flag_section_removed o k)
    rw [lnk_obj_flag_section_removed_length] at hlen
    refine ⟨hlen, ?_⟩
    rw [hhead, lnk_obj_flag_section_removed_header, lnk_obj_flag_section_removed_length]
    by_cases hv : 1 ≤ n ∧ n ≤ o.section_table.length
    · by_cases hk : k = n
      · subst hk
        by_cases hr : k ∈ rest
        · simp [hr, hv, coff_lnk_remove_or_or]
        · simp [hr, hv]
      · have hk' : ¬ n = k := fun h => hk h.symm
        by_cases hr : n ∈ rest
        · simp [hr, hv, hk, hk']
        · simp [hr, hv, hk, hk']
    · have h1 : ¬ (n ∈ rest ∧ 1 ≤ n ∧ n ≤ o.section_table.length) := fun h => hv h.2
      have h2 : ¬ (k = n ∧ 1 ≤ n ∧ n ≤ o.section_table.length) := fun h => hv h.2
      have h3 : ¬ (n ∈ k :: rest ∧ 1 ≤ n ∧ n ≤ o.section_table.length) := fun h => hv h.2
      simp only [h1, h2, h3, if_false]

/-- Reading an object through a pointer after the object at pointer `p0` was rewritten. -/
theorem lnk_obj_from_ptr_modify_eq (objs : List LNK_Obj) (f : LNK_Obj → LNK_Obj) (p0 p : Nat) :
    lnk_obj_from_ptr (objs.modify f p0) p
      = if p = p0 ∧ p0 < objs.length then f (lnk_obj_from_ptr objs p)
        else lnk_obj_from_ptr objs p := by
  by_cases hp : p = p0
  · subst hp
    by_cases hl : p < objs.length
    · simp [lnk_obj_from_ptr, List.getD_eq_getElem?_getD, List.getElem?_modify, hl]
    · have hge : objs.length ≤ p := by omega
      simp [lnk_obj_from_ptr, List.getD_eq_getElem?_getD, List.getElem?_modify, hl,
        List.getElem?_eq_none hge]
  · have hp' : ¬ p0 = p := fun h => hp h.symm
    simp only [lnk_obj_from_ptr, List.getD_eq_getElem?_getD, List.getElem?_modify, hp, hp',
      false_and, if_false]
    cases objs[p]? <;> simp

/-- C11 as stated fails: in an object whose section 2 is associated to section 1 and whose
section 3 is associated to section 2, replacing the Regular symbol of section 1 flags sections
1 and 2, but section 3, reachable through the lists of sections 1 and 2, stays unflagged. -/
theorem C11_counterexample :
    lnk_symbol_interp [fixture_obj_chain] (fixture_defined "f" 0) = .Regular
    ∧ 2 ∈ fixture_obj_chain.associated_sections.getD 1 []
    ∧ 3 ∈ fixture_obj_chain.associated_sections.getD 2 []
    ∧ coff_section_is_removed (lnk_coff_section_header_from_section_number
        (lnk_obj_from_ptr (lnk_on_symbol_replace (fixture_state [fixture_obj_chain] []) .Defined
          (fixture_defined "f" 0) (fixture_defined "f" 0)).objs 0) 1) = true
    ∧ coff_section_is_removed (lnk_coff_section_header_from_section_number
        (lnk_obj_from_ptr (lnk_on_symbol_replace (fixture_state [fixture_obj_chain] []) .Defined
          (fixture_defined "f" 0) (fixture_defined "f" 0)).objs 0) 2) = true
    ∧ coff_section_is_removed (lnk_coff_section_header_from_section_number
        (lnk_obj_from_ptr (lnk_on_symbol_replace (fixture_state [fixture_obj_chain] []) .Defined
          (fixture_defined "f" 0) (fixture_defined "f" 0)).objs 0) 3) = false := by
  decide

/-- C11 amended: `lnk_on_symbol_replace(Defined, dst, src)` with dst of Regular interpretation
sets `LnkRemove` on the header of the section of dst and on the header of every section listed
in the associated-sections list of that section (the entries of that one list only). Every
other header of every object, and every other field and flag bit of the headers it writes, is
as before, and no object gains or loses headers. When dst is not Regular, or the scope is Lib,
the objects are unchanged. -/
theorem C11_on_symbol_replace_frame (st : LNK_State) (scope : LNK_SymbolScope)
    (dst src : LNK_Symbol) :
    (lnk_on_symbol_replace st scope dst src).objs.length = st.objs.length
    ∧ (∀ p n : Nat,
        (lnk_obj_from_ptr (lnk_on_symbol_replace st scope dst src).objs p).section_table.length
          = (lnk_obj_from_ptr st.objs p).section_table.length
        ∧ lnk_coff_section_header_from_section_number
            (lnk_obj_from_ptr (lnk_on_symbol_replace st scope dst src).objs p) n
          = if scope = .Defined ∧ lnk_symbol_interp st.objs dst = .Regular
                ∧ p = dst.u.defined.obj ∧ p < st.objs.length
                ∧ (n = (lnk_parsed_symbol_from_defined st.objs dst).section_number
                    ∨ n ∈ (lnk_obj_from_ptr st.objs p).associated_sections.getD
                        (lnk_parsed_symbol_from_defined st.objs dst).section_number [])
                ∧ 1 ≤ n ∧ n ≤ (lnk_obj_from_ptr st.objs p).section_table.length then
              { lnk_coff_section_header_from_section_number (lnk_obj_from_ptr st.objs p) n with
                flags := (lnk_coff_section_header_from_section_number
                  (lnk_obj_from_ptr st.objs p) n).flags ||| COFF_SectionFlag_LnkRemove }
            else lnk_coff_section_header_from_section_number (lnk_obj_from_ptr st.objs p) n)
    ∧ (scope = .Lib ∨ lnk_symbol_interp st.objs dst ≠ .Regular →
        (lnk_on_symbol_replace st scope dst src).objs = st.objs) := by
  cases scope with
  | Lib => simp [lnk_on_symbol_replace]
  | Defined =>
    by_cases hreg : lnk_symbol_interp st.objs dst = .Regular
    · have hreg' := hreg
      simp only [lnk_symbol_interp, lnk_parsed_symbol_from_defined] at hreg'
      have hobjs : (lnk_on_symbol_replace st .Defined dst src).objs
          = st.objs.modify (fun o => lnk_on_symbol_replace_obj o
              (lnk_parsed_symbol_from_defined st.objs dst).section_number)
              dst.u.defined.obj := by
        simp [lnk_on_symbol_replace, lnk_parsed_symbol_from_defined, hreg']
      rw [hobjs]
      refine ⟨by simp, ?_, ?_⟩
      · intro p n
        rw [lnk_obj_from_ptr_modify_eq]
        by_cases hp : p = dst.u.defined.obj ∧ dst.u.defined.obj < st.objs.length
        · obtain ⟨hp1, hp2⟩ := hp
          subst hp1
          simp only [hp2, and_self, if_true, true_and, hreg]
          have hfold := lnk_obj_flag_sections_header
            ((lnk_parsed_symbol_from_defined st.objs dst).section_number
              :: (lnk_obj_from_ptr st.objs dst.u.defined.obj).associated_sections.getD
                  (lnk_parsed_symbol_from_defined st.objs dst).section_number [])
            (lnk_obj_from_ptr st.objs dst.u.defined.obj) n
          rw [List.foldl_cons] at hfold
          simp only [lnk_on_symbol_replace_obj]
          refine ⟨hfold.1, ?_⟩
          rw [hfold.2]
          simp only [List.mem_cons]
        · rw [if_neg hp]
          refine ⟨rfl, ?_⟩
          have : ¬ (LNK_SymbolScope.Defined = LNK_SymbolScope.Defined
              ∧ lnk_symbol_interp st.objs dst = .Regular
              ∧ p = dst.u.defined.obj ∧ p < st.objs.length
              ∧ (n = (lnk_parsed_symbol_from_defined st.objs dst).section_number
                  ∨ n ∈ (lnk_obj_from_ptr st.objs p).associated_sections.getD
                      (lnk_parsed_symbol_from_defined st.objs dst).section_number [])
              ∧ 1 ≤ n ∧ n ≤ (lnk_obj_from_ptr st.objs p).section_table.length) := by
            rintro ⟨_, _, h3, h4, _⟩
            exact hp ⟨h3, h3 ▸ h4⟩
          rw [if_neg this]
      · rintro (h | h)
        · cases h
        · exact absurd hreg h
    · have hreg' := hreg
      simp only [lnk_symbol_interp, lnk_parsed_symbol_from_defined] at hreg'
      have hobjs : (lnk_on_symbol_replace st .Defined dst src).objs = st.objs := by
        simp [lnk_on_symbol_replace, hreg']
      rw [hobjs]
      refine ⟨rfl, ?_, fun _ => rfl⟩
      intro p n
      refine ⟨rfl, ?_⟩
      have : ¬ (LNK_SymbolScope.Defined = LNK_SymbolScope.Defined
          ∧ lnk_symbol_interp st.objs dst = .Regular
          ∧ p = dst.u.defined.obj ∧ p < st.objs.length
          ∧ (n = (lnk_parsed_symbol_from_defined st.objs dst).section_number
              ∨ n ∈ (lnk_obj_from_ptr st.objs p).associated_sections.getD
                  (lnk_parsed_symbol_from_defined st.objs dst).section_number [])
          ∧ 1 ≤ n ∧ n ≤ (lnk_obj_from_ptr st.objs p).section_table.length) := by
        rintro ⟨_, h2, _⟩
        exact hreg h2
      rw [if_neg this]

/-- C11, witness: on the chain object, a replacement in the Lib scope changes no object, and a
replacement in the Defined scope keeps the number of objects. -/
theorem C11_on_symbol_replace_frame_witness :
    (lnk_on_symbol_replace (fixture_state [fixture_obj_chain] []) .Lib
        (fixture_defined "f" 0) (fixture_defined "f" 0)).objs = [fixture_obj_chain]
    ∧ (lnk_on_symbol_replace (fixture_state [fixture_obj_chain] []) .Defined
        (fixture_defined "f" 0) (fixture_defined "f" 0)).objs.length = 1 :=
  ⟨(C11_on_symbol_replace_frame (fixture_state [fixture_obj_chain] []) .Lib
      (fixture_defined "f" 0) (fixture_defined "f" 0)).2.2 (Or.inl rfl),
    (C11_on_symbol_replace_frame (fixture_state [fixture_obj_chain] []) .Defined
      (fixture_defined "f" 0) (fixture_defined "f" 0)).1⟩

/-! ## Order independence of the replacement policy -/

/-- The alignment of a common symbol lies between 1 and 32. -/
theorem lnk_common_block_align_bounds (size : Nat) :
    1 ≤ lnk_common_block_align size ∧ lnk_common_block_align size ≤ 32 := by
  have hge : ∀ fuel p, p ≤ u64_up_to_pow2_from size fuel p := by
    intro fuel
    induction fuel with
    | zero => intro p; simp [u64_up_to_pow2_from]
    | succ fuel ih =>
      intro p
      simp only [u64_up_to_pow2_from]
      split
      · exact le_refl _
      · have := ih (2 * p)
        omega
  have := hge 64 1
  unfold lnk_common_block_align u64_up_to_pow2
  omega

/-- Aligning up without 64-bit wrap-around gives a multiple of the alignment that is not below
the argument and less than one alignment above it. -/
theorem AlignPow2_spec (x b : Nat) (hb : 1 ≤ b) (hx : x + (b - 1) < 2 ^ 64) :
    b ∣ AlignPow2 x b ∧ x ≤ AlignPow2 x b ∧ AlignPow2 x b ≤ x + (b - 1) := by
  unfold AlignPow2
  rw [Nat.mod_eq_of_lt hx]
  refine ⟨Dvd.intro_left _ rfl, ?_, Nat.div_mul_le_self _ _⟩
  have h1 := Nat.div_add_mod (x + (b - 1)) b
  have h2 := Nat.mod_lt (x + (b - 1)) (show 0 < b by omega)
  rw [Nat.mul_comm] at h1
  generalize (x + (b - 1)) / b * b = q at h1 ⊢
  omega

/-- Packing from a cursor without 64-bit wrap-around: the final cursor is not below the start,
every offset is at or above the start, is a multiple of the alignment of its symbol, its range
ends at or below the final cursor and at or below every later offset. -/
theorem lnk_common_block_assign_offsets_spec (cs : List LNK_CommonBlockContrib) (cursor : Nat)
    (hsize : ∀ c ∈ cs, c.u < 2 ^ 32)
    (hnowrap : cursor + (cs.map (fun c => c.u + 31)).sum < 2 ^ 64) :
    (lnk_common_block_assign_offsets cursor cs).1.length = cs.length
    ∧ (lnk_common_block_assign_offsets cursor cs).1.map (fun c => c.symbol)
        = cs.map (fun c => c.symbol)
    ∧ cursor ≤ (lnk_common_block_assign_offsets cursor cs).2
    ∧ (lnk_common_block_assign_offsets cursor cs).2
        ≤ cursor + (cs.map (fun c => c.u + 31)).sum
    ∧ ∀ i, i < cs.length →
        cursor ≤ ((lnk_common_block_assign_offsets cursor cs).1.map (fun c => c.u)).getD i 0
        ∧ lnk_common_block_align ((cs.map (fun c => c.u)).getD i 0)
            ∣ ((lnk_common_block_assign_offsets cursor cs).1.map (fun c => c.u)).getD i 0
        ∧ ((lnk_common_block_assign_offsets cursor cs).1.map (fun c => c.u)).getD i 0
            + (cs.map (fun c => c.u)).getD i 0
            ≤ (lnk_common_block_assign_offsets cursor cs).2
        ∧ ∀ j, i < j → j < cs.length →
            ((lnk_common_block_assign_offsets cursor cs).1.map (fun c => c.u)).getD i 0
              + (cs.map (fun c => c.u)).getD i 0
              ≤ ((lnk_common_block_assign_offsets cursor cs).1.map (fun c => c.u)).getD j 0 := by
  induction cs generalizing cursor with
  | nil => simp [lnk_common_block_assign_offsets]
  | cons c rest ih =>
    simp only [List.map_cons, List.sum_cons] at hnowrap
    have hcu : c.u % 2 ^ 32 = c.u := Nat.mod_eq_of_lt (hsize c (List.mem_cons_self _ _))
    obtain ⟨hb1, hb2⟩ := lnk_common_block_align_bounds c.u
    obtain ⟨hdvd, hge, hle⟩ := AlignPow2_spec cursor (lnk_common_block_align c.u) hb1
      (by omega)
    have hmod : (AlignPow2 cursor (lnk_common_block_align c.u) + c.u) % 2 ^ 64
        = AlignPow2 cursor (lnk_common_block_align c.u) + c.u :=
      Nat.mod_eq_of_lt (by omega)
    obtain ⟨ih1, ih2, ih3, ih4, ih5⟩ :=
      ih (AlignPow2 cursor (lnk_common_block_align c.u) + c.u)
        (fun c' hc' => hsize c' (List.mem_cons_of_mem _ hc')) (by omega)
    simp only [lnk_common_block_assign_offsets, hcu, hmod, List.length_cons, List.map_cons,
      List.sum_cons]
    refine ⟨by rw [ih1], by rw [ih2], by omega, by omega, ?_⟩
    intro i hi
    cases i with
    | zero =>
      simp only [List.getD_cons_zero]
      refine ⟨hge, hdvd, by omega, ?_⟩
      intro j hj hjl
      cases j with
      | zero => omega
      | succ j =>
        simp only [List.getD_cons_succ]
        exact (ih5 j (by omega)).1
    | succ i =>
      simp only [List.getD_cons_succ]
      obtain ⟨a1, a2, a3, a4⟩ := ih5 i (by omega)
      refine ⟨by omega, a2, a3, ?_⟩
      intro j hj hjl
      cases j with
      | zero => omega
      | succ j =>
        simp only [List.getD_cons_succ]
        exact a4 j (by omega) (by omega)

/-- C15: common-block packing. For every array of common contributions with 32-bit sizes above
0 and every starting `.bss` size `v0`, provided the packed block ends below 2^64 (no 64-bit
wrap-around of the cursor): every assigned offset is at least `v0` and a multiple of
`min(32, next_pow2(size))`; the ranges `[offset, offset+size)` follow one another in array
order without overlap, with strictly increasing offsets; and the size of the aggregate
contribution is the final cursor minus `v0`, so every range lies inside
`[v0, v0 + aggregate size)`. The symbols of the contributions are kept in place. -/
theorem C15_common_block_packing (v0 : Nat) (cs : List LNK_CommonBlockContrib)
    (hpos : ∀ c ∈ cs, 0 < c.u) (hsize : ∀ c ∈ cs, c.u < 2 ^ 32)
    (hnowrap : v0 + (cs.map (fun c => c.u + 31)).sum < 2 ^ 64) :
    (lnk_make_common_block v0 cs).1.map (fun c => c.symbol) = cs.map (fun c => c.symbol)
    ∧ (lnk_make_common_block v0 cs).2 = (lnk_common_block_assign_offsets v0 cs).2 - v0
    ∧ v0 ≤ (lnk_common_block_assign_offsets v0 cs).2
    ∧ ∀ i, i < cs.length →
        v0 ≤ ((lnk_make_common_block v0 cs).1.map (fun c => c.u)).getD i 0
        ∧ min 32 (u64_up_to_pow2 ((cs.map (fun c => c.u)).getD i 0))
            ∣ ((lnk_make_common_block v0 cs).1.map (fun c => c.u)).getD i 0
        ∧ ((lnk_make_common_block v0 cs).1.map (fun c => c.u)).getD i 0
            + (cs.map (fun c => c.u)).getD i 0
            ≤ v0 + (lnk_make_common_block v0 cs).2
        ∧ ∀ j, i < j → j < cs.length →
            ((lnk_make_common_block v0 cs).1.map (fun c => c.u)).getD i 0
              + (cs.map (fun c => c.u)).getD i 0
              ≤ ((lnk_make_common_block v0 cs).1.map (fun c => c.u)).getD j 0
            ∧ ((lnk_make_common_block v0 cs).1.map (fun c => c.u)).getD i 0
              < ((lnk_make_common_block v0 cs).1.map (fun c => c.u)).getD j 0 := by
  obtain ⟨_, h2, h3, h4, h5⟩ := lnk_common_block_assign_offsets_spec cs v0 hsize hnowrap
  have hagg : (lnk_make_common_block v0 cs).2 = (lnk_common_block_assign_offsets v0 cs).2 - v0 := by
    simp only [lnk_make_common_block]
    have hlt : (lnk_common_block_assign_offsets v0 cs).2 < 2 ^ 64 := by omega
    have : (lnk_common_block_assign_offsets v0 cs).2 + 2 ^ 64 - v0
        = ((lnk_common_block_assign_offsets v0 cs).2 - v0) + 2 ^ 64 := by omega
    rw [this, Nat.add_mod_right, Nat.mod_eq_of_lt (by omega)]
  refine ⟨h2, hagg, h3, ?_⟩
  intro i hi
  obtain ⟨a1, a2, a3, a4⟩ := h5 i hi
  rw [hagg]
  have hfst : (lnk_make_common_block v0 cs).1 = (lnk_common_block_assign_offsets v0 cs).1 := rfl
  rw [hfst]
  refine ⟨a1, a2, by omega, ?_⟩
  intro j hj hjl
  have hle := a4 j hj hjl
  refine ⟨hle, ?_⟩
  have hsz : 0 < (cs.map (fun c => c.u)).getD i 0 := by
    rw [List.getD_eq_getElem?_getD, List.getElem?_map]
    have hget : cs[i]? = some cs[i] := List.getElem?_eq_getElem hi
    rw [hget]
    exact hpos _ (List.getElem_mem _)
  omega

/-- Scenario of C15: three common symbols of sizes 40, 8 and 3, sorted by
`lnk_common_block_contrib_is_before`, packed from `.bss` size 4; the offsets are 32, 72 and 80
and the aggregate contribution has 79 bytes. -/
theorem C15_common_block_packing_witness :
    lnk_common_block_contrib_is_before [] (fixture_common_contrib 0 0 40)
        (fixture_common_contrib 0 1 8) = true
    ∧ lnk_common_block_contrib_is_before [] (fixture_common_contrib 0 1 8)
        (fixture_common_contrib 0 2 3) = true
    ∧ (lnk_make_common_block 4 [fixture_common_contrib 0 0 40, fixture_common_contrib 0 1 8,
        fixture_common_contrib 0 2 3]).1.map (fun c => c.u) = [32, 72, 80]
    ∧ (lnk_make_common_block 4 [fixture_common_contrib 0 0 40, fixture_common_contrib 0 1 8,
        fixture_common_contrib 0 2 3]).2 = 79
    ∧ 4 ≤ (lnk_common_block_assign_offsets 4 [fixture_common_contrib 0 0 40,
        fixture_common_contrib 0 1 8, fixture_common_contrib 0 2 3]).2 :=
  ⟨by decide, by decide, by decide, by decide,
    (C15_common_block_packing 4 [fixture_common_contrib 0 0 40, fixture_common_contrib 0 1 8,
      fixture_common_contrib 0 2 3] (by decide) (by decide) (by decide)).2.2.1⟩

/-! ## Relocation patcher: applying one relocation -/

/-- Length of a little-endian byte string of given width. -/
theorem bytes_of_le_length (n w : Nat) : (bytes_of_le n w).length = w := by
  induction w generalizing n with
  | zero => rfl
  | succ w ih => simp [bytes_of_le, ih]

/-- Reading back the `w` low bytes of `n` gives `n` modulo `256 ^ w`. -/
theorem bytes_read_le_of_le (n w : Nat) : bytes_read_le (bytes_of_le n w) = n % 256 ^ w := by
  induction w generalizing n with
  | zero => simp [bytes_of_le, bytes_read_le, Nat.mod_one]
  | succ w ih =>
    simp only [bytes_of_le, bytes_read_le, ih]
    rw [pow_succ, Nat.mul_comm (256 ^ w) 256, Nat.mod_mul]

/-- Writing inside the buffer: the result is the prefix, the written bytes and the suffix. -/
theorem bytes_write_inside (data : List Nat) (off : Nat) (bs : List Nat)
    (h : off + bs.length ≤ data.length) :
    bytes_write data off bs = data.take off ++ bs ++ data.drop (off + bs.length) := by
  unfold bytes_write
  have hb : bs.take (data.length - off) = bs := List.take_of_length_le (by omega)
  rw [hb]

/-- Writing keeps the length of the buffer. -/
theorem bytes_write_length (data : List Nat) (off : Nat) (bs : List Nat) :
    (bytes_write data off bs).length = data.length := by
  unfold bytes_write
  simp only [List.length_append, List.length_take, List.length_drop]
  omega

/-- Writing inside the buffer: the bytes at the site are the written ones. -/
theorem bytes_write_read (data : List Nat) (off : Nat) (bs : List Nat)
    (h : off + bs.length ≤ data.length) :
    ((bytes_write data off bs).drop off).take bs.length = bs := by
  rw [bytes_write_inside data off bs h, List.append_assoc]
  have hlen : (data.take off).length = off := by
    rw [List.length_take]
    omega
  rw [List.drop_append_of_le_length (by omega), List.drop_of_length_le (by omega),
    List.nil_append, List.take_append_of_le_length (le_refl _), List.take_length]

/-- Writing leaves every byte outside the site as it is. -/
theorem bytes_write_outside (data : List Nat) (off : Nat) (bs : List Nat) (i : Nat)
    (hi : i < off ∨ off + bs.length ≤ i) :
    (bytes_write data off bs).getD i 0 = data.getD i 0 := by
  simp only [List.getD_eq_getElem?_getD]
  congr 1
  by_cases hoff : off ≤ data.length
  · have hlen : (data.take off).length = off := by
      rw [List.length_take]
      omega
    rcases hi with hi | hi
    · unfold bytes_write
      rw [List.append_assoc, List.getElem?_append_left (by omega), List.getElem?_take_of_lt hi]
    · by_cases hfit : off + bs.length ≤ data.length
      · rw [bytes_write_inside data off bs hfit, List.append_assoc,
          List.getElem?_append_right (by omega), List.getElem?_append_right (by omega),
          List.getElem?_drop, hlen]
        congr 1
        omega
      · have hge : data.length ≤ i := by omega
        rw [List.getElem?_eq_none hge, List.getElem?_eq_none]
        rw [bytes_write_length]
        exact hge
  · unfold bytes_write
    have h1 : data.take off = data := List.take_of_length_le (by omega)
    have h2 : data.length - off = 0 := by omega
    have h3 : data.drop (off + bs.length) = [] := List.drop_of_length_le (by omega)
    rw [h1, h2, h3]
    simp

/-- The window of a section lies inside the buffer. -/
theorem lnk_reloc_section_window_inside (section_header : COFF_SectionHeader) (data : List Nat) :
    (lnk_reloc_section_window section_header data).1
      + (lnk_reloc_section_window section_header data).2 ≤ data.length := by
  simp only [lnk_reloc_section_window, str8_substr_window]
  omega

/-- The low `8 * w` bits of a 64-bit result, for a width of at most eight bytes. -/
theorem lnk_reloc_result_low_bits (x : Int) (w : Nat) (hw : w ≤ 8) :
    (((x % (2 ^ 64 : Nat)).toNat % 256 ^ w : Nat) : Int) = x % (2 ^ (8 * w) : Nat) := by
  have hpos : (0 : Int) ≤ x % (2 ^ 64 : Nat) := Int.emod_nonneg _ (by positivity)
  have h256 : (256 : Nat) ^ w = 2 ^ (8 * w) := by
    rw [show (256 : Nat) = 2 ^ 8 from rfl, ← pow_mul]
  rw [h256, Int.natCast_mod, Int.toNat_of_nonneg hpos]
  apply Int.emod_emod_of_dvd
  have hdvd : (2 : Nat) ^ (8 * w) ∣ 2 ^ 64 := pow_dvd_pow 2 (by omega)
  exact Int.natCast_dvd_natCast.2 hdvd

/-- Applying a relocation value at a site inside the window: the buffer keeps its length, the
site holds the low bits of the value plus the sign-extended old content, and no byte outside
the site changes. -/
theorem lnk_apply_reloc_value_spec (data : List Nat) (window : Nat × Nat) (apply_off : Nat)
    (rv : COFF_RelocValue) (hw : rv.size ≤ 8)
    (hwin : window.1 + window.2 ≤ data.length)
    (hsite : apply_off + rv.size ≤ window.2) :
    (lnk_apply_reloc_value data window apply_off rv).length = data.length
    ∧ (bytes_read_le (((lnk_apply_reloc_value data window apply_off rv).drop
          (window.1 + apply_off)).take rv.size) : Int)
        = ((rv.value : Int) + extend_sign64
            (bytes_read_le ((data.drop (window.1 + apply_off)).take rv.size)) rv.size)
          % (2 ^ (8 * rv.size) : Nat)
    ∧ ∀ i, i < window.1 + apply_off ∨ window.1 + apply_off + rv.size ≤ i →
        (lnk_apply_reloc_value data window apply_off rv).getD i 0 = data.getD i 0 := by
  have hread : str8_deserial_read data window apply_off rv.size
      = (data.drop (window.1 + apply_off)).take rv.size := by
    unfold str8_deserial_read
    have h1 : min apply_off window.2 = apply_off := Nat.min_eq_left (by omega)
    have h2 : min (window.2 - apply_off) rv.size = rv.size := Nat.min_eq_right (by omega)
    rw [h1, h2]
  unfold lnk_apply_reloc_value
  rw [hread]
  refine ⟨bytes_write_length _ _ _, ?_, ?_⟩
  · have hrd := bytes_write_read data (window.1 + apply_off)
      (bytes_of_le (((rv.value : Int) + extend_sign64
        (bytes_read_le ((data.drop (window.1 + apply_off)).take rv.size)) rv.size)
        % (2 ^ 64 : Nat)).toNat rv.size)
      (by rw [bytes_of_le_length]; omega)
    rw [bytes_of_le_length] at hrd
    rw [hrd, bytes_read_le_of_le]
    exact lnk_reloc_result_low_bits _ _ hw
  · intro i hi
    apply bytes_write_outside
    rw [bytes_of_le_length]
    exact hi

/-- Sign extension of zero is zero. -/
theorem extend_sign64_zero (size : Nat) : extend_sign64 0 size = 0 := by
  unfold extend_sign64
  have : ¬ (2 ^ (8 * size - 1) ≤ 0 % 2 ^ (8 * size)) := by
    rw [Nat.zero_mod]
    have := Nat.one_le_two_pow (n := 8 * size - 1)
    omega
  rw [if_neg this]
  simp

/-- Applying a relocation value at a site that ends behind the window, in a buffer that holds
the whole site: the buffer keeps its length, the addend is read from the bytes of the site that
lie inside the window only, all bytes of the site are written, and no byte outside the site
changes. -/
theorem lnk_apply_reloc_value_crossing (data : List Nat) (window : Nat × Nat) (apply_off : Nat)
    (rv : COFF_RelocValue) (hw : rv.size ≤ 8)
    (hcross : window.2 < apply_off + rv.size)
    (hfit : window.1 + apply_off + rv.size ≤ data.length) :
    (lnk_apply_reloc_value data window apply_off rv).length = data.length
    ∧ (bytes_read_le (((lnk_apply_reloc_value data window apply_off rv).drop
          (window.1 + apply_off)).take rv.size) : Int)
        = ((rv.value : Int) + extend_sign64
            (bytes_read_le ((data.drop (window.1 + apply_off)).take (window.2 - apply_off)))
            rv.size) % (2 ^ (8 * rv.size) : Nat)
    ∧ ∀ i, i < window.1 + apply_off ∨ window.1 + apply_off + rv.size ≤ i →
        (lnk_apply_reloc_value data window apply_off rv).getD i 0 = data.getD i 0 := by
  have hread : str8_deserial_read data window apply_off rv.size
      = (data.drop (window.1 + apply_off)).take (window.2 - apply_off) := by
    unfold str8_deserial_read
    by_cases hle : apply_off ≤ window.2
    · have h1 : min apply_off window.2 = apply_off := Nat.min_eq_left hle
      have h2 : min (window.2 - apply_off) rv.size = window.2 - apply_off :=
        Nat.min_eq_left (by omega)
      rw [h1, h2]
    · have h1 : min apply_off window.2 = window.2 := Nat.min_eq_right (by omega)
      have h2 : window.2 - apply_off = 0 := by omega
      rw [h1, h2, Nat.sub_self, Nat.zero_min, List.take_zero, List.take_zero]
  unfold lnk_apply_reloc_value
  rw [hread]
  refine ⟨bytes_write_length _ _ _, ?_, ?_⟩
  · have hrd := bytes_write_read data (window.1 + apply_off)
      (bytes_of_le (((rv.value : Int) + extend_sign64
        (bytes_read_le ((data.drop (window.1 + apply_off)).take (window.2 - apply_off)))
        rv.size) % (2 ^ 64 : Nat)).toNat rv.size)
      (by rw [bytes_of_le_length]; omega)
    rw [bytes_of_le_length] at hrd
    rw [hrd, bytes_read_le_of_le]
    exact lnk_reloc_result_low_bits _ _ hw
  · intro i hi
    apply bytes_write_outside
    rw [bytes_of_le_length]
    exact hi

/-- The buffer a relocation of an x64 object is applied to, after the relocation. -/
theorem lnk_obj_reloc_patch_reloc_buffer
    (pick : Nat → Nat → Nat → Nat → Nat → Int → COFF_RelocValue)
    (task : LNK_ObjRelocPatcher) (task_id : Nat) (obj : LNK_Obj) (sect_idx : Nat)
    (section_header : COFF_SectionHeader) (st : LNK_RelocPatchState) (reloc : COFF_Reloc)
    (loc : Nat × Nat × Int) (errs : List LNK_Error)
    (hmach : obj.machine = .X64)
    (hloc : lnk_reloc_symbol_location task obj reloc = some (loc, errs)) :
    lnk_reloc_patch_buffer obj sect_idx
      (lnk_obj_reloc_patch_reloc pick task task_id obj sect_idx section_header st reloc)
      = lnk_apply_reloc_value (lnk_reloc_patch_buffer obj sect_idx st)
          (lnk_reloc_section_window section_header (lnk_reloc_patch_buffer obj sect_idx st))
          reloc.apply_off
          (pick reloc.type task.image_base ((section_header.voff + reloc.apply_off) % 2 ^ 32)
            loc.1 loc.2.1 loc.2.2)
    ∧ (if lnk_is_coff_section_debug obj sect_idx = true then
        (lnk_obj_reloc_patch_reloc pick task task_id obj sect_idx section_header st
          reloc).image_data = st.image_data
       else
        (lnk_obj_reloc_patch_reloc pick task task_id obj sect_idx section_header st
          reloc).obj_data = st.obj_data) := by
  by_cases hd : lnk_is_coff_section_debug obj sect_idx = true
  · simp [lnk_reloc_patch_buffer, lnk_obj_reloc_patch_reloc, hloc, hmach, hd]
  · simp [lnk_reloc_patch_buffer, lnk_obj_reloc_patch_reloc, hloc, hmach, hd]

/-- C16, the claim where it holds and the code where it fails. For a relocation that
`lnk_obj_reloc_patcher` applies to a section of an x64 object, with picked value V of width w
(at most eight bytes): when the site `[apply_off, apply_off + w)` lies inside the section, the
w bytes at the site afterwards hold the low `8 * w` bits of V plus the sign-extended previous
content of those bytes, the patched buffer keeps its length and every byte outside the site,
the other buffer is untouched, and with previous content 0 the site holds V modulo
`2 ^ (8 * w)`, so that subtracting V gives back 0. When the site ends behind the section, in a
buffer that holds the whole site, the w bytes at the site are written all the same, those
behind the section included, and the addend is the content of the bytes of the site inside the
section only. At the failing input, an `ADDR64` relocation with `apply_off` 12 in a section of
16 bytes of an image whose byte 16 is 5, the site holds 0x500000000 before and 0x140001004
afterwards, where V plus the previous content is 0x640001004, and the byte 16 behind the
section is changed to 1. -/
theorem C16_reloc_applied :
    (∀ (pick : Nat → Nat → Nat → Nat → Nat → Int → COFF_RelocValue)
        (task : LNK_ObjRelocPatcher) (task_id : Nat) (obj : LNK_Obj) (sect_idx : Nat)
        (section_header : COFF_SectionHeader) (st : LNK_RelocPatchState) (reloc : COFF_Reloc)
        (loc : Nat × Nat × Int) (errs : List LNK_Error) (rv : COFF_RelocValue) (site : Nat),
      obj.machine = .X64 →
      lnk_reloc_symbol_location task obj reloc = some (loc, errs) →
      pick reloc.type task.image_base ((section_header.voff + reloc.apply_off) % 2 ^ 32)
        loc.1 loc.2.1 loc.2.2 = rv →
      rv.size ≤ 8 →
      site = (lnk_reloc_section_window section_header
        (lnk_reloc_patch_buffer obj sect_idx st)).1 + reloc.apply_off →
      ((lnk_reloc_patch_buffer obj sect_idx
            (lnk_obj_reloc_patch_reloc pick task task_id obj sect_idx section_header st
              reloc)).length
          = (lnk_reloc_patch_buffer obj sect_idx st).length
        ∧ (if lnk_is_coff_section_debug obj sect_idx = true then
            (lnk_obj_reloc_patch_reloc pick task task_id obj sect_idx section_header st
              reloc).image_data = st.image_data
           else
            (lnk_obj_reloc_patch_reloc pick task task_id obj sect_idx section_header st
              reloc).obj_data = st.obj_data))
      ∧ (reloc.apply_off + rv.size ≤ (lnk_reloc_section_window section_header
            (lnk_reloc_patch_buffer obj sect_idx st)).2 →
          (bytes_read_le (((lnk_reloc_patch_buffer obj sect_idx
              (lnk_obj_reloc_patch_reloc pick task task_id obj sect_idx section_header st
                reloc)).drop site).take rv.size) : Int)
            = ((rv.value : Int) + extend_sign64
                (bytes_read_le (((lnk_reloc_patch_buffer obj sect_idx st).drop site).take
                  rv.size)) rv.size) % (2 ^ (8 * rv.size) : Nat)
          ∧ (∀ i, i < site ∨ site + rv.size ≤ i →
              (lnk_reloc_patch_buffer obj sect_idx
                (lnk_obj_reloc_patch_reloc pick task task_id obj sect_idx section_header st
                  reloc)).getD i 0
                = (lnk_reloc_patch_buffer obj sect_idx st).getD i 0)
          ∧ (bytes_read_le (((lnk_reloc_patch_buffer obj sect_idx st).drop site).take
                rv.size) = 0 →
              (bytes_read_le (((lnk_reloc_patch_buffer obj sect_idx
                  (lnk_obj_reloc_patch_reloc pick task task_id obj sect_idx section_header st
                    reloc)).drop site).take rv.size) : Int)
                = (rv.value : Int) % (2 ^ (8 * rv.size) : Nat)
              ∧ ((bytes_read_le (((lnk_reloc_patch_buffer obj sect_idx
                  (lnk_obj_reloc_patch_reloc pick task task_id obj sect_idx section_header st
                    reloc)).drop site).take rv.size) : Int) - (rv.value : Int))
                  % (2 ^ (8 * rv.size) : Nat) = 0))
      ∧ ((lnk_reloc_section_window section_header
            (lnk_reloc_patch_buffer obj sect_idx st)).2 < reloc.apply_off + rv.size →
          site + rv.size ≤ (lnk_reloc_patch_buffer obj sect_idx st).length →
          (bytes_read_le (((lnk_reloc_patch_buffer obj sect_idx
              (lnk_obj_reloc_patch_reloc pick task task_id obj sect_idx section_header st
                reloc)).drop site).take rv.size) : Int)
            = ((rv.value : Int) + extend_sign64
                (bytes_read_le (((lnk_reloc_patch_buffer obj sect_idx st).drop site).take
                  ((lnk_reloc_section_window section_header
                    (lnk_reloc_patch_buffer obj sect_idx st)).2 - reloc.apply_off)))
                rv.size) % (2 ^ (8 * rv.size) : Nat)
          ∧ (∀ i, i < site ∨ site + rv.size ≤ i →
              (lnk_reloc_patch_buffer obj sect_idx
                (lnk_obj_reloc_patch_reloc pick task task_id obj sect_idx section_header st
                  reloc)).getD i 0
                = (lnk_reloc_patch_buffer obj sect_idx st).getD i 0)))
    ∧ lnk_reloc_section_window { flags := 0, foff := 0, fsize := 16, voff := 0x1000 }
        fixture_reloc_crossing_image = (0, 16)
    ∧ bytes_read_le ((fixture_reloc_crossing_image.drop 12).take 8) = 0x500000000
    ∧ lnk_obj_reloc_patcher fixture_pick_reloc_value ⟨0x140000000, [0, 0x1000]⟩
        [fixture_reloc_obj 0x1000 false [⟨12, 0, COFF_Reloc_X64_Addr64⟩]] 0
        fixture_reloc_crossing_image []
      = { image_data := [0, 0, 0, 0, 0, 0, 0, 0, 0, 0, 0, 0, 0x04, 0x10, 0x00, 0x40,
                         0x01, 0, 0, 0, 0, 0, 0, 0, 0, 0, 0, 0, 0, 0, 0, 0],
          obj_data := List.replicate 16 0,
          errors := [] }
    ∧ bytes_read_le ((([0, 0, 0, 0, 0, 0, 0, 0, 0, 0, 0, 0, 0x04, 0x10, 0x00, 0x40,
        0x01, 0, 0, 0, 0, 0, 0, 0, 0, 0, 0, 0, 0, 0, 0, 0] : List Nat).drop 12).take 8)
      = 0x140001004
    ∧ ((0x140001004 : Int) + extend_sign64 0x500000000 8) % (2 ^ (8 * 8) : Nat)
      = 0x640001004 := by
  refine ⟨?_, by decide, by decide, by decide, by decide, by decide⟩
  intro pick task task_id obj sect_idx section_header st reloc loc errs rv site hmach hloc hrv
    hw hsite
  subst hrv
  obtain ⟨hbuf, hother⟩ := lnk_obj_reloc_patch_reloc_buffer pick task task_id obj sect_idx
    section_header st reloc loc errs hmach hloc
  rw [hbuf, hsite]
  refine ⟨⟨?_, hother⟩, ?_, ?_⟩
  · unfold lnk_apply_reloc_value
    exact bytes_write_length _ _ _
  · intro hinside
    obtain ⟨_, s2, s3⟩ := lnk_apply_reloc_value_spec (lnk_reloc_patch_buffer obj sect_idx st)
      (lnk_reloc_section_window section_header (lnk_reloc_patch_buffer obj sect_idx st))
      reloc.apply_off _ hw (lnk_reloc_section_window_inside _ _) hinside
    refine ⟨s2, s3, ?_⟩
    intro hzero
    rw [s2, hzero, extend_sign64_zero, add_zero]
    refine ⟨rfl, ?_⟩
    rw [Int.sub_emod, Int.emod_emod_of_dvd _ dvd_rfl, sub_self, Int.zero_emod]
  · intro hcross hfit
    obtain ⟨_, s2, s3⟩ := lnk_apply_reloc_value_crossing
      (lnk_reloc_patch_buffer obj sect_idx st)
      (lnk_reloc_section_window section_header (lnk_reloc_patch_buffer obj sect_idx st))
      reloc.apply_off _ hw hcross hfit
    exact ⟨s2, s3⟩

/-- Scenario of C16. An `ADDR64` relocation at offset 4 of a 16-byte section against a Regular
symbol at virtual offset 0x1004, image base 0x140000000, previous content -4: afterwards the
eight bytes at the site hold 0x140001000 and the image keeps its 16 bytes. The same relocation
at offset 12, in the image of 32 bytes whose byte 16 is 5: the site ends behind the section,
the addend is read from the four bytes of the site inside the section, and the eight bytes at
the site hold 0x140001004 afterwards. -/
theorem C16_reloc_applied_witness :
    (lnk_reloc_patch_buffer (fixture_reloc_obj 0x1000 false [⟨4, 0, 1⟩]) 0
        (lnk_obj_reloc_patch_reloc fixture_pick_reloc_value ⟨0x140000000, [0, 0x1000]⟩ 0
          (fixture_reloc_obj 0x1000 false [⟨4, 0, 1⟩]) 0
          { flags := 0, foff := 0, fsize := 16, voff := 0x1000 }
          ⟨[0, 0, 0, 0, 252, 255, 255, 255, 255, 255, 255, 255, 0, 0, 0, 0], [], []⟩
          ⟨4, 0, 1⟩)).length = 16
    ∧ (bytes_read_le (((lnk_reloc_patch_buffer (fixture_reloc_obj 0x1000 false [⟨4, 0, 1⟩]) 0
        (lnk_obj_reloc_patch_reloc fixture_pick_reloc_value ⟨0x140000000, [0, 0x1000]⟩ 0
          (fixture_reloc_obj 0x1000 false [⟨4, 0, 1⟩]) 0
          { flags := 0, foff := 0, fsize := 16, voff := 0x1000 }
          ⟨[0, 0, 0, 0, 252, 255, 255, 255, 255, 255, 255, 255, 0, 0, 0, 0], [], []⟩
          ⟨4, 0, 1⟩)).drop 4).take 8) : Int)
      = ((0x140001004 : Int) + extend_sign64 (bytes_read_le
          ((([0, 0, 0, 0, 252, 255, 255, 255, 255, 255, 255, 255, 0, 0, 0, 0] : List Nat).drop
            4).take 8)) 8) % (2 ^ (8 * 8) : Nat)
    ∧ bytes_read_le (((lnk_reloc_patch_buffer (fixture_reloc_obj 0x1000 false [⟨4, 0, 1⟩]) 0
        (lnk_obj_reloc_patch_reloc fixture_pick_reloc_value ⟨0x140000000, [0, 0x1000]⟩ 0
          (fixture_reloc_obj 0x1000 false [⟨4, 0, 1⟩]) 0
          { flags := 0, foff := 0, fsize := 16, voff := 0x1000 }
          ⟨[0, 0, 0, 0, 252, 255, 255, 255, 255, 255, 255, 255, 0, 0, 0, 0], [], []⟩
          ⟨4, 0, 1⟩)).drop 4).take 8) = 0x140001000
    ∧ (bytes_read_le (((lnk_reloc_patch_buffer
        (fixture_reloc_obj 0x1000 false [⟨12, 0, COFF_Reloc_X64_Addr64⟩]) 0
        (lnk_obj_reloc_patch_reloc fixture_pick_reloc_value ⟨0x140000000, [0, 0x1000]⟩ 0
          (fixture_reloc_obj 0x1000 false [⟨12, 0, COFF_Reloc_X64_Addr64⟩]) 0
          { flags := 0, foff := 0, fsize := 16, voff := 0x1000 }
          ⟨fixture_reloc_crossing_image, [], []⟩
          ⟨12, 0, COFF_Reloc_X64_Addr64⟩)).drop 12).take 8) : Int)
      = ((0x140001004 : Int) + extend_sign64 (bytes_read_le
          ((fixture_reloc_crossing_image.drop 12).take (16 - 12))) 8) % (2 ^ (8 * 8) : Nat)
    ∧ bytes_read_le ((fixture_reloc_crossing_image.drop 12).take (16 - 12)) = 0 := by
  have h := C16_reloc_applied.1 fixture_pick_reloc_value ⟨0x140000000, [0, 0x1000]⟩ 0
    (fixture_reloc_obj 0x1000 false [⟨4, 0, 1⟩]) 0
    { flags := 0, foff := 0, fsize := 16, voff := 0x1000 }
    ⟨[0, 0, 0, 0, 252, 255, 255, 255, 255, 255, 255, 255, 0, 0, 0, 0], [], []⟩
    ⟨4, 0, 1⟩ (1, 4, 0x1004) [] ⟨8, 0x140001004⟩ 4 (by decide) (by decide) (by decide)
    (by decide) (by decide)
  have h2 := C16_reloc_applied.1 fixture_pick_reloc_value ⟨0x140000000, [0, 0x1000]⟩ 0
    (fixture_reloc_obj 0x1000 false [⟨12, 0, COFF_Reloc_X64_Addr64⟩]) 0
    { flags := 0, foff := 0, fsize := 16, voff := 0x1000 }
    ⟨fixture_reloc_crossing_image, [], []⟩
    ⟨12, 0, COFF_Reloc_X64_Addr64⟩ (1, 4, 0x1004) [] ⟨8, 0x140001004⟩ 12 (by decide)
    (by decide) (by decide) (by decide) (by decide)
  exact ⟨h.1.1, (h.2.1 (by decide)).1, by decide, (h2.2.2 (by decide) (by decide)).1,
    by decide⟩

/-- The location of the target symbol is `none` exactly for a Regular symbol that carries the
removed-section number of the object. -/
theorem lnk_reloc_symbol_location_eq_none (task : LNK_ObjRelocPatcher) (obj : LNK_Obj)
    (reloc : COFF_Reloc) :
    lnk_reloc_symbol_location task obj reloc = none
      ↔ lnk_reloc_is_against_removed obj reloc = true := by
  unfold lnk_reloc_symbol_location lnk_reloc_is_against_removed
  simp only [Bool.and_eq_true, decide_eq_true_eq]
  constructor
  · intro h
    by_cases hreg : coff_interp_from_parsed_symbol
        (lnk_parsed_symbol_from_coff_symbol_idx obj reloc.isymbol) = .Regular
    · by_cases hrem : (lnk_parsed_symbol_from_coff_symbol_idx obj reloc.isymbol).section_number
          = lnk_obj_get_removed_section_number obj
      · exact ⟨hreg, hrem⟩
      · simp [hreg, hrem] at h
    · simp only [hreg, if_false] at h
      split_ifs at h
  · rintro ⟨hreg, hrem⟩
    simp [hreg, hrem]

/-- The diagnostics of the location of the target symbol are not of the kind
`RelocationAgainstRemovedSection`. -/
theorem lnk_reloc_symbol_location_errors (task : LNK_ObjRelocPatcher) (obj : LNK_Obj)
    (reloc : COFF_Reloc) (loc : Nat × Nat × Int) (errs : List LNK_Error)
    (h : lnk_reloc_symbol_location task obj reloc = some (loc, errs)) :
    lnk_error_count .Error_RelocationAgainstRemovedSection errs = 0 := by
  unfold lnk_reloc_symbol_location at h
  simp only at h
  split_ifs at h <;> simp only [Option.some.injEq, Prod.mk.injEq] at h <;>
    obtain ⟨_, rfl⟩ := h <;> decide

/-- One relocation adds one `RelocationAgainstRemovedSection` error when its target symbol is in
a removed section and the containing section is not a debug section, and none otherwise. -/
theorem lnk_obj_reloc_patch_reloc_error_count
    (pick : Nat → Nat → Nat → Nat → Nat → Int → COFF_RelocValue)
    (task : LNK_ObjRelocPatcher) (task_id : Nat) (obj : LNK_Obj) (sect_idx : Nat)
    (section_header : COFF_SectionHeader) (st : LNK_RelocPatchState) (reloc : COFF_Reloc) :
    lnk_error_count .Error_RelocationAgainstRemovedSection
        (lnk_obj_reloc_patch_reloc pick task task_id obj sect_idx section_header st
          reloc).errors
      = lnk_error_count .Error_RelocationAgainstRemovedSection st.errors
        + (if lnk_reloc_is_against_removed obj reloc = true
              ∧ lnk_is_coff_section_debug obj sect_idx = false then 1 else 0) := by
  have herr1 : ∀ errors1 : List LNK_Error,
      errors1 = (if obj.machine = .X64 then
          if reloc.type > COFF_Reloc_X64_Last then
            st.errors ++ [{ code := .Error_IllegalRelocation, obj := some task_id }]
          else st.errors
        else if obj.machine ≠ .Unknown then
          st.errors ++ [{ code := .NotImplemented_Assert, obj := none }]
        else st.errors) →
      lnk_error_count .Error_RelocationAgainstRemovedSection errors1
        = lnk_error_count .Error_RelocationAgainstRemovedSection st.errors := by
    intro errors1 h
    subst h
    unfold lnk_error_count
    split_ifs <;> simp [List.countP_append]
  cases hloc : lnk_reloc_symbol_location task obj reloc with
  | none =>
    have hrem := (lnk_reloc_symbol_location_eq_none task obj reloc).1 hloc
    unfold lnk_obj_reloc_patch_reloc
    simp only [hloc]
    by_cases hd : lnk_is_coff_section_debug obj sect_idx = true
    · simp only [hd, Bool.not_true, Bool.false_eq_true, if_false, hrem, Bool.true_eq_false,
        and_false, add_zero]
      exact herr1 _ rfl
    · have hd' : lnk_is_coff_section_debug obj sect_idx = false := by simpa using hd
      simp only [hd', Bool.not_false, if_true, hrem, and_self]
      have := herr1 _ rfl
      unfold lnk_error_count at this ⊢
      rw [List.countP_append, this]
      simp
  | some p =>
    obtain ⟨loc, errs⟩ := p
    have hrem : ¬ lnk_reloc_is_against_removed obj reloc = true := by
      intro h
      rw [(lnk_reloc_symbol_location_eq_none task obj reloc).2 h] at hloc
      cases hloc
    have herrs := lnk_reloc_symbol_location_errors task obj reloc loc errs hloc
    have happ : ∀ a b c : List LNK_Error,
        lnk_error_count .Error_RelocationAgainstRemovedSection (a ++ b ++ c)
          = lnk_error_count .Error_RelocationAgainstRemovedSection a
            + lnk_error_count .Error_RelocationAgainstRemovedSection b
            + lnk_error_count .Error_RelocationAgainstRemovedSection c := by
      intro a b c
      unfold lnk_error_count
      rw [List.countP_append, List.countP_append]
    have h1 := herr1 _ rfl
    unfold lnk_obj_reloc_patch_reloc
    simp only [hloc, hrem, false_and, if_false, add_zero]
    by_cases hd : lnk_is_coff_section_debug obj sect_idx = true
    · simp only [hd, if_true]
      rw [happ, h1, herrs]
      cases obj.machine <;> rfl
    · simp only [hd, if_false, Bool.false_eq_true]
      rw [happ, h1, herrs]
      cases obj.machine <;> rfl

/-- The relocations of one section add one `RelocationAgainstRemovedSection` error for each
relocation against a symbol of a removed section when the section is not a debug section, and
none when it is. -/
theorem lnk_obj_reloc_patch_relocs_error_count
    (pick : Nat → Nat → Nat → Nat → Nat → Int → COFF_RelocValue)
    (task : LNK_ObjRelocPatcher) (task_id : Nat) (obj : LNK_Obj) (sect_idx : Nat)
    (section_header : COFF_SectionHeader) (relocs : List COFF_Reloc)
    (st : LNK_RelocPatchState) :
    lnk_error_count .Error_RelocationAgainstRemovedSection
        (relocs.foldl (lnk_obj_reloc_patch_reloc pick task task_id obj sect_idx section_header)
          st).errors
      = lnk_error_count .Error_RelocationAgainstRemovedSection st.errors
        + (if lnk_is_coff_section_debug obj sect_idx = false then
            relocs.countP (lnk_reloc_is_against_removed obj) else 0) := by
  induction relocs generalizing st with
  | nil => simp
  | cons reloc rest ih =>
    rw [List.foldl_cons, ih, lnk_obj_reloc_patch_reloc_error_count, List.countP_cons]
    by_cases hd : lnk_is_coff_section_debug obj sect_idx = false
    · by_cases hr : lnk_reloc_is_against_removed obj reloc = true
      · simp only [hd, hr, and_self, if_true]
        omega
      · simp only [hd, hr, false_and, and_true, if_true, if_false, Bool.false_eq_true]
        omega
    · simp [hd]

/-- One section adds one `RelocationAgainstRemovedSection` error for each of its relocations
against a symbol of a removed section when it is processed and is not a debug section. -/
theorem lnk_obj_reloc_patch_section_error_count
    (pick : Nat → Nat → Nat → Nat → Nat → Int → COFF_RelocValue)
    (task : LNK_ObjRelocPatcher) (task_id : Nat) (obj : LNK_Obj) (st : LNK_RelocPatchState)
    (sect_idx : Nat) :
    lnk_error_count .Error_RelocationAgainstRemovedSection
        (lnk_obj_reloc_patch_section pick task task_id obj st sect_idx).errors
      = lnk_error_count .Error_RelocationAgainstRemovedSection st.errors
        + (if (lnk_reloc_section_is_patched obj sect_idx
              && !lnk_is_coff_section_debug obj sect_idx) = true then
            (lnk_coff_reloc_info_from_section_number obj (sect_idx + 1)).countP
              (lnk_reloc_is_against_removed obj)
          else 0) := by
  unfold lnk_obj_reloc_patch_section lnk_reloc_section_is_patched
  simp only
  generalize obj.section_table.getD sect_idx { flags := 0, foff := 0, fsize := 0 } = header
  by_cases h1 : header.flags &&& COFF_SectionFlag_LnkRemove ≠ 0
  · have h1' : ¬ header.flags &&& COFF_SectionFlag_LnkRemove = 0 := h1
    simp [h1, h1']
  · have h1' : header.flags &&& COFF_SectionFlag_LnkRemove = 0 := by simpa using h1
    by_cases h2 : header.flags &&& COFF_SectionFlag_CntUninitializedData ≠ 0
    · have h2' : ¬ header.flags &&& COFF_SectionFlag_CntUninitializedData = 0 := h2
      simp [h1, h2, h2']
    · have h2' : header.flags &&& COFF_SectionFlag_CntUninitializedData = 0 := by
        simpa using h2
      rw [if_neg h1, if_neg h2, lnk_obj_reloc_patch_relocs_error_count]
      by_cases hd : lnk_is_coff_section_debug obj sect_idx = false
      · simp [h1', h2', hd]
      · have hd' : lnk_is_coff_section_debug obj sect_idx = true := by simpa using hd
        simp [h1', h2', hd']

/-- The sections of a list add the errors of each of them. -/
theorem lnk_obj_reloc_patch_sections_error_count
    (pick : Nat → Nat → Nat → Nat → Nat → Int → COFF_RelocValue)
    (task : LNK_ObjRelocPatcher) (task_id : Nat) (obj : LNK_Obj) (sects : List Nat)
    (st : LNK_RelocPatchState) :
    lnk_error_count .Error_RelocationAgainstRemovedSection
        (sects.foldl (lnk_obj_reloc_patch_section pick task task_id obj) st).errors
      = lnk_error_count .Error_RelocationAgainstRemovedSection st.errors
        + (sects.map (fun sect_idx =>
            if (lnk_reloc_section_is_patched obj sect_idx
                && !lnk_is_coff_section_debug obj sect_idx) = true then
              (lnk_coff_reloc_info_from_section_number obj (sect_idx + 1)).countP
                (lnk_reloc_is_against_removed obj)
            else 0)).sum := by
  induction sects generalizing st with
  | nil => simp
  | cons sect_idx rest ih =>
    rw [List.foldl_cons, ih, lnk_obj_reloc_patch_section_error_count, List.map_cons,
      List.sum_cons]
    omega

/-- The window of a section depends on the size of the buffer only. -/
theorem lnk_reloc_section_window_length (section_header : COFF_SectionHeader)
    (data data2 : List Nat) (h : data.length = data2.length) :
    lnk_reloc_section_window section_header data
      = lnk_reloc_section_window section_header data2 := by
  unfold lnk_reloc_section_window
  rw [h]

/-- Applying a relocation value keeps the length of the buffer and every byte outside the
site. -/
theorem lnk_apply_reloc_value_frame (data : List Nat) (window : Nat × Nat) (apply_off : Nat)
    (rv : COFF_RelocValue) :
    (lnk_apply_reloc_value data window apply_off rv).length = data.length
    ∧ ∀ i, i < window.1 + apply_off ∨ window.1 + apply_off + rv.size ≤ i →
        (lnk_apply_reloc_value data window apply_off rv).getD i 0 = data.getD i 0 := by
  unfold lnk_apply_reloc_value
  refine ⟨bytes_write_length _ _ _, ?_⟩
  intro i hi
  apply bytes_write_outside
  rw [bytes_of_le_length]
  exact hi

/-- One relocation whose site lies inside the window of its section keeps the lengths of both
buffers, the buffer the section is not patched in, and every byte outside the window. -/
theorem lnk_obj_reloc_patch_reloc_frame
    (pick : Nat → Nat → Nat → Nat → Nat → Int → COFF_RelocValue)
    (task : LNK_ObjRelocPatcher) (task_id : Nat) (obj : LNK_Obj) (sect_idx : Nat)
    (section_header : COFF_SectionHeader) (st : LNK_RelocPatchState) (reloc : COFF_Reloc)
    (hin : lnk_reloc_site_is_inside pick task obj section_header
      (lnk_reloc_patch_buffer obj sect_idx st) reloc) :
    (lnk_obj_reloc_patch_reloc pick task task_id obj sect_idx section_header st
        reloc).image_data.length = st.image_data.length
    ∧ (lnk_obj_reloc_patch_reloc pick task task_id obj sect_idx section_header st
        reloc).obj_data.length = st.obj_data.length
    ∧ (∀ i, (lnk_is_coff_section_debug obj sect_idx = false →
          ¬ ((lnk_reloc_section_window section_header st.image_data).1 ≤ i
            ∧ i < (lnk_reloc_section_window section_header st.image_data).1
              + (lnk_reloc_section_window section_header st.image_data).2)) →
        (lnk_obj_reloc_patch_reloc pick task task_id obj sect_idx section_header st
          reloc).image_data.getD i 0 = st.image_data.getD i 0)
    ∧ (∀ i, (lnk_is_coff_section_debug obj sect_idx = true →
          ¬ ((lnk_reloc_section_window section_header st.obj_data).1 ≤ i
            ∧ i < (lnk_reloc_section_window section_header st.obj_data).1
              + (lnk_reloc_section_window section_header st.obj_data).2)) →
        (lnk_obj_reloc_patch_reloc pick task task_id obj sect_idx section_header st
          reloc).obj_data.getD i 0 = st.obj_data.getD i 0) := by
  cases hloc : lnk_reloc_symbol_location task obj reloc with
  | none =>
    unfold lnk_obj_reloc_patch_reloc
    simp only [hloc]
    split_ifs <;> exact ⟨rfl, rfl, fun _ _ => rfl, fun _ _ => rfl⟩
  | some p =>
    obtain ⟨loc, errs⟩ := p
    have hsite := hin loc errs hloc
    have hpicked : ∀ data : List Nat, ∀ i,
        ¬ ((lnk_reloc_section_window section_header data).1 ≤ i
          ∧ i < (lnk_reloc_section_window section_header data).1
            + (lnk_reloc_section_window section_header data).2) →
        lnk_reloc_section_window section_header data
          = lnk_reloc_section_window section_header (lnk_reloc_patch_buffer obj sect_idx st) →
        ∀ rv : COFF_RelocValue,
          rv = pick reloc.type task.image_base
              ((section_header.voff + reloc.apply_off) % 2 ^ 32) loc.1 loc.2.1 loc.2.2
            ∨ rv.size = 0 →
          (lnk_apply_reloc_value data (lnk_reloc_section_window section_header data)
            reloc.apply_off rv).getD i 0 = data.getD i 0 := by
      intro data i hout hwin rv hrv
      apply (lnk_apply_reloc_value_frame data _ reloc.apply_off rv).2
      rcases hrv with hrv | hrv
      · rw [← hwin, ← hrv] at hsite
        omega
      · omega
    by_cases hd : lnk_is_coff_section_debug obj sect_idx = true
    · have hbuf : lnk_reloc_patch_buffer obj sect_idx st = st.obj_data := by
        simp [lnk_reloc_patch_buffer, hd]
      have himg : (lnk_obj_reloc_patch_reloc pick task task_id obj sect_idx section_header st
          reloc).image_data = st.image_data := by
        simp [lnk_obj_reloc_patch_reloc, hloc, hd]
      have hobj : ∃ rv : COFF_RelocValue,
          (rv = pick reloc.type task.image_base
              ((section_header.voff + reloc.apply_off) % 2 ^ 32) loc.1 loc.2.1 loc.2.2
            ∨ rv.size = 0)
          ∧ (lnk_obj_reloc_patch_reloc pick task task_id obj sect_idx section_header st
              reloc).obj_data
            = lnk_apply_reloc_value st.obj_data
                (lnk_reloc_section_window section_header st.obj_data) reloc.apply_off rv := by
        cases hm : obj.machine
        · exact ⟨{ size := 0, value := 0 }, Or.inr rfl,
            by simp [lnk_obj_reloc_patch_reloc, hloc, hd, hm]⟩
        · exact ⟨_, Or.inl rfl, by simp [lnk_obj_reloc_patch_reloc, hloc, hd, hm]⟩
        · exact ⟨{ size := 0, value := 0 }, Or.inr rfl,
            by simp [lnk_obj_reloc_patch_reloc, hloc, hd, hm]⟩
      obtain ⟨rv, hrv, hobj⟩ := hobj
      rw [himg, hobj]
      refine ⟨rfl, (lnk_apply_reloc_value_frame _ _ _ _).1, fun _ _ => rfl, ?_⟩
      intro i hi
      exact hpicked st.obj_data i (hi hd) (by rw [hbuf]) rv hrv
    · have hd' : lnk_is_coff_section_debug obj sect_idx = false := by simpa using hd
      have hbuf : lnk_reloc_patch_buffer obj sect_idx st = st.image_data := by
        simp [lnk_reloc_patch_buffer, hd']
      have hobj : (lnk_obj_reloc_patch_reloc pick task task_id obj sect_idx section_header st
          reloc).obj_data = st.obj_data := by
        simp [lnk_obj_reloc_patch_reloc, hloc, hd']
      have himg : ∃ rv : COFF_RelocValue,
          (rv = pick reloc.type task.image_base
              ((section_header.voff + reloc.apply_off) % 2 ^ 32) loc.1 loc.2.1 loc.2.2
            ∨ rv.size = 0)
          ∧ (lnk_obj_reloc_patch_reloc pick task task_id obj sect_idx section_header st
              reloc).image_data
            = lnk_apply_reloc_value st.image_data
                (lnk_reloc_section_window section_header st.image_data) reloc.apply_off
                rv := by
        cases hm : obj.machine
        · exact ⟨{ size := 0, value := 0 }, Or.inr rfl,
            by simp [lnk_obj_reloc_patch_reloc, hloc, hd', hm]⟩
        · exact ⟨_, Or.inl rfl, by simp [lnk_obj_reloc_patch_reloc, hloc, hd', hm]⟩
        · exact ⟨{ size := 0, value := 0 }, Or.inr rfl,
            by simp [lnk_obj_reloc_patch_reloc, hloc, hd', hm]⟩
      obtain ⟨rv, hrv, himg⟩ := himg
      rw [himg, hobj]
      refine ⟨(lnk_apply_reloc_value_frame _ _ _ _).1, rfl, ?_, fun _ _ => rfl⟩
      intro i hi
      exact hpicked st.image_data i (hi hd') (by rw [hbuf]) rv hrv

/-- The relocations of one section, whose sites lie inside the window of the section, keep the
lengths of both buffers, the buffer the section is not patched in, and every byte outside the
window. -/
theorem lnk_obj_reloc_patch_relocs_frame
    (pick : Nat → Nat → Nat → Nat → Nat → Int → COFF_RelocValue)
    (task : LNK_ObjRelocPatcher) (task_id : Nat) (obj : LNK_Obj) (sect_idx : Nat)
    (section_header : COFF_SectionHeader) (image_data obj_data : List Nat)
    (relocs : List COFF_Reloc) (st : LNK_RelocPatchState)
    (hl1 : st.image_data.length = image_data.length)
    (hl2 : st.obj_data.length = obj_data.length)
    (hin : ∀ reloc ∈ relocs, lnk_reloc_site_is_inside pick task obj section_header
      (if lnk_is_coff_section_debug obj sect_idx = true then obj_data else image_data) reloc) :
    (relocs.foldl (lnk_obj_reloc_patch_reloc pick task task_id obj sect_idx section_header)
        st).image_data.length = image_data.length
    ∧ (relocs.foldl (lnk_obj_reloc_patch_reloc pick task task_id obj sect_idx section_header)
        st).obj_data.length = obj_data.length
    ∧ (∀ i, (lnk_is_coff_section_debug obj sect_idx = false →
          ¬ ((lnk_reloc_section_window section_header image_data).1 ≤ i
            ∧ i < (lnk_reloc_section_window section_header image_data).1
              + (lnk_reloc_section_window section_header image_data).2)) →
        (relocs.foldl (lnk_obj_reloc_patch_reloc pick task task_id obj sect_idx section_header)
          st).image_data.getD i 0 = st.image_data.getD i 0)
    ∧ (∀ i, (lnk_is_coff_section_debug obj sect_idx = true →
          ¬ ((lnk_reloc_section_window section_header obj_data).1 ≤ i
            ∧ i < (lnk_reloc_section_window section_header obj_data).1
              + (lnk_reloc_section_window section_header obj_data).2)) →
        (relocs.foldl (lnk_obj_reloc_patch_reloc pick task task_id obj sect_idx section_header)
          st).obj_data.getD i 0 = st.obj_data.getD i 0) := by
  induction relocs generalizing st with
  | nil => exact ⟨hl1, hl2, fun _ _ => rfl, fun _ _ => rfl⟩
  | cons reloc rest ih =>
    have hin1 : lnk_reloc_site_is_inside pick task obj section_header
        (lnk_reloc_patch_buffer obj sect_idx st) reloc := by
      have h := hin reloc (List.mem_cons_self _ _)
      unfold lnk_reloc_site_is_inside at h ⊢
      intro loc errs hloc
      have h2 := h loc errs hloc
      have hw : lnk_reloc_section_window section_header (lnk_reloc_patch_buffer obj sect_idx st)
          = lnk_reloc_section_window section_header
              (if lnk_is_coff_section_debug obj sect_idx = true then obj_data
                else image_data) := by
        apply lnk_reloc_section_window_length
        unfold lnk_reloc_patch_buffer
        split_ifs
        · exact hl2
        · exact hl1
      rw [hw]
      exact h2
    obtain ⟨f1, f2, f3, f4⟩ := lnk_obj_reloc_patch_reloc_frame pick task task_id obj sect_idx
      section_header st reloc hin1
    obtain ⟨g1, g2, g3, g4⟩ := ih
      (lnk_obj_reloc_patch_reloc pick task task_id obj sect_idx section_header st reloc)
      (by rw [f1, hl1]) (by rw [f2, hl2])
      (fun r hr => hin r (List.mem_cons_of_mem _ hr))
    rw [List.foldl_cons]
    refine ⟨g1, g2, ?_, ?_⟩
    · intro i hi
      rw [g3 i hi]
      apply f3 i
      rw [lnk_reloc_section_window_length section_header st.image_data image_data hl1]
      exact hi
    · intro i hi
      rw [g4 i hi]
      apply f4 i
      rw [lnk_reloc_section_window_length section_header st.obj_data obj_data hl2]
      exact hi

/-- One section of the object, the sites of whose relocations lie inside its window, keeps the
lengths of both buffers and every byte that lies in no window of a processed section. -/
theorem lnk_obj_reloc_patch_section_frame
    (pick : Nat → Nat → Nat → Nat → Nat → Int → COFF_RelocValue)
    (task : LNK_ObjRelocPatcher) (task_id : Nat) (obj : LNK_Obj)
    (image_data obj_data : List Nat) (st : LNK_RelocPatchState) (sect_idx : Nat)
    (hidx : sect_idx < obj.section_table.length)
    (hl1 : st.image_data.length = image_data.length)
    (hl2 : st.obj_data.length = obj_data.length)
    (hin : lnk_reloc_section_is_patched obj sect_idx = true →
      ∀ reloc ∈ lnk_coff_reloc_info_from_section_number obj (sect_idx + 1),
        lnk_reloc_site_is_inside pick task obj
          (obj.section_table.getD sect_idx { flags := 0, foff := 0, fsize := 0 })
          (if lnk_is_coff_section_debug obj sect_idx = true then obj_data else image_data)
          reloc) :
    (lnk_obj_reloc_patch_section pick task task_id obj st sect_idx).image_data.length
      = image_data.length
    ∧ (lnk_obj_reloc_patch_section pick task task_id obj st sect_idx).obj_data.length
      = obj_data.length
    ∧ (∀ i, ¬ lnk_reloc_in_patched_window obj false image_data i →
        (lnk_obj_reloc_patch_section pick task task_id obj st sect_idx).image_data.getD i 0
          = st.image_data.getD i 0)
    ∧ (∀ i, ¬ lnk_reloc_in_patched_window obj true obj_data i →
        (lnk_obj_reloc_patch_section pick task task_id obj st sect_idx).obj_data.getD i 0
          = st.obj_data.getD i 0) := by
  by_cases hp : lnk_reloc_section_is_patched obj sect_idx = true
  · have hsect : lnk_obj_reloc_patch_section pick task task_id obj st sect_idx
        = (lnk_coff_reloc_info_from_section_number obj (sect_idx + 1)).foldl
            (lnk_obj_reloc_patch_reloc pick task task_id obj sect_idx
              (obj.section_table.getD sect_idx { flags := 0, foff := 0, fsize := 0 })) st := by
      unfold lnk_reloc_section_is_patched at hp
      simp only [Bool.and_eq_true, decide_eq_true_eq] at hp
      unfold lnk_obj_reloc_patch_section
      simp only [hp.1, hp.2, ne_eq, not_true_eq_false, if_false]
    rw [hsect]
    obtain ⟨g1, g2, g3, g4⟩ := lnk_obj_reloc_patch_relocs_frame pick task task_id obj sect_idx
      (obj.section_table.getD sect_idx { flags := 0, foff := 0, fsize := 0 })
      image_data obj_data _ st hl1 hl2 (hin hp)
    refine ⟨g1, g2, ?_, ?_⟩
    · intro i hi
      apply g3 i
      intro hd hw
      exact hi ⟨sect_idx, hidx, hp, hd, hw.1, hw.2⟩
    · intro i hi
      apply g4 i
      intro hd hw
      exact hi ⟨sect_idx, hidx, hp, hd, hw.1, hw.2⟩
  · have hsect : lnk_obj_reloc_patch_section pick task task_id obj st sect_idx = st := by
      unfold lnk_reloc_section_is_patched at hp
      simp only [Bool.and_eq_true, decide_eq_true_eq, not_and] at hp
      unfold lnk_obj_reloc_patch_section
      simp only
      by_cases h1 : (obj.section_table.getD sect_idx
          { flags := 0, foff := 0, fsize := 0 }).flags &&& COFF_SectionFlag_LnkRemove = 0
      · have h2 := hp h1
        rw [if_neg (not_not.2 h1), if_pos h2]
      · rw [if_pos h1]
    rw [hsect]
    exact ⟨hl1, hl2, fun _ _ => rfl, fun _ _ => rfl⟩

/-- The sections of a list, the sites of whose relocations lie inside their windows, keep the
lengths of both buffers and every byte that lies in no window of a processed section. -/
theorem lnk_obj_reloc_patch_sections_frame
    (pick : Nat → Nat → Nat → Nat → Nat → Int → COFF_RelocValue)
    (task : LNK_ObjRelocPatcher) (task_id : Nat) (obj : LNK_Obj)
    (image_data obj_data : List Nat) (sects : List Nat) (st : LNK_RelocPatchState)
    (hidx : ∀ sect_idx ∈ sects, sect_idx < obj.section_table.length)
    (hl1 : st.image_data.length = image_data.length)
    (hl2 : st.obj_data.length = obj_data.length)
    (hin : ∀ sect_idx ∈ sects, lnk_reloc_section_is_patched obj sect_idx = true →
      ∀ reloc ∈ lnk_coff_reloc_info_from_section_number obj (sect_idx + 1),
        lnk_reloc_site_is_inside pick task obj
          (obj.section_table.getD sect_idx { flags := 0, foff := 0, fsize := 0 })
          (if lnk_is_coff_section_debug obj sect_idx = true then obj_data else image_data)
          reloc) :
    (sects.foldl (lnk_obj_reloc_patch_section pick task task_id obj) st).image_data.length
      = image_data.length
    ∧ (sects.foldl (lnk_obj_reloc_patch_section pick task task_id obj) st).obj_data.length
      = obj_data.length
    ∧ (∀ i, ¬ lnk_reloc_in_patched_window obj false image_data i →
        (sects.foldl (lnk_obj_reloc_patch_section pick task task_id obj) st).image_data.getD
          i 0 = st.image_data.getD i 0)
    ∧ (∀ i, ¬ lnk_reloc_in_patched_window obj true obj_data i →
        (sects.foldl (lnk_obj_reloc_patch_section pick task task_id obj) st).obj_data.getD
          i 0 = st.obj_data.getD i 0) := by
  induction sects generalizing st with
  | nil => exact ⟨hl1, hl2, fun _ _ => rfl, fun _ _ => rfl⟩
  | cons sect_idx rest ih =>
    obtain ⟨f1, f2, f3, f4⟩ := lnk_obj_reloc_patch_section_frame pick task task_id obj
      image_data obj_data st sect_idx (hidx sect_idx (List.mem_cons_self _ _)) hl1 hl2
      (hin sect_idx (List.mem_cons_self _ _))
    obtain ⟨g1, g2, g3, g4⟩ := ih
      (lnk_obj_reloc_patch_section pick task task_id obj st sect_idx)
      (fun s hs => hidx s (List.mem_cons_of_mem _ hs)) f1 f2
      (fun s hs => hin s (List.mem_cons_of_mem _ hs))
    rw [List.foldl_cons]
    exact ⟨g1, g2, fun i hi => by rw [g3 i hi, f3 i hi], fun i hi => by rw [g4 i hi, f4 i hi]⟩

/-- C17, the claim where it holds and the code where it fails. In `lnk_obj_reloc_patcher`, a
relocation whose target symbol is Regular and carries the removed-section number of the object
leaves the image bytes and the object bytes as they are and records
`RelocationAgainstRemovedSection` exactly when the containing section is not a debug section.
Over the whole object the patcher records one such error for each relocation against a symbol
of a removed section in a section that is flagged neither `LnkRemove` nor
`CntUninitializedData` and is not a debug section, and no other. When the site of every
relocation that is applied lies inside the window of its section, both buffers keep their
lengths and every byte that lies in no window of a processed section keeps its value, the
bytes of the sections flagged `LnkRemove` or `CntUninitializedData` among them. At the failing
input the site does not lie inside: section 1 of the object, a debug section of 16 bytes at
the file offset 0, has an `ADDR64` relocation with `apply_off` 12, and section 2, flagged
`LnkRemove`, has its 16 bytes at the file offset 16; the patcher changes the byte at the offset
16 of the object, the first byte of section 2, from 0 to 1 and records no error. -/
theorem C17_reloc_against_removed :
    (∀ (pick : Nat → Nat → Nat → Nat → Nat → Int → COFF_RelocValue)
        (task : LNK_ObjRelocPatcher) (task_id : Nat) (obj : LNK_Obj) (sect_idx : Nat)
        (section_header : COFF_SectionHeader) (st : LNK_RelocPatchState) (reloc : COFF_Reloc),
        coff_interp_from_parsed_symbol
          (lnk_parsed_symbol_from_coff_symbol_idx obj reloc.isymbol) = .Regular →
        (lnk_parsed_symbol_from_coff_symbol_idx obj reloc.isymbol).section_number
          = lnk_obj_get_removed_section_number obj →
        (lnk_obj_reloc_patch_reloc pick task task_id obj sect_idx section_header st
          reloc).image_data = st.image_data
        ∧ (lnk_obj_reloc_patch_reloc pick task task_id obj sect_idx section_header st
          reloc).obj_data = st.obj_data
        ∧ lnk_error_count .Error_RelocationAgainstRemovedSection
            (lnk_obj_reloc_patch_reloc pick task task_id obj sect_idx section_header st
              reloc).errors
          = lnk_error_count .Error_RelocationAgainstRemovedSection st.errors
            + (if lnk_is_coff_section_debug obj sect_idx = true then 0 else 1))
    ∧ (∀ (pick : Nat → Nat → Nat → Nat → Nat → Int → COFF_RelocValue)
        (task : LNK_ObjRelocPatcher) (objs : List LNK_Obj) (task_id : Nat)
        (image_data : List Nat) (errors : List LNK_Error),
        lnk_error_count .Error_RelocationAgainstRemovedSection
            (lnk_obj_reloc_patcher pick task objs task_id image_data errors).errors
          = lnk_error_count .Error_RelocationAgainstRemovedSection errors
            + lnk_relocs_against_removed_count (lnk_obj_from_ptr objs task_id))
    ∧ (∀ (pick : Nat → Nat → Nat → Nat → Nat → Int → COFF_RelocValue)
        (task : LNK_ObjRelocPatcher) (objs : List LNK_Obj) (task_id : Nat)
        (image_data : List Nat) (errors : List LNK_Error),
        (∀ sect_idx, sect_idx < (lnk_obj_from_ptr objs task_id).section_table.length →
          lnk_reloc_section_is_patched (lnk_obj_from_ptr objs task_id) sect_idx = true →
          ∀ reloc ∈ lnk_coff_reloc_info_from_section_number (lnk_obj_from_ptr objs task_id)
              (sect_idx + 1),
            lnk_reloc_site_is_inside pick task (lnk_obj_from_ptr objs task_id)
              ((lnk_obj_from_ptr objs task_id).section_table.getD sect_idx
                { flags := 0, foff := 0, fsize := 0 })
              (if lnk_is_coff_section_debug (lnk_obj_from_ptr objs task_id) sect_idx = true
                then (lnk_obj_from_ptr objs task_id).data else image_data) reloc) →
        (lnk_obj_reloc_patcher pick task objs task_id image_data errors).image_data.length
          = image_data.length
        ∧ (lnk_obj_reloc_patcher pick task objs task_id image_data errors).obj_data.length
          = (lnk_obj_from_ptr objs task_id).data.length
        ∧ (∀ i, ¬ lnk_reloc_in_patched_window (lnk_obj_from_ptr objs task_id) false
              image_data i →
            (lnk_obj_reloc_patcher pick task objs task_id image_data errors).image_data.getD
              i 0 = image_data.getD i 0)
        ∧ (∀ i, ¬ lnk_reloc_in_patched_window (lnk_obj_from_ptr objs task_id) true
              (lnk_obj_from_ptr objs task_id).data i →
            (lnk_obj_reloc_patcher pick task objs task_id image_data errors).obj_data.getD
              i 0 = (lnk_obj_from_ptr objs task_id).data.getD i 0))
    ∧ lnk_reloc_section_is_patched fixture_reloc_removed_obj 1 = false
    ∧ lnk_reloc_section_window
        (fixture_reloc_removed_obj.section_table.getD 1 { flags := 0, foff := 0, fsize := 0 })
        fixture_reloc_removed_obj.data = (16, 16)
    ∧ lnk_obj_reloc_patcher fixture_pick_reloc_value ⟨0x140000000, [0, 0x1000]⟩
        [fixture_reloc_removed_obj] 0 (List.replicate 32 0) []
      = { image_data := List.replicate 32 0,
          obj_data := [0, 0, 0, 0, 0, 0, 0, 0, 0, 0, 0, 0, 0x04, 0x10, 0x00, 0x40,
                       0x01, 0, 0, 0, 0, 0, 0, 0, 0, 0, 0, 0, 0, 0, 0, 0],
          errors := [] }
    ∧ fixture_reloc_removed_obj.data.getD 16 0 = 0
    ∧ (lnk_obj_reloc_patcher fixture_pick_reloc_value ⟨0x140000000, [0, 0x1000]⟩
        [fixture_reloc_removed_obj] 0 (List.replicate 32 0) []).obj_data.getD 16 0 = 1 := by
  refine ⟨?_, ?_, ?_, by decide, by decide, by decide, by decide, by decide⟩
  · intro pick task task_id obj sect_idx section_header st reloc hreg hrem
    have hloc : lnk_reloc_symbol_location task obj reloc = none := by
      simp [lnk_reloc_symbol_location, hreg, hrem]
    have hr : lnk_reloc_is_against_removed obj reloc = true := by
      simp [lnk_reloc_is_against_removed, hreg, hrem]
    refine ⟨?_, ?_, ?_⟩
    · unfold lnk_obj_reloc_patch_reloc
      simp only [hloc]
      split_ifs <;> rfl
    · unfold lnk_obj_reloc_patch_reloc
      simp only [hloc]
      split_ifs <;> rfl
    · rw [lnk_obj_reloc_patch_reloc_error_count, hr]
      by_cases hd : lnk_is_coff_section_debug obj sect_idx = true
      · simp [hd]
      · have hd' : lnk_is_coff_section_debug obj sect_idx = false := by simpa using hd
        simp [hd']
  · intro pick task objs task_id image_data errors
    unfold lnk_obj_reloc_patcher lnk_relocs_against_removed_count
    exact lnk_obj_reloc_patch_sections_error_count pick task task_id
      (lnk_obj_from_ptr objs task_id) _ _
  · intro pick task objs task_id image_data errors hin
    unfold lnk_obj_reloc_patcher
    exact lnk_obj_reloc_patch_sections_frame pick task task_id (lnk_obj_from_ptr objs task_id)
      image_data (lnk_obj_from_ptr objs task_id).data _ _
      (fun s hs => List.mem_range.1 hs) rfl rfl
      (fun s hs => hin s (List.mem_range.1 hs))

/-- Scenario of C17. One relocation against the symbol of the removed section, in a section
that is not a debug section: the image is untouched and one error is recorded. One `ADDR64`
relocation at the offset 4 of the section of 16 bytes at the offset 0 of an image of 32 bytes:
the site lies inside the section, and the byte at the offset 20 of the image, behind the
section, keeps its value. -/
theorem C17_reloc_against_removed_witness :
    (lnk_obj_reloc_patch_reloc fixture_pick_reloc_value ⟨0x140000000, [0, 0x1000]⟩ 0
        (fixture_reloc_obj 0x1000 false [⟨4, 1, 1⟩]) 0
        { flags := 0, foff := 0, fsize := 16, voff := 0x1000 }
        ⟨List.replicate 16 0, [], []⟩ ⟨4, 1, 1⟩).image_data = List.replicate 16 0
    ∧ lnk_error_count .Error_RelocationAgainstRemovedSection
        (lnk_obj_reloc_patch_reloc fixture_pick_reloc_value ⟨0x140000000, [0, 0x1000]⟩ 0
          (fixture_reloc_obj 0x1000 false [⟨4, 1, 1⟩]) 0
          { flags := 0, foff := 0, fsize := 16, voff := 0x1000 }
          ⟨List.replicate 16 0, [], []⟩ ⟨4, 1, 1⟩).errors = 1
    ∧ (lnk_obj_reloc_patcher fixture_pick_reloc_value ⟨0x140000000, [0, 0x1000]⟩
        [fixture_reloc_obj 0x1000 false [⟨4, 0, COFF_Reloc_X64_Addr64⟩]] 0
        (List.replicate 32 0) []).image_data.getD 20 0 = (List.replicate 32 0).getD 20 0 := by
  have h := C17_reloc_against_removed.1 fixture_pick_reloc_value ⟨0x140000000, [0, 0x1000]⟩ 0
    (fixture_reloc_obj 0x1000 false [⟨4, 1, 1⟩]) 0
    { flags := 0, foff := 0, fsize := 16, voff := 0x1000 } ⟨List.replicate 16 0, [], []⟩
    ⟨4, 1, 1⟩ (by decide) (by decide)
  have h2 := C17_reloc_against_removed.2.2.1 fixture_pick_reloc_value
    ⟨0x140000000, [0, 0x1000]⟩
    [fixture_reloc_obj 0x1000 false [⟨4, 0, COFF_Reloc_X64_Addr64⟩]] 0 (List.replicate 32 0) []
    (by
      intro sect_idx hs _ reloc hr loc errs _
      have hs0 : sect_idx = 0 := by
        have : sect_idx < 1 := hs
        omega
      subst hs0
      have hr0 : reloc = ⟨4, 0, COFF_Reloc_X64_Addr64⟩ := List.mem_singleton.1 hr
      subst hr0
      exact (by decide : 4 + 8 ≤ 16))
  refine ⟨h.1, h.2.2, h2.2.2.1 20 ?_⟩
  rintro ⟨sect_idx, hs, _, _, _, hlt⟩
  have hs0 : sect_idx = 0 := by
    have : sect_idx < 1 := hs
    omega
  subst hs0
  exact absurd hlt (by decide)

/-! ## Base relocations: the large-address-aware diagnostic and the one-relocation scenario -/

/-- C20, counterexample. An ADDR32 relocation at offset 0x2010 against a Regular symbol. In an
image that is not large-address-aware no diagnostic is recorded and the site enters the 32-bit
entries of page 0x2000; in a large-address-aware image the `LargeAddrAwareRequired` diagnostic
naming the symbol is recorded and the page receives no entry. -/
theorem C20_counterexample :
    lnk_emit_base_reloc 0x1000 false 0
        (fixture_reloc_obj 0x2000 false [⟨0x10, 0, COFF_Reloc_X64_Addr32⟩])
        { flags := 0, foff := 0, fsize := 16, voff := 0x2000 }
        { page_list := [], errors := [] } ⟨0x10, 0, COFF_Reloc_X64_Addr32⟩
      = { page_list := [{ voff := 0x2000, entries_addr32 := [0x2010], entries_addr64 := [] }],
          errors := [] }
    ∧ lnk_emit_base_reloc 0x1000 true 0
        (fixture_reloc_obj 0x2000 false [⟨0x10, 0, COFF_Reloc_X64_Addr32⟩])
        { flags := 0, foff := 0, fsize := 16, voff := 0x2000 }
        { page_list := [], errors := [] } ⟨0x10, 0, COFF_Reloc_X64_Addr32⟩
      = { page_list := [{ voff := 0x2000, entries_addr32 := [], entries_addr64 := [] }],
          errors := [{ code := .Error_LargeAddrAwareRequired, obj := some 0,
                       symbol := some "f" }] } := by
  decide

theorem lnk_base_reloc_page_present_iff (pages : List LNK_BaseRelocPage) (v : Nat) :
    lnk_base_reloc_page_present pages v = true ↔ ∃ p ∈ pages, p.voff = v := by
  simp [lnk_base_reloc_page_present]

theorem lnk_base_reloc_page_update_voffs (f : LNK_BaseRelocPage → LNK_BaseRelocPage)
    (hf : ∀ p, (f p).voff = p.voff) (v : Nat) (pages : List LNK_BaseRelocPage) :
    (lnk_base_reloc_page_update f v pages).map (fun p => p.voff)
      = pages.map (fun p => p.voff) := by
  induction pages with
  | nil => rfl
  | cons p rest ih =>
    by_cases h : p.voff = v
    · simp [lnk_base_reloc_page_update, h, hf]
    · simp [lnk_base_reloc_page_update, h, ih]

theorem lnk_base_reloc_page_update_eq_map (f : LNK_BaseRelocPage → LNK_BaseRelocPage) (v : Nat)
    (pages : List LNK_BaseRelocPage) (hnd : (pages.map (fun p => p.voff)).Nodup) :
    lnk_base_reloc_page_update f v pages
      = pages.map (fun p => if p.voff = v then f p else p) := by
  induction pages with
  | nil => rfl
  | cons p rest ih =>
    rw [List.map_cons, List.nodup_cons] at hnd
    by_cases h : p.voff = v
    · have hrest : rest.map (fun p => if p.voff = v then f p else p) = rest := by
        have : ∀ q ∈ rest, (if q.voff = v then f q else q) = q := by
          intro q hq
          have hne : q.voff ≠ v := by
            intro hqv
            apply hnd.1
            rw [h, ← hqv]
            exact List.mem_map_of_mem _ hq
          simp [hne]
        rw [List.map_congr_left this]
        simp
      simp [lnk_base_reloc_page_update, h, hrest]
    · simp [lnk_base_reloc_page_update, h, ih hnd.2]

theorem lnk_base_reloc_page_update_mem (f : LNK_BaseRelocPage → LNK_BaseRelocPage) (v : Nat)
    (pages : List LNK_BaseRelocPage) (hv : ∃ p ∈ pages, p.voff = v) :
    ∃ p0 ∈ pages, p0.voff = v ∧ f p0 ∈ lnk_base_reloc_page_update f v pages := by
  induction pages with
  | nil => obtain ⟨p, hp, _⟩ := hv; cases hp
  | cons p rest ih =>
    by_cases h : p.voff = v
    · exact ⟨p, List.mem_cons_self _ _, h, by simp [lnk_base_reloc_page_update, h]⟩
    · obtain ⟨q, hq, hqv⟩ := hv
      rcases List.mem_cons.1 hq with rfl | hq
      · exact absurd hqv h
      · obtain ⟨p0, hp0, hp0v, hmem⟩ := ih ⟨q, hq, hqv⟩
        exact ⟨p0, List.mem_cons_of_mem _ hp0, hp0v, by
          simp [lnk_base_reloc_page_update, h, hmem]⟩

/-- What `lnk_emit_base_reloc` does with an ADDR32 relocation of an X64 object against a symbol
that is not absolute. -/
theorem lnk_emit_base_reloc_addr32 (page_size : Nat) (is_large_addr_aware : Bool)
    (obj_ptr : Nat) (obj : LNK_Obj) (sect_header : COFF_SectionHeader)
    (st : LNK_BaseRelocEmitState) (r : COFF_Reloc)
    (hm : obj.machine = .X64) (ht : r.type = COFF_Reloc_X64_Addr32)
    (hs : coff_interp_from_parsed_symbol (lnk_parsed_symbol_from_coff_symbol_idx obj r.isymbol)
      ≠ .Abs) :
    lnk_emit_base_reloc page_size is_large_addr_aware obj_ptr obj sect_header st r
      = (let reloc_voff := (sect_header.voff + r.apply_off) % 2 ^ 32
         let page_voff := AlignDownPow2 reloc_voff page_size
         let page_list1 :=
           if lnk_base_reloc_page_present st.page_list page_voff then st.page_list
           else st.page_list ++ [{ voff := page_voff, entries_addr32 := [],
                                   entries_addr64 := [] }]
         if is_large_addr_aware then
           { page_list := page_list1,
             errors := st.errors ++
               [{ code := .Error_LargeAddrAwareRequired, obj := some obj_ptr,
                  symbol := some (lnk_parsed_symbol_from_coff_symbol_idx obj r.isymbol).name }] }
         else
           { page_list := lnk_base_reloc_page_update
               (fun p => { p with entries_addr32 := p.entries_addr32 ++ [reloc_voff] })
               page_voff page_list1,
             errors := st.errors }) := by
  simp only [lnk_emit_base_reloc, hm, ht]
  simp [hs]

/-- C20, amended. For an ADDR32 relocation of an X64 object against a symbol that is not
absolute, `lnk_emit_base_reloc` records the `LargeAddrAwareRequired` diagnostic, naming the
object and the target symbol, exactly when the image is large-address-aware, and then no page
receives an entry: every page afterwards is a page from before or the new, empty page of the
site. When the image is not large-address-aware the error table is unchanged and the page of
the site holds the site among its 32-bit entries. -/
theorem C20_addr32_diagnostic (page_size : Nat) (is_large_addr_aware : Bool)
    (obj_ptr : Nat) (obj : LNK_Obj) (sect_header : COFF_SectionHeader)
    (st : LNK_BaseRelocEmitState) (r : COFF_Reloc)
    (hm : obj.machine = .X64) (ht : r.type = COFF_Reloc_X64_Addr32)
    (hs : coff_interp_from_parsed_symbol (lnk_parsed_symbol_from_coff_symbol_idx obj r.isymbol)
      ≠ .Abs) :
    (is_large_addr_aware = true →
      (lnk_emit_base_reloc page_size is_large_addr_aware obj_ptr obj sect_header st r).errors
        = st.errors ++
            [{ code := .Error_LargeAddrAwareRequired, obj := some obj_ptr,
               symbol := some (lnk_parsed_symbol_from_coff_symbol_idx obj r.isymbol).name }]
      ∧ ∀ p ∈ (lnk_emit_base_reloc page_size is_large_addr_aware obj_ptr obj sect_header
            st r).page_list,
          p ∈ st.page_list
          ∨ p = { voff := AlignDownPow2 ((sect_header.voff + r.apply_off) % 2 ^ 32) page_size,
                  entries_addr32 := [], entries_addr64 := [] })
    ∧ (is_large_addr_aware = false →
      (lnk_emit_base_reloc page_size is_large_addr_aware obj_ptr obj sect_header st r).errors
        = st.errors
      ∧ ∃ p ∈ (lnk_emit_base_reloc page_size is_large_addr_aware obj_ptr obj sect_header
            st r).page_list,
          p.voff = AlignDownPow2 ((sect_header.voff + r.apply_off) % 2 ^ 32) page_size
          ∧ (sect_header.voff + r.apply_off) % 2 ^ 32 ∈ p.entries_addr32) := by
  rw [lnk_emit_base_reloc_addr32 page_size is_large_addr_aware obj_ptr obj sect_header st r
    hm ht hs]
  constructor
  · intro hl
    subst hl
    refine ⟨by simp, ?_⟩
    intro p hp
    simp only [if_true] at hp
    split at hp
    · exact Or.inl hp
    · rcases List.mem_append.1 hp with h | h
      · exact Or.inl h
      · exact Or.inr (List.mem_singleton.1 h)
  · intro hl
    subst hl
    refine ⟨by simp, ?_⟩
    simp only [Bool.false_eq_true, if_false]
    generalize hsite : (sect_header.voff + r.apply_off) % 2 ^ 32 = site
    generalize hpv : AlignDownPow2 site page_size = page_voff
    have hpres : ∃ p ∈ (if lnk_base_reloc_page_present st.page_list page_voff = true
        then st.page_list
        else st.page_list ++ [{ voff := page_voff, entries_addr32 := [],
                                entries_addr64 := [] }]), p.voff = page_voff := by
      by_cases hp : lnk_base_reloc_page_present st.page_list page_voff = true
      · rw [if_pos hp]
        exact (lnk_base_reloc_page_present_iff _ _).1 hp
      · rw [if_neg hp]
        exact ⟨_, List.mem_append_right _ (List.mem_singleton_self _), rfl⟩
    obtain ⟨p0, _, hp0v, hmem⟩ := lnk_base_reloc_page_update_mem
      (fun p => { p with entries_addr32 := p.entries_addr32 ++ [site] }) page_voff _ hpres
    exact ⟨_, hmem, hp0v, by simp⟩

/-- C20, witness: the relocation of `C20_counterexample` in an image that is not
large-address-aware. -/
theorem C20_addr32_diagnostic_witness :
    (lnk_emit_base_reloc 0x1000 false 0
        (fixture_reloc_obj 0x2000 false [⟨0x10, 0, COFF_Reloc_X64_Addr32⟩])
        { flags := 0, foff := 0, fsize := 16, voff := 0x2000 }
        { page_list := [], errors := [] } ⟨0x10, 0, COFF_Reloc_X64_Addr32⟩).errors = []
    ∧ ∃ p ∈ (lnk_emit_base_reloc 0x1000 false 0
        (fixture_reloc_obj 0x2000 false [⟨0x10, 0, COFF_Reloc_X64_Addr32⟩])
        { flags := 0, foff := 0, fsize := 16, voff := 0x2000 }
        { page_list := [], errors := [] } ⟨0x10, 0, COFF_Reloc_X64_Addr32⟩).page_list,
      p.voff = AlignDownPow2 ((0x2000 + 0x10) % 2 ^ 32) 0x1000
      ∧ (0x2000 + 0x10) % 2 ^ 32 ∈ p.entries_addr32 :=
  (C20_addr32_diagnostic 0x1000 false 0
    (fixture_reloc_obj 0x2000 false [⟨0x10, 0, COFF_Reloc_X64_Addr32⟩])
    { flags := 0, foff := 0, fsize := 16, voff := 0x2000 }
    { page_list := [], errors := [] } ⟨0x10, 0, COFF_Reloc_X64_Addr32⟩
    (by decide) (by decide) (by decide)).2 rfl

/-- C19, counterexample. One X64 object whose only relocation is an ADDR64 relocation at
offset 0x2010 against a Regular symbol, page size 0x1000, an image that is not
large-address-aware: the single block has page offset 0x2000 and the entries DIR64 at 0x10 and
one ABSOLUTE pad, and its block size field is 0xC, not 0x10. -/
theorem C19_counterexample :
    lnk_build_base_relocs 0x1000 0
        [fixture_reloc_obj 0x2000 false [⟨0x10, 0, COFF_Reloc_X64_Addr64⟩]] [(0, 1)] []
      = ([{ page_voff := 0x2000, block_size := 0xC,
            entries := [PE_BaseRelocMake PE_BaseRelocKind_DIR64 0x10,
                        PE_BaseRelocMake PE_BaseRelocKind_ABSOLUTE 0],
            buf_size := 0xC }], [])
    ∧ (((lnk_build_base_relocs 0x1000 0
        [fixture_reloc_obj 0x2000 false [⟨0x10, 0, COFF_Reloc_X64_Addr64⟩]] [(0, 1)] []).1.map
          (fun b => b.block_size)) ≠ [0x10]) := by
  decide

/-- C19, amended. For a single X64 object with one section, not flagged `LnkRemove`, whose only
relocation is an ADDR64 relocation at virtual offset 0x2010 against a symbol that is not
absolute, with page size 0x1000 and one worker, `lnk_build_base_relocs` returns exactly one
block: page offset 0x2000, one DIR64 entry with offset 0x10 followed by one ABSOLUTE pad entry,
block size field 0xC (header 8, one entry 2, one pad 2) in a buffer of 0xC bytes, and it
records no diagnostic, whatever the file characteristics. -/
theorem C19_single_dir64_block (file_characteristics : Nat) (obj : LNK_Obj)
    (sect_header : COFF_SectionHeader) (r : COFF_Reloc) (errors : List LNK_Error)
    (hm : obj.machine = .X64)
    (hsect : obj.section_table = [sect_header])
    (hflags : sect_header.flags &&& COFF_SectionFlag_LnkRemove = 0)
    (hrelocs : lnk_coff_reloc_info_from_section_number obj 1 = [r])
    (ht : r.type = COFF_Reloc_X64_Addr64)
    (hs : coff_interp_from_parsed_symbol (lnk_parsed_symbol_from_coff_symbol_idx obj r.isymbol)
      ≠ .Abs)
    (hvoff : (sect_header.voff + r.apply_off) % 2 ^ 32 = 0x2010) :
    lnk_build_base_relocs 0x1000 file_characteristics [obj] [(0, 1)] errors
      = ([{ page_voff := 0x2000, block_size := 0xC,
            entries := [PE_BaseRelocMake PE_BaseRelocKind_DIR64 0x10,
                        PE_BaseRelocMake PE_BaseRelocKind_ABSOLUTE 0],
            buf_size := 0xC }], errors) := by
  have hstep : ∀ laa : Bool,
      lnk_emit_base_reloc 0x1000 laa 0 obj sect_header { page_list := [], errors := errors } r
        = { page_list := [{ voff := 0x2000, entries_addr32 := [], entries_addr64 := [0x2010] }],
            errors := errors } := by
    intro laa
    have h64 : COFF_Reloc_X64_Addr64 ≠ COFF_Reloc_X64_Addr32 := by decide
    have hv : (sect_header.voff + r.apply_off) % 4294967296 = 8208 := hvoff
    simp only [lnk_emit_base_reloc, hm, ht]
    simp [hs, h64, hv, lnk_base_reloc_page_present, lnk_base_reloc_page_update,
      AlignDownPow2]
  have htask : ∀ laa : Bool,
      lnk_emit_base_relocs_from_objs_task 0x1000 laa [obj] (0, 1) errors
        = { page_list := [{ voff := 0x2000, entries_addr32 := [], entries_addr64 := [0x2010] }],
            errors := errors } := by
    intro laa
    simp [lnk_emit_base_relocs_from_objs_task, lnk_emit_base_relocs_from_obj,
      lnk_obj_from_ptr, hsect, List.range_succ, lnk_emit_base_relocs_from_section, hflags,
      hrelocs, hstep]
  simp only [lnk_build_base_relocs, List.foldl_cons, List.foldl_nil, htask]
  refine Prod.ext ?_ rfl
  show List.map lnk_base_reloc_serialize_page
      (lnk_base_reloc_page_sort [(⟨8192, [], [8208]⟩ : LNK_BaseRelocPage)])
    = [(⟨0x2000, 0xC, [PE_BaseRelocMake PE_BaseRelocKind_DIR64 0x10,
        PE_BaseRelocMake PE_BaseRelocKind_ABSOLUTE 0], 0xC⟩ : LNK_BaseRelocBlock)]
  decide

/-- C19, witness: the object of `C19_counterexample`. -/
theorem C19_single_dir64_block_witness :
    lnk_build_base_relocs 0x1000 0
        [fixture_reloc_obj 0x2000 false [⟨0x10, 0, COFF_Reloc_X64_Addr64⟩]] [(0, 1)] []
      = ([{ page_voff := 0x2000, block_size := 0xC,
            entries := [PE_BaseRelocMake PE_BaseRelocKind_DIR64 0x10,
                        PE_BaseRelocMake PE_BaseRelocKind_ABSOLUTE 0],
            buf_size := 0xC }], []) :=
  C19_single_dir64_block 0 (fixture_reloc_obj 0x2000 false [⟨0x10, 0, COFF_Reloc_X64_Addr64⟩])
    { flags := 0, foff := 0, fsize := 16, voff := 0x2000 } ⟨0x10, 0, COFF_Reloc_X64_Addr64⟩ []
    (by decide) (by decide) (by decide) (by decide) (by decide) (by decide) (by decide)

/-! ## Base relocations: the page lists -/

theorem lnk_base_reloc_pages_inv_congr (page_size : Nat) (pages : List LNK_BaseRelocPage)
    (S T : Bool → Nat → Prop) (h : ∀ b s, S b s ↔ T b s)
    (hinv : lnk_base_reloc_pages_inv page_size pages S) :
    lnk_base_reloc_pages_inv page_size pages T := by
  have : S = T := by
    funext b s
    exact propext (h b s)
  rw [← this]
  exact hinv

theorem lnk_base_reloc_pages_inv_perm (page_size : Nat) (pages pages' : List LNK_BaseRelocPage)
    (S : Bool → Nat → Prop) (hperm : pages'.Perm pages)
    (hinv : lnk_base_reloc_pages_inv page_size pages S) :
    lnk_base_reloc_pages_inv page_size pages' S := by
  obtain ⟨h1, h2, h3, h4, h5⟩ := hinv
  refine ⟨?_, ?_, ?_, ?_, ?_⟩
  · exact ((hperm.map _).nodup_iff).2 h1
  · intro p hp
    exact h2 p (hperm.mem_iff.1 hp)
  · intro p hp
    exact h3 p (hperm.mem_iff.1 hp)
  · intro p hp
    exact h4 p (hperm.mem_iff.1 hp)
  · intro b s hs
    obtain ⟨p, hp, hpv⟩ := h5 b s hs
    exact ⟨p, hperm.mem_iff.2 hp, hpv⟩

theorem lnk_base_reloc_pages_inv_nil (page_size : Nat) :
    lnk_base_reloc_pages_inv page_size [] (fun _ _ => False) := by
  refine ⟨List.nodup_nil, ?_, ?_, ?_, ?_⟩
  · intro p hp; cases hp
  · intro p hp; cases hp
  · intro p hp; cases hp
  · intro b s hs; exact hs.elim

/-- Appending a page whose offset is not registered. -/
theorem lnk_base_reloc_pages_inv_append (page_size : Nat) (pages : List LNK_BaseRelocPage)
    (S : Bool → Nat → Prop) (v : Nat) (a32 a64 : List Nat)
    (hinv : lnk_base_reloc_pages_inv page_size pages S)
    (hv : ¬ ∃ p ∈ pages, p.voff = v) (hlt : v < 2 ^ 32)
    (h32 : ∀ s ∈ a32, AlignDownPow2 s page_size = v)
    (h64 : ∀ s ∈ a64, AlignDownPow2 s page_size = v) :
    lnk_base_reloc_pages_inv page_size
      (pages ++ [{ voff := v, entries_addr32 := a32, entries_addr64 := a64 }])
      (fun b s => S b s ∨ lnk_base_reloc_contrib a32 a64 b s) := by
  obtain ⟨h1, h2, h3, h4, h5⟩ := hinv
  have hnot : ∀ b s, S b s → AlignDownPow2 s page_size ≠ v := by
    intro b s hs heq
    obtain ⟨p, hp, hpv⟩ := h5 b s hs
    exact hv ⟨p, hp, by rw [hpv, heq]⟩
  refine ⟨?_, ?_, ?_, ?_, ?_⟩
  · rw [List.map_append, List.nodup_append]
    refine ⟨h1, by simp, ?_⟩
    intro x hx hx'
    simp only [List.map_cons, List.map_nil, List.mem_singleton] at hx'
    obtain ⟨p, hp, hpv⟩ := List.mem_map.1 hx
    exact hv ⟨p, hp, by rw [hpv, hx']⟩
  · intro p hp
    rcases List.mem_append.1 hp with hp | hp
    · exact h2 p hp
    · rw [List.mem_singleton.1 hp]; exact hlt
  · intro p hp s
    rcases List.mem_append.1 hp with hp | hp
    · rw [h3 p hp s]
      constructor
      · rintro ⟨hs, hf⟩
        exact ⟨Or.inl hs, hf⟩
      · rintro ⟨hs | hs, hf⟩
        · exact ⟨hs, hf⟩
        · rcases hs with ⟨_, hs⟩ | ⟨hb, _⟩
          · exact absurd ⟨p, hp, by rw [← hf, h32 s hs]⟩ hv
          · cases hb
    · rw [List.mem_singleton.1 hp]
      constructor
      · intro hs
        exact ⟨Or.inr (Or.inl ⟨rfl, hs⟩), h32 s hs⟩
      · rintro ⟨hs | hs, hf⟩
        · exact absurd hf (hnot _ _ hs)
        · rcases hs with ⟨_, hs⟩ | ⟨hb, _⟩
          · exact hs
          · cases hb
  · intro p hp s
    rcases List.mem_append.1 hp with hp | hp
    · rw [h4 p hp s]
      constructor
      · rintro ⟨hs, hf⟩
        exact ⟨Or.inl hs, hf⟩
      · rintro ⟨hs | hs, hf⟩
        · exact ⟨hs, hf⟩
        · rcases hs with ⟨hb, _⟩ | ⟨_, hs⟩
          · cases hb
          · exact absurd ⟨p, hp, by rw [← hf, h64 s hs]⟩ hv
    · rw [List.mem_singleton.1 hp]
      constructor
      · intro hs
        exact ⟨Or.inr (Or.inr ⟨rfl, hs⟩), h64 s hs⟩
      · rintro ⟨hs | hs, hf⟩
        · exact absurd hf (hnot _ _ hs)
        · rcases hs with ⟨hb, _⟩ | ⟨_, hs⟩
          · cases hb
          · exact hs
  · intro b s hs
    rcases hs with hs | hs
    · obtain ⟨p, hp, hpv⟩ := h5 b s hs
      exact ⟨p, List.mem_append_left _ hp, hpv⟩
    · refine ⟨_, List.mem_append_right _ (List.mem_singleton_self _), ?_⟩
      rcases hs with ⟨_, hs⟩ | ⟨_, hs⟩
      · exact (h32 s hs).symm
      · exact (h64 s hs).symm

/-- Appending sites to the registered page of their offset. -/
theorem lnk_base_reloc_pages_inv_update (page_size : Nat) (pages : List LNK_BaseRelocPage)
    (S : Bool → Nat → Prop) (v : Nat) (a32 a64 : List Nat)
    (hinv : lnk_base_reloc_pages_inv page_size pages S)
    (hv : ∃ p ∈ pages, p.voff = v)
    (h32 : ∀ s ∈ a32, AlignDownPow2 s page_size = v)
    (h64 : ∀ s ∈ a64, AlignDownPow2 s page_size = v) :
    lnk_base_reloc_pages_inv page_size
      (lnk_base_reloc_page_update
        (fun page => { page with
          entries_addr32 := page.entries_addr32 ++ a32,
          entries_addr64 := page.entries_addr64 ++ a64 }) v pages)
      (fun b s => S b s ∨ lnk_base_reloc_contrib a32 a64 b s) := by
  obtain ⟨h1, h2, h3, h4, h5⟩ := hinv
  have hvoffs := lnk_base_reloc_page_update_voffs
    (fun page => { page with
      entries_addr32 := page.entries_addr32 ++ a32,
      entries_addr64 := page.entries_addr64 ++ a64 }) (fun _ => rfl) v pages
  have hmem : ∀ q, q ∈ lnk_base_reloc_page_update
      (fun page => { page with
        entries_addr32 := page.entries_addr32 ++ a32,
        entries_addr64 := page.entries_addr64 ++ a64 }) v pages →
      ∃ p ∈ pages, q.voff = p.voff ∧
        ((p.voff = v ∧ q.entries_addr32 = p.entries_addr32 ++ a32
            ∧ q.entries_addr64 = p.entries_addr64 ++ a64)
         ∨ (p.voff ≠ v ∧ q = p)) := by
    intro q hq
    rw [lnk_base_reloc_page_update_eq_map _ _ _ h1] at hq
    obtain ⟨p, hp, hpq⟩ := List.mem_map.1 hq
    refine ⟨p, hp, ?_⟩
    by_cases hpv : p.voff = v
    · rw [if_pos hpv] at hpq
      subst hpq
      exact ⟨rfl, Or.inl ⟨hpv, rfl, rfl⟩⟩
    · rw [if_neg hpv] at hpq
      subst hpq
      exact ⟨rfl, Or.inr ⟨hpv, rfl⟩⟩
  refine ⟨?_, ?_, ?_, ?_, ?_⟩
  · rw [hvoffs]; exact h1
  · intro q hq
    obtain ⟨p, hp, hqv, _⟩ := hmem q hq
    rw [hqv]; exact h2 p hp
  · intro q hq s
    obtain ⟨p, hp, hqv, hcase⟩ := hmem q hq
    rcases hcase with ⟨hpv, he32, _⟩ | ⟨hpv, hqp⟩
    · rw [he32, List.mem_append, h3 p hp s, hqv]
      constructor
      · rintro (⟨hs, hf⟩ | hs)
        · exact ⟨Or.inl hs, hf⟩
        · exact ⟨Or.inr (Or.inl ⟨rfl, hs⟩), by rw [h32 s hs, hpv]⟩
      · rintro ⟨hs | hs, hf⟩
        · exact Or.inl ⟨hs, hf⟩
        · rcases hs with ⟨_, hs⟩ | ⟨hb, _⟩
          · exact Or.inr hs
          · cases hb
    · subst hqp
      rw [h3 q hp s]
      constructor
      · rintro ⟨hs, hf⟩
        exact ⟨Or.inl hs, hf⟩
      · rintro ⟨hs | hs, hf⟩
        · exact ⟨hs, hf⟩
        · rcases hs with ⟨_, hs⟩ | ⟨hb, _⟩
          · exact absurd (by rw [← hf, h32 s hs]) hpv
          · cases hb
  · intro q hq s
    obtain ⟨p, hp, hqv, hcase⟩ := hmem q hq
    rcases hcase with ⟨hpv, _, he64⟩ | ⟨hpv, hqp⟩
    · rw [he64, List.mem_append, h4 p hp s, hqv]
      constructor
      · rintro (⟨hs, hf⟩ | hs)
        · exact ⟨Or.inl hs, hf⟩
        · exact ⟨Or.inr (Or.inr ⟨rfl, hs⟩), by rw [h64 s hs, hpv]⟩
      · rintro ⟨hs | hs, hf⟩
        · exact Or.inl ⟨hs, hf⟩
        · rcases hs with ⟨hb, _⟩ | ⟨_, hs⟩
          · cases hb
          · exact Or.inr hs
    · subst hqp
      rw [h4 q hp s]
      constructor
      · rintro ⟨hs, hf⟩
        exact ⟨Or.inl hs, hf⟩
      · rintro ⟨hs | hs, hf⟩
        · exact ⟨hs, hf⟩
        · rcases hs with ⟨hb, _⟩ | ⟨_, hs⟩
          · cases hb
          · exact absurd (by rw [← hf, h64 s hs]) hpv
  · intro b s hs
    have hex : ∃ p ∈ pages, p.voff = AlignDownPow2 s page_size := by
      rcases hs with hs | hs
      · exact h5 b s hs
      · obtain ⟨p, hp, hpv⟩ := hv
        refine ⟨p, hp, ?_⟩
        rcases hs with ⟨_, hs⟩ | ⟨_, hs⟩
        · rw [hpv, h32 s hs]
        · rw [hpv, h64 s hs]
    obtain ⟨p, hp, hpv⟩ := hex
    have : p.voff ∈ (lnk_base_reloc_page_update
        (fun page => { page with
          entries_addr32 := page.entries_addr32 ++ a32,
          entries_addr64 := page.entries_addr64 ++ a64 }) v pages).map (fun p => p.voff) := by
      rw [hvoffs]; exact List.mem_map_of_mem _ hp
    obtain ⟨q, hq, hqv⟩ := List.mem_map.1 this
    exact ⟨q, hq, by rw [hqv, hpv]⟩

theorem AlignDownPow2_le (x b : Nat) : AlignDownPow2 x b ≤ x :=
  Nat.div_mul_le_self x b

theorem lnk_base_reloc_contrib_nil (b : Bool) (s : Nat) :
    ¬ lnk_base_reloc_contrib [] [] b s := by
  simp [lnk_base_reloc_contrib]

/-- The lookup of a page, with creation of an empty page when the offset is not registered. -/
theorem lnk_base_reloc_pages_inv_find_or_add (page_size : Nat)
    (pages : List LNK_BaseRelocPage) (S : Bool → Nat → Prop) (v : Nat)
    (hinv : lnk_base_reloc_pages_inv page_size pages S) (hlt : v < 2 ^ 32) :
    lnk_base_reloc_pages_inv page_size
      (if lnk_base_reloc_page_present pages v = true then pages
       else pages ++ [{ voff := v, entries_addr32 := [], entries_addr64 := [] }]) S
    ∧ ∃ p ∈ (if lnk_base_reloc_page_present pages v = true then pages
       else pages ++ [{ voff := v, entries_addr32 := [], entries_addr64 := [] }]),
       p.voff = v := by
  by_cases hp : lnk_base_reloc_page_present pages v = true
  · rw [if_pos hp]
    exact ⟨hinv, (lnk_base_reloc_page_present_iff _ _).1 hp⟩
  · rw [if_neg hp]
    refine ⟨?_, _, List.mem_append_right _ (List.mem_singleton_self _), rfl⟩
    have hv : ¬ ∃ p ∈ pages, p.voff = v := fun h =>
      hp ((lnk_base_reloc_page_present_iff _ _).2 h)
    refine lnk_base_reloc_pages_inv_congr page_size _ _ S ?_
      (lnk_base_reloc_pages_inv_append page_size pages S v [] [] hinv hv hlt
        (by intro s hs; cases hs) (by intro s hs; cases hs))
    intro b s
    constructor
    · rintro (h | h)
      · exact h
      · exact absurd h (lnk_base_reloc_contrib_nil b s)
    · exact Or.inl

/-- What `lnk_emit_base_reloc` does with an ADDR64 relocation of an X64 object against a symbol
that is not absolute. -/
theorem lnk_emit_base_reloc_addr64 (page_size : Nat) (is_large_addr_aware : Bool)
    (obj_ptr : Nat) (obj : LNK_Obj) (sect_header : COFF_SectionHeader)
    (st : LNK_BaseRelocEmitState) (r : COFF_Reloc)
    (hm : obj.machine = .X64) (ht : r.type = COFF_Reloc_X64_Addr64)
    (hs : coff_interp_from_parsed_symbol (lnk_parsed_symbol_from_coff_symbol_idx obj r.isymbol)
      ≠ .Abs) :
    lnk_emit_base_reloc page_size is_large_addr_aware obj_ptr obj sect_header st r
      = { page_list := lnk_base_reloc_page_update
            (fun p => { p with entries_addr64 := p.entries_addr64 ++
              [(sect_header.voff + r.apply_off) % 2 ^ 32] })
            (AlignDownPow2 ((sect_header.voff + r.apply_off) % 2 ^ 32) page_size)
            (if lnk_base_reloc_page_present st.page_list
                (AlignDownPow2 ((sect_header.voff + r.apply_off) % 2 ^ 32) page_size) = true
             then st.page_list
             else st.page_list ++
               [{ voff := AlignDownPow2 ((sect_header.voff + r.apply_off) % 2 ^ 32) page_size,
                  entries_addr32 := [], entries_addr64 := [] }]),
          errors := st.errors } := by
  have h64 : COFF_Reloc_X64_Addr64 ≠ COFF_Reloc_X64_Addr32 := by decide
  simp only [lnk_emit_base_reloc, hm, ht]
  simp [hs, h64]

/-- A relocation that is no ADDR32 or ADDR64 relocation of an X64 object against a symbol that
is not absolute leaves the page list as it is. -/
theorem lnk_emit_base_reloc_other (page_size : Nat) (is_large_addr_aware : Bool)
    (obj_ptr : Nat) (obj : LNK_Obj) (sect_header : COFF_SectionHeader)
    (st : LNK_BaseRelocEmitState) (r : COFF_Reloc)
    (h : ¬ (obj.machine = .X64
      ∧ coff_interp_from_parsed_symbol (lnk_parsed_symbol_from_coff_symbol_idx obj r.isymbol)
          ≠ .Abs
      ∧ (r.type = COFF_Reloc_X64_Addr32 ∨ r.type = COFF_Reloc_X64_Addr64))) :
    (lnk_emit_base_reloc page_size is_large_addr_aware obj_ptr obj sect_header st r).page_list
      = st.page_list := by
  by_cases hs : coff_interp_from_parsed_symbol
      (lnk_parsed_symbol_from_coff_symbol_idx obj r.isymbol) = .Abs
  · simp [lnk_emit_base_reloc, hs]
  · cases hm : obj.machine with
    | Unknown => simp [lnk_emit_base_reloc, hs, hm]
    | Other => simp [lnk_emit_base_reloc, hs, hm]
    | X64 =>
      have h32 : r.type ≠ COFF_Reloc_X64_Addr32 := fun e => h ⟨hm, hs, Or.inl e⟩
      have h64 : r.type ≠ COFF_Reloc_X64_Addr64 := fun e => h ⟨hm, hs, Or.inr e⟩
      simp [lnk_emit_base_reloc, hs, hm, h32, h64]

/-- One step of the relocation loop keeps the invariant of the page list. -/
theorem lnk_emit_base_reloc_inv (page_size : Nat) (is_large_addr_aware : Bool)
    (obj_ptr : Nat) (obj : LNK_Obj) (sect_header : COFF_SectionHeader)
    (st : LNK_BaseRelocEmitState) (r : COFF_Reloc) (S : Bool → Nat → Prop)
    (hinv : lnk_base_reloc_pages_inv page_size st.page_list S) :
    lnk_base_reloc_pages_inv page_size
      (lnk_emit_base_reloc page_size is_large_addr_aware obj_ptr obj sect_header st r).page_list
      (fun b s => S b s
        ∨ lnk_reloc_base_reloc_site is_large_addr_aware obj sect_header r b s) := by
  have h3264 : COFF_Reloc_X64_Addr32 ≠ COFF_Reloc_X64_Addr64 := by decide
  by_cases h : obj.machine = .X64
      ∧ coff_interp_from_parsed_symbol (lnk_parsed_symbol_from_coff_symbol_idx obj r.isymbol)
          ≠ .Abs
      ∧ (r.type = COFF_Reloc_X64_Addr32 ∨ r.type = COFF_Reloc_X64_Addr64)
  · obtain ⟨hm, hs, ht⟩ := h
    generalize hsite : (sect_header.voff + r.apply_off) % 2 ^ 32 = site
    have hsite_lt : site < 2 ^ 32 := by rw [← hsite]; exact Nat.mod_lt _ (by norm_num)
    have hv_lt : AlignDownPow2 site page_size < 2 ^ 32 :=
      lt_of_le_of_lt (AlignDownPow2_le _ _) hsite_lt
    obtain ⟨hinv1, hpres⟩ := lnk_base_reloc_pages_inv_find_or_add page_size st.page_list S
      (AlignDownPow2 site page_size) hinv hv_lt
    rcases ht with ht | ht
    · rw [lnk_emit_base_reloc_addr32 page_size is_large_addr_aware obj_ptr obj sect_header st r
        hm ht hs]
      simp only [hsite]
      cases is_large_addr_aware with
      | true =>
        simp only [if_true]
        refine lnk_base_reloc_pages_inv_congr page_size _ _ _ ?_ hinv1
        intro b s
        constructor
        · exact Or.inl
        · rintro (hS | ⟨_, _, htb, _, hl⟩)
          · exact hS
          · cases b with
            | true => exact absurd (hl rfl) (by decide)
            | false =>
              rw [ht] at htb
              exact absurd htb h3264
      | false =>
        simp only [Bool.false_eq_true, if_false]
        have hf : (fun p : LNK_BaseRelocPage =>
            ({ p with entries_addr32 := p.entries_addr32 ++ [site] } : LNK_BaseRelocPage))
            = (fun page => { page with
                entries_addr32 := page.entries_addr32 ++ [site],
                entries_addr64 := page.entries_addr64 ++ [] }) := by
          funext p
          simp
        rw [hf]
        refine lnk_base_reloc_pages_inv_congr page_size _ _ _ ?_
          (lnk_base_reloc_pages_inv_update page_size _ S (AlignDownPow2 site page_size)
            [site] [] hinv1 hpres
            (by intro s hs; rw [List.mem_singleton.1 hs])
            (by intro s hs; cases hs))
        intro b s
        constructor
        · rintro (hS | hc)
          · exact Or.inl hS
          · rcases hc with ⟨hb, hs'⟩ | ⟨_, hs'⟩
            · refine Or.inr ⟨hm, hs, ?_, ?_, fun _ => rfl⟩
              · rw [hb]; exact ht
              · rw [hsite]; exact List.mem_singleton.1 hs'
            · cases hs'
        · rintro (hS | ⟨_, _, htb, hs', _⟩)
          · exact Or.inl hS
          · cases b with
            | true =>
              refine Or.inr (Or.inl ⟨rfl, ?_⟩)
              rw [hs', hsite]
              exact List.mem_singleton_self _
            | false =>
              rw [ht] at htb
              exact absurd htb h3264
    · rw [lnk_emit_base_reloc_addr64 page_size is_large_addr_aware obj_ptr obj sect_header st r
        hm ht hs]
      simp only [hsite]
      have hf : (fun p : LNK_BaseRelocPage =>
          ({ p with entries_addr64 := p.entries_addr64 ++ [site] } : LNK_BaseRelocPage))
          = (fun page => { page with
              entries_addr32 := page.entries_addr32 ++ [],
              entries_addr64 := page.entries_addr64 ++ [site] }) := by
        funext p
        simp
      rw [hf]
      refine lnk_base_reloc_pages_inv_congr page_size _ _ _ ?_
        (lnk_base_reloc_pages_inv_update page_size _ S (AlignDownPow2 site page_size)
          [] [site] hinv1 hpres
          (by intro s hs; cases hs)
          (by intro s hs; rw [List.mem_singleton.1 hs]))
      intro b s
      constructor
      · rintro (hS | hc)
        · exact Or.inl hS
        · rcases hc with ⟨_, hs'⟩ | ⟨hb, hs'⟩
          · cases hs'
          · refine Or.inr ⟨hm, hs, ?_, ?_, ?_⟩
            · rw [hb]; exact ht
            · rw [hsite]; exact List.mem_singleton.1 hs'
            · intro hbt; rw [hb] at hbt; cases hbt
      · rintro (hS | ⟨_, _, htb, hs', _⟩)
        · exact Or.inl hS
        · cases b with
          | true =>
            rw [ht] at htb
            exact absurd htb.symm h3264
          | false =>
            refine Or.inr (Or.inr ⟨rfl, ?_⟩)
            rw [hs', hsite]
            exact List.mem_singleton_self _
  · rw [lnk_emit_base_reloc_other page_size is_large_addr_aware obj_ptr obj sect_header st r h]
    refine lnk_base_reloc_pages_inv_congr page_size _ _ _ ?_ hinv
    intro b s
    constructor
    · exact Or.inl
    · rintro (hS | ⟨hm, hs, htb, _, _⟩)
      · exact hS
      · refine absurd ⟨hm, hs, ?_⟩ h
        cases b with
        | true => exact Or.inl htb
        | false => exact Or.inr htb

/-- A loop whose steps keep the invariant of the page list keeps it, and hands over the sites of
all its steps. -/
theorem lnk_base_reloc_fold_inv {α σ : Type} (page_size : Nat)
    (proj : σ → List LNK_BaseRelocPage) (step : σ → α → σ) (C : α → Bool → Nat → Prop)
    (xs : List α)
    (hstep : ∀ x ∈ xs, ∀ st S, lnk_base_reloc_pages_inv page_size (proj st) S →
      lnk_base_reloc_pages_inv page_size (proj (step st x)) (fun b s => S b s ∨ C x b s)) :
    ∀ st S, lnk_base_reloc_pages_inv page_size (proj st) S →
      lnk_base_reloc_pages_inv page_size (proj (xs.foldl step st))
        (fun b s => S b s ∨ ∃ x ∈ xs, C x b s) := by
  induction xs with
  | nil =>
    intro st S hinv
    refine lnk_base_reloc_pages_inv_congr page_size _ _ _ ?_ hinv
    intro b s
    simp
  | cons x rest ih =>
    intro st S hinv
    rw [List.foldl_cons]
    have h1 := hstep x (List.mem_cons_self _ _) st S hinv
    have h2 := ih (fun y hy => hstep y (List.mem_cons_of_mem _ hy)) (step st x) _ h1
    refine lnk_base_reloc_pages_inv_congr page_size _ _ _ ?_ h2
    intro b s
    constructor
    · rintro ((hS | hC) | ⟨y, hy, hC⟩)
      · exact Or.inl hS
      · exact Or.inr ⟨x, List.mem_cons_self _ _, hC⟩
      · exact Or.inr ⟨y, List.mem_cons_of_mem _ hy, hC⟩
    · rintro (hS | ⟨y, hy, hC⟩)
      · exact Or.inl (Or.inl hS)
      · rcases List.mem_cons.1 hy with rfl | hy
        · exact Or.inl (Or.inr hC)
        · exact Or.inr ⟨y, hy, hC⟩

/-- The section loop keeps the invariant of the page list. -/
theorem lnk_emit_base_relocs_from_section_inv (page_size : Nat) (is_large_addr_aware : Bool)
    (obj_ptr : Nat) (obj : LNK_Obj) (st : LNK_BaseRelocEmitState) (sect_idx : Nat)
    (S : Bool → Nat → Prop)
    (hinv : lnk_base_reloc_pages_inv page_size st.page_list S) :
    lnk_base_reloc_pages_inv page_size
      (lnk_emit_base_relocs_from_section page_size is_large_addr_aware obj_ptr obj st
        sect_idx).page_list
      (fun b s => S b s
        ∨ ((obj.section_table.getD sect_idx { flags := 0, foff := 0, fsize := 0 }).flags
              &&& COFF_SectionFlag_LnkRemove = 0
            ∧ ∃ r ∈ lnk_coff_reloc_info_from_section_number obj (sect_idx + 1),
                lnk_reloc_base_reloc_site is_large_addr_aware obj
                  (obj.section_table.getD sect_idx { flags := 0, foff := 0, fsize := 0 })
                  r b s)) := by
  by_cases hrem : (obj.section_table.getD sect_idx { flags := 0, foff := 0, fsize := 0 }).flags
      &&& COFF_SectionFlag_LnkRemove = 0
  · have hfold := lnk_base_reloc_fold_inv page_size (fun st => st.page_list)
      (lnk_emit_base_reloc page_size is_large_addr_aware obj_ptr obj
        (obj.section_table.getD sect_idx { flags := 0, foff := 0, fsize := 0 }))
      (fun r => lnk_reloc_base_reloc_site is_large_addr_aware obj
        (obj.section_table.getD sect_idx { flags := 0, foff := 0, fsize := 0 }) r)
      (lnk_coff_reloc_info_from_section_number obj (sect_idx + 1))
      (fun r _ st S h => lnk_emit_base_reloc_inv page_size is_large_addr_aware obj_ptr obj _
        st r S h)
      st S hinv
    have heq : lnk_emit_base_relocs_from_section page_size is_large_addr_aware obj_ptr obj st
        sect_idx
        = (lnk_coff_reloc_info_from_section_number obj (sect_idx + 1)).foldl
            (lnk_emit_base_reloc page_size is_large_addr_aware obj_ptr obj
              (obj.section_table.getD sect_idx { flags := 0, foff := 0, fsize := 0 })) st := by
      simp only [lnk_emit_base_relocs_from_section]
      rw [if_neg (not_not.2 hrem)]
    rw [heq]
    refine lnk_base_reloc_pages_inv_congr page_size _ _ _ ?_ hfold
    intro b s
    constructor
    · rintro (hS | hC)
      · exact Or.inl hS
      · exact Or.inr ⟨hrem, hC⟩
    · rintro (hS | ⟨_, hC⟩)
      · exact Or.inl hS
      · exact Or.inr hC
  · have heq : lnk_emit_base_relocs_from_section page_size is_large_addr_aware obj_ptr obj st
        sect_idx = st := by
      simp only [lnk_emit_base_relocs_from_section]
      rw [if_pos hrem]
    rw [heq]
    refine lnk_base_reloc_pages_inv_congr page_size _ _ _ ?_ hinv
    intro b s
    constructor
    · exact Or.inl
    · rintro (hS | ⟨h0, _⟩)
      · exact hS
      · exact absurd h0 hrem

/-- The object loop keeps the invariant of the page list and hands over the sites of the
object. -/
theorem lnk_emit_base_relocs_from_obj_inv (page_size : Nat) (is_large_addr_aware : Bool)
    (objs : List LNK_Obj) (st : LNK_BaseRelocEmitState) (obj_idx : Nat)
    (S : Bool → Nat → Prop)
    (hinv : lnk_base_reloc_pages_inv page_size st.page_list S) :
    lnk_base_reloc_pages_inv page_size
      (lnk_emit_base_relocs_from_obj page_size is_large_addr_aware objs st obj_idx).page_list
      (fun b s => S b s
        ∨ (lnk_obj_base_reloc_site (lnk_obj_from_ptr objs obj_idx) b s
            ∧ (b = true → is_large_addr_aware = false))) := by
  have hfold := lnk_base_reloc_fold_inv page_size (fun st => st.page_list)
    (lnk_emit_base_relocs_from_section page_size is_large_addr_aware obj_idx
      (lnk_obj_from_ptr objs obj_idx))
    (fun sect_idx b s =>
      ((lnk_obj_from_ptr objs obj_idx).section_table.getD sect_idx
          { flags := 0, foff := 0, fsize := 0 }).flags &&& COFF_SectionFlag_LnkRemove = 0
      ∧ ∃ r ∈ lnk_coff_reloc_info_from_section_number (lnk_obj_from_ptr objs obj_idx)
            (sect_idx + 1),
          lnk_reloc_base_reloc_site is_large_addr_aware (lnk_obj_from_ptr objs obj_idx)
            ((lnk_obj_from_ptr objs obj_idx).section_table.getD sect_idx
              { flags := 0, foff := 0, fsize := 0 }) r b s)
    (List.range (lnk_obj_from_ptr objs obj_idx).section_table.length)
    (fun sect_idx _ st S h => lnk_emit_base_relocs_from_section_inv page_size
      is_large_addr_aware obj_idx (lnk_obj_from_ptr objs obj_idx) st sect_idx S h)
    st S hinv
  refine lnk_base_reloc_pages_inv_congr page_size _ _ _ ?_ hfold
  intro b s
  constructor
  · rintro (hS | ⟨sect_idx, hmem, hrem, r, hr, hm, hs, ht, hsite, hl⟩)
    · exact Or.inl hS
    · exact Or.inr ⟨⟨hm, sect_idx, List.mem_range.1 hmem, hrem, r, hr, hs, ht, hsite⟩, hl⟩
  · rintro (hS | ⟨⟨hm, sect_idx, hlt, hrem, r, hr, hs, ht, hsite⟩, hl⟩)
    · exact Or.inl hS
    · exact Or.inr ⟨sect_idx, List.mem_range.2 hlt, hrem, r, hr, hm, hs, ht, hsite, hl⟩

/-- The page list of a worker holds exactly the sites of the objects of its range. -/
theorem lnk_emit_base_relocs_from_objs_task_inv (page_size : Nat) (is_large_addr_aware : Bool)
    (objs : List LNK_Obj) (range : Nat × Nat) (errors : List LNK_Error) :
    lnk_base_reloc_pages_inv page_size
      (lnk_emit_base_relocs_from_objs_task page_size is_large_addr_aware objs range
        errors).page_list
      (fun b s => ∃ i, range.1 ≤ i ∧ i < range.2
        ∧ lnk_obj_base_reloc_site (lnk_obj_from_ptr objs i) b s
        ∧ (b = true → is_large_addr_aware = false)) := by
  have hfold := lnk_base_reloc_fold_inv page_size (fun st => st.page_list)
    (lnk_emit_base_relocs_from_obj page_size is_large_addr_aware objs)
    (fun i b s => lnk_obj_base_reloc_site (lnk_obj_from_ptr objs i) b s
      ∧ (b = true → is_large_addr_aware = false))
    ((List.range (range.2 - range.1)).map (fun i => range.1 + i))
    (fun i _ st S h => lnk_emit_base_relocs_from_obj_inv page_size is_large_addr_aware objs
      st i S h)
    { page_list := [], errors := errors } (fun _ _ => False)
    (lnk_base_reloc_pages_inv_nil page_size)
  refine lnk_base_reloc_pages_inv_congr page_size _ _ _ ?_ hfold
  intro b s
  constructor
  · rintro (hF | ⟨i, hmem, hsite, hl⟩)
    · exact hF.elim
    · obtain ⟨k, hk, rfl⟩ := List.mem_map.1 hmem
      have := List.mem_range.1 hk
      exact ⟨range.1 + k, by omega, by omega, hsite, hl⟩
  · rintro ⟨i, hlo, hhi, hsite, hl⟩
    refine Or.inr ⟨i, List.mem_map.2 ⟨i - range.1, List.mem_range.2 (by omega), by omega⟩,
      hsite, hl⟩

/-- Merging one page of another worker keeps the invariant of the main page list. -/
theorem lnk_base_reloc_merge_page_inv (page_size : Nat) (main : List LNK_BaseRelocPage)
    (src_page : LNK_BaseRelocPage) (S : Bool → Nat → Prop)
    (hinv : lnk_base_reloc_pages_inv page_size main S)
    (hlt : src_page.voff < 2 ^ 32)
    (h32 : ∀ s ∈ src_page.entries_addr32, AlignDownPow2 s page_size = src_page.voff)
    (h64 : ∀ s ∈ src_page.entries_addr64, AlignDownPow2 s page_size = src_page.voff) :
    lnk_base_reloc_pages_inv page_size (lnk_base_reloc_merge_page main src_page)
      (fun b s => S b s
        ∨ lnk_base_reloc_contrib src_page.entries_addr32 src_page.entries_addr64 b s) := by
  unfold lnk_base_reloc_merge_page
  by_cases hp : lnk_base_reloc_page_present main src_page.voff = true
  · rw [if_pos hp]
    exact lnk_base_reloc_pages_inv_update page_size main S src_page.voff _ _ hinv
      ((lnk_base_reloc_page_present_iff _ _).1 hp) h32 h64
  · rw [if_neg hp]
    have hv : ¬ ∃ p ∈ main, p.voff = src_page.voff := fun h =>
      hp ((lnk_base_reloc_page_present_iff _ _).2 h)
    exact lnk_base_reloc_pages_inv_append page_size main S src_page.voff
      src_page.entries_addr32 src_page.entries_addr64 hinv hv hlt h32 h64

/-- Merging the page list of another worker keeps the invariant of the main page list. -/
theorem lnk_base_reloc_merge_list_inv (page_size : Nat) (main src : List LNK_BaseRelocPage)
    (S T : Bool → Nat → Prop)
    (hinv : lnk_base_reloc_pages_inv page_size main S)
    (hsrc : lnk_base_reloc_pages_inv page_size src T) :
    lnk_base_reloc_pages_inv page_size (src.foldl lnk_base_reloc_merge_page main)
      (fun b s => S b s ∨ T b s) := by
  obtain ⟨_, t2, t3, t4, t5⟩ := hsrc
  have hfold := lnk_base_reloc_fold_inv page_size (fun pages => pages)
    lnk_base_reloc_merge_page
    (fun p => lnk_base_reloc_contrib p.entries_addr32 p.entries_addr64) src
    (fun p hp main S h => lnk_base_reloc_merge_page_inv page_size main p S h (t2 p hp)
      (fun s hs => ((t3 p hp s).1 hs).2) (fun s hs => ((t4 p hp s).1 hs).2))
    main S hinv
  refine lnk_base_reloc_pages_inv_congr page_size _ _ _ ?_ hfold
  intro b s
  constructor
  · rintro (hS | ⟨p, hp, hc⟩)
    · exact Or.inl hS
    · rcases hc with ⟨hb, hs⟩ | ⟨hb, hs⟩
      · subst hb; exact Or.inr ((t3 p hp s).1 hs).1
      · subst hb; exact Or.inr ((t4 p hp s).1 hs).1
  · rintro (hS | hT)
    · exact Or.inl hS
    · obtain ⟨p, hp, hpv⟩ := t5 b s hT
      refine Or.inr ⟨p, hp, ?_⟩
      cases b with
      | true => exact Or.inl ⟨rfl, (t3 p hp s).2 ⟨hT, hpv.symm⟩⟩
      | false => exact Or.inr ⟨rfl, (t4 p hp s).2 ⟨hT, hpv.symm⟩⟩

/-- Merging the page lists of several workers keeps the invariant of the main page list. -/
theorem lnk_base_reloc_merge_lists_inv {ρ : Type} (page_size : Nat)
    (R : ρ → Bool → Nat → Prop) :
    ∀ (ranges : List ρ) (lists : List (List LNK_BaseRelocPage)),
      List.Forall₂ (fun rg pl => lnk_base_reloc_pages_inv page_size pl (R rg)) ranges lists →
      ∀ (main : List LNK_BaseRelocPage) (S : Bool → Nat → Prop),
        lnk_base_reloc_pages_inv page_size main S →
        lnk_base_reloc_pages_inv page_size
          (lists.foldl (fun main src => src.foldl lnk_base_reloc_merge_page main) main)
          (fun b s => S b s ∨ ∃ rg ∈ ranges, R rg b s) := by
  intro ranges lists hall
  induction hall with
  | nil =>
    intro main S hinv
    refine lnk_base_reloc_pages_inv_congr page_size _ _ _ ?_ hinv
    intro b s
    simp
  | @cons rg pl rgs pls hhead _ ih =>
    intro main S hinv
    rw [List.foldl_cons]
    have h1 := lnk_base_reloc_merge_list_inv page_size main pl S (R rg) hinv hhead
    refine lnk_base_reloc_pages_inv_congr page_size _ _ _ ?_ (ih _ _ h1)
    intro b s
    constructor
    · rintro ((hS | hR) | ⟨r, hr, hR⟩)
      · exact Or.inl hS
      · exact Or.inr ⟨rg, List.mem_cons_self _ _, hR⟩
      · exact Or.inr ⟨r, List.mem_cons_of_mem _ hr, hR⟩
    · rintro (hS | ⟨r, hr, hR⟩)
      · exact Or.inl (Or.inl hS)
      · rcases List.mem_cons.1 hr with rfl | hr
        · exact Or.inl (Or.inr hR)
        · exact Or.inr ⟨r, hr, hR⟩

/-- The page lists the workers build, one for each range. -/
theorem lnk_base_reloc_workers_inv (page_size : Nat) (is_large_addr_aware : Bool)
    (objs : List LNK_Obj) :
    ∀ (ranges : List (Nat × Nat)) (acc : List (List LNK_BaseRelocPage) × List LNK_Error),
      ∃ lists,
        (ranges.foldl
          (fun acc range =>
            ((acc.1 ++ [(lnk_emit_base_relocs_from_objs_task page_size is_large_addr_aware objs
                range acc.2).page_list],
              (lnk_emit_base_relocs_from_objs_task page_size is_large_addr_aware objs
                range acc.2).errors) : List (List LNK_BaseRelocPage) × List LNK_Error))
          acc).1 = acc.1 ++ lists
        ∧ List.Forall₂
            (fun rg pl => lnk_base_reloc_pages_inv page_size pl
              (fun b s => ∃ i, rg.1 ≤ i ∧ i < rg.2
                ∧ lnk_obj_base_reloc_site (lnk_obj_from_ptr objs i) b s
                ∧ (b = true → is_large_addr_aware = false)))
            ranges lists := by
  intro ranges
  induction ranges with
  | nil =>
    intro acc
    exact ⟨[], by simp, List.Forall₂.nil⟩
  | cons rg rest ih =>
    intro acc
    rw [List.foldl_cons]
    obtain ⟨lists, heq, hall⟩ := ih
      (acc.1 ++ [(lnk_emit_base_relocs_from_objs_task page_size is_large_addr_aware objs
          rg acc.2).page_list],
        (lnk_emit_base_relocs_from_objs_task page_size is_large_addr_aware objs
          rg acc.2).errors)
    refine ⟨(lnk_emit_base_relocs_from_objs_task page_size is_large_addr_aware objs
        rg acc.2).page_list :: lists, ?_, ?_⟩
    · rw [heq]
      simp
    · exact List.Forall₂.cons
        (lnk_emit_base_relocs_from_objs_task_inv page_size is_large_addr_aware objs rg acc.2)
        hall

theorem lnk_base_reloc_page_insert_perm (page : LNK_BaseRelocPage)
    (pages : List LNK_BaseRelocPage) :
    (lnk_base_reloc_page_insert page pages).Perm (page :: pages) := by
  induction pages with
  | nil => exact List.Perm.refl _
  | cons p rest ih =>
    by_cases h : page.voff ≤ p.voff
    · simp [lnk_base_reloc_page_insert, h]
    · simp only [lnk_base_reloc_page_insert, if_neg h]
      exact ((List.Perm.cons p ih).trans (List.Perm.swap page p rest))

theorem lnk_base_reloc_page_sort_perm (pages : List LNK_BaseRelocPage) :
    (lnk_base_reloc_page_sort pages).Perm pages := by
  induction pages with
  | nil => exact List.Perm.refl _
  | cons p rest ih =>
    show (lnk_base_reloc_page_insert p (lnk_base_reloc_page_sort rest)).Perm (p :: rest)
    exact (lnk_base_reloc_page_insert_perm p _).trans (List.Perm.cons p ih)

theorem lnk_base_reloc_page_insert_sorted (page : LNK_BaseRelocPage)
    (pages : List LNK_BaseRelocPage)
    (h : pages.Pairwise (fun a b => a.voff ≤ b.voff)) :
    (lnk_base_reloc_page_insert page pages).Pairwise (fun a b => a.voff ≤ b.voff) := by
  induction pages with
  | nil => simp [lnk_base_reloc_page_insert]
  | cons p rest ih =>
    rw [List.pairwise_cons] at h
    by_cases hle : page.voff ≤ p.voff
    · simp only [lnk_base_reloc_page_insert, if_pos hle]
      refine List.Pairwise.cons ?_ (List.Pairwise.cons h.1 h.2)
      intro q hq
      rcases List.mem_cons.1 hq with rfl | hq
      · exact hle
      · exact le_trans hle (h.1 q hq)
    · simp only [lnk_base_reloc_page_insert, if_neg hle]
      refine List.Pairwise.cons ?_ (ih h.2)
      intro q hq
      rcases List.mem_cons.1 ((lnk_base_reloc_page_insert_perm page rest).mem_iff.1 hq)
        with rfl | hq
      · omega
      · exact h.1 q hq

theorem lnk_base_reloc_page_sort_sorted (pages : List LNK_BaseRelocPage) :
    (lnk_base_reloc_page_sort pages).Pairwise (fun a b => a.voff ≤ b.voff) := by
  induction pages with
  | nil => exact List.Pairwise.nil
  | cons p rest ih =>
    show (lnk_base_reloc_page_insert p (lnk_base_reloc_page_sort rest)).Pairwise _
    exact lnk_base_reloc_page_insert_sorted p _ ih

theorem LNK_Obj_zero_no_site (b : Bool) (s : Nat) :
    ¬ lnk_obj_base_reloc_site LNK_Obj.zero b s := by
  rintro ⟨hm, _⟩
  exact absurd hm (by decide)

/-- The sorted page array of `lnk_build_base_relocs`: the blocks are its serialized pages, its
page offsets ascend strictly, and it holds exactly the relocation sites of the objects, those
of ADDR32 relocations only when the image is not large-address-aware. -/
theorem lnk_build_base_relocs_page_arr (machine_page_size file_characteristics : Nat)
    (objs : List LNK_Obj) (ranges : List (Nat × Nat)) (errors : List LNK_Error)
    (hcover : ∀ i, i < objs.length → ∃ rg ∈ ranges, rg.1 ≤ i ∧ i < rg.2) :
    ∃ page_arr : List LNK_BaseRelocPage,
      (lnk_build_base_relocs machine_page_size file_characteristics objs ranges errors).1
        = page_arr.map lnk_base_reloc_serialize_page
      ∧ page_arr.Pairwise (fun a b => a.voff < b.voff)
      ∧ lnk_base_reloc_pages_inv machine_page_size page_arr
          (fun b s => lnk_base_reloc_site objs b s
            ∧ (b = true →
                file_characteristics &&& PE_ImageFileCharacteristic_LARGE_ADDRESS_AWARE = 0)) := by
  obtain ⟨lists, heq, hall⟩ := lnk_base_reloc_workers_inv machine_page_size
    (decide (file_characteristics &&& PE_ImageFileCharacteristic_LARGE_ADDRESS_AWARE ≠ 0))
    objs ranges ([], errors)
  rw [List.nil_append] at heq
  have hmain : lnk_base_reloc_pages_inv machine_page_size
      ((lists.drop 1).foldl (fun main src => src.foldl lnk_base_reloc_merge_page main)
        (lists.headD []))
      (fun b s => lnk_base_reloc_site objs b s
        ∧ (b = true →
            file_characteristics &&& PE_ImageFileCharacteristic_LARGE_ADDRESS_AWARE = 0)) := by
    have hkey : ∀ b s, (∃ rg ∈ ranges, ∃ i, rg.1 ≤ i ∧ i < rg.2
          ∧ lnk_obj_base_reloc_site (lnk_obj_from_ptr objs i) b s
          ∧ (b = true → decide (file_characteristics
              &&& PE_ImageFileCharacteristic_LARGE_ADDRESS_AWARE ≠ 0) = false))
        ↔ (lnk_base_reloc_site objs b s
          ∧ (b = true →
              file_characteristics &&& PE_ImageFileCharacteristic_LARGE_ADDRESS_AWARE = 0)) := by
      intro b s
      constructor
      · rintro ⟨rg, _, i, _, _, hsite, hl⟩
        have hi : i < objs.length := by
          by_contra hge
          have : lnk_obj_from_ptr objs i = LNK_Obj.zero := by
            unfold lnk_obj_from_ptr
            rw [List.getD_eq_default _ _ (by omega)]
          rw [this] at hsite
          exact LNK_Obj_zero_no_site b s hsite
        refine ⟨⟨lnk_obj_from_ptr objs i, ?_, hsite⟩, ?_⟩
        · unfold lnk_obj_from_ptr
          rw [List.getD_eq_getElem _ _ hi]
          exact List.getElem_mem _
        · intro hb
          simpa using hl hb
      · rintro ⟨⟨obj, hobj, hsite⟩, hl⟩
        obtain ⟨i, hi, rfl⟩ := List.getElem_of_mem hobj
        obtain ⟨rg, hrg, hlo, hhi⟩ := hcover i hi
        refine ⟨rg, hrg, i, hlo, hhi, ?_, ?_⟩
        · unfold lnk_obj_from_ptr
          rw [List.getD_eq_getElem _ _ hi]
          exact hsite
        · intro hb
          simpa using hl hb
    cases hall with
    | nil =>
      refine lnk_base_reloc_pages_inv_congr machine_page_size _ _ _ ?_
        (lnk_base_reloc_pages_inv_nil machine_page_size)
      intro b s
      rw [← hkey b s]
      simp
    | @cons rg pl rgs pls hhead htail =>
      have h := lnk_base_reloc_merge_lists_inv machine_page_size
        (fun (rg : Nat × Nat) b s => ∃ i, rg.1 ≤ i ∧ i < rg.2
          ∧ lnk_obj_base_reloc_site (lnk_obj_from_ptr objs i) b s
          ∧ (b = true → decide (file_characteristics
              &&& PE_ImageFileCharacteristic_LARGE_ADDRESS_AWARE ≠ 0) = false))
        rgs pls htail pl _ hhead
      refine lnk_base_reloc_pages_inv_congr machine_page_size _ _ _ ?_ h
      intro b s
      rw [← hkey b s]
      constructor
      · rintro (h0 | ⟨r, hr, hR⟩)
        · exact ⟨rg, List.mem_cons_self _ _, h0⟩
        · exact ⟨r, List.mem_cons_of_mem _ hr, hR⟩
      · rintro ⟨r, hr, hR⟩
        rcases List.mem_cons.1 hr with rfl | hr
        · exact Or.inl hR
        · exact Or.inr ⟨r, hr, hR⟩
  have hsorted := lnk_base_reloc_pages_inv_perm machine_page_size _ _ _
    (lnk_base_reloc_page_sort_perm _) hmain
  refine ⟨_, ?_, ?_, hsorted⟩
  · simp only [lnk_build_base_relocs]
    rw [heq]
  · have hle := lnk_base_reloc_page_sort_sorted
      ((lists.drop 1).foldl (fun main src => src.foldl lnk_base_reloc_merge_page main)
        (lists.headD []))
    have hne : (lnk_base_reloc_page_sort
        ((lists.drop 1).foldl (fun main src => src.foldl lnk_base_reloc_merge_page main)
          (lists.headD []))).Pairwise (fun a b => a.voff ≠ b.voff) := by
      have := hsorted.1
      rw [List.Nodup, List.pairwise_map] at this
      exact this
    exact (hle.and hne).imp (fun h => lt_of_le_of_ne h.1 h.2)

/-- The entries one write loop of the serialization produces: one entry for each distinct site
the table does not hold yet. -/
theorem lnk_base_reloc_write_entries_spec (kind page_voff : Nat) :
    ∀ (sites voff_ht : List Nat),
      ∃ written : List Nat,
        (lnk_base_reloc_write_entries kind page_voff voff_ht sites).1
          = written.map (fun s => PE_BaseRelocMake kind ((s + 2 ^ 64 - page_voff) % 2 ^ 64))
        ∧ written.Nodup
        ∧ (∀ s, s ∈ written ↔ (s ∈ sites ∧ s ∉ voff_ht))
        ∧ (∀ s, s ∈ (lnk_base_reloc_write_entries kind page_voff voff_ht sites).2
            ↔ (s ∈ voff_ht ∨ s ∈ sites)) := by
  intro sites
  induction sites with
  | nil =>
    intro voff_ht
    exact ⟨[], by simp [lnk_base_reloc_write_entries], List.nodup_nil, by simp,
      by simp [lnk_base_reloc_write_entries]⟩
  | cons site rest ih =>
    intro voff_ht
    by_cases hmem : site ∈ voff_ht
    · obtain ⟨written, h1, h2, h3, h4⟩ := ih voff_ht
      refine ⟨written, ?_, h2, ?_, ?_⟩
      · simp only [lnk_base_reloc_write_entries, if_pos hmem]
        exact h1
      · intro s
        rw [h3 s]
        constructor
        · rintro ⟨hs, hn⟩
          exact ⟨List.mem_cons_of_mem _ hs, hn⟩
        · rintro ⟨hs, hn⟩
          rcases List.mem_cons.1 hs with rfl | hs
          · exact absurd hmem hn
          · exact ⟨hs, hn⟩
      · intro s
        simp only [lnk_base_reloc_write_entries, if_pos hmem]
        rw [h4 s]
        constructor
        · rintro (h | h)
          · exact Or.inl h
          · exact Or.inr (List.mem_cons_of_mem _ h)
        · rintro (h | h)
          · exact Or.inl h
          · rcases List.mem_cons.1 h with rfl | h
            · exact Or.inl hmem
            · exact Or.inr h
    · obtain ⟨written, h1, h2, h3, h4⟩ := ih (site :: voff_ht)
      refine ⟨site :: written, ?_, ?_, ?_, ?_⟩
      · simp only [lnk_base_reloc_write_entries, if_neg hmem, List.map_cons]
        rw [h1]
      · refine List.nodup_cons.2 ⟨?_, h2⟩
        intro hin
        exact ((h3 site).1 hin).2 (List.mem_cons_self _ _)
      · intro s
        rw [List.mem_cons, h3 s]
        constructor
        · rintro (rfl | ⟨hs, hn⟩)
          · exact ⟨List.mem_cons_self _ _, hmem⟩
          · exact ⟨List.mem_cons_of_mem _ hs, fun h => hn (List.mem_cons_of_mem _ h)⟩
        · rintro ⟨hs, hn⟩
          by_cases he : s = site
          · exact Or.inl he
          · rcases List.mem_cons.1 hs with h | h
            · exact absurd h he
            · refine Or.inr ⟨h, ?_⟩
              intro h'
              rcases List.mem_cons.1 h' with h' | h'
              · exact he h'
              · exact hn h'
      · intro s
        simp only [lnk_base_reloc_write_entries, if_neg hmem]
        rw [h4 s]
        constructor
        · rintro (h | h)
          · rcases List.mem_cons.1 h with rfl | h
            · exact Or.inr (List.mem_cons_self _ _)
            · exact Or.inl h
          · exact Or.inr (List.mem_cons_of_mem _ h)
        · rintro (h | h)
          · exact Or.inl (List.mem_cons_of_mem _ h)
          · rcases List.mem_cons.1 h with rfl | h
            · exact Or.inl (List.mem_cons_self _ _)
            · exact Or.inr h

/-- The entries of a serialized page: one HIGHLOW entry for each distinct 32-bit site, then one
DIR64 entry for each distinct 64-bit site that is no 32-bit site, then the pad. -/
theorem lnk_base_reloc_serialize_page_entries (page : LNK_BaseRelocPage) :
    ∃ (w32 w64 : List Nat) (pad : Nat),
      (lnk_base_reloc_serialize_page page).entries
        = w32.map (fun s => PE_BaseRelocMake PE_BaseRelocKind_HIGHLOW
            ((s + 2 ^ 64 - page.voff) % 2 ^ 64))
          ++ w64.map (fun s => PE_BaseRelocMake PE_BaseRelocKind_DIR64
            ((s + 2 ^ 64 - page.voff) % 2 ^ 64))
          ++ List.replicate pad PE_BaseRelocKind_ABSOLUTE
      ∧ w32.Nodup ∧ w64.Nodup
      ∧ (∀ s, s ∈ w32 ↔ s ∈ page.entries_addr32)
      ∧ (∀ s, s ∈ w64 ↔ (s ∈ page.entries_addr64 ∧ s ∉ page.entries_addr32)) := by
  obtain ⟨w32, a1, a2, a3, a4⟩ := lnk_base_reloc_write_entries_spec PE_BaseRelocKind_HIGHLOW
    page.voff page.entries_addr32 []
  obtain ⟨w64, b1, b2, b3, _⟩ := lnk_base_reloc_write_entries_spec PE_BaseRelocKind_DIR64
    page.voff page.entries_addr64
    (lnk_base_reloc_write_entries PE_BaseRelocKind_HIGHLOW page.voff []
      page.entries_addr32).2
  refine ⟨w32, w64, AlignPadPow2 (page.entries_addr32.length + page.entries_addr64.length) 2,
    ?_, a2, b2, ?_, ?_⟩
  · simp only [lnk_base_reloc_serialize_page]
    rw [a1, b1]
  · intro s
    rw [a3 s]
    simp
  · intro s
    rw [b3 s, a4 s]
    simp

theorem PE_BaseRelocMake_inj (k1 k2 o1 o2 : Nat) (hk1 : k1 < 16) (hk2 : k2 < 16)
    (ho1 : o1 < 4096) (ho2 : o2 < 4096)
    (h : PE_BaseRelocMake k1 o1 = PE_BaseRelocMake k2 o2) : k1 = k2 ∧ o1 = o2 := by
  unfold PE_BaseRelocMake at h
  rw [Nat.mod_eq_of_lt hk1, Nat.mod_eq_of_lt hk2, Nat.mod_eq_of_lt ho1,
    Nat.mod_eq_of_lt ho2] at h
  omega

theorem PE_BaseRelocKindFromEntry_make (k o : Nat) (hk : k < 16) :
    PE_BaseRelocKindFromEntry (PE_BaseRelocMake k o) = k := by
  unfold PE_BaseRelocKindFromEntry PE_BaseRelocMake
  rw [Nat.mod_eq_of_lt hk]
  have := Nat.mod_lt o (show 0 < 4096 by norm_num)
  omega

/-- The offset of a site within its page. -/
theorem lnk_base_reloc_rel_off (page_size s v : Nat) (hpos : 0 < page_size)
    (hs : s < 2 ^ 32) (hv : AlignDownPow2 s page_size = v) :
    (s + 2 ^ 64 - v) % 2 ^ 64 = s - v ∧ v ≤ s ∧ s - v < page_size := by
  have hle : v ≤ s := by rw [← hv]; exact AlignDownPow2_le s page_size
  have hmod : s - v = s % page_size := by
    have h := Nat.div_add_mod s page_size
    rw [Nat.mul_comm] at h
    unfold AlignDownPow2 at hv
    omega
  refine ⟨?_, hle, ?_⟩
  · have h64 : (2 : Nat) ^ 32 < 2 ^ 64 := by norm_num
    have : s + 2 ^ 64 - v = (s - v) + 2 ^ 64 := by omega
    rw [this, Nat.add_mod_right, Nat.mod_eq_of_lt (by omega)]
  · rw [hmod]
    exact Nat.mod_lt _ hpos

theorem lnk_base_reloc_site_lt (objs : List LNK_Obj) (b : Bool) (s : Nat)
    (h : lnk_base_reloc_site objs b s) : s < 2 ^ 32 := by
  obtain ⟨_, _, _, _, _, _, _, _, _, _, hs⟩ := h
  rw [hs]
  exact Nat.mod_lt _ (by norm_num)

/-- Number of occurrences of the entry of a site among the entries written for a list of
distinct sites of one page. -/
theorem lnk_base_reloc_count_written (kind v : Nat) (hk : kind < 16) (w : List Nat) (s : Nat)
    (hw : w.Nodup) (hs : s ∈ w)
    (hon : ∀ t ∈ w, (t + 2 ^ 64 - v) % 2 ^ 64 = t - v ∧ v ≤ t ∧ t - v < 4096) :
    (w.map (fun t => PE_BaseRelocMake kind ((t + 2 ^ 64 - v) % 2 ^ 64))).count
      (PE_BaseRelocMake kind (s - v)) = 1 := by
  apply List.count_eq_one_of_mem
  · apply List.Nodup.map_on _ hw
    intro x hx y hy hxy
    have hx' := hon x hx
    have hy' := hon y hy
    rw [hx'.1, hy'.1] at hxy
    have := (PE_BaseRelocMake_inj kind kind _ _ hk hk hx'.2.2 hy'.2.2 hxy).2
    omega
  · refine List.mem_map.2 ⟨s, hs, ?_⟩
    rw [(hon s hs).1]

theorem lnk_base_reloc_count_other (kind kind' v : Nat) (hk : kind < 16) (hk' : kind' < 16)
    (hne : kind ≠ kind') (w : List Nat) (o : Nat) :
    (w.map (fun t => PE_BaseRelocMake kind' ((t + 2 ^ 64 - v) % 2 ^ 64))).count
      (PE_BaseRelocMake kind o) = 0 := by
  apply List.count_eq_zero.2
  intro hmem
  obtain ⟨t, _, ht⟩ := List.mem_map.1 hmem
  have h1 := PE_BaseRelocKindFromEntry_make kind o hk
  rw [← ht, PE_BaseRelocKindFromEntry_make kind' _ hk'] at h1
  exact hne h1.symm

theorem lnk_base_reloc_count_pad (kind : Nat) (hk : kind < 16) (h0 : kind ≠ 0) (pad o : Nat) :
    (List.replicate pad PE_BaseRelocKind_ABSOLUTE).count (PE_BaseRelocMake kind o) = 0 := by
  apply List.count_eq_zero.2
  intro hmem
  have h1 := PE_BaseRelocKindFromEntry_make kind o hk
  rw [(List.mem_replicate.1 hmem).2] at h1
  exact h0 (by rw [← h1]; decide)

/-- The entries of the block of one page of a page array that satisfies the invariant. -/
theorem lnk_base_reloc_block_entries (page_size : Nat) (pages : List LNK_BaseRelocPage)
    (S : Bool → Nat → Prop) (hpage : 0 < page_size ∧ page_size ≤ 4096)
    (hS : ∀ b s, S b s → s < 2 ^ 32)
    (hinv : lnk_base_reloc_pages_inv page_size pages S)
    (p : LNK_BaseRelocPage) (hp : p ∈ pages) :
    (lnk_base_reloc_serialize_page p).page_voff = p.voff
    ∧ (∀ s, S true s → AlignDownPow2 s page_size = p.voff →
        s - p.voff < page_size
        ∧ (lnk_base_reloc_serialize_page p).entries.count
            (PE_BaseRelocMake PE_BaseRelocKind_HIGHLOW (s - p.voff)) = 1)
    ∧ (∀ s, S false s → ¬ S true s → AlignDownPow2 s page_size = p.voff →
        s - p.voff < page_size
        ∧ (lnk_base_reloc_serialize_page p).entries.count
            (PE_BaseRelocMake PE_BaseRelocKind_DIR64 (s - p.voff)) = 1)
    ∧ (∀ e ∈ (lnk_base_reloc_serialize_page p).entries,
        PE_BaseRelocKindFromEntry e ≠ PE_BaseRelocKind_ABSOLUTE →
        ∃ s, AlignDownPow2 s page_size = p.voff
          ∧ ((S true s ∧ e = PE_BaseRelocMake PE_BaseRelocKind_HIGHLOW (s - p.voff))
            ∨ (S false s ∧ ¬ S true s
                ∧ e = PE_BaseRelocMake PE_BaseRelocKind_DIR64 (s - p.voff)))) := by
  obtain ⟨_, h2, h3, h4, _⟩ := hinv
  obtain ⟨w32, w64, pad, hentries, hnd32, hnd64, hm32, hm64⟩ :=
    lnk_base_reloc_serialize_page_entries p
  have hk3 : PE_BaseRelocKind_HIGHLOW < 16 := by decide
  have hk10 : PE_BaseRelocKind_DIR64 < 16 := by decide
  have hon : ∀ b s, S b s → AlignDownPow2 s page_size = p.voff →
      (s + 2 ^ 64 - p.voff) % 2 ^ 64 = s - p.voff ∧ p.voff ≤ s ∧ s - p.voff < 4096 := by
    intro b s hs hf
    obtain ⟨a, b', c⟩ := lnk_base_reloc_rel_off page_size s p.voff hpage.1 (hS b s hs) hf
    exact ⟨a, b', lt_of_lt_of_le c hpage.2⟩
  have hon32 : ∀ t ∈ w32,
      (t + 2 ^ 64 - p.voff) % 2 ^ 64 = t - p.voff ∧ p.voff ≤ t ∧ t - p.voff < 4096 := by
    intro t ht
    obtain ⟨hs, hf⟩ := (h3 p hp t).1 ((hm32 t).1 ht)
    exact hon true t hs hf
  have hon64 : ∀ t ∈ w64,
      (t + 2 ^ 64 - p.voff) % 2 ^ 64 = t - p.voff ∧ p.voff ≤ t ∧ t - p.voff < 4096 := by
    intro t ht
    obtain ⟨hs, hf⟩ := (h4 p hp t).1 ((hm64 t).1 ht).1
    exact hon false t hs hf
  refine ⟨?_, ?_, ?_, ?_⟩
  · show p.voff % 2 ^ 32 = p.voff
    exact Nat.mod_eq_of_lt (h2 p hp)
  · intro s hs hf
    refine ⟨(lnk_base_reloc_rel_off page_size s p.voff hpage.1 (hS true s hs) hf).2.2, ?_⟩
    have hmem : s ∈ w32 := (hm32 s).2 ((h3 p hp s).2 ⟨hs, hf⟩)
    rw [hentries, List.count_append, List.count_append,
      lnk_base_reloc_count_written _ _ hk3 w32 s hnd32 hmem hon32,
      lnk_base_reloc_count_other _ _ _ hk3 hk10 (by decide) w64,
      lnk_base_reloc_count_pad _ hk3 (by decide)]
  · intro s hs hns hf
    refine ⟨(lnk_base_reloc_rel_off page_size s p.voff hpage.1 (hS false s hs) hf).2.2, ?_⟩
    have hmem : s ∈ w64 := (hm64 s).2
      ⟨(h4 p hp s).2 ⟨hs, hf⟩, fun h => hns ((h3 p hp s).1 h).1⟩
    rw [hentries, List.count_append, List.count_append,
      lnk_base_reloc_count_other _ _ _ hk10 hk3 (by decide) w32,
      lnk_base_reloc_count_written _ _ hk10 w64 s hnd64 hmem hon64,
      lnk_base_reloc_count_pad _ hk10 (by decide)]
  · intro e he hkind
    rw [hentries, List.mem_append, List.mem_append] at he
    rcases he with (he | he) | he
    · obtain ⟨s, hs, rfl⟩ := List.mem_map.1 he
      obtain ⟨hS32, hf⟩ := (h3 p hp s).1 ((hm32 s).1 hs)
      refine ⟨s, hf, Or.inl ⟨hS32, ?_⟩⟩
      rw [(hon32 s hs).1]
    · obtain ⟨s, hs, rfl⟩ := List.mem_map.1 he
      obtain ⟨hS64, hf⟩ := (h4 p hp s).1 ((hm64 s).1 hs).1
      refine ⟨s, hf, Or.inr ⟨hS64, ?_, ?_⟩⟩
      · intro hS32
        exact ((hm64 s).1 hs).2 ((h3 p hp s).2 ⟨hS32, hf⟩)
      · rw [(hon64 s hs).1]
    · rw [(List.mem_replicate.1 he).2] at hkind
      exact absurd (by decide) hkind

/-- C18, counterexample. In a large-address-aware image an ADDR32 relocation of a section
without `LnkRemove` against a Regular symbol is represented by no entry: the block of its page
is empty and a diagnostic is recorded. In an image that is not large-address-aware an ADDR32
and an ADDR64 relocation at the same site yield the single entry HIGHLOW, so the ADDR64
relocation has no DIR64 entry. -/
theorem C18_counterexample :
    lnk_base_reloc_site [fixture_reloc_obj 0x2000 false [⟨0x10, 0, COFF_Reloc_X64_Addr32⟩]]
        true 0x2010
    ∧ lnk_build_base_relocs 0x1000 PE_ImageFileCharacteristic_LARGE_ADDRESS_AWARE
        [fixture_reloc_obj 0x2000 false [⟨0x10, 0, COFF_Reloc_X64_Addr32⟩]] [(0, 1)] []
      = ([{ page_voff := 0x2000, block_size := 8, entries := [], buf_size := 8 }],
         [{ code := .Error_LargeAddrAwareRequired, obj := some 0, symbol := some "f" }])
    ∧ lnk_build_base_relocs 0x1000 0
        [fixture_reloc_obj 0x2000 false
          [⟨0x10, 0, COFF_Reloc_X64_Addr32⟩, ⟨0x10, 0, COFF_Reloc_X64_Addr64⟩]] [(0, 1)] []
      = ([{ page_voff := 0x2000, block_size := 10,
            entries := [PE_BaseRelocMake PE_BaseRelocKind_HIGHLOW 0x10], buf_size := 12 }],
         []) := by
  refine ⟨?_, by decide, by decide⟩
  exact ⟨_, List.mem_singleton_self _, rfl, 0, by decide, by decide,
    ⟨0x10, 0, COFF_Reloc_X64_Addr32⟩, by decide, by decide, rfl, by decide⟩

/-- C18, amended. Let the page size be positive and at most 0x1000 and let the ranges of the
workers cover every object. A site of kind ADDR32 (ADDR64) is the virtual offset of the site of
an ADDR32 (ADDR64) relocation of an X64 object that lies in a section without `LnkRemove` and
whose target symbol is not absolute. In the output of `lnk_build_base_relocs` the page offsets
of the blocks ascend strictly, so a page has one block. When the image is not
large-address-aware, every ADDR32 site has exactly one HIGHLOW entry, with the offset of the
site within its page, in the block of its page. Every ADDR64 site has exactly one DIR64 entry
there, unless the image is not large-address-aware and the site is an ADDR32 site as well.
Every entry whose kind is not ABSOLUTE is one of these entries. So in a large-address-aware
image an ADDR32 site that is no ADDR64 site has no entry. -/
theorem C18_base_reloc_entries (machine_page_size file_characteristics : Nat)
    (objs : List LNK_Obj) (ranges : List (Nat × Nat)) (errors : List LNK_Error)
    (hpage : 0 < machine_page_size ∧ machine_page_size ≤ 0x1000)
    (hcover : ∀ i, i < objs.length → ∃ rg ∈ ranges, rg.1 ≤ i ∧ i < rg.2) :
    ((lnk_build_base_relocs machine_page_size file_characteristics objs ranges errors).1.map
        (fun b => b.page_voff)).Pairwise (fun a b => a < b)
    ∧ (∀ site, lnk_base_reloc_site objs true site →
        file_characteristics &&& PE_ImageFileCharacteristic_LARGE_ADDRESS_AWARE = 0 →
        ∃ b ∈ (lnk_build_base_relocs machine_page_size file_characteristics objs ranges
            errors).1,
          b.page_voff = AlignDownPow2 site machine_page_size
          ∧ site - b.page_voff < machine_page_size
          ∧ b.entries.count (PE_BaseRelocMake PE_BaseRelocKind_HIGHLOW (site - b.page_voff))
              = 1)
    ∧ (∀ site, lnk_base_reloc_site objs false site →
        (file_characteristics &&& PE_ImageFileCharacteristic_LARGE_ADDRESS_AWARE ≠ 0
          ∨ ¬ lnk_base_reloc_site objs true site) →
        ∃ b ∈ (lnk_build_base_relocs machine_page_size file_characteristics objs ranges
            errors).1,
          b.page_voff = AlignDownPow2 site machine_page_size
          ∧ site - b.page_voff < machine_page_size
          ∧ b.entries.count (PE_BaseRelocMake PE_BaseRelocKind_DIR64 (site - b.page_voff))
              = 1)
    ∧ (∀ b ∈ (lnk_build_base_relocs machine_page_size file_characteristics objs ranges
          errors).1,
        ∀ e ∈ b.entries, PE_BaseRelocKindFromEntry e ≠ PE_BaseRelocKind_ABSOLUTE →
        ∃ site, b.page_voff = AlignDownPow2 site machine_page_size
          ∧ ((file_characteristics &&& PE_ImageFileCharacteristic_LARGE_ADDRESS_AWARE = 0
                ∧ lnk_base_reloc_site objs true site
                ∧ e = PE_BaseRelocMake PE_BaseRelocKind_HIGHLOW (site - b.page_voff))
            ∨ (lnk_base_reloc_site objs false site
                ∧ (file_characteristics &&& PE_ImageFileCharacteristic_LARGE_ADDRESS_AWARE ≠ 0
                    ∨ ¬ lnk_base_reloc_site objs true site)
                ∧ e = PE_BaseRelocMake PE_BaseRelocKind_DIR64 (site - b.page_voff)))) := by
  obtain ⟨page_arr, hblocks, hsorted, hinv⟩ := lnk_build_base_relocs_page_arr
    machine_page_size file_characteristics objs ranges errors hcover
  rw [hblocks]
  have hS : ∀ b s, (lnk_base_reloc_site objs b s
      ∧ (b = true →
          file_characteristics &&& PE_ImageFileCharacteristic_LARGE_ADDRESS_AWARE = 0)) →
      s < 2 ^ 32 := fun b s h => lnk_base_reloc_site_lt objs b s h.1
  have hblk := fun p hp => lnk_base_reloc_block_entries machine_page_size page_arr _ hpage hS
    hinv p hp
  refine ⟨?_, ?_, ?_, ?_⟩
  · rw [List.map_map, List.pairwise_map]
    refine hsorted.imp_of_mem ?_
    intro a b ha hb hab
    show (lnk_base_reloc_serialize_page a).page_voff < (lnk_base_reloc_serialize_page b).page_voff
    rw [(hblk a ha).1, (hblk b hb).1]
    exact hab
  · intro site hsite hlaa
    obtain ⟨p, hp, hpv⟩ := hinv.2.2.2.2 true site ⟨hsite, fun _ => hlaa⟩
    obtain ⟨h1, h2, _, _⟩ := hblk p hp
    obtain ⟨hlt, hcount⟩ := h2 site ⟨hsite, fun _ => hlaa⟩ hpv.symm
    refine ⟨_, List.mem_map_of_mem _ hp, ?_, ?_, ?_⟩
    · rw [h1, hpv]
    · rw [h1]; exact hlt
    · rw [h1]; exact hcount
  · intro site hsite hcase
    obtain ⟨p, hp, hpv⟩ := hinv.2.2.2.2 false site ⟨hsite, fun h => by cases h⟩
    obtain ⟨h1, _, h3, _⟩ := hblk p hp
    have hn32 : ¬ (lnk_base_reloc_site objs true site
        ∧ (true = true →
            file_characteristics &&& PE_ImageFileCharacteristic_LARGE_ADDRESS_AWARE = 0)) := by
      rintro ⟨h32, hl⟩
      rcases hcase with hc | hc
      · exact hc (hl rfl)
      · exact hc h32
    obtain ⟨hlt, hcount⟩ := h3 site ⟨hsite, fun h => by cases h⟩ hn32 hpv.symm
    refine ⟨_, List.mem_map_of_mem _ hp, ?_, ?_, ?_⟩
    · rw [h1, hpv]
    · rw [h1]; exact hlt
    · rw [h1]; exact hcount
  · intro b hb e he hkind
    obtain ⟨p, hp, rfl⟩ := List.mem_map.1 hb
    obtain ⟨h1, _, _, h4⟩ := hblk p hp
    obtain ⟨s, hf, hcase⟩ := h4 e he hkind
    refine ⟨s, by rw [h1, hf], ?_⟩
    rw [h1]
    rcases hcase with ⟨⟨h32, hl⟩, he⟩ | ⟨⟨h64, _⟩, hn32, he⟩
    · exact Or.inl ⟨hl rfl, h32, he⟩
    · refine Or.inr ⟨h64, ?_, he⟩
      by_cases hl : file_characteristics &&& PE_ImageFileCharacteristic_LARGE_ADDRESS_AWARE = 0
      · exact Or.inr (fun h32 => hn32 ⟨h32, fun _ => hl⟩)
      · exact Or.inl hl

/-- C18, witness: two X64 objects handled by two workers, an image that is not
large-address-aware; the ADDR32 site 0x2018 of the first object has its HIGHLOW entry in the
block of page 0x2000. -/
theorem C18_base_reloc_entries_witness :
    ((0 : Nat) < 0x1000 ∧ 0x1000 ≤ 0x1000)
    ∧ (∀ i, i < [fixture_reloc_obj 0x2000 false
            [⟨0x10, 0, COFF_Reloc_X64_Addr64⟩, ⟨0x18, 0, COFF_Reloc_X64_Addr32⟩],
          fixture_reloc_obj 0x3000 false [⟨0x20, 0, COFF_Reloc_X64_Addr64⟩]].length →
        ∃ rg ∈ [(0, 1), (1, 2)], rg.1 ≤ i ∧ i < rg.2)
    ∧ ∃ b ∈ (lnk_build_base_relocs 0x1000 0
          [fixture_reloc_obj 0x2000 false
            [⟨0x10, 0, COFF_Reloc_X64_Addr64⟩, ⟨0x18, 0, COFF_Reloc_X64_Addr32⟩],
          fixture_reloc_obj 0x3000 false [⟨0x20, 0, COFF_Reloc_X64_Addr64⟩]]
          [(0, 1), (1, 2)] []).1,
        b.page_voff = AlignDownPow2 0x2018 0x1000
        ∧ 0x2018 - b.page_voff < 0x1000
        ∧ b.entries.count (PE_BaseRelocMake PE_BaseRelocKind_HIGHLOW (0x2018 - b.page_voff))
            = 1 :=
  ⟨by decide, by decide,
    (C18_base_reloc_entries 0x1000 0
      [fixture_reloc_obj 0x2000 false
        [⟨0x10, 0, COFF_Reloc_X64_Addr64⟩, ⟨0x18, 0, COFF_Reloc_X64_Addr32⟩],
      fixture_reloc_obj 0x3000 false [⟨0x20, 0, COFF_Reloc_X64_Addr64⟩]]
      [(0, 1), (1, 2)] [] (by decide) (by decide)).2.1 0x2018
      ⟨_, List.mem_cons_self _ _, rfl, 0, by decide, by decide,
        ⟨0x18, 0, COFF_Reloc_X64_Addr32⟩, by decide, by decide, rfl, by decide⟩
      (by decide)⟩

/-! ## The COMDAT garbage collector -/

theorem coff_lnk_remove_mask_and (x : Nat) :
    (x &&& (0xFFFFFFFF ^^^ COFF_SectionFlag_LnkRemove)) &&& COFF_SectionFlag_LnkRemove = 0 := by
  rw [Nat.and_assoc]
  have : (0xFFFFFFFF ^^^ COFF_SectionFlag_LnkRemove) &&& COFF_SectionFlag_LnkRemove = 0 := by
    decide
  rw [this, Nat.and_zero]

theorem coff_lnk_remove_mask_comdat (x : Nat) :
    (x &&& (0xFFFFFFFF ^^^ COFF_SectionFlag_LnkRemove)) &&& COFF_SectionFlag_LnkCOMDAT
      = x &&& COFF_SectionFlag_LnkCOMDAT := by
  rw [Nat.and_assoc]
  have : (0xFFFFFFFF ^^^ COFF_SectionFlag_LnkRemove) &&& COFF_SectionFlag_LnkCOMDAT
      = COFF_SectionFlag_LnkCOMDAT := by
    decide
  rw [this]

theorem coff_lnk_remove_mask_idem (x : Nat) :
    (x &&& (0xFFFFFFFF ^^^ COFF_SectionFlag_LnkRemove))
        &&& (0xFFFFFFFF ^^^ COFF_SectionFlag_LnkRemove)
      = x &&& (0xFFFFFFFF ^^^ COFF_SectionFlag_LnkRemove) := by
  rw [Nat.and_assoc, Nat.and_self]

theorem coff_lnk_remove_or_mask (x : Nat) :
    (x ||| COFF_SectionFlag_LnkRemove) &&& (0xFFFFFFFF ^^^ COFF_SectionFlag_LnkRemove)
      = x &&& (0xFFFFFFFF ^^^ COFF_SectionFlag_LnkRemove) := by
  apply Nat.eq_of_testBit_eq
  intro i
  rw [Nat.testBit_and, Nat.testBit_and, Nat.testBit_or]
  have h : ∀ j, Nat.testBit COFF_SectionFlag_LnkRemove j = true →
      Nat.testBit (0xFFFFFFFF ^^^ COFF_SectionFlag_LnkRemove) j = false := by
    intro j hj
    have h0 : (0xFFFFFFFF ^^^ COFF_SectionFlag_LnkRemove) &&& COFF_SectionFlag_LnkRemove = 0 := by
      decide
    have := congrArg (fun v => Nat.testBit v j) h0
    simp only [Nat.testBit_and, Nat.zero_testBit] at this
    rw [hj, Bool.and_true] at this
    exact this
  cases hx : Nat.testBit x i <;> cases hr : Nat.testBit COFF_SectionFlag_LnkRemove i
    <;> simp [h i, hr]

theorem coff_lnk_remove_or_comdat (x : Nat) :
    (x ||| COFF_SectionFlag_LnkRemove) &&& COFF_SectionFlag_LnkCOMDAT
      = x &&& COFF_SectionFlag_LnkCOMDAT := by
  apply Nat.eq_of_testBit_eq
  intro i
  rw [Nat.testBit_and, Nat.testBit_and, Nat.testBit_or]
  have h : ∀ j, Nat.testBit COFF_SectionFlag_LnkRemove j = true →
      Nat.testBit COFF_SectionFlag_LnkCOMDAT j = false := by
    intro j hj
    have h0 : COFF_SectionFlag_LnkCOMDAT &&& COFF_SectionFlag_LnkRemove = 0 := by decide
    have := congrArg (fun v => Nat.testBit v j) h0
    simp only [Nat.testBit_and, Nat.zero_testBit] at this
    rw [hj, Bool.and_true] at this
    exact this
  cases hx : Nat.testBit x i <;> cases hr : Nat.testBit COFF_SectionFlag_LnkRemove i
    <;> simp [h i, hr]

/-- Header of section `n` after clearing `LnkRemove` on section `k`. -/
theorem lnk_obj_unflag_section_removed_flags (o : LNK_Obj) (k n : Nat) :
    (lnk_coff_section_header_from_section_number (lnk_obj_unflag_section_removed o k) n).flags
      = if k = n ∧ 1 ≤ n ∧ n ≤ o.section_table.length then
          (lnk_coff_section_header_from_section_number o n).flags
            &&& (0xFFFFFFFF ^^^ COFF_SectionFlag_LnkRemove)
        else (lnk_coff_section_header_from_section_number o n).flags := by
  unfold lnk_obj_unflag_section_removed lnk_coff_section_header_from_section_number
  by_cases hk : k = 0
  · subst hk
    by_cases hn : n = 0
    · simp [hn]
    · have : ¬ (0 = n ∧ 1 ≤ n ∧ n ≤ o.section_table.length) := by omega
      simp [hn, this]
  · by_cases hn : n = 0
    · subst hn
      simp [hk]
    · simp only [hk, hn, if_false, List.getD_eq_getElem?_getD, List.getElem?_modify]
      by_cases hkn : k = n
      · subst hkn
        by_cases hlen : k ≤ o.section_table.length
        · have hlt : k - 1 < o.section_table.length := by omega
          have h1 : 1 ≤ k := by omega
          simp [hlt, hlen, h1]
        · have hge : o.section_table.length ≤ k - 1 := by omega
          simp [hlen, List.getElem?_eq_none hge]
      · have hne : ¬ (k - 1 = n - 1) := by omega
        simp only [hkn, false_and, if_false, hne]
        cases o.section_table[n - 1]? <;> simp

theorem lnk_obj_unflag_section_removed_skeleton (o : LNK_Obj) (k : Nat) :
    lnk_obj_skeleton (lnk_obj_unflag_section_removed o k) = lnk_obj_skeleton o := by
  unfold lnk_obj_unflag_section_removed lnk_obj_skeleton
  by_cases hk : k = 0
  · simp [hk]
  · simp only [hk, if_false]
    congr 1
    apply List.ext_getElem?
    intro i
    simp only [List.getElem?_map, List.getElem?_modify]
    by_cases hi : k - 1 = i
    · simp only [hi, if_true]
      cases o.section_table[i]? with
      | none => rfl
      | some h => simp [coff_lnk_remove_mask_idem]
    · simp only [hi, if_false]
      cases o.section_table[i]? <;> simp

theorem lnk_gc_flag_comdats_skeleton (o : LNK_Obj) :
    lnk_obj_skeleton (lnk_gc_flag_comdats o) = lnk_obj_skeleton o := by
  unfold lnk_gc_flag_comdats lnk_obj_skeleton
  simp only [List.map_map]
  congr 1
  apply List.map_congr_left
  intro h _
  by_cases hc : h.flags &&& COFF_SectionFlag_LnkCOMDAT = 0
  · simp [hc]
  · simp [hc, coff_lnk_remove_or_mask]

/-- Flags of a section after the block "begin with COMDAT sections flagged as removed". -/
theorem lnk_gc_flag_comdats_flags (o : LNK_Obj) (n : Nat) :
    (lnk_coff_section_header_from_section_number (lnk_gc_flag_comdats o) n).flags
      = if (lnk_coff_section_header_from_section_number o n).flags
            &&& COFF_SectionFlag_LnkCOMDAT ≠ 0 then
          (lnk_coff_section_header_from_section_number o n).flags ||| COFF_SectionFlag_LnkRemove
        else (lnk_coff_section_header_from_section_number o n).flags := by
  unfold lnk_gc_flag_comdats lnk_coff_section_header_from_section_number
  by_cases hn : n = 0
  · simp [hn]
  · simp only [hn, if_false, List.getD_eq_getElem?_getD, List.getElem?_map]
    cases o.section_table[n - 1]? with
    | none =>
      simp
    | some h =>
      simp only [Option.map_some', Option.getD_some]
      split <;> rfl

theorem lnk_obj_from_ptr_map (objs : List LNK_Obj) (f : LNK_Obj → LNK_Obj)
    (hf : f LNK_Obj.zero = LNK_Obj.zero) (q : Nat) :
    lnk_obj_from_ptr (objs.map f) q = f (lnk_obj_from_ptr objs q) := by
  unfold lnk_obj_from_ptr
  simp only [List.getD_eq_getElem?_getD, List.getElem?_map]
  cases objs[q]? with
  | none => simp [hf]
  | some o => simp

/-- What the skeleton of an object determines. -/
theorem lnk_obj_skeleton_fields (a b : LNK_Obj) (h : lnk_obj_skeleton a = lnk_obj_skeleton b) :
    a.symbols = b.symbols ∧ a.symlinks = b.symlinks
    ∧ a.associated_sections = b.associated_sections ∧ a.relocs = b.relocs
    ∧ a.debug_sections = b.debug_sections ∧ a.input_idx = b.input_idx
    ∧ a.section_table.length = b.section_table.length
    ∧ ∀ n, (lnk_coff_section_header_from_section_number a n).flags
          &&& COFF_SectionFlag_LnkCOMDAT
        = (lnk_coff_section_header_from_section_number b n).flags
          &&& COFF_SectionFlag_LnkCOMDAT := by
  have hst : a.section_table.map
      (fun h => ({ h with flags := h.flags &&& (0xFFFFFFFF ^^^ COFF_SectionFlag_LnkRemove) }
        : COFF_SectionHeader))
      = b.section_table.map
      (fun h => { h with flags := h.flags &&& (0xFFFFFFFF ^^^ COFF_SectionFlag_LnkRemove) }) := by
    have h0 : (lnk_obj_skeleton a).section_table = (lnk_obj_skeleton b).section_table := by
      rw [h]
    exact h0
  have h1 : (lnk_obj_skeleton a).symbols = (lnk_obj_skeleton b).symbols := by rw [h]
  have h2 : (lnk_obj_skeleton a).symlinks = (lnk_obj_skeleton b).symlinks := by rw [h]
  have h3 : (lnk_obj_skeleton a).associated_sections
      = (lnk_obj_skeleton b).associated_sections := by rw [h]
  have h4 : (lnk_obj_skeleton a).relocs = (lnk_obj_skeleton b).relocs := by rw [h]
  have h5 : (lnk_obj_skeleton a).debug_sections = (lnk_obj_skeleton b).debug_sections := by
    rw [h]
  have h6 : (lnk_obj_skeleton a).input_idx = (lnk_obj_skeleton b).input_idx := by rw [h]
  refine ⟨h1, h2, h3, h4, h5, h6, ?_, ?_⟩
  · have := congrArg List.length hst
    simpa using this
  · intro n
    unfold lnk_coff_section_header_from_section_number
    by_cases hn : n = 0
    · simp [hn]
    · simp only [hn, if_false, List.getD_eq_getElem?_getD]
      have hi := congrArg (fun l => l[n - 1]?) hst
      simp only [List.getElem?_map] at hi
      cases ha : a.section_table[n - 1]? with
      | none =>
        rw [ha] at hi
        cases hb : b.section_table[n - 1]? with
        | none => rfl
        | some y => rw [hb] at hi; cases hi
      | some x =>
        rw [ha] at hi
        cases hb : b.section_table[n - 1]? with
        | none => rw [hb] at hi; cases hi
        | some y =>
          rw [hb] at hi
          simp only [Option.map_some', Option.some.injEq] at hi
          have hf := congrArg COFF_SectionHeader.flags hi
          simp only at hf
          have := congrArg (fun v => v &&& COFF_SectionFlag_LnkCOMDAT) hf
          simp only [coff_lnk_remove_mask_comdat] at this
          simpa using this

theorem lnk_gc_push_tasks_eq (task_stack tasks : List LNK_GCTask) :
    lnk_gc_push_tasks task_stack tasks = tasks.reverse ++ task_stack := by
  unfold lnk_gc_push_tasks
  induction tasks generalizing task_stack with
  | nil => rfl
  | cons t rest ih =>
    rw [List.foldl_cons, ih]
    simp

theorem lnk_gc_push_tasks_mem (task_stack tasks : List LNK_GCTask) (t : LNK_GCTask) :
    t ∈ lnk_gc_push_tasks task_stack tasks ↔ (t ∈ tasks ∨ t ∈ task_stack) := by
  rw [lnk_gc_push_tasks_eq]
  simp

theorem lnk_gc_push_tasks_length (task_stack tasks : List LNK_GCTask) :
    (lnk_gc_push_tasks task_stack tasks).length = tasks.length + task_stack.length := by
  rw [lnk_gc_push_tasks_eq]
  simp

theorem lnk_gc_push_tasks_append (task_stack a b : List LNK_GCTask) :
    lnk_gc_push_tasks (lnk_gc_push_tasks task_stack a) b
      = lnk_gc_push_tasks task_stack (a ++ b) := by
  unfold lnk_gc_push_tasks
  rw [List.foldl_append]

theorem lnk_gc_new_tasks_length (obj : Nat) (relocs : List COFF_Reloc) :
    (lnk_gc_new_tasks obj relocs).length = CeilIntegerDiv relocs.length 1024 := by
  simp [lnk_gc_new_tasks]

/-- The tasks made for a section hold relocations of the section only. -/
theorem lnk_gc_new_tasks_sound (obj : Nat) (relocs : List COFF_Reloc) (t : LNK_GCTask)
    (ht : t ∈ lnk_gc_new_tasks obj relocs) :
    t.obj = obj ∧ ∀ r ∈ t.relocs, r ∈ relocs := by
  unfold lnk_gc_new_tasks at ht
  obtain ⟨idx, _, rfl⟩ := List.mem_map.1 ht
  refine ⟨rfl, ?_⟩
  intro r hr
  exact List.mem_of_mem_drop (List.mem_of_mem_take hr)

/-- The tasks made for a section hold every relocation of the section. -/
theorem lnk_gc_new_tasks_complete (obj : Nat) (relocs : List COFF_Reloc) (r : COFF_Reloc)
    (hr : r ∈ relocs) :
    ∃ t ∈ lnk_gc_new_tasks obj relocs, t.obj = obj ∧ r ∈ t.relocs := by
  obtain ⟨i, hi, hget⟩ := List.mem_iff_getElem.1 hr
  have hget? : relocs[i]? = some r := by
    rw [List.getElem?_eq_getElem hi, hget]
  refine ⟨{ obj := obj,
            relocs := (relocs.drop (i / 1024 * 1024)).take
              (min 1024 (relocs.length - i / 1024 * 1024)) }, ?_, rfl, ?_⟩
  · unfold lnk_gc_new_tasks
    refine List.mem_map.2 ⟨i / 1024, List.mem_range.2 ?_, rfl⟩
    unfold CeilIntegerDiv
    omega
  · show r ∈ (relocs.drop (i / 1024 * 1024)).take (min 1024 (relocs.length - i / 1024 * 1024))
    rw [List.mem_iff_getElem?]
    refine ⟨i % 1024, ?_⟩
    rw [List.getElem?_take]
    have h1 : i % 1024 < min 1024 (relocs.length - i / 1024 * 1024) := by
      have := Nat.mod_lt i (show 0 < 1024 by norm_num)
      have := Nat.div_add_mod i 1024
      omega
    rw [if_pos h1, List.getElem?_drop]
    have h2 : i / 1024 * 1024 + i % 1024 = i := by
      have := Nat.div_add_mod i 1024
      omega
    rw [h2, hget?]

theorem lnk_coff_section_header_comdat_range (o : LNK_Obj) (n : Nat)
    (h : (lnk_coff_section_header_from_section_number o n).flags
      &&& COFF_SectionFlag_LnkCOMDAT ≠ 0) :
    1 ≤ n ∧ n ≤ o.section_table.length := by
  unfold lnk_coff_section_header_from_section_number at h
  by_cases hn : n = 0
  · simp [hn] at h
  · simp only [hn, if_false] at h
    by_cases hl : n ≤ o.section_table.length
    · omega
    · rw [List.getD_eq_default _ _ (by omega)] at h
      simp at h

theorem lnk_gc_section_flags_zero (objs : List LNK_Obj) (q n : Nat) (hq : objs.length ≤ q) :
    lnk_gc_section_flags objs q n = 0 := by
  unfold lnk_gc_section_flags lnk_obj_from_ptr
  rw [List.getD_eq_default _ _ hq]
  unfold lnk_coff_section_header_from_section_number
  by_cases hn : n = 0
  · simp [hn]
  · simp [hn, LNK_Obj.zero]

/-- The skeleton of the objects the walk keeps determines the resolution of symbols. -/
theorem lnk_resolve_symbol_skeleton (hash_of : String → Nat) (symtab : LNK_SymbolHashTrie)
    (objs cur : List LNK_Obj)
    (hsk : ∀ q, lnk_obj_skeleton (lnk_obj_from_ptr cur q)
      = lnk_obj_skeleton (lnk_obj_from_ptr objs q))
    (symbol : LNK_SymbolDefined) :
    lnk_resolve_symbol hash_of symtab cur symbol
      = lnk_resolve_symbol hash_of symtab objs symbol := by
  have hsym : ∀ q, (lnk_obj_from_ptr cur q).symbols = (lnk_obj_from_ptr objs q).symbols :=
    fun q => (lnk_obj_skeleton_fields _ _ (hsk q)).1
  have hlink : ∀ q, (lnk_obj_from_ptr cur q).symlinks = (lnk_obj_from_ptr objs q).symlinks :=
    fun q => (lnk_obj_skeleton_fields _ _ (hsk q)).2.1
  unfold lnk_resolve_symbol lnk_parsed_symbol_from_coff_symbol_idx lnk_obj_get_comdat_symlink
  simp only [hsym, hlink]

theorem lnk_gc_settled_mono (hash_of : String → Nat) (symtab : LNK_SymbolHashTrie)
    (objs : List LNK_Obj) (V V' : List (Nat × Nat)) (P P' : List LNK_GCTask) (p i : Nat)
    (hV : ∀ s ∈ V, s ∈ V')
    (hP : ∀ t ∈ P, ∀ r ∈ t.relocs,
      (∃ t' ∈ P', t'.obj = t.obj ∧ ∃ r' ∈ t'.relocs, r'.isymbol = r.isymbol)
      ∨ (∀ q n, lnk_gc_target hash_of symtab objs t.obj r.isymbol q n → (q, n) ∈ V'))
    (h : lnk_gc_settled hash_of symtab objs V P p i) :
    lnk_gc_settled hash_of symtab objs V' P' p i := by
  rcases h with hdone | ⟨t, ht, hobj, r, hr, hri⟩
  · exact Or.inl (fun q n htar => hV _ (hdone q n htar))
  · rcases hP t ht r hr with ⟨t', ht', hobj', r', hr', hri'⟩ | hdone
    · exact Or.inr ⟨t', ht', by rw [hobj', hobj], r', hr', by rw [hri', hri]⟩
    · left
      intro q n htar
      rw [← hobj, ← hri] at htar
      exact hdone q n htar

/-- The invariant of the walk depends on the pending tasks only through the relocation symbols
they hold; a relocation symbol whose sections are visited may leave the pending tasks. -/
theorem lnk_gc_inv_pending (hash_of : String → Nat) (symtab : LNK_SymbolHashTrie)
    (include_symbol_list : List String) (objs cur : List LNK_Obj) (V : List (Nat × Nat))
    (P P' : List LNK_GCTask)
    (hinv : lnk_gc_inv hash_of symtab include_symbol_list objs cur V P)
    (hsub : ∀ t' ∈ P', ∀ r' ∈ t'.relocs,
      ∃ t ∈ P, t.obj = t'.obj ∧ ∃ r ∈ t.relocs, r.isymbol = r'.isymbol)
    (hsup : ∀ t ∈ P, ∀ r ∈ t.relocs,
      (∃ t' ∈ P', t'.obj = t.obj ∧ ∃ r' ∈ t'.relocs, r'.isymbol = r.isymbol)
      ∨ (∀ q n, lnk_gc_target hash_of symtab objs t.obj r.isymbol q n → (q, n) ∈ V)) :
    lnk_gc_inv hash_of symtab include_symbol_list objs cur V P' where
  length_eq := hinv.length_eq
  skeleton := hinv.skeleton
  noncomdat := hinv.noncomdat
  comdat_cleared := hinv.comdat_cleared
  visited_cleared := hinv.visited_cleared
  visited_reached := hinv.visited_reached
  pending_followed := by
    intro t' ht' r' hr' q n htar
    obtain ⟨t, ht, hobj, r, hr, hri⟩ := hsub t' ht' r' hr'
    rw [← hobj, ← hri] at htar
    exact hinv.pending_followed t ht r hr q n htar
  root_symbols_settled := fun name hname root hroot =>
    lnk_gc_settled_mono hash_of symtab objs V V P P' _ _ (fun _ h => h) hsup
      (hinv.root_symbols_settled name hname root hroot)
  root_sections_settled := fun p m hpm r hr =>
    lnk_gc_settled_mono hash_of symtab objs V V P P' _ _ (fun _ h => h) hsup
      (hinv.root_sections_settled p m hpm r hr)
  visited_settled := fun q n hqn hw r hr =>
    lnk_gc_settled_mono hash_of symtab objs V V P P' _ _ (fun _ h => h) hsup
      (hinv.visited_settled q n hqn hw r hr)

theorem lnk_gc_sum_filter_le {α : Type} (L : List α) (p p' : α → Bool) (f : α → Nat)
    (hsub : ∀ e, p' e = true → p e = true) :
    ((L.filter p').map f).sum ≤ ((L.filter p).map f).sum := by
  induction L with
  | nil => simp
  | cons e rest ih =>
    by_cases h' : p' e = true
    · have h := hsub e h'
      simp only [List.filter_cons, h', h, if_true, List.map_cons, List.sum_cons]
      omega
    · by_cases h : p e = true
      · simp only [List.filter_cons, h', h, if_true, List.map_cons, List.sum_cons]
        simp only [Bool.false_eq_true, if_false]
        omega
      · simp only [List.filter_cons, h', h]
        exact ih

theorem lnk_gc_sum_filter_drop {α : Type} (L : List α) (p p' : α → Bool) (f : α → Nat) (x : α)
    (hx : x ∈ L) (hp : p x = true) (hp' : p' x = false)
    (hsub : ∀ e, p' e = true → p e = true) :
    ((L.filter p').map f).sum + f x ≤ ((L.filter p).map f).sum := by
  induction L with
  | nil => cases hx
  | cons e rest ih =>
    rcases List.mem_cons.1 hx with rfl | hx
    · have := lnk_gc_sum_filter_le rest p p' f hsub
      simp only [List.filter_cons, hp', hp, if_true, List.map_cons, List.sum_cons]
      simp only [Bool.false_eq_true, if_false]
      omega
    · have ih' := ih hx
      by_cases h' : p' e = true
      · have h := hsub e h'
        simp only [List.filter_cons, h', h, if_true, List.map_cons, List.sum_cons]
        omega
      · by_cases h : p e = true
        · simp only [List.filter_cons, h', h, if_true, List.map_cons, List.sum_cons]
          simp only [Bool.false_eq_true, if_false]
          omega
        · simp only [List.filter_cons, h', h]
          exact ih'

theorem lnk_gc_pending_work_mono (objs : List LNK_Obj) (V V' : List (Nat × Nat))
    (h : ∀ s ∈ V, s ∈ V') :
    lnk_gc_pending_work objs V' ≤ lnk_gc_pending_work objs V := by
  unfold lnk_gc_pending_work
  apply lnk_gc_sum_filter_le
  intro e he
  simp only [decide_eq_true_eq] at he ⊢
  exact fun hin => he (h e hin)

/-- Visiting a section takes its tasks out of the pending work. -/
theorem lnk_gc_pending_work_visit (objs : List LNK_Obj) (V : List (Nat × Nat)) (q n : Nat)
    (hq : q < objs.length) (hn : (q, n) ∉ V) :
    lnk_gc_pending_work objs ((q, n) :: V) + lnk_gc_section_task_count objs (q, n)
      ≤ lnk_gc_pending_work objs V := by
  by_cases hlen : n < (lnk_obj_from_ptr objs q).relocs.length
  · unfold lnk_gc_pending_work
    apply lnk_gc_sum_filter_drop
    · unfold lnk_gc_all_sections
      rw [List.mem_flatMap]
      exact ⟨q, List.mem_range.2 hq, List.mem_map.2 ⟨n, List.mem_range.2 hlen, rfl⟩⟩
    · simpa using hn
    · simp
    · intro e he
      simp only [decide_eq_true_eq] at he ⊢
      exact fun hin => he (List.mem_cons_of_mem _ hin)
  · have h0 : lnk_gc_section_task_count objs (q, n) = 0 := by
      unfold lnk_gc_section_task_count lnk_coff_reloc_info_from_section_number
      have hge : (lnk_obj_from_ptr objs q).relocs.length ≤ n := by omega
      show CeilIntegerDiv ((lnk_obj_from_ptr objs q).relocs.getD n []).length 1024 = 0
      rw [List.getD_eq_default _ _ hge]
      decide
    rw [h0, Nat.add_zero]
    exact lnk_gc_pending_work_mono objs V _ (fun s hs => List.mem_cons_of_mem _ hs)

theorem lnk_gc_visit_section_eq (reloc_obj : Nat) (st : LNK_GCState) (n : Nat) :
    lnk_gc_visit_section reloc_obj st n
      = if ((lnk_obj_from_ptr st.objs reloc_obj).input_idx, n) ∈ st.was_section_visited then st
        else if lnk_is_coff_section_debug (lnk_obj_from_ptr st.objs reloc_obj)
            (lnk_sect_idx_from_section_number n) = true then
          { st with was_section_visited :=
              ((lnk_obj_from_ptr st.objs reloc_obj).input_idx, n) :: st.was_section_visited }
        else if lnk_gc_section_flags st.objs reloc_obj n &&& COFF_SectionFlag_LnkCOMDAT = 0
            ∧ lnk_gc_section_flags st.objs reloc_obj n &&& COFF_SectionFlag_LnkRemove ≠ 0 then
          { st with was_section_visited :=
              ((lnk_obj_from_ptr st.objs reloc_obj).input_idx, n) :: st.was_section_visited }
        else
          { objs :=
              if lnk_gc_section_flags st.objs reloc_obj n &&& COFF_SectionFlag_LnkCOMDAT ≠ 0 then
                st.objs.modify (fun o => lnk_obj_unflag_section_removed o n) reloc_obj
              else st.objs,
            was_section_visited :=
              ((lnk_obj_from_ptr st.objs reloc_obj).input_idx, n) :: st.was_section_visited,
            task_stack := lnk_gc_push_tasks st.task_stack
              (lnk_gc_new_tasks reloc_obj
                (lnk_coff_reloc_info_from_section_number (lnk_obj_from_ptr st.objs reloc_obj)
                  n)) } := rfl

/-- The invariant after the walk has visited a section whose relocations it does not follow. -/
theorem lnk_gc_inv_visit_skip (hash_of : String → Nat) (symtab : LNK_SymbolHashTrie)
    (include_symbol_list : List String) (objs cur : List LNK_Obj) (V : List (Nat × Nat))
    (P : List LNK_GCTask) (q n : Nat)
    (hinv : lnk_gc_inv hash_of symtab include_symbol_list objs cur V P)
    (hreach : lnk_gc_reached hash_of symtab include_symbol_list objs q n)
    (hnw : ¬ lnk_gc_walked objs q n) :
    lnk_gc_inv hash_of symtab include_symbol_list objs cur ((q, n) :: V) P where
  length_eq := hinv.length_eq
  skeleton := hinv.skeleton
  noncomdat := hinv.noncomdat
  comdat_cleared := fun q' n' hc h0 =>
    ⟨List.mem_cons_of_mem _ (hinv.comdat_cleared q' n' hc h0).1,
      (hinv.comdat_cleared q' n' hc h0).2⟩
  visited_cleared := by
    intro q' n' hmem hq' hc hd
    rcases List.mem_cons.1 hmem with heq | hmem
    · cases heq
      exact absurd ⟨hd, Or.inl hc⟩ hnw
    · exact hinv.visited_cleared q' n' hmem hq' hc hd
  visited_reached := by
    intro q' n' hmem
    rcases List.mem_cons.1 hmem with heq | hmem
    · cases heq
      exact hreach
    · exact hinv.visited_reached q' n' hmem
  pending_followed := hinv.pending_followed
  root_symbols_settled := fun name hname root hroot =>
    lnk_gc_settled_mono hash_of symtab objs V _ P P _ _ (fun _ h => List.mem_cons_of_mem _ h)
      (fun t ht r hr => Or.inl ⟨t, ht, rfl, r, hr, rfl⟩)
      (hinv.root_symbols_settled name hname root hroot)
  root_sections_settled := fun p m hpm r hr =>
    lnk_gc_settled_mono hash_of symtab objs V _ P P _ _ (fun _ h => List.mem_cons_of_mem _ h)
      (fun t ht r hr => Or.inl ⟨t, ht, rfl, r, hr, rfl⟩)
      (hinv.root_sections_settled p m hpm r hr)
  visited_settled := by
    intro q' n' hmem hw r hr
    rcases List.mem_cons.1 hmem with heq | hmem
    · cases heq
      exact absurd hw hnw
    · exact lnk_gc_settled_mono hash_of symtab objs V _ P P _ _
        (fun _ h => List.mem_cons_of_mem _ h)
        (fun t ht r hr => Or.inl ⟨t, ht, rfl, r, hr, rfl⟩)
        (hinv.visited_settled q' n' hmem hw r hr)

/-- Flags of the sections after the walk has cleared `LnkRemove` on a COMDAT section. -/
theorem lnk_gc_section_flags_modify (cur : List LNK_Obj) (q n q' n' : Nat)
    (hc : lnk_gc_section_flags cur q n &&& COFF_SectionFlag_LnkCOMDAT ≠ 0) :
    lnk_gc_section_flags (cur.modify (fun o => lnk_obj_unflag_section_removed o n) q) q' n'
      = if q' = q ∧ n' = n then
          lnk_gc_section_flags cur q n &&& (0xFFFFFFFF ^^^ COFF_SectionFlag_LnkRemove)
        else lnk_gc_section_flags cur q' n' := by
  have hq : q < cur.length := by
    by_contra hge
    rw [lnk_gc_section_flags_zero cur q n (by omega)] at hc
    simp at hc
  have hrange := lnk_coff_section_header_comdat_range (lnk_obj_from_ptr cur q) n hc
  unfold lnk_gc_section_flags
  rw [lnk_obj_from_ptr_modify_eq]
  by_cases hqq : q' = q
  · subst hqq
    rw [if_pos ⟨rfl, hq⟩, lnk_obj_unflag_section_removed_flags]
    by_cases hnn : n' = n
    · subst hnn
      rw [if_pos ⟨rfl, hrange⟩, if_pos ⟨rfl, rfl⟩]
    · have h1 : ¬ (n = n' ∧ 1 ≤ n' ∧ n' ≤ (lnk_obj_from_ptr cur q').section_table.length) :=
        fun h => hnn h.1.symm
      have h2 : ¬ (q' = q' ∧ n' = n) := fun h => hnn h.2
      rw [if_neg h1, if_neg h2]
  · have h1 : ¬ (q' = q ∧ q < cur.length) := fun h => hqq h.1
    have h2 : ¬ (q' = q ∧ n' = n) := fun h => hqq h.1
    rw [if_neg h1, if_neg h2]

/-- The invariant after the walk has visited a section whose relocations it follows. -/
theorem lnk_gc_inv_visit_walk (hash_of : String → Nat) (symtab : LNK_SymbolHashTrie)
    (include_symbol_list : List String) (objs cur : List LNK_Obj) (V : List (Nat × Nat))
    (P : List LNK_GCTask) (q n : Nat)
    (hinv : lnk_gc_inv hash_of symtab include_symbol_list objs cur V P)
    (hreach : lnk_gc_reached hash_of symtab include_symbol_list objs q n)
    (hw : lnk_gc_walked objs q n) :
    lnk_gc_inv hash_of symtab include_symbol_list objs
      (if lnk_gc_section_flags cur q n &&& COFF_SectionFlag_LnkCOMDAT ≠ 0 then
        cur.modify (fun o => lnk_obj_unflag_section_removed o n) q
       else cur)
      ((q, n) :: V)
      (lnk_gc_new_tasks q
          (lnk_coff_reloc_info_from_section_number (lnk_obj_from_ptr objs q) n) ++ P) := by
  have hCq : ∀ q' n', lnk_gc_section_flags cur q' n' &&& COFF_SectionFlag_LnkCOMDAT
      = lnk_gc_section_flags objs q' n' &&& COFF_SectionFlag_LnkCOMDAT := fun q' n' =>
    (lnk_obj_skeleton_fields _ _ (hinv.skeleton q')).2.2.2.2.2.2.2 n'
  have hflags : ∀ q' n',
      lnk_gc_section_flags
        (if lnk_gc_section_flags cur q n &&& COFF_SectionFlag_LnkCOMDAT ≠ 0 then
          cur.modify (fun o => lnk_obj_unflag_section_removed o n) q
         else cur) q' n'
      = if q' = q ∧ n' = n
            ∧ lnk_gc_section_flags objs q n &&& COFF_SectionFlag_LnkCOMDAT ≠ 0 then
          lnk_gc_section_flags cur q n &&& (0xFFFFFFFF ^^^ COFF_SectionFlag_LnkRemove)
        else lnk_gc_section_flags cur q' n' := by
    intro q' n'
    by_cases hc : lnk_gc_section_flags cur q n &&& COFF_SectionFlag_LnkCOMDAT ≠ 0
    · have hc' : lnk_gc_section_flags objs q n &&& COFF_SectionFlag_LnkCOMDAT ≠ 0 := by
        rw [← hCq]; exact hc
      rw [if_pos hc, lnk_gc_section_flags_modify cur q n q' n' hc]
      by_cases hqn : q' = q ∧ n' = n
      · rw [if_pos hqn, if_pos ⟨hqn.1, hqn.2, hc'⟩]
      · rw [if_neg hqn, if_neg (fun h => hqn ⟨h.1, h.2.1⟩)]
    · have hc' : ¬ lnk_gc_section_flags objs q n &&& COFF_SectionFlag_LnkCOMDAT ≠ 0 := by
        rw [← hCq]; exact hc
      rw [if_neg hc, if_neg (fun h => hc' h.2.2)]
  have hmono : ∀ p i, lnk_gc_settled hash_of symtab objs V P p i →
      lnk_gc_settled hash_of symtab objs ((q, n) :: V)
        (lnk_gc_new_tasks q
          (lnk_coff_reloc_info_from_section_number (lnk_obj_from_ptr objs q) n) ++ P) p i :=
    fun p i h => lnk_gc_settled_mono hash_of symtab objs V _ P _ p i
      (fun _ h => List.mem_cons_of_mem _ h)
      (fun t ht r hr => Or.inl ⟨t, List.mem_append_right _ ht, rfl, r, hr, rfl⟩) h
  refine
    { length_eq := ?_, skeleton := ?_, noncomdat := ?_, comdat_cleared := ?_,
      visited_cleared := ?_, visited_reached := ?_, pending_followed := ?_,
      root_symbols_settled := ?_, root_sections_settled := ?_, visited_settled := ?_ }
  · split
    · rw [List.length_modify]; exact hinv.length_eq
    · exact hinv.length_eq
  · intro q'
    split
    · rw [lnk_obj_from_ptr_modify_eq]
      split
      · rw [lnk_obj_unflag_section_removed_skeleton]; exact hinv.skeleton q'
      · exact hinv.skeleton q'
    · exact hinv.skeleton q'
  · intro q' n' hnc
    rw [hflags]
    by_cases hqn : q' = q ∧ n' = n
        ∧ lnk_gc_section_flags objs q n &&& COFF_SectionFlag_LnkCOMDAT ≠ 0
    · obtain ⟨h1, h2, h3⟩ := hqn
      subst h1; subst h2
      exact absurd hnc h3
    · rw [if_neg hqn]
      exact hinv.noncomdat q' n' hnc
  · intro q' n' hc h0
    rw [hflags] at h0
    by_cases hqn : q' = q ∧ n' = n
        ∧ lnk_gc_section_flags objs q n &&& COFF_SectionFlag_LnkCOMDAT ≠ 0
    · obtain ⟨h1, h2, _⟩ := hqn
      subst h1; subst h2
      exact ⟨List.mem_cons_self _ _, hw.1⟩
    · rw [if_neg hqn] at h0
      exact ⟨List.mem_cons_of_mem _ (hinv.comdat_cleared q' n' hc h0).1,
        (hinv.comdat_cleared q' n' hc h0).2⟩
  · intro q' n' hmem hq' hc hd
    rw [hflags]
    by_cases hqn : q' = q ∧ n' = n
        ∧ lnk_gc_section_flags objs q n &&& COFF_SectionFlag_LnkCOMDAT ≠ 0
    · rw [if_pos hqn]
      exact coff_lnk_remove_mask_and _
    · rw [if_neg hqn]
      rcases List.mem_cons.1 hmem with heq | hmem
      · cases heq
        exact absurd ⟨rfl, rfl, hc⟩ hqn
      · exact hinv.visited_cleared q' n' hmem hq' hc hd
  · intro q' n' hmem
    rcases List.mem_cons.1 hmem with heq | hmem
    · cases heq
      exact hreach
    · exact hinv.visited_reached q' n' hmem
  · intro t ht r hr q' n' htar
    rcases List.mem_append.1 ht with ht | ht
    · obtain ⟨hobj, hrel⟩ := lnk_gc_new_tasks_sound q _ t ht
      rw [hobj] at htar
      exact lnk_gc_reached.step q n r q' n' hreach hw (hrel r hr) htar
    · exact hinv.pending_followed t ht r hr q' n' htar
  · exact fun name hname root hroot => hmono _ _
      (hinv.root_symbols_settled name hname root hroot)
  · exact fun p m hpm r hr => hmono _ _ (hinv.root_sections_settled p m hpm r hr)
  · intro q' n' hmem hw' r hr
    rcases List.mem_cons.1 hmem with heq | hmem
    · cases heq
      obtain ⟨t, ht, hobj, hrt⟩ := lnk_gc_new_tasks_complete q _ r hr
      exact Or.inr ⟨t, List.mem_append_left _ ht, hobj, r, hrt, rfl⟩
    · exact hmono _ _ (hinv.visited_settled q' n' hmem hw' r hr)

/-- Visiting one section keeps the invariant of the walk; the tasks pushed are counted against
the pending work. -/
theorem lnk_gc_visit_section_inv (hash_of : String → Nat) (symtab : LNK_SymbolHashTrie)
    (include_symbol_list : List String) (objs : List LNK_Obj)
    (hidx : ∀ q, q < objs.length → (lnk_obj_from_ptr objs q).input_idx = q)
    (st : LNK_GCState) (P : List LNK_GCTask) (q n : Nat)
    (hinv : lnk_gc_inv hash_of symtab include_symbol_list objs st.objs st.was_section_visited P)
    (hq : q < objs.length)
    (hreach : lnk_gc_reached hash_of symtab include_symbol_list objs q n) :
    ∃ new : List LNK_GCTask,
      (lnk_gc_visit_section q st n).task_stack = lnk_gc_push_tasks st.task_stack new
      ∧ lnk_gc_inv hash_of symtab include_symbol_list objs (lnk_gc_visit_section q st n).objs
          (lnk_gc_visit_section q st n).was_section_visited (new ++ P)
      ∧ (q, n) ∈ (lnk_gc_visit_section q st n).was_section_visited
      ∧ (∀ s ∈ st.was_section_visited, s ∈ (lnk_gc_visit_section q st n).was_section_visited)
      ∧ new.length + lnk_gc_pending_work objs (lnk_gc_visit_section q st n).was_section_visited
          ≤ lnk_gc_pending_work objs st.was_section_visited := by
  have hf := lnk_obj_skeleton_fields _ _ (hinv.skeleton q)
  have hkey : (lnk_obj_from_ptr st.objs q).input_idx = q := hf.2.2.2.2.2.1.trans (hidx q hq)
  have hdbg : lnk_is_coff_section_debug (lnk_obj_from_ptr st.objs q)
      (lnk_sect_idx_from_section_number n)
      = lnk_is_coff_section_debug (lnk_obj_from_ptr objs q)
        (lnk_sect_idx_from_section_number n) := by
    unfold lnk_is_coff_section_debug
    rw [hf.2.2.2.2.1]
  have hrel : lnk_coff_reloc_info_from_section_number (lnk_obj_from_ptr st.objs q) n
      = lnk_coff_reloc_info_from_section_number (lnk_obj_from_ptr objs q) n := by
    unfold lnk_coff_reloc_info_from_section_number
    rw [hf.2.2.2.1]
  have hC : lnk_gc_section_flags st.objs q n &&& COFF_SectionFlag_LnkCOMDAT
      = lnk_gc_section_flags objs q n &&& COFF_SectionFlag_LnkCOMDAT := hf.2.2.2.2.2.2.2 n
  rw [lnk_gc_visit_section_eq, hkey, hdbg, hrel]
  by_cases hmem : (q, n) ∈ st.was_section_visited
  · rw [if_pos hmem]
    exact ⟨[], rfl, hinv, hmem, fun s h => h, by simp⟩
  · rw [if_neg hmem]
    have hwork := lnk_gc_pending_work_visit objs st.was_section_visited q n hq hmem
    by_cases hd : lnk_is_coff_section_debug (lnk_obj_from_ptr objs q)
        (lnk_sect_idx_from_section_number n) = true
    · rw [if_pos hd]
      refine ⟨[], rfl, ?_, List.mem_cons_self _ _, fun s h => List.mem_cons_of_mem _ h, ?_⟩
      · exact lnk_gc_inv_visit_skip hash_of symtab include_symbol_list objs st.objs _ P q n hinv
          hreach (fun hw => hw.1 hd)
      · simp only [List.length_nil, Nat.zero_add]
        omega
    · rw [if_neg hd]
      by_cases hskip : lnk_gc_section_flags st.objs q n &&& COFF_SectionFlag_LnkCOMDAT = 0
          ∧ lnk_gc_section_flags st.objs q n &&& COFF_SectionFlag_LnkRemove ≠ 0
      · rw [if_pos hskip]
        refine ⟨[], rfl, ?_, List.mem_cons_self _ _, fun s h => List.mem_cons_of_mem _ h, ?_⟩
        · refine lnk_gc_inv_visit_skip hash_of symtab include_symbol_list objs st.objs _ P q n
            hinv hreach ?_
          rintro ⟨_, hc | hr⟩
          · rw [← hC] at hc
            exact hc hskip.1
          · rw [← hinv.noncomdat q n (by rw [← hC]; exact hskip.1)] at hr
            exact hskip.2 hr
        · simp only [List.length_nil, Nat.zero_add]
          omega
      · rw [if_neg hskip]
        have hw : lnk_gc_walked objs q n := by
          refine ⟨hd, ?_⟩
          by_cases hc : lnk_gc_section_flags objs q n &&& COFF_SectionFlag_LnkCOMDAT = 0
          · right
            by_contra hr
            rw [← hinv.noncomdat q n hc] at hr
            exact hskip ⟨by rw [hC]; exact hc, hr⟩
          · exact Or.inl hc
        refine ⟨_, rfl, ?_, List.mem_cons_self _ _, fun s h => List.mem_cons_of_mem _ h, ?_⟩
        · exact lnk_gc_inv_visit_walk hash_of symtab include_symbol_list objs st.objs _ P q n
            hinv hreach hw
        · rw [lnk_gc_new_tasks_length]
          have : lnk_gc_section_task_count objs (q, n)
              = CeilIntegerDiv
                  (lnk_coff_reloc_info_from_section_number (lnk_obj_from_ptr objs q) n).length
                  1024 := rfl
          show CeilIntegerDiv _ 1024
            + lnk_gc_pending_work objs ((q, n) :: st.was_section_visited) ≤ _
          omega

/-- Visiting the sections of a list, one after the other, keeps the invariant of the walk. -/
theorem lnk_gc_visit_sections_inv (hash_of : String → Nat) (symtab : LNK_SymbolHashTrie)
    (include_symbol_list : List String) (objs : List LNK_Obj)
    (hidx : ∀ q, q < objs.length → (lnk_obj_from_ptr objs q).input_idx = q)
    (q : Nat) (hq : q < objs.length) :
    ∀ (L : List Nat) (st : LNK_GCState) (P : List LNK_GCTask),
      lnk_gc_inv hash_of symtab include_symbol_list objs st.objs st.was_section_visited P →
      (∀ n ∈ L, lnk_gc_reached hash_of symtab include_symbol_list objs q n) →
      ∃ new : List LNK_GCTask,
        (L.foldl (lnk_gc_visit_section q) st).task_stack
          = lnk_gc_push_tasks st.task_stack new
        ∧ lnk_gc_inv hash_of symtab include_symbol_list objs
            (L.foldl (lnk_gc_visit_section q) st).objs
            (L.foldl (lnk_gc_visit_section q) st).was_section_visited (new ++ P)
        ∧ (∀ n ∈ L, (q, n) ∈ (L.foldl (lnk_gc_visit_section q) st).was_section_visited)
        ∧ (∀ s ∈ st.was_section_visited,
            s ∈ (L.foldl (lnk_gc_visit_section q) st).was_section_visited)
        ∧ new.length
            + lnk_gc_pending_work objs (L.foldl (lnk_gc_visit_section q) st).was_section_visited
          ≤ lnk_gc_pending_work objs st.was_section_visited := by
  intro L
  induction L with
  | nil =>
    intro st P hinv _
    exact ⟨[], rfl, hinv, (fun n hn => by cases hn), fun s h => h, by simp⟩
  | cons n rest ih =>
    intro st P hinv hreach
    obtain ⟨new1, hs1, hinv1, hmem1, hsub1, hwork1⟩ := lnk_gc_visit_section_inv hash_of symtab
      include_symbol_list objs hidx st P q n hinv hq (hreach n (List.mem_cons_self _ _))
    obtain ⟨new2, hs2, hinv2, hmem2, hsub2, hwork2⟩ := ih (lnk_gc_visit_section q st n)
      (new1 ++ P) hinv1 (fun m hm => hreach m (List.mem_cons_of_mem _ hm))
    rw [List.foldl_cons]
    refine ⟨new1 ++ new2, ?_, ?_, ?_, ?_, ?_⟩
    · rw [hs2, hs1, lnk_gc_push_tasks_append]
    · refine lnk_gc_inv_pending hash_of symtab include_symbol_list objs _ _ _ _ hinv2 ?_ ?_
      · intro t ht r hr
        refine ⟨t, ?_, rfl, r, hr, rfl⟩
        simp only [List.mem_append] at ht ⊢
        tauto
      · intro t ht r hr
        refine Or.inl ⟨t, ?_, rfl, r, hr, rfl⟩
        simp only [List.mem_append] at ht ⊢
        tauto
    · intro m hm
      rcases List.mem_cons.1 hm with rfl | hm
      · exact hsub2 _ hmem1
      · exact hmem2 m hm
    · exact fun s hs => hsub2 s (hsub1 s hs)
    · rw [List.length_append]
      omega

/-- A relocation whose sections are visited leaves the task that is walked. -/
theorem lnk_gc_inv_step_done (hash_of : String → Nat) (symtab : LNK_SymbolHashTrie)
    (include_symbol_list : List String) (objs cur : List LNK_Obj) (V : List (Nat × Nat))
    (new S : List LNK_GCTask) (p : Nat) (r : COFF_Reloc) (rest : List COFF_Reloc)
    (hinv : lnk_gc_inv hash_of symtab include_symbol_list objs cur V
      (new ++ { obj := p, relocs := r :: rest } :: S))
    (hdone : ∀ q n, lnk_gc_target hash_of symtab objs p r.isymbol q n → (q, n) ∈ V) :
    lnk_gc_inv hash_of symtab include_symbol_list objs cur V
      ({ obj := p, relocs := rest } :: lnk_gc_push_tasks S new) := by
  refine lnk_gc_inv_pending hash_of symtab include_symbol_list objs cur V _ _ hinv ?_ ?_
  · intro t' ht' r' hr'
    rcases List.mem_cons.1 ht' with rfl | ht'
    · exact ⟨{ obj := p, relocs := r :: rest },
        List.mem_append_right _ (List.mem_cons_self _ _), rfl, r',
        List.mem_cons_of_mem _ hr', rfl⟩
    · refine ⟨t', ?_, rfl, r', hr', rfl⟩
      rcases (lnk_gc_push_tasks_mem S new t').1 ht' with h | h
      · exact List.mem_append_left _ h
      · exact List.mem_append_right _ (List.mem_cons_of_mem _ h)
  · intro t ht r0 hr0
    rcases List.mem_append.1 ht with h | h
    · exact Or.inl ⟨t, List.mem_cons_of_mem _ ((lnk_gc_push_tasks_mem S new t).2 (Or.inl h)),
        rfl, r0, hr0, rfl⟩
    · rcases List.mem_cons.1 h with rfl | h
      · rcases List.mem_cons.1 hr0 with rfl | hr0
        · exact Or.inr hdone
        · exact Or.inl ⟨{ obj := p, relocs := rest }, List.mem_cons_self _ _, rfl, r0, hr0,
            rfl⟩
      · exact Or.inl ⟨t, List.mem_cons_of_mem _ ((lnk_gc_push_tasks_mem S new t).2 (Or.inr h)),
          rfl, r0, hr0, rfl⟩

/-- Walking one relocation of a task keeps the invariant of the walk and does not raise the
measure of the walk. -/
theorem lnk_gc_walk_reloc_inv (hash_of : String → Nat) (symtab : LNK_SymbolHashTrie)
    (include_symbol_list : List String) (objs : List LNK_Obj)
    (hidx : ∀ q, q < objs.length → (lnk_obj_from_ptr objs q).input_idx = q)
    (hres : ∀ p i, ∃ res,
      lnk_resolve_symbol hash_of symtab objs { obj := p, symbol_idx := i } = some res
      ∧ ∀ sym, res = some sym →
          coff_interp_from_parsed_symbol (lnk_parsed_symbol_from_coff_symbol_idx
            (lnk_obj_from_ptr objs sym.obj) sym.symbol_idx) = .Regular →
          sym.obj < objs.length)
    (st : LNK_GCState) (p : Nat) (r : COFF_Reloc) (rest : List COFF_Reloc)
    (hinv : lnk_gc_inv hash_of symtab include_symbol_list objs st.objs st.was_section_visited
      ({ obj := p, relocs := r :: rest } :: st.task_stack)) :
    ∃ st1, lnk_gc_walk_reloc hash_of symtab p st r = some st1
      ∧ lnk_gc_inv hash_of symtab include_symbol_list objs st1.objs st1.was_section_visited
          ({ obj := p, relocs := rest } :: st1.task_stack)
      ∧ st1.task_stack.length + lnk_gc_pending_work objs st1.was_section_visited
          ≤ st.task_stack.length + lnk_gc_pending_work objs st.was_section_visited := by
  obtain ⟨res, hr, hvalid⟩ := hres p r.isymbol
  have hrcur : lnk_resolve_symbol hash_of symtab st.objs { obj := p, symbol_idx := r.isymbol }
      = some res := by
    rw [lnk_resolve_symbol_skeleton hash_of symtab objs st.objs hinv.skeleton]
    exact hr
  unfold lnk_gc_walk_reloc
  rw [hrcur]
  cases res with
  | none =>
    refine ⟨st, rfl, ?_, Nat.le_refl _⟩
    refine lnk_gc_inv_step_done hash_of symtab include_symbol_list objs st.objs _ [] _ p r rest
      hinv ?_
    rintro q n ⟨sym, hsym, _⟩
    rw [hr] at hsym
    cases hsym
  | some sym =>
    have hf := lnk_obj_skeleton_fields _ _ (hinv.skeleton sym.obj)
    have hparsed : lnk_parsed_symbol_from_coff_symbol_idx (lnk_obj_from_ptr st.objs sym.obj)
        sym.symbol_idx
        = lnk_parsed_symbol_from_coff_symbol_idx (lnk_obj_from_ptr objs sym.obj)
          sym.symbol_idx := by
      unfold lnk_parsed_symbol_from_coff_symbol_idx
      rw [hf.1]
    simp only [hparsed, hf.2.2.1]
    by_cases hreg : coff_interp_from_parsed_symbol (lnk_parsed_symbol_from_coff_symbol_idx
        (lnk_obj_from_ptr objs sym.obj) sym.symbol_idx) = .Regular
    · rw [if_pos hreg]
      have hq := hvalid sym rfl hreg
      obtain ⟨new, hs, hinv1, hmem, _, hwork⟩ := lnk_gc_visit_sections_inv hash_of symtab
        include_symbol_list objs hidx sym.obj hq _ st _ hinv
        (fun n hn => hinv.pending_followed _ (List.mem_cons_self _ _) r
          (List.mem_cons_self _ _) sym.obj n ⟨sym, hr, hreg, rfl, hn⟩)
      refine ⟨_, rfl, ?_, ?_⟩
      · rw [hs]
        refine lnk_gc_inv_step_done hash_of symtab include_symbol_list objs _ _ new _ p r rest
          hinv1 ?_
        rintro q n ⟨sym', hsym', _, hq', hn'⟩
        rw [hr] at hsym'
        cases hsym'
        rw [hq']
        exact hmem n hn'
      · rw [hs, lnk_gc_push_tasks_length]
        omega
    · rw [if_neg hreg]
      refine ⟨st, rfl, ?_, Nat.le_refl _⟩
      refine lnk_gc_inv_step_done hash_of symtab include_symbol_list objs st.objs _ [] _ p r
        rest hinv ?_
      rintro q n ⟨sym', hsym', hreg', _⟩
      rw [hr] at hsym'
      cases hsym'
      exact absurd hreg' hreg

/-- Walking the relocations of a task keeps the invariant of the walk and does not raise the
measure of the walk. -/
theorem lnk_gc_walk_relocs_inv (hash_of : String → Nat) (symtab : LNK_SymbolHashTrie)
    (include_symbol_list : List String) (objs : List LNK_Obj)
    (hidx : ∀ q, q < objs.length → (lnk_obj_from_ptr objs q).input_idx = q)
    (hres : ∀ p i, ∃ res,
      lnk_resolve_symbol hash_of symtab objs { obj := p, symbol_idx := i } = some res
      ∧ ∀ sym, res = some sym →
          coff_interp_from_parsed_symbol (lnk_parsed_symbol_from_coff_symbol_idx
            (lnk_obj_from_ptr objs sym.obj) sym.symbol_idx) = .Regular →
          sym.obj < objs.length)
    (p : Nat) :
    ∀ (relocs : List COFF_Reloc) (st : LNK_GCState),
      lnk_gc_inv hash_of symtab include_symbol_list objs st.objs st.was_section_visited
        ({ obj := p, relocs := relocs } :: st.task_stack) →
      ∃ st1, lnk_gc_walk_relocs hash_of symtab p st relocs = some st1
        ∧ lnk_gc_inv hash_of symtab include_symbol_list objs st1.objs st1.was_section_visited
            st1.task_stack
        ∧ st1.task_stack.length + lnk_gc_pending_work objs st1.was_section_visited
            ≤ st.task_stack.length + lnk_gc_pending_work objs st.was_section_visited := by
  intro relocs
  induction relocs with
  | nil =>
    intro st hinv
    refine ⟨st, rfl, ?_, Nat.le_refl _⟩
    refine lnk_gc_inv_pending hash_of symtab include_symbol_list objs _ _ _ _ hinv ?_ ?_
    · intro t ht r hr
      exact ⟨t, List.mem_cons_of_mem _ ht, rfl, r, hr, rfl⟩
    · intro t ht r hr
      rcases List.mem_cons.1 ht with rfl | ht
      · cases hr
      · exact Or.inl ⟨t, ht, rfl, r, hr, rfl⟩
  | cons r rest ih =>
    intro st hinv
    obtain ⟨st1, h1, hinv1, hm1⟩ := lnk_gc_walk_reloc_inv hash_of symtab include_symbol_list
      objs hidx hres st p r rest hinv
    obtain ⟨st2, h2, hinv2, hm2⟩ := ih st1 hinv1
    refine ⟨st2, ?_, hinv2, by omega⟩
    simp only [lnk_gc_walk_relocs, h1]
    exact h2

/-- With enough fuel the walk ends with an empty task stack and keeps its invariant. -/
theorem lnk_gc_walk_inv (hash_of : String → Nat) (symtab : LNK_SymbolHashTrie)
    (include_symbol_list : List String) (objs : List LNK_Obj)
    (hidx : ∀ q, q < objs.length → (lnk_obj_from_ptr objs q).input_idx = q)
    (hres : ∀ p i, ∃ res,
      lnk_resolve_symbol hash_of symtab objs { obj := p, symbol_idx := i } = some res
      ∧ ∀ sym, res = some sym →
          coff_interp_from_parsed_symbol (lnk_parsed_symbol_from_coff_symbol_idx
            (lnk_obj_from_ptr objs sym.obj) sym.symbol_idx) = .Regular →
          sym.obj < objs.length) :
    ∀ (fuel : Nat) (st : LNK_GCState),
      lnk_gc_inv hash_of symtab include_symbol_list objs st.objs st.was_section_visited
        st.task_stack →
      st.task_stack.length + lnk_gc_pending_work objs st.was_section_visited ≤ fuel →
      ∃ st1, lnk_gc_walk hash_of symtab fuel st = some st1
        ∧ lnk_gc_inv hash_of symtab include_symbol_list objs st1.objs st1.was_section_visited
            [] := by
  intro fuel
  induction fuel with
  | zero =>
    intro st hinv hfuel
    have hnil : st.task_stack = [] := by
      cases hs : st.task_stack with
      | nil => rfl
      | cons t rest => rw [hs] at hfuel; simp at hfuel
    refine ⟨st, ?_, by rw [← hnil]; exact hinv⟩
    simp only [lnk_gc_walk, hnil]
  | succ fuel ih =>
    intro st hinv hfuel
    cases hs : st.task_stack with
    | nil =>
      refine ⟨st, ?_, by rw [← hs]; exact hinv⟩
      simp only [lnk_gc_walk, hs]
    | cons t rest =>
      rw [hs] at hinv hfuel
      obtain ⟨st1, h1, hinv1, hm1⟩ := lnk_gc_walk_relocs_inv hash_of symtab
        include_symbol_list objs hidx hres t.obj t.relocs { st with task_stack := rest } hinv
      have hfuel1 : st1.task_stack.length + lnk_gc_pending_work objs st1.was_section_visited
          ≤ fuel := by
        simp only [List.length_cons] at hfuel
        simp only at hm1
        omega
      obtain ⟨st2, h2, hinv2⟩ := ih st1 hinv1 hfuel1
      refine ⟨st2, ?_, hinv2⟩
      simp only [lnk_gc_walk, hs, h1]
      exact h2

/-- The task stack after the loop "push tasks for each root symbol". -/
theorem lnk_gc_push_root_symbols_spec (hash_of : String → Nat) (symtab : LNK_SymbolHashTrie) :
    ∀ (names : List String) (task_stack : List LNK_GCTask),
      (∀ name ∈ names, lnk_symbol_table_search hash_of symtab name ≠ none) →
      ∃ stack, lnk_gc_push_root_symbols hash_of symtab task_stack names = some stack
        ∧ ∀ t, t ∈ stack ↔
            (t ∈ task_stack
              ∨ ∃ name ∈ names, ∃ root, lnk_symbol_table_search hash_of symtab name = some root
                  ∧ t = { obj := root.u.defined.obj,
                          relocs := [{ apply_off := 0, isymbol := root.u.defined.symbol_idx,
                                       type := 0 }] }) := by
  intro names
  induction names with
  | nil =>
    intro task_stack _
    exact ⟨task_stack, rfl, by simp⟩
  | cons name rest ih =>
    intro task_stack hdef
    cases hroot : lnk_symbol_table_search hash_of symtab name with
    | none => exact absurd hroot (hdef name (List.mem_cons_self _ _))
    | some root =>
      obtain ⟨stack, hs, hmem⟩ := ih
        ({ obj := root.u.defined.obj,
           relocs := [{ apply_off := 0, isymbol := root.u.defined.symbol_idx, type := 0 }] }
          :: task_stack)
        (fun n hn => hdef n (List.mem_cons_of_mem _ hn))
      refine ⟨stack, ?_, ?_⟩
      · simp only [lnk_gc_push_root_symbols, hroot]
        exact hs
      · intro t
        rw [hmem t, List.mem_cons]
        constructor
        · rintro ((h | h) | ⟨n, hn, r, hr, ht⟩)
          · exact Or.inr ⟨name, List.mem_cons_self _ _, root, hroot, h⟩
          · exact Or.inl h
          · exact Or.inr ⟨n, List.mem_cons_of_mem _ hn, r, hr, ht⟩
        · rintro (h | ⟨n, hn, r, hr, ht⟩)
          · exact Or.inl (Or.inr h)
          · rcases List.mem_cons.1 hn with rfl | hn
            · rw [hroot] at hr
              cases hr
              exact Or.inl (Or.inl ht)
            · exact Or.inr ⟨n, hn, r, hr, ht⟩

theorem lnk_gc_foldl_mem {α τ : Type} (step : List τ → α → List τ) (C : α → τ → Prop)
    (hstep : ∀ s x t, t ∈ step s x ↔ (t ∈ s ∨ C x t)) :
    ∀ (xs : List α) (s : List τ) (t : τ),
      t ∈ xs.foldl step s ↔ (t ∈ s ∨ ∃ x ∈ xs, C x t) := by
  intro xs
  induction xs with
  | nil => intro s t; simp
  | cons x rest ih =>
    intro s t
    rw [List.foldl_cons, ih, hstep]
    constructor
    · rintro ((h | h) | ⟨y, hy, h⟩)
      · exact Or.inl h
      · exact Or.inr ⟨x, List.mem_cons_self _ _, h⟩
      · exact Or.inr ⟨y, List.mem_cons_of_mem _ hy, h⟩
    · rintro (h | ⟨y, hy, h⟩)
      · exact Or.inl (Or.inl h)
      · rcases List.mem_cons.1 hy with rfl | hy
        · exact Or.inl (Or.inr h)
        · exact Or.inr ⟨y, hy, h⟩

/-- The task stack after the loop "push task for every non-COMDAT section". -/
theorem lnk_gc_push_root_sections_mem (objs : List LNK_Obj) (task_stack : List LNK_GCTask)
    (t : LNK_GCTask) :
    t ∈ lnk_gc_push_root_sections objs task_stack ↔
      (t ∈ task_stack
        ∨ ∃ q n, lnk_gc_root_section objs q n
            ∧ t ∈ lnk_gc_new_tasks q
                (lnk_coff_reloc_info_from_section_number (lnk_obj_from_ptr objs q) n)) := by
  have hsec : ∀ (q : Nat) (s : List LNK_GCTask) (i : Nat) (t : LNK_GCTask),
      t ∈ lnk_gc_push_root_section objs q s i ↔
        (t ∈ s
          ∨ (lnk_is_coff_section_debug (lnk_obj_from_ptr objs q) i = false
              ∧ lnk_gc_section_flags objs q (i + 1) &&& COFF_SectionFlag_LnkCOMDAT = 0
              ∧ lnk_gc_section_flags objs q (i + 1) &&& COFF_SectionFlag_LnkRemove = 0
              ∧ t ∈ lnk_gc_new_tasks q
                  (lnk_coff_reloc_info_from_section_number (lnk_obj_from_ptr objs q)
                    (i + 1)))) := by
    intro q s i t
    unfold lnk_gc_push_root_section lnk_gc_section_flags
    by_cases hd : lnk_is_coff_section_debug (lnk_obj_from_ptr objs q) i = true
    · rw [if_pos hd]
      constructor
      · exact Or.inl
      · rintro (h | ⟨hf, _⟩)
        · exact h
        · rw [hd] at hf
          cases hf
    · rw [if_neg hd]
      have hd' : lnk_is_coff_section_debug (lnk_obj_from_ptr objs q) i = false := by
        simpa using hd
      by_cases hc : (lnk_coff_section_header_from_section_number (lnk_obj_from_ptr objs q)
            (i + 1)).flags &&& COFF_SectionFlag_LnkCOMDAT = 0
          ∧ (lnk_coff_section_header_from_section_number (lnk_obj_from_ptr objs q)
            (i + 1)).flags &&& COFF_SectionFlag_LnkRemove = 0
      · rw [if_pos hc, lnk_gc_push_tasks_mem]
        constructor
        · rintro (h | h)
          · exact Or.inr ⟨hd', hc.1, hc.2, h⟩
          · exact Or.inl h
        · rintro (h | ⟨_, _, _, h⟩)
          · exact Or.inr h
          · exact Or.inl h
      · rw [if_neg hc]
        constructor
        · exact Or.inl
        · rintro (h | ⟨_, h1, h2, _⟩)
          · exact h
          · exact absurd ⟨h1, h2⟩ hc
  have hobj : ∀ (s : List LNK_GCTask) (q : Nat) (t : LNK_GCTask),
      t ∈ (List.range (lnk_obj_from_ptr objs q).section_table.length).foldl
          (lnk_gc_push_root_section objs q) s ↔
        (t ∈ s
          ∨ ∃ n, q < objs.length ∧ lnk_gc_root_section objs q n
              ∧ t ∈ lnk_gc_new_tasks q
                  (lnk_coff_reloc_info_from_section_number (lnk_obj_from_ptr objs q) n)) := by
    intro s q t
    rw [lnk_gc_foldl_mem (lnk_gc_push_root_section objs q) _ (hsec q)]
    constructor
    · rintro (h | ⟨i, hi, hd, hc, hr, ht⟩)
      · exact Or.inl h
      · have hlt := List.mem_range.1 hi
        have hq : q < objs.length := by
          by_contra hge
          have : lnk_obj_from_ptr objs q = LNK_Obj.zero := by
            unfold lnk_obj_from_ptr
            rw [List.getD_eq_default _ _ (by omega)]
          rw [this] at hlt
          simp [LNK_Obj.zero] at hlt
        exact Or.inr ⟨i + 1, hq, ⟨hq, by omega, by omega, by simpa using hd, hc, hr⟩, ht⟩
    · rintro (h | ⟨n, _, ⟨_, h1, h2, hd, hc, hr⟩, ht⟩)
      · exact Or.inl h
      · refine Or.inr ⟨n - 1, List.mem_range.2 (by omega), ?_⟩
        have hn : n - 1 + 1 = n := by omega
        rw [hn]
        exact ⟨hd, hc, hr, ht⟩
  unfold lnk_gc_push_root_sections
  rw [lnk_gc_foldl_mem _ _ (fun s q t => hobj s q t)]
  constructor
  · rintro (h | ⟨q, _, n, _, hroot, ht⟩)
    · exact Or.inl h
    · exact Or.inr ⟨q, n, hroot, ht⟩
  · rintro (h | ⟨q, n, hroot, ht⟩)
    · exact Or.inl h
    · exact Or.inr ⟨q, List.mem_range.2 hroot.1, n, hroot.1, hroot, ht⟩

/-- The invariant of the walk holds when the walk starts. -/
theorem lnk_gc_inv_init (hash_of : String → Nat) (symtab : LNK_SymbolHashTrie)
    (include_symbol_list : List String) (objs : List LNK_Obj)
    (root_stack : List LNK_GCTask)
    (hroot : ∀ t, t ∈ root_stack ↔
      ∃ name ∈ lnk_gc_root_names hash_of symtab include_symbol_list,
        ∃ root, lnk_symbol_table_search hash_of symtab name = some root
          ∧ t = { obj := root.u.defined.obj,
                  relocs := [{ apply_off := 0, isymbol := root.u.defined.symbol_idx,
                               type := 0 }] }) :
    lnk_gc_inv hash_of symtab include_symbol_list objs (objs.map lnk_gc_flag_comdats) []
      (lnk_gc_push_root_sections objs root_stack) := by
  have hptr : ∀ q, lnk_obj_from_ptr (objs.map lnk_gc_flag_comdats) q
      = lnk_gc_flag_comdats (lnk_obj_from_ptr objs q) :=
    fun q => lnk_obj_from_ptr_map objs lnk_gc_flag_comdats (by decide) q
  have hflags : ∀ q n, lnk_gc_section_flags (objs.map lnk_gc_flag_comdats) q n
      = if lnk_gc_section_flags objs q n &&& COFF_SectionFlag_LnkCOMDAT ≠ 0 then
          lnk_gc_section_flags objs q n ||| COFF_SectionFlag_LnkRemove
        else lnk_gc_section_flags objs q n := by
    intro q n
    unfold lnk_gc_section_flags
    rw [hptr, lnk_gc_flag_comdats_flags]
  refine
    { length_eq := by simp, skeleton := ?_, noncomdat := ?_, comdat_cleared := ?_,
      visited_cleared := ?_, visited_reached := ?_, pending_followed := ?_,
      root_symbols_settled := ?_, root_sections_settled := ?_, visited_settled := ?_ }
  · intro q
    rw [hptr, lnk_gc_flag_comdats_skeleton]
  · intro q n hnc
    rw [hflags, if_neg (by simpa using hnc)]
  · intro q n hc h0
    rw [hflags, if_pos hc, coff_lnk_remove_or] at h0
    exact absurd h0 (by decide)
  · intro q n hmem
    cases hmem
  · intro q n hmem
    cases hmem
  · intro t ht r hr q n htar
    rcases (lnk_gc_push_root_sections_mem objs root_stack t).1 ht with h | ⟨p, m, hpm, h⟩
    · obtain ⟨name, hname, root, hsearch, rfl⟩ := (hroot t).1 h
      rw [List.mem_singleton.1 hr] at htar
      exact lnk_gc_reached.root_symbol name root q n hname hsearch htar
    · obtain ⟨hobj, hrel⟩ := lnk_gc_new_tasks_sound p _ t h
      rw [hobj] at htar
      exact lnk_gc_reached.root_section p m r q n hpm (hrel r hr) htar
  · intro name hname root hsearch
    refine Or.inr ⟨_, (lnk_gc_push_root_sections_mem objs root_stack _).2
      (Or.inl ((hroot _).2 ⟨name, hname, root, hsearch, rfl⟩)), rfl, _,
      List.mem_singleton_self _, rfl⟩
  · intro p m hpm r hr
    obtain ⟨t, ht, hobj, hrt⟩ := lnk_gc_new_tasks_complete p _ r hr
    exact Or.inr ⟨t, (lnk_gc_push_root_sections_mem objs root_stack t).2
      (Or.inr ⟨p, m, hpm, ht⟩), hobj, r, hrt, rfl⟩
  · intro q n hmem
    cases hmem

/-- When no task is pending, every section the walk reaches is visited. -/
theorem lnk_gc_reached_visited (hash_of : String → Nat) (symtab : LNK_SymbolHashTrie)
    (include_symbol_list : List String) (objs cur : List LNK_Obj) (V : List (Nat × Nat))
    (hinv : lnk_gc_inv hash_of symtab include_symbol_list objs cur V [])
    (q n : Nat) (h : lnk_gc_reached hash_of symtab include_symbol_list objs q n) :
    (q, n) ∈ V := by
  have hdone : ∀ p i, lnk_gc_settled hash_of symtab objs V [] p i →
      ∀ q n, lnk_gc_target hash_of symtab objs p i q n → (q, n) ∈ V := by
    intro p i hs
    rcases hs with hd | ⟨t, ht, _⟩
    · exact hd
    · cases ht
  induction h with
  | root_symbol name root q n hname hsearch htar =>
    exact hdone _ _ (hinv.root_symbols_settled name hname root hsearch) q n htar
  | root_section p m r q n hpm hr htar =>
    exact hdone _ _ (hinv.root_sections_settled p m hpm r hr) q n htar
  | step p m r q n _ hw hr htar ih =>
    exact hdone _ _ (hinv.visited_settled p m ih hw r hr) q n htar

/-- The block "unset flag on debug sections that associate with live sections" keeps the flags
of a section that is no debug section or is on no associated-sections list of the object. -/
theorem lnk_gc_unflag_debug_flags (obj : LNK_Obj) (n : Nat)
    (h : lnk_is_coff_section_debug obj (lnk_sect_idx_from_section_number n) = false
      ∨ ∀ m, n ∉ obj.associated_sections.getD m []) :
    (lnk_coff_section_header_from_section_number (lnk_gc_unflag_debug obj) n).flags
      = (lnk_coff_section_header_from_section_number obj n).flags := by
  have hinner : ∀ (L : List Nat) (o : LNK_Obj),
      (∀ n' ∈ L, n' = n →
        lnk_is_coff_section_debug obj (lnk_sect_idx_from_section_number n) = false) →
      lnk_obj_skeleton o = lnk_obj_skeleton obj →
      lnk_obj_skeleton (L.foldl
          (fun o n' =>
            if lnk_is_coff_section_debug o (lnk_sect_idx_from_section_number n') then
              lnk_obj_unflag_section_removed o n'
            else o) o) = lnk_obj_skeleton obj
      ∧ (lnk_coff_section_header_from_section_number (L.foldl
          (fun o n' =>
            if lnk_is_coff_section_debug o (lnk_sect_idx_from_section_number n') then
              lnk_obj_unflag_section_removed o n'
            else o) o) n).flags
        = (lnk_coff_section_header_from_section_number o n).flags := by
    intro L
    induction L with
    | nil => intro o _ hsk; exact ⟨hsk, rfl⟩
    | cons n' rest ih =>
      intro o hL hsk
      rw [List.foldl_cons]
      by_cases hd : lnk_is_coff_section_debug o (lnk_sect_idx_from_section_number n') = true
      · rw [if_pos hd]
        have hne : n' ≠ n := by
          intro heq
          have hfalse := hL n' (List.mem_cons_self _ _) heq
          have hdbg : o.debug_sections = obj.debug_sections :=
            (lnk_obj_skeleton_fields _ _ hsk).2.2.2.2.1
          unfold lnk_is_coff_section_debug at hd hfalse
          rw [hdbg, heq, hfalse] at hd
          cases hd
        obtain ⟨h1, h2⟩ := ih (lnk_obj_unflag_section_removed o n')
          (fun m hm => hL m (List.mem_cons_of_mem _ hm))
          (by rw [lnk_obj_unflag_section_removed_skeleton]; exact hsk)
        refine ⟨h1, ?_⟩
        rw [h2, lnk_obj_unflag_section_removed_flags, if_neg (fun hh => hne hh.1)]
      · rw [if_neg hd]
        exact ih o (fun m hm => hL m (List.mem_cons_of_mem _ hm)) hsk
  have houter : ∀ (K : List Nat) (o : LNK_Obj),
      lnk_obj_skeleton o = lnk_obj_skeleton obj →
      lnk_obj_skeleton (K.foldl lnk_gc_unflag_debug_associates o) = lnk_obj_skeleton obj
      ∧ (lnk_coff_section_header_from_section_number
          (K.foldl lnk_gc_unflag_debug_associates o) n).flags
        = (lnk_coff_section_header_from_section_number o n).flags := by
    intro K
    induction K with
    | nil => intro o hsk; exact ⟨hsk, rfl⟩
    | cons k rest ih =>
      intro o hsk
      rw [List.foldl_cons]
      have hstep : lnk_obj_skeleton (lnk_gc_unflag_debug_associates o k)
            = lnk_obj_skeleton obj
          ∧ (lnk_coff_section_header_from_section_number
              (lnk_gc_unflag_debug_associates o k) n).flags
            = (lnk_coff_section_header_from_section_number o n).flags := by
        unfold lnk_gc_unflag_debug_associates
        simp only
        split
        · exact ⟨hsk, rfl⟩
        · apply hinner _ o _ hsk
          intro n' hn' heq
          rcases h with h | h
          · exact h
          · have hassoc : o.associated_sections = obj.associated_sections :=
              (lnk_obj_skeleton_fields _ _ hsk).2.2.1
            rw [hassoc, heq] at hn'
            exact absurd hn' (h _)
      obtain ⟨h1, h2⟩ := ih _ hstep.1
      exact ⟨h1, by rw [h2, hstep.2]⟩
  exact (houter _ obj rfl).2

/-- With enough fuel `lnk_gc_comdats` returns, and the walk ends in a state that satisfies the
invariant with no task pending. -/
theorem lnk_gc_comdats_spec (hash_of : String → Nat) (symtab : LNK_SymbolHashTrie)
    (include_symbol_list : List String) (objs : List LNK_Obj)
    (hidx : ∀ q, q < objs.length → (lnk_obj_from_ptr objs q).input_idx = q)
    (hres : ∀ p i, ∃ res,
      lnk_resolve_symbol hash_of symtab objs { obj := p, symbol_idx := i } = some res
      ∧ ∀ sym, res = some sym →
          coff_interp_from_parsed_symbol (lnk_parsed_symbol_from_coff_symbol_idx
            (lnk_obj_from_ptr objs sym.obj) sym.symbol_idx) = .Regular →
          sym.obj < objs.length)
    (hroots : ∀ name ∈ include_symbol_list,
      lnk_symbol_table_search hash_of symtab name ≠ none) :
    ∃ bound, ∀ fuel, bound ≤ fuel →
      ∃ st : LNK_GCState,
        lnk_gc_comdats hash_of symtab include_symbol_list fuel objs
          = some (st.objs.map lnk_gc_unflag_debug)
        ∧ lnk_gc_inv hash_of symtab include_symbol_list objs st.objs st.was_section_visited
            [] := by
  have hnames : ∀ name ∈ lnk_gc_root_names hash_of symtab include_symbol_list,
      lnk_symbol_table_search hash_of symtab name ≠ none := by
    intro name hname
    unfold lnk_gc_root_names at hname
    cases htls : lnk_symbol_table_search hash_of symtab MSCRT_TLS_SYMBOL_NAME with
    | none =>
      rw [htls] at hname
      exact hroots name hname
    | some tls =>
      rw [htls] at hname
      rcases List.mem_append.1 hname with h | h
      · exact hroots name h
      · rw [List.mem_singleton.1 h, htls]
        simp
  obtain ⟨root_stack, hrs, hmem⟩ := lnk_gc_push_root_symbols_spec hash_of symtab
    (lnk_gc_root_names hash_of symtab include_symbol_list) [] hnames
  have hroot : ∀ t, t ∈ root_stack ↔
      ∃ name ∈ lnk_gc_root_names hash_of symtab include_symbol_list,
        ∃ root, lnk_symbol_table_search hash_of symtab name = some root
          ∧ t = { obj := root.u.defined.obj,
                  relocs := [{ apply_off := 0, isymbol := root.u.defined.symbol_idx,
                               type := 0 }] } := by
    intro t
    rw [hmem t]
    simp
  have hinit := lnk_gc_inv_init hash_of symtab include_symbol_list objs root_stack hroot
  refine ⟨(lnk_gc_push_root_sections objs root_stack).length + lnk_gc_pending_work objs [],
    ?_⟩
  intro fuel hfuel
  obtain ⟨st, hwalk, hinv⟩ := lnk_gc_walk_inv hash_of symtab include_symbol_list objs hidx hres
    fuel
    { objs := objs.map lnk_gc_flag_comdats, was_section_visited := [],
      task_stack := lnk_gc_push_root_sections objs root_stack }
    hinit hfuel
  refine ⟨st, ?_, hinv⟩
  simp only [lnk_gc_comdats, hrs, hwalk]

/-- Flags of a section when `lnk_gc_comdats` returns, for a section that is no debug section or
is on no associated-sections list of its object: the flags at the end of the walk. -/
theorem lnk_gc_final_flags (hash_of : String → Nat) (symtab : LNK_SymbolHashTrie)
    (include_symbol_list : List String) (objs cur : List LNK_Obj) (V : List (Nat × Nat))
    (hinv : lnk_gc_inv hash_of symtab include_symbol_list objs cur V [])
    (q n : Nat)
    (h : ¬ lnk_gc_is_debug objs q n
      ∨ ∀ m, n ∉ (lnk_obj_from_ptr objs q).associated_sections.getD m []) :
    lnk_gc_section_flags (cur.map lnk_gc_unflag_debug) q n = lnk_gc_section_flags cur q n := by
  have hf := lnk_obj_skeleton_fields _ _ (hinv.skeleton q)
  unfold lnk_gc_section_flags
  rw [lnk_obj_from_ptr_map cur lnk_gc_unflag_debug (by decide) q]
  apply lnk_gc_unflag_debug_flags
  rcases h with h | h
  · left
    unfold lnk_gc_is_debug at h
    unfold lnk_is_coff_section_debug at h ⊢
    rw [hf.2.2.2.2.1]
    simpa using h
  · right
    rw [hf.2.2.1]
    exact h

/-- C13, counterexample. Section 1 of the object is a root whose relocation resolves to the
Regular symbol of section 2; section 3 is on the associated-sections list of section 2 and
section 4 on the one of section 3, so section 4 is reachable by a relocation and two
associated-section edges. After `lnk_gc_comdats` the COMDAT sections 2 and 3 lack `LnkRemove`,
section 4 carries it. -/
theorem C13_counterexample :
    lnk_gc_root_section fixture_gc_chain 0 1
    ∧ lnk_coff_reloc_info_from_section_number (lnk_obj_from_ptr fixture_gc_chain 0) 1
        = [⟨0, 1, 0⟩]
    ∧ lnk_resolve_symbol (fun _ => 0) .null fixture_gc_chain ⟨0, 1⟩ = some (some ⟨0, 1⟩)
    ∧ lnk_parsed_symbol_from_coff_symbol_idx (lnk_obj_from_ptr fixture_gc_chain 0) 1
        = { name := "s", section_number := 2, value := 0, interp := .Regular }
    ∧ (lnk_obj_from_ptr fixture_gc_chain 0).associated_sections.getD 2 [] = [3]
    ∧ (lnk_obj_from_ptr fixture_gc_chain 0).associated_sections.getD 3 [] = [4]
    ∧ lnk_gc_section_flags fixture_gc_chain 0 4 &&& COFF_SectionFlag_LnkCOMDAT ≠ 0
    ∧ ¬ lnk_gc_is_debug fixture_gc_chain 0 4
    ∧ (lnk_gc_comdats (fun _ => 0) .null [] 10 fixture_gc_chain).map lnk_objs_section_flags
        = some [[0, 0x1000, 0x1000, 0x1000 ||| COFF_SectionFlag_LnkRemove]] := by
  refine ⟨?_, by decide, by decide, by decide, by decide, by decide, by decide, ?_, by decide⟩
  · exact ⟨by decide, by decide, by decide, by decide, by decide, by decide⟩
  · unfold lnk_gc_is_debug
    decide

/-- C13, amended. Let the input index of every object be its position and let every symbol
reference resolve without the dereference of a null symbol, a Regular result in an object of
the list, and every include symbol be defined. Then `lnk_gc_comdats` returns for every
sufficient number of iterations, and in the objects it returns a COMDAT section that is no
debug section lacks `LnkRemove` if and only if the walk reaches it (`lnk_gc_reached`): a
followed relocation resolves through `lnk_resolve_symbol` to a Regular symbol whose section it
is, or whose section has it on its associated-sections list. The followed relocations are the
root symbols (include symbols, the TLS symbol when defined), the relocations of the sections
that are neither COMDAT nor `LnkRemove` nor debug, and the relocations of reached sections that
are no debug sections and no regular sections with `LnkRemove`. -/
theorem C13_gc_reached_iff_kept (hash_of : String → Nat) (symtab : LNK_SymbolHashTrie)
    (include_symbol_list : List String) (objs : List LNK_Obj)
    (hidx : ∀ q, q < objs.length → (lnk_obj_from_ptr objs q).input_idx = q)
    (hres : ∀ p i, ∃ res,
      lnk_resolve_symbol hash_of symtab objs { obj := p, symbol_idx := i } = some res
      ∧ ∀ sym, res = some sym →
          coff_interp_from_parsed_symbol (lnk_parsed_symbol_from_coff_symbol_idx
            (lnk_obj_from_ptr objs sym.obj) sym.symbol_idx) = .Regular →
          sym.obj < objs.length)
    (hroots : ∀ name ∈ include_symbol_list,
      lnk_symbol_table_search hash_of symtab name ≠ none) :
    ∃ bound, ∀ fuel, bound ≤ fuel →
      ∃ objs', lnk_gc_comdats hash_of symtab include_symbol_list fuel objs = some objs'
        ∧ ∀ q n, lnk_gc_section_flags objs q n &&& COFF_SectionFlag_LnkCOMDAT ≠ 0 →
            ¬ lnk_gc_is_debug objs q n →
            (lnk_gc_section_flags objs' q n &&& COFF_SectionFlag_LnkRemove = 0
              ↔ lnk_gc_reached hash_of symtab include_symbol_list objs q n) := by
  obtain ⟨bound, hb⟩ := lnk_gc_comdats_spec hash_of symtab include_symbol_list objs hidx hres
    hroots
  refine ⟨bound, fun fuel hfuel => ?_⟩
  obtain ⟨st, hgc, hinv⟩ := hb fuel hfuel
  refine ⟨_, hgc, ?_⟩
  intro q n hc hd
  rw [lnk_gc_final_flags hash_of symtab include_symbol_list objs st.objs _ hinv q n (Or.inl hd)]
  constructor
  · intro h0
    exact hinv.visited_reached q n (hinv.comdat_cleared q n hc h0).1
  · intro hreach
    have hq : q < objs.length := by
      by_contra hge
      rw [lnk_gc_section_flags_zero objs q n (by omega)] at hc
      simp at hc
    exact hinv.visited_cleared q n
      (lnk_gc_reached_visited hash_of symtab include_symbol_list objs st.objs _ hinv q n hreach)
      hq hc hd

/-- Resolution of the symbols of `fixture_gc_chain` with an empty symbol table. -/
theorem fixture_gc_chain_resolve (p i : Nat) :
    ∃ res, lnk_resolve_symbol (fun _ => 0) .null fixture_gc_chain { obj := p, symbol_idx := i }
        = some res
      ∧ ∀ sym, res = some sym →
          coff_interp_from_parsed_symbol (lnk_parsed_symbol_from_coff_symbol_idx
            (lnk_obj_from_ptr fixture_gc_chain sym.obj) sym.symbol_idx) = .Regular →
          sym.obj < fixture_gc_chain.length := by
  rcases p with _ | p
  · rcases i with _ | _ | _ | _ | i
    · exact ⟨_, rfl, fun sym h _ => by cases h; decide⟩
    · exact ⟨_, rfl, fun sym h _ => by cases h; decide⟩
    · exact ⟨_, rfl, fun sym h _ => by cases h; decide⟩
    · exact ⟨_, rfl, fun sym h _ => by cases h; decide⟩
    · exact ⟨none, rfl, fun sym h _ => by cases h⟩
  · exact ⟨none, rfl, fun sym h _ => by cases h⟩

/-- C13, witness: the object of `C13_counterexample`. -/
theorem C13_gc_reached_iff_kept_witness :
    (∀ q, q < fixture_gc_chain.length → (lnk_obj_from_ptr fixture_gc_chain q).input_idx = q)
    ∧ (∀ name ∈ ([] : List String), lnk_symbol_table_search (fun _ => 0) .null name ≠ none)
    ∧ ∃ bound, ∀ fuel, bound ≤ fuel →
        ∃ objs', lnk_gc_comdats (fun _ => 0) .null [] fuel fixture_gc_chain = some objs'
          ∧ ∀ q n,
              lnk_gc_section_flags fixture_gc_chain q n &&& COFF_SectionFlag_LnkCOMDAT ≠ 0 →
              ¬ lnk_gc_is_debug fixture_gc_chain q n →
              (lnk_gc_section_flags objs' q n &&& COFF_SectionFlag_LnkRemove = 0
                ↔ lnk_gc_reached (fun _ => 0) .null [] fixture_gc_chain q n) :=
  ⟨by decide, by decide,
    C13_gc_reached_iff_kept (fun _ => 0) .null [] fixture_gc_chain (by decide)
      fixture_gc_chain_resolve (by decide)⟩

/-- A location whose entry is not classified Undefined is a location of the symbol tables. -/
theorem lnk_symbol_locations_mem (objs : List LNK_Obj) (d : LNK_SymbolDefined)
    (h : coff_interp_from_parsed_symbol (lnk_parsed_symbol_from_coff_symbol_idx
      (lnk_obj_from_ptr objs d.obj) d.symbol_idx) ≠ .Undefined) :
    d ∈ lnk_symbol_locations objs := by
  unfold lnk_symbol_locations
  rw [List.mem_flatMap]
  have hobj : d.obj < objs.length := by
    by_contra hc
    apply h
    have : lnk_obj_from_ptr objs d.obj = LNK_Obj.zero := by
      simp [lnk_obj_from_ptr, List.getD_eq_getElem?_getD, List.getElem?_eq_none (by omega : objs.length ≤ d.obj)]
    rw [this]
    rfl
  have hidx : d.symbol_idx < (lnk_obj_from_ptr objs d.obj).symbols.length := by
    by_contra hc
    apply h
    simp [lnk_parsed_symbol_from_coff_symbol_idx, coff_interp_from_parsed_symbol,
      List.getD_eq_getElem?_getD,
      List.getElem?_eq_none (by omega : (lnk_obj_from_ptr objs d.obj).symbols.length ≤ d.symbol_idx)]
  refine ⟨d.obj, List.mem_range.2 hobj, ?_⟩
  rw [List.mem_map]
  exact ⟨d.symbol_idx, List.mem_range.2 hidx, rfl⟩

/-- A list without duplicates whose elements all lie in another list is not longer than it. -/
theorem lnk_nodup_length_le {α : Type} [DecidableEq α] (l w : List α) (hn : l.Nodup)
    (hs : ∀ x ∈ l, x ∈ w) : l.length ≤ w.length :=
  (List.subperm_of_subset hn hs).length_le

/-- The read of `u.defined` after one more assignment. -/
theorem lnk_symbol_defined_read_cons (name : String) (v : Option LNK_SymbolDefined)
    (defined : List (String × Option LNK_SymbolDefined)) (symbol : LNK_Symbol) :
    lnk_symbol_defined_read ((name, v) :: defined) symbol
      = if symbol.name = name then v else lnk_symbol_defined_read defined symbol := by
  unfold lnk_symbol_defined_read
  by_cases h : symbol.name = name
  · simp [List.lookup, h]
  · have hb : (symbol.name == name) = false := by simpa using h
    simp [List.lookup, h, hb]

/-- Before the first assignment the read of `u.defined` yields the value of the table. -/
theorem lnk_symbol_defined_read_nil (symbol : LNK_Symbol) :
    lnk_symbol_defined_read [] symbol = some symbol.u.defined := rfl

/-- When the current symbol has been visited, the loop records the weak-cycle error with the
visited chain and clears the symbol. -/
theorem lnk_finalize_weak_lookup_cycle (hash_of : String → Nat) (symtab : LNK_SymbolHashTrie)
    (objs : List LNK_Obj) (defined : List (String × Option LNK_SymbolDefined))
    (symbol_defined : LNK_SymbolDefined) (fuel : Nat) (current : LNK_SymbolDefined)
    (lookup : List LNK_SymbolDefined) (h : current ∈ lookup) :
    lnk_finalize_weak_lookup hash_of symtab objs defined symbol_defined (fuel + 1)
        (some current) lookup
      = .done none [lnk_error_weak_cycle objs symbol_defined lookup] := by
  simp [lnk_finalize_weak_lookup, h]

/-- What the loop arrives at when it ends: a symbol that is neither weak nor undefined and no
error; or the zeroed struct, either without an error at an undefined symbol that has no
definition, or with the weak-cycle error that lists a chain of weak locations which starts with
the locations visited so far. -/
theorem lnk_finalize_weak_lookup_result (hash_of : String → Nat) (symtab : LNK_SymbolHashTrie)
    (objs : List LNK_Obj) (defined : List (String × Option LNK_SymbolDefined))
    (symbol_defined : LNK_SymbolDefined)
    (hdef : lnk_defined_scope_defines hash_of symtab objs defined) :
    ∀ (fuel : Nat) (current : Option LNK_SymbolDefined) (lookup : List LNK_SymbolDefined)
      (r : Option LNK_SymbolDefined) (errors : List LNK_Error),
      (∀ l ∈ lookup, lnk_location_interp objs l = .Weak) →
      lnk_finalize_weak_lookup hash_of symtab objs defined symbol_defined fuel current lookup
        = .done r errors →
      (∀ d, r = some d → lnk_location_interp objs d ≠ .Weak ∧
        lnk_location_interp objs d ≠ .Undefined ∧ errors = []) ∧
      (r = none →
        (errors = [] ∧ ∃ u, lnk_location_interp objs u = .Undefined ∧
          lnk_symbol_table_search hash_of symtab (lnk_location_name objs u) = none) ∨
        (∃ chain, errors = [lnk_error_weak_cycle objs symbol_defined chain] ∧ lookup <+: chain ∧
          chain ≠ [] ∧ ∀ l ∈ chain, lnk_location_interp objs l = .Weak)) := by
  intro fuel
  induction fuel with
  | zero =>
    intro current lookup r errors _ hrun
    simp [lnk_finalize_weak_lookup] at hrun
  | succ n ih =>
    intro current lookup r errors hl hrun
    cases current with
    | none => simp [lnk_finalize_weak_lookup] at hrun
    | some current =>
    unfold lnk_finalize_weak_lookup at hrun
    by_cases hv : current ∈ lookup
    · rw [if_pos hv] at hrun
      injection hrun with h1 h2
      subst h1 h2
      refine ⟨fun d hd => (by cases hd), fun _ => Or.inr ⟨lookup, rfl, List.prefix_refl _, ?_, hl⟩⟩
      exact List.ne_nil_of_mem hv
    · rw [if_neg hv] at hrun
      simp only at hrun
      by_cases hw : lnk_location_interp objs current = .Weak
      · have hw' : coff_interp_from_parsed_symbol (lnk_parsed_symbol_from_coff_symbol_idx
            (lnk_obj_from_ptr objs current.obj) current.symbol_idx) = .Weak := hw
        rw [if_pos hw'] at hrun
        cases hsearch : lnk_symbol_table_search hash_of symtab
            (lnk_parsed_symbol_from_coff_symbol_idx (lnk_obj_from_ptr objs current.obj)
              current.symbol_idx).name with
        | none => simp [hsearch] at hrun
        | some defn =>
          simp only [hsearch] at hrun
          cases hread : lnk_symbol_defined_read defined defn with
          | none => simp [hread] at hrun
          | some defn_defined =>
          simp only [hread] at hrun
          by_cases hd : coff_interp_from_parsed_symbol (lnk_parsed_symbol_from_coff_symbol_idx
              (lnk_obj_from_ptr objs defn_defined.obj) defn_defined.symbol_idx) ≠ .Weak
          · rw [if_pos hd] at hrun
            injection hrun with h1 h2
            subst h1 h2
            refine ⟨fun d hd' => ?_, fun h => (by cases h)⟩
            cases hd'
            exact ⟨hd, hdef _ defn _ hsearch hread, rfl⟩
          · rw [if_neg hd] at hrun
            have hl1 : ∀ l ∈ lookup ++ [current], lnk_location_interp objs l = .Weak := by
              intro l hmem
              rcases List.mem_append.1 hmem with h | h
              · exact hl l h
              · rw [List.mem_singleton.1 h]
                exact hw
            obtain ⟨p1, p2⟩ := ih _ _ r errors hl1 hrun
            refine ⟨p1, fun hr => ?_⟩
            rcases p2 hr with h | ⟨chain, hc1, hc2, hc3, hc4⟩
            · exact Or.inl h
            · exact Or.inr ⟨chain, hc1,
                List.IsPrefix.trans (List.prefix_append lookup [current]) hc2, hc3, hc4⟩
      · have hw' : ¬ coff_interp_from_parsed_symbol (lnk_parsed_symbol_from_coff_symbol_idx
            (lnk_obj_from_ptr objs current.obj) current.symbol_idx) = .Weak := hw
        rw [if_neg hw'] at hrun
        by_cases hu : coff_interp_from_parsed_symbol (lnk_parsed_symbol_from_coff_symbol_idx
            (lnk_obj_from_ptr objs current.obj) current.symbol_idx) = .Undefined
        · rw [if_pos hu] at hrun
          cases hsearch : lnk_symbol_table_search hash_of symtab
              (lnk_parsed_symbol_from_coff_symbol_idx (lnk_obj_from_ptr objs current.obj)
                current.symbol_idx).name with
          | none =>
            simp only [hsearch] at hrun
            injection hrun with h1 h2
            subst h1 h2
            exact ⟨fun d hd => (by cases hd), fun _ => Or.inl ⟨rfl, current, hu, hsearch⟩⟩
          | some defn =>
            simp only [hsearch] at hrun
            exact ih _ _ r errors hl hrun
        · rw [if_neg hu] at hrun
          injection hrun with h1 h2
          subst h1 h2
          refine ⟨fun d hd => ?_, fun h => (by cases h)⟩
          cases hd
          exact ⟨hw, hu, rfl⟩

/-- With enough fuel the loop ends: each round either ends the loop, or visits a weak location
that was not visited before, or moves from an undefined symbol to its definition. While no
symbol of the Defined scope has been zeroed it does not end with a read through a null
pointer. -/
theorem lnk_finalize_weak_lookup_terminates (hash_of : String → Nat)
    (symtab : LNK_SymbolHashTrie) (objs : List LNK_Obj)
    (defined : List (String × Option LNK_SymbolDefined)) (symbol_defined : LNK_SymbolDefined)
    (hdef : lnk_defined_scope_defines hash_of symtab objs defined)
    (hweak : lnk_defined_scope_has_weak hash_of symtab objs) :
    ∀ (fuel : Nat) (current : LNK_SymbolDefined) (lookup : List LNK_SymbolDefined),
      lookup.Nodup → (∀ l ∈ lookup, lnk_location_interp objs l = .Weak) →
      2 * ((lnk_symbol_locations objs).length - lookup.length)
        + (if lnk_location_interp objs current = .Undefined then 1 else 0) < fuel →
      lnk_finalize_weak_lookup hash_of symtab objs defined symbol_defined fuel (some current)
          lookup ≠ .out_of_fuel
      ∧ (lnk_defined_scope_no_zeroed hash_of symtab defined →
          ∃ r errors, lnk_finalize_weak_lookup hash_of symtab objs defined symbol_defined fuel
            (some current) lookup = .done r errors) := by
  intro fuel
  induction fuel with
  | zero =>
    intro current lookup _ _ hlt
    omega
  | succ n ih =>
    intro current lookup hnd hl hlt
    unfold lnk_finalize_weak_lookup
    by_cases hv : current ∈ lookup
    · rw [if_pos hv]
      exact ⟨fun h => (by cases h), fun _ => ⟨_, _, rfl⟩⟩
    · rw [if_neg hv]
      simp only
      by_cases hw : lnk_location_interp objs current = .Weak
      · have hw' : coff_interp_from_parsed_symbol (lnk_parsed_symbol_from_coff_symbol_idx
            (lnk_obj_from_ptr objs current.obj) current.symbol_idx) = .Weak := hw
        rw [if_pos hw']
        have hsome := hweak current hw
        cases hsearch : lnk_symbol_table_search hash_of symtab
            (lnk_parsed_symbol_from_coff_symbol_idx (lnk_obj_from_ptr objs current.obj)
              current.symbol_idx).name with
        | none => exact absurd hsearch hsome
        | some defn =>
          simp only
          cases hread : lnk_symbol_defined_read defined defn with
          | none =>
            simp only
            exact ⟨fun h => (by cases h), fun hz => absurd hread (hz _ defn hsearch)⟩
          | some defn_defined =>
          simp only
          by_cases hd : coff_interp_from_parsed_symbol (lnk_parsed_symbol_from_coff_symbol_idx
              (lnk_obj_from_ptr objs defn_defined.obj) defn_defined.symbol_idx) ≠ .Weak
          · rw [if_pos hd]
            exact ⟨fun h => (by cases h), fun _ => ⟨_, _, rfl⟩⟩
          · rw [if_neg hd]
            have hl1 : ∀ l ∈ lookup ++ [current], lnk_location_interp objs l = .Weak := by
              intro l hmem
              rcases List.mem_append.1 hmem with h | h
              · exact hl l h
              · rw [List.mem_singleton.1 h]
                exact hw
            have hnd1 : (lookup ++ [current]).Nodup := by
              rw [List.nodup_append]
              refine ⟨hnd, List.nodup_singleton _, ?_⟩
              intro x hx hx'
              rw [List.mem_singleton.1 hx'] at hx
              exact hv hx
            have hlen : (lookup ++ [current]).length ≤ (lnk_symbol_locations objs).length := by
              apply lnk_nodup_length_le _ _ hnd1
              intro x hx
              apply lnk_symbol_locations_mem
              have := hl1 x hx
              unfold lnk_location_interp at this
              rw [this]
              decide
            simp only [List.length_append, List.length_singleton] at hlen
            apply ih _ _ hnd1 hl1
            simp only [List.length_append, List.length_singleton]
            have hcur : ¬ lnk_location_interp objs current = .Undefined := by
              rw [hw]
              decide
            rw [if_neg hcur] at hlt
            split_ifs <;> omega
      · have hw' : ¬ coff_interp_from_parsed_symbol (lnk_parsed_symbol_from_coff_symbol_idx
            (lnk_obj_from_ptr objs current.obj) current.symbol_idx) = .Weak := hw
        rw [if_neg hw']
        by_cases hu : coff_interp_from_parsed_symbol (lnk_parsed_symbol_from_coff_symbol_idx
            (lnk_obj_from_ptr objs current.obj) current.symbol_idx) = .Undefined
        · rw [if_pos hu]
          have hu' : lnk_location_interp objs current = .Undefined := hu
          rw [if_pos hu'] at hlt
          cases hsearch : lnk_symbol_table_search hash_of symtab
              (lnk_parsed_symbol_from_coff_symbol_idx (lnk_obj_from_ptr objs current.obj)
                current.symbol_idx).name with
          | none => exact ⟨fun h => (by cases h), fun _ => ⟨_, _, rfl⟩⟩
          | some defn =>
            simp only
            cases hread : lnk_symbol_defined_read defined defn with
            | none =>
              obtain ⟨m, hm⟩ : ∃ m, n = m + 1 := ⟨n - 1, by omega⟩
              subst hm
              refine ⟨?_, fun hz => absurd hread (hz _ defn hsearch)⟩
              simp [lnk_finalize_weak_lookup]
            | some d =>
              apply ih _ _ hnd hl
              have hnu := hdef _ defn d hsearch hread
              rw [if_neg hnu]
              omega
        · rw [if_neg hu]
          exact ⟨fun h => (by cases h), fun _ => ⟨_, _, rfl⟩⟩

/-- What the loop arrives at for a weak symbol when it ends: as `lnk_finalize_weak_lookup_result`,
and the chain of a weak-cycle error starts with the symbol itself. -/
theorem lnk_finalize_weak_lookup_first_result (hash_of : String → Nat)
    (symtab : LNK_SymbolHashTrie) (objs : List LNK_Obj)
    (defined : List (String × Option LNK_SymbolDefined)) (symbol_defined : LNK_SymbolDefined)
    (hdef : lnk_defined_scope_defines hash_of symtab objs defined)
    (hs : lnk_location_interp objs symbol_defined = .Weak)
    (fuel : Nat) (r : Option LNK_SymbolDefined) (errors : List LNK_Error)
    (hrun : lnk_finalize_weak_lookup hash_of symtab objs defined symbol_defined fuel
      (some symbol_defined) [] = .done r errors) :
    (∀ d, r = some d → lnk_location_interp objs d ≠ .Weak ∧
      lnk_location_interp objs d ≠ .Undefined ∧ errors = []) ∧
    (r = none →
      (errors = [] ∧ ∃ u, lnk_location_interp objs u = .Undefined ∧
        lnk_symbol_table_search hash_of symtab (lnk_location_name objs u) = none) ∨
      (∃ chain, errors = [lnk_error_weak_cycle objs symbol_defined chain] ∧
        chain.head? = some symbol_defined ∧
        ∀ l ∈ chain, lnk_location_interp objs l = .Weak)) := by
  have hgen := lnk_finalize_weak_lookup_result hash_of symtab objs defined symbol_defined hdef
    fuel (some symbol_defined) [] r errors (fun l hl => absurd hl (List.not_mem_nil l)) hrun
  refine ⟨hgen.1, fun hr => ?_⟩
  subst hr
  cases fuel with
  | zero => simp [lnk_finalize_weak_lookup] at hrun
  | succ n =>
    unfold lnk_finalize_weak_lookup at hrun
    rw [if_neg (List.not_mem_nil _)] at hrun
    have hw : coff_interp_from_parsed_symbol (lnk_parsed_symbol_from_coff_symbol_idx
        (lnk_obj_from_ptr objs symbol_defined.obj) symbol_defined.symbol_idx) = .Weak := hs
    simp only [hw, if_true] at hrun
    cases hsearch : lnk_symbol_table_search hash_of symtab
        (lnk_parsed_symbol_from_coff_symbol_idx (lnk_obj_from_ptr objs symbol_defined.obj)
          symbol_defined.symbol_idx).name with
    | none => simp [hsearch] at hrun
    | some defn =>
      simp only [hsearch] at hrun
      cases hread : lnk_symbol_defined_read defined defn with
      | none => simp [hread] at hrun
      | some defn_defined =>
      simp only [hread] at hrun
      by_cases hd : coff_interp_from_parsed_symbol (lnk_parsed_symbol_from_coff_symbol_idx
          (lnk_obj_from_ptr objs defn_defined.obj) defn_defined.symbol_idx) ≠ .Weak
      · rw [if_pos hd] at hrun
        injection hrun with h1 h2
        cases h1
      · rw [if_neg hd] at hrun
        have hl1 : ∀ l ∈ [] ++ [symbol_defined], lnk_location_interp objs l = .Weak := by
          intro l hmem
          simp only [List.nil_append, List.mem_singleton] at hmem
          rw [hmem]
          exact hs
        rcases (lnk_finalize_weak_lookup_result hash_of symtab objs defined symbol_defined hdef
          n _ _ none errors hl1 hrun).2 rfl with h | ⟨chain, hc1, hc2, _, hc4⟩
        · exact Or.inl h
        · refine Or.inr ⟨chain, hc1, ?_, hc4⟩
          obtain ⟨rest, hrest⟩ := hc2
          rw [← hrest]
          rfl

/-- The body of the loop over the chunk for one symbol, in a task that has not stopped, with
enough fuel: the bound on the rounds is not used up; the table still designates no undefined
entry; while no symbol of the scope has been zeroed the task does not stop at a null pointer;
and when it does not stop, a weak symbol has been assigned a location that is neither weak nor
undefined, or the zeroed struct at an undefined symbol without definition or with the
weak-cycle error. -/
theorem lnk_finalize_weak_symbol_spec (hash_of : String → Nat) (symtab : LNK_SymbolHashTrie)
    (objs : List LNK_Obj) (fuel : Nat) (st : LNK_FinalizeWeakSymbols) (symbol : LNK_Symbol)
    (hdef : lnk_defined_scope_defines hash_of symtab objs st.defined)
    (hweak : lnk_defined_scope_has_weak hash_of symtab objs)
    (hnull : st.null_deref = false) (hout : st.out_of_fuel = false)
    (hfuel : 2 * (lnk_symbol_locations objs).length + 2 ≤ fuel) :
    (lnk_finalize_weak_symbol hash_of symtab objs fuel st symbol).out_of_fuel = false
    ∧ lnk_defined_scope_defines hash_of symtab objs
        (lnk_finalize_weak_symbol hash_of symtab objs fuel st symbol).defined
    ∧ (lnk_symbol_table_search hash_of symtab symbol.name = some symbol →
        lnk_defined_scope_no_zeroed hash_of symtab st.defined →
        (lnk_finalize_weak_symbol hash_of symtab objs fuel st symbol).null_deref = false)
    ∧ ((lnk_finalize_weak_symbol hash_of symtab objs fuel st symbol).null_deref = false →
        ∀ d0, lnk_symbol_defined_read st.defined symbol = some d0 →
        lnk_location_interp objs d0 = .Weak →
        ∃ r errors,
          (lnk_finalize_weak_symbol hash_of symtab objs fuel st symbol).defined
            = (symbol.name, r) :: st.defined
          ∧ (lnk_finalize_weak_symbol hash_of symtab objs fuel st symbol).errors
            = st.errors ++ errors
          ∧ lnk_symbol_defined_read
              (lnk_finalize_weak_symbol hash_of symtab objs fuel st symbol).defined symbol = r
          ∧ (∀ d, r = some d → lnk_location_interp objs d ≠ .Weak ∧
              lnk_location_interp objs d ≠ .Undefined ∧ errors = [])
          ∧ (r = none →
              (errors = [] ∧ ∃ u, lnk_location_interp objs u = .Undefined ∧
                lnk_symbol_table_search hash_of symtab (lnk_location_name objs u) = none) ∨
              (∃ chain, errors = [lnk_error_weak_cycle objs d0 chain] ∧
                chain.head? = some d0 ∧
                ∀ l ∈ chain, lnk_location_interp objs l = .Weak))) := by
  have hstop : ¬ (st.null_deref = true ∨ st.out_of_fuel = true) := by
    rw [hnull, hout]
    simp
  unfold lnk_finalize_weak_symbol
  rw [if_neg hstop]
  cases hread0 : lnk_symbol_defined_read st.defined symbol with
  | none =>
    simp only
    refine ⟨hout, hdef, ?_, ?_⟩
    · intro hsym hz
      exact absurd hread0 (hz _ symbol hsym)
    · intro h
      cases h
  | some d0 =>
    simp only
    by_cases hw : lnk_location_interp objs d0 = .Weak
    · have hw' : coff_interp_from_parsed_symbol (lnk_parsed_symbol_from_coff_symbol_idx
          (lnk_obj_from_ptr objs d0.obj) d0.symbol_idx) = .Weak := hw
      rw [if_pos hw']
      have hnu : ¬ lnk_location_interp objs d0 = .Undefined := by
        rw [hw]
        decide
      obtain ⟨t1, t2⟩ := lnk_finalize_weak_lookup_terminates hash_of symtab objs st.defined d0
        hdef hweak fuel d0 [] List.nodup_nil (fun l hl => absurd hl (List.not_mem_nil l))
        (by
          rw [if_neg hnu]
          simp only [List.length_nil]
          omega)
      cases hl : lnk_finalize_weak_lookup hash_of symtab objs st.defined d0 fuel (some d0) []
        with
      | done r errors =>
        simp only
        obtain ⟨p1, p2⟩ := lnk_finalize_weak_lookup_first_result hash_of symtab objs st.defined
          d0 hdef hw fuel r errors hl
        refine ⟨hout, ?_, fun _ _ => hnull, ?_⟩
        · intro name defn d hsearch hrd
          rw [lnk_symbol_defined_read_cons] at hrd
          by_cases hn : defn.name = symbol.name
          · rw [if_pos hn] at hrd
            exact (p1 d hrd).2.1
          · rw [if_neg hn] at hrd
            exact hdef name defn d hsearch hrd
        · intro _ d0' hd0 hw0
          cases hd0
          refine ⟨r, errors, rfl, rfl, ?_, p1, p2⟩
          rw [lnk_symbol_defined_read_cons, if_pos rfl]
      | null_deref =>
        simp only
        refine ⟨hout, hdef, ?_, ?_⟩
        · intro _ hz
          obtain ⟨r, errors, hdone⟩ := t2 hz
          rw [hl] at hdone
          cases hdone
        · intro h
          cases h
      | out_of_fuel => exact absurd hl t1
    · have hw' : ¬ coff_interp_from_parsed_symbol (lnk_parsed_symbol_from_coff_symbol_idx
          (lnk_obj_from_ptr objs d0.obj) d0.symbol_idx) = .Weak := hw
      rw [if_neg hw']
      refine ⟨hout, hdef, fun _ _ => hnull, ?_⟩
      intro _ d0' hd0 hw0
      cases hd0
      exact absurd hw0 hw

/-- With enough fuel for each symbol the task never uses up the bound on the rounds: it
processes the whole chunk or stops at a read through a null pointer. -/
theorem lnk_finalize_weak_symbols_task_fuel (hash_of : String → Nat)
    (symtab : LNK_SymbolHashTrie) (objs : List LNK_Obj) (fuel : Nat)
    (hweak : lnk_defined_scope_has_weak hash_of symtab objs)
    (hfuel : 2 * (lnk_symbol_locations objs).length + 2 ≤ fuel) :
    ∀ (chunk : List LNK_Symbol) (st : LNK_FinalizeWeakSymbols),
      st.out_of_fuel = false →
      (st.null_deref = false → lnk_defined_scope_defines hash_of symtab objs st.defined) →
      (lnk_finalize_weak_symbols_task hash_of symtab objs fuel chunk st).out_of_fuel
        = false := by
  intro chunk
  induction chunk with
  | nil =>
    intro st hout _
    exact hout
  | cons symbol rest ih =>
    intro st hout hdef
    unfold lnk_finalize_weak_symbols_task
    rw [List.foldl_cons]
    by_cases hnull : st.null_deref = false
    · obtain ⟨s1, s2, _, _⟩ := lnk_finalize_weak_symbol_spec hash_of symtab objs fuel st symbol
        (hdef hnull) hweak hnull hout hfuel
      exact ih _ s1 (fun _ => s2)
    · have hstep : lnk_finalize_weak_symbol hash_of symtab objs fuel st symbol = st := by
        unfold lnk_finalize_weak_symbol
        rw [if_pos (Or.inl (by simpa using hnull))]
      rw [hstep]
      exact ih st hout hdef

/-- The Defined scope of the cycle fixture. -/
theorem fixture_weak_cycle_search (name : String) :
    lnk_symbol_table_search (fun _ => 0) fixture_weak_cycle_pushed.2 name =
      if name = "a" then some (fixture_gc_symbol "a" 0 0)
      else if name = "b" then some (fixture_gc_symbol "b" 1 0)
      else none := by
  have h : fixture_weak_cycle_pushed.2 =
      .node (some "a") (some (fixture_gc_symbol "a" 0 0))
        (.node (some "b") (some (fixture_gc_symbol "b" 1 0)) .null .null .null .null)
        .null .null .null := by decide
  rw [h]
  by_cases ha : name = "a"
  · subst ha
    decide
  · by_cases hb : name = "b"
    · subst hb
      decide
    · have ha' : ¬ "a" = name := fun e => ha e.symm
      have hb' : ¬ "b" = name := fun e => hb e.symm
      simp [lnk_symbol_table_search, lnk_symbol_hash_trie_search, lnk_name_matches, str8_match,
        ha, hb, ha', hb', LNK_SymbolHashTrie.symbol]

/-- The Defined scope of the cycle fixture holds no undefined symbol before the task runs. -/
theorem fixture_weak_cycle_defines :
    lnk_defined_scope_defines (fun _ => 0) fixture_weak_cycle_pushed.2 fixture_weak_cycle_objs
      [] := by
  intro name defn d h hread
  rw [lnk_symbol_defined_read_nil] at hread
  cases hread
  rw [fixture_weak_cycle_search] at h
  by_cases ha : name = "a"
  · rw [if_pos ha] at h
    cases h
    decide
  · rw [if_neg ha] at h
    by_cases hb : name = "b"
    · rw [if_pos hb] at h
      cases h
      decide
    · rw [if_neg hb] at h
      cases h

/-- The Defined scope of the cycle fixture has the weak symbols of the objects. -/
theorem fixture_weak_cycle_has_weak :
    lnk_defined_scope_has_weak (fun _ => 0) fixture_weak_cycle_pushed.2
      fixture_weak_cycle_objs := by
  intro location hw
  have hmem : location ∈ lnk_symbol_locations fixture_weak_cycle_objs := by
    apply lnk_symbol_locations_mem
    have hw' : coff_interp_from_parsed_symbol (lnk_parsed_symbol_from_coff_symbol_idx
        (lnk_obj_from_ptr fixture_weak_cycle_objs location.obj) location.symbol_idx)
        = .Weak := hw
    rw [hw']
    decide
  have hlist : lnk_symbol_locations fixture_weak_cycle_objs
      = [⟨0, 0⟩, ⟨0, 1⟩, ⟨1, 0⟩, ⟨1, 1⟩] := by decide
  rw [hlist] at hmem
  simp only [List.mem_cons, List.mem_singleton, List.not_mem_nil, or_false] at hmem
  rcases hmem with h | h | h | h <;> subst h
  · decide
  · exact absurd hw (by decide)
  · decide
  · exact absurd hw (by decide)

/-- C21, the claim where it holds and the code where it fails. The task
`lnk_finalize_weak_symbols_task` assigns the result of each lookup to `symbol->u.defined`, and
the lookups of the symbols processed later read it. For a symbol processed by a task that has
not stopped, in a table whose symbols designate no undefined entry and which has a symbol for
the name of every weak entry, with twice the number of symbol-table entries plus two rounds:
the lookup ends; the table still designates no undefined entry; while no symbol of the scope
has been zeroed, the task does not read through a null pointer; and when it does not, a weak
symbol afterwards designates an entry that is neither weak nor undefined, with no error
recorded, or is zeroed, either without an error at an undefined symbol that has no definition,
or with a weak-cycle error whose chain starts with the symbol and lists weak entries only.
The task never uses up the rounds. Whenever the current symbol of the lookup is a location
that was visited, the weak-cycle error with the visited chain is recorded and the symbol is
zeroed. The code fails once a symbol has been zeroed: for object A with the weak symbol `a` of
tag `b` and object B with the weak symbol `b` of tag `a`, the symbol `a` is zeroed with the
weak-cycle error of the chain `A:a`, `B:b`, `A:a`; the lookup of `b` then goes from the tag `a`
to the zeroed `u.defined` of the symbol `a` and parses a symbol of the null object. In the
order `b`, `a` the same happens with the roles exchanged. -/
theorem C21_weak_symbol_finalized :
    (∀ (hash_of : String → Nat) (symtab : LNK_SymbolHashTrie) (objs : List LNK_Obj)
        (fuel : Nat) (st : LNK_FinalizeWeakSymbols) (symbol : LNK_Symbol),
      lnk_defined_scope_defines hash_of symtab objs st.defined →
      lnk_defined_scope_has_weak hash_of symtab objs →
      st.null_deref = false → st.out_of_fuel = false →
      2 * (lnk_symbol_locations objs).length + 2 ≤ fuel →
      (lnk_finalize_weak_symbol hash_of symtab objs fuel st symbol).out_of_fuel = false
      ∧ lnk_defined_scope_defines hash_of symtab objs
          (lnk_finalize_weak_symbol hash_of symtab objs fuel st symbol).defined
      ∧ (lnk_symbol_table_search hash_of symtab symbol.name = some symbol →
          lnk_defined_scope_no_zeroed hash_of symtab st.defined →
          (lnk_finalize_weak_symbol hash_of symtab objs fuel st symbol).null_deref = false)
      ∧ ((lnk_finalize_weak_symbol hash_of symtab objs fuel st symbol).null_deref = false →
          ∀ d0, lnk_symbol_defined_read st.defined symbol = some d0 →
          lnk_location_interp objs d0 = .Weak →
          ∃ r errors,
            (lnk_finalize_weak_symbol hash_of symtab objs fuel st symbol).defined
              = (symbol.name, r) :: st.defined
            ∧ (lnk_finalize_weak_symbol hash_of symtab objs fuel st symbol).errors
              = st.errors ++ errors
            ∧ lnk_symbol_defined_read
                (lnk_finalize_weak_symbol hash_of symtab objs fuel st symbol).defined symbol
              = r
            ∧ (∀ d, r = some d → lnk_location_interp objs d ≠ .Weak ∧
                lnk_location_interp objs d ≠ .Undefined ∧ errors = [])
            ∧ (r = none →
                (errors = [] ∧ ∃ u, lnk_location_interp objs u = .Undefined ∧
                  lnk_symbol_table_search hash_of symtab (lnk_location_name objs u) = none) ∨
                (∃ chain, errors = [lnk_error_weak_cycle objs d0 chain] ∧
                  chain.head? = some d0 ∧
                  ∀ l ∈ chain, lnk_location_interp objs l = .Weak))))
    ∧ (∀ (hash_of : String → Nat) (symtab : LNK_SymbolHashTrie) (objs : List LNK_Obj)
        (fuel : Nat) (chunk : List LNK_Symbol),
      lnk_defined_scope_defines hash_of symtab objs [] →
      lnk_defined_scope_has_weak hash_of symtab objs →
      2 * (lnk_symbol_locations objs).length + 2 ≤ fuel →
      (lnk_finalize_weak_symbols_task hash_of symtab objs fuel chunk
        LNK_FinalizeWeakSymbols.zero).out_of_fuel = false)
    ∧ (∀ (hash_of : String → Nat) (symtab : LNK_SymbolHashTrie) (objs : List LNK_Obj)
        (defined : List (String × Option LNK_SymbolDefined))
        (symbol_defined : LNK_SymbolDefined) (fuel : Nat) (current : LNK_SymbolDefined)
        (lookup : List LNK_SymbolDefined),
      current ∈ lookup →
      lnk_finalize_weak_lookup hash_of symtab objs defined symbol_defined (fuel + 1)
          (some current) lookup
        = .done none [lnk_error_weak_cycle objs symbol_defined lookup])
    ∧ lnk_finalize_weak_symbols_task (fun _ => 0) fixture_weak_cycle_pushed.2
        fixture_weak_cycle_objs 10 [fixture_gc_symbol "a" 0 0] LNK_FinalizeWeakSymbols.zero
      = { defined := [("a", none)],
          errors := [{ code := .Error_WeakCycle, obj := some 0, symbol := some "a",
                       ref_list := [{ obj := 0, symbol_idx := 0 }, { obj := 1, symbol_idx := 0 },
                                    { obj := 0, symbol_idx := 0 }] }],
          null_deref := false, out_of_fuel := false }
    ∧ lnk_finalize_weak_symbols_task (fun _ => 0) fixture_weak_cycle_pushed.2
        fixture_weak_cycle_objs 10 fixture_weak_cycle_chunk LNK_FinalizeWeakSymbols.zero
      = { defined := [("a", none)],
          errors := [{ code := .Error_WeakCycle, obj := some 0, symbol := some "a",
                       ref_list := [{ obj := 0, symbol_idx := 0 }, { obj := 1, symbol_idx := 0 },
                                    { obj := 0, symbol_idx := 0 }] }],
          null_deref := true, out_of_fuel := false }
    ∧ lnk_finalize_weak_symbols_task (fun _ => 0) fixture_weak_cycle_pushed.2
        fixture_weak_cycle_objs 10 fixture_weak_cycle_chunk.reverse
        LNK_FinalizeWeakSymbols.zero
      = { defined := [("b", none)],
          errors := [{ code := .Error_WeakCycle, obj := some 1, symbol := some "b",
                       ref_list := [{ obj := 1, symbol_idx := 0 }, { obj := 0, symbol_idx := 0 },
                                    { obj := 1, symbol_idx := 0 }] }],
          null_deref := true, out_of_fuel := false } := by
  refine ⟨?_, ?_, ?_, by decide, by decide, by decide⟩
  · intro hash_of symtab objs fuel st symbol hdef hweak hnull hout hfuel
    exact lnk_finalize_weak_symbol_spec hash_of symtab objs fuel st symbol hdef hweak hnull hout
      hfuel
  · intro hash_of symtab objs fuel chunk hdef hweak hfuel
    exact lnk_finalize_weak_symbols_task_fuel hash_of symtab objs fuel hweak hfuel chunk
      LNK_FinalizeWeakSymbols.zero rfl (fun _ => hdef)
  · intro hash_of symtab objs defined symbol_defined fuel current lookup h
    exact lnk_finalize_weak_lookup_cycle hash_of symtab objs defined symbol_defined fuel current
      lookup h

/-- Scenario of C21: the cycle of the weak symbols `a` and `b`. The table has four entries and
ten rounds suffice. The symbol `a`, processed first, is zeroed with the weak-cycle error; the
task that goes on to the symbol `b` does not use up the rounds. -/
theorem C21_weak_symbol_finalized_witness :
    (lnk_symbol_locations fixture_weak_cycle_objs).length = 4
    ∧ (lnk_finalize_weak_symbol (fun _ => 0) fixture_weak_cycle_pushed.2
        fixture_weak_cycle_objs 10 LNK_FinalizeWeakSymbols.zero
        (fixture_gc_symbol "a" 0 0)).out_of_fuel = false
    ∧ (lnk_finalize_weak_symbol (fun _ => 0) fixture_weak_cycle_pushed.2
        fixture_weak_cycle_objs 10 LNK_FinalizeWeakSymbols.zero
        (fixture_gc_symbol "a" 0 0)).null_deref = false
    ∧ (lnk_finalize_weak_symbols_task (fun _ => 0) fixture_weak_cycle_pushed.2
        fixture_weak_cycle_objs 10 fixture_weak_cycle_chunk
        LNK_FinalizeWeakSymbols.zero).out_of_fuel = false
    ∧ lnk_finalize_weak_lookup (fun _ => 0) fixture_weak_cycle_pushed.2
        fixture_weak_cycle_objs [] { obj := 0, symbol_idx := 0 } (0 + 1)
        (some { obj := 0, symbol_idx := 0 })
        [{ obj := 0, symbol_idx := 0 }, { obj := 1, symbol_idx := 0 }]
      = .done none [lnk_error_weak_cycle fixture_weak_cycle_objs { obj := 0, symbol_idx := 0 }
          [{ obj := 0, symbol_idx := 0 }, { obj := 1, symbol_idx := 0 }]] := by
  have h := C21_weak_symbol_finalized.1 (fun _ => 0) fixture_weak_cycle_pushed.2
    fixture_weak_cycle_objs 10 LNK_FinalizeWeakSymbols.zero (fixture_gc_symbol "a" 0 0)
    fixture_weak_cycle_defines fixture_weak_cycle_has_weak rfl rfl (by decide)
  have h2 := C21_weak_symbol_finalized.2.1 (fun _ => 0) fixture_weak_cycle_pushed.2
    fixture_weak_cycle_objs 10 fixture_weak_cycle_chunk
    fixture_weak_cycle_defines fixture_weak_cycle_has_weak (by decide)
  have h3 := C21_weak_symbol_finalized.2.2.1 (fun _ => 0) fixture_weak_cycle_pushed.2
    fixture_weak_cycle_objs [] { obj := 0, symbol_idx := 0 } 0 { obj := 0, symbol_idx := 0 }
    [{ obj := 0, symbol_idx := 0 }, { obj := 1, symbol_idx := 0 }] (by decide)
  refine ⟨by decide, h.1, h.2.2.1 (by decide) ?_, h2, h3⟩
  intro name defn _ hread
  have hnil : lnk_symbol_defined_read LNK_FinalizeWeakSymbols.zero.defined defn
      = some defn.u.defined := rfl
  rw [hnil] at hread
  cases hread

/-! ## C22: lookup of weak symbols -/

/-- A symbol with a non-weak definition in the Defined scope is skipped. -/
theorem lnk_weak_symbol_finder_symbol_strong
    (search_defined search_lib : String → Option LNK_Symbol)
    (member_from_offset : Nat → Nat → COFF_ArchiveMember) (objs : List LNK_Obj)
    (libs : List LNK_Lib) (result : LNK_SymbolFinderResult) (symbol : LNK_Symbol)
    (h : lnk_has_strong_definition search_defined objs symbol.name) :
    lnk_weak_symbol_finder_symbol search_defined search_lib member_from_offset objs libs
      result symbol = result := by
  obtain ⟨defn, hd, hi⟩ := h
  unfold lnk_weak_symbol_finder_symbol
  simp [hd, hi]

/-- A symbol without a non-weak definition is queued or listed as unresolved according to
`lnk_weak_symbol_member`. -/
theorem lnk_weak_symbol_finder_symbol_weak
    (search_defined search_lib : String → Option LNK_Symbol)
    (member_from_offset : Nat → Nat → COFF_ArchiveMember) (objs : List LNK_Obj)
    (libs : List LNK_Lib) (result : LNK_SymbolFinderResult) (symbol : LNK_Symbol)
    (h : ¬ lnk_has_strong_definition search_defined objs symbol.name) :
    lnk_weak_symbol_finder_symbol search_defined search_lib member_from_offset objs libs
      result symbol =
      match lnk_weak_symbol_member search_lib objs symbol with
      | some member_symbol =>
        lnk_finder_result_queued member_from_offset libs result member_symbol
      | none => lnk_finder_result_unresolved result symbol := by
  unfold lnk_weak_symbol_finder_symbol
  have hs : (match search_defined symbol.name with
      | some defn =>
        decide (coff_interp_from_parsed_symbol (lnk_parsed_symbol_from_defined objs defn)
          ≠ .Weak)
      | none => false) = false := by
    cases hd : search_defined symbol.name with
    | none => rfl
    | some defn =>
      have : ¬ coff_interp_from_parsed_symbol (lnk_parsed_symbol_from_defined objs defn)
          ≠ .Weak := fun hi => h ⟨defn, hd, hi⟩
      simp [this]
  simp only [hs]
  cases lnk_weak_symbol_member search_lib objs symbol <;> rfl

/-- C22 as stated fails: the queued weak symbol `.weak.bar` has no definition in the Defined
scope, its characteristics are `SearchAlias`, the Lib scope has no symbol of its name and has
the symbol `foo` of the name of its tag; the finder queues no member and lists the symbol as
unresolved. -/
theorem C22_counterexample :
    ¬ lnk_has_strong_definition fixture_search_none
        [fixture_weak_obj ".weak.bar" "foo" .SearchAlias] ".weak.bar" ∧
    lnk_weak_characteristics [fixture_weak_obj ".weak.bar" "foo" .SearchAlias]
        (fixture_defined ".weak.bar" 0) = .SearchAlias ∧
    fixture_search_lib "foo" ".weak.bar" = none ∧
    lnk_weak_tag_name [fixture_weak_obj ".weak.bar" "foo" .SearchAlias]
        (fixture_defined ".weak.bar" 0) = "foo" ∧
    (fixture_search_lib "foo" "foo").isSome = true ∧
    lnk_weak_symbol_finder_symbol fixture_search_none (fixture_search_lib "foo")
        fixture_member_obj [fixture_weak_obj ".weak.bar" "foo" .SearchAlias] fixture_two_libs
        LNK_SymbolFinderResult.zero (fixture_defined ".weak.bar" 0)
      = { input_import_list := [], input_obj_list := [],
          unresolved_symbol_list := [fixture_defined ".weak.bar" 0] } := by
  refine ⟨?_, by decide, by decide, by decide, by decide, by decide⟩
  rintro ⟨defn, hd, _⟩
  exact absurd hd (by simp [fixture_search_none])

/-- C22, amended: for a queued weak symbol without a non-weak definition in the Defined scope,
`lnk_weak_symbol_finder` with the characteristic `NoLibrary` queues no member and appends the
symbol to the unresolved list; with `AntiDependency` or `SearchLibrary` it queues the member of
the Lib symbol found under the name of the symbol; with `SearchAlias` it queues the member
found under the name of the symbol or, if there is none and the name does not match `.weak.`
(compared on the length of the shorter of the two), the member found under the name of the
tag symbol; when the name matches `.weak.` and no Lib symbol has it, no member is queued and
the symbol is appended to the unresolved list. A symbol with a non-weak definition in the
Defined scope is neither queued nor listed as unresolved. -/
theorem C22_weak_symbol_finder (search_defined search_lib : String → Option LNK_Symbol)
    (member_from_offset : Nat → Nat → COFF_ArchiveMember) (objs : List LNK_Obj)
    (libs : List LNK_Lib) (result : LNK_SymbolFinderResult) (symbol : LNK_Symbol) :
    (lnk_has_strong_definition search_defined objs symbol.name →
      lnk_weak_symbol_finder_symbol search_defined search_lib member_from_offset objs libs
        result symbol = result) ∧
    (¬ lnk_has_strong_definition search_defined objs symbol.name →
      (lnk_weak_characteristics objs symbol = .NoLibrary →
        lnk_weak_symbol_finder_symbol search_defined search_lib member_from_offset objs libs
          result symbol = lnk_finder_result_unresolved result symbol) ∧
      (lnk_weak_characteristics objs symbol = .AntiDependency ∨
          lnk_weak_characteristics objs symbol = .SearchLibrary ∨
          lnk_weak_characteristics objs symbol = .SearchAlias →
        ∀ member_symbol, search_lib symbol.name = some member_symbol →
          lnk_weak_symbol_finder_symbol search_defined search_lib member_from_offset objs libs
            result symbol
            = lnk_finder_result_queued member_from_offset libs result member_symbol) ∧
      (lnk_weak_characteristics objs symbol = .SearchAlias →
        search_lib symbol.name = none →
        str8_match_right_side_sloppy ".weak." symbol.name = false →
        ∀ member_symbol, search_lib (lnk_weak_tag_name objs symbol) = some member_symbol →
          lnk_weak_symbol_finder_symbol search_defined search_lib member_from_offset objs libs
            result symbol
            = lnk_finder_result_queued member_from_offset libs result member_symbol) ∧
      (lnk_weak_characteristics objs symbol = .SearchAlias →
        search_lib symbol.name = none →
        str8_match_right_side_sloppy ".weak." symbol.name = true →
        lnk_weak_symbol_finder_symbol search_defined search_lib member_from_offset objs libs
          result symbol = lnk_finder_result_unresolved result symbol)) := by
  refine ⟨lnk_weak_symbol_finder_symbol_strong search_defined search_lib member_from_offset
    objs libs result symbol, fun hweak => ?_⟩
  rw [lnk_weak_symbol_finder_symbol_weak search_defined search_lib member_from_offset objs libs
    result symbol hweak]
  unfold lnk_weak_characteristics lnk_weak_tag_name
  refine ⟨?_, ?_, ?_, ?_⟩
  · intro hc
    simp [lnk_weak_symbol_member, hc]
  · intro hc member_symbol hm
    rcases hc with hc | hc | hc <;> simp [lnk_weak_symbol_member, hc, hm]
  · intro hc hn hs member_symbol hm
    simp [lnk_weak_symbol_member, hc, hn, hs, hm]
  · intro hc hn hs
    simp [lnk_weak_symbol_member, hc, hn, hs]

/-- Scenario of the amended C22: no Lib symbol has the name of the weak symbol `bar` of
characteristic `SearchAlias`; the member of the Lib symbol `foo` of the name of its tag is
queued. -/
theorem C22_weak_symbol_finder_witness :
    ¬ lnk_has_strong_definition fixture_search_none
        [fixture_weak_obj "bar" "foo" .SearchAlias] "bar" ∧
    (lnk_weak_symbol_finder_symbol fixture_search_none (fixture_search_lib "foo")
        fixture_member_obj [fixture_weak_obj "bar" "foo" .SearchAlias] fixture_two_libs
        LNK_SymbolFinderResult.zero (fixture_defined "bar" 0)).input_obj_list
      = [{ path := "member.obj", data := [], lib := some 0, input_idx := 0x40 }] :=
  ⟨fun h => (by
      obtain ⟨defn, hd, _⟩ := h
      exact absurd hd (by simp [fixture_search_none])),
   (congrArg LNK_SymbolFinderResult.input_obj_list
     (((C22_weak_symbol_finder fixture_search_none (fixture_search_lib "foo")
        fixture_member_obj [fixture_weak_obj "bar" "foo" .SearchAlias] fixture_two_libs
        LNK_SymbolFinderResult.zero (fixture_defined "bar" 0)).2
        (fun h => (by
          obtain ⟨defn, hd, _⟩ := h
          exact absurd hd (by simp [fixture_search_none])))).2.2.1
        (by decide) (by decide) (by decide)
        { name := "foo",
          u := { defined := { obj := 0, symbol_idx := 0 },
                 lib := { lib := 0, member_offset := 0x40 },
                 undef := { obj := 0 } } }
        (by decide))).trans
     (by decide)⟩

/-! ## C23: scheduling of the next state -/

/-- The scheduling code does what the first condition of the specified order that holds
prescribes. -/
theorem lnk_schedule_next_state_eq_spec (v : LNK_LinkLoop) :
    lnk_schedule_next_state v = lnk_schedule_apply v (lnk_schedule_spec v) := by
  unfold lnk_schedule_next_state lnk_schedule_spec lnk_schedule_order
  by_cases h1 : v.inputs.last_disallow_lib = true
  · simp [h1, lnk_schedule_apply]
  by_cases h2 : v.inputs.input_import_list = 0
  swap
  · simp [h1, h2, lnk_schedule_apply]
  by_cases h3 : v.inputs.last_include_symbol = true
  · simp [h1, h2, h3, lnk_schedule_apply]
  by_cases h4 : v.inputs.last_alt_name = true
  · simp [h1, h2, h3, h4, lnk_schedule_apply]
  by_cases h5 : v.inputs.input_obj_list = 0
  swap
  · simp [h1, h2, h3, h4, h5, lnk_schedule_apply]
  by_cases h6 : true ∈ v.inputs.input_libs
  · have h6' : (v.inputs.input_libs.any fun pending => pending) = true :=
      List.any_eq_true.2 ⟨true, h6, rfl⟩
    simp [h1, h2, h3, h4, h5, h6, h6', lnk_schedule_apply]
  have h6' : ¬ (v.inputs.input_libs.any fun pending => pending) = true := by
    intro h
    obtain ⟨b, hb, hb'⟩ := List.any_eq_true.1 h
    exact h6 (hb' ▸ hb)
  by_cases h7 : v.inputs.lookup_undef_list = 0
  swap
  · simp [h1, h2, h3, h4, h5, h6, h6', h7, lnk_schedule_apply]
  by_cases h8 : v.inputs.lookup_weak_list = 0
  swap
  · simp [h1, h2, h3, h4, h5, h6, h6', h7, h8, lnk_schedule_apply]
  by_cases h9 : v.inputs.unresolved_weak_list = 0
  swap
  · simp [h1, h2, h3, h4, h5, h6, h6', h7, h8, h9, lnk_schedule_apply]
  by_cases h10 : v.entry_point_lookup_attempts = 0
  · simp [h1, h2, h3, h4, h5, h6, h6', h7, h8, h9, h10, lnk_schedule_apply]
  by_cases h11 : v.input_linker_objs = true
  · simp [h1, h2, h3, h4, h5, h6, h6', h7, h8, h9, h10, h11, lnk_schedule_apply]
  by_cases h12 : v.inputs.unresolved_undef_list = 0
  · simp [h1, h2, h3, h4, h5, h6, h6', h7, h8, h9, h10, h11, h12, lnk_schedule_apply]
  by_cases h13 : v.report_unresolved_symbols = true
  · simp [h1, h2, h3, h4, h5, h6, h6', h7, h8, h9, h10, h11, h12, h13, lnk_schedule_apply]
  · simp [h1, h2, h3, h4, h5, h6, h6', h7, h8, h9, h10, h11, h12, h13, lnk_schedule_apply]

/-- States queued by one round of scheduling on a drained queue: the scheduled state alone, or
none. -/
theorem lnk_schedule_next_state_queue (v : LNK_LinkLoop) (hdrained : v.state_list = []) :
    (∀ s, lnk_schedule_spec v = .schedule s →
      (lnk_schedule_next_state v).1.state_list = [s] ∧ (lnk_schedule_next_state v).2 = true) ∧
    (lnk_schedule_spec v = .drop_unresolved_weak →
      (lnk_schedule_next_state v).1.state_list = [] ∧
      (lnk_schedule_next_state v).1.inputs.unresolved_weak_list = 0 ∧
      (lnk_schedule_next_state v).2 = true) ∧
    (lnk_schedule_spec v = .finish → lnk_schedule_next_state v = (v, false)) := by
  rw [lnk_schedule_next_state_eq_spec]
  refine ⟨?_, ?_, ?_⟩
  · intro s hs
    rw [hs]
    cases s <;> simp [lnk_schedule_apply, state_list_push, hdrained]
  · intro h
    rw [h]
    simp [lnk_schedule_apply, hdrained]
  · intro h
    rw [h]
    rfl

/-- The three states that are scheduled once are prescribed only while their variable allows
it. -/
theorem lnk_schedule_spec_once (v : LNK_LinkLoop) :
    (lnk_schedule_spec v = .schedule .LookupEntryPoint → v.entry_point_lookup_attempts = 0) ∧
    (lnk_schedule_spec v = .schedule .InputLinkerObjs → v.input_linker_objs = true) ∧
    (lnk_schedule_spec v = .schedule .ReportUnresolvedSymbols →
      v.report_unresolved_symbols = true) := by
  unfold lnk_schedule_spec lnk_schedule_order
  by_cases h1 : v.inputs.last_disallow_lib = true
  · simp [h1]
  by_cases h2 : v.inputs.input_import_list = 0
  swap
  · simp [h1, h2]
  by_cases h3 : v.inputs.last_include_symbol = true
  · simp [h1, h2, h3]
  by_cases h4 : v.inputs.last_alt_name = true
  · simp [h1, h2, h3, h4]
  by_cases h5 : v.inputs.input_obj_list = 0
  swap
  · simp [h1, h2, h3, h4, h5]
  by_cases h6 : true ∈ v.inputs.input_libs
  · simp [h1, h2, h3, h4, h5, h6]
  by_cases h7 : v.inputs.lookup_undef_list = 0
  swap
  · simp [h1, h2, h3, h4, h5, h6, h7]
  by_cases h8 : v.inputs.lookup_weak_list = 0
  swap
  · simp [h1, h2, h3, h4, h5, h6, h7, h8]
  by_cases h9 : v.inputs.unresolved_weak_list = 0
  swap
  · simp [h1, h2, h3, h4, h5, h6, h7, h8, h9]
  by_cases h10 : v.entry_point_lookup_attempts = 0
  · simp [h1, h2, h3, h4, h5, h6, h7, h8, h9, h10]
  by_cases h11 : v.input_linker_objs = true
  · simp [h1, h2, h3, h4, h5, h6, h7, h8, h9, h10, h11]
  by_cases h12 : v.inputs.unresolved_undef_list = 0
  · simp [h1, h2, h3, h4, h5, h6, h7, h8, h9, h10, h11, h12]
  by_cases h13 : v.report_unresolved_symbols = true
  · simp [h1, h2, h3, h4, h5, h6, h7, h8, h9, h10, h11, h12, h13]
  · simp [h1, h2, h3, h4, h5, h6, h7, h8, h9, h10, h11, h12, h13]

/-- How often `LookupEntryPoint` can still be scheduled. -/
theorem lnk_schedule_next_state_entry_point (v : LNK_LinkLoop) :
    (lnk_schedule_next_state v).1.state_list.count .LookupEntryPoint
        + (if (lnk_schedule_next_state v).1.entry_point_lookup_attempts = 0 then 1 else 0)
      ≤ v.state_list.count .LookupEntryPoint
        + (if v.entry_point_lookup_attempts = 0 then 1 else 0) := by
  rw [lnk_schedule_next_state_eq_spec]
  have h := (lnk_schedule_spec_once v).1
  generalize lnk_schedule_spec v = a at h
  cases a with
  | schedule s =>
    cases s <;> simp [lnk_schedule_apply, state_list_push, List.count_append] at h ⊢
    simp [h]
  | drop_unresolved_weak => simp [lnk_schedule_apply]
  | finish => simp [lnk_schedule_apply]

/-- How often `InputLinkerObjs` can still be scheduled. -/
theorem lnk_schedule_next_state_linker_objs (v : LNK_LinkLoop) :
    (lnk_schedule_next_state v).1.state_list.count .InputLinkerObjs
        + (if (lnk_schedule_next_state v).1.input_linker_objs = true then 1 else 0)
      ≤ v.state_list.count .InputLinkerObjs
        + (if v.input_linker_objs = true then 1 else 0) := by
  rw [lnk_schedule_next_state_eq_spec]
  have h := (lnk_schedule_spec_once v).2.1
  generalize lnk_schedule_spec v = a at h
  cases a with
  | schedule s =>
    cases s <;> simp [lnk_schedule_apply, state_list_push, List.count_append] at h ⊢
    simp [h]
  | drop_unresolved_weak => simp [lnk_schedule_apply]
  | finish => simp [lnk_schedule_apply]

/-- How often `ReportUnresolvedSymbols` can still be scheduled. -/
theorem lnk_schedule_next_state_report (v : LNK_LinkLoop) :
    (lnk_schedule_next_state v).1.state_list.count .ReportUnresolvedSymbols
        + (if (lnk_schedule_next_state v).1.report_unresolved_symbols = true then 1 else 0)
      ≤ v.state_list.count .ReportUnresolvedSymbols
        + (if v.report_unresolved_symbols = true then 1 else 0) := by
  rw [lnk_schedule_next_state_eq_spec]
  have h := (lnk_schedule_spec_once v).2.2
  generalize lnk_schedule_spec v = a at h
  cases a with
  | schedule s =>
    cases s <;> simp [lnk_schedule_apply, state_list_push, List.count_append] at h ⊢
    simp [h]
  | drop_unresolved_weak => simp [lnk_schedule_apply]
  | finish => simp [lnk_schedule_apply]

/-- Running the queued states leaves the three scheduling variables as they are and empties
the queue. -/
theorem lnk_run_queued_states_vars
    (run_state : LNK_LinkState → LNK_LinkInputs → LNK_LinkInputs) (v : LNK_LinkLoop) :
    (lnk_run_queued_states run_state v).state_list = [] ∧
    (lnk_run_queued_states run_state v).entry_point_lookup_attempts
      = v.entry_point_lookup_attempts ∧
    (lnk_run_queued_states run_state v).input_linker_objs = v.input_linker_objs ∧
    (lnk_run_queued_states run_state v).report_unresolved_symbols
      = v.report_unresolved_symbols :=
  ⟨rfl, rfl, rfl, rfl⟩

/-- In a run of the loop, `LookupEntryPoint` is scheduled at most as often as the attempt
counter allows. -/
theorem lnk_run_states_entry_point
    (run_state : LNK_LinkState → LNK_LinkInputs → LNK_LinkInputs) (fuel : Nat) :
    ∀ v : LNK_LinkLoop, (lnk_run_states run_state fuel v).2.count .LookupEntryPoint
      ≤ (if v.entry_point_lookup_attempts = 0 then 1 else 0) := by
  induction fuel with
  | zero => intro v; simp [lnk_run_states]
  | succ n ih =>
    intro v
    have hstep := lnk_schedule_next_state_entry_point (lnk_run_queued_states run_state v)
    have hq := lnk_run_queued_states_vars run_state v
    rw [hq.1, hq.2.1] at hstep
    simp only [lnk_run_states]
    by_cases hc : (lnk_schedule_next_state (lnk_run_queued_states run_state v)).2 = true
    · rw [if_pos hc]
      have := ih (lnk_schedule_next_state (lnk_run_queued_states run_state v)).1
      simp only [List.count_append]
      simp only [List.count_nil, Nat.zero_add] at hstep
      omega
    · rw [if_neg hc]
      simp

/-- In a run of the loop, `InputLinkerObjs` is scheduled at most once. -/
theorem lnk_run_states_linker_objs
    (run_state : LNK_LinkState → LNK_LinkInputs → LNK_LinkInputs) (fuel : Nat) :
    ∀ v : LNK_LinkLoop, (lnk_run_states run_state fuel v).2.count .InputLinkerObjs
      ≤ (if v.input_linker_objs = true then 1 else 0) := by
  induction fuel with
  | zero => intro v; simp [lnk_run_states]
  | succ n ih =>
    intro v
    have hstep := lnk_schedule_next_state_linker_objs (lnk_run_queued_states run_state v)
    have hq := lnk_run_queued_states_vars run_state v
    rw [hq.1, hq.2.2.1] at hstep
    simp only [lnk_run_states]
    by_cases hc : (lnk_schedule_next_state (lnk_run_queued_states run_state v)).2 = true
    · rw [if_pos hc]
      have := ih (lnk_schedule_next_state (lnk_run_queued_states run_state v)).1
      simp only [List.count_append]
      simp only [List.count_nil, Nat.zero_add] at hstep
      omega
    · rw [if_neg hc]
      simp

/-- In a run of the loop, `ReportUnresolvedSymbols` is scheduled at most once. -/
theorem lnk_run_states_report
    (run_state : LNK_LinkState → LNK_LinkInputs → LNK_LinkInputs) (fuel : Nat) :
    ∀ v : LNK_LinkLoop, (lnk_run_states run_state fuel v).2.count .ReportUnresolvedSymbols
      ≤ (if v.report_unresolved_symbols = true then 1 else 0) := by
  induction fuel with
  | zero => intro v; simp [lnk_run_states]
  | succ n ih =>
    intro v
    have hstep := lnk_schedule_next_state_report (lnk_run_queued_states run_state v)
    have hq := lnk_run_queued_states_vars run_state v
    rw [hq.1, hq.2.2.2] at hstep
    simp only [lnk_run_states]
    by_cases hc : (lnk_schedule_next_state (lnk_run_queued_states run_state v)).2 = true
    · rw [if_pos hc]
      have := ih (lnk_schedule_next_state (lnk_run_queued_states run_state v)).1
      simp only [List.count_append]
      simp only [List.count_nil, Nat.zero_add] at hstep
      omega
    · rw [if_neg hc]
      simp

/-- C23: each time the queued states have drained, `lnk_build_link_context` does what the
first condition that holds prescribes, in the order pending disallow-lib entries, imports,
include symbols, alternate names, object inputs, library inputs, undefined lookups, weak
lookups, unresolved weak symbols (dropped), entry point not yet looked up, linker objects not
yet emitted, unresolved undefined symbols not yet reported; a prescribed state is the one state
queued, dropping the weak symbols queues none, and when no condition holds the loop ends with
nothing changed. In every run of the loop, for whatever the states do to the inputs,
`LookupEntryPoint`, `InputLinkerObjs` and `ReportUnresolvedSymbols` are each scheduled at most
once. -/
theorem C23_schedule_next_state
    (run_state : LNK_LinkState → LNK_LinkInputs → LNK_LinkInputs) (fuel : Nat)
    (start v : LNK_LinkLoop) (hdrained : v.state_list = []) :
    lnk_schedule_next_state v = lnk_schedule_apply v (lnk_schedule_spec v) ∧
    (∀ s, lnk_schedule_spec v = .schedule s →
      (lnk_schedule_next_state v).1.state_list = [s] ∧ (lnk_schedule_next_state v).2 = true) ∧
    (lnk_schedule_spec v = .drop_unresolved_weak →
      (lnk_schedule_next_state v).1.state_list = [] ∧
      (lnk_schedule_next_state v).1.inputs.unresolved_weak_list = 0 ∧
      (lnk_schedule_next_state v).2 = true) ∧
    (lnk_schedule_spec v = .finish → lnk_schedule_next_state v = (v, false)) ∧
    (lnk_run_states run_state fuel start).2.count .LookupEntryPoint ≤ 1 ∧
    (lnk_run_states run_state fuel start).2.count .InputLinkerObjs ≤ 1 ∧
    (lnk_run_states run_state fuel start).2.count .ReportUnresolvedSymbols ≤ 1 := by
  have hq := lnk_schedule_next_state_queue v hdrained
  refine ⟨lnk_schedule_next_state_eq_spec v, hq.1, hq.2.1, hq.2.2, ?_, ?_, ?_⟩
  · have := lnk_run_states_entry_point run_state fuel start
    split_ifs at this <;> omega
  · have := lnk_run_states_linker_objs run_state fuel start
    split_ifs at this <;> omega
  · have := lnk_run_states_report run_state fuel start
    split_ifs at this <;> omega

/-- Scenario of C23: one object input and one library input; after the three initial states
`LookupUndef` is scheduled, and the run schedules `LookupEntryPoint`, `InputLinkerObjs` and
`ReportUnresolvedSymbols` once each before it ends. -/
theorem C23_schedule_next_state_witness :
    (lnk_run_queued_states fixture_run_state fixture_link_loop).state_list = [] ∧
    lnk_schedule_spec (lnk_run_queued_states fixture_run_state fixture_link_loop)
      = .schedule .LookupUndef ∧
    (lnk_schedule_next_state
      (lnk_run_queued_states fixture_run_state fixture_link_loop)).1.state_list
      = [.LookupUndef] ∧
    (lnk_run_states fixture_run_state 20 fixture_link_loop).2
      = [.LookupUndef, .LookupEntryPoint, .InputLinkerObjs, .ReportUnresolvedSymbols] ∧
    (lnk_run_states fixture_run_state 20 fixture_link_loop).2.count .LookupEntryPoint ≤ 1 :=
  ⟨rfl, by decide,
   ((C23_schedule_next_state fixture_run_state 20 fixture_link_loop
      (lnk_run_queued_states fixture_run_state fixture_link_loop) rfl).2.1
      .LookupUndef (by decide)).1,
   by decide,
   (C23_schedule_next_state fixture_run_state 20 fixture_link_loop
      (lnk_run_queued_states fixture_run_state fixture_link_loop) rfl).2.2.2.2.1⟩

/-! ## C24: redirection of the entry point name -/

/-- A string of size 0 is the empty string. -/
theorem lnk_string_length_eq_zero (s : String) : s.length = 0 ↔ s = "" := by
  constructor
  · intro h
    apply String.ext
    exact List.length_eq_zero.1 h
  · intro h
    subst h
    rfl

/-- The redirection maps the four user entry names to their CRT entries and every other name
to itself. -/
theorem lnk_redirect_entry_point_name_spec (name : String) :
    (name = "main" → lnk_redirect_entry_point_name name = "mainCRTStartup") ∧
    (name = "wmain" → lnk_redirect_entry_point_name name = "wmainCRTStartup") ∧
    (name = "WinMain" → lnk_redirect_entry_point_name name = "WinMainCRTStartup") ∧
    (name = "wWinMain" → lnk_redirect_entry_point_name name = "wWinMainCRTStartup") ∧
    (name ≠ "main" → name ≠ "wmain" → name ≠ "WinMain" → name ≠ "wWinMain" →
      lnk_redirect_entry_point_name name = name) := by
  refine ⟨?_, ?_, ?_, ?_, ?_⟩
  · intro h; subst h; decide
  · intro h; subst h; decide
  · intro h; subst h; decide
  · intro h; subst h; decide
  · intro h1 h2 h3 h4
    simp [lnk_redirect_entry_point_name, str8_match, Ne.symm h1, Ne.symm h2, Ne.symm h3,
      Ne.symm h4]

/-- With no entry point name configured, the name after `LookupEntryPoint` is the redirection
of the name of the located symbol, or stays empty with an entry-point error recorded. -/
theorem lnk_lookup_entry_point_name (search_defined search_lib : String → Option LNK_Symbol)
    (pe_get_entry_point_names : Nat → List String) (subsystem_count : Nat)
    (config : LNK_Config) (errors : List LNK_Error) (hunspec : config.entry_point_name = "") :
    (∀ symbol, (lnk_locate_entry_point_symbol search_defined search_lib pe_get_entry_point_names
        subsystem_count config errors).1 = some symbol →
      (lnk_lookup_entry_point search_defined search_lib pe_get_entry_point_names subsystem_count
        config errors).1.entry_point_name = lnk_redirect_entry_point_name symbol.name) ∧
    ((lnk_locate_entry_point_symbol search_defined search_lib pe_get_entry_point_names
        subsystem_count config errors).1 = none →
      (lnk_lookup_entry_point search_defined search_lib pe_get_entry_point_names subsystem_count
        config errors).1.entry_point_name = "" ∧
      ({ code := .Error_EntryPoint, obj := none } : LNK_Error) ∈
        (lnk_lookup_entry_point search_defined search_lib pe_get_entry_point_names
          subsystem_count config errors).2) := by
  have hlen : config.entry_point_name.length = 0 := by rw [hunspec]; rfl
  constructor
  · intro symbol hloc
    unfold lnk_lookup_entry_point
    simp only [hlen, decide_True, if_true, hloc]
    by_cases hz : (lnk_redirect_entry_point_name symbol.name).length = 0
    · simp [hz, (lnk_string_length_eq_zero _).1 hz]
    · simp [hz]
  · intro hloc
    unfold lnk_lookup_entry_point
    simp only [hlen, decide_True, if_true, hloc]
    simp [hlen, hunspec]

/-- C24: in the state `LookupEntryPoint` with no entry point name configured, a located symbol
named exactly `main`, `wmain`, `WinMain` or `wWinMain` makes the entry point name
`mainCRTStartup`, `wmainCRTStartup`, `WinMainCRTStartup` or `wWinMainCRTStartup`; a located
symbol of any other name makes the entry point name that name; and when no symbol is located
the name stays empty and an entry-point error is recorded. -/
theorem C24_entry_point_redirect (search_defined search_lib : String → Option LNK_Symbol)
    (pe_get_entry_point_names : Nat → List String) (subsystem_count : Nat)
    (config : LNK_Config) (errors : List LNK_Error) (hunspec : config.entry_point_name = "") :
    (∀ symbol, (lnk_locate_entry_point_symbol search_defined search_lib pe_get_entry_point_names
        subsystem_count config errors).1 = some symbol →
      (symbol.name = "main" →
        (lnk_lookup_entry_point search_defined search_lib pe_get_entry_point_names
          subsystem_count config errors).1.entry_point_name = "mainCRTStartup") ∧
      (symbol.name = "wmain" →
        (lnk_lookup_entry_point search_defined search_lib pe_get_entry_point_names
          subsystem_count config errors).1.entry_point_name = "wmainCRTStartup") ∧
      (symbol.name = "WinMain" →
        (lnk_lookup_entry_point search_defined search_lib pe_get_entry_point_names
          subsystem_count config errors).1.entry_point_name = "WinMainCRTStartup") ∧
      (symbol.name = "wWinMain" →
        (lnk_lookup_entry_point search_defined search_lib pe_get_entry_point_names
          subsystem_count config errors).1.entry_point_name = "wWinMainCRTStartup") ∧
      (symbol.name ≠ "main" → symbol.name ≠ "wmain" → symbol.name ≠ "WinMain" →
        symbol.name ≠ "wWinMain" →
        (lnk_lookup_entry_point search_defined search_lib pe_get_entry_point_names
          subsystem_count config errors).1.entry_point_name = symbol.name)) ∧
    ((lnk_locate_entry_point_symbol search_defined search_lib pe_get_entry_point_names
        subsystem_count config errors).1 = none →
      (lnk_lookup_entry_point search_defined search_lib pe_get_entry_point_names subsystem_count
        config errors).1.entry_point_name = "" ∧
      ({ code := .Error_EntryPoint, obj := none } : LNK_Error) ∈
        (lnk_lookup_entry_point search_defined search_lib pe_get_entry_point_names
          subsystem_count config errors).2) := by
  have h := lnk_lookup_entry_point_name search_defined search_lib pe_get_entry_point_names
    subsystem_count config errors hunspec
  refine ⟨fun symbol hloc => ?_, h.2⟩
  rw [h.1 symbol hloc]
  exact lnk_redirect_entry_point_name_spec symbol.name

/-- Scenario of C24: with the symbol `main` in the Defined scope the entry point name becomes
`mainCRTStartup`; with no symbol at all it stays empty and the error is recorded. -/
theorem C24_entry_point_redirect_witness :
    (lnk_locate_entry_point_symbol (fixture_search_one "main") fixture_search_none
        fixture_entry_point_names 17
        { entry_point_name := "", subsystem := 0, include_symbol_list := [] } []).1
      = some (fixture_defined "main" 0) ∧
    (lnk_lookup_entry_point (fixture_search_one "main") fixture_search_none
        fixture_entry_point_names 17
        { entry_point_name := "", subsystem := 0, include_symbol_list := [] } []).1.entry_point_name
      = "mainCRTStartup" ∧
    ((lnk_locate_entry_point_symbol fixture_search_none fixture_search_none
        fixture_entry_point_names 17
        { entry_point_name := "", subsystem := 3, include_symbol_list := [] } []).1 = none →
      (lnk_lookup_entry_point fixture_search_none fixture_search_none
        fixture_entry_point_names 17
        { entry_point_name := "", subsystem := 3, include_symbol_list := [] } []).1.entry_point_name
        = "" ∧
      ({ code := .Error_EntryPoint, obj := none } : LNK_Error) ∈
        (lnk_lookup_entry_point fixture_search_none fixture_search_none
          fixture_entry_point_names 17
          { entry_point_name := "", subsystem := 3, include_symbol_list := [] } []).2) :=
  ⟨by decide,
   ((C24_entry_point_redirect (fixture_search_one "main") fixture_search_none
      fixture_entry_point_names 17
      { entry_point_name := "", subsystem := 0, include_symbol_list := [] } [] rfl).1
      (fixture_defined "main" 0) (by decide)).1 (by decide),
   (C24_entry_point_redirect fixture_search_none fixture_search_none
      fixture_entry_point_names 17
      { entry_point_name := "", subsystem := 3, include_symbol_list := [] } [] rfl).2⟩

/-! ## C25: order of the input indices of archive members -/

/-- On two operands below `2 ^ 32`, `Compose64Bit` is `a * 2 ^ 32 + b`. -/
theorem Compose64Bit_eq (a b : Nat) (ha : a < 2 ^ 32) (hb : b < 2 ^ 32) :
    Compose64Bit a b = a * 2 ^ 32 + b := by
  unfold Compose64Bit
  have h1 : a % 2 ^ 64 = a := Nat.mod_eq_of_lt (by omega)
  have h2 : b % 2 ^ 64 = b := Nat.mod_eq_of_lt (by omega)
  have h3 : (a <<< 32) % 2 ^ 64 = 2 ^ 32 * a := by
    rw [Nat.shiftLeft_eq, Nat.mul_comm]
    exact Nat.mod_eq_of_lt (by omega)
  rw [h1, h2, h3, ← Nat.mul_add_lt_is_or hb, Nat.mul_comm]

/-- The input index `lnk_queue_lib_member_input` assigns to the one input it queues for a
member that is not of the null kind. -/
theorem lnk_queue_lib_member_input_idx (member_from_offset : Nat → Nat → COFF_ArchiveMember)
    (libs : List LNK_Lib) (symbol : LNK_SymbolLib)
    (hq : (member_from_offset symbol.lib symbol.member_offset).member_type ≠ .Null) :
    lnk_input_idx_list (lnk_queue_lib_member_input member_from_offset libs symbol [] []) =
      [Compose64Bit (lnk_lib_from_ptr libs symbol.lib).input_idx symbol.member_offset] := by
  unfold lnk_queue_lib_member_input lnk_input_idx_list
  cases h : (member_from_offset symbol.lib symbol.member_offset).member_type with
  | Null => exact absurd h hq
  | Import => simp [h]
  | BigObj => simp [h]
  | Obj => simp [h]

/-- C25 as stated fails: the member at offset `2 ^ 32` of the library of input index 0 and the
member at offset 0 of the library of input index 1 get the same input index `2 ^ 32`, although
`(0, 2 ^ 32)` is lexicographically smaller than `(1, 0)`. -/
theorem C25_counterexample :
    ¬ (∀ (libs : List LNK_Lib) (s1 s2 : LNK_SymbolLib),
        (lnk_lib_from_ptr libs s1.lib).input_idx < 2 ^ 64 → s1.member_offset < 2 ^ 64 →
        (lnk_lib_from_ptr libs s2.lib).input_idx < 2 ^ 64 → s2.member_offset < 2 ^ 64 →
        ∀ i1 i2 : Nat,
          lnk_input_idx_list (lnk_queue_lib_member_input fixture_member_obj libs s1 [] [])
            = [i1] →
          lnk_input_idx_list (lnk_queue_lib_member_input fixture_member_obj libs s2 [] [])
            = [i2] →
          (i1 < i2 ↔
            (lnk_lib_from_ptr libs s1.lib).input_idx < (lnk_lib_from_ptr libs s2.lib).input_idx ∨
            ((lnk_lib_from_ptr libs s1.lib).input_idx = (lnk_lib_from_ptr libs s2.lib).input_idx
              ∧ s1.member_offset < s2.member_offset))) := by
  intro h
  have h1 := h fixture_two_libs { lib := 0, member_offset := 2 ^ 32 }
    { lib := 1, member_offset := 0 } (by decide) (by decide) (by decide) (by decide)
    (2 ^ 32) (2 ^ 32) (by decide) (by decide)
  exact absurd (h1.2 (Or.inl (by decide))) (by decide)

/-- C25, amended: when the input indices of the two libraries and the two member offsets are
below `2 ^ 32`, each call of `lnk_queue_lib_member_input` for a member that is not of the null
kind queues one input, and the input index of the first is smaller than the input index of the
second iff `(lib1.input_idx, off1)` is lexicographically smaller than `(lib2.input_idx, off2)`. -/
theorem C25_input_idx_order (member_from_offset : Nat → Nat → COFF_ArchiveMember)
    (libs : List LNK_Lib) (s1 s2 : LNK_SymbolLib)
    (hl1 : (lnk_lib_from_ptr libs s1.lib).input_idx < 2 ^ 32) (ho1 : s1.member_offset < 2 ^ 32)
    (hl2 : (lnk_lib_from_ptr libs s2.lib).input_idx < 2 ^ 32) (ho2 : s2.member_offset < 2 ^ 32)
    (hq1 : (member_from_offset s1.lib s1.member_offset).member_type ≠ .Null)
    (hq2 : (member_from_offset s2.lib s2.member_offset).member_type ≠ .Null) :
    ∃ i1 i2 : Nat,
      lnk_input_idx_list (lnk_queue_lib_member_input member_from_offset libs s1 [] []) = [i1] ∧
      lnk_input_idx_list (lnk_queue_lib_member_input member_from_offset libs s2 [] []) = [i2] ∧
      (i1 < i2 ↔
        (lnk_lib_from_ptr libs s1.lib).input_idx < (lnk_lib_from_ptr libs s2.lib).input_idx ∨
        ((lnk_lib_from_ptr libs s1.lib).input_idx = (lnk_lib_from_ptr libs s2.lib).input_idx
          ∧ s1.member_offset < s2.member_offset)) := by
  refine ⟨_, _, lnk_queue_lib_member_input_idx member_from_offset libs s1 hq1,
    lnk_queue_lib_member_input_idx member_from_offset libs s2 hq2, ?_⟩
  rw [Compose64Bit_eq _ _ hl1 ho1, Compose64Bit_eq _ _ hl2 ho2]
  have e : (2 : Nat) ^ 32 = 4294967296 := by norm_num
  rw [e] at hl1 ho1 hl2 ho2 ⊢
  omega

/-- Scenario of the amended C25: the member at offset `0x200` of the library of input index 0
and the member at offset `0x100` of the library of input index 1. -/
theorem C25_input_idx_order_witness :
    ∃ i1 i2 : Nat,
      lnk_input_idx_list (lnk_queue_lib_member_input fixture_member_obj fixture_two_libs
        { lib := 0, member_offset := 0x200 } [] []) = [i1] ∧
      lnk_input_idx_list (lnk_queue_lib_member_input fixture_member_obj fixture_two_libs
        { lib := 1, member_offset := 0x100 } [] []) = [i2] ∧
      (i1 < i2 ↔
        (lnk_lib_from_ptr fixture_two_libs 0).input_idx
            < (lnk_lib_from_ptr fixture_two_libs 1).input_idx ∨
        ((lnk_lib_from_ptr fixture_two_libs 0).input_idx
            = (lnk_lib_from_ptr fixture_two_libs 1).input_idx
          ∧ 0x200 < 0x100)) :=
  C25_input_idx_order fixture_member_obj fixture_two_libs { lib := 0, member_offset := 0x200 }
    { lib := 1, member_offset := 0x100 } (by decide) (by decide) (by decide) (by decide)
    (by decide) (by decide)

/-! ## C26: the export directive -/

/-- The splitter keeps no empty part. -/
theorem str8_split_chars_ne_nil (split_chars : List Char) (s : List Char) :
    ∀ cur : List Char, ∀ p ∈ str8_split_chars split_chars s cur, p ≠ [] := by
  induction s with
  | nil =>
    intro cur p hp
    unfold str8_split_chars at hp
    by_cases hc : cur = []
    · simp [hc] at hp
    · simp [hc] at hp
      rw [hp]
      exact hc
  | cons c rest ih =>
    intro cur p hp
    unfold str8_split_chars at hp
    by_cases hs : c ∈ split_chars
    · rw [if_pos hs] at hp
      rcases List.mem_append.1 hp with h | h
      · by_cases hc : cur = []
        · simp [hc] at h
        · simp [hc] at h
          rw [h]
          exact hc
      · exact ih [] p h
    · rw [if_neg hs] at hp
      exact ih _ p hp

/-- The splitter yields no part exactly when nothing was scanned and every byte left is a
split character. -/
theorem str8_split_chars_eq_nil (split_chars : List Char) (s : List Char) :
    ∀ cur : List Char, str8_split_chars split_chars s cur = [] ↔
      cur = [] ∧ ∀ c ∈ s, c ∈ split_chars := by
  induction s with
  | nil =>
    intro cur
    unfold str8_split_chars
    by_cases hc : cur = [] <;> simp [hc]
  | cons c rest ih =>
    intro cur
    unfold str8_split_chars
    by_cases hs : c ∈ split_chars
    · rw [if_pos hs]
      by_cases hc : cur = []
      · simp [hc, ih, hs]
      · simp [hc]
    · rw [if_neg hs, ih]
      simp [hs]

/-- The parts of a string split at `=` are not empty. -/
theorem str8_split_by_string_chars_ne_empty (string : String) :
    ∀ p ∈ str8_split_by_string_chars string "=", p.length ≠ 0 := by
  intro p hp
  unfold str8_split_by_string_chars at hp
  obtain ⟨q, hq, rfl⟩ := List.mem_map.1 hp
  have := str8_split_chars_ne_nil _ _ _ q hq
  show q.length ≠ 0
  exact fun h => this (List.length_eq_zero.1 h)

/-- A string split at `=` has no part exactly when it has no text besides `=`. -/
theorem str8_split_by_string_chars_eq_nil (string : String) :
    str8_split_by_string_chars string "=" = [] ↔ ∀ c ∈ string.toList, c = '=' := by
  unfold str8_split_by_string_chars
  rw [List.map_eq_nil_iff, str8_split_chars_eq_nil]
  simp

/-- The last element of a non-empty list is one of its elements. -/
theorem lnk_getLastD_mem {α : Type} (l : List α) (d : α) (h : l ≠ []) : l.getLastD d ∈ l := by
  cases l with
  | nil => exact absurd rfl h
  | cons b l =>
    rw [List.getLastD_cons]
    exact List.getLastD_mem_cons l b

/-- The name the block "parse directive" arrives at is empty exactly when the value list is
empty, has more than two values, or its first value has no text besides `=`; otherwise the
three fields are the last part, the first part of exactly two, and the second value or the
CODE type string. -/
theorem lnk_parse_export_fields_spec (code_type : String) (value_list : List String) :
    ((lnk_parse_export_fields code_type value_list).1.length = 0 ↔
      (value_list = [] ∨ 2 < value_list.length ∨
        ∀ c ∈ (value_list.headD "").toList, c = '=')) ∧
    ((lnk_parse_export_fields code_type value_list).1.length ≠ 0 →
      lnk_parse_export_fields code_type value_list =
        ((str8_split_by_string_chars (value_list.headD "") "=").getLastD "",
         (if (str8_split_by_string_chars (value_list.headD "") "=").length = 2
          then (str8_split_by_string_chars (value_list.headD "") "=").headD "" else ""),
         value_list.getD 1 code_type)) := by
  rw [← str8_split_by_string_chars_eq_nil]
  have hne := str8_split_by_string_chars_ne_empty (value_list.headD "")
  unfold lnk_parse_export_fields
  generalize str8_split_by_string_chars (value_list.headD "") "=" = parts at hne ⊢
  by_cases h0 : value_list = []
  · subst h0
    simp
  have hpos : value_list.length > 0 := List.length_pos.2 h0
  by_cases h2 : value_list.length ≤ 2
  swap
  · simp [hpos, h2, h0]
    omega
  by_cases hs : parts = []
  · subst hs
    simp [hpos, h2, h0]
  · have hlen : parts.length > 0 := List.length_pos.2 hs
    have hne1 := hne _ (lnk_getLastD_mem _ "" hs)
    simp only [hpos, h2, hlen, if_true, decide_True, Bool.and_self]
    refine ⟨?_, ?_⟩
    · constructor
      · intro h
        exact absurd h hne1
      · intro h
        rcases h with h | h | h
        · exact absurd h h0
        · omega
        · exact absurd h hs
    · intro _
      have ht : (if value_list.length = 2 then value_list.getLastD "" else code_type)
          = value_list.getD 1 code_type := by
        match value_list, h0, h2 with
        | [a], _, _ => rfl
        | [a, b], _, _ => rfl
      rw [ht]

/-- C26: `lnk_parse_export_direcive` returns null exactly when the value list is empty, has
more than two values, or its first value has no text besides `=`; it then records the
invalid-export error and leaves the export list unchanged. Otherwise it appends exactly one
entry and raises the count by one; the name of the entry is not empty and is the last part of
the first value split at `=`, its alias is the first part when there are exactly two parts and
empty otherwise, and its type is the second value when there is one and the CODE import type
string otherwise. -/
theorem C26_parse_export_directive (code_type : String) (list : LNK_ExportParseList)
    (value_list : List String) (obj : Nat) (errors : List LNK_Error)
    (hcount : list.count + 1 < 2 ^ 64) :
    ((lnk_parse_export_direcive code_type list value_list obj errors).1 = none ↔
      (value_list = [] ∨ 2 < value_list.length ∨
        ∀ c ∈ (value_list.headD "").toList, c = '=')) ∧
    ((lnk_parse_export_direcive code_type list value_list obj errors).1 = none →
      (lnk_parse_export_direcive code_type list value_list obj errors).2.1 = list ∧
      (lnk_parse_export_direcive code_type list value_list obj errors).2.2
        = errors ++ [{ code := .Error_IllData, obj := some obj }]) ∧
    (∀ parse, (lnk_parse_export_direcive code_type list value_list obj errors).1 = some parse →
      (lnk_parse_export_direcive code_type list value_list obj errors).2.1.entries
        = list.entries ++ [parse] ∧
      (lnk_parse_export_direcive code_type list value_list obj errors).2.1.count
        = list.count + 1 ∧
      (lnk_parse_export_direcive code_type list value_list obj errors).2.2 = errors ∧
      parse.name ≠ "" ∧
      parse.name = (str8_split_by_string_chars (value_list.headD "") "=").getLastD "" ∧
      parse.alias_ = (if (str8_split_by_string_chars (value_list.headD "") "=").length = 2
        then (str8_split_by_string_chars (value_list.headD "") "=").headD "" else "") ∧
      parse.type = value_list.getD 1 code_type) := by
  have hspec := lnk_parse_export_fields_spec code_type value_list
  unfold lnk_parse_export_direcive
  by_cases hz : (lnk_parse_export_fields code_type value_list).1.length = 0
  · rw [if_pos hz]
    refine ⟨⟨fun _ => hspec.1.1 hz, fun _ => rfl⟩, fun _ => ⟨rfl, rfl⟩, ?_⟩
    intro parse h
    exact absurd h (by simp)
  · rw [if_neg hz]
    refine ⟨⟨fun h => absurd h (by simp), fun h => absurd (hspec.1.2 h) hz⟩,
      fun h => absurd h (by simp), ?_⟩
    intro parse h
    have hp := (Option.some.inj h).symm
    subst hp
    have hf := hspec.2 hz
    refine ⟨rfl, Nat.mod_eq_of_lt hcount, rfl, ?_, ?_, ?_, ?_⟩
    · intro e
      apply hz
      show (lnk_parse_export_fields code_type value_list).1.length = 0
      have e' : (lnk_parse_export_fields code_type value_list).1 = "" := e
      rw [e']
      rfl
    · show (lnk_parse_export_fields code_type value_list).1 = _
      rw [hf]
    · show (lnk_parse_export_fields code_type value_list).2.1 = _
      rw [hf]
    · show (lnk_parse_export_fields code_type value_list).2.2 = _
      rw [hf]

/-- Scenario of C26: the directive `alias=name,DATA` on a list of count 3. -/
theorem C26_parse_export_directive_witness :
    (3 : Nat) + 1 < 2 ^ 64 ∧
    lnk_parse_export_direcive "CODE" { entries := [], count := 3 } ["alias=name", "DATA"] 7 []
      = (some { name := "name", alias_ := "alias", type := "DATA" },
         { entries := [{ name := "name", alias_ := "alias", type := "DATA" }], count := 4 },
         []) ∧
    ((lnk_parse_export_direcive "CODE" { entries := [], count := 3 } ["alias=name", "DATA"] 7
        []).1 = none ↔
      (["alias=name", "DATA"] = [] ∨ 2 < ["alias=name", "DATA"].length ∨
        ∀ c ∈ (["alias=name", "DATA"].headD "").toList, c = '=')) :=
  ⟨by decide, by decide,
   (C26_parse_export_directive "CODE" { entries := [], count := 3 } ["alias=name", "DATA"] 7 []
      (by decide)).1⟩

/-! ## C27: the assertion of `lnk_on_symbol_replace` -/

/-- C27, evaluated on three objects none of whose section headers carries `LnkRemove`: the
second input defines the external symbols `f` and `g` in one COMDAT section, the first input
defines `f`, the third defines `g`. Pushing `f` of the first input discards `f` of the second
and flags the shared section; no assertion has failed so far. Pushing `g` of the third input
then keeps `g` of the second input as the leader, so `lnk_on_symbol_replace` runs with a Regular
winner whose section carries `LnkRemove`, and the assertion fails. -/
theorem C27_assert_fails_shared_section :
    (∀ o ∈ fixture_shared_section_objs, ∀ h ∈ o.section_table,
      h.flags &&& COFF_SectionFlag_LnkRemove = 0) ∧
    fixture_shared_section_three.1.assert_failed = false ∧
    fixture_shared_section_three.1.errors = [] ∧
    lnk_symbol_table_search (fun _ => 0) fixture_shared_section_three.2 "g"
      = some (fixture_gc_symbol "g" 0 1) ∧
    lnk_can_replace_symbol fixture_shared_section_three.1.objs
      fixture_shared_section_three.1.libs .Defined
      (fixture_gc_symbol "g" 0 1) (fixture_gc_symbol "g" 2 0) = (false, []) ∧
    lnk_symbol_interp fixture_shared_section_three.1.objs (fixture_gc_symbol "g" 0 1)
      = .Regular ∧
    (lnk_coff_section_header_from_section_number
      (lnk_obj_from_ptr fixture_shared_section_three.1.objs 0) 1).flags
        &&& COFF_SectionFlag_LnkRemove ≠ 0 ∧
    (lnk_on_symbol_replace fixture_shared_section_three.1 .Defined
      (fixture_gc_symbol "g" 2 0) (fixture_gc_symbol "g" 0 1)).assert_failed = true ∧
    fixture_shared_section_pushed.1.assert_failed = true := by
  decide

/-! ## C28: the bitmap of the symbol patcher -/

/-- The store of a mark leaves the symbol tables as they are. -/
theorem lnk_set_symbol_patched_symbol (st : LNK_PatchSymtabs) (o i o' i' : Nat) :
    lnk_patch_symbol (lnk_set_symbol_patched st o i) o' i' = lnk_patch_symbol st o' i' :=
  rfl

/-- The store of a mark leaves the objects as they are. -/
theorem lnk_set_symbol_patched_objs (st : LNK_PatchSymtabs) (o i : Nat) :
    (lnk_set_symbol_patched st o i).objs = st.objs :=
  rfl

/-- The store of a mark removes no mark. -/
theorem lnk_set_symbol_patched_monotone (st : LNK_PatchSymtabs) (o i : Nat) :
    lnk_patch_flags_monotone st (lnk_set_symbol_patched st o i) := by
  intro o' i' h
  unfold lnk_was_symbol_patched lnk_set_symbol_patched at *
  simp only [List.getD_eq_getElem?_getD, List.getElem?_modify] at h ⊢
  by_cases ho : o = o'
  · subst ho
    cases hr : st.was_symbol_patched[o]? with
    | none => simp [hr] at h
    | some row =>
      simp only [hr, Option.map_some', Option.getD_some, if_true] at h ⊢
      by_cases hi : i = i'
      · subst hi
        cases hx : row[i]? with
        | none => simp [hx] at h
        | some b =>
          have hlt : i < row.length := by
            by_contra hc
            rw [List.getElem?_eq_none (by omega)] at hx
            cases hx
          simp [List.getElem?_set_self hlt]
      · simpa [List.getElem?_set_ne hi] using h
  · simpa [ho] using h

/-- The store of a mark sets the mark of an entry the bitmap covers. -/
theorem lnk_set_symbol_patched_self (st : LNK_PatchSymtabs) (o i : Nat) (row : List Bool)
    (hr : st.was_symbol_patched[o]? = some row) (hi : i < row.length) :
    lnk_was_symbol_patched (lnk_set_symbol_patched st o i) o i = true := by
  unfold lnk_was_symbol_patched lnk_set_symbol_patched
  simp [List.getD_eq_getElem?_getD, List.getElem?_modify, hr, List.getElem?_set_self hi]

/-- The store of a mark keeps the shape of the bitmap. -/
theorem lnk_set_symbol_patched_wf (st : LNK_PatchSymtabs) (o i : Nat) (h : lnk_patch_wf st) :
    lnk_patch_wf (lnk_set_symbol_patched st o i) := by
  refine ⟨?_, h.2⟩
  have h1 := h.1
  unfold lnk_set_symbol_patched
  simp only
  rw [← h1]
  apply List.ext_getElem?
  intro n
  simp only [List.getElem?_map, List.getElem?_modify]
  cases st.was_symbol_patched[n]? with
  | none => rfl
  | some row => by_cases hn : o = n <;> simp [hn]

/-- The patch of an entry leaves the bitmap as it is. -/
theorem lnk_patch_store_symbol_flags (helpers : LNK_SymbolPatchHelpers) (st : LNK_PatchSymtabs)
    (o i sn v sc : Nat) :
    (lnk_patch_store_symbol helpers st o i sn v sc).was_symbol_patched = st.was_symbol_patched :=
  rfl

/-- The patch of an entry leaves every other entry as it is. -/
theorem lnk_patch_store_symbol_other (helpers : LNK_SymbolPatchHelpers) (st : LNK_PatchSymtabs)
    (o i sn v sc o' i' : Nat) (hne : ¬ (o' = o ∧ i' = i)) :
    lnk_patch_symbol (lnk_patch_store_symbol helpers st o i sn v sc) o' i'
      = lnk_patch_symbol st o' i' := by
  unfold lnk_patch_symbol lnk_patch_store_symbol
  simp only [List.getElem?_modify]
  cases hobj : st.objs[o']? with
  | none => rfl
  | some obj =>
    by_cases ho : o = o'
    · subst ho
      have hi : i ≠ i' := fun e => hne ⟨rfl, e.symm⟩
      simp [List.getElem?_set_ne hi]
    · simp [ho]

/-- The patch of an entry keeps the shape of the bitmap and the input indices. -/
theorem lnk_patch_store_symbol_wf (helpers : LNK_SymbolPatchHelpers) (st : LNK_PatchSymtabs)
    (o i sn v sc : Nat) (h : lnk_patch_wf st) :
    lnk_patch_wf (lnk_patch_store_symbol helpers st o i sn v sc) := by
  constructor
  · have h1 := h.1
    unfold lnk_patch_store_symbol
    simp only
    rw [h1]
    apply List.ext_getElem?
    intro n
    simp only [List.getElem?_map, List.getElem?_modify]
    cases st.objs[n]? with
    | none => rfl
    | some obj => by_cases hn : o = n <;> simp [hn]
  · intro o' obj hobj
    unfold lnk_patch_store_symbol at hobj
    simp only [List.getElem?_modify] at hobj
    cases hget : st.objs[o']? with
    | none => simp [hget] at hobj
    | some obj0 =>
      have := h.2 o' obj0 hget
      rw [hget] at hobj
      have hobj' := Option.some.inj hobj
      rw [← hobj']
      by_cases hn : o = o'
      · simp only [hn, if_true]
        exact this
      · simp only [hn, if_false]
        exact this

/-- An entry of a symbol table is covered by the bitmap. -/
theorem lnk_patch_wf_covers (st : LNK_PatchSymtabs) (h : lnk_patch_wf st) (o i : Nat)
    (symbol : COFF_ParsedSymbol) (hs : lnk_patch_symbol st o i = some symbol) :
    ∃ row, st.was_symbol_patched[o]? = some row ∧ i < row.length := by
  unfold lnk_patch_symbol at hs
  cases hobj : st.objs[o]? with
  | none => simp [hobj] at hs
  | some obj =>
    simp only [hobj] at hs
    have hlt : i < obj.symbols.length := by
      by_contra hc
      rw [List.getElem?_eq_none (by omega)] at hs
      cases hs
    have h1 := congrArg (fun l => l[o]?) h.1
    simp only [List.getElem?_map, hobj, Option.map_some'] at h1
    cases hrow : st.was_symbol_patched[o]? with
    | none => simp [hrow] at h1
    | some row =>
      simp only [hrow, Option.map_some', Option.some.injEq] at h1
      exact ⟨row, rfl, by omega⟩

/-- An entry of a symbol table is what the parser reads at its index. -/
theorem lnk_patch_symbol_parsed (st : LNK_PatchSymtabs) (o i : Nat) (symbol : COFF_ParsedSymbol)
    (hs : lnk_patch_symbol st o i = some symbol) :
    lnk_parsed_symbol_from_coff_symbol_idx (lnk_obj_from_ptr st.objs o) i = symbol := by
  unfold lnk_patch_symbol at hs
  cases hobj : st.objs[o]? with
  | none => simp [hobj] at hs
  | some obj =>
    simp only [hobj] at hs
    simp [lnk_parsed_symbol_from_coff_symbol_idx, lnk_obj_from_ptr, List.getD_eq_getElem?_getD,
      hobj, hs]

/-- The object an entry of a symbol table belongs to. -/
theorem lnk_patch_symbol_obj (st : LNK_PatchSymtabs) (o i : Nat) (symbol : COFF_ParsedSymbol)
    (hs : lnk_patch_symbol st o i = some symbol) :
    st.objs[o]? = some (lnk_obj_from_ptr st.objs o) := by
  unfold lnk_patch_symbol at hs
  cases hobj : st.objs[o]? with
  | none => simp [hobj] at hs
  | some obj => simp [lnk_obj_from_ptr, List.getD_eq_getElem?_getD, hobj]

/-- The patch of an entry changes that entry at most, and only if it exists. -/
theorem lnk_patch_store_symbol_changed (helpers : LNK_SymbolPatchHelpers)
    (st : LNK_PatchSymtabs) (o i sn v sc o' i' : Nat)
    (hne : lnk_patch_symbol (lnk_patch_store_symbol helpers st o i sn v sc) o' i'
      ≠ lnk_patch_symbol st o' i') :
    o' = o ∧ i' = i ∧ ∃ symbol, lnk_patch_symbol st o i = some symbol := by
  by_cases h : o' = o ∧ i' = i
  · obtain ⟨rfl, rfl⟩ := h
    refine ⟨rfl, rfl, ?_⟩
    cases hs : lnk_patch_symbol st o' i' with
    | some symbol => exact ⟨symbol, rfl⟩
    | none =>
      exfalso
      apply hne
      rw [hs]
      unfold lnk_patch_symbol lnk_patch_store_symbol at *
      simp only [List.getElem?_modify]
      cases hobj : st.objs[o']? with
      | none => rfl
      | some obj =>
        simp only [hobj] at hs
        have hge : obj.symbols.length ≤ i' := by
          by_contra hc
          have hlt : i' < obj.symbols.length := by omega
          rw [List.getElem?_eq_getElem hlt] at hs
          cases hs
        simp [List.getElem?_eq_none, hge]
  · exact absurd (lnk_patch_store_symbol_other helpers st o i sn v sc o' i' h) hne

/-- Keeping the recorded entries is reflexive. -/
theorem lnk_patch_keeps_recorded_refl (st : LNK_PatchSymtabs) :
    lnk_patch_keeps_recorded st st :=
  fun _ _ h => ⟨rfl, h⟩

/-- Keeping the recorded entries is transitive. -/
theorem lnk_patch_keeps_recorded_trans (a b c : LNK_PatchSymtabs)
    (h1 : lnk_patch_keeps_recorded a b) (h2 : lnk_patch_keeps_recorded b c) :
    lnk_patch_keeps_recorded a c := by
  intro o i h
  obtain ⟨e1, f1⟩ := h1 o i h
  obtain ⟨e2, f2⟩ := h2 o i f1
  exact ⟨e2.trans e1, f2⟩

/-- Keeping the recorded entries keeps the marks. -/
theorem lnk_patch_keeps_recorded_monotone (a b : LNK_PatchSymtabs)
    (h : lnk_patch_keeps_recorded a b) : lnk_patch_flags_monotone a b :=
  fun o i hf => (h o i hf).2

/-- Keeping the marks is transitive. -/
theorem lnk_patch_flags_monotone_trans (a b c : LNK_PatchSymtabs)
    (h1 : lnk_patch_flags_monotone a b) (h2 : lnk_patch_flags_monotone b c) :
    lnk_patch_flags_monotone a c :=
  fun o i h => h2 o i (h1 o i h)

/-- Recording the rewrites composes with a step that keeps the marks. -/
theorem lnk_patch_records_rewrites_trans (a b c : LNK_PatchSymtabs)
    (h1 : lnk_patch_records_rewrites a b) (h2 : lnk_patch_records_rewrites b c)
    (hm : lnk_patch_flags_monotone b c) : lnk_patch_records_rewrites a c := by
  intro o i hne
  by_cases hb : lnk_patch_symbol b o i = lnk_patch_symbol a o i
  · exact h2 o i (fun e => hne (e.trans hb))
  · exact hm o i (h1 o i hb)

/-- Recording the rewrites of static symbols composes with a step that keeps the marks. -/
theorem lnk_patch_records_static_rewrites_trans (a b c : LNK_PatchSymtabs)
    (h1 : lnk_patch_records_static_rewrites a b) (h2 : lnk_patch_records_static_rewrites b c)
    (hm : lnk_patch_flags_monotone b c) : lnk_patch_records_static_rewrites a c := by
  intro o i hne hst
  by_cases hb : lnk_patch_symbol b o i = lnk_patch_symbol a o i
  · exact h2 o i (fun e => hne (e.trans hb)) (fun symbol hs => hst symbol (hb ▸ hs))
  · exact hm o i (h1 o i hb hst)

/-- A loop of steps that keep the shape of the bitmap and stand in a reflexive and transitive
relation keeps the shape and stands in the relation. -/
theorem lnk_patch_foldl_rel {α : Type} (R : LNK_PatchSymtabs → LNK_PatchSymtabs → Prop)
    (hrefl : ∀ st, R st st) (htrans : ∀ a b c, R a b → R b c → R a c)
    (body : LNK_PatchSymtabs → α → LNK_PatchSymtabs)
    (hbody : ∀ st x, lnk_patch_wf st → lnk_patch_wf (body st x) ∧ R st (body st x)) :
    ∀ (l : List α) (st : LNK_PatchSymtabs), lnk_patch_wf st →
      lnk_patch_wf (l.foldl body st) ∧ R st (l.foldl body st) := by
  intro l
  induction l with
  | nil => intro st h; exact ⟨h, hrefl st⟩
  | cons x rest ih =>
    intro st h
    obtain ⟨w1, r1⟩ := hbody st x h
    obtain ⟨w2, r2⟩ := ih (body st x) w1
    exact ⟨w2, htrans _ _ _ r1 r2⟩

/-- The same for a loop whose body can fail. -/
theorem lnk_patch_fold_rel (R : LNK_PatchSymtabs → LNK_PatchSymtabs → Prop)
    (hrefl : ∀ st, R st st) (htrans : ∀ a b c, R a b → R b c → R a c)
    (body : LNK_PatchSymtabs → Nat → Option LNK_PatchSymtabs)
    (hbody : ∀ st x st', lnk_patch_wf st → body st x = some st' → lnk_patch_wf st' ∧ R st st') :
    ∀ (l : List Nat) (st st' : LNK_PatchSymtabs), lnk_patch_wf st →
      lnk_patch_fold body l st = some st' → lnk_patch_wf st' ∧ R st st' := by
  intro l
  induction l with
  | nil =>
    intro st st' h hrun
    simp only [lnk_patch_fold, Option.some.injEq] at hrun
    subst hrun
    exact ⟨h, hrefl st⟩
  | cons x rest ih =>
    intro st st' h hrun
    simp only [lnk_patch_fold] at hrun
    cases hb : body st x with
    | none => simp [hb] at hrun
    | some st1 =>
      simp only [hb] at hrun
      obtain ⟨w1, r1⟩ := hbody st x st1 h hb
      obtain ⟨w2, r2⟩ := ih st1 st' w1 hrun
      exact ⟨w2, htrans _ _ _ r1 r2⟩

/-- One step of `lnk_flag_debug_symbols_task` changes no entry and removes no mark. -/
theorem lnk_flag_debug_symbol_rel (helpers : LNK_SymbolPatchHelpers) (st : LNK_PatchSymtabs)
    (o i : Nat) (h : lnk_patch_wf st) :
    lnk_patch_wf (lnk_flag_debug_symbol helpers st o i) ∧
    (lnk_patch_keeps_symbols st (lnk_flag_debug_symbol helpers st o i) ∧
      lnk_patch_flags_monotone st (lnk_flag_debug_symbol helpers st o i)) := by
  unfold lnk_flag_debug_symbol
  simp only
  split_ifs
  · exact ⟨lnk_set_symbol_patched_wf st o i h, fun _ _ => rfl,
      lnk_set_symbol_patched_monotone st o i⟩
  · exact ⟨h, fun _ _ => rfl, fun _ _ hf => hf⟩
  · exact ⟨h, fun _ _ => rfl, fun _ _ hf => hf⟩

/-- One step of `lnk_patch_comdat_leaders_task` removes no mark and records the rewrite of an
entry that is not of the external storage class. -/
theorem lnk_patch_comdat_leader_symbol_rel (helpers : LNK_SymbolPatchHelpers)
    (st : LNK_PatchSymtabs) (o i : Nat) (h : lnk_patch_wf st) :
    lnk_patch_wf (lnk_patch_comdat_leader_symbol helpers st o i) ∧
    (lnk_patch_flags_monotone st (lnk_patch_comdat_leader_symbol helpers st o i) ∧
      lnk_patch_records_static_rewrites st (lnk_patch_comdat_leader_symbol helpers st o i)) := by
  have hid : lnk_patch_wf st ∧ (lnk_patch_flags_monotone st st ∧
      lnk_patch_records_static_rewrites st st) :=
    ⟨h, fun _ _ hf => hf, fun _ _ hne => absurd rfl hne⟩
  unfold lnk_patch_comdat_leader_symbol
  simp only
  by_cases h1 : helpers.coff_interp_symbol
      (lnk_parsed_symbol_from_coff_symbol_idx (lnk_obj_from_ptr st.objs o) i).section_number
      (lnk_parsed_symbol_from_coff_symbol_idx (lnk_obj_from_ptr st.objs o) i).value
      (lnk_parsed_symbol_from_coff_symbol_idx (lnk_obj_from_ptr st.objs o) i).storage_class
      = .Regular
  swap
  · rw [if_neg h1]
    exact hid
  rw [if_pos h1]
  cases hl : lnk_obj_get_comdat_symlink (lnk_obj_from_ptr st.objs o)
      (lnk_parsed_symbol_from_coff_symbol_idx (lnk_obj_from_ptr st.objs o) i).section_number with
  | none => exact hid
  | some symlink =>
    simp only
    by_cases h2 : symlink.obj ≠ o
    swap
    · rw [if_neg h2]
      exact hid
    rw [if_pos h2]
    by_cases h3 : (lnk_parsed_symbol_from_coff_symbol_idx (lnk_obj_from_ptr st.objs o)
        i).storage_class = COFF_SymStorageClass_External
    · -- external symbol
      rw [if_pos h3]
      refine ⟨lnk_patch_store_symbol_wf helpers st o i _ _ _ h, fun _ _ hf => hf, ?_⟩
      intro o' i' hne hst
      obtain ⟨rfl, rfl, symbol, hs⟩ := lnk_patch_store_symbol_changed helpers st o i _ _ _ o' i' hne
      have hp := lnk_patch_symbol_parsed st o' i' symbol hs
      rw [hp] at h3
      exact absurd h3 (hst symbol hs)
    · -- static symbol
      rw [if_neg h3]
      have hw := lnk_set_symbol_patched_wf st o i h
      refine ⟨lnk_patch_store_symbol_wf helpers _ o i _ _ _ hw, ?_, ?_⟩
      · intro o' i' hf
        exact lnk_set_symbol_patched_monotone st o i o' i' hf
      · intro o' i' hne _
        obtain ⟨rfl, rfl, symbol, hs⟩ :=
          lnk_patch_store_symbol_changed helpers (lnk_set_symbol_patched st o i) o i _ _ _ o' i'
            hne
        obtain ⟨row, hr, hi⟩ := lnk_patch_wf_covers st h o' i' symbol hs
        exact lnk_set_symbol_patched_self st o' i' row hr hi

/-- One step of `lnk_patch_common_block_leaders_task` removes no mark and records the
rewrite. -/
theorem lnk_patch_common_block_leader_rel (helpers : LNK_SymbolPatchHelpers)
    (task : LNK_BuildImageTask) (st : LNK_PatchSymtabs) (contrib : LNK_CommonBlockContrib)
    (h : lnk_patch_wf st) :
    lnk_patch_wf (lnk_patch_common_block_leader helpers task st contrib) ∧
    (lnk_patch_flags_monotone st (lnk_patch_common_block_leader helpers task st contrib) ∧
      lnk_patch_records_rewrites st (lnk_patch_common_block_leader helpers task st contrib)) := by
  unfold lnk_patch_common_block_leader
  simp only
  have hw := lnk_patch_store_symbol_wf helpers st contrib.symbol.u.defined.obj
    contrib.symbol.u.defined.symbol_idx ((task.common_block_sect + 1) % 2 ^ 64 % 2 ^ 32)
    contrib.u
    (lnk_parsed_symbol_from_coff_symbol_idx
      (lnk_obj_from_ptr st.objs contrib.symbol.u.defined.obj)
      contrib.symbol.u.defined.symbol_idx).storage_class h
  refine ⟨lnk_set_symbol_patched_wf _ _ _ hw, ?_, ?_⟩
  · intro o' i' hf
    exact lnk_set_symbol_patched_monotone _ _ _ o' i' hf
  · intro o' i' hne
    rw [lnk_set_symbol_patched_symbol] at hne
    obtain ⟨rfl, rfl, symbol, hs⟩ := lnk_patch_store_symbol_changed helpers st _ _ _ _ _ o' i' hne
    have hobj := lnk_patch_symbol_obj st _ _ symbol hs
    have hidx := h.2 _ _ hobj
    rw [hidx]
    obtain ⟨row, hr, hi⟩ := lnk_patch_wf_covers st h _ _ symbol hs
    exact lnk_set_symbol_patched_self _ _ _ row hr hi

/-- One step of `lnk_patch_regular_symbols_task` keeps the recorded entries. -/
theorem lnk_patch_regular_symbol_rel (helpers : LNK_SymbolPatchHelpers)
    (task : LNK_BuildImageTask) (st : LNK_PatchSymtabs) (o i : Nat) (h : lnk_patch_wf st) :
    lnk_patch_wf (lnk_patch_regular_symbol helpers task st o i) ∧
    lnk_patch_keeps_recorded st (lnk_patch_regular_symbol helpers task st o i) := by
  unfold lnk_patch_regular_symbol
  simp only
  split_ifs with h1 h2
  · exact ⟨h, lnk_patch_keeps_recorded_refl st⟩
  · refine ⟨lnk_patch_store_symbol_wf helpers st o i _ _ _ h, ?_⟩
    intro o' i' hf
    refine ⟨?_, hf⟩
    apply lnk_patch_store_symbol_other
    rintro ⟨rfl, rfl⟩
    exact h1 hf
  · exact ⟨h, lnk_patch_keeps_recorded_refl st⟩

/-- One step of `lnk_patch_obj_symtab` keeps the recorded entries and records the rewrite. -/
theorem lnk_patch_obj_symtab_symbol_rel (helpers : LNK_SymbolPatchHelpers)
    (hash_of : String → Nat) (symtab : LNK_SymbolHashTrie)
    (fixup_type : COFF_SymbolValueInterpType) (st : LNK_PatchSymtabs) (o i : Nat)
    (st' : LNK_PatchSymtabs) (h : lnk_patch_wf st)
    (hrun : lnk_patch_obj_symtab_symbol helpers hash_of symtab fixup_type st o i = some st') :
    lnk_patch_wf st' ∧
    (lnk_patch_keeps_recorded st st' ∧ lnk_patch_records_rewrites st st') := by
  have hid : lnk_patch_wf st ∧ (lnk_patch_keeps_recorded st st ∧
      lnk_patch_records_rewrites st st) :=
    ⟨h, lnk_patch_keeps_recorded_refl st, fun _ _ hne => absurd rfl hne⟩
  unfold lnk_patch_obj_symtab_symbol at hrun
  simp only at hrun
  split_ifs at hrun with h1 h2
  · cases hrun; exact hid
  · cases hrun; exact hid
  · cases hres : lnk_resolve_symbol hash_of symtab st.objs { obj := o, symbol_idx := i } with
    | none => simp [hres] at hrun
    | some res =>
      cases res with
      | none =>
        simp only [hres, Option.some.injEq] at hrun
        subst hrun
        exact hid
      | some fixup_symbol =>
        simp only [hres, Option.some.injEq] at hrun
        subst hrun
        have hw := lnk_patch_store_symbol_wf helpers st o i
          (lnk_parsed_symbol_from_coff_symbol_idx (lnk_obj_from_ptr st.objs fixup_symbol.obj)
            fixup_symbol.symbol_idx).section_number
          (lnk_parsed_symbol_from_coff_symbol_idx (lnk_obj_from_ptr st.objs fixup_symbol.obj)
            fixup_symbol.symbol_idx).value COFF_SymStorageClass_Static h
        refine ⟨lnk_set_symbol_patched_wf _ o i hw, ?_, ?_⟩
        · intro o' i' hf
          refine ⟨?_, lnk_set_symbol_patched_monotone _ o i o' i' hf⟩
          rw [lnk_set_symbol_patched_symbol]
          apply lnk_patch_store_symbol_other helpers st o i
          rintro ⟨rfl, rfl⟩
          exact h1 hf
        · intro o' i' hne
          rw [lnk_set_symbol_patched_symbol] at hne
          obtain ⟨rfl, rfl, symbol, hs⟩ :=
            lnk_patch_store_symbol_changed helpers st o i _ _ _ o' i' hne
          obtain ⟨row, hr, hi⟩ := lnk_patch_wf_covers st h o' i' symbol hs
          exact lnk_set_symbol_patched_self _ o' i' row hr hi

/-- The stage "Flag Debug Symbols" changes no entry and removes no mark. -/
theorem lnk_patch_stage_flag_debug (helpers : LNK_SymbolPatchHelpers) (st : LNK_PatchSymtabs)
    (h : lnk_patch_wf st) :
    lnk_patch_wf ((List.range st.objs.length).foldl (lnk_flag_debug_symbols_task helpers) st) ∧
    (lnk_patch_keeps_symbols st
        ((List.range st.objs.length).foldl (lnk_flag_debug_symbols_task helpers) st) ∧
      lnk_patch_flags_monotone st
        ((List.range st.objs.length).foldl (lnk_flag_debug_symbols_task helpers) st)) := by
  have hrefl : ∀ a : LNK_PatchSymtabs, lnk_patch_keeps_symbols a a ∧
      lnk_patch_flags_monotone a a := fun a => ⟨fun _ _ => rfl, fun _ _ hf => hf⟩
  have htrans : ∀ a b c : LNK_PatchSymtabs,
      lnk_patch_keeps_symbols a b ∧ lnk_patch_flags_monotone a b →
      lnk_patch_keeps_symbols b c ∧ lnk_patch_flags_monotone b c →
      lnk_patch_keeps_symbols a c ∧ lnk_patch_flags_monotone a c :=
    fun a b c h1 h2 => ⟨fun o i => (h2.1 o i).trans (h1.1 o i),
      lnk_patch_flags_monotone_trans a b c h1.2 h2.2⟩
  apply lnk_patch_foldl_rel _ hrefl htrans _ _ _ st h
  intro s o hs
  exact lnk_patch_foldl_rel _ hrefl htrans _
    (fun acc i hacc => lnk_flag_debug_symbol_rel helpers acc o i hacc) _ s hs

/-- The stage "COMDAT Leaders" removes no mark and records the rewrites of the entries that
are not of the external storage class. -/
theorem lnk_patch_stage_comdat_leaders (helpers : LNK_SymbolPatchHelpers)
    (st : LNK_PatchSymtabs) (h : lnk_patch_wf st) :
    lnk_patch_wf ((List.range st.objs.length).foldl (lnk_patch_comdat_leaders_task helpers) st) ∧
    (lnk_patch_flags_monotone st
        ((List.range st.objs.length).foldl (lnk_patch_comdat_leaders_task helpers) st) ∧
      lnk_patch_records_static_rewrites st
        ((List.range st.objs.length).foldl (lnk_patch_comdat_leaders_task helpers) st)) := by
  have hrefl : ∀ a : LNK_PatchSymtabs, lnk_patch_flags_monotone a a ∧
      lnk_patch_records_static_rewrites a a :=
    fun a => ⟨fun _ _ hf => hf, fun _ _ hne => absurd rfl hne⟩
  have htrans : ∀ a b c : LNK_PatchSymtabs,
      lnk_patch_flags_monotone a b ∧ lnk_patch_records_static_rewrites a b →
      lnk_patch_flags_monotone b c ∧ lnk_patch_records_static_rewrites b c →
      lnk_patch_flags_monotone a c ∧ lnk_patch_records_static_rewrites a c :=
    fun a b c h1 h2 => ⟨lnk_patch_flags_monotone_trans a b c h1.1 h2.1,
      lnk_patch_records_static_rewrites_trans a b c h1.2 h2.2 h2.1⟩
  apply lnk_patch_foldl_rel _ hrefl htrans _ _ _ st h
  intro s o hs
  exact lnk_patch_foldl_rel _ hrefl htrans _
    (fun acc i hacc => lnk_patch_comdat_leader_symbol_rel helpers acc o i hacc) _ s hs

/-- The stage "Common Block Leaders" removes no mark and records its rewrites. -/
theorem lnk_patch_stage_common_block_leaders (helpers : LNK_SymbolPatchHelpers)
    (task : LNK_BuildImageTask) (st : LNK_PatchSymtabs) (h : lnk_patch_wf st) :
    lnk_patch_wf ((List.range task.common_block_ranges.length).foldl
      (lnk_patch_common_block_leaders_task helpers task) st) ∧
    (lnk_patch_flags_monotone st ((List.range task.common_block_ranges.length).foldl
        (lnk_patch_common_block_leaders_task helpers task) st) ∧
      lnk_patch_records_rewrites st ((List.range task.common_block_ranges.length).foldl
        (lnk_patch_common_block_leaders_task helpers task) st)) := by
  have hrefl : ∀ a : LNK_PatchSymtabs, lnk_patch_flags_monotone a a ∧
      lnk_patch_records_rewrites a a :=
    fun a => ⟨fun _ _ hf => hf, fun _ _ hne => absurd rfl hne⟩
  have htrans : ∀ a b c : LNK_PatchSymtabs,
      lnk_patch_flags_monotone a b ∧ lnk_patch_records_rewrites a b →
      lnk_patch_flags_monotone b c ∧ lnk_patch_records_rewrites b c →
      lnk_patch_flags_monotone a c ∧ lnk_patch_records_rewrites a c :=
    fun a b c h1 h2 => ⟨lnk_patch_flags_monotone_trans a b c h1.1 h2.1,
      lnk_patch_records_rewrites_trans a b c h1.2 h2.2 h2.1⟩
  apply lnk_patch_foldl_rel _ hrefl htrans _ _ _ st h
  intro s task_id hs
  exact lnk_patch_foldl_rel _ hrefl htrans _
    (fun acc contrib hacc => lnk_patch_common_block_leader_rel helpers task acc contrib hacc)
    _ s hs

/-- The stage "Regular Symbols" keeps the recorded entries. -/
theorem lnk_patch_stage_regular_symbols (helpers : LNK_SymbolPatchHelpers)
    (task : LNK_BuildImageTask) (st : LNK_PatchSymtabs) (h : lnk_patch_wf st) :
    lnk_patch_wf ((List.range st.objs.length).foldl
      (lnk_patch_regular_symbols_task helpers task) st) ∧
    lnk_patch_keeps_recorded st ((List.range st.objs.length).foldl
      (lnk_patch_regular_symbols_task helpers task) st) := by
  apply lnk_patch_foldl_rel _ lnk_patch_keeps_recorded_refl lnk_patch_keeps_recorded_trans
    _ _ _ st h
  intro s o hs
  exact lnk_patch_foldl_rel _ lnk_patch_keeps_recorded_refl lnk_patch_keeps_recorded_trans _
    (fun acc i hacc => lnk_patch_regular_symbol_rel helpers task acc o i hacc) _ s hs

/-- A stage of `lnk_patch_obj_symtab` tasks keeps the recorded entries and records its
rewrites. -/
theorem lnk_patch_stage_obj_symtab (helpers : LNK_SymbolPatchHelpers) (hash_of : String → Nat)
    (symtab : LNK_SymbolHashTrie) (fixup_type : COFF_SymbolValueInterpType)
    (st st' : LNK_PatchSymtabs) (h : lnk_patch_wf st)
    (hrun : lnk_patch_fold
      (fun acc obj_idx => lnk_patch_obj_symtab helpers hash_of symtab acc obj_idx fixup_type)
      (List.range st.objs.length) st = some st') :
    lnk_patch_wf st' ∧ (lnk_patch_keeps_recorded st st' ∧ lnk_patch_records_rewrites st st') := by
  have hrefl : ∀ a : LNK_PatchSymtabs, lnk_patch_keeps_recorded a a ∧
      lnk_patch_records_rewrites a a :=
    fun a => ⟨lnk_patch_keeps_recorded_refl a, fun _ _ hne => absurd rfl hne⟩
  have htrans : ∀ a b c : LNK_PatchSymtabs,
      lnk_patch_keeps_recorded a b ∧ lnk_patch_records_rewrites a b →
      lnk_patch_keeps_recorded b c ∧ lnk_patch_records_rewrites b c →
      lnk_patch_keeps_recorded a c ∧ lnk_patch_records_rewrites a c :=
    fun a b c h1 h2 => ⟨lnk_patch_keeps_recorded_trans a b c h1.1 h2.1,
      lnk_patch_records_rewrites_trans a b c h1.2 h2.2
        (lnk_patch_keeps_recorded_monotone b c h2.1)⟩
  refine lnk_patch_fold_rel _ hrefl htrans _ ?_ _ st st' h hrun
  intro s o s' hs hrun1
  unfold lnk_patch_obj_symtab at hrun1
  exact lnk_patch_fold_rel _ hrefl htrans _
    (fun acc i acc' hacc hstep =>
      lnk_patch_obj_symtab_symbol_rel helpers hash_of symtab fixup_type acc o i acc' hacc hstep)
    _ s s' hs hrun1

/-- What one stage of the block "Patch Symbol Tables" guarantees. -/
theorem lnk_patch_stage_run_spec (helpers : LNK_SymbolPatchHelpers) (hash_of : String → Nat)
    (task : LNK_BuildImageTask) (st st' : LNK_PatchSymtabs) (stage : LNK_PatchStage)
    (h : lnk_patch_wf st)
    (hrun : lnk_patch_stage_run helpers hash_of task st stage = some st') :
    lnk_patch_wf st' ∧ lnk_patch_flags_monotone st st' ∧
    (stage.checks_bitmap = true → lnk_patch_keeps_recorded st st') ∧
    (stage.records_rewrites = true → lnk_patch_records_rewrites st st') ∧
    (stage = .ComdatLeaders → lnk_patch_records_static_rewrites st st') ∧
    (stage = .FlagDebugSymbols → lnk_patch_keeps_symbols st st') := by
  cases stage with
  | FlagDebugSymbols =>
    simp only [lnk_patch_stage_run, Option.some.injEq] at hrun
    subst hrun
    obtain ⟨w, k, m⟩ := lnk_patch_stage_flag_debug helpers st h
    exact ⟨w, m, fun hc => absurd hc (by decide), fun hc => absurd hc (by decide),
      fun hc => absurd hc (by decide), fun _ => k⟩
  | ComdatLeaders =>
    simp only [lnk_patch_stage_run, Option.some.injEq] at hrun
    subst hrun
    obtain ⟨w, m, r⟩ := lnk_patch_stage_comdat_leaders helpers st h
    exact ⟨w, m, fun hc => absurd hc (by decide), fun hc => absurd hc (by decide),
      fun _ => r, fun hc => absurd hc (by decide)⟩
  | CommonBlockLeaders =>
    simp only [lnk_patch_stage_run, Option.some.injEq] at hrun
    subst hrun
    obtain ⟨w, m, r⟩ := lnk_patch_stage_common_block_leaders helpers task st h
    exact ⟨w, m, fun hc => absurd hc (by decide), fun _ => r,
      fun hc => absurd hc (by decide), fun hc => absurd hc (by decide)⟩
  | RegularSymbols =>
    simp only [lnk_patch_stage_run, Option.some.injEq] at hrun
    subst hrun
    obtain ⟨w, k⟩ := lnk_patch_stage_regular_symbols helpers task st h
    exact ⟨w, lnk_patch_keeps_recorded_monotone _ _ k, fun _ => k,
      fun hc => absurd hc (by decide), fun hc => absurd hc (by decide),
      fun hc => absurd hc (by decide)⟩
  | CommonSymbols =>
    obtain ⟨w, k, r⟩ := lnk_patch_stage_obj_symtab helpers hash_of task.symtab .Common st st' h
      hrun
    exact ⟨w, lnk_patch_keeps_recorded_monotone _ _ k, fun _ => k, fun _ => r,
      fun hc => absurd hc (by decide), fun hc => absurd hc (by decide)⟩
  | AbsoluteSymbols =>
    obtain ⟨w, k, r⟩ := lnk_patch_stage_obj_symtab helpers hash_of task.symtab .Abs st st' h
      hrun
    exact ⟨w, lnk_patch_keeps_recorded_monotone _ _ k, fun _ => k, fun _ => r,
      fun hc => absurd hc (by decide), fun hc => absurd hc (by decide)⟩
  | UndefinedSymbols =>
    obtain ⟨w, k, r⟩ := lnk_patch_stage_obj_symtab helpers hash_of task.symtab .Undefined st
      st' h hrun
    exact ⟨w, lnk_patch_keeps_recorded_monotone _ _ k, fun _ => k, fun _ => r,
      fun hc => absurd hc (by decide), fun hc => absurd hc (by decide)⟩
  | WeakSymbols =>
    obtain ⟨w, k, r⟩ := lnk_patch_stage_obj_symtab helpers hash_of task.symtab .Weak st st' h
      hrun
    exact ⟨w, lnk_patch_keeps_recorded_monotone _ _ k, fun _ => k, fun _ => r,
      fun hc => absurd hc (by decide), fun hc => absurd hc (by decide)⟩

/-- A sequence of stages that test the bitmap keeps the recorded entries. -/
theorem lnk_patch_stages_run_keeps (helpers : LNK_SymbolPatchHelpers) (hash_of : String → Nat)
    (task : LNK_BuildImageTask) (later : List LNK_PatchStage) :
    ∀ st st' : LNK_PatchSymtabs, lnk_patch_wf st →
      (∀ s ∈ later, s.checks_bitmap = true) →
      lnk_patch_stages_run helpers hash_of task later st = some st' →
      lnk_patch_wf st' ∧ lnk_patch_keeps_recorded st st' := by
  induction later with
  | nil =>
    intro st st' h _ hrun
    simp only [lnk_patch_stages_run, Option.some.injEq] at hrun
    subst hrun
    exact ⟨h, lnk_patch_keeps_recorded_refl st⟩
  | cons s rest ih =>
    intro st st' h hall hrun
    simp only [lnk_patch_stages_run] at hrun
    cases hs : lnk_patch_stage_run helpers hash_of task st s with
    | none => simp [hs] at hrun
    | some st1 =>
      simp only [hs] at hrun
      obtain ⟨w1, _, k1, _⟩ := lnk_patch_stage_run_spec helpers hash_of task st st1 s h hs
      obtain ⟨w2, k2⟩ := ih st1 st' w1 (fun x hx => hall x (List.mem_cons_of_mem _ hx)) hrun
      exact ⟨w2, lnk_patch_keeps_recorded_trans _ _ _
        (k1 (hall s (List.mem_cons_self _ _))) k2⟩

/-- The bitmap the block "Patch Symbol Tables" allocates covers the symbol tables. -/
theorem lnk_patch_symtabs_init_wf (objs : List LNK_Obj)
    (hidx : ∀ (o : Nat) (obj : LNK_Obj), objs[o]? = some obj → obj.input_idx = o) :
    lnk_patch_wf (lnk_patch_symtabs_init objs) := by
  refine ⟨?_, hidx⟩
  simp [lnk_patch_symtabs_init, List.map_map, Function.comp_def]

/-- C28 as stated fails: in the block "Patch Symbol Tables" on two objects with the COMDAT
symbol `f`, the entry of `f` in the follower is rewritten by the stage "COMDAT Leaders" (the
value 0 becomes the value 8 of the leader) and again by the stage "Regular Symbols" (section
number 1 and value 8 become section number 3 and value `0x108`), and after all nine stages it
is not recorded in `was_symbol_patched`. -/
theorem C28_counterexample :
    (fixture_comdat_follower_after 1).map (fun st => lnk_patch_symbol st 1 0)
      = some (some { name := "f", section_number := 1, value := 0, interp := .Regular,
                     storage_class := COFF_SymStorageClass_External }) ∧
    (fixture_comdat_follower_after 2).map (fun st => lnk_patch_symbol st 1 0)
      = some (some { name := "f", section_number := 1, value := 8, interp := .Regular,
                     storage_class := COFF_SymStorageClass_External }) ∧
    (fixture_comdat_follower_after 3).map (fun st => lnk_patch_symbol st 1 0)
      = some (some { name := "f", section_number := 1, value := 8, interp := .Regular,
                     storage_class := COFF_SymStorageClass_External }) ∧
    (fixture_comdat_follower_after 4).map (fun st => lnk_patch_symbol st 1 0)
      = some (some { name := "f", section_number := 3, value := 0x108, interp := .Regular,
                     storage_class := COFF_SymStorageClass_External }) ∧
    (lnk_patch_symbol_tables fixture_patch_helpers (fun _ => 0) fixture_comdat_follower_task
        fixture_comdat_follower_objs).map
      (fun st => (lnk_patch_symbol st 1 0, lnk_was_symbol_patched st 1 0))
      = some (some { name := "f", section_number := 3, value := 0x108, interp := .Regular,
                     storage_class := COFF_SymStorageClass_External }, false) := by
  refine ⟨?_, ?_, ?_, ?_, ?_⟩ <;> decide

/-- C28, amended: in the block "Patch Symbol Tables" of `lnk_build_image` no stage removes a
mark of `was_symbol_patched`; the stages "Regular Symbols", "Common Symbols", "Absolute
Symbols", "Undefined Symbols" and "Weak Symbols" leave every recorded entry as it is; the
stages "Common Block Leaders", "Common Symbols", "Absolute Symbols", "Undefined Symbols" and
"Weak Symbols" record every entry they rewrite, and so does the stage "COMDAT Leaders" for an
entry that is not of the external storage class; the stage "Flag Debug Symbols" rewrites no
entry. Hence an entry that is recorded after a stage is not rewritten by any sequence of
stages that test the bitmap, and these are all the stages that follow "Common Block Leaders".
The rewrites of the stage "COMDAT Leaders" on external symbols and those of the stage "Regular
Symbols" are not recorded. -/
theorem C28_recorded_symbols_frozen (helpers : LNK_SymbolPatchHelpers)
    (hash_of : String → Nat) (task : LNK_BuildImageTask) (st st' st2 : LNK_PatchSymtabs)
    (stage : LNK_PatchStage) (later : List LNK_PatchStage)
    (hwf : lnk_patch_wf st)
    (hrun : lnk_patch_stage_run helpers hash_of task st stage = some st')
    (hlater : ∀ s ∈ later, s.checks_bitmap = true)
    (hrest : lnk_patch_stages_run helpers hash_of task later st' = some st2) :
    lnk_patch_flags_monotone st st' ∧
    (stage.checks_bitmap = true → lnk_patch_keeps_recorded st st') ∧
    (stage.records_rewrites = true → lnk_patch_records_rewrites st st') ∧
    (stage = .ComdatLeaders → lnk_patch_records_static_rewrites st st') ∧
    (stage = .FlagDebugSymbols → lnk_patch_keeps_symbols st st') ∧
    lnk_patch_keeps_recorded st' st2 ∧
    (∀ s ∈ lnk_patch_symbol_tables_stages.drop 3, s.checks_bitmap = true) := by
  obtain ⟨w, m, k, r, rs, ks⟩ := lnk_patch_stage_run_spec helpers hash_of task st st' stage hwf
    hrun
  exact ⟨m, k, r, rs, ks,
    (lnk_patch_stages_run_keeps helpers hash_of task later st' st2 w hlater hrest).2,
    by decide⟩

/-- Scenario of the amended C28: the stage "Regular Symbols" on the two objects with the COMDAT
symbol `f`, followed by the five stages that come after it. -/
theorem C28_recorded_symbols_frozen_witness :
    lnk_patch_wf (lnk_patch_symtabs_init fixture_comdat_follower_objs) ∧
    lnk_patch_keeps_recorded (lnk_patch_symtabs_init fixture_comdat_follower_objs)
      fixture_patch_regular_state ∧
    lnk_patch_keeps_recorded fixture_patch_regular_state fixture_patch_final_state :=
  have hwf : lnk_patch_wf (lnk_patch_symtabs_init fixture_comdat_follower_objs) :=
    lnk_patch_symtabs_init_wf fixture_comdat_follower_objs (fun o obj h => by
      match o, h with
      | 0, h => cases h; rfl
      | 1, h => cases h; rfl
      | n + 2, h => cases h)
  have h := C28_recorded_symbols_frozen fixture_patch_helpers (fun _ => 0)
    fixture_comdat_follower_task (lnk_patch_symtabs_init fixture_comdat_follower_objs)
    fixture_patch_regular_state fixture_patch_final_state .RegularSymbols
    (lnk_patch_symbol_tables_stages.drop 4) hwf (by decide) (by decide) (by decide)
  ⟨hwf, h.2.1 rfl, h.2.2.2.2.2.1⟩

/-! ## C29: `lnk_patch_regular_symbols_task` -/

/-- The entry a patch stores. -/
theorem lnk_patch_store_symbol_self (helpers : LNK_SymbolPatchHelpers) (st : LNK_PatchSymtabs)
    (o i sn v sc : Nat) (symbol : COFF_ParsedSymbol)
    (hs : lnk_patch_symbol st o i = some symbol) :
    lnk_patch_symbol (lnk_patch_store_symbol helpers st o i sn v sc) o i =
      some (if (lnk_obj_from_ptr st.objs o).is_big_obj then
          coff_symbol32_store helpers symbol sn v sc
        else coff_symbol16_store helpers symbol sn v sc) := by
  have hp := lnk_patch_symbol_parsed st o i symbol hs
  unfold lnk_patch_symbol at hs
  cases hobj : st.objs[o]? with
  | none => simp [hobj] at hs
  | some obj =>
    simp only [hobj] at hs
    have hlt : i < obj.symbols.length := by
      by_contra hc
      rw [List.getElem?_eq_none (by omega)] at hs
      cases hs
    unfold lnk_patch_symbol lnk_patch_store_symbol
    simp only [hp, List.getElem?_modify, hobj, Option.map_some', if_true]
    exact List.getElem?_set_self hlt

/-- What `lnk_patch_regular_symbols_task` stores for a Regular entry that is not recorded in
`was_symbol_patched`: for the null contribution the 16-bit removed-section number and
`max_U32`, whatever the format of the object; for a contribution the section index plus one
on 16 bits and the offset plus the old value on 32 bits. -/
theorem lnk_patch_regular_symbol_stored (helpers : LNK_SymbolPatchHelpers)
    (task : LNK_BuildImageTask) (st : LNK_PatchSymtabs) (o i : Nat) (symbol : COFF_ParsedSymbol)
    (hs : lnk_patch_symbol st o i = some symbol)
    (hflag : lnk_was_symbol_patched st o i = false)
    (hreg : helpers.coff_interp_symbol symbol.section_number symbol.value symbol.storage_class
      = .Regular) :
    ∃ stored, lnk_patch_symbol (lnk_patch_regular_symbol helpers task st o i) o i = some stored ∧
      stored.name = symbol.name ∧
      ((task.sect_map.getD o []).getD ((symbol.section_number + 2 ^ 32 - 1) % 2 ^ 32) none
          = none →
        stored.section_number = helpers.LNK_REMOVED_SECTION_NUMBER_16 % 2 ^ 16 ∧
        stored.value = max_U32) ∧
      (∀ sc, (task.sect_map.getD o []).getD ((symbol.section_number + 2 ^ 32 - 1) % 2 ^ 32) none
          = some sc →
        stored.section_number = (sc.sect_idx + 1) % 2 ^ 16 ∧
        stored.value = (sc.off + symbol.value) % 2 ^ 32) := by
  have hp := lnk_patch_symbol_parsed st o i symbol hs
  unfold lnk_patch_regular_symbol
  simp only [hp, hflag, hreg, if_true, Bool.false_eq_true, if_false]
  rw [lnk_patch_store_symbol_self helpers st o i _ _ _ symbol hs]
  refine ⟨_, rfl, ?_, ?_, ?_⟩
  · by_cases hb : (lnk_obj_from_ptr st.objs o).is_big_obj = true
    · simp [hb, coff_symbol32_store]
    · simp [hb, coff_symbol16_store]
  · intro hsc
    rw [hsc]
    by_cases hb : (lnk_obj_from_ptr st.objs o).is_big_obj = true
    · simp only [hb, if_true, coff_symbol32_store, max_U32]
      constructor
      · omega
      · norm_num
    · simp only [hb, Bool.false_eq_true, if_false, coff_symbol16_store, max_U32]
      constructor
      · omega
      · norm_num
  · intro sc hsc
    rw [hsc]
    by_cases hb : (lnk_obj_from_ptr st.objs o).is_big_obj = true
    · simp only [hb, if_true, coff_symbol32_store]
      constructor
      · omega
      · omega
    · simp only [hb, Bool.false_eq_true, if_false, coff_symbol16_store]
      constructor
      · omega
      · omega

/-- C29, evaluated on an object whose Regular symbol `g` lies in a section that maps to the
null contribution. For a regular object `lnk_patch_regular_symbols_task` stores the section
number `0xFFFD`, which is the removed-section number of the object, and the relocation patcher
recognises a relocation against `g` as one against a removed section. For a big object the
task stores the same 16-bit number `0xFFFD`, the removed-section number of the object is
`0xFFFFFFFD`, and the relocation patcher resolves the relocation as one against section
`0xFFFD`. For a section that maps to a contribution the stored section number is the section
index plus one and the stored value the offset plus the old value. -/
theorem C29_removed_number_big_obj :
    lnk_parsed_symbol_from_coff_symbol_idx (fixture_removed_symbol_patched false) 0
      = { name := "g", section_number := 0xFFFD, value := 0xFFFFFFFF, interp := .Regular,
          storage_class := COFF_SymStorageClass_Static } ∧
    lnk_obj_get_removed_section_number (fixture_removed_symbol_patched false) = 0xFFFD ∧
    lnk_reloc_symbol_location { image_base := 0x140000000, image_section_voffs := [0, 0x1000] }
        (fixture_removed_symbol_patched false)
        { apply_off := 0, isymbol := 0, type := COFF_Reloc_X64_Addr64 } = none ∧
    lnk_parsed_symbol_from_coff_symbol_idx (fixture_removed_symbol_patched true) 0
      = { name := "g", section_number := 0xFFFD, value := 0xFFFFFFFF, interp := .Regular,
          storage_class := COFF_SymStorageClass_Static } ∧
    lnk_obj_get_removed_section_number (fixture_removed_symbol_patched true) = 0xFFFFFFFD ∧
    lnk_reloc_symbol_location { image_base := 0x140000000, image_section_voffs := [0, 0x1000] }
        (fixture_removed_symbol_patched true)
        { apply_off := 0, isymbol := 0, type := COFF_Reloc_X64_Addr64 }
      = some ((0xFFFD, 0xFFFFFFFF, 0xFFFFFFFF), []) ∧
    lnk_parsed_symbol_from_coff_symbol_idx (fixture_live_symbol_patched true) 0
      = { name := "g", section_number := 2, value := 0x44, interp := .Regular,
          storage_class := COFF_SymStorageClass_Static } := by
  refine ⟨?_, ?_, ?_, ?_, ?_, ?_, ?_⟩ <;> decide

/-! ## C30: the symbol `__ImageBase` in the relocation patcher -/

/-- Location values of a relocation against an Absolute symbol: section number 0, section
offset 0, and as VOFF the symbol value minus the image base, where the value of `__ImageBase`
is the image base as the 32-bit field `symbol.value` holds it. -/
theorem lnk_reloc_symbol_location_abs (task : LNK_ObjRelocPatcher) (obj : LNK_Obj)
    (reloc : COFF_Reloc)
    (habs : coff_interp_from_parsed_symbol
      (lnk_parsed_symbol_from_coff_symbol_idx obj reloc.isymbol) = .Abs) :
    lnk_reloc_symbol_location task obj reloc =
      some ((0, 0,
        ((if (lnk_parsed_symbol_from_coff_symbol_idx obj reloc.isymbol).name = "__ImageBase"
          then task.image_base % 2 ^ 32
          else (lnk_parsed_symbol_from_coff_symbol_idx obj reloc.isymbol).value : Nat) : Int)
          - (task.image_base : Int)), []) := by
  simp [lnk_reloc_symbol_location, habs, str8_match]

/-- For the symbol `__ImageBase` the VOFF is 0 exactly when the image base fits 32 bits. -/
theorem lnk_reloc_symbol_location_image_base (task : LNK_ObjRelocPatcher) (obj : LNK_Obj)
    (reloc : COFF_Reloc)
    (habs : coff_interp_from_parsed_symbol
      (lnk_parsed_symbol_from_coff_symbol_idx obj reloc.isymbol) = .Abs)
    (hname : (lnk_parsed_symbol_from_coff_symbol_idx obj reloc.isymbol).name = "__ImageBase") :
    ∃ voff : Int, lnk_reloc_symbol_location task obj reloc = some ((0, 0, voff), []) ∧
      (voff = 0 ↔ task.image_base < 2 ^ 32) := by
  refine ⟨((task.image_base % 2 ^ 32 : Nat) : Int) - (task.image_base : Int), ?_, ?_⟩
  · rw [lnk_reloc_symbol_location_abs task obj reloc habs, if_pos hname]
  · constructor
    · intro h
      have h1 : task.image_base % 2 ^ 32 = task.image_base := by omega
      exact Nat.lt_of_le_of_lt (Nat.le_of_eq h1.symm) (Nat.mod_lt _ (by norm_num))
    · intro h
      rw [Nat.mod_eq_of_lt h]
      simp

/-- C30, evaluated at the default x64 image base `0x140000000`: for a relocation against the
Absolute symbol `__ImageBase` the patcher resolves section number 0 and section offset 0, but
the VOFF is `-0x100000000`, not 0: the image base is stored to the 32-bit `symbol.value`
before the subtraction. For the image base `0x40000000` the VOFF is 0, and for another
Absolute symbol it is the symbol value minus the image base. -/
theorem C30_image_base_voff_truncated :
    lnk_reloc_symbol_location { image_base := 0x140000000, image_section_voffs := [0, 0x1000] }
        fixture_image_base_obj { apply_off := 0, isymbol := 0, type := COFF_Reloc_X64_Addr64 }
      = some ((0, 0, -0x100000000), []) ∧
    lnk_reloc_symbol_location { image_base := 0x40000000, image_section_voffs := [0, 0x1000] }
        fixture_image_base_obj { apply_off := 0, isymbol := 0, type := COFF_Reloc_X64_Addr64 }
      = some ((0, 0, 0), []) ∧
    lnk_reloc_symbol_location { image_base := 0x140000000, image_section_voffs := [0, 0x1000] }
        fixture_image_base_obj { apply_off := 0, isymbol := 1, type := COFF_Reloc_X64_Addr64 }
      = some ((0, 0, 0x50000000 - 0x140000000), []) := by
  refine ⟨?_, ?_, ?_⟩ <;> decide

/-- Sizes of a serialized page when no site was suppressed (as many entries written as the page
has sites): the block size field is the size of the buffer pushed and a multiple of 4. -/
theorem lnk_base_reloc_serialize_page_sizes_unsuppressed (page : LNK_BaseRelocPage)
    (hsmall : page.entries_addr32.length + page.entries_addr64.length < 2 ^ 30)
    (hall : (lnk_base_reloc_serialize_page page).entries.length
      = page.entries_addr32.length + page.entries_addr64.length
        + AlignPadPow2 (page.entries_addr32.length + page.entries_addr64.length) 2) :
    (lnk_base_reloc_serialize_page page).block_size
        = (lnk_base_reloc_serialize_page page).buf_size
    ∧ (lnk_base_reloc_serialize_page page).block_size % 4 = 0 := by
  have hb : (lnk_base_reloc_serialize_page page).block_size
      = (4 + 4 + 2 * (lnk_base_reloc_serialize_page page).entries.length) % 2 ^ 32 := rfl
  have hs : (lnk_base_reloc_serialize_page page).buf_size
      = AlignPow2 (4 + 4 + 2 * (page.entries_addr32.length + page.entries_addr64.length)) 4 :=
    rfl
  rw [hb, hs, hall]
  generalize page.entries_addr32.length + page.entries_addr64.length = t at hsmall ⊢
  unfold AlignPow2 AlignPadPow2
  norm_num at hsmall ⊢
  omega

/-! ## Base relocations: block size after duplicate suppression -/

/-- C31, the code at the failing input. One X64 object whose section at virtual offset 0x2000
carries two ADDR64 relocations at the same site 0x2010, page size 0x1000: the page has two
sites, so the buffer pushed has 12 bytes and the pad count, taken from the two sites, is 0; the
second site is suppressed, so one DIR64 entry is written and the block size field is 10. The
field is no multiple of 4, it is not the number of bytes pushed, and the 16-bit slot behind the
entry, the last of the buffer, is not written at all. -/
theorem C31_block_size_after_suppression :
    lnk_build_base_relocs 0x1000 0
        [fixture_reloc_obj 0x2000 false
          [⟨0x10, 0, COFF_Reloc_X64_Addr64⟩, ⟨0x10, 0, COFF_Reloc_X64_Addr64⟩]] [(0, 1)] []
      = ([{ page_voff := 0x2000, block_size := 10,
            entries := [PE_BaseRelocMake PE_BaseRelocKind_DIR64 0x10], buf_size := 12 }], [])
    ∧ 10 % 4 ≠ 0
    ∧ AlignPadPow2 2 2 = 0 := by
  refine ⟨by decide, by decide, by decide⟩

/-! ## COMDAT collector: relocation slices of the new tasks -/

/-- The tasks `lnk_gc_new_tasks` creates are the slices of `lnk_gc_new_task_slices`, in
order. -/
theorem lnk_gc_new_tasks_eq_slices (obj : Nat) (relocs : List COFF_Reloc) :
    lnk_gc_new_tasks obj relocs
      = (lnk_gc_new_task_slices relocs.length).map
          (fun slice => { obj := obj, relocs := (relocs.drop slice.1).take slice.2 }) := by
  simp [lnk_gc_new_tasks, lnk_gc_new_task_slices, Function.comp_def]

/-- Number of slices: the relocation count divided by 1024, rounded up. -/
theorem lnk_gc_new_task_slices_length (count : Nat) :
    (lnk_gc_new_task_slices count).length = (count + 1023) / 1024 := by
  simp [lnk_gc_new_task_slices, CeilIntegerDiv]

/-- The slice of index `i`. -/
theorem lnk_gc_new_task_slices_getD (count i : Nat)
    (hi : i < (lnk_gc_new_task_slices count).length) :
    (lnk_gc_new_task_slices count).getD i (0, 0)
      = (i * 1024, min 1024 (count - i * 1024)) := by
  have hlen := lnk_gc_new_task_slices_length count
  unfold lnk_gc_new_task_slices at hi ⊢
  rw [List.getD_eq_getElem _ _ hi]
  simp

/-- C32: for a section with `n` relocations, `lnk_gc_comdats` creates one task per slice of
`lnk_gc_new_task_slices n`, and the relocations of the task are those of the slice. No task is
created for `n = 0`. Every slice has between 1 and 1024 relocations and lies inside `[0, n)`;
the first slice starts at 0, every other slice starts where the slice before it ends, and the
last slice ends at `n` (so the slices are contiguous); a slice ends at or before the start of
every later slice (so the slices are pairwise disjoint); and every index below `n` lies in
a slice (so they cover `[0, n)`). -/
theorem C32_gc_task_slices (obj : Nat) (relocs : List COFF_Reloc) :
    lnk_gc_new_tasks obj relocs
      = (lnk_gc_new_task_slices relocs.length).map
          (fun slice => { obj := obj, relocs := (relocs.drop slice.1).take slice.2 })
    ∧ (relocs.length = 0 → lnk_gc_new_tasks obj relocs = [])
    ∧ (∀ i, i < (lnk_gc_new_task_slices relocs.length).length →
        1 ≤ ((lnk_gc_new_task_slices relocs.length).getD i (0, 0)).2
        ∧ ((lnk_gc_new_task_slices relocs.length).getD i (0, 0)).2 ≤ 1024
        ∧ ((lnk_gc_new_task_slices relocs.length).getD i (0, 0)).1
            + ((lnk_gc_new_task_slices relocs.length).getD i (0, 0)).2 ≤ relocs.length
        ∧ ((relocs.drop ((lnk_gc_new_task_slices relocs.length).getD i (0, 0)).1).take
            ((lnk_gc_new_task_slices relocs.length).getD i (0, 0)).2).length
          = ((lnk_gc_new_task_slices relocs.length).getD i (0, 0)).2)
    ∧ (0 < relocs.length → ((lnk_gc_new_task_slices relocs.length).getD 0 (0, 0)).1 = 0)
    ∧ (∀ i, i + 1 < (lnk_gc_new_task_slices relocs.length).length →
        ((lnk_gc_new_task_slices relocs.length).getD (i + 1) (0, 0)).1
          = ((lnk_gc_new_task_slices relocs.length).getD i (0, 0)).1
            + ((lnk_gc_new_task_slices relocs.length).getD i (0, 0)).2)
    ∧ (∀ i, i + 1 = (lnk_gc_new_task_slices relocs.length).length →
        ((lnk_gc_new_task_slices relocs.length).getD i (0, 0)).1
          + ((lnk_gc_new_task_slices relocs.length).getD i (0, 0)).2 = relocs.length)
    ∧ (∀ i j, i < j → j < (lnk_gc_new_task_slices relocs.length).length →
        ((lnk_gc_new_task_slices relocs.length).getD i (0, 0)).1
          + ((lnk_gc_new_task_slices relocs.length).getD i (0, 0)).2
          ≤ ((lnk_gc_new_task_slices relocs.length).getD j (0, 0)).1)
    ∧ (∀ k, k < relocs.length →
        ∃ i, i < (lnk_gc_new_task_slices relocs.length).length
          ∧ ((lnk_gc_new_task_slices relocs.length).getD i (0, 0)).1 ≤ k
          ∧ k < ((lnk_gc_new_task_slices relocs.length).getD i (0, 0)).1
              + ((lnk_gc_new_task_slices relocs.length).getD i (0, 0)).2) := by
  have hlen := lnk_gc_new_task_slices_length relocs.length
  generalize hn : relocs.length = n at hlen ⊢
  refine ⟨?_, ?_, ?_, ?_, ?_, ?_, ?_, ?_⟩
  · rw [← hn]
    exact lnk_gc_new_tasks_eq_slices obj relocs
  · intro h0
    rw [lnk_gc_new_tasks_eq_slices, hn, h0]
    rfl
  · intro i hi
    rw [lnk_gc_new_task_slices_getD n i hi]
    rw [hlen] at hi
    simp only [List.length_take, List.length_drop, hn]
    omega
  · intro hpos
    rw [lnk_gc_new_task_slices_getD n 0 (by rw [hlen]; omega)]
  · intro i hi
    rw [lnk_gc_new_task_slices_getD n (i + 1) hi,
      lnk_gc_new_task_slices_getD n i (by omega)]
    rw [hlen] at hi
    simp only
    omega
  · intro i hi
    rw [lnk_gc_new_task_slices_getD n i (by omega)]
    rw [hlen] at hi
    simp only
    omega
  · intro i j hij hj
    rw [lnk_gc_new_task_slices_getD n i (by omega), lnk_gc_new_task_slices_getD n j hj]
    rw [hlen] at hj
    simp only
    omega
  · intro k hk
    refine ⟨k / 1024, ?_, ?_⟩
    · rw [hlen]
      omega
    · rw [lnk_gc_new_task_slices_getD n (k / 1024) (by rw [hlen]; omega)]
      simp only
      omega

/-! ## Section definitions: gathering and merging -/

/-- Search after a push: an entry found before is still found, and the key pushed is found
when it was not there. -/
theorem hash_table_search_push {α : Type} (ht : LNK_StringHashTable α) (key pushed : String)
    (value : α) :
    hash_table_search_string_raw (hash_table_push_string_raw ht pushed value) key
      = match hash_table_search_string_raw ht key with
        | some x => some x
        | none => if pushed = key then some value else none := by
  unfold hash_table_push_string_raw
  induction ht with
  | nil => simp [hash_table_search_string_raw]
  | cons e rest ih =>
    simp only [List.cons_append, hash_table_search_string_raw]
    by_cases he : e.1 = key
    · simp [he]
    · simp only [he, if_false]
      exact ih

/-- Search after a write through a found pointer. -/
theorem hash_table_search_update {α : Type} (f : α → α) (ht : LNK_StringHashTable α)
    (key written : String) :
    hash_table_search_string_raw (hash_table_update_found f ht written) key
      = if written = key then (hash_table_search_string_raw ht key).map f
        else hash_table_search_string_raw ht key := by
  induction ht with
  | nil => simp [hash_table_update_found, hash_table_search_string_raw]
  | cons e rest ih =>
    simp only [hash_table_update_found]
    by_cases hw : e.1 = written
    · rw [if_pos hw]
      simp only [hash_table_search_string_raw]
      by_cases hk : written = key
      · have : e.1 = key := hw.trans hk
        simp [this, hk]
      · have : ¬ e.1 = key := fun h => hk (hw.symm.trans h)
        simp [this, hk]
    · rw [if_neg hw]
      simp only [hash_table_search_string_raw]
      by_cases he : e.1 = key
      · have : ¬ written = key := fun h => hw (he.trans h.symm)
        simp [he, this]
      · simp only [he, if_false]
        exact ih

/-- A key is found exactly when it is the key of an entry. -/
theorem hash_table_search_eq_none {α : Type} (ht : LNK_StringHashTable α) (key : String) :
    hash_table_search_string_raw ht key = none ↔ key ∉ ht.map (fun e => e.1) := by
  induction ht with
  | nil => simp [hash_table_search_string_raw]
  | cons e rest ih =>
    simp only [hash_table_search_string_raw, List.map_cons, List.mem_cons, not_or]
    by_cases he : e.1 = key
    · simp [he]
    · simp only [he, if_false]
      rw [ih]
      constructor
      · intro h
        exact ⟨fun h2 => he h2.symm, h⟩
      · intro h
        exact h.2

/-- An entry found is an entry of the table. -/
theorem hash_table_search_mem {α : Type} (ht : LNK_StringHashTable α) (key : String) (v : α)
    (h : hash_table_search_string_raw ht key = some v) : (key, v) ∈ ht := by
  induction ht with
  | nil => simp [hash_table_search_string_raw] at h
  | cons e rest ih =>
    simp only [hash_table_search_string_raw] at h
    by_cases he : e.1 = key
    · rw [if_pos he] at h
      have hv : e.2 = v := Option.some.inj h
      have : e = (key, v) := Prod.ext he hv
      rw [this]
      exact List.mem_cons_self _ _
    · rw [if_neg he] at h
      exact List.mem_cons_of_mem _ (ih h)

/-- A write through a found pointer keeps the keys. -/
theorem hash_table_update_keys {α : Type} (f : α → α) (ht : LNK_StringHashTable α)
    (written : String) :
    (hash_table_update_found f ht written).map (fun e => e.1) = ht.map (fun e => e.1) := by
  induction ht with
  | nil => rfl
  | cons e rest ih =>
    simp only [hash_table_update_found]
    by_cases hw : e.1 = written
    · simp [hw]
    · simp only [hw, if_false, List.map_cons]
      rw [ih]

/-- Entries after a write through a found pointer: entries of before, or the image of one. -/
theorem hash_table_update_mem {α : Type} (f : α → α) (ht : LNK_StringHashTable α)
    (written : String) (e : String × α) (he : e ∈ hash_table_update_found f ht written) :
    e ∈ ht ∨ ∃ e0 ∈ ht, e = (e0.1, f e0.2) := by
  induction ht with
  | nil => simp [hash_table_update_found] at he
  | cons x rest ih =>
    simp only [hash_table_update_found] at he
    by_cases hw : x.1 = written
    · rw [if_pos hw] at he
      rcases List.mem_cons.1 he with h | h
      · exact Or.inr ⟨x, List.mem_cons_self _ _, h⟩
      · exact Or.inl (List.mem_cons_of_mem _ h)
    · rw [if_neg hw] at he
      rcases List.mem_cons.1 he with h | h
      · exact Or.inl (h ▸ List.mem_cons_self _ _)
      · rcases ih h with h2 | ⟨e0, h0, h1⟩
        · exact Or.inl (List.mem_cons_of_mem _ h2)
        · exact Or.inr ⟨e0, List.mem_cons_of_mem _ h0, h1⟩

/-- One section, seen through the key `key`: the table after the section holds for the key
what `lnk_gather_definition_acc` makes of what it held before. -/
theorem lnk_gather_section_definition_search (helpers : LNK_SectionHelpers)
    (objs : List LNK_Obj) (ht : LNK_StringHashTable LNK_SectionDefinition) (sect : Nat × Nat)
    (key : String) :
    hash_table_search_string_raw (lnk_gather_section_definition helpers objs ht sect) key
      = lnk_gather_definition_acc helpers objs key (hash_table_search_string_raw ht key)
          sect := by
  unfold lnk_gather_section_definition lnk_gather_definition_acc lnk_section_has_key
  have hhdr : (lnk_obj_from_ptr objs sect.1).section_table.getD sect.2
      { flags := 0, foff := 0, fsize := 0 } = lnk_obj_section_header objs sect := rfl
  simp only [hhdr]
  generalize hh : lnk_obj_section_header objs sect = hdr
  by_cases hg : lnk_section_is_gathered hdr = true
  swap
  · have hg' : lnk_section_is_gathered hdr = false := by simpa using hg
    simp [hg']
  simp only [hg, if_true, Bool.true_and, decide_eq_true_eq]
  by_cases hk : lnk_section_name_with_flags helpers hdr = key
  · rw [if_pos hk]
    cases hs : hash_table_search_string_raw ht (lnk_section_name_with_flags helpers hdr) with
    | none =>
      simp only
      rw [hash_table_search_push, ← hk, hs]
      simp [lnk_section_definition_of, hh]
    | some d =>
      simp only
      rw [hash_table_search_update, if_pos hk, ← hk, hs]
      rfl
  · rw [if_neg hk]
    cases hs : hash_table_search_string_raw ht (lnk_section_name_with_flags helpers hdr) with
    | none =>
      simp only
      rw [hash_table_search_push]
      cases hash_table_search_string_raw ht key with
      | none => simp [hk]
      | some x => rfl
    | some d =>
      simp only
      rw [hash_table_search_update, if_neg hk]

/-- The sections of a list of objects, seen through the key `key`. -/
theorem lnk_gather_sections_search (helpers : LNK_SectionHelpers) (objs : List LNK_Obj)
    (sects : List (Nat × Nat)) (ht : LNK_StringHashTable LNK_SectionDefinition)
    (key : String) :
    hash_table_search_string_raw
        (sects.foldl (lnk_gather_section_definition helpers objs) ht) key
      = sects.foldl (lnk_gather_definition_acc helpers objs key)
          (hash_table_search_string_raw ht key) := by
  induction sects generalizing ht with
  | nil => rfl
  | cons s rest ih =>
    simp only [List.foldl_cons]
    rw [ih, lnk_gather_section_definition_search]

/-- The tasks of a worker gather the sections of its objects in order. -/
theorem lnk_gather_tasks_eq_sections (helpers : LNK_SectionHelpers) (objs : List LNK_Obj)
    (tasks : List Nat) (ht : LNK_StringHashTable LNK_SectionDefinition) :
    tasks.foldl (lnk_gather_section_definitions_task helpers objs) ht
      = (lnk_obj_sections objs tasks).foldl (lnk_gather_section_definition helpers objs) ht := by
  induction tasks generalizing ht with
  | nil => rfl
  | cons o rest ih =>
    simp only [List.foldl_cons, lnk_obj_sections, List.flatMap_cons, List.foldl_append]
    rw [ih]
    congr 1
    unfold lnk_gather_section_definitions_task
    rw [List.foldl_map]

/-- Sections without the key leave the definition of the key as it is. -/
theorem lnk_gather_definition_acc_filter (helpers : LNK_SectionHelpers) (objs : List LNK_Obj)
    (key : String) (sects : List (Nat × Nat)) (found : Option LNK_SectionDefinition) :
    sects.foldl (lnk_gather_definition_acc helpers objs key) found
      = (sects.filter (lnk_section_has_key helpers objs key)).foldl
          (lnk_gather_definition_acc helpers objs key) found := by
  induction sects generalizing found with
  | nil => rfl
  | cons s rest ih =>
    by_cases hs : lnk_section_has_key helpers objs key s = true
    · rw [List.filter_cons_of_pos hs]
      simp only [List.foldl_cons]
      exact ih _
    · rw [List.filter_cons_of_neg hs]
      simp only [List.foldl_cons]
      rw [ih]
      congr 1
      unfold lnk_gather_definition_acc
      rw [if_neg hs]

/-- Sections with the key count up the definition of the key. -/
theorem lnk_gather_definition_acc_some (helpers : LNK_SectionHelpers) (objs : List LNK_Obj)
    (key : String) (sects : List (Nat × Nat))
    (hall : ∀ s ∈ sects, lnk_section_has_key helpers objs key s = true)
    (d : LNK_SectionDefinition) :
    sects.foldl (lnk_gather_definition_acc helpers objs key) (some d)
      = some { d with contribs_count := d.contribs_count + sects.length } := by
  induction sects generalizing d with
  | nil => rfl
  | cons s rest ih =>
    simp only [List.foldl_cons]
    have hs := hall s (List.mem_cons_self _ _)
    have hstep : lnk_gather_definition_acc helpers objs key (some d) s
        = some { d with contribs_count := d.contribs_count + 1 } := by
      unfold lnk_gather_definition_acc
      rw [if_pos hs]
    rw [hstep, ih (fun t ht => hall t (List.mem_cons_of_mem _ ht))]
    simp only [List.length_cons]
    congr 2
    omega

/-- The table of a worker holds for a key the definition of the first section with the key
among the sections of its objects, with the number of those sections as count; it holds none
when there is no such section. -/
theorem lnk_gather_worker_search (helpers : LNK_SectionHelpers) (objs : List LNK_Obj)
    (tasks : List Nat) (key : String) :
    hash_table_search_string_raw
        (tasks.foldl (lnk_gather_section_definitions_task helpers objs) []) key
      = (lnk_sections_with_key helpers objs key tasks).head?.map
          (fun s => lnk_section_definition_of helpers objs s
            (lnk_sections_with_key helpers objs key tasks).length) := by
  rw [lnk_gather_tasks_eq_sections, lnk_gather_sections_search,
    lnk_gather_definition_acc_filter]
  have hall : ∀ s ∈ lnk_sections_with_key helpers objs key tasks,
      lnk_section_has_key helpers objs key s = true := by
    intro s hs
    exact (List.mem_filter.1 hs).2
  have hfold : (lnk_obj_sections objs tasks).filter (lnk_section_has_key helpers objs key)
      = lnk_sections_with_key helpers objs key tasks := rfl
  rw [hfold]
  generalize lnk_sections_with_key helpers objs key tasks = matching at hall ⊢
  cases matching with
  | nil => rfl
  | cons s rest =>
    simp only [List.foldl_cons, List.head?_cons, Option.map_some', List.length_cons]
    have hs := hall s (List.mem_cons_self _ _)
    have hstep : lnk_gather_definition_acc helpers objs key
        (hash_table_search_string_raw ([] : LNK_StringHashTable LNK_SectionDefinition) key) s
        = some (lnk_section_definition_of helpers objs s 1) := by
      unfold lnk_gather_definition_acc
      rw [if_pos hs]
      rfl
    rw [hstep, lnk_gather_definition_acc_some helpers objs key rest
      (fun t ht => hall t (List.mem_cons_of_mem _ ht))]
    simp only [lnk_section_definition_of]
    congr 2
    omega

/-- The empty table is well formed. -/
theorem lnk_section_table_wf_nil (helpers : LNK_SectionHelpers) :
    lnk_section_table_wf helpers [] :=
  ⟨fun e he => (by cases he), List.nodup_nil⟩

/-- Gathering a section keeps the table of the worker well formed. -/
theorem lnk_gather_section_definition_wf (helpers : LNK_SectionHelpers) (objs : List LNK_Obj)
    (ht : LNK_StringHashTable LNK_SectionDefinition) (sect : Nat × Nat)
    (hwf : lnk_section_table_wf helpers ht) :
    lnk_section_table_wf helpers (lnk_gather_section_definition helpers objs ht sect) := by
  unfold lnk_gather_section_definition
  simp only
  generalize (lnk_obj_from_ptr objs sect.1).section_table.getD sect.2
      { flags := 0, foff := 0, fsize := 0 } = hdr
  by_cases hg : lnk_section_is_gathered hdr = true
  swap
  · rw [if_neg hg]
    exact hwf
  rw [if_pos hg]
  cases hs : hash_table_search_string_raw ht (lnk_section_name_with_flags helpers hdr) with
  | none =>
    simp only
    refine ⟨?_, ?_⟩
    · intro e he
      rcases List.mem_append.1 he with h | h
      · exact hwf.keyed e h
      · rw [List.mem_singleton.1 h]
        rfl
    · unfold hash_table_push_string_raw
      rw [List.map_append, List.nodup_append]
      refine ⟨hwf.nodup, List.nodup_singleton _, ?_⟩
      intro k hk1 hk2
      simp only [List.map_cons, List.map_nil, List.mem_singleton] at hk2
      rw [hk2] at hk1
      exact (hash_table_search_eq_none ht _).1 hs hk1
  | some d =>
    simp only
    refine ⟨?_, ?_⟩
    · intro e he
      rcases hash_table_update_mem _ ht _ e he with h | ⟨e0, h0, h1⟩
      · exact hwf.keyed e h
      · rw [h1]
        exact hwf.keyed e0 h0
    · rw [hash_table_update_keys]
      exact hwf.nodup

/-- The table of a worker is well formed. -/
theorem lnk_gather_worker_wf (helpers : LNK_SectionHelpers) (objs : List LNK_Obj)
    (tasks : List Nat) :
    lnk_section_table_wf helpers
      (tasks.foldl (lnk_gather_section_definitions_task helpers objs) []) := by
  rw [lnk_gather_tasks_eq_sections]
  generalize lnk_obj_sections objs tasks = sects
  have hgen : ∀ (l : List (Nat × Nat)) (ht : LNK_StringHashTable LNK_SectionDefinition),
      lnk_section_table_wf helpers ht →
      lnk_section_table_wf helpers (l.foldl (lnk_gather_section_definition helpers objs) ht) := by
    intro l
    induction l with
    | nil => intro ht h; exact h
    | cons s rest ih =>
      intro ht h
      exact ih _ (lnk_gather_section_definition_wf helpers objs ht s h)
  exact hgen sects [] (lnk_section_table_wf_nil helpers)

/-- In a well-formed table the values with the key of their name and flags equal to `key` are
the value found for `key`. -/
theorem lnk_section_table_values_filter (helpers : LNK_SectionHelpers)
    (ht : LNK_StringHashTable LNK_SectionDefinition) (hwf : lnk_section_table_wf helpers ht)
    (key : String) :
    (values_from_hash_table_raw ht).filter
        (fun d => decide (helpers.lnk_make_name_with_flags d.name d.flags = key))
      = (hash_table_search_string_raw ht key).toList := by
  unfold values_from_hash_table_raw
  induction ht with
  | nil => rfl
  | cons e rest ih =>
    have hwf_rest : lnk_section_table_wf helpers rest :=
      ⟨fun x hx => hwf.keyed x (List.mem_cons_of_mem _ hx), (List.nodup_cons.1 hwf.nodup).2⟩
    have he := hwf.keyed e (List.mem_cons_self _ _)
    simp only [List.map_cons, hash_table_search_string_raw]
    by_cases hk : e.1 = key
    · rw [if_pos hk, List.filter_cons_of_pos (by simpa [he] using hk)]
      have hnot : key ∉ rest.map (fun x => x.1) := hk ▸ (List.nodup_cons.1 hwf.nodup).1
      have hnone := (hash_table_search_eq_none rest key).2 hnot
      rw [ih hwf_rest, hnone]
      rfl
    · rw [if_neg hk, List.filter_cons_of_neg (by simpa [he] using hk)]
      exact ih hwf_rest

/-- Merging one definition, seen through the key `key`. -/
theorem lnk_merge_section_definition_search (helpers : LNK_SectionHelpers)
    (objs : List LNK_Obj) (main : LNK_StringHashTable LNK_SectionDefinition)
    (defn : LNK_SectionDefinition) (key : String) :
    hash_table_search_string_raw (lnk_merge_section_definition helpers objs main defn) key
      = lnk_merge_definition_acc helpers objs key (hash_table_search_string_raw main key)
          defn := by
  unfold lnk_merge_section_definition lnk_merge_definition_acc
  simp only
  by_cases hk : helpers.lnk_make_name_with_flags defn.name defn.flags = key
  · rw [if_pos hk]
    cases hs : hash_table_search_string_raw main
        (helpers.lnk_make_name_with_flags defn.name defn.flags) with
    | none =>
      simp only
      rw [hash_table_search_push, ← hk, hs]
      simp
    | some d =>
      simp only
      rw [hash_table_search_update, if_pos hk, ← hk, hs]
      rfl
  · rw [if_neg hk]
    cases hs : hash_table_search_string_raw main
        (helpers.lnk_make_name_with_flags defn.name defn.flags) with
    | none =>
      simp only
      rw [hash_table_search_push]
      cases hash_table_search_string_raw main key with
      | none => simp [hk]
      | some x => rfl
    | some d =>
      simp only
      rw [hash_table_search_update, if_neg hk]

/-- Merging a list of definitions, seen through the key `key`. -/
theorem lnk_merge_definitions_search (helpers : LNK_SectionHelpers) (objs : List LNK_Obj)
    (defns : List LNK_SectionDefinition) (main : LNK_StringHashTable LNK_SectionDefinition)
    (key : String) :
    hash_table_search_string_raw
        (defns.foldl (lnk_merge_section_definition helpers objs) main) key
      = defns.foldl (lnk_merge_definition_acc helpers objs key)
          (hash_table_search_string_raw main key) := by
  induction defns generalizing main with
  | nil => rfl
  | cons d rest ih =>
    simp only [List.foldl_cons]
    rw [ih, lnk_merge_section_definition_search]

/-- Definitions with another key leave the definition of the key as it is. -/
theorem lnk_merge_definition_acc_filter (helpers : LNK_SectionHelpers) (objs : List LNK_Obj)
    (key : String) (defns : List LNK_SectionDefinition)
    (found : Option LNK_SectionDefinition) :
    defns.foldl (lnk_merge_definition_acc helpers objs key) found
      = (defns.filter
          (fun d => decide (helpers.lnk_make_name_with_flags d.name d.flags = key))).foldl
          (lnk_merge_definition_acc helpers objs key) found := by
  induction defns generalizing found with
  | nil => rfl
  | cons d rest ih =>
    by_cases hd : helpers.lnk_make_name_with_flags d.name d.flags = key
    · rw [List.filter_cons_of_pos (by simpa using hd)]
      simp only [List.foldl_cons]
      exact ih _
    · rw [List.filter_cons_of_neg (by simpa using hd)]
      simp only [List.foldl_cons]
      rw [ih]
      congr 1
      unfold lnk_merge_definition_acc
      rw [if_neg hd]

/-- Insertion into a sorted array adds the definition. -/
theorem lnk_section_definition_insert_perm (objs : List LNK_Obj) (d : LNK_SectionDefinition)
    (l : List LNK_SectionDefinition) :
    (lnk_section_definition_insert objs d l).Perm (d :: l) := by
  induction l with
  | nil => exact List.Perm.refl _
  | cons x rest ih =>
    unfold lnk_section_definition_insert
    by_cases hb : lnk_section_definition_is_before objs d x = true
    · rw [if_pos hb]
    · rw [if_neg hb]
      exact (List.Perm.cons x ih).trans (List.Perm.swap d x rest)

/-- The sorted array holds the definitions of the input. -/
theorem lnk_section_definition_radsort_perm (objs : List LNK_Obj)
    (l : List LNK_SectionDefinition) :
    (lnk_section_definition_radsort objs l).Perm l := by
  unfold lnk_section_definition_radsort
  induction l with
  | nil => exact List.Perm.refl _
  | cons x rest ih =>
    simp only [List.foldr_cons]
    exact (lnk_section_definition_insert_perm objs x _).trans (List.Perm.cons x ih)

/-- Merging the table of a worker, seen through the key `key`: a definition the worker holds
for the key is pushed when worker 0 has none, and combined with the one of worker 0
otherwise. -/
theorem lnk_merge_worker_search (helpers : LNK_SectionHelpers) (objs : List LNK_Obj)
    (main worker : LNK_StringHashTable LNK_SectionDefinition)
    (hwf : lnk_section_table_wf helpers worker) (key : String) :
    hash_table_search_string_raw
        (lnk_merge_worker_section_definitions helpers objs main worker) key
      = match hash_table_search_string_raw worker key with
        | none => hash_table_search_string_raw main key
        | some defn =>
          some (match hash_table_search_string_raw main key with
            | none => defn
            | some main_defn => lnk_section_definition_combine objs main_defn defn) := by
  unfold lnk_merge_worker_section_definitions
  rw [lnk_merge_definitions_search, lnk_merge_definition_acc_filter]
  have hperm := (lnk_section_definition_radsort_perm objs
    (values_from_hash_table_raw worker)).filter
      (fun d => decide (helpers.lnk_make_name_with_flags d.name d.flags = key))
  rw [lnk_section_table_values_filter helpers worker hwf key] at hperm
  cases hs : hash_table_search_string_raw worker key with
  | none =>
    rw [hs] at hperm
    have hnil := List.Perm.eq_nil hperm
    rw [hnil]
    rfl
  | some defn =>
    rw [hs] at hperm
    have hone := List.perm_singleton.1 hperm
    rw [hone]
    have hkey : helpers.lnk_make_name_with_flags defn.name defn.flags = key :=
      hwf.keyed (key, defn) (hash_table_search_mem worker key defn hs)
    simp only [List.foldl_cons, List.foldl_nil, lnk_merge_definition_acc, hkey, if_true]

/-- The merged table, seen through the key `key`: the lists of the sections with the key, one
list per worker, are folded in the order of the workers. -/
theorem lnk_merge_section_definitions_search (helpers : LNK_SectionHelpers)
    (objs : List LNK_Obj) (schedule : List (List Nat)) (key : String) :
    hash_table_search_string_raw
        (lnk_merge_section_definitions helpers objs
          (lnk_gather_section_definitions helpers objs schedule)) key
      = (schedule.map (lnk_sections_with_key helpers objs key)).foldl
          (lnk_merged_definition_acc helpers objs) none := by
  have hgen : ∀ (rest : List (List Nat)) (main : LNK_StringHashTable LNK_SectionDefinition),
      hash_table_search_string_raw
          ((rest.map (fun tasks =>
              tasks.foldl (lnk_gather_section_definitions_task helpers objs) [])).foldl
            (lnk_merge_worker_section_definitions helpers objs) main) key
        = (rest.map (lnk_sections_with_key helpers objs key)).foldl
            (lnk_merged_definition_acc helpers objs)
            (hash_table_search_string_raw main key) := by
    intro rest
    induction rest with
    | nil => intro main; rfl
    | cons w rest ih =>
      intro main
      simp only [List.map_cons, List.foldl_cons]
      rw [ih, lnk_merge_worker_search helpers objs main _ (lnk_gather_worker_wf helpers objs w),
        lnk_gather_worker_search]
      rfl
  unfold lnk_merge_section_definitions lnk_gather_section_definitions
  cases schedule with
  | nil => rfl
  | cons w rest =>
    simp only [List.map_cons, List.drop_succ_cons, List.drop_zero, List.headD_cons,
      List.foldl_cons]
    rw [hgen, lnk_gather_worker_search]
    congr 1
    unfold lnk_merged_definition_acc
    cases (lnk_sections_with_key helpers objs key w).head?.map
        (fun s => lnk_section_definition_of helpers objs s
          (lnk_sections_with_key helpers objs key w).length) with
    | none => rfl
    | some d => rfl

/-- The test of `lnk_section_definition_is_before` compares the order keys. -/
theorem lnk_section_definition_is_before_iff (objs : List LNK_Obj)
    (a b : LNK_SectionDefinition) :
    lnk_section_definition_is_before objs a b = true
      ↔ lnk_section_order_key objs (a.obj, a.obj_sect_idx)
          < lnk_section_order_key objs (b.obj, b.obj_sect_idx) := by
  unfold lnk_section_definition_is_before lnk_section_order_key
  simp

/-- The count of a combined definition is the sum of the counts. -/
theorem lnk_section_definition_combine_count (objs : List LNK_Obj)
    (main_defn defn : LNK_SectionDefinition) :
    (lnk_section_definition_combine objs main_defn defn).contribs_count
      = main_defn.contribs_count + defn.contribs_count := by
  cases hb : lnk_section_definition_is_before objs defn main_defn <;>
    simp [lnk_section_definition_combine, hb]

/-- A combined definition designates the section of the definition merged when that one is
before, and keeps its section otherwise. -/
theorem lnk_section_definition_combine_sect (objs : List LNK_Obj)
    (main_defn defn : LNK_SectionDefinition) :
    ((lnk_section_definition_combine objs main_defn defn).obj,
        (lnk_section_definition_combine objs main_defn defn).obj_sect_idx)
      = if lnk_section_definition_is_before objs defn main_defn = true
        then (defn.obj, defn.obj_sect_idx) else (main_defn.obj, main_defn.obj_sect_idx) := by
  cases hb : lnk_section_definition_is_before objs defn main_defn <;>
    simp [lnk_section_definition_combine, hb]

/-- One worker more: when the first section of the worker has the smallest order key among
the sections of the worker, the specification of the merged definition goes over to the
sections of the workers merged so far. -/
theorem lnk_merged_definition_acc_spec (helpers : LNK_SectionHelpers) (objs : List LNK_Obj)
    (found : Option LNK_SectionDefinition) (done matching : List (Nat × Nat))
    (hspec : lnk_merged_definition_spec objs found done)
    (hleast : ∀ h ∈ matching.head?, ∀ q ∈ matching,
      lnk_section_order_key objs h ≤ lnk_section_order_key objs q) :
    lnk_merged_definition_spec objs (lnk_merged_definition_acc helpers objs found matching)
      (done ++ matching) := by
  cases matching with
  | nil =>
    rw [List.append_nil]
    exact hspec
  | cons h t =>
    have hh : ∀ q ∈ h :: t, lnk_section_order_key objs h ≤ lnk_section_order_key objs q :=
      hleast h rfl
    cases found with
    | none =>
      have hdone : done = [] := hspec.none_iff.1 rfl
      subst hdone
      have hacc : lnk_merged_definition_acc helpers objs none (h :: t)
          = some (lnk_section_definition_of helpers objs h (h :: t).length) := rfl
      rw [hacc, List.nil_append]
      refine { none_iff := ?_, count := ?_, mem := ?_, least := ?_ }
      · constructor
        · intro hn
          cases hn
        · intro hn
          cases hn
      · intro d hd
        rw [← Option.some.inj hd]
        rfl
      · intro d hd
        rw [← Option.some.inj hd]
        exact List.mem_cons_self _ _
      · intro d hd q hq
        rw [← Option.some.inj hd]
        exact hh q hq
    | some m =>
      have hacc : lnk_merged_definition_acc helpers objs (some m) (h :: t)
          = some (lnk_section_definition_combine objs m
              (lnk_section_definition_of helpers objs h (h :: t).length)) := rfl
      rw [hacc]
      have hmc := hspec.count m rfl
      have hmm := hspec.mem m rfl
      have hml := hspec.least m rfl
      have hsect := lnk_section_definition_combine_sect objs m
        (lnk_section_definition_of helpers objs h (h :: t).length)
      have hof : ((lnk_section_definition_of helpers objs h (h :: t).length).obj,
          (lnk_section_definition_of helpers objs h (h :: t).length).obj_sect_idx) = h := rfl
      rw [hof] at hsect
      have hiff := lnk_section_definition_is_before_iff objs
        (lnk_section_definition_of helpers objs h (h :: t).length) m
      rw [hof] at hiff
      refine { none_iff := ?_, count := ?_, mem := ?_, least := ?_ }
      · constructor
        · intro hn
          cases hn
        · intro hn
          exact absurd hn (by simp)
      · intro d hd
        rw [← Option.some.inj hd, lnk_section_definition_combine_count, hmc,
          List.length_append]
        rfl
      · intro d hd
        rw [← Option.some.inj hd, hsect]
        by_cases hb : lnk_section_definition_is_before objs
            (lnk_section_definition_of helpers objs h (h :: t).length) m = true
        · rw [if_pos hb]
          exact List.mem_append_right _ (List.mem_cons_self _ _)
        · rw [if_neg hb]
          exact List.mem_append_left _ hmm
      · intro d hd q hq
        rw [← Option.some.inj hd, hsect]
        by_cases hb : lnk_section_definition_is_before objs
            (lnk_section_definition_of helpers objs h (h :: t).length) m = true
        · rw [if_pos hb]
          have hlt := hiff.1 hb
          rcases List.mem_append.1 hq with hq | hq
          · exact le_of_lt (lt_of_lt_of_le hlt (hml q hq))
          · exact hh q hq
        · rw [if_neg hb]
          have hge : ¬ lnk_section_order_key objs h
              < lnk_section_order_key objs (m.obj, m.obj_sect_idx) :=
            fun hlt => hb (hiff.2 hlt)
          rcases List.mem_append.1 hq with hq | hq
          · exact hml q hq
          · exact le_trans (not_lt.1 hge) (hh q hq)

/-- All workers: the specification of the merged definition against the sections of all
workers. -/
theorem lnk_merged_definition_fold_spec (helpers : LNK_SectionHelpers) (objs : List LNK_Obj)
    (lists : List (List (Nat × Nat)))
    (hleast : ∀ matching ∈ lists, ∀ h ∈ matching.head?, ∀ q ∈ matching,
      lnk_section_order_key objs h ≤ lnk_section_order_key objs q)
    (found : Option LNK_SectionDefinition) (done : List (Nat × Nat))
    (hspec : lnk_merged_definition_spec objs found done) :
    lnk_merged_definition_spec objs
      (lists.foldl (lnk_merged_definition_acc helpers objs) found) (done ++ lists.flatten) := by
  induction lists generalizing found done with
  | nil =>
    simp only [List.foldl_nil, List.flatten_nil, List.append_nil]
    exact hspec
  | cons m rest ih =>
    simp only [List.foldl_cons, List.flatten_cons]
    rw [← List.append_assoc]
    exact ih (fun x hx => hleast x (List.mem_cons_of_mem _ hx)) _ _
      (lnk_merged_definition_acc_spec helpers objs found done m hspec
        (hleast m (List.mem_cons_self _ _)))

/-- The sections with a key of the workers, one worker after the other, are the sections with
the key of the objects in the order of the schedule. -/
theorem lnk_sections_with_key_flatten (helpers : LNK_SectionHelpers) (objs : List LNK_Obj)
    (key : String) (schedule : List (List Nat)) :
    (schedule.map (lnk_sections_with_key helpers objs key)).flatten
      = lnk_sections_with_key helpers objs key schedule.flatten := by
  induction schedule with
  | nil => rfl
  | cons w rest ih =>
    simp only [List.map_cons, List.flatten_cons]
    rw [ih]
    unfold lnk_sections_with_key lnk_obj_sections
    rw [List.flatMap_append, List.filter_append]

/-- The order key of a section whose input index and section index are below `2 ^ 32`. -/
theorem lnk_section_order_key_eq (objs : List LNK_Obj) (sect : Nat × Nat)
    (hi : (lnk_obj_from_ptr objs sect.1).input_idx < 2 ^ 32) (hs : sect.2 < 2 ^ 32) :
    lnk_section_order_key objs sect
      = (lnk_obj_from_ptr objs sect.1).input_idx * 2 ^ 32 + sect.2 :=
  Compose64Bit_eq _ _ hi hs

/-- A section listed for a list of objects is a section of one of the objects. -/
theorem lnk_obj_sections_mem (objs : List LNK_Obj) (tasks : List Nat) (sect : Nat × Nat)
    (h : sect ∈ lnk_obj_sections objs tasks) :
    sect.1 ∈ tasks ∧ sect.2 < (lnk_obj_from_ptr objs sect.1).section_table.length := by
  unfold lnk_obj_sections at h
  obtain ⟨o, ho, hmem⟩ := List.mem_flatMap.1 h
  obtain ⟨s, hs, hsect⟩ := List.mem_map.1 hmem
  rw [← hsect]
  exact ⟨ho, List.mem_range.1 hs⟩

/-- When a worker runs its tasks by ascending object index, and the input indices ascend with
the object index, the sections of its objects are listed by ascending order key. -/
theorem lnk_obj_sections_ascending (objs : List LNK_Obj) (tasks : List Nat)
    (hasc : tasks.Pairwise (fun a b => a < b))
    (hin : ∀ o ∈ tasks, o < objs.length)
    (hidx : ∀ i j, i < j → j < objs.length →
      (lnk_obj_from_ptr objs i).input_idx < (lnk_obj_from_ptr objs j).input_idx)
    (hidx32 : ∀ i, i < objs.length → (lnk_obj_from_ptr objs i).input_idx < 2 ^ 32)
    (hsect32 : ∀ i, i < objs.length →
      (lnk_obj_from_ptr objs i).section_table.length ≤ 2 ^ 32) :
    (lnk_obj_sections objs tasks).Pairwise
      (fun a b => lnk_section_order_key objs a < lnk_section_order_key objs b) := by
  unfold lnk_obj_sections
  rw [List.pairwise_flatMap]
  constructor
  · intro o ho
    rw [List.pairwise_map]
    refine List.Pairwise.imp_of_mem ?_ (List.pairwise_lt_range _)
    intro s1 s2 h1 h2 hlt
    have hb1 := List.mem_range.1 h1
    have hb2 := List.mem_range.1 h2
    have hn := hsect32 o (hin o ho)
    rw [lnk_section_order_key_eq objs (o, s1) (hidx32 o (hin o ho)) (by simp only; omega),
      lnk_section_order_key_eq objs (o, s2) (hidx32 o (hin o ho)) (by simp only; omega)]
    simp only
    omega
  · refine List.Pairwise.imp_of_mem ?_ hasc
    intro o1 o2 h1 h2 hlt x hx y hy
    obtain ⟨s1, hs1, rfl⟩ := List.mem_map.1 hx
    obtain ⟨s2, hs2, rfl⟩ := List.mem_map.1 hy
    have hb1 := List.mem_range.1 hs1
    have hb2 := List.mem_range.1 hs2
    have hn1 := hsect32 o1 (hin o1 h1)
    have hn2 := hsect32 o2 (hin o2 h2)
    have hi := hidx o1 o2 hlt (hin o2 h2)
    have hi2 := hidx32 o2 (hin o2 h2)
    rw [lnk_section_order_key_eq objs (o1, s1) (hidx32 o1 (hin o1 h1)) (by simp only; omega),
      lnk_section_order_key_eq objs (o2, s2) hi2 (by simp only; omega)]
    simp only
    generalize (lnk_obj_from_ptr objs o1).input_idx = a at hi ⊢
    generalize (lnk_obj_from_ptr objs o2).input_idx = b at hi hi2 ⊢
    have : (a + 1) * 2 ^ 32 ≤ b * 2 ^ 32 := Nat.mul_le_mul_right _ hi
    omega

/-- The first element of a list that ascends in the order key has the smallest order key. -/
theorem lnk_section_head_least (objs : List LNK_Obj) (sects : List (Nat × Nat))
    (hasc : sects.Pairwise
      (fun a b => lnk_section_order_key objs a < lnk_section_order_key objs b)) :
    ∀ h ∈ sects.head?, ∀ q ∈ sects,
      lnk_section_order_key objs h ≤ lnk_section_order_key objs q := by
  intro h hh q hq
  cases sects with
  | nil => cases hq
  | cons x rest =>
    have hx : x = h := Option.some.inj hh
    subst hx
    rcases List.mem_cons.1 hq with rfl | hq
    · exact le_rfl
    · exact le_of_lt ((List.pairwise_cons.1 hasc).1 q hq)

/-- The merged table against all objects: when every object is gathered by exactly one worker,
every worker runs its tasks by ascending object index, and the input indices ascend with the
object index and fit 32 bits as the section counts do, the merged table holds for a key what
the specification of the merged definition prescribes for the gathered sections with the key
of all objects. -/
theorem lnk_merged_section_definitions_spec (helpers : LNK_SectionHelpers)
    (objs : List LNK_Obj) (schedule : List (List Nat)) (key : String)
    (hpart : schedule.flatten.Perm (List.range objs.length))
    (hasc : ∀ tasks ∈ schedule, tasks.Pairwise (fun a b => a < b))
    (hidx : ∀ i j, i < j → j < objs.length →
      (lnk_obj_from_ptr objs i).input_idx < (lnk_obj_from_ptr objs j).input_idx)
    (hidx32 : ∀ i, i < objs.length → (lnk_obj_from_ptr objs i).input_idx < 2 ^ 32)
    (hsect32 : ∀ i, i < objs.length →
      (lnk_obj_from_ptr objs i).section_table.length ≤ 2 ^ 32) :
    lnk_merged_definition_spec objs
      (hash_table_search_string_raw
        (lnk_merge_section_definitions helpers objs
          (lnk_gather_section_definitions helpers objs schedule)) key)
      (lnk_sections_with_key helpers objs key (List.range objs.length)) := by
  rw [lnk_merge_section_definitions_search]
  have hleast : ∀ matching ∈ schedule.map (lnk_sections_with_key helpers objs key),
      ∀ h ∈ matching.head?, ∀ q ∈ matching,
        lnk_section_order_key objs h ≤ lnk_section_order_key objs q := by
    intro matching hm
    obtain ⟨tasks, ht, rfl⟩ := List.mem_map.1 hm
    apply lnk_section_head_least
    unfold lnk_sections_with_key
    apply List.Pairwise.filter
    refine lnk_obj_sections_ascending objs tasks (hasc tasks ht) ?_ hidx hidx32 hsect32
    intro o ho
    have : o ∈ schedule.flatten := List.mem_flatten.2 ⟨tasks, ht, ho⟩
    exact List.mem_range.1 ((hpart.mem_iff).1 this)
  have hbase : lnk_merged_definition_spec objs none [] :=
    { none_iff := ⟨fun _ => rfl, fun _ => rfl⟩,
      count := fun d hd => (by cases hd),
      mem := fun d hd => (by cases hd),
      least := fun d hd => (by cases hd) }
  have hfold := lnk_merged_definition_fold_spec helpers objs
    (schedule.map (lnk_sections_with_key helpers objs key)) hleast none [] hbase
  rw [List.nil_append, lnk_sections_with_key_flatten] at hfold
  have hperm : (lnk_sections_with_key helpers objs key schedule.flatten).Perm
      (lnk_sections_with_key helpers objs key (List.range objs.length)) := by
    unfold lnk_sections_with_key lnk_obj_sections
    exact (hpart.flatMap_right _).filter _
  generalize (schedule.map (lnk_sections_with_key helpers objs key)).foldl
    (lnk_merged_definition_acc helpers objs) none = found at hfold ⊢
  refine { none_iff := ?_, count := ?_, mem := ?_, least := ?_ }
  · rw [hfold.none_iff]
    constructor
    · intro h
      rw [h] at hperm
      exact List.Perm.eq_nil hperm.symm
    · intro h
      rw [h] at hperm
      exact List.Perm.eq_nil hperm
  · intro d hd
    rw [hfold.count d hd]
    exact hperm.length_eq
  · intro d hd
    exact (hperm.mem_iff).1 (hfold.mem d hd)
  · intro d hd q hq
    exact hfold.least d hd q ((hperm.mem_iff).2 hq)

/-- Counts of the merged table, for any schedule in which every object is gathered by exactly
one worker: the merged table has a definition for a key exactly when some object has a
gathered section with the key, and the definition counts these sections. -/
theorem lnk_merged_section_definitions_count (helpers : LNK_SectionHelpers)
    (objs : List LNK_Obj) (schedule : List (List Nat)) (key : String)
    (hpart : schedule.flatten.Perm (List.range objs.length)) :
    (hash_table_search_string_raw
        (lnk_merge_section_definitions helpers objs
          (lnk_gather_section_definitions helpers objs schedule)) key = none
      ↔ lnk_sections_with_key helpers objs key (List.range objs.length) = [])
    ∧ ∀ d, hash_table_search_string_raw
        (lnk_merge_section_definitions helpers objs
          (lnk_gather_section_definitions helpers objs schedule)) key = some d →
      d.contribs_count
        = (lnk_sections_with_key helpers objs key (List.range objs.length)).length := by
  rw [lnk_merge_section_definitions_search]
  have hstep : ∀ (found : Option LNK_SectionDefinition) (done matching : List (Nat × Nat)),
      ((found = none ↔ done = []) ∧ ∀ d, found = some d → d.contribs_count = done.length) →
      ((lnk_merged_definition_acc helpers objs found matching = none ↔ done ++ matching = [])
        ∧ ∀ d, lnk_merged_definition_acc helpers objs found matching = some d →
            d.contribs_count = (done ++ matching).length) := by
    intro found done matching hcount
    cases matching with
    | nil =>
      rw [List.append_nil]
      exact hcount
    | cons h t =>
      cases found with
      | none =>
        have hdone : done = [] := hcount.1.1 rfl
        subst hdone
        have hacc : lnk_merged_definition_acc helpers objs none (h :: t)
            = some (lnk_section_definition_of helpers objs h (h :: t).length) := rfl
        rw [hacc, List.nil_append]
        refine ⟨?_, ?_⟩
        · constructor
          · intro hn
            cases hn
          · intro hn
            cases hn
        · intro d hd
          rw [← Option.some.inj hd]
          rfl
      | some m =>
        have hacc : lnk_merged_definition_acc helpers objs (some m) (h :: t)
            = some (lnk_section_definition_combine objs m
                (lnk_section_definition_of helpers objs h (h :: t).length)) := rfl
        rw [hacc]
        refine ⟨?_, ?_⟩
        · constructor
          · intro hn
            cases hn
          · intro hn
            exact absurd hn (by simp)
        · intro d hd
          rw [← Option.some.inj hd, lnk_section_definition_combine_count, hcount.2 m rfl,
            List.length_append]
          rfl
  have hfold : ∀ (lists : List (List (Nat × Nat))) (found : Option LNK_SectionDefinition)
      (done : List (Nat × Nat)),
      ((found = none ↔ done = []) ∧ ∀ d, found = some d → d.contribs_count = done.length) →
      ((lists.foldl (lnk_merged_definition_acc helpers objs) found = none
          ↔ done ++ lists.flatten = [])
        ∧ ∀ d, lists.foldl (lnk_merged_definition_acc helpers objs) found = some d →
            d.contribs_count = (done ++ lists.flatten).length) := by
    intro lists
    induction lists with
    | nil =>
      intro found done h
      simp only [List.foldl_nil, List.flatten_nil, List.append_nil]
      exact h
    | cons m rest ih =>
      intro found done h
      simp only [List.foldl_cons, List.flatten_cons]
      rw [← List.append_assoc]
      exact ih _ _ (hstep found done m h)
  have h := hfold (schedule.map (lnk_sections_with_key helpers objs key)) none []
    ⟨⟨fun _ => rfl, fun _ => rfl⟩, fun d hd => (by cases hd)⟩
  rw [List.nil_append, lnk_sections_with_key_flatten] at h
  have hperm : (lnk_sections_with_key helpers objs key schedule.flatten).Perm
      (lnk_sections_with_key helpers objs key (List.range objs.length)) := by
    unfold lnk_sections_with_key lnk_obj_sections
    exact (hpart.flatMap_right _).filter _
  refine ⟨?_, ?_⟩
  · rw [h.1]
    constructor
    · intro h0
      rw [h0] at hperm
      exact List.Perm.eq_nil hperm.symm
    · intro h0
      rw [h0] at hperm
      exact List.Perm.eq_nil hperm
  · intro d hd
    rw [h.2 d hd]
    exact hperm.length_eq

/-- C33: let every object be gathered by exactly one worker, whichever. After the merge, for
every key of a section name and flags: the table of worker 0 has no definition for the key
exactly when no object has a section without `LnkRemove` and of a size above 0 with the key;
a definition it has counts these sections in `contribs_count`; and when each worker runs its
tasks by ascending object index and the input indices ascend with the object index and fit 32
bits, as the section counts do, the definition designates the one among these sections whose
pair `(obj.input_idx, obj_sect_idx)` is lexicographically the smallest. -/
theorem C33_merged_section_definitions (helpers : LNK_SectionHelpers)
    (objs : List LNK_Obj) (schedule : List (List Nat)) (key : String)
    (hpart : schedule.flatten.Perm (List.range objs.length)) :
    (hash_table_search_string_raw
        (lnk_merge_section_definitions helpers objs
          (lnk_gather_section_definitions helpers objs schedule)) key = none
      ↔ lnk_sections_with_key helpers objs key (List.range objs.length) = [])
    ∧ ∀ d, hash_table_search_string_raw
        (lnk_merge_section_definitions helpers objs
          (lnk_gather_section_definitions helpers objs schedule)) key = some d →
      d.contribs_count
          = (lnk_sections_with_key helpers objs key (List.range objs.length)).length
      ∧ ((∀ tasks ∈ schedule, tasks.Pairwise (fun a b => a < b)) →
          (∀ i j, i < j → j < objs.length →
            (lnk_obj_from_ptr objs i).input_idx < (lnk_obj_from_ptr objs j).input_idx) →
          (∀ i, i < objs.length → (lnk_obj_from_ptr objs i).input_idx < 2 ^ 32) →
          (∀ i, i < objs.length → (lnk_obj_from_ptr objs i).section_table.length ≤ 2 ^ 32) →
          (d.obj, d.obj_sect_idx)
              ∈ lnk_sections_with_key helpers objs key (List.range objs.length)
          ∧ ∀ q ∈ lnk_sections_with_key helpers objs key (List.range objs.length),
              lnk_section_lex_le objs (d.obj, d.obj_sect_idx) q) := by
  have hcount := lnk_merged_section_definitions_count helpers objs schedule key hpart
  refine ⟨hcount.1, fun d hd => ⟨hcount.2 d hd, ?_⟩⟩
  intro hasc hidx hidx32 hsect32
  have hspec := lnk_merged_section_definitions_spec helpers objs schedule key hpart hasc hidx
    hidx32 hsect32
  refine ⟨hspec.mem d hd, ?_⟩
  intro q hq
  have hle := hspec.least d hd q hq
  have hbound : ∀ p ∈ lnk_sections_with_key helpers objs key (List.range objs.length),
      (lnk_obj_from_ptr objs p.1).input_idx < 2 ^ 32 ∧ p.2 < 2 ^ 32 := by
    intro p hp
    have hm := lnk_obj_sections_mem objs _ p (List.mem_filter.1 hp).1
    have hlt := List.mem_range.1 hm.1
    have := hsect32 p.1 hlt
    exact ⟨hidx32 p.1 hlt, by omega⟩
  have hbd := hbound _ (hspec.mem d hd)
  have hbq := hbound q hq
  rw [lnk_section_order_key_eq objs _ hbd.1 hbd.2,
    lnk_section_order_key_eq objs q hbq.1 hbq.2] at hle
  unfold lnk_section_lex_le
  simp only at hle hbd ⊢
  generalize (lnk_obj_from_ptr objs d.obj).input_idx = a at hle hbd ⊢
  generalize (lnk_obj_from_ptr objs q.1).input_idx = b at hle hbq ⊢
  by_cases hab : a < b
  · exact Or.inl hab
  · right
    have hba : b ≤ a := not_lt.1 hab
    have : b * 2 ^ 32 ≤ a * 2 ^ 32 := Nat.mul_le_mul_right _ hba
    by_cases heq : a = b
    · subst heq
      exact ⟨rfl, by omega⟩
    · exfalso
      have hlt : b + 1 ≤ a := by omega
      have : (b + 1) * 2 ^ 32 ≤ a * 2 ^ 32 := Nat.mul_le_mul_right _ hlt
      omega

/-- The input indices of the objects of the scenarios ascend and fit 32 bits, as the section
counts do. -/
theorem fixture_gather_objs_ascending :
    (∀ i j, i < j → j < fixture_gather_objs.length →
      (lnk_obj_from_ptr fixture_gather_objs i).input_idx
        < (lnk_obj_from_ptr fixture_gather_objs j).input_idx)
    ∧ (∀ i, i < fixture_gather_objs.length →
      (lnk_obj_from_ptr fixture_gather_objs i).input_idx < 2 ^ 32)
    ∧ (∀ i, i < fixture_gather_objs.length →
      (lnk_obj_from_ptr fixture_gather_objs i).section_table.length ≤ 2 ^ 32) := by
  have hlen : fixture_gather_objs.length = 3 := rfl
  refine ⟨?_, ?_, ?_⟩
  · intro i j hij hj
    rw [hlen] at hj
    interval_cases j <;> interval_cases i <;> decide
  · intro i hi
    rw [hlen] at hi
    interval_cases i <;> decide
  · intro i hi
    rw [hlen] at hi
    interval_cases i <;> decide

/-- Scenario of C33: worker 0 gathers object 1, worker 1 the objects 0 and 2. The merged table
holds for the key of `.text` with the flags 0x20 the definition that designates section 0 of
object 0 and counts the three `.text` sections gathered. -/
theorem C33_merged_section_definitions_witness :
    hash_table_search_string_raw
        (lnk_merge_section_definitions fixture_section_helpers fixture_gather_objs
          (lnk_gather_section_definitions fixture_section_helpers fixture_gather_objs
            fixture_gather_schedule)) ".text#32"
      = some { name := ".text", obj := 0, obj_sect_idx := 0, flags := 0x20,
               contribs_count := 3 }
    ∧ lnk_sections_with_key fixture_section_helpers fixture_gather_objs ".text#32"
        (List.range fixture_gather_objs.length) = [(0, 0), (1, 0), (2, 1)]
    ∧ (hash_table_search_string_raw
        (lnk_merge_section_definitions fixture_section_helpers fixture_gather_objs
          (lnk_gather_section_definitions fixture_section_helpers fixture_gather_objs
            fixture_gather_schedule)) ".text#32" = none
      ↔ lnk_sections_with_key fixture_section_helpers fixture_gather_objs ".text#32"
          (List.range fixture_gather_objs.length) = [])
    ∧ ∀ d, hash_table_search_string_raw
        (lnk_merge_section_definitions fixture_section_helpers fixture_gather_objs
          (lnk_gather_section_definitions fixture_section_helpers fixture_gather_objs
            fixture_gather_schedule)) ".text#32" = some d →
      d.contribs_count
          = (lnk_sections_with_key fixture_section_helpers fixture_gather_objs ".text#32"
              (List.range fixture_gather_objs.length)).length
      ∧ (d.obj, d.obj_sect_idx)
          ∈ lnk_sections_with_key fixture_section_helpers fixture_gather_objs ".text#32"
              (List.range fixture_gather_objs.length)
      ∧ ∀ q ∈ lnk_sections_with_key fixture_section_helpers fixture_gather_objs ".text#32"
            (List.range fixture_gather_objs.length),
          lnk_section_lex_le fixture_gather_objs (d.obj, d.obj_sect_idx) q :=
  ⟨by decide, by decide,
   (C33_merged_section_definitions fixture_section_helpers fixture_gather_objs
     fixture_gather_schedule ".text#32" (by decide)).1,
   fun d hd =>
     ⟨((C33_merged_section_definitions fixture_section_helpers fixture_gather_objs
        fixture_gather_schedule ".text#32" (by decide)).2 d hd).1,
      ((C33_merged_section_definitions fixture_section_helpers fixture_gather_objs
        fixture_gather_schedule ".text#32" (by decide)).2 d hd).2 (by decide)
        fixture_gather_objs_ascending.1 fixture_gather_objs_ascending.2.1
        fixture_gather_objs_ascending.2.2⟩⟩

/-! ## Contribution chunks: reserved capacity and pushes -/

/-- Merging one definition keeps the table of worker 0 well formed. -/
theorem lnk_merge_section_definition_wf (helpers : LNK_SectionHelpers) (objs : List LNK_Obj)
    (main : LNK_StringHashTable LNK_SectionDefinition) (defn : LNK_SectionDefinition)
    (hwf : lnk_section_table_wf helpers main) :
    lnk_section_table_wf helpers (lnk_merge_section_definition helpers objs main defn) := by
  unfold lnk_merge_section_definition
  simp only
  cases hs : hash_table_search_string_raw main
      (helpers.lnk_make_name_with_flags defn.name defn.flags) with
  | none =>
    simp only
    refine ⟨?_, ?_⟩
    · intro e he
      rcases List.mem_append.1 he with h | h
      · exact hwf.keyed e h
      · rw [List.mem_singleton.1 h]
    · unfold hash_table_push_string_raw
      rw [List.map_append, List.nodup_append]
      refine ⟨hwf.nodup, List.nodup_singleton _, ?_⟩
      intro k hk1 hk2
      simp only [List.map_cons, List.map_nil, List.mem_singleton] at hk2
      rw [hk2] at hk1
      exact (hash_table_search_eq_none main _).1 hs hk1
  | some d =>
    simp only
    refine ⟨?_, ?_⟩
    · intro e he
      rcases hash_table_update_mem _ main _ e he with h | ⟨e0, h0, h1⟩
      · exact hwf.keyed e h
      · rw [h1]
        have hk := hwf.keyed e0 h0
        simp only
        by_cases hb : lnk_section_definition_is_before objs defn e0.2 = true
        · simp only [hb, if_true]
          exact hk
        · simp only [hb, Bool.false_eq_true, if_false]
          exact hk
    · rw [hash_table_update_keys]
      exact hwf.nodup

/-- The merged table is well formed. -/
theorem lnk_merge_section_definitions_wf (helpers : LNK_SectionHelpers) (objs : List LNK_Obj)
    (schedule : List (List Nat)) :
    lnk_section_table_wf helpers
      (lnk_merge_section_definitions helpers objs
        (lnk_gather_section_definitions helpers objs schedule)) := by
  have hdefns : ∀ (l : List LNK_SectionDefinition)
      (main : LNK_StringHashTable LNK_SectionDefinition),
      lnk_section_table_wf helpers main →
      lnk_section_table_wf helpers
        (l.foldl (lnk_merge_section_definition helpers objs) main) := by
    intro l
    induction l with
    | nil => intro main h; exact h
    | cons d rest ih =>
      intro main h
      exact ih _ (lnk_merge_section_definition_wf helpers objs main d h)
  have hworkers : ∀ (l : List (LNK_StringHashTable LNK_SectionDefinition))
      (main : LNK_StringHashTable LNK_SectionDefinition),
      lnk_section_table_wf helpers main →
      lnk_section_table_wf helpers
        (l.foldl (lnk_merge_worker_section_definitions helpers objs) main) := by
    intro l
    induction l with
    | nil => intro main h; exact h
    | cons w rest ih =>
      intro main h
      exact ih _ (hdefns _ main h)
  unfold lnk_merge_section_definitions lnk_gather_section_definitions
  apply hworkers
  cases schedule with
  | nil => exact lnk_section_table_wf_nil helpers
  | cons w rest => exact lnk_gather_worker_wf helpers objs w

/-- One section definition, seen through the key `key`: the table of the chunks holds for the
key what `lnk_reserve_chunk_acc` makes of what it held before. -/
theorem lnk_reserve_section_contrib_chunk_search (helpers : LNK_SectionHelpers)
    (contribs_ht : LNK_StringHashTable LNK_SectionContribChunk)
    (sect_defn : LNK_SectionDefinition) (key : String) :
    hash_table_search_string_raw
        (lnk_reserve_section_contrib_chunk helpers contribs_ht sect_defn) key
      = lnk_reserve_chunk_acc helpers key (hash_table_search_string_raw contribs_ht key)
          sect_defn := by
  unfold lnk_reserve_section_contrib_chunk lnk_reserve_chunk_acc
  simp only
  by_cases hr : helpers.lnk_is_section_removed
      (helpers.coff_parse_section_name sect_defn.name).1 = true
  · simp only [hr, if_true]
    by_cases hk : helpers.lnk_make_name_with_flags sect_defn.name sect_defn.flags = key
    · rw [if_pos hk]
    · rw [if_neg hk]
  · simp only [hr, Bool.false_eq_true, if_false]
    by_cases hk : helpers.lnk_make_name_with_flags sect_defn.name sect_defn.flags = key
    · rw [if_pos hk]
      cases hs : hash_table_search_string_raw contribs_ht
          (helpers.lnk_make_name_with_flags sect_defn.name sect_defn.flags) with
      | none =>
        simp only
        rw [hash_table_search_push, ← hk, hs]
        simp
      | some c =>
        simp only
        rw [← hk, hs]
    · rw [if_neg hk]
      cases hs : hash_table_search_string_raw contribs_ht
          (helpers.lnk_make_name_with_flags sect_defn.name sect_defn.flags) with
      | none =>
        simp only
        rw [hash_table_search_push]
        cases hash_table_search_string_raw contribs_ht key with
        | none => simp [hk]
        | some x => rfl
      | some c => rfl

/-- The chunk reserved for a key: none when the merged table has no definition for the key or
the section is removed from the image, and otherwise a chunk without contributions whose
capacity is the count of the definition. -/
theorem lnk_reserve_section_contrib_chunks_search (helpers : LNK_SectionHelpers)
    (objs : List LNK_Obj) (main : LNK_StringHashTable LNK_SectionDefinition)
    (hwf : lnk_section_table_wf helpers main) (key : String) :
    hash_table_search_string_raw (lnk_reserve_section_contrib_chunks helpers objs main) key
      = match hash_table_search_string_raw main key with
        | none => none
        | some d =>
          if helpers.lnk_is_section_removed (helpers.coff_parse_section_name d.name).1 then none
          else some { cap := d.contribs_count,
                      sort_idx := (helpers.coff_parse_section_name d.name).2,
                      v := [], overflow := false } := by
  have hfold : ∀ (l : List LNK_SectionDefinition)
      (ht : LNK_StringHashTable LNK_SectionContribChunk),
      hash_table_search_string_raw
          (l.foldl (lnk_reserve_section_contrib_chunk helpers) ht) key
        = l.foldl (lnk_reserve_chunk_acc helpers key)
            (hash_table_search_string_raw ht key) := by
    intro l
    induction l with
    | nil => intro ht; rfl
    | cons d rest ih =>
      intro ht
      simp only [List.foldl_cons]
      rw [ih, lnk_reserve_section_contrib_chunk_search]
  have hfilter : ∀ (l : List LNK_SectionDefinition) (found : Option LNK_SectionContribChunk),
      l.foldl (lnk_reserve_chunk_acc helpers key) found
        = (l.filter
            (fun d => decide (helpers.lnk_make_name_with_flags d.name d.flags = key))).foldl
            (lnk_reserve_chunk_acc helpers key) found := by
    intro l
    induction l with
    | nil => intro found; rfl
    | cons d rest ih =>
      intro found
      by_cases hd : helpers.lnk_make_name_with_flags d.name d.flags = key
      · rw [List.filter_cons_of_pos (by simpa using hd)]
        simp only [List.foldl_cons]
        exact ih _
      · rw [List.filter_cons_of_neg (by simpa using hd)]
        simp only [List.foldl_cons]
        rw [ih]
        congr 1
        unfold lnk_reserve_chunk_acc
        rw [if_neg hd]
  unfold lnk_reserve_section_contrib_chunks
  rw [hfold, hfilter]
  have hperm := (lnk_section_definition_radsort_perm objs
    (values_from_hash_table_raw main)).filter
      (fun d => decide (helpers.lnk_make_name_with_flags d.name d.flags = key))
  rw [lnk_section_table_values_filter helpers main hwf key] at hperm
  cases hs : hash_table_search_string_raw main key with
  | none =>
    rw [hs] at hperm
    rw [List.Perm.eq_nil hperm]
    rfl
  | some d =>
    rw [hs] at hperm
    rw [List.perm_singleton.1 hperm]
    have hkey : helpers.lnk_make_name_with_flags d.name d.flags = key :=
      hwf.keyed (key, d) (hash_table_search_mem main key d hs)
    simp only [List.foldl_cons, List.foldl_nil, lnk_reserve_chunk_acc, hkey, if_true]
    by_cases hr : helpers.lnk_is_section_removed (helpers.coff_parse_section_name d.name).1
        = true
    · simp only [hr, if_true]
      rfl
    · simp only [hr, Bool.false_eq_true, if_false]
      rfl

/-- One section, seen through the key `key`: the chunk of the key gets the contribution of a
gathered section with the key. -/
theorem lnk_gather_section_contrib_search (helpers : LNK_SectionHelpers) (objs : List LNK_Obj)
    (st : LNK_GatherContribs) (sect : Nat × Nat) (key : String) :
    hash_table_search_string_raw (lnk_gather_section_contrib helpers objs st sect).contribs_ht
        key
      = lnk_gather_contrib_acc helpers objs key
          (hash_table_search_string_raw st.contribs_ht key) sect := by
  unfold lnk_gather_section_contrib lnk_gather_contrib_acc lnk_section_has_key
  have hhdr : (lnk_obj_from_ptr objs sect.1).section_table.getD sect.2
      { flags := 0, foff := 0, fsize := 0 } = lnk_obj_section_header objs sect := rfl
  simp only [hhdr]
  generalize lnk_obj_section_header objs sect = hdr
  by_cases hg : lnk_section_is_gathered hdr = true
  swap
  · have hg' : lnk_section_is_gathered hdr = false := by simpa using hg
    simp [hg']
  simp only [hg, if_true, Bool.true_and, decide_eq_true_eq]
  by_cases hk : lnk_section_name_with_flags helpers hdr = key
  · rw [if_pos hk]
    cases hs : hash_table_search_string_raw st.contribs_ht
        (lnk_section_name_with_flags helpers hdr) with
    | none =>
      simp only
      rw [← hk, hs]
      rfl
    | some c =>
      simp only
      rw [hash_table_search_update, if_pos hk, ← hk, hs]
  · rw [if_neg hk]
    cases hs : hash_table_search_string_raw st.contribs_ht
        (lnk_section_name_with_flags helpers hdr) with
    | none => rfl
    | some c =>
      simp only
      rw [hash_table_search_update, if_neg hk]

/-- The tasks run in an order gather the sections of the objects in that order. -/
theorem lnk_gather_contribs_tasks_eq_sections (helpers : LNK_SectionHelpers)
    (objs : List LNK_Obj) (order : List Nat) (st : LNK_GatherContribs) :
    order.foldl (lnk_gather_section_contribs_task helpers objs) st
      = (lnk_obj_sections objs order).foldl (lnk_gather_section_contrib helpers objs) st := by
  induction order generalizing st with
  | nil => rfl
  | cons o rest ih =>
    simp only [List.foldl_cons, lnk_obj_sections, List.flatMap_cons, List.foldl_append]
    rw [ih]
    congr 1
    unfold lnk_gather_section_contribs_task
    rw [List.foldl_map]

/-- The sections of a list, seen through the key `key`. -/
theorem lnk_gather_contribs_search (helpers : LNK_SectionHelpers) (objs : List LNK_Obj)
    (sects : List (Nat × Nat)) (st : LNK_GatherContribs) (key : String) :
    hash_table_search_string_raw
        (sects.foldl (lnk_gather_section_contrib helpers objs) st).contribs_ht key
      = (sects.filter (lnk_section_has_key helpers objs key)).foldl
          (lnk_gather_contrib_acc helpers objs key)
          (hash_table_search_string_raw st.contribs_ht key) := by
  induction sects generalizing st with
  | nil => rfl
  | cons s rest ih =>
    simp only [List.foldl_cons]
    rw [ih, lnk_gather_section_contrib_search]
    by_cases hs : lnk_section_has_key helpers objs key s = true
    · rw [List.filter_cons_of_pos hs]
      rfl
    · rw [List.filter_cons_of_neg hs]
      congr 1
      unfold lnk_gather_contrib_acc
      rw [if_neg hs]

/-- The pushes of the sections with the key into a chunk whose flag tells whether its capacity
is exceeded: the chunk keeps capacity and sort index, holds the contributions of before and
the sections in order, and its flag still tells whether the capacity is exceeded. -/
theorem lnk_gather_contrib_acc_chunk (helpers : LNK_SectionHelpers) (objs : List LNK_Obj)
    (key : String) (matching : List (Nat × Nat))
    (hall : ∀ s ∈ matching, lnk_section_has_key helpers objs key s = true)
    (chunk : LNK_SectionContribChunk)
    (hflag : chunk.overflow = decide (chunk.cap < chunk.v.length)) :
    matching.foldl (lnk_gather_contrib_acc helpers objs key) (some chunk)
      = some { cap := chunk.cap, sort_idx := chunk.sort_idx, v := chunk.v ++ matching,
               overflow := decide (chunk.cap < (chunk.v ++ matching).length) } := by
  induction matching generalizing chunk with
  | nil =>
    simp only [List.foldl_nil, List.append_nil]
    rw [← hflag]
  | cons s rest ih =>
    simp only [List.foldl_cons]
    have hs := hall s (List.mem_cons_self _ _)
    have hstep : lnk_gather_contrib_acc helpers objs key (some chunk) s
        = some (lnk_section_contrib_chunk_push_atomic s chunk) := by
      unfold lnk_gather_contrib_acc
      rw [if_pos hs]
      rfl
    rw [hstep, ih (fun t ht => hall t (List.mem_cons_of_mem _ ht))]
    · simp only [lnk_section_contrib_chunk_push_atomic, List.append_assoc,
        List.singleton_append]
    · simp only [lnk_section_contrib_chunk_push_atomic, hflag, List.length_append,
        List.length_singleton]
      by_cases h1 : chunk.cap < chunk.v.length
      · have h2 : chunk.cap ≤ chunk.v.length := by omega
        have h3 : chunk.cap < chunk.v.length + 1 := by omega
        simp [h1, h2, h3]
      · by_cases h2 : chunk.cap ≤ chunk.v.length
        · have h3 : chunk.cap < chunk.v.length + 1 := by omega
          simp [h1, h2, h3]
        · have h3 : ¬ chunk.cap < chunk.v.length + 1 := by omega
          simp [h1, h2, h3]

/-- Gathering a section keeps the keys that have a chunk, and assigns the section the null
contribution exactly when the section is not gathered or its key has no chunk. -/
theorem lnk_gather_section_contrib_sect_map (helpers : LNK_SectionHelpers)
    (objs : List LNK_Obj) (st : LNK_GatherContribs) (sect : Nat × Nat) :
    ∃ sc, (lnk_gather_section_contrib helpers objs st sect).sect_map
        = st.sect_map ++ [(sect, sc)]
      ∧ (sc = none ↔
          (lnk_section_is_gathered (lnk_obj_section_header objs sect) = false
            ∨ hash_table_search_string_raw st.contribs_ht
                (lnk_section_name_with_flags helpers (lnk_obj_section_header objs sect))
              = none)) := by
  unfold lnk_gather_section_contrib
  have hhdr : (lnk_obj_from_ptr objs sect.1).section_table.getD sect.2
      { flags := 0, foff := 0, fsize := 0 } = lnk_obj_section_header objs sect := rfl
  simp only [hhdr]
  generalize lnk_obj_section_header objs sect = hdr
  by_cases hg : lnk_section_is_gathered hdr = true
  swap
  · have hg' : lnk_section_is_gathered hdr = false := by simpa using hg
    refine ⟨none, by simp [hg'], ?_⟩
    simp [hg']
  simp only [hg, if_true]
  cases hs : hash_table_search_string_raw st.contribs_ht
      (lnk_section_name_with_flags helpers hdr) with
  | none =>
    refine ⟨none, rfl, ?_⟩
    simp
  | some c =>
    refine ⟨some (lnk_section_name_with_flags helpers hdr, c.v.length), rfl, ?_⟩
    simp

/-- The keys that have a chunk stay the same over the gathering of sections, every section
gathered is assigned once, in order, and the null contribution is assigned exactly to the
sections that are not gathered or whose key has no chunk. -/
theorem lnk_gather_contribs_sect_map (helpers : LNK_SectionHelpers) (objs : List LNK_Obj)
    (sects : List (Nat × Nat)) (st : LNK_GatherContribs)
    (reserved : LNK_StringHashTable LNK_SectionContribChunk)
    (hkeys : ∀ k, hash_table_search_string_raw st.contribs_ht k = none
      ↔ hash_table_search_string_raw reserved k = none)
    (hnull : ∀ entry ∈ st.sect_map, (entry.2 = none ↔
      (lnk_section_is_gathered (lnk_obj_section_header objs entry.1) = false
        ∨ hash_table_search_string_raw reserved
            (lnk_section_name_with_flags helpers (lnk_obj_section_header objs entry.1))
          = none))) :
    (sects.foldl (lnk_gather_section_contrib helpers objs) st).sect_map.map (fun e => e.1)
      = st.sect_map.map (fun e => e.1) ++ sects
    ∧ ∀ entry ∈ (sects.foldl (lnk_gather_section_contrib helpers objs) st).sect_map,
        (entry.2 = none ↔
          (lnk_section_is_gathered (lnk_obj_section_header objs entry.1) = false
            ∨ hash_table_search_string_raw reserved
                (lnk_section_name_with_flags helpers (lnk_obj_section_header objs entry.1))
              = none)) := by
  induction sects generalizing st with
  | nil => exact ⟨(List.append_nil _).symm, hnull⟩
  | cons s rest ih =>
    simp only [List.foldl_cons]
    obtain ⟨sc, hmap, hsc⟩ := lnk_gather_section_contrib_sect_map helpers objs st s
    have hkeys1 : ∀ k,
        hash_table_search_string_raw (lnk_gather_section_contrib helpers objs st s).contribs_ht
          k = none ↔ hash_table_search_string_raw reserved k = none := by
      intro k
      rw [lnk_gather_section_contrib_search, ← hkeys k]
      unfold lnk_gather_contrib_acc
      by_cases hk : lnk_section_has_key helpers objs k s = true
      · rw [if_pos hk]
        cases hash_table_search_string_raw st.contribs_ht k <;> simp
      · rw [if_neg hk]
    have hnull1 : ∀ entry ∈ (lnk_gather_section_contrib helpers objs st s).sect_map,
        (entry.2 = none ↔
          (lnk_section_is_gathered (lnk_obj_section_header objs entry.1) = false
            ∨ hash_table_search_string_raw reserved
                (lnk_section_name_with_flags helpers (lnk_obj_section_header objs entry.1))
              = none)) := by
      intro entry he
      rw [hmap] at he
      rcases List.mem_append.1 he with h | h
      · exact hnull entry h
      · rw [List.mem_singleton.1 h]
        simp only
        rw [hsc, hkeys]
    obtain ⟨h1, h2⟩ := ih _ hkeys1 hnull1
    refine ⟨?_, h2⟩
    rw [h1, hmap, List.map_append, List.append_assoc]
    rfl

/-- C34: let every object be gathered by exactly one worker, whichever and in whatever order,
and let the contribution tasks run in any order over all objects. For every key that received a
chunk, the capacity of the chunk is the `contribs_count` of the merged definition of the key;
after `lnk_gather_section_contribs_task` ran for all objects, the chunk holds exactly the
sections without `LnkRemove` and of a size above 0 with the key, whose number is the capacity,
and no push met a chunk without a free slot. Every section is assigned one entry of the
section map, and the entry is the null contribution exactly when the section carries
`LnkRemove` or has the size 0, or its key has no chunk. -/
theorem C34_section_contrib_chunks (helpers : LNK_SectionHelpers)
    (objs : List LNK_Obj) (schedule : List (List Nat)) (order : List Nat) (key : String)
    (chunk : LNK_SectionContribChunk)
    (hpart : schedule.flatten.Perm (List.range objs.length))
    (horder : order.Perm (List.range objs.length))
    (hchunk : hash_table_search_string_raw
      (lnk_reserve_section_contrib_chunks helpers objs
        (lnk_merge_section_definitions helpers objs
          (lnk_gather_section_definitions helpers objs schedule))) key = some chunk) :
    (∃ d, hash_table_search_string_raw
          (lnk_merge_section_definitions helpers objs
            (lnk_gather_section_definitions helpers objs schedule)) key = some d
        ∧ chunk.cap = d.contribs_count)
    ∧ (∃ filled,
        hash_table_search_string_raw
          (lnk_build_image_gather helpers objs schedule order).contribs_ht key = some filled
        ∧ filled.cap = chunk.cap
        ∧ filled.v.length = chunk.cap
        ∧ filled.overflow = false
        ∧ filled.v.Perm (lnk_sections_with_key helpers objs key (List.range objs.length)))
    ∧ (lnk_build_image_gather helpers objs schedule order).sect_map.map (fun e => e.1)
        = lnk_obj_sections objs order
    ∧ ∀ entry ∈ (lnk_build_image_gather helpers objs schedule order).sect_map,
        (entry.2 = none ↔
          (lnk_section_is_gathered (lnk_obj_section_header objs entry.1) = false
            ∨ hash_table_search_string_raw
                (lnk_reserve_section_contrib_chunks helpers objs
                  (lnk_merge_section_definitions helpers objs
                    (lnk_gather_section_definitions helpers objs schedule)))
                (lnk_section_name_with_flags helpers (lnk_obj_section_header objs entry.1))
              = none)) := by
  have hwf := lnk_merge_section_definitions_wf helpers objs schedule
  have hspec := lnk_merged_section_definitions_count helpers objs schedule key hpart
  have hres := lnk_reserve_section_contrib_chunks_search helpers objs _ hwf key
  rw [hchunk] at hres
  generalize hmain : lnk_merge_section_definitions helpers objs
    (lnk_gather_section_definitions helpers objs schedule) = main at hres hspec hchunk ⊢
  have hrun : lnk_build_image_gather helpers objs schedule order
      = (lnk_obj_sections objs order).foldl (lnk_gather_section_contrib helpers objs)
          { contribs_ht := lnk_reserve_section_contrib_chunks helpers objs main,
            sect_map := [] } := by
    unfold lnk_build_image_gather lnk_gather_section_contribs
    rw [hmain, lnk_gather_contribs_tasks_eq_sections]
  cases hd : hash_table_search_string_raw main key with
  | none =>
    rw [hd] at hres
    cases hres
  | some d =>
    rw [hd] at hres
    simp only at hres
    by_cases hr : helpers.lnk_is_section_removed (helpers.coff_parse_section_name d.name).1
        = true
    · rw [if_pos hr] at hres
      cases hres
    rw [if_neg hr] at hres
    have hc := Option.some.inj hres
    have hcap : chunk.cap = d.contribs_count := by rw [hc]
    have hv : chunk.v = [] := by rw [hc]
    have hov : chunk.overflow = false := by rw [hc]
    have hcount := hspec.2 d (by rw [hd])
    have hperm : (lnk_sections_with_key helpers objs key order).Perm
        (lnk_sections_with_key helpers objs key (List.range objs.length)) := by
      unfold lnk_sections_with_key lnk_obj_sections
      exact (horder.flatMap_right _).filter _
    refine ⟨⟨d, rfl, hcap⟩, ?_, ?_, ?_⟩
    · rw [hrun, lnk_gather_contribs_search]
      simp only
      rw [hchunk]
      have hall : ∀ s ∈ (lnk_obj_sections objs order).filter
          (lnk_section_has_key helpers objs key),
          lnk_section_has_key helpers objs key s = true :=
        fun s hs => (List.mem_filter.1 hs).2
      rw [lnk_gather_contrib_acc_chunk helpers objs key _ hall chunk (by rw [hov, hv]; simp)]
      have hlen : ((lnk_obj_sections objs order).filter
          (lnk_section_has_key helpers objs key)).length = chunk.cap := by
        rw [hcap, hcount]
        exact hperm.length_eq
      refine ⟨{ cap := chunk.cap, sort_idx := chunk.sort_idx,
                v := chunk.v ++ (lnk_obj_sections objs order).filter
                  (lnk_section_has_key helpers objs key),
                overflow := decide (chunk.cap < (chunk.v ++ (lnk_obj_sections objs order).filter
                  (lnk_section_has_key helpers objs key)).length) }, rfl, rfl, ?_, ?_, ?_⟩
      · simp only [hv, List.nil_append]
        exact hlen
      · simp only [hv, List.nil_append, hlen]
        simp
      · simp only [hv, List.nil_append]
        exact hperm
    · rw [hrun]
      have h := (lnk_gather_contribs_sect_map helpers objs (lnk_obj_sections objs order)
        { contribs_ht := lnk_reserve_section_contrib_chunks helpers objs main, sect_map := [] }
        (lnk_reserve_section_contrib_chunks helpers objs main) (fun k => Iff.rfl)
        (fun entry he => by cases he)).1
      simpa using h
    · rw [hrun]
      exact (lnk_gather_contribs_sect_map helpers objs (lnk_obj_sections objs order)
        { contribs_ht := lnk_reserve_section_contrib_chunks helpers objs main, sect_map := [] }
        (lnk_reserve_section_contrib_chunks helpers objs main) (fun k => Iff.rfl)
        (fun entry he => by cases he)).2

/-- Scenario of C34: the objects and the schedule of the scenario of C33, the contribution
tasks run for the objects 2, 0 and 1 in this order. The chunk of the key of `.text` with the
flags 0x20 has three slots and receives the three `.text` sections gathered; the `.text`
section of object 1 that carries `LnkRemove` and the empty `.data` section of object 2 get the
null contribution. -/
theorem C34_section_contrib_chunks_witness :
    (lnk_build_image_gather fixture_section_helpers fixture_gather_objs fixture_gather_schedule
        [2, 0, 1])
      = { contribs_ht :=
            [(".text#32", { cap := 3, sort_idx := "", v := [(2, 1), (0, 0), (1, 0)],
                            overflow := false }),
             (".data#64", { cap := 1, sort_idx := "", v := [(0, 1)], overflow := false })],
          sect_map :=
            [((2, 0), none), ((2, 1), some (".text#32", 0)),
             ((0, 0), some (".text#32", 1)), ((0, 1), some (".data#64", 0)),
             ((1, 0), some (".text#32", 2)), ((1, 1), none)] }
    ∧ ((∃ d, hash_table_search_string_raw
          (lnk_merge_section_definitions fixture_section_helpers fixture_gather_objs
            (lnk_gather_section_definitions fixture_section_helpers fixture_gather_objs
              fixture_gather_schedule)) ".text#32" = some d
        ∧ ({ cap := 3, sort_idx := "", v := [], overflow := false }
            : LNK_SectionContribChunk).cap = d.contribs_count)
    ∧ (∃ filled,
        hash_table_search_string_raw
          (lnk_build_image_gather fixture_section_helpers fixture_gather_objs
            fixture_gather_schedule [2, 0, 1]).contribs_ht ".text#32" = some filled
        ∧ filled.cap = ({ cap := 3, sort_idx := "", v := [], overflow := false }
            : LNK_SectionContribChunk).cap
        ∧ filled.v.length = ({ cap := 3, sort_idx := "", v := [], overflow := false }
            : LNK_SectionContribChunk).cap
        ∧ filled.overflow = false
        ∧ filled.v.Perm (lnk_sections_with_key fixture_section_helpers fixture_gather_objs
            ".text#32" (List.range fixture_gather_objs.length)))
    ∧ (lnk_build_image_gather fixture_section_helpers fixture_gather_objs
          fixture_gather_schedule [2, 0, 1]).sect_map.map (fun e => e.1)
        = lnk_obj_sections fixture_gather_objs [2, 0, 1]
    ∧ ∀ entry ∈ (lnk_build_image_gather fixture_section_helpers fixture_gather_objs
          fixture_gather_schedule [2, 0, 1]).sect_map,
        (entry.2 = none ↔
          (lnk_section_is_gathered (lnk_obj_section_header fixture_gather_objs entry.1) = false
            ∨ hash_table_search_string_raw
                (lnk_reserve_section_contrib_chunks fixture_section_helpers fixture_gather_objs
                  (lnk_merge_section_definitions fixture_section_helpers fixture_gather_objs
                    (lnk_gather_section_definitions fixture_section_helpers fixture_gather_objs
                      fixture_gather_schedule)))
                (lnk_section_name_with_flags fixture_section_helpers
                  (lnk_obj_section_header fixture_gather_objs entry.1))
              = none))) :=
  ⟨by decide,
   C34_section_contrib_chunks fixture_section_helpers fixture_gather_objs
     fixture_gather_schedule [2, 0, 1] ".text#32"
     { cap := 3, sort_idx := "", v := [], overflow := false } (by decide) (by decide)
     (by decide)⟩

/-! ## Image header: sizes -/

/-- Rounding up by adding the pad: for a positive alignment and without 64-bit wrap, `x` plus
`AlignPadPow2 x b` is `AlignPow2 x b`. -/
theorem AlignPow2_eq_add_pad (x b : Nat) (hb : 0 < b) (hfit : x + b ≤ 2 ^ 64) :
    AlignPow2 x b = x + AlignPadPow2 x b := by
  unfold AlignPow2 AlignPadPow2
  rw [Nat.mod_eq_of_lt (by omega)]
  have hx := Nat.div_add_mod x b
  have hr := Nat.mod_lt x hb
  generalize x / b = q at hx
  generalize x % b = r at hx hr
  subst hx
  by_cases h0 : r = 0
  · subst h0
    have h1 : (b * q + 0 + (b - 1)) / b = q := by
      rw [Nat.add_zero, Nat.mul_add_div hb, Nat.div_eq_of_lt (by omega)]
      rfl
    rw [h1, Nat.sub_zero, Nat.mod_self]
    simp [Nat.mul_comm]
  · have h1 : (b * q + r + (b - 1)) / b = q + 1 := by
      have : b * q + r + (b - 1) = b * (q + 1) + (r - 1) := by
        rw [Nat.mul_add]
        omega
      rw [this, Nat.mul_add_div hb, Nat.div_eq_of_lt (by omega)]
    rw [h1, Nat.mod_eq_of_lt (by omega : b - r < b), Nat.add_mul, Nat.mul_comm]
    omega

/-- Every section of the image gets a header in the section table: the header tested for
`LnkRemove` is zeroed memory. -/
theorem lnk_win32_section_table_count_eq (sects : List LNK_Section) :
    lnk_win32_section_table_count sects = sects.length := by
  unfold lnk_win32_section_table_count
  have hz : ∀ n i : Nat,
      ((List.replicate n ({ flags := 0, foff := 0, fsize := 0 } : COFF_SectionHeader)).getD i
        { flags := 0, foff := 0, fsize := 0 }).flags = 0 := by
    intro n i
    by_cases hi : i < n
    · rw [List.getD_eq_getElem _ _ (by simpa using hi)]
      simp
    · rw [List.getD_eq_default _ _ (by simpa using hi)]
  have hfold : ∀ (l : List Nat) (c : Nat),
      l.foldl
        (fun coff_section_table_count sect_idx =>
          if ((List.replicate sects.length
                ({ flags := 0, foff := 0, fsize := 0 } : COFF_SectionHeader)).getD sect_idx
              { flags := 0, foff := 0, fsize := 0 }).flags &&& COFF_SectionFlag_LnkRemove ≠ 0
          then coff_section_table_count else coff_section_table_count + 1) c
        = c + l.length := by
    intro l
    induction l with
    | nil => intro c; rfl
    | cons i rest ih =>
      intro c
      rw [List.foldl_cons, hz, if_neg (by simp), ih]
      simp only [List.length_cons]
      omega
  simp only
  rw [hfold]
  simp

/-- C35: for every section count, every number of data directories and every file alignment
that is a power of two, on a machine with the PE32+ optional header and as long as the sizes
fit 64 bits: the total size of the list `lnk_build_win32_header` returns is
`lnk_compute_win32_image_header_size(config, section count)` rounded up to `config.file_align`.
So for the argument `lnk_build_image` passes the final assertion holds, and `NotImplemented` is
not met. -/
theorem C35_win32_header_total_size (sizes : PE_HeaderSizes)
    (pe_has_plus_header : COFF_MachineType → Bool) (config : LNK_Config)
    (sects : List LNK_Section) (k : Nat)
    (hplus : pe_has_plus_header config.machine = true)
    (halign : config.file_align = 2 ^ k)
    (hfit : sizes.sizeof_PE_DosHeader + sizes.pe_dos_program_size + 4
      + sizes.sizeof_COFF_FileHeader + sizes.sizeof_PE_OptionalHeader32Plus
      + sizes.sizeof_PE_DataDirectory * config.data_dir_count
      + sizes.sizeof_COFF_SectionHeader * sects.length + config.file_align ≤ 2 ^ 64) :
    (lnk_build_image_win32_header sizes pe_has_plus_header config sects).total_size
      = AlignPow2
          (lnk_compute_win32_image_header_size sizes pe_has_plus_header config sects.length)
          config.file_align
    ∧ (lnk_build_image_win32_header sizes pe_has_plus_header config sects).assert_failed = false
    ∧ (lnk_build_image_win32_header sizes pe_has_plus_header config sects).not_implemented
        = false := by
  have hb : 0 < config.file_align := by
    rw [halign]
    exact Nat.two_pow_pos k
  have hcompute :
      lnk_compute_win32_image_header_size sizes pe_has_plus_header config sects.length
        = sizes.sizeof_PE_DosHeader + sizes.pe_dos_program_size + 4
          + sizes.sizeof_COFF_FileHeader + sizes.sizeof_PE_OptionalHeader32Plus
          + sizes.sizeof_PE_DataDirectory * config.data_dir_count
          + sizes.sizeof_COFF_SectionHeader * sects.length := by
    unfold lnk_compute_win32_image_header_size
    simp only [hplus, if_true]
    generalize sizes.sizeof_PE_DataDirectory * config.data_dir_count = dd at hfit ⊢
    generalize sizes.sizeof_COFF_SectionHeader * sects.length = sh at hfit ⊢
    omega
  have hsum : (lnk_build_image_win32_header sizes pe_has_plus_header config sects).nodes.sum
      = sizes.sizeof_PE_DosHeader + sizes.pe_dos_program_size + 4
          + sizes.sizeof_COFF_FileHeader + sizes.sizeof_PE_OptionalHeader32Plus
          + sizes.sizeof_PE_DataDirectory * config.data_dir_count
          + sizes.sizeof_COFF_SectionHeader * sects.length
        + AlignPadPow2 (sizes.sizeof_PE_DosHeader + sizes.pe_dos_program_size + 4
          + sizes.sizeof_COFF_FileHeader + sizes.sizeof_PE_OptionalHeader32Plus
          + sizes.sizeof_PE_DataDirectory * config.data_dir_count
          + sizes.sizeof_COFF_SectionHeader * sects.length) config.file_align := by
    unfold lnk_build_image_win32_header lnk_build_win32_header
    simp only [hplus, if_true, lnk_win32_section_table_count_eq, List.cons_append,
      List.nil_append, List.sum_cons, List.sum_nil]
    have hin : (sizes.sizeof_PE_DosHeader + (sizes.pe_dos_program_size + (4
        + (sizes.sizeof_COFF_FileHeader + (sizes.sizeof_PE_OptionalHeader32Plus
        + (sizes.sizeof_PE_DataDirectory * config.data_dir_count
        + (sizes.sizeof_COFF_SectionHeader * sects.length + 0))))))) % 2 ^ 64
        = sizes.sizeof_PE_DosHeader + sizes.pe_dos_program_size + 4
          + sizes.sizeof_COFF_FileHeader + sizes.sizeof_PE_OptionalHeader32Plus
          + sizes.sizeof_PE_DataDirectory * config.data_dir_count
          + sizes.sizeof_COFF_SectionHeader * sects.length := by
      generalize sizes.sizeof_PE_DataDirectory * config.data_dir_count = dd at hfit ⊢
      generalize sizes.sizeof_COFF_SectionHeader * sects.length = sh at hfit ⊢
      omega
    rw [hin]
    generalize AlignPadPow2 _ _ = pad
    omega
  have hpad := AlignPow2_eq_add_pad (sizes.sizeof_PE_DosHeader + sizes.pe_dos_program_size + 4
      + sizes.sizeof_COFF_FileHeader + sizes.sizeof_PE_OptionalHeader32Plus
      + sizes.sizeof_PE_DataDirectory * config.data_dir_count
      + sizes.sizeof_COFF_SectionHeader * sects.length) config.file_align hb hfit
  have hpadlt : AlignPadPow2 (sizes.sizeof_PE_DosHeader + sizes.pe_dos_program_size + 4
      + sizes.sizeof_COFF_FileHeader + sizes.sizeof_PE_OptionalHeader32Plus
      + sizes.sizeof_PE_DataDirectory * config.data_dir_count
      + sizes.sizeof_COFF_SectionHeader * sects.length) config.file_align
      < config.file_align := Nat.mod_lt _ hb
  have htotal : (lnk_build_image_win32_header sizes pe_has_plus_header config sects).total_size
      = AlignPow2
          (lnk_compute_win32_image_header_size sizes pe_has_plus_header config sects.length)
          config.file_align := by
    unfold LNK_Win32Header.total_size
    rw [hsum, hcompute, hpad, Nat.mod_eq_of_lt (by omega)]
  refine ⟨htotal, ?_, ?_⟩
  · have : (lnk_build_image_win32_header sizes pe_has_plus_header config sects).assert_failed
        = decide ((lnk_build_image_win32_header sizes pe_has_plus_header config sects).total_size
            ≠ AlignPow2 (lnk_compute_win32_image_header_size sizes pe_has_plus_header config
                sects.length) config.file_align) := rfl
    rw [this, htotal]
    simp
  · simp [lnk_build_image_win32_header, lnk_build_win32_header, hplus]

/-- Scenario of C35: X64 image with 16 data directories, one section and the file alignment
0x200, with the structure sizes of the published PE format: the header list has 0x200 bytes. -/
theorem C35_win32_header_total_size_witness :
    (lnk_build_image_win32_header fixture_pe_header_sizes fixture_pe_has_plus_header
        (fixture_image_config 0x200) fixture_image_sects).total_size = 0x200
    ∧ (lnk_build_image_win32_header fixture_pe_header_sizes fixture_pe_has_plus_header
        (fixture_image_config 0x200) fixture_image_sects).total_size
      = AlignPow2
          (lnk_compute_win32_image_header_size fixture_pe_header_sizes
            fixture_pe_has_plus_header (fixture_image_config 0x200) fixture_image_sects.length)
          (fixture_image_config 0x200).file_align
    ∧ (lnk_build_image_win32_header fixture_pe_header_sizes fixture_pe_has_plus_header
        (fixture_image_config 0x200) fixture_image_sects).assert_failed = false
    ∧ (lnk_build_image_win32_header fixture_pe_header_sizes fixture_pe_has_plus_header
        (fixture_image_config 0x200) fixture_image_sects).not_implemented = false :=
  ⟨by decide,
   C35_win32_header_total_size fixture_pe_header_sizes fixture_pe_has_plus_header
     (fixture_image_config 0x200) fixture_image_sects 9 (by decide) (by decide)
     (by norm_num [fixture_pe_header_sizes, fixture_image_config, fixture_image_sects])⟩

/-- C36, the code where the claim fails. On a machine with the PE32+ optional header, when the
sizes of the DOS header, the DOS program, the COFF file header, the optional header, the data
directories and the section table add up to a multiple of the file alignment: the field
`sizeof_headers` is that sum, which leaves out the four bytes of the PE signature, and the list
returned is at least four bytes longer. -/
theorem C36_sizeof_headers_omits_signature (sizes : PE_HeaderSizes)
    (pe_has_plus_header : COFF_MachineType → Bool) (config : LNK_Config)
    (sects : List LNK_Section) (expected_image_header_size : Nat)
    (hplus : pe_has_plus_header config.machine = true)
    (hb : 0 < config.file_align)
    (hmultiple : (sizes.sizeof_PE_DosHeader + sizes.pe_dos_program_size
      + sizes.sizeof_COFF_FileHeader + sizes.sizeof_PE_OptionalHeader32Plus
      + sizes.sizeof_PE_DataDirectory * config.data_dir_count
      + sizes.sizeof_COFF_SectionHeader * sects.length) % config.file_align = 0)
    (hfit : sizes.sizeof_PE_DosHeader + sizes.pe_dos_program_size + 4
      + sizes.sizeof_COFF_FileHeader + sizes.sizeof_PE_OptionalHeader32Plus
      + sizes.sizeof_PE_DataDirectory * config.data_dir_count
      + sizes.sizeof_COFF_SectionHeader * sects.length + config.file_align < 2 ^ 32) :
    (lnk_build_win32_header sizes pe_has_plus_header config sects
        expected_image_header_size).sizeof_headers
      = some (sizes.sizeof_PE_DosHeader + sizes.pe_dos_program_size
          + sizes.sizeof_COFF_FileHeader + sizes.sizeof_PE_OptionalHeader32Plus
          + sizes.sizeof_PE_DataDirectory * config.data_dir_count
          + sizes.sizeof_COFF_SectionHeader * sects.length)
    ∧ sizes.sizeof_PE_DosHeader + sizes.pe_dos_program_size
          + sizes.sizeof_COFF_FileHeader + sizes.sizeof_PE_OptionalHeader32Plus
          + sizes.sizeof_PE_DataDirectory * config.data_dir_count
          + sizes.sizeof_COFF_SectionHeader * sects.length + 4
        ≤ (lnk_build_win32_header sizes pe_has_plus_header config sects
            expected_image_header_size).total_size := by
  constructor
  · unfold lnk_build_win32_header
    simp only [hplus, if_true]
    have hin : ((((((0 + (sizes.sizeof_PE_DosHeader + sizes.pe_dos_program_size) % 2 ^ 32)
        % 2 ^ 64 + sizes.sizeof_COFF_FileHeader) % 2 ^ 64
        + sizes.sizeof_PE_OptionalHeader32Plus) % 2 ^ 64
        + sizes.sizeof_PE_DataDirectory * config.data_dir_count) % 2 ^ 64
        + sizes.sizeof_COFF_SectionHeader * sects.length) % 2 ^ 64)
        = sizes.sizeof_PE_DosHeader + sizes.pe_dos_program_size
          + sizes.sizeof_COFF_FileHeader + sizes.sizeof_PE_OptionalHeader32Plus
          + sizes.sizeof_PE_DataDirectory * config.data_dir_count
          + sizes.sizeof_COFF_SectionHeader * sects.length := by
      generalize sizes.sizeof_PE_DataDirectory * config.data_dir_count = dd at hfit ⊢
      generalize sizes.sizeof_COFF_SectionHeader * sects.length = sh at hfit ⊢
      omega
    rw [hin]
    have hpad := AlignPow2_eq_add_pad (sizes.sizeof_PE_DosHeader + sizes.pe_dos_program_size
          + sizes.sizeof_COFF_FileHeader + sizes.sizeof_PE_OptionalHeader32Plus
          + sizes.sizeof_PE_DataDirectory * config.data_dir_count
          + sizes.sizeof_COFF_SectionHeader * sects.length) config.file_align hb (by omega)
    have hzero : AlignPadPow2 (sizes.sizeof_PE_DosHeader + sizes.pe_dos_program_size
          + sizes.sizeof_COFF_FileHeader + sizes.sizeof_PE_OptionalHeader32Plus
          + sizes.sizeof_PE_DataDirectory * config.data_dir_count
          + sizes.sizeof_COFF_SectionHeader * sects.length) config.file_align = 0 := by
      unfold AlignPadPow2
      rw [hmultiple, Nat.sub_zero, Nat.mod_self]
    rw [hpad, hzero, Nat.add_zero, Nat.mod_eq_of_lt (by omega)]
  · unfold LNK_Win32Header.total_size lnk_build_win32_header
    simp only [hplus, if_true, lnk_win32_section_table_count_eq, List.cons_append,
      List.nil_append, List.sum_cons, List.sum_nil]
    have hpadlt : ∀ x, AlignPadPow2 x config.file_align < config.file_align :=
      fun x => Nat.mod_lt _ hb
    generalize hp : AlignPadPow2 _ config.file_align = pad
    have hlt : pad < config.file_align := hp ▸ hpadlt _
    generalize sizes.sizeof_PE_DataDirectory * config.data_dir_count = dd at hfit ⊢
    generalize sizes.sizeof_COFF_SectionHeader * sects.length = sh at hfit ⊢
    omega

/-- Scenario of C36: X64 image with 16 data directories, one section and the file alignment 4,
with the structure sizes of the published PE format. The field `sizeof_headers` is 428 and the
header list has 432 bytes. -/
theorem C36_sizeof_headers_omits_signature_witness :
    (lnk_build_image_win32_header fixture_pe_header_sizes fixture_pe_has_plus_header
        (fixture_image_config 4) fixture_image_sects).sizeof_headers = some 428
    ∧ (lnk_build_image_win32_header fixture_pe_header_sizes fixture_pe_has_plus_header
        (fixture_image_config 4) fixture_image_sects).total_size = 432
    ∧ (lnk_build_win32_header fixture_pe_header_sizes fixture_pe_has_plus_header
        (fixture_image_config 4) fixture_image_sects 432).sizeof_headers
      = some (fixture_pe_header_sizes.sizeof_PE_DosHeader
          + fixture_pe_header_sizes.pe_dos_program_size
          + fixture_pe_header_sizes.sizeof_COFF_FileHeader
          + fixture_pe_header_sizes.sizeof_PE_OptionalHeader32Plus
          + fixture_pe_header_sizes.sizeof_PE_DataDirectory
            * (fixture_image_config 4).data_dir_count
          + fixture_pe_header_sizes.sizeof_COFF_SectionHeader * fixture_image_sects.length)
    ∧ fixture_pe_header_sizes.sizeof_PE_DosHeader
          + fixture_pe_header_sizes.pe_dos_program_size
          + fixture_pe_header_sizes.sizeof_COFF_FileHeader
          + fixture_pe_header_sizes.sizeof_PE_OptionalHeader32Plus
          + fixture_pe_header_sizes.sizeof_PE_DataDirectory
            * (fixture_image_config 4).data_dir_count
          + fixture_pe_header_sizes.sizeof_COFF_SectionHeader * fixture_image_sects.length + 4
        ≤ (lnk_build_win32_header fixture_pe_header_sizes fixture_pe_has_plus_header
            (fixture_image_config 4) fixture_image_sects 432).total_size :=
  ⟨by decide, by decide,
   C36_sizeof_headers_omits_signature fixture_pe_header_sizes fixture_pe_has_plus_header
     (fixture_image_config 4) fixture_image_sects 432 (by decide) (by decide) (by decide)
     (by norm_num [fixture_pe_header_sizes, fixture_image_config, fixture_image_sects])⟩

/-! ## Link loop: the lookup states meet empty input lists -/

/-- The scheduling code queues a lookup state only when the obj and import input lists are
empty. -/
theorem lnk_schedule_next_state_lookup (v : LNK_LinkLoop) (s : LNK_LinkState)
    (hdrained : v.state_list = [])
    (hs : s ∈ (lnk_schedule_next_state v).1.state_list)
    (hl : s = .LookupUndef ∨ s = .LookupWeak) :
    (lnk_schedule_next_state v).1.state_list = [s]
    ∧ (lnk_schedule_next_state v).1.inputs.input_obj_list = 0
    ∧ (lnk_schedule_next_state v).1.inputs.input_import_list = 0 := by
  rw [lnk_schedule_next_state_eq_spec] at hs ⊢
  have hinputs : ∀ a, (∀ t, a ≠ .schedule t) ∨ (lnk_schedule_apply v a).1.inputs = v.inputs := by
    intro a
    cases a with
    | schedule t => right; cases t <;> rfl
    | drop_unresolved_weak => left; intro t ht; cases ht
    | finish => left; intro t ht; cases ht
  have hqueue : ∀ a, (lnk_schedule_apply v a).1.state_list
      = match a with
        | .schedule t => [t]
        | _ => [] := by
    intro a
    cases a with
    | schedule t => cases t <;> simp [lnk_schedule_apply, state_list_push, hdrained]
    | drop_unresolved_weak => simp [lnk_schedule_apply, hdrained]
    | finish => simp [lnk_schedule_apply, hdrained]
  have hspec : lnk_schedule_spec v = .schedule s →
      v.inputs.input_obj_list = 0 ∧ v.inputs.input_import_list = 0 := by
    unfold lnk_schedule_spec lnk_schedule_order
    by_cases h1 : v.inputs.last_disallow_lib = true
    · rcases hl with rfl | rfl <;> simp [h1]
    by_cases h2 : v.inputs.input_import_list = 0
    swap
    · rcases hl with rfl | rfl <;> simp [h1, h2]
    by_cases h3 : v.inputs.last_include_symbol = true
    · rcases hl with rfl | rfl <;> simp [h1, h2, h3]
    by_cases h4 : v.inputs.last_alt_name = true
    · rcases hl with rfl | rfl <;> simp [h1, h2, h3, h4]
    by_cases h5 : v.inputs.input_obj_list = 0
    swap
    · rcases hl with rfl | rfl <;> simp [h1, h2, h3, h4, h5]
    intro _
    exact ⟨h5, h2⟩
  rw [hqueue] at hs ⊢
  generalize hact : lnk_schedule_spec v = a at hs hspec ⊢
  cases a with
  | schedule t =>
    simp only [List.mem_singleton] at hs
    subst hs
    refine ⟨rfl, ?_⟩
    rcases hinputs (.schedule s) with h | h
    · exact absurd rfl (h s)
    · rw [h]
      exact hspec rfl
  | drop_unresolved_weak => simp at hs
  | finish => simp at hs

/-- In the trace of the queued states, a state that is queued alone meets the inputs the round
starts with. -/
theorem lnk_run_queued_trace_singleton
    (run_state : LNK_LinkState → LNK_LinkInputs → LNK_LinkInputs) (inputs : LNK_LinkInputs)
    (s : LNK_LinkState) :
    lnk_run_queued_trace run_state inputs [s] = [(s, inputs)] := rfl

/-- States of the trace of the queued states are states of the queue. -/
theorem lnk_run_queued_trace_mem
    (run_state : LNK_LinkState → LNK_LinkInputs → LNK_LinkInputs)
    (queue : List LNK_LinkState) (inputs : LNK_LinkInputs)
    (e : LNK_LinkState × LNK_LinkInputs)
    (he : e ∈ lnk_run_queued_trace run_state inputs queue) : e.1 ∈ queue := by
  induction queue generalizing inputs with
  | nil => cases he
  | cons s rest ih =>
    rcases List.mem_cons.1 he with h | h
    · rw [h]
      exact List.mem_cons_self _ _
    · exact List.mem_cons_of_mem _ (ih _ h)

/-- Invariant of the loop "Run states" for the lookup states: a lookup state that is queued is
queued alone, and the obj and import input lists are empty. -/
def lnk_lookup_queued_alone (v : LNK_LinkLoop) : Prop :=
  ∀ s, s ∈ v.state_list → (s = .LookupUndef ∨ s = .LookupWeak) →
    v.state_list = [s] ∧ v.inputs.input_obj_list = 0 ∧ v.inputs.input_import_list = 0

/-- From variables that satisfy the invariant, every lookup state of the trace meets empty obj
and import input lists. -/
theorem lnk_run_states_trace_lookup
    (run_state : LNK_LinkState → LNK_LinkInputs → LNK_LinkInputs) (fuel : Nat)
    (v : LNK_LinkLoop) (hv : lnk_lookup_queued_alone v)
    (e : LNK_LinkState × LNK_LinkInputs)
    (he : e ∈ lnk_run_states_trace run_state fuel v)
    (hl : e.1 = .LookupUndef ∨ e.1 = .LookupWeak) :
    e.2.input_obj_list = 0 ∧ e.2.input_import_list = 0 := by
  induction fuel generalizing v with
  | zero => cases he
  | succ fuel ih =>
    have hran : e ∈ lnk_run_queued_trace run_state v.inputs v.state_list →
        e.2.input_obj_list = 0 ∧ e.2.input_import_list = 0 := by
      intro h
      have hmem := lnk_run_queued_trace_mem run_state _ _ e h
      obtain ⟨hq, ho, hi⟩ := hv e.1 hmem hl
      rw [hq, lnk_run_queued_trace_singleton] at h
      rw [List.mem_singleton.1 h]
      exact ⟨ho, hi⟩
    have hnext : lnk_lookup_queued_alone
        (lnk_schedule_next_state (lnk_run_queued_states run_state v)).1 := by
      intro s hs hls
      exact lnk_schedule_next_state_lookup _ s rfl hs hls
    unfold lnk_run_states_trace at he
    simp only at he
    by_cases hc : (lnk_schedule_next_state (lnk_run_queued_states run_state v)).2 = true
    · rw [if_pos hc] at he
      rcases List.mem_append.1 he with h | h
      · exact hran h
      · exact ih _ hnext h
    · rw [if_neg hc] at he
      exact hran he

/-- The variables the loop starts with queue no lookup state. -/
theorem lnk_link_loop_init_lookup (inputs : LNK_LinkInputs) (delay_load_dll_count : Nat)
    (guard_enabled : Bool) :
    lnk_lookup_queued_alone (lnk_link_loop_init inputs delay_load_dll_count guard_enabled) := by
  intro s hs hl
  exfalso
  unfold lnk_link_loop_init at hs
  by_cases hd : delay_load_dll_count ≠ 0 <;> cases guard_enabled <;>
    simp [state_list_push, hd] at hs <;>
    rcases hl with rfl | rfl <;> simp at hs

/-- C37: in the driver of `lnk_build_link_context`, started from the queue of the block "Init
state machine" with any inputs, and whatever the code of the states does to the inputs and
lists, every run of `State_LookupUndef` and of `State_LookupWeak` starts with an empty
`input_obj_list` and an empty `input_import_list`. So the two assignments of the finder's
results replace empty lists. -/
theorem C37_lookup_meets_empty_inputs
    (run_state : LNK_LinkState → LNK_LinkInputs → LNK_LinkInputs) (fuel : Nat)
    (inputs : LNK_LinkInputs) (delay_load_dll_count : Nat) (guard_enabled : Bool)
    (s : LNK_LinkState) (met : LNK_LinkInputs) :
    (s, met) ∈ lnk_run_states_trace run_state fuel
        (lnk_link_loop_init inputs delay_load_dll_count guard_enabled) →
    (s = .LookupUndef ∨ s = .LookupWeak) →
    met.input_obj_list = 0 ∧ met.input_import_list = 0 := by
  intro he hl
  exact lnk_run_states_trace_lookup run_state fuel _
    (lnk_link_loop_init_lookup inputs delay_load_dll_count guard_enabled) (s, met) he hl

/-- Scenario of C37: two object inputs and one library input, states that consume what they
work on; the object input leaves two undefined symbols to look up. `State_LookupUndef` runs in
the second round and meets empty obj and import input lists. -/
theorem C37_lookup_meets_empty_inputs_witness :
    (LNK_LinkState.LookupUndef, fixture_lookup_undef_inputs)
      ∈ lnk_run_states_trace fixture_run_state 8
          (lnk_link_loop_init fixture_link_loop.inputs 0 false)
    ∧ fixture_lookup_undef_inputs.input_obj_list = 0
    ∧ fixture_lookup_undef_inputs.input_import_list = 0 :=
  ⟨by decide,
   C37_lookup_meets_empty_inputs fixture_run_state 8 fixture_link_loop.inputs 0 false
     .LookupUndef fixture_lookup_undef_inputs (by decide) (Or.inl rfl)⟩

/-! ## Relocation patcher: a site that crosses the end of the section -/

/-- C38, the code at the failing input. An X64 object whose section 1 has 16 bytes at file
offset 0 carries an ADDR64 relocation with `apply_off` 12 against a Regular symbol at virtual
offset 0x1004, image base 0x140000000, in an image of 32 bytes. The width 8 is not above the
size 16 of the section, the only test the patcher makes, and 12 + 8 is above 16. The eight
bytes of the value 0x140001004 are copied to the offsets 12 to 19: the byte at offset 16, which
lies behind the section, is changed from 0 to 1, and no diagnostic is recorded. -/
theorem C38_write_crosses_section_end :
    lnk_reloc_section_window { flags := 0, foff := 0, fsize := 16, voff := 0x1000 }
        (List.replicate 32 0) = (0, 16)
    ∧ lnk_obj_reloc_patcher fixture_pick_reloc_value ⟨0x140000000, [0, 0x1000]⟩
        [fixture_reloc_obj 0x1000 false [⟨12, 0, COFF_Reloc_X64_Addr64⟩]] 0
        (List.replicate 32 0) []
      = { image_data := [0, 0, 0, 0, 0, 0, 0, 0, 0, 0, 0, 0, 0x04, 0x10, 0x00, 0x40,
                         0x01, 0, 0, 0, 0, 0, 0, 0, 0, 0, 0, 0, 0, 0, 0, 0],
          obj_data := List.replicate 16 0,
          errors := [] } := by
  refine ⟨by decide, by decide⟩

/-! ## Resource tree: the names appended for named entries -/

/-- C39, the code at the failing input. The root directory holds the named type `MYTYPE`, a
directory that holds the named resource `MYNAME`. The entry of `MYNAME` (the only entry of the
array 3) gets the name offset `0x80000000 | 50`, and the string appended to `.rsrc$01` at the
offset 50 is the resource string of `MYTYPE`, the identifier of the directory that holds the
entry, not that of `MYNAME`. In the same way the entry of `MYTYPE` (array 1) gets the offset
24, where the resource string of the empty string, read from the zeroed identifier of the root
wrapper, was appended. The resource string of `MYNAME` is appended nowhere. -/
theorem C39_parent_name_appended :
    (lnk_serialize_pe_resource_tree fixture_resource_layout fixture_resource_string
        fixture_str8_is_before 20 fixture_resource_tree []).map
      (fun r => (r.rsrc1, r.entry_arrays))
      = some
        ([.dir_header 1 0, .entries 1 1, .entries 2 0,
          .res_name (fixture_resource_string ""),
          .dir_header 1 0, .entries 3 1, .entries 4 0,
          .res_name (fixture_resource_string "MYTYPE"),
          .data_entry 4],
         [[{ name := 0, data_entry_offset := 0x80000000 }],
          [{ name := 0x80000000 ||| 24, data_entry_offset := 0x80000000 ||| 26 }],
          [],
          [{ name := 0x80000000 ||| 50, data_entry_offset := 64 }],
          []])
    ∧ lnk_rsrc_node_at fixture_resource_layout
        [.dir_header 1 0, .entries 1 1, .entries 2 0,
          .res_name (fixture_resource_string ""),
          .dir_header 1 0, .entries 3 1, .entries 4 0,
          .res_name (fixture_resource_string "MYTYPE"),
          .data_entry 4] 50
      = some (.res_name (fixture_resource_string "MYTYPE"))
    ∧ lnk_rsrc_node_at fixture_resource_layout
        [.dir_header 1 0, .entries 1 1, .entries 2 0,
          .res_name (fixture_resource_string ""),
          .dir_header 1 0, .entries 3 1, .entries 4 0,
          .res_name (fixture_resource_string "MYTYPE"),
          .data_entry 4] 24
      = some (.res_name (fixture_resource_string ""))
    ∧ fixture_resource_string "MYTYPE" ≠ fixture_resource_string "MYNAME"
    ∧ fixture_resource_string "" ≠ fixture_resource_string "MYTYPE" := by
  refine ⟨by decide, by decide, by decide, by decide, by decide⟩

/-! ## Nearest section: the binary search -/

